import Mathlib

/-! # MetroSVG: value parsers, path data iterator and renderer

A shallow embedding of the MetroSVG sources (`MetroSVG/Internal/*.cc`, `*.h`).

Conventions of the embedding:

* A C++ function `bool F(StringPiece *s, T *out)` becomes a Lean function that
  takes the cursor and the current contents of `out` and returns the boolean
  result together with the cursor and the contents of `out` after the call.
* `CGFloat` values are exact rationals: the numbers of the floating point
  type, with exact arithmetic.  Functions of libm and CoreGraphics and the
  constants of headers that are not part of the sources are fields of
  `Platform`.  Where the sources test for an overflow of the floating point
  type (`isinf` in ConsumeFloat), the computation is done on `FloatValue`, which
  has the infinities and NaN next to the numbers.  A NaN that is stored in a
  `CGFloat` variable is kept as the value `Platform.nan`.  The comparisons of
  ParseEllipticalArcCommand and ProcessRectElement, on values that come from
  ConsumeFloat, are false on it (`Platform.isnan`); elsewhere the statements
  take their operands as numbers.
* `int` values are integers of 32 bits in two's complement: an operation that
  overflows wraps around (`wrapInt`).
* Where the renderer reads through a pointer that may be null, or calls
  `back()` on a vector that may be empty, the function returns an `Option`
  and `none` stands for the undefined behaviour.
-/

namespace MetroSVG

/-! ## Basic types (BasicTypes.h, CoreGraphics) -/

/-- CGFloat: exact rational arithmetic stands for the floating point type. -/
abbrev CGFloat := ℚ

/-- A value of a floating point type where the sources reckon with an
overflow: a number, an infinity with its sign, or NaN. -/
inductive FloatValue where
  | number (value : CGFloat)
  | infinity (negative : Bool)
  | nan
  deriving DecidableEq

/-- CGPoint of CoreGraphics. -/
structure CGPoint where
  x : CGFloat
  y : CGFloat
  deriving DecidableEq

/-- CGRect of CoreGraphics: origin and size. -/
structure CGRect where
  x : CGFloat
  y : CGFloat
  width : CGFloat
  height : CGFloat
  deriving DecidableEq

/-- CGAffineTransform of CoreGraphics: the matrix [a b 0; c d 0; tx ty 1]. -/
structure CGAffineTransform where
  a : CGFloat
  b : CGFloat
  c : CGFloat
  d : CGFloat
  tx : CGFloat
  ty : CGFloat
  deriving DecidableEq

/-- SvgStandardColorDefinition (SVGStandardColor.h): 8-bit components. -/
structure SvgStandardColorDefinition where
  red : Nat
  green : Nat
  blue : Nat
  alpha : Nat
  deriving DecidableEq

/-- CGLineCap of CoreGraphics. -/
inductive CGLineCap where
  | kCGLineCapButt | kCGLineCapRound | kCGLineCapSquare
  deriving DecidableEq

/-- CGLineJoin of CoreGraphics. -/
inductive CGLineJoin where
  | kCGLineJoinMiter | kCGLineJoinRound | kCGLineJoinBevel
  deriving DecidableEq

/-- A call `CGPath<name>(path, ...)` made through CGP_CALL, with its arguments. -/
inductive CGPathCall where
  | MoveToPoint (x y : CGFloat)
  | AddLineToPoint (x y : CGFloat)
  | AddCurveToPoint (cp1x cp1y cp2x cp2y x y : CGFloat)
  | AddQuadCurveToPoint (cpx cpy x y : CGFloat)
  | AddArc (m : CGAffineTransform) (x y radius startAngle endAngle : CGFloat) (clockwise : Bool)
  | CloseSubpath
  | AddRoundedRect (rect : CGRect) (cornerWidth cornerHeight : CGFloat)
  deriving DecidableEq

/-- A call `CGContext<name>(context_, ...)` made through CGC_CALL, with its
arguments.  A CGGradient is given by the components and locations it was
created with, a CGPath by the calls that built it. -/
inductive CGCall where
  | ClearRect (rect : CGRect)
  | TranslateCTM (tx ty : CGFloat)
  | ScaleCTM (sx sy : CGFloat)
  | SaveGState
  | RestoreGState
  | SetRGBFillColor (red green blue alpha : CGFloat)
  | SetRGBStrokeColor (red green blue alpha : CGFloat)
  | SetLineCap (cap : CGLineCap)
  | SetLineJoin (join : CGLineJoin)
  | SetMiterLimit (limit : CGFloat)
  | SetLineWidth (width : CGFloat)
  | SetAlpha (alpha : CGFloat)
  | BeginTransparencyLayer
  | EndTransparencyLayer
  | SetLineDash (phase : CGFloat) (lengths : List CGFloat)
  | ConcatCTM (transform : CGAffineTransform)
  | ClipToRect (rect : CGRect)
  | BeginPath
  | MoveToPoint (x y : CGFloat)
  | AddLineToPoint (x y : CGFloat)
  | AddArc (x y radius startAngle endAngle : CGFloat) (clockwise : Int)
  | AddEllipseInRect (rect : CGRect)
  | AddPath (path : List CGPathCall)
  | ClosePath
  | FillPath
  | EOFillPath
  | StrokePath
  | ReplacePathWithStrokedPath
  | Clip
  | DrawLinearGradient (components locations : List CGFloat) (startPoint endPoint : CGPoint)
      (options : Nat)
  | DrawRadialGradient (components locations : List CGFloat) (startCenter : CGPoint)
      (startRadius : CGFloat) (endCenter : CGPoint) (endRadius : CGFloat) (options : Nat)
  deriving DecidableEq

/-- The parts of the program that live outside the sources: libm, CoreGraphics
queries, `kPi` of Constants.h and the generated colour keyword table behind
`FindSVGStandardColorOrNull` (declared in SVGStandardColor.h). -/
structure Platform where
  /-- The overflow of the floating point type: an operation whose exact result
  is this number gives an infinity, which is what `isinf` of libm tests. -/
  isinf : CGFloat → Bool
  /-- `std::pow` of libm at an exponent that is an `int`. -/
  pow : CGFloat → Int → FloatValue
  /-- `std::powf` of libm at an exponent that is a `size_t`. -/
  powf : CGFloat → Nat → FloatValue
  /-- What a CGFloat that holds NaN is taken for: a value that stands for NaN
  and for no number of the type. -/
  nan : CGFloat
  /-- The colour keyword table; constantly `none` when
  `SVG_COLOR_KEYWORD_SUPPORT` is 0. -/
  FindSVGStandardColorOrNull : List Char → Option SvgStandardColorDefinition
  /-- `kPi` of Constants.h. -/
  kPi : CGFloat
  /-- `CGAffineTransformMakeRotation`, argument in radians. -/
  CGAffineTransformMakeRotation : CGFloat → CGAffineTransform
  /-- `tan` of libm. -/
  tan : CGFloat → CGFloat
  /-- `sqrt` of libm. -/
  sqrt : CGFloat → CGFloat
  /-- `atan2` of libm. -/
  atan2 : CGFloat → CGFloat → CGFloat
  /-- `CGPathGetCurrentPoint` of the path built by a list of calls (oldest
  first). -/
  CGPathGetCurrentPoint : List CGPathCall → CGPoint
  /-- `CGContextGetPathBoundingBox` of a context that received a list of calls
  (oldest first). -/
  CGContextGetPathBoundingBox : List CGCall → CGRect

/-- `std::isnan` on the contents of a `CGFloat` variable: a NaN is kept as
`P.nan`.  Where the sources compare a value that ConsumeFloat may have stored as
NaN, the comparison is written with this test: a comparison with NaN is
false. -/
def Platform.isnan (P : Platform) (x : CGFloat) : Bool := decide (x = P.nan)

/-- `std::fabs`: the absolute value of a number, NaN for NaN. -/
def Platform.fabs (P : Platform) (x : CGFloat) : CGFloat := if P.isnan x then P.nan else |x|

/-- The result of an operation of the floating point type whose exact result
is `q`: an infinity when `q` is beyond the range of the type. -/
def Platform.ofExact (P : Platform) (q : CGFloat) : FloatValue :=
  if P.isinf q then FloatValue.infinity (decide (q < 0)) else FloatValue.number q

/-- The sum of two values of the floating point type. -/
def FloatValue.add (P : Platform) : FloatValue → FloatValue → FloatValue
  | FloatValue.number a, FloatValue.number b => P.ofExact (a + b)
  | FloatValue.number _, FloatValue.infinity s => FloatValue.infinity s
  | FloatValue.infinity s, FloatValue.number _ => FloatValue.infinity s
  | FloatValue.infinity s, FloatValue.infinity t =>
    if s = t then FloatValue.infinity s else FloatValue.nan
  | _, _ => FloatValue.nan

/-- The product of two values of the floating point type: zero times an
infinity is NaN. -/
def FloatValue.mul (P : Platform) : FloatValue → FloatValue → FloatValue
  | FloatValue.number a, FloatValue.number b => P.ofExact (a * b)
  | FloatValue.number a, FloatValue.infinity s =>
    if a = 0 then FloatValue.nan else FloatValue.infinity (s != decide (a < 0))
  | FloatValue.infinity s, FloatValue.number b =>
    if b = 0 then FloatValue.nan else FloatValue.infinity (s != decide (b < 0))
  | FloatValue.infinity s, FloatValue.infinity t => FloatValue.infinity (s != t)
  | _, _ => FloatValue.nan

/-- The quotient of two values of the floating point type: a number divided
by an infinity is zero. -/
def FloatValue.div (P : Platform) : FloatValue → FloatValue → FloatValue
  | FloatValue.number a, FloatValue.number b =>
    if b = 0 then (if a = 0 then FloatValue.nan else FloatValue.infinity (decide (a < 0)))
    else P.ofExact (a / b)
  | FloatValue.number _, FloatValue.infinity _ => FloatValue.number 0
  | FloatValue.infinity s, FloatValue.number b => FloatValue.infinity (s != decide (b < 0))
  | _, _ => FloatValue.nan

/-- The contents of an `int` after an operation whose exact result is `n`:
the result wraps around at 32 bits. -/
def wrapInt (n : Int) : Int :=
  (n + 2147483648) % 4294967296 - 2147483648

/-- ClampToUnitRange (Utils.h): fmin(fmax(value, 0), 1). -/
def ClampToUnitRange (value : CGFloat) : CGFloat :=
  min (max value 0) 1

/-- RgbColor (BasicTypes.h): the three stored components. -/
structure RgbColor where
  red : CGFloat
  green : CGFloat
  blue : CGFloat
  deriving DecidableEq

/-- RgbColor::RgbColor(red, green, blue) (BasicTypes.cc): clamps each component. -/
def RgbColor.make (red green blue : CGFloat) : RgbColor :=
  ⟨ClampToUnitRange red, ClampToUnitRange green, ClampToUnitRange blue⟩

/-- RgbColor::RgbColor(): black. -/
def RgbColor.default : RgbColor := ⟨0, 0, 0⟩

/-- Length::Unit (BasicTypes.h). -/
inductive LengthUnit where
  | kUnitNone | kUnitCm | kUnitEm | kUnitEx | kUnitIn | kUnitMm | kUnitPc
  | kUnitPercent | kUnitPt | kUnitPx
  deriving DecidableEq

/-- Length (BasicTypes.h). -/
structure Length where
  value : CGFloat
  unit : LengthUnit
  deriving DecidableEq

/-- Length::Length(): value 0, no unit. -/
def Length.default : Length := ⟨0, LengthUnit.kUnitNone⟩

/-- PreserveAspectRatio::Alignment. -/
inductive Alignment where
  | kMin | kMid | kMax
  deriving DecidableEq

/-- PreserveAspectRatio::MeetOrSlice. -/
inductive MeetOrSlice where
  | kMeet | kSlice
  deriving DecidableEq

/-- PreserveAspectRatio (BasicTypes.h). -/
structure PreserveAspectRatio where
  defer : Bool
  no_alignment : Bool
  x_alignment : Alignment
  y_alignment : Alignment
  meet_or_slice : MeetOrSlice
  deriving DecidableEq

/-- PreserveAspectRatio::default_value(). -/
def PreserveAspectRatio.default_value : PreserveAspectRatio :=
  ⟨false, false, Alignment.kMid, Alignment.kMid, MeetOrSlice.kMeet⟩

/-! ## StringPiece (StringPiece.h, StringPiece.cc) -/

/-- A StringPiece is a pointer `begin_` into a byte buffer and a length.
For a fixed buffer it is given by the bytes it spans (`view`, so that
`length_ = view.length`) and the bytes of the buffer behind `end()` (`rest`);
`begin_` is the buffer position `view.length + rest.length` bytes before the
buffer ends.  A cursor made from a `std::string` or a C string has
`rest = []`; the byte behind the buffer is the terminating NUL. -/
structure StringPiece where
  view : List Char
  rest : List Char
  deriving DecidableEq

/-- StringPiece(const std::string &) and StringPiece(const char *). -/
def StringPiece.ofString (s : List Char) : StringPiece := ⟨s, []⟩

/-- StringPiece::length(). -/
def StringPiece.length (s : StringPiece) : Nat := s.view.length

/-- StringPiece::operator[]: reads `*(begin_ + n)` without a bounds check; a
byte behind the buffer reads as NUL. -/
def StringPiece.get (s : StringPiece) (n : Nat) : Char :=
  (s.view ++ s.rest).getD n '\x00'

/-- StringPiece::Advance(n): moves `begin_` by min(n, length_). -/
def StringPiece.Advance (s : StringPiece) (n : Nat) : StringPiece :=
  ⟨s.view.drop (min n s.view.length), s.rest⟩

/-- The number of bytes from `begin_` to the end of the buffer. -/
def StringPiece.remaining (s : StringPiece) : Nat := s.view.length + s.rest.length

/-- The pointer difference `a.begin() - b.begin()` of two cursors into one
buffer, `a` not before `b`. -/
def StringPiece.beginDiff (a b : StringPiece) : Nat := b.remaining - a.remaining

/-- The index of the first `c` in a byte list, the loop of std::find. -/
def findIndexFrom (c : Char) : List Char → Nat → Option Nat
  | [], _ => none
  | x :: xs, i => if x = c then some i else findIndexFrom c xs (i + 1)

/-- StringPiece::find(char): `none` stands for std::string::npos. -/
def StringPiece.find (s : StringPiece) (c : Char) : Option Nat :=
  findIndexFrom c s.view 0

/-! ## Character classes of the C library (C locale) -/

/-- The isspace of ctype.h. -/
def isspace (c : Char) : Bool :=
  c = ' ' || c = '\t' || c = '\n' || c = '\x0b' || c = '\x0c' || c = '\r'

/-- The isalpha of ctype.h. -/
def isalpha (c : Char) : Bool :=
  ('a' ≤ c && c ≤ 'z') || ('A' ≤ c && c ≤ 'Z')

/-- The ishexnumber of ctype.h. -/
def ishexnumber (c : Char) : Bool :=
  ('0' ≤ c && c ≤ '9') || ('a' ≤ c && c ≤ 'f') || ('A' ≤ c && c ≤ 'F')

/-- The digittoint of ctype.h. -/
def digittoint (c : Char) : Int :=
  if '0' ≤ c && c ≤ '9' then (c.toNat : Int) - 48
  else if 'a' ≤ c && c ≤ 'f' then (c.toNat : Int) - 87
  else if 'A' ≤ c && c ≤ 'F' then (c.toNat : Int) - 55
  else 0

/-- The tolower of ctype.h. -/
def tolower (c : Char) : Char :=
  if 'A' ≤ c && c ≤ 'Z' then Char.ofNat (c.toNat + 32) else c

/-! ## BasicValueParsers.cc -/

/-- The `strncmp(word, s->begin(), strlen(word)) == 0` of ConsumeVocabulary: the
comparison does not look at the length of the cursor. -/
def strncmpAtBegin (word : List Char) (s : StringPiece) : Bool :=
  word.isPrefixOf (s.view ++ s.rest)

/-- ConsumeVocabulary: the first dictionary entry found at `begin()`. -/
def ConsumeVocabulary {Word : Type} (s : StringPiece) :
    List (List Char × Word) → Word → Bool × StringPiece × Word
  | [], word => (false, s, word)
  | entry :: dictionary, word =>
    if strncmpAtBegin entry.1 s then (true, s.Advance entry.1.length, entry.2)
    else ConsumeVocabulary s dictionary word

/-- The loop of GenericConsumeValues on `s_copy`: `n` values are still to be
read, `i` is the loop index. -/
def GenericConsumeValuesLoop {Value : Type} [Inhabited Value]
    (consume_value : StringPiece → Value → Bool × StringPiece × Value)
    (consume_delimiter : StringPiece → Bool × StringPiece)
    (is_delemeter_optional : Bool) :
    Nat → Nat → StringPiece → List Value → Bool × StringPiece × List Value
  | 0, _, s_copy, varray => (true, s_copy, varray)
  | n + 1, i, s_copy, varray =>
    let d := if i ≠ 0 then consume_delimiter s_copy else (true, s_copy)
    if i ≠ 0 ∧ d.1 = false ∧ is_delemeter_optional = false then (false, d.2, varray)
    else
      let r := consume_value d.2 (varray.getD i default)
      if r.1 = false then (false, r.2.1, varray.set i r.2.2)
      else GenericConsumeValuesLoop consume_value consume_delimiter is_delemeter_optional
        n (i + 1) r.2.1 (varray.set i r.2.2)

/-- GenericConsumeValues: reads `count` values into `varray`; the cursor moves
only when all of them were read. -/
def GenericConsumeValues {Value : Type} [Inhabited Value]
    (consume_value : StringPiece → Value → Bool × StringPiece × Value)
    (consume_delimiter : StringPiece → Bool × StringPiece)
    (s : StringPiece) (count : Nat) (varray : List Value)
    (is_delemeter_optional : Bool) : Bool × StringPiece × List Value :=
  let r := GenericConsumeValuesLoop consume_value consume_delimiter is_delemeter_optional
    count 0 s varray
  if r.1 then (true, s.Advance (r.2.1.beginDiff s), r.2.2) else (false, s, r.2.2)

/-- The scan of ConsumeNumberDelimiter: the number of bytes passed and
`seen_comma`. -/
def ConsumeNumberDelimiterLoop : List Char → Bool → Nat → Nat × Bool
  | [], seen_comma, it => (it, seen_comma)
  | c :: cs, seen_comma, it =>
    if c = ',' then
      if seen_comma then (it, seen_comma) else ConsumeNumberDelimiterLoop cs true (it + 1)
    else if isspace c = false then (it, seen_comma)
    else ConsumeNumberDelimiterLoop cs seen_comma (it + 1)

/-- ConsumeNumberDelimiter. -/
def ConsumeNumberDelimiter (s : StringPiece) : Bool × StringPiece :=
  let r := ConsumeNumberDelimiterLoop s.view false 0
  if r.2 then (true, s.Advance r.1) else (false, s)

/-- The digit loop of ConsumeDecimalInt: the value read and the number of
digits. -/
def ConsumeDecimalIntLoop : List Char → Int → Nat → Int × Nat
  | [], ret, iter => (ret, iter)
  | c :: cs, ret, iter =>
    if '0' ≤ c ∧ c ≤ '9' then
      ConsumeDecimalIntLoop cs (wrapInt (wrapInt (ret * 10) + ((c.toNat : Int) - 48))) (iter + 1)
    else (ret, iter)

/-- ConsumeDecimalInt. -/
def ConsumeDecimalInt (s : StringPiece) (n : Int) : Bool × StringPiece × Int :=
  let r := ConsumeDecimalIntLoop s.view 0 0
  if r.2 ≠ 0 then (true, s.Advance r.2, r.1) else (false, s, n)

/-- ConsumeDecimalIntPercent: `*n` is written when the digits were read, also
when no percent sign follows. -/
def ConsumeDecimalIntPercent (s : StringPiece) (n : Int) : Bool × StringPiece × Int :=
  let r := ConsumeDecimalInt s n
  if r.1 ∧ r.2.1.length ≠ 0 ∧ r.2.1.get 0 = '%' then
    (true, s.Advance ((s.length - r.2.1.length) + 1), r.2.2)
  else (false, s, r.2.2)

/-- The digit loop of ConsumeHexInt over the bytes before `limit`. -/
def ConsumeHexIntLoop : List Char → Int → Nat → Int × Nat
  | [], result, iter => (result, iter)
  | c :: cs, result, iter =>
    if ishexnumber c then ConsumeHexIntLoop cs (wrapInt (wrapInt (result * 16) + digittoint c)) (iter + 1)
    else (result, iter)

/-- ConsumeHexInt. -/
def ConsumeHexInt (s : StringPiece) (requested_width : Int) (n : Int) :
    Bool × StringPiece × Int :=
  if requested_width > 0 ∧ (s.length : Int) < requested_width then (false, s, n)
  else
    let limit :=
      if requested_width > 0 ∧ requested_width < (s.length : Int)
      then s.view.take requested_width.toNat else s.view
    let r := ConsumeHexIntLoop limit 0 0
    let parsed_length := r.2
    if requested_width > 0 ∧ (parsed_length : Int) < requested_width then (false, s, n)
    else if parsed_length ≠ 0 then (true, s.Advance parsed_length, r.1)
    else (false, s, n)

/-- ConsumeSign. -/
def ConsumeSign (s : StringPiece) : Bool × StringPiece :=
  if s.length ≠ 0 ∧ s.get 0 = '-' then (true, s.Advance 1) else (false, s)

/-- The scan of ConsumeWhitespace: the number of leading whitespace bytes. -/
def ConsumeWhitespaceLoop : List Char → Nat → Nat
  | [], it => it
  | c :: cs, it => if isspace c then ConsumeWhitespaceLoop cs (it + 1) else it

/-- ConsumeWhitespace. -/
def ConsumeWhitespace (s : StringPiece) : Bool × StringPiece :=
  let it := ConsumeWhitespaceLoop s.view 0
  if it ≠ 0 then (true, s.Advance it) else (false, s)

/-- The fraction part of ConsumeFloat: the cursor `after_base` behind it,
`fraction_as_int` and `base_fraction_length`. -/
def ConsumeFloatFraction (after_base : StringPiece) : StringPiece × Int × Nat :=
  if after_base.length ≠ 0 ∧ after_base.get 0 = '.' then
    let before_fraction := after_base.Advance 1
    let r := ConsumeDecimalInt before_fraction 0
    if r.1 then (r.2.1, r.2.2, r.2.1.beginDiff before_fraction)
    else (r.2.1, r.2.2, 0)
  else (after_base, 0, 0)

/-- The exponent part of ConsumeFloat: the cursor `after_base` behind it and
the value after `value *= std::pow(10, ...)`. -/
def ConsumeFloatExponent (P : Platform) (after_base : StringPiece) (value : FloatValue) :
    StringPiece × FloatValue :=
  if after_base.length ≠ 0 ∧ after_base.get 0 = 'e' then
    let reading_exponent := after_base.Advance 1
    let sg := ConsumeSign reading_exponent
    let r := ConsumeDecimalInt sg.2 0
    if r.1 then
      (after_base.Advance (r.2.1.beginDiff after_base),
        FloatValue.mul P value (P.pow 10 (wrapInt ((if sg.1 then -1 else 1) * r.2.2))))
    else (after_base, value)
  else (after_base, value)

/-- ConsumeFloat.  The value is computed in the floating point type; an
infinity makes the function fail (`isinf`), and NaN, which is not infinite, is
stored like a number. -/
def ConsumeFloat (P : Platform) (s : StringPiece) (f : CGFloat) :
    Bool × StringPiece × CGFloat :=
  let after_ws := (ConsumeWhitespace s).2
  let sg := ConsumeSign after_ws
  let base_is_negative := sg.1
  let after_sign := sg.2
  let b := ConsumeDecimalInt after_sign 0
  let base_integer := b.2.2
  let had_base_integer := decide (b.2.1.beginDiff after_sign ≠ 0)
  let fr := ConsumeFloatFraction b.2.1
  let fraction_as_int := fr.2.1
  let base_fraction_length := fr.2.2
  if had_base_integer = false ∧ base_fraction_length = 0 then (false, s, f)
  else
    let fraction_value : FloatValue :=
      FloatValue.div P (FloatValue.number fraction_as_int) (P.powf 10 base_fraction_length)
    let value : FloatValue :=
      FloatValue.mul P (FloatValue.number (if base_is_negative then -1 else 1))
        (FloatValue.add P (FloatValue.number base_integer) fraction_value)
    let ex := ConsumeFloatExponent P fr.1 value
    match ex.2 with
    | FloatValue.infinity _ => (false, s, f)
    | FloatValue.number v => (true, s.Advance (ex.1.beginDiff s), v)
    | FloatValue.nan => (true, s.Advance (ex.1.beginDiff s), P.nan)

/-- GenericParse1: the consumer succeeds and leaves an empty cursor.  The
cursor is passed by value; the output argument is the one the consumer left. -/
def GenericParse1 {Arg0 : Type} (consume : StringPiece → Arg0 → Bool × StringPiece × Arg0)
    (s : StringPiece) (arg0 : Arg0) : Bool × Arg0 :=
  let r := consume s arg0
  (r.1 && decide (r.2.1.length = 0), r.2.2)

/-- GenericParse2: GenericParse1 for a consumer with one more argument. -/
def GenericParse2 {Arg0 Arg1 : Type}
    (consume : StringPiece → Arg0 → Arg1 → Bool × StringPiece × Arg1)
    (s : StringPiece) (arg0 : Arg0) (arg1 : Arg1) : Bool × Arg1 :=
  let r := consume s arg0 arg1
  (r.1 && decide (r.2.1.length = 0), r.2.2)

/-- ParseFloat. -/
def ParseFloat (P : Platform) (s : StringPiece) (f : CGFloat) : Bool × CGFloat :=
  GenericParse1 (ConsumeFloat P) s f

/-- ConsumeFloats: `count` floats, delimiters optional. -/
def ConsumeFloats (P : Platform) (s : StringPiece) (count : Nat) (farray : List CGFloat) :
    Bool × StringPiece × List CGFloat :=
  GenericConsumeValues (ConsumeFloat P) ConsumeNumberDelimiter s count farray true

/-- ParseFloats. -/
def ParseFloats (P : Platform) (s : StringPiece) (count : Nat) (farray : List CGFloat) :
    Bool × List CGFloat :=
  GenericParse2 (ConsumeFloats P) s count farray

/-- The table kLengthUnitDictionary. -/
def kLengthUnitDictionary : List (List Char × LengthUnit) :=
  [ ("cm".data, LengthUnit.kUnitCm), ("em".data, LengthUnit.kUnitEm),
    ("ex".data, LengthUnit.kUnitEx), ("in".data, LengthUnit.kUnitIn),
    ("mm".data, LengthUnit.kUnitMm), ("pc".data, LengthUnit.kUnitPc),
    ("%".data, LengthUnit.kUnitPercent), ("pt".data, LengthUnit.kUnitPt),
    ("px".data, LengthUnit.kUnitPx) ]

/-- ConsumeLength. -/
def ConsumeLength (P : Platform) (s : StringPiece) (length : Length) :
    Bool × StringPiece × Length :=
  let r := ConsumeFloat P s 0
  if r.1 = false then (false, s, length)
  else
    let v := ConsumeVocabulary r.2.1 kLengthUnitDictionary LengthUnit.kUnitNone
    let unit := if v.1 then v.2.2 else LengthUnit.kUnitNone
    (true, s.Advance (s.length - v.2.1.length), ⟨r.2.2, unit⟩)

/-- ParseLength. -/
def ParseLength (P : Platform) (s : StringPiece) (length : Length) : Bool × Length :=
  GenericParse1 (ConsumeLength P) s length

/-- The loop of ConsumeLengths.  Every round consumes a byte, so the fuel
`s.length() + 1` given by ConsumeLengths is never used up. -/
def ConsumeLengthsLoop (P : Platform) :
    Nat → StringPiece → List Length → Bool → Bool × StringPiece × List Length
  | 0, s, lengths, consumed => (consumed, s, lengths)
  | fuel + 1, s, lengths, consumed =>
    if s.length > 0 then
      let r := ConsumeLength P s Length.default
      if r.1 = false then (consumed, r.2.1, lengths)
      else ConsumeLengthsLoop P fuel (ConsumeNumberDelimiter r.2.1).2 (lengths ++ [r.2.2]) true
    else (consumed, s, lengths)

/-- ConsumeLengths. -/
def ConsumeLengths (P : Platform) (s : StringPiece) (lengths : List Length) :
    Bool × StringPiece × List Length :=
  ConsumeLengthsLoop P (s.length + 1) s lengths false

/-- ParseLengths. -/
def ParseLengths (P : Platform) (s : StringPiece) (lengths : List Length) :
    Bool × List Length :=
  GenericParse1 (ConsumeLengths P) s lengths

/-- ConsumeString: `string` at the start of the cursor, compared with strncmp
or strncasecmp. -/
def ConsumeString (s : StringPiece) (string : List Char) (case_sensitive : Bool) :
    Bool × StringPiece :=
  if s.length < string.length then (false, s)
  else if (if case_sensitive then decide (s.view.take string.length = string)
      else decide ((s.view.take string.length).map tolower = string.map tolower)) then
    (true, s.Advance string.length)
  else (false, s)

/-- ConsumeParenthesizedFloats. -/
def ConsumeParenthesizedFloats (P : Platform) (s : StringPiece) (count : Nat)
    (out_floats : List CGFloat) : Bool × StringPiece × List CGFloat :=
  let o := ConsumeString s "(".data true
  if o.1 = false then (false, s, out_floats)
  else
    let fl := ConsumeFloats P (ConsumeWhitespace o.2).2 count out_floats
    if fl.1 = false then (false, s, fl.2.2)
    else
      let c := ConsumeString (ConsumeWhitespace fl.2.1).2 ")".data true
      if c.1 = false then (false, s, fl.2.2)
      else (true, s.Advance (c.2.beginDiff s), fl.2.2)

/-- PeekAlpha: reads `s[0]` without looking at the length. -/
def PeekAlpha (s : StringPiece) (c : Char) : Bool × Char :=
  let first_char := s.get 0
  if ('a' ≤ first_char ∧ first_char ≤ 'z') ∨ ('A' ≤ first_char ∧ first_char ≤ 'Z') then
    (true, first_char)
  else (false, c)

/-- ConsumeAlpha. -/
def ConsumeAlpha (s : StringPiece) (c : Char) : Bool × StringPiece × Char :=
  let r := PeekAlpha s c
  if r.1 then (true, s.Advance 1, r.2) else (false, s, r.2)

/-- ConsumeFlag. -/
def ConsumeFlag (s : StringPiece) (flag : Bool) : Bool × StringPiece × Bool :=
  let s_copy := (ConsumeWhitespace s).2
  if s_copy.length = 0 then (false, s, flag)
  else
    let c := s_copy.get 0
    if c ≠ '0' ∧ c ≠ '1' then (false, s, flag)
    else (true, s.Advance (s.length - s_copy.length + 1), decide (c ≠ '0'))

/-- The length of the leading alphabetic run, the loop of
ConsumeStandardSVGColor. -/
def alphaTokenLength : List Char → Nat
  | [] => 0
  | c :: cs => if isalpha c then alphaTokenLength cs + 1 else 0

/-- ConsumeStandardSVGColor (compiled when SVG_COLOR_KEYWORD_SUPPORT is 1). -/
def ConsumeStandardSVGColor (P : Platform) (sp : StringPiece)
    (out_standardColor : Option SvgStandardColorDefinition) :
    Bool × StringPiece × Option SvgStandardColorDefinition :=
  let s_copy := (ConsumeWhitespace sp).2
  let token_length := alphaTokenLength s_copy.view
  match P.FindSVGStandardColorOrNull (s_copy.view.take token_length) with
  | none => (false, sp, out_standardColor)
  | some standardColor =>
    (true, sp.Advance (s_copy.beginDiff sp + token_length), some standardColor)

/-- The three ConsumeHexInt calls of ConsumeHexadecimalColor: `n` components
are still to be read. -/
def ConsumeHexadecimalColorLoop (is_three_digits : Bool) :
    Nat → StringPiece → List CGFloat → Bool × StringPiece × List CGFloat
  | 0, s_copy, color_comps => (true, s_copy, color_comps)
  | n + 1, s_copy, color_comps =>
    let r := ConsumeHexInt s_copy (if is_three_digits then 1 else 2) 0
    if r.1 = false then (false, r.2.1, color_comps)
    else ConsumeHexadecimalColorLoop is_three_digits n r.2.1
      (color_comps ++ [(r.2.2 : CGFloat) / (if is_three_digits then 15 else 255)])

/-- ConsumeHexadecimalColor.  On an empty cursor `s->length() - 1` wraps
around, `end()` of the copy is that of `s` and the digit scan reads nothing. -/
def ConsumeHexadecimalColor (s : StringPiece) (rgb : RgbColor) :
    Bool × StringPiece × RgbColor :=
  if s.get 0 ≠ '#' then (false, s, rgb)
  else
    match s.view with
    | [] => (false, s, rgb)
    | _ :: tail =>
      let s_copy : StringPiece := ⟨tail, s.rest⟩
      let after_hex_digits := ConsumeHexInt s_copy (-1) 0
      if after_hex_digits.1 = false then (false, s, rgb)
      else
        let hex_digit_count := after_hex_digits.2.1.beginDiff s_copy
        if hex_digit_count < 3 then (false, s, rgb)
        else
          let r := ConsumeHexadecimalColorLoop (decide (hex_digit_count < 6)) 3 s_copy []
          if r.1 = false then (false, s, rgb)
          else (true, s.Advance (r.2.1.beginDiff s),
            RgbColor.make (r.2.2.getD 0 0) (r.2.2.getD 1 0) (r.2.2.getD 2 0))

/-- The end of ConsumeFunctionalColor, after `*rgb` was written: optional
whitespace and the closing parenthesis. -/
def ConsumeFunctionalColorClose (s s_copy : StringPiece) (rgb : RgbColor) :
    Bool × StringPiece × RgbColor :=
  let c := ConsumeString (ConsumeWhitespace s_copy).2 ")".data true
  if c.1 = false then (false, s, rgb)
  else (true, s.Advance (s.length - c.2.length), rgb)

/-- ConsumeFunctionalColor: `*rgb` is written before the closing parenthesis
is looked for. -/
def ConsumeFunctionalColor (s : StringPiece) (rgb : RgbColor) :
    Bool × StringPiece × RgbColor :=
  let o := ConsumeString s "rgb(".data false
  if o.1 = false then (false, s, rgb)
  else
    let s_copy := (ConsumeWhitespace o.2).2
    let ints := GenericConsumeValues ConsumeDecimalInt ConsumeNumberDelimiter s_copy 3
      [0, 0, 0] false
    if ints.1 then
      ConsumeFunctionalColorClose s ints.2.1
        (RgbColor.make ((ints.2.2.getD 0 0 : CGFloat) / 255)
          ((ints.2.2.getD 1 0 : CGFloat) / 255) ((ints.2.2.getD 2 0 : CGFloat) / 255))
    else
      let pcts := GenericConsumeValues ConsumeDecimalIntPercent ConsumeNumberDelimiter
        ints.2.1 3 ints.2.2 false
      if pcts.1 then
        ConsumeFunctionalColorClose s pcts.2.1
          (RgbColor.make ((pcts.2.2.getD 0 0 : CGFloat) / 100)
            ((pcts.2.2.getD 1 0 : CGFloat) / 100) ((pcts.2.2.getD 2 0 : CGFloat) / 100))
      else (false, s, rgb)

/-- ConsumeRgbColor (SVG_COLOR_KEYWORD_SUPPORT is 1; a platform without keyword
support has a table that finds nothing). -/
def ConsumeRgbColor (P : Platform) (s : StringPiece) (rgb : RgbColor) :
    Bool × StringPiece × RgbColor :=
  let k := ConsumeStandardSVGColor P s none
  match k.1, k.2.2 with
  | true, some standardColor =>
    (true, k.2.1, RgbColor.make ((standardColor.red : CGFloat) / 255)
      ((standardColor.green : CGFloat) / 255) ((standardColor.blue : CGFloat) / 255))
  | _, _ =>
    let h := ConsumeHexadecimalColor k.2.1 rgb
    if h.1 then h else ConsumeFunctionalColor h.2.1 h.2.2

/-- ParseRgbColor. -/
def ParseRgbColor (P : Platform) (s : StringPiece) (rgb : RgbColor) : Bool × RgbColor :=
  GenericParse1 (ConsumeRgbColor P) s rgb

/-- The loop of TrimTrailingWhitespace: the length without trailing
whitespace, `none` when nothing is left. -/
def TrimTrailingWhitespaceLoop (view : List Char) : Nat → Option Nat
  | 0 => none
  | n + 1 =>
    if isspace (view.getD n '\x00') = false then some (n + 1)
    else TrimTrailingWhitespaceLoop view n

/-- StringPiece(begin, length): the first `n` bytes of a cursor. -/
def StringPiece.first (s : StringPiece) (n : Nat) : StringPiece :=
  ⟨s.view.take n, s.view.drop n ++ s.rest⟩

/-- TrimTrailingWhitespace: an all-whitespace cursor gives StringPiece(). -/
def TrimTrailingWhitespace (s : StringPiece) : StringPiece :=
  match TrimTrailingWhitespaceLoop s.view s.length with
  | some non_whitespace_length => s.first non_whitespace_length
  | none => ⟨[], []⟩

/-- ConsumeIri. -/
def ConsumeIri (s : StringPiece) (iri : StringPiece) : Bool × StringPiece × StringPiece :=
  let o := ConsumeString (ConsumeWhitespace s).2 "url(".data true
  if o.1 = false then (false, s, iri)
  else
    match o.2.find ')' with
    | none => (false, s, iri)
    | some pos => (true, s.Advance (o.2.beginDiff s + pos + 1), o.2.first pos)

/-- ParseIri. -/
def ParseIri (s : StringPiece) (iri : StringPiece) : Bool × StringPiece :=
  GenericParse1 ConsumeIri s iri

/-- InternalAlignment of BasicValueParsers.cc. -/
inductive InternalAlignment where
  | kInternalAlignmentNone
  | kInternalAlignmentXMinYMin | kInternalAlignmentXMidYMin | kInternalAlignmentXMaxYMin
  | kInternalAlignmentXMinYMid | kInternalAlignmentXMidYMid | kInternalAlignmentXMaxYMid
  | kInternalAlignmentXMinYMax | kInternalAlignmentXMidYMax | kInternalAlignmentXMaxYMax
  deriving DecidableEq

open InternalAlignment in
/-- The table kInternalAlignmentDictionary. -/
def kInternalAlignmentDictionary : List (List Char × InternalAlignment) :=
  [ ("none".data, kInternalAlignmentNone),
    ("xMinYMin".data, kInternalAlignmentXMinYMin), ("xMidYMin".data, kInternalAlignmentXMidYMin),
    ("xMaxYMin".data, kInternalAlignmentXMaxYMin), ("xMinYMid".data, kInternalAlignmentXMinYMid),
    ("xMidYMid".data, kInternalAlignmentXMidYMid), ("xMaxYMid".data, kInternalAlignmentXMaxYMid),
    ("xMinYMax".data, kInternalAlignmentXMinYMax), ("xMidYMax".data, kInternalAlignmentXMidYMax),
    ("xMaxYMax".data, kInternalAlignmentXMaxYMax) ]

/-- The table kMeetOrSliceDictionary. -/
def kMeetOrSliceDictionary : List (List Char × MeetOrSlice) :=
  [ ("meet".data, MeetOrSlice.kMeet), ("slice".data, MeetOrSlice.kSlice) ]

open InternalAlignment in
/-- The first switch of ConsumePreserveAspectRatio. -/
def xAlignmentOf : InternalAlignment → Alignment
  | kInternalAlignmentXMinYMin | kInternalAlignmentXMinYMid | kInternalAlignmentXMinYMax =>
    Alignment.kMin
  | kInternalAlignmentXMidYMin | kInternalAlignmentXMidYMid | kInternalAlignmentXMidYMax
  | kInternalAlignmentNone => Alignment.kMid
  | kInternalAlignmentXMaxYMin | kInternalAlignmentXMaxYMid | kInternalAlignmentXMaxYMax =>
    Alignment.kMax

open InternalAlignment in
/-- The second switch of ConsumePreserveAspectRatio. -/
def yAlignmentOf : InternalAlignment → Alignment
  | kInternalAlignmentXMinYMin | kInternalAlignmentXMidYMin | kInternalAlignmentXMaxYMin =>
    Alignment.kMin
  | kInternalAlignmentXMinYMid | kInternalAlignmentXMidYMid | kInternalAlignmentXMaxYMid
  | kInternalAlignmentNone => Alignment.kMid
  | kInternalAlignmentXMinYMax | kInternalAlignmentXMidYMax | kInternalAlignmentXMaxYMax =>
    Alignment.kMax

/-- ConsumePreserveAspectRatio. -/
def ConsumePreserveAspectRatio (s : StringPiece) (aspect_ratio : PreserveAspectRatio) :
    Bool × StringPiece × PreserveAspectRatio :=
  let d := ConsumeString (ConsumeWhitespace s).2 "defer".data true
  let defer := d.1
  let a := ConsumeVocabulary (ConsumeWhitespace d.2).2 kInternalAlignmentDictionary
    InternalAlignment.kInternalAlignmentXMidYMid
  if a.1 = false then (false, s, aspect_ratio)
  else
    let alignment := a.2.2
    let no_alignment := decide (alignment = InternalAlignment.kInternalAlignmentNone)
    let m := ConsumeVocabulary (ConsumeWhitespace a.2.1).2 kMeetOrSliceDictionary
      MeetOrSlice.kMeet
    (true, s.Advance (m.2.1.beginDiff s),
      ⟨defer, no_alignment, xAlignmentOf alignment, yAlignmentOf alignment, m.2.2⟩)

/-- ParsePreserveAspectRatio. -/
def ParsePreserveAspectRatio (s : StringPiece) (aspect_ratio : PreserveAspectRatio) :
    Bool × PreserveAspectRatio :=
  GenericParse1 ConsumePreserveAspectRatio s aspect_ratio

/-! ## PathDataIterator (PathDataIterator.h, PathDataIterator.cc) -/

/-- PathCommandType. -/
inductive PathCommandType where
  | kPathCommandTypeMoveTo
  | kPathCommandTypeLineTo
  | kPathCommandTypeHorizontalLineTo
  | kPathCommandTypeVerticalLineTo
  | kPathCommandTypeCubicBezier
  | kPathCommandTypeShorthandCubicBezier
  | kPathCommandTypeQuadBezier
  | kPathCommandTypeShorthandQuadBezier
  | kPathCommandTypeEllipticalArc
  | kPathCommandTypeClosePath
  deriving DecidableEq

/-- PathDataFormat. -/
inductive PathDataFormat where
  | kPathDataFormatPoints
  | kPathDataFormatPath
  deriving DecidableEq

/-- The members of class PathDataIterator. -/
structure PathDataIterator where
  s_ : StringPiece
  implicit_close_ : Bool
  large_arc_ : Bool
  sweep_ : Bool
  format_ : PathDataFormat
  command_type_ : PathCommandType
  point_ : CGPoint
  control_point1_ : CGPoint
  control_point2_ : CGPoint
  arc_radius_x_ : CGFloat
  arc_radius_y_ : CGFloat
  rotation_ : CGFloat
  is_first_command_ : Bool
  absolute_ : Bool
  shown_close_path_ : Bool
  subpath_start_point_ : CGPoint
  last_command_type_ : PathCommandType
  deriving DecidableEq

open PathCommandType PathDataFormat

/-- PathDataIterator::PathDataIterator(data, format, implicit_close).  The
constructor does not initialise every member; `uninitialized` gives the
contents of the object before the constructor runs. -/
def PathDataIterator.init (uninitialized : PathDataIterator) (data : List Char)
    (format : PathDataFormat) (implicit_close : Bool) : PathDataIterator :=
  { uninitialized with
    s_ := StringPiece.ofString data
    implicit_close_ := implicit_close
    format_ := format
    is_first_command_ := true
    absolute_ := decide (format = kPathDataFormatPoints)
    shown_close_path_ := false
    last_command_type_ := kPathCommandTypeClosePath
    point_ := ⟨0, 0⟩ }

/-- PathDataIterator::ParseMoveAndLineCommand. -/
def PathDataIterator.ParseMoveAndLineCommand (P : Platform) (it : PathDataIterator)
    (command_type : PathCommandType) : Bool × PathDataIterator :=
  let values : List CGFloat := [it.point_.x, it.point_.y]
  let r : Bool × StringPiece × List CGFloat × Bool × Bool :=
    match command_type with
    | kPathCommandTypeHorizontalLineTo =>
      let c := ConsumeFloat P it.s_ (values.getD 0 0)
      (c.1, c.2.1, values.set 0 c.2.2, true, false)
    | kPathCommandTypeLineTo =>
      let c := ConsumeFloats P it.s_ 2 values
      (c.1, c.2.1, c.2.2, true, true)
    | kPathCommandTypeMoveTo =>
      let c := ConsumeFloats P it.s_ 2 values
      (c.1, c.2.1, c.2.2, true, true)
    | kPathCommandTypeVerticalLineTo =>
      let c := ConsumeFloat P it.s_ (values.getD 1 0)
      (c.1, c.2.1, values.set 1 c.2.2, false, true)
    | _ => (false, it.s_, values, false, false)
  let it1 := { it with s_ := r.2.1 }
  if r.1 = false then (false, it1)
  else
    let values := r.2.2.1
    let change_x := r.2.2.2.1
    let change_y := r.2.2.2.2
    if it1.absolute_ then
      let p1 : CGPoint := if change_x then ⟨values.getD 0 0, it1.point_.y⟩ else it1.point_
      let p2 : CGPoint := if change_y then ⟨p1.x, values.getD 1 0⟩ else p1
      (true, { it1 with point_ := p2 })
    else
      let p1 : CGPoint := if change_x then ⟨it1.point_.x + values.getD 0 0, it1.point_.y⟩
        else it1.point_
      let p2 : CGPoint := if change_y then ⟨p1.x, p1.y + values.getD 1 0⟩ else p1
      (true, { it1 with point_ := p2 })

/-- The operand `values[i] + (absolute_ ? 0 : base)` of the curve commands. -/
def PathDataIterator.coord (it : PathDataIterator) (values : List CGFloat) (i : Nat)
    (base : CGFloat) : CGFloat :=
  values.getD i 0 + (if it.absolute_ then 0 else base)

/-- PathDataIterator::ParseCubicBezierCommand. -/
def PathDataIterator.ParseCubicBezierCommand (P : Platform) (it : PathDataIterator) :
    Bool × PathDataIterator :=
  let c := ConsumeFloats P it.s_ 6 (List.replicate 6 0)
  let it1 := { it with s_ := c.2.1 }
  if c.1 = false then (false, it1)
  else
    let values := c.2.2
    (true, { it1 with
      control_point1_ := ⟨it1.coord values 0 it1.point_.x, it1.coord values 1 it1.point_.y⟩
      control_point2_ := ⟨it1.coord values 2 it1.point_.x, it1.coord values 3 it1.point_.y⟩
      point_ := ⟨it1.coord values 4 it1.point_.x, it1.coord values 5 it1.point_.y⟩ })

/-- PathDataIterator::ParseShorthandCubicBezierCommand. -/
def PathDataIterator.ParseShorthandCubicBezierCommand (P : Platform) (it : PathDataIterator) :
    Bool × PathDataIterator :=
  let c := ConsumeFloats P it.s_ 4 (List.replicate 4 0)
  let it1 := { it with s_ := c.2.1 }
  if c.1 = false then (false, it1)
  else
    let values := c.2.2
    let control_point1 : CGPoint :=
      if it1.last_command_type_ = kPathCommandTypeCubicBezier ∨
          it1.last_command_type_ = kPathCommandTypeShorthandCubicBezier then
        ⟨it1.point_.x + (it1.point_.x - it1.control_point2_.x),
          it1.point_.y + (it1.point_.y - it1.control_point2_.y)⟩
      else it1.point_
    (true, { it1 with
      control_point1_ := control_point1
      control_point2_ := ⟨it1.coord values 0 it1.point_.x, it1.coord values 1 it1.point_.y⟩
      point_ := ⟨it1.coord values 2 it1.point_.x, it1.coord values 3 it1.point_.y⟩ })

/-- PathDataIterator::ParseQuadBezierCommand. -/
def PathDataIterator.ParseQuadBezierCommand (P : Platform) (it : PathDataIterator) :
    Bool × PathDataIterator :=
  let c := ConsumeFloats P it.s_ 4 (List.replicate 4 0)
  let it1 := { it with s_ := c.2.1 }
  if c.1 = false then (false, it1)
  else
    let values := c.2.2
    (true, { it1 with
      control_point1_ := ⟨it1.coord values 0 it1.point_.x, it1.coord values 1 it1.point_.y⟩
      point_ := ⟨it1.coord values 2 it1.point_.x, it1.coord values 3 it1.point_.y⟩ })

/-- PathDataIterator::ParseShorthandQuadBezierCommand. -/
def PathDataIterator.ParseShorthandQuadBezierCommand (P : Platform) (it : PathDataIterator) :
    Bool × PathDataIterator :=
  let c := ConsumeFloats P it.s_ 2 (List.replicate 2 0)
  let it1 := { it with s_ := c.2.1 }
  if c.1 = false then (false, it1)
  else
    let values := c.2.2
    let control_point1 : CGPoint :=
      if it1.last_command_type_ = kPathCommandTypeQuadBezier ∨
          it1.last_command_type_ = kPathCommandTypeShorthandQuadBezier then
        ⟨it1.point_.x + (it1.point_.x - it1.control_point1_.x),
          it1.point_.y + (it1.point_.y - it1.control_point1_.y)⟩
      else it1.point_
    (true, { it1 with
      control_point1_ := control_point1
      point_ := ⟨it1.coord values 0 it1.point_.x, it1.coord values 1 it1.point_.y⟩ })

/-- PathDataIterator::ParseEllipticalArcCommand.  The radii come from
ConsumeFloats and may be NaN; `fabs` of NaN is NaN, for which
`arc_radius_x_ == 0` is false. -/
def PathDataIterator.ParseEllipticalArcCommand (P : Platform) (it : PathDataIterator) :
    Bool × PathDataIterator :=
  let c := ConsumeFloats P it.s_ 3 (List.replicate 3 0)
  let it1 := { it with s_ := c.2.1 }
  if c.1 = false then (false, it1)
  else
    let values := c.2.2
    let it2 := { it1 with
      arc_radius_x_ := P.fabs (values.getD 0 0), arc_radius_y_ := P.fabs (values.getD 1 0) }
    if (P.isnan (values.getD 0 0) = false ∧ it2.arc_radius_x_ = 0) ∨
        (P.isnan (values.getD 1 0) = false ∧ it2.arc_radius_y_ = 0) then (false, it2)
    else
      let it3 := { it2 with rotation_ := values.getD 2 0 }
      let f1 := ConsumeFlag (ConsumeNumberDelimiter it3.s_).2 it3.large_arc_
      let it4 := { it3 with s_ := f1.2.1, large_arc_ := f1.2.2 }
      if f1.1 = false then (false, it4)
      else
        let f2 := ConsumeFlag (ConsumeNumberDelimiter it4.s_).2 it4.sweep_
        let it5 := { it4 with s_ := f2.2.1, sweep_ := f2.2.2 }
        if f2.1 = false then (false, it5)
        else
          let pc := ConsumeFloats P (ConsumeNumberDelimiter it5.s_).2 2 (List.replicate 2 0)
          let it6 := { it5 with s_ := pc.2.1 }
          if pc.1 = false then (false, it6)
          else
            (true, { it6 with
              point_ := ⟨it6.coord pc.2.2 0 it6.point_.x, it6.coord pc.2.2 1 it6.point_.y⟩ })

/-- The first switch of ParseSingleCommandForPath: the command type of a
lower-case command letter. -/
def commandTypeOfChar (normalized_command_char : Char) : Option PathCommandType :=
  if normalized_command_char = 'c' then some kPathCommandTypeCubicBezier
  else if normalized_command_char = 'h' then some kPathCommandTypeHorizontalLineTo
  else if normalized_command_char = 'l' then some kPathCommandTypeLineTo
  else if normalized_command_char = 'v' then some kPathCommandTypeVerticalLineTo
  else if normalized_command_char = 'm' then some kPathCommandTypeMoveTo
  else if normalized_command_char = 's' then some kPathCommandTypeShorthandCubicBezier
  else if normalized_command_char = 'q' then some kPathCommandTypeQuadBezier
  else if normalized_command_char = 't' then some kPathCommandTypeShorthandQuadBezier
  else if normalized_command_char = 'a' then some kPathCommandTypeEllipticalArc
  else if normalized_command_char = 'z' then some kPathCommandTypeClosePath
  else none

/-- The second switch of ParseSingleCommandForPath, on `command_type_`. -/
def PathDataIterator.dispatch (P : Platform) (it : PathDataIterator) :
    Bool × PathDataIterator :=
  match it.command_type_ with
  | kPathCommandTypeMoveTo =>
    let r := it.ParseMoveAndLineCommand P it.command_type_
    (r.1, { r.2 with subpath_start_point_ := r.2.point_ })
  | kPathCommandTypeLineTo | kPathCommandTypeHorizontalLineTo
  | kPathCommandTypeVerticalLineTo => it.ParseMoveAndLineCommand P it.command_type_
  | kPathCommandTypeCubicBezier => it.ParseCubicBezierCommand P
  | kPathCommandTypeShorthandCubicBezier => it.ParseShorthandCubicBezierCommand P
  | kPathCommandTypeQuadBezier => it.ParseQuadBezierCommand P
  | kPathCommandTypeShorthandQuadBezier => it.ParseShorthandQuadBezierCommand P
  | kPathCommandTypeEllipticalArc => it.ParseEllipticalArcCommand P
  | kPathCommandTypeClosePath => (true, { it with point_ := it.subpath_start_point_ })

/-- PathDataIterator::ParseSingleCommandForPath. -/
def PathDataIterator.ParseSingleCommandForPath (P : Platform) (it : PathDataIterator) :
    Bool × PathDataIterator :=
  let pk := PeekAlpha it.s_ '\x00'
  if pk.1 then
    let ca := ConsumeAlpha it.s_ pk.2
    let it1 := { it with s_ := ca.2.1 }
    if ca.1 = false then (false, it1)
    else
      let command_char := ca.2.2
      let is_upper := decide ('A' ≤ command_char ∧ command_char ≤ 'Z')
      let normalized_command_char :=
        if is_upper then Char.ofNat (command_char.toNat + 32) else command_char
      let it2 := { it1 with absolute_ := is_upper }
      match commandTypeOfChar normalized_command_char with
      | none => (false, it2)
      | some t => PathDataIterator.dispatch P { it2 with command_type_ := t }
  else
    if it.is_first_command_ ∨ it.command_type_ = kPathCommandTypeClosePath then (false, it)
    else
      let it1 :=
        if it.command_type_ = kPathCommandTypeMoveTo
        then { it with command_type_ := kPathCommandTypeLineTo } else it
      PathDataIterator.dispatch P { it1 with s_ := (ConsumeNumberDelimiter it1.s_).2 }

/-- PathDataIterator::ParseSingleCommandForPoints. -/
def PathDataIterator.ParseSingleCommandForPoints (P : Platform) (it : PathDataIterator) :
    Bool × PathDataIterator :=
  if it.is_first_command_ then
    let it1 := { it with command_type_ := kPathCommandTypeMoveTo }
    it1.ParseMoveAndLineCommand P it1.command_type_
  else
    let it1 := { it with command_type_ := kPathCommandTypeLineTo,
                         s_ := (ConsumeNumberDelimiter it.s_).2 }
    it1.ParseMoveAndLineCommand P it1.command_type_

/-- PathDataIterator::Next. -/
def PathDataIterator.Next (P : Platform) (it : PathDataIterator) : Bool × PathDataIterator :=
  let it0 := { it with s_ := (ConsumeWhitespace it.s_).2 }
  if it0.s_.length = 0 then
    if it0.implicit_close_ ∧ it0.shown_close_path_ = false then
      (true, { it0 with command_type_ := kPathCommandTypeClosePath, shown_close_path_ := true })
    else (false, it0)
  else
    let r :=
      if it0.format_ = kPathDataFormatPoints then it0.ParseSingleCommandForPoints P
      else it0.ParseSingleCommandForPath P
    if r.1 then
      (true, { r.2 with is_first_command_ := false, last_command_type_ := r.2.command_type_ })
    else (false, r.2)

/-! ## CoreGraphics affine transforms (CGAffineTransform.h) -/

/-- CGAffineTransformMakeTranslation. -/
def CGAffineTransformMakeTranslation (tx ty : CGFloat) : CGAffineTransform :=
  ⟨1, 0, 0, 1, tx, ty⟩

/-- CGAffineTransformMakeScale. -/
def CGAffineTransformMakeScale (sx sy : CGFloat) : CGAffineTransform :=
  ⟨sx, 0, 0, sy, 0, 0⟩

/-- CGAffineTransformConcat(t1, t2): the matrix product t1 * t2. -/
def CGAffineTransformConcat (t1 t2 : CGAffineTransform) : CGAffineTransform :=
  ⟨t1.a * t2.a + t1.b * t2.c, t1.a * t2.b + t1.b * t2.d,
   t1.c * t2.a + t1.d * t2.c, t1.c * t2.b + t1.d * t2.d,
   t1.tx * t2.a + t1.ty * t2.c + t2.tx, t1.tx * t2.b + t1.ty * t2.d + t2.ty⟩

/-- CGAffineTransformScale(t, sx, sy): the scaling is applied before `t`. -/
def CGAffineTransformScale (t : CGAffineTransform) (sx sy : CGFloat) : CGAffineTransform :=
  CGAffineTransformConcat (CGAffineTransformMakeScale sx sy) t

/-- CGAffineTransformInvert: a matrix that cannot be inverted is returned
unchanged. -/
def CGAffineTransformInvert (t : CGAffineTransform) : CGAffineTransform :=
  let det := t.a * t.d - t.b * t.c
  if det = 0 then t
  else ⟨t.d / det, -t.b / det, -t.c / det, t.a / det,
        (t.c * t.ty - t.d * t.tx) / det, (t.b * t.tx - t.a * t.ty) / det⟩

/-- CGPointApplyAffineTransform. -/
def CGPointApplyAffineTransform (p : CGPoint) (t : CGAffineTransform) : CGPoint :=
  ⟨t.a * p.x + t.c * p.y + t.tx, t.b * p.x + t.d * p.y + t.ty⟩

/-! ## Utils.h, Utils.cc -/

/-- StringMap: std::map from string to string, as an association list with
one entry for each key. -/
abbrev StringMap := List (List Char × List Char)

/-- FindValueOrNull. -/
def FindValueOrNull {ValueType : Type} (map : List (List Char × ValueType)) (key : List Char) :
    Option ValueType :=
  match map with
  | [] => none
  | entry :: es => if entry.1 = key then some entry.2 else FindValueOrNull es key

/-- The assignment `map[key] = value` of std::map. -/
def mapAssign {ValueType : Type} (map : List (List Char × ValueType)) (key : List Char)
    (value : ValueType) : List (List Char × ValueType) :=
  match map with
  | [] => [(key, value)]
  | entry :: es => if entry.1 = key then (key, value) :: es else entry :: mapAssign es key value

/-- FloatValueForKey. -/
def FloatValueForKey (P : Platform) (map : StringMap) (key : List Char) (out_float : CGFloat) :
    Bool × CGFloat :=
  match FindValueOrNull map key with
  | some value => ParseFloat P (StringPiece.ofString value) out_float
  | none => (false, out_float)

/-- LengthValueForKey. -/
def LengthValueForKey (P : Platform) (map : StringMap) (key : List Char) (out_length : Length) :
    Bool × Length :=
  match FindValueOrNull map key with
  | some value => ParseLength P (StringPiece.ofString value) out_length
  | none => (false, out_length)

/-- ToRadians. -/
def ToRadians (P : Platform) (degrees : CGFloat) : CGFloat :=
  degrees * P.kPi / 180

/-- The outputs of SvgArcToCgArc. -/
structure CgArc where
  radius : CGFloat
  center : CGPoint
  start_angle : CGFloat
  end_angle : CGFloat
  deriving DecidableEq

/-- SvgArcToCgArc.  The loop that enlarges the radius runs at most once. -/
def SvgArcToCgArc (P : Platform) (start_point end_point : CGPoint) (large_arc sweep : Bool)
    (out : CgArc) : Bool × CgArc :=
  if start_point = end_point ∨ out.radius ≤ 0 then (false, out)
  else
    let horizontal_length :=
      P.sqrt ((start_point.x - end_point.x) ^ 2 + (start_point.y - end_point.y) ^ 2)
    let radius :=
      if out.radius ^ 2 - (horizontal_length / 2) ^ 2 < 0 then horizontal_length / 2
      else out.radius
    let v := P.sqrt (radius ^ 2 - (horizontal_length / 2) ^ 2)
    let vertical_length := if large_arc ≠ sweep then -v else v
    let center : CGPoint :=
      ⟨(start_point.x + end_point.x) / 2
          + (end_point.y - start_point.y) * vertical_length / horizontal_length,
        (start_point.y + end_point.y) / 2
          - (end_point.x - start_point.x) * vertical_length / horizontal_length⟩
    (true, ⟨radius, center,
      out.start_angle + P.atan2 (-center.y + start_point.y) (start_point.x - center.x),
      out.end_angle + P.atan2 (-center.y + end_point.y) (end_point.x - center.x)⟩)

/-- SvgArcToCgArc over an ordered field `F` in place of CGFloat, with the
square root and the arc tangent as parameters: the statements are those of
`SvgArcToCgArc`.  A point is a pair (x, y); the outputs are the radius, the
centre, the start angle and the end angle. -/
def SvgArcToCgArcOver {F : Type} [LinearOrderedField F] (sqrt : F → F) (atan2 : F → F → F)
    (start_point end_point : F × F) (large_arc sweep : Bool) (out : F × (F × F) × F × F) :
    Bool × F × (F × F) × F × F :=
  if start_point = end_point ∨ out.1 ≤ 0 then (false, out)
  else
    let horizontal_length :=
      sqrt ((start_point.1 - end_point.1) ^ 2 + (start_point.2 - end_point.2) ^ 2)
    let radius :=
      if out.1 ^ 2 - (horizontal_length / 2) ^ 2 < 0 then horizontal_length / 2
      else out.1
    let v := sqrt (radius ^ 2 - (horizontal_length / 2) ^ 2)
    let vertical_length := if large_arc ≠ sweep then -v else v
    let center : F × F :=
      ((start_point.1 + end_point.1) / 2
          + (end_point.2 - start_point.2) * vertical_length / horizontal_length,
        (start_point.2 + end_point.2) / 2
          - (end_point.1 - start_point.1) * vertical_length / horizontal_length)
    (true, radius, center,
      out.2.2.1 + atan2 (-center.2 + start_point.2) (start_point.1 - center.1),
      out.2.2.2 + atan2 (-center.2 + end_point.2) (end_point.1 - center.1))

/-- CGAffineTransformToNormalizeRect. -/
def CGAffineTransformToNormalizeRect (rect : CGRect) : CGAffineTransform :=
  CGAffineTransformScale (CGAffineTransformMakeTranslation rect.x rect.y) rect.width rect.height

/-- OffsetForAlignment. -/
def OffsetForAlignment (alignment : Alignment) (viewport_dimention object_dimention : CGFloat) :
    CGFloat :=
  match alignment with
  | Alignment.kMin => 0
  | Alignment.kMid => (viewport_dimention - object_dimention) / 2
  | Alignment.kMax => viewport_dimention - object_dimention

/-- CGAffineTransformForPreserveAspectRatio. -/
def CGAffineTransformForPreserveAspectRatio (aspect_ratio : PreserveAspectRatio)
    (view_box target_viewport : CGRect) : CGAffineTransform :=
  let x_scale0 := target_viewport.width / view_box.width
  let y_scale0 := target_viewport.height / view_box.height
  let scale :=
    if aspect_ratio.meet_or_slice = MeetOrSlice.kMeet then min x_scale0 y_scale0
    else max x_scale0 y_scale0
  let x_scale := if aspect_ratio.no_alignment = false then scale else x_scale0
  let y_scale := if aspect_ratio.no_alignment = false then scale else y_scale0
  let scaled_width := x_scale * view_box.width
  let x_offset := OffsetForAlignment aspect_ratio.x_alignment target_viewport.width scaled_width
  let scaled_height := y_scale * view_box.height
  let y_offset := OffsetForAlignment aspect_ratio.y_alignment target_viewport.height scaled_height
  CGAffineTransformScale (CGAffineTransformMakeTranslation x_offset y_offset) x_scale y_scale

/-- EvaluateLength. -/
def EvaluateLength (length : Length) : CGFloat :=
  length.value * (if length.unit = LengthUnit.kUnitPercent then 1 / 100 else 1)

/-! ## StyleIterator.cc -/

/-- The members of class StyleIterator; `s_` is the cursor of the caller. -/
structure StyleIterator where
  s_ : StringPiece
  property_ : StringPiece
  value_ : StringPiece
  supported_properties_ : List (List Char)
  deriving DecidableEq

/-- StyleIterator::StyleIterator. -/
def StyleIterator.init (s : StringPiece) (supported_properties : List (List Char)) :
    StyleIterator :=
  ⟨s, ⟨[], []⟩, ⟨[], []⟩, supported_properties⟩

/-- StyleIterator::Next.  The function calls itself after a declaration of an
unsupported property; every call consumes a byte, so `fuel = s_->length() + 1`
is never used up. -/
def StyleIterator.NextFuel : Nat → StyleIterator → Bool × StyleIterator
  | 0, it => (false, it)
  | fuel + 1, it =>
    let s1 := (ConsumeWhitespace it.s_).2
    if s1.length = 0 then (false, { it with s_ := s1 })
    else
      match s1.find ':' with
      | none => (false, { it with s_ := s1 })
      | some pos =>
        let property := TrimTrailingWhitespace (s1.first pos)
        let s2 := (ConsumeWhitespace (s1.Advance (pos + 1))).2
        let value :=
          match s2.find ';' with
          | none => TrimTrailingWhitespace s2
          | some pos2 => TrimTrailingWhitespace (s2.first pos2)
        let s3 :=
          match s2.find ';' with
          | none => s2.Advance s2.length
          | some pos2 => s2.Advance (pos2 + 1)
        let it1 := { it with s_ := s3, property_ := property, value_ := value }
        if property.view ∈ it1.supported_properties_ then (true, it1)
        else StyleIterator.NextFuel fuel it1

/-- StyleIterator::Next. -/
def StyleIterator.Next (it : StyleIterator) : Bool × StyleIterator :=
  StyleIterator.NextFuel (it.s_.length + 1) it

/-- The loop `while (style_iter.Next())` of the callers: the pairs
(property, value) as strings.  Every round consumes a byte. -/
def StyleIterator.collect : Nat → StyleIterator → List (List Char × List Char)
  | 0, _ => []
  | fuel + 1, it =>
    let r := it.Next
    if r.1 then (r.2.property_.view, r.2.value_.view) :: StyleIterator.collect fuel r.2
    else []

/-- The declarations of a style string for a set of supported properties. -/
def styleDeclarations (text : List Char) (supported : List (List Char)) :
    List (List Char × List Char) :=
  StyleIterator.collect (text.length + 1) (StyleIterator.init (StringPiece.ofString text) supported)

/-! ## StyleSheet.cc -/

/-- MSCStyleSheet (StyleSheet.h): the map `entry` from a class name to its
declarations. -/
structure MSCStyleSheet where
  entry : List (List Char × List (List Char × List Char))
  deriving DecidableEq

/-- ParserState of StyleSheet.cc. -/
inductive ParserState where
  | OUTSIDE_CONTENTS | BEFORE_VALUE | FINDING_VALUE
  deriving DecidableEq

/-- The test of the selector name loop in ParseStyleSheetData. -/
def isSelectorNameChar (c : Char) : Bool :=
  ('a' ≤ c && c ≤ 'z') || ('A' ≤ c && c ≤ 'Z') || ('0' ≤ c && c ≤ '9') || c = '-' || c = '_'

/-- The `insert` of std::map: an existing key keeps its value. -/
def mapInsert {ValueType : Type} (map : List (List Char × ValueType)) (key : List Char)
    (value : ValueType) : List (List Char × ValueType) :=
  match FindValueOrNull map key with
  | some _ => map
  | none => map ++ [(key, value)]

/-- The loop of ParseStyleSheetData over the bytes from `data[i]` on.
`in_name` is true inside the inner loop that reads the selector name, where
the byte looked at is `data[i + 1]`.  That loop may read behind the data; what
it reads there goes to a selector name that is dropped. -/
def ParseStyleSheetDataLoop : List Char → Bool → ParserState → List Char → List Char →
    MSCStyleSheet → Option MSCStyleSheet
  | [], _, _, _, _, style_sheet => some style_sheet
  | c :: cs, in_name, state, selector_name, selector_value, style_sheet =>
    if in_name ∧ isSelectorNameChar c then
      ParseStyleSheetDataLoop cs true state (selector_name ++ [c]) selector_value style_sheet
    else
      match state with
      | ParserState.OUTSIDE_CONTENTS =>
        if c = '.' then
          ParseStyleSheetDataLoop cs true ParserState.BEFORE_VALUE selector_name selector_value
            style_sheet
        else if c = '\n' ∨ c = '\t' ∨ c = ' ' then
          ParseStyleSheetDataLoop cs false state selector_name selector_value style_sheet
        else none
      | ParserState.BEFORE_VALUE =>
        if c = '{' then
          ParseStyleSheetDataLoop cs false ParserState.FINDING_VALUE selector_name selector_value
            style_sheet
        else if c = ' ' then
          ParseStyleSheetDataLoop cs false state selector_name selector_value style_sheet
        else none
      | ParserState.FINDING_VALUE =>
        if c = '}' then
          let selector_data := styleDeclarations selector_value
            ["fill".data, "stop-color".data, "stroke".data, "stroke-width".data]
          ParseStyleSheetDataLoop cs false ParserState.OUTSIDE_CONTENTS [] []
            ⟨mapInsert style_sheet.entry selector_name selector_data⟩
        else if c = ' ' ∨ c = '\n' then
          ParseStyleSheetDataLoop cs false state selector_name selector_value style_sheet
        else
          ParseStyleSheetDataLoop cs false state selector_name (selector_value ++ [c]) style_sheet

/-- ParseStyleSheetData: `none` stands for NULL. -/
def ParseStyleSheetData (data : List Char) : Option MSCStyleSheet :=
  ParseStyleSheetDataLoop data false ParserState.OUTSIDE_CONTENTS [] [] ⟨[]⟩

/-- The body of the loop of MSCStyleSheetMerge for one item of the source. -/
def mergeItem (dest : List (List Char × List (List Char × List Char)))
    (source_item : List Char × List (List Char × List Char)) :
    List (List Char × List (List Char × List Char)) :=
  match FindValueOrNull dest source_item.1 with
  | none => dest ++ [source_item]
  | some dest_value => mapAssign dest source_item.1 (dest_value ++ source_item.2)

/-- MSCStyleSheetMerge for a destination that is not NULL. -/
def MSCStyleSheetMerge (source : MSCStyleSheet) (dest : MSCStyleSheet) : MSCStyleSheet :=
  ⟨source.entry.foldl mergeItem dest.entry⟩

/-! ## TransformIterator.cc -/

/-- The members of class TransformIterator; `s_` is the cursor of the caller. -/
structure TransformIterator where
  s_ : StringPiece
  transform_ : CGAffineTransform
  is_first : Bool
  deriving DecidableEq

/-- TransformIterator::TransformIterator; `transform_` is not initialised. -/
def TransformIterator.init (uninitialized : CGAffineTransform) (s : StringPiece) :
    TransformIterator :=
  ⟨s, uninitialized, true⟩

/-- TransformIterator::ConsumeTransformDelimeters: whitespace and commas.
Every round consumes a comma; `fuel` is the length of the cursor plus one. -/
def ConsumeTransformDelimetersLoop : Nat → StringPiece → StringPiece
  | 0, s => s
  | fuel + 1, s =>
    let s1 := (ConsumeWhitespace s).2
    if s1.length > 0 ∧ s1.get 0 = ',' then ConsumeTransformDelimetersLoop fuel (s1.Advance 1)
    else (ConsumeWhitespace s1).2

/-- TransformIterator::ConsumeTransformDelimeters. -/
def ConsumeTransformDelimeters (s : StringPiece) : StringPiece :=
  ConsumeTransformDelimetersLoop (s.length + 1) s

/-- The two attempts `ConsumeParenthesizedFloats(&s_copy, n, elements)` and
then `ConsumeParenthesizedFloats(&s_copy, 1, elements)` of translate, scale
and rotate. -/
def consumeArgsOr1 (P : Platform) (s_copy : StringPiece) (n : Nat) :
    Option (Bool × StringPiece × List CGFloat) :=
  let r := ConsumeParenthesizedFloats P s_copy n (List.replicate n 0)
  if r.1 then some (true, r.2.1, r.2.2)
  else
    let r1 := ConsumeParenthesizedFloats P r.2.1 1 r.2.2
    if r1.1 then some (false, r1.2.1, r1.2.2) else none

/-- The part of TransformIterator::Next that reads one transform from
`s_copy`: the cursor behind it and the matrix. -/
def TransformIterator.parseOne (P : Platform) (s_copy : StringPiece) :
    Option (StringPiece × CGAffineTransform) :=
  let m := ConsumeString s_copy "matrix".data true
  if m.1 then
    let r := ConsumeParenthesizedFloats P m.2 6 (List.replicate 6 0)
    if r.1 = false then none
    else some (r.2.1, ⟨r.2.2.getD 0 0, r.2.2.getD 1 0, r.2.2.getD 2 0, r.2.2.getD 3 0,
      r.2.2.getD 4 0, r.2.2.getD 5 0⟩)
  else
    let t := ConsumeString m.2 "translate".data true
    if t.1 then
      match consumeArgsOr1 P t.2 2 with
      | some (true, s1, e) => some (s1, CGAffineTransformMakeTranslation (e.getD 0 0) (e.getD 1 0))
      | some (false, s1, e) => some (s1, CGAffineTransformMakeTranslation (e.getD 0 0) 0)
      | none => none
    else
      let sc := ConsumeString t.2 "scale".data true
      if sc.1 then
        match consumeArgsOr1 P sc.2 2 with
        | some (true, s1, e) => some (s1, CGAffineTransformMakeScale (e.getD 0 0) (e.getD 1 0))
        | some (false, s1, e) => some (s1, CGAffineTransformMakeScale (e.getD 0 0) (e.getD 0 0))
        | none => none
      else
        let ro := ConsumeString sc.2 "rotate".data true
        if ro.1 then
          match consumeArgsOr1 P ro.2 3 with
          | some (true, s1, e) =>
            let translate := CGAffineTransformMakeTranslation (e.getD 1 0) (e.getD 2 0)
            let rotate := P.CGAffineTransformMakeRotation (ToRadians P (e.getD 0 0))
            let translate_back := CGAffineTransformMakeTranslation (-(e.getD 1 0)) (-(e.getD 2 0))
            some (s1, CGAffineTransformConcat translate
              (CGAffineTransformConcat rotate translate_back))
          | some (false, s1, e) =>
            some (s1, P.CGAffineTransformMakeRotation (ToRadians P (e.getD 0 0)))
          | none => none
        else
          let kx := ConsumeString ro.2 "skewX".data true
          if kx.1 then
            let r := ConsumeParenthesizedFloats P kx.2 1 [0]
            if r.1 = false then none
            else some (r.2.1, ⟨1, 0, P.tan (ToRadians P (r.2.2.getD 0 0)), 1, 0, 0⟩)
          else
            let ky := ConsumeString kx.2 "skewY".data true
            if ky.1 then
              let r := ConsumeParenthesizedFloats P ky.2 1 [0]
              if r.1 = false then none
              else some (r.2.1, ⟨1, P.tan (ToRadians P (r.2.2.getD 0 0)), 0, 1, 0, 0⟩)
            else none

/-- TransformIterator::Next. -/
def TransformIterator.Next (P : Platform) (it : TransformIterator) : Bool × TransformIterator :=
  let s0 := (ConsumeWhitespace it.s_).2
  let s_copy := if it.is_first = false then ConsumeTransformDelimeters s0 else s0
  if s_copy.length = 0 then (false, it)
  else
    match TransformIterator.parseOne P s_copy with
    | none => (false, it)
    | some (s1, transform) => (true, ⟨it.s_.Advance (s1.beginDiff it.s_), transform, false⟩)

/-- The loop `while (iter.Next())` of the callers: the matrices yielded.
Every round consumes a byte. -/
def TransformIterator.collect (P : Platform) : Nat → TransformIterator → List CGAffineTransform
  | 0, _ => []
  | fuel + 1, it =>
    let r := it.Next P
    if r.1 then r.2.transform_ :: TransformIterator.collect P fuel r.2 else []

/-- The matrices of a transform list given as a string. -/
def transformList (P : Platform) (value : List Char) : List CGAffineTransform :=
  TransformIterator.collect P (value.length + 1)
    (TransformIterator.init ⟨0, 0, 0, 0, 0, 0⟩ (StringPiece.ofString value))

/-! ## Gradient.h, Gradient.cc -/

/-- GradientStop. -/
structure GradientStop where
  offset : CGFloat
  color : RgbColor
  opacity : CGFloat
  deriving DecidableEq

/-- Gradient::Type. -/
inductive GradientType where
  | kTypeLinear | kTypeRadial
  deriving DecidableEq

/-- Gradient::Units. -/
inductive GradientUnits where
  | kUnitsObjectBoundingBox | kUnitsUserSpaceOnUse
  deriving DecidableEq

/-- Gradient::Linear. -/
structure GradientLinear where
  x1 : Length
  y1 : Length
  x2 : Length
  y2 : Length
  deriving DecidableEq

/-- Gradient::Radial. -/
structure GradientRadial where
  fx : Length
  fy : Length
  cx : Length
  cy : Length
  r : Length
  deriving DecidableEq

/-- Gradient.  The members `linear` and `radial` share their storage in the
source; each gradient only uses the one of its type. -/
structure Gradient where
  type : GradientType
  id : List Char
  stops : List GradientStop
  transforms : List CGAffineTransform
  units : GradientUnits
  linear : GradientLinear
  radial : GradientRadial
  deriving DecidableEq

/-- Gradient::Gradient(type_in, attributes); `linear` and `radial` are set by
the caller. -/
def Gradient.init (P : Platform) (type_in : GradientType) (attributes : StringMap) : Gradient :=
  { type := type_in
    id := (FindValueOrNull attributes "id".data).getD []
    stops := []
    transforms :=
      match FindValueOrNull attributes "gradientTransform".data with
      | some gradient_transform_value => transformList P gradient_transform_value
      | none => []
    units :=
      if FindValueOrNull attributes "gradientUnits".data = some "userSpaceOnUse".data
      then GradientUnits.kUnitsUserSpaceOnUse else GradientUnits.kUnitsObjectBoundingBox
    linear := ⟨Length.default, Length.default, Length.default, Length.default⟩
    radial := ⟨Length.default, Length.default, Length.default, Length.default, Length.default⟩ }

/-- CreateCGGradient: the components and the locations handed to
CGGradientCreateWithColorComponents. -/
def CreateCGGradient (gradient : Gradient) : List CGFloat × List CGFloat :=
  ((gradient.stops.map fun stop =>
      [stop.color.red, stop.color.green, stop.color.blue, stop.opacity]).flatten,
    gradient.stops.map fun stop => stop.offset)

/-! ## Renderer (Renderer.h, Renderer.cc) -/

/-- Renderer::PaintState. -/
structure PaintState where
  should_paint : Bool
  color : RgbColor
  iri : List Char
  opacity : CGFloat
  deriving DecidableEq

/-- PaintState::PaintState(paint_default, color_default). -/
def PaintState.init (paint_default : Bool) (color_default : RgbColor) : PaintState :=
  ⟨paint_default, color_default, [], 1⟩

/-- PaintState::set_should_paint. -/
def PaintState.set_should_paint (p : PaintState) (new_should_paint : Bool) : PaintState :=
  { p with should_paint := new_should_paint
           iri := if new_should_paint = false then [] else p.iri }

/-- PaintState::set_color. -/
def PaintState.set_color (p : PaintState) (new_color : RgbColor) : PaintState :=
  { p with should_paint := true, color := new_color, iri := [] }

/-- PaintState::set_iri. -/
def PaintState.set_iri (p : PaintState) (new_iri : List Char) : PaintState :=
  { p with should_paint := true, iri := new_iri }

/-- PaintState::ApplyOpacity. -/
def PaintState.ApplyOpacity (p : PaintState) (additional_opacity : CGFloat) : PaintState :=
  { p with opacity := p.opacity * additional_opacity }

/-- LineDash (BasicTypes.h). -/
structure LineDash where
  dash_values : List CGFloat
  phase : CGFloat
  deriving DecidableEq

/-- FillRule (BasicTypes.h). -/
inductive FillRule where
  | kFillRuleNonZero | kFillRuleEvenOdd
  deriving DecidableEq

/-- Renderer::GraphicsState. -/
structure GraphicsState where
  fill : PaintState
  fill_rule : FillRule
  stroke : PaintState
  line_dash : LineDash
  display : Bool
  visibility : Bool
  stop_color : RgbColor
  stop_opacity : CGFloat
  deriving DecidableEq

/-- GraphicsState::GraphicsState(). -/
def GraphicsState.init : GraphicsState :=
  { fill := PaintState.init true (RgbColor.make 0 0 0)
    fill_rule := FillRule.kFillRuleNonZero
    stroke := PaintState.init false (RgbColor.make 0 0 0)
    line_dash := ⟨[], 0⟩
    display := true
    visibility := true
    stop_color := RgbColor.make 0 0 0
    stop_opacity := 1 }

/-- The member functions a BeginElementHandler can point to. -/
inductive BeginElementHandler where
  | ProcessCircleElement | ProcessEllipseElement | ProcessGElement | ProcessLineElement
  | BeginLinearGradientElement | ProcessPathElement | ProcessPolygonElement
  | ProcessPolylineElement | BeginRadialGradientElement | ProcessRectElement
  | ProcessStopElement | BeginStyleElement | ProcessSvgElement
  deriving DecidableEq

/-- The member functions an EndElementHandler can point to. -/
inductive EndElementHandler where
  | EndLinearGradientElement | EndRadialGradientElement | EndStyleElement
  deriving DecidableEq

/-- Renderer::SVGElementDefinition; `none` is a NULL handler. -/
structure SVGElementDefinition where
  name : List Char
  begin_handler : Option BeginElementHandler
  end_handler : Option EndElementHandler
  deriving DecidableEq

/-- Renderer::State, a frame of the state stack. -/
structure State where
  element_definition : SVGElementDefinition
  element_line_number : Int
  element_column_number : Int
  graphics : GraphicsState
  defines_transparency_layer : Bool
  style_text_ : List Char
  style_type_ : List Char
  deriving DecidableEq

/-- State::State(element, line_number, column_number, this_graphics). -/
def State.init (element : SVGElementDefinition) (line_number column_number : Int)
    (this_graphics : GraphicsState) : State :=
  ⟨element, line_number, column_number, this_graphics, false, [], []⟩

/-- Renderer::kSvgElementRoot. -/
def kSvgElementRoot : SVGElementDefinition := ⟨"__ROOT__".data, none, none⟩

/-- Renderer::kSvgElementUnknown. -/
def kSvgElementUnknown : SVGElementDefinition := ⟨"__UNKNOWN__".data, none, none⟩

open BeginElementHandler EndElementHandler in
/-- The table svg_element_definitions_ set up by Renderer::Renderer(). -/
def svg_element_definitions : List SVGElementDefinition :=
  [ ⟨"circle".data, some ProcessCircleElement, none⟩,
    ⟨"ellipse".data, some ProcessEllipseElement, none⟩,
    ⟨"g".data, some ProcessGElement, none⟩,
    ⟨"line".data, some ProcessLineElement, none⟩,
    ⟨"linearGradient".data, some BeginLinearGradientElement, some EndLinearGradientElement⟩,
    ⟨"path".data, some ProcessPathElement, none⟩,
    ⟨"polygon".data, some ProcessPolygonElement, none⟩,
    ⟨"polyline".data, some ProcessPolylineElement, none⟩,
    ⟨"radialGradient".data, some BeginRadialGradientElement, some EndRadialGradientElement⟩,
    ⟨"rect".data, some ProcessRectElement, none⟩,
    ⟨"stop".data, some ProcessStopElement, none⟩,
    ⟨"style".data, some BeginStyleElement, some EndStyleElement⟩,
    ⟨"svg".data, some ProcessSvgElement, none⟩ ]

/-- The members of class Renderer.  `context_` is the list of the calls made
on the graphics context, oldest first; the head of `state_stack_` is
`state_stack_.back()`.  The reader is passed to the functions that use it. -/
structure Renderer where
  supported_styles_ : List (List Char)
  context_ : List CGCall
  canvas_size_width : CGFloat
  canvas_size_height : CGFloat
  state_stack_ : List State
  pending_gradient_ : Option Gradient
  gradients_ : List (List Char × Gradient)
  graphics_ : GraphicsState
  style_sheet_ : Option MSCStyleSheet
  svg_element_definitions_ : List SVGElementDefinition
  deriving DecidableEq

/-- Renderer::Renderer(). -/
def Renderer.init : Renderer :=
  { supported_styles_ := ["fill".data, "stop-color".data, "stroke".data]
    context_ := []
    canvas_size_width := 0
    canvas_size_height := 0
    state_stack_ := [State.init kSvgElementRoot 0 0 GraphicsState.init]
    pending_gradient_ := none
    gradients_ := []
    graphics_ := GraphicsState.init
    style_sheet_ := none
    svg_element_definitions_ := svg_element_definitions }

/-- CGC_CALL: one call on `context_`. -/
def Renderer.CGC_CALL (r : Renderer) (call : CGCall) : Renderer :=
  { r with context_ := r.context_ ++ [call] }

/-- An update of `state_stack_.back()`. -/
def Renderer.updateBack (r : Renderer) (f : State → State) : Renderer :=
  match r.state_stack_ with
  | [] => r
  | top :: below => { r with state_stack_ := f top :: below }

/-- Renderer::CallCGSetColor. -/
def Renderer.CallCGSetColor (r : Renderer) (is_fill : Bool) : Renderer :=
  let paint_state := if is_fill then r.graphics_.fill else r.graphics_.stroke
  let color := paint_state.color
  if is_fill then
    r.CGC_CALL (CGCall.SetRGBFillColor color.red color.green color.blue paint_state.opacity)
  else
    r.CGC_CALL (CGCall.SetRGBStrokeColor color.red color.green color.blue paint_state.opacity)

/-- The assignment through `paint_state` in ProcessFillOrStrokeValue. -/
def Renderer.setPaintState (r : Renderer) (is_fill : Bool) (p : PaintState) : Renderer :=
  if is_fill then { r with graphics_ := { r.graphics_ with fill := p } }
  else { r with graphics_ := { r.graphics_ with stroke := p } }

/-- Renderer::ProcessFillOrStrokeValue. -/
def Renderer.ProcessFillOrStrokeValue (P : Platform) (r : Renderer) (value : List Char)
    (is_fill : Bool) : Renderer :=
  let paint_state := if is_fill then r.graphics_.fill else r.graphics_.stroke
  if value = "none".data then r.setPaintState is_fill (paint_state.set_should_paint false)
  else
    let c := ParseRgbColor P (StringPiece.ofString value) RgbColor.default
    if c.1 then (r.setPaintState is_fill (paint_state.set_color c.2)).CallCGSetColor is_fill
    else
      let i := ParseIri (StringPiece.ofString value) ⟨[], []⟩
      if i.1 then r.setPaintState is_fill (paint_state.set_iri i.2.view)
      else r

/-- Renderer::ProcessStyle. -/
def Renderer.ProcessStyle (P : Platform) (r : Renderer) (name value : List Char) :
    Bool × Renderer :=
  if name = "fill".data then (true, r.ProcessFillOrStrokeValue P value true)
  else if name = "stroke".data then (true, r.ProcessFillOrStrokeValue P value false)
  else if name = "stroke-linecap".data then
    if value = "butt".data then (true, r.CGC_CALL (CGCall.SetLineCap CGLineCap.kCGLineCapButt))
    else if value = "round".data then
      (true, r.CGC_CALL (CGCall.SetLineCap CGLineCap.kCGLineCapRound))
    else if value = "square".data then
      (true, r.CGC_CALL (CGCall.SetLineCap CGLineCap.kCGLineCapSquare))
    else (true, r)
  else if name = "stroke-linejoin".data then
    if value = "miter".data then
      (true, r.CGC_CALL (CGCall.SetLineJoin CGLineJoin.kCGLineJoinMiter))
    else if value = "round".data then
      (true, r.CGC_CALL (CGCall.SetLineJoin CGLineJoin.kCGLineJoinRound))
    else if value = "bevel".data then
      (true, r.CGC_CALL (CGCall.SetLineJoin CGLineJoin.kCGLineJoinBevel))
    else (true, r)
  else if name = "stroke-miterlimit".data then
    let f := ParseFloat P (StringPiece.ofString value) 0
    if f.1 = false then (true, r) else (true, r.CGC_CALL (CGCall.SetMiterLimit f.2))
  else if name = "stroke-width".data then
    let f := ParseFloat P (StringPiece.ofString value) 0
    if f.1 = false then (true, r) else (true, r.CGC_CALL (CGCall.SetLineWidth f.2))
  else if name = "fill-opacity".data then
    let f := ParseFloat P (StringPiece.ofString value) 0
    if f.1 = false then (true, r)
    else
      (true, Renderer.CallCGSetColor { r with graphics_ := { r.graphics_ with
        fill := r.graphics_.fill.ApplyOpacity (ClampToUnitRange f.2) } } true)
  else if name = "stroke-opacity".data then
    let f := ParseFloat P (StringPiece.ofString value) 0
    if f.1 = false then (true, r)
    else
      (true, Renderer.CallCGSetColor { r with graphics_ := { r.graphics_ with
        stroke := r.graphics_.stroke.ApplyOpacity (ClampToUnitRange f.2) } } false)
  else if name = "stop-color".data then
    let c := ParseRgbColor P (StringPiece.ofString value) RgbColor.default
    if c.1 then (true, { r with graphics_ := { r.graphics_ with stop_color := c.2 } })
    else (true, r)
  else if name = "stop-opacity".data then
    let f := ParseFloat P (StringPiece.ofString value) 1
    if f.1 then
      (true, { r with graphics_ := { r.graphics_ with stop_opacity := ClampToUnitRange f.2 } })
    else (true, r)
  else (false, r)

/-- Renderer::ProcessDisplayValue. -/
def Renderer.ProcessDisplayValue (r : Renderer) (value : List Char) : Renderer :=
  if value = "none".data then { r with graphics_ := { r.graphics_ with display := false } }
  else r

/-- Renderer::ProcessVisibilityValue. -/
def Renderer.ProcessVisibilityValue (r : Renderer) (value : List Char) : Renderer :=
  if value = "visible".data then
    { r with graphics_ := { r.graphics_ with visibility := true } }
  else if value = "hidden".data ∨ value = "collapse".data then
    { r with graphics_ := { r.graphics_ with visibility := false } }
  else r

/-- Renderer::ProcessOpacityValue. -/
def Renderer.ProcessOpacityValue (P : Platform) (r : Renderer) (value : List Char) : Renderer :=
  let f := ParseFloat P (StringPiece.ofString value) 0
  if f.1 then
    ((r.CGC_CALL (CGCall.SetAlpha f.2)).CGC_CALL CGCall.BeginTransparencyLayer).updateBack
      fun st => { st with defines_transparency_layer := true }
  else r

/-- Renderer::ProcessFillRuleValue. -/
def Renderer.ProcessFillRuleValue (r : Renderer) (value : List Char) : Renderer :=
  if value = "evenodd".data then
    { r with graphics_ := { r.graphics_ with fill_rule := FillRule.kFillRuleEvenOdd } }
  else if value = "nonzero".data then
    { r with graphics_ := { r.graphics_ with fill_rule := FillRule.kFillRuleNonZero } }
  else r

/-- Renderer::ProcessDashArrayValue. -/
def Renderer.ProcessDashArrayValue (P : Platform) (r : Renderer) (value : List Char) :
    Renderer :=
  let l := ParseLengths P (StringPiece.ofString value) []
  if l.1 then
    let dash_values := l.2.map fun len => len.value
    let has_non_zero_element := l.2.any fun len => decide (len.value ≠ 0)
    if has_non_zero_element then
      let r1 := r.CGC_CALL (CGCall.SetLineDash r.graphics_.line_dash.phase dash_values)
      { r1 with graphics_ := { r1.graphics_ with
        line_dash := { r1.graphics_.line_dash with dash_values := dash_values } } }
    else
      let r1 := r.CGC_CALL (CGCall.SetLineDash 0 [])
      { r1 with graphics_ := { r1.graphics_ with
        line_dash := { r1.graphics_.line_dash with dash_values := [] } } }
  else if value = "none".data then
    let r1 := r.CGC_CALL (CGCall.SetLineDash 0 [])
    { r1 with graphics_ := { r1.graphics_ with
      line_dash := { r1.graphics_.line_dash with dash_values := [] } } }
  else r

/-- Renderer::ProcessDashOffsetValue. -/
def Renderer.ProcessDashOffsetValue (P : Platform) (r : Renderer) (value : List Char) :
    Renderer :=
  let ph := ParseLength P (StringPiece.ofString value) Length.default
  if ph.1 then
    let r1 :=
      if r.graphics_.line_dash.dash_values.length > 0 then
        r.CGC_CALL (CGCall.SetLineDash ph.2.value r.graphics_.line_dash.dash_values)
      else r
    { r1 with graphics_ := { r1.graphics_ with
      line_dash := { r1.graphics_.line_dash with phase := ph.2.value } } }
  else r

/-- The calls `CGC_CALL(ConcatCTM, ..., transform)` for a list of transforms. -/
def Renderer.concatAll (r : Renderer) (transforms : List CGAffineTransform) : Renderer :=
  transforms.foldl (fun r1 transform => r1.CGC_CALL (CGCall.ConcatCTM transform)) r

/-- The locals of the attribute loop of ProcessCommonAttributes. -/
structure CommonAttributes where
  class_attr_value : List Char
  style_attr_value : List Char
  unprocessed_attributes : StringMap
  deriving DecidableEq

/-- The body of the attribute loop of ProcessCommonAttributes for an attribute
`name` with a value that is not NULL. -/
def Renderer.processAttribute (P : Platform) (r : Renderer) (acc : CommonAttributes)
    (name value : List Char) : Renderer × CommonAttributes :=
  let st := r.ProcessStyle P name value
  if st.1 then (st.2, acc)
  else if name = "transform".data then (st.2.concatAll (transformList P value), acc)
  else if name = "display".data then (st.2.ProcessDisplayValue value, acc)
  else if name = "visibility".data then (st.2.ProcessVisibilityValue value, acc)
  else if name = "opacity".data then (st.2.ProcessOpacityValue P value, acc)
  else if name = "fill-rule".data then (st.2.ProcessFillRuleValue value, acc)
  else if name = "stroke-dasharray".data then (st.2.ProcessDashArrayValue P value, acc)
  else if name = "stroke-dashoffset".data then (st.2.ProcessDashOffsetValue P value, acc)
  else if name = "style".data then (st.2, { acc with style_attr_value := value })
  else if name = "class".data then (st.2, { acc with class_attr_value := value })
  else (st.2, { acc with
    unprocessed_attributes := mapAssign acc.unprocessed_attributes name value })

/-- The attribute loop of ProcessCommonAttributes over the attributes the
reader delivers; an attribute is a name and a value that may be NULL. -/
def Renderer.attributeLoop (P : Platform) :
    List (List Char × Option (List Char)) → Renderer → CommonAttributes →
    Renderer × CommonAttributes
  | [], r, acc => (r, acc)
  | (_, none) :: attrs, r, acc => Renderer.attributeLoop P attrs r acc
  | (name, some value) :: attrs, r, acc =>
    let step := r.processAttribute P acc name value
    Renderer.attributeLoop P attrs step.1 step.2

/-- The loop over `class_data` in ProcessCommonAttributes. -/
def Renderer.processClassData (P : Platform) (r : Renderer)
    (class_data : List (List Char × List Char)) : Renderer :=
  class_data.foldl (fun r1 d => (r1.ProcessStyle P d.1 d.2).2) r

/-- The part of ProcessCommonAttributes for the class attribute: the lookup of
the class in `style_sheet_` and the loop over its declarations. -/
def Renderer.processClassAttribute (P : Platform) (r : Renderer)
    (class_attr_value : List Char) : Renderer :=
  match r.style_sheet_ with
  | some style_sheet =>
    match FindValueOrNull style_sheet.entry class_attr_value with
    | some class_data => r.processClassData P class_data
    | none => r
  | none => r

/-- The loop over the inline style declarations in ProcessCommonAttributes. -/
def Renderer.processInlineStyles (P : Platform) :
    List (List Char × List Char) → Renderer → StringMap → Renderer × StringMap
  | [], r, unprocessed_styles => (r, unprocessed_styles)
  | d :: ds, r, unprocessed_styles =>
    let st := r.ProcessStyle P d.1 d.2
    Renderer.processInlineStyles P ds st.2
      (if st.1 = false then mapAssign unprocessed_styles d.1 d.2 else unprocessed_styles)

/-- Renderer::ProcessCommonAttributes.  `attributes` are the attributes of the
current node in the order of xmlTextReaderMoveToNextAttribute and
`attribute_error` says that the reader reports an error behind them.  The
result is the return value, the renderer, `unprocessed_attributes` and
`unprocessed_styles`. -/
def Renderer.ProcessCommonAttributes (P : Platform) (r : Renderer)
    (attributes : List (List Char × Option (List Char))) (attribute_error : Bool) :
    Bool × Renderer × StringMap × StringMap :=
  let l := Renderer.attributeLoop P attributes r ⟨[], [], []⟩
  if attribute_error then (false, l.1, l.2.unprocessed_attributes, [])
  else
    let r1 := l.1.processClassAttribute P l.2.class_attr_value
    if l.2.style_attr_value ≠ [] then
      let i := Renderer.processInlineStyles P
        (styleDeclarations l.2.style_attr_value r1.supported_styles_) r1 []
      (true, i.1, l.2.unprocessed_attributes, i.2)
    else (true, r1, l.2.unprocessed_attributes, [])

/-- Renderer::AddEllipticalArcToPath: the result and the path after the call. -/
def AddEllipticalArcToPath (P : Platform) (iter : PathDataIterator) (path : List CGPathCall) :
    Bool × List CGPathCall :=
  if iter.command_type_ ≠ kPathCommandTypeEllipticalArc then (false, path)
  else
    let transform_rotation1 := P.CGAffineTransformMakeRotation (-iter.rotation_ * P.kPi / 180)
    let transform_scale1 :=
      CGAffineTransformMakeScale (1 / iter.arc_radius_x_) (1 / iter.arc_radius_y_)
    let transform1 := CGAffineTransformConcat transform_rotation1 transform_scale1
    let previous_point := CGPointApplyAffineTransform (P.CGPathGetCurrentPoint path) transform1
    let point := CGPointApplyAffineTransform iter.point_ transform1
    let arc := SvgArcToCgArc P previous_point point iter.large_arc_ iter.sweep_ ⟨1, ⟨0, 0⟩, 0, 0⟩
    if arc.1 = false then (false, path)
    else
      let transform2 := CGAffineTransformInvert transform1
      (true, path ++ [CGPathCall.AddArc transform2 arc.2.center.x arc.2.center.y arc.2.radius
        arc.2.start_angle arc.2.end_angle (!iter.sweep_)])

/-- The switch in the loop of ProcessPathData: the call for the command the
iterator is at, and `success`. -/
def pathCallForCommand (P : Platform) (iter : PathDataIterator) (path : List CGPathCall) :
    Bool × List CGPathCall :=
  match iter.command_type_ with
  | kPathCommandTypeMoveTo =>
    (true, path ++ [CGPathCall.MoveToPoint iter.point_.x iter.point_.y])
  | kPathCommandTypeLineTo | kPathCommandTypeHorizontalLineTo
  | kPathCommandTypeVerticalLineTo =>
    (true, path ++ [CGPathCall.AddLineToPoint iter.point_.x iter.point_.y])
  | kPathCommandTypeCubicBezier | kPathCommandTypeShorthandCubicBezier =>
    (true, path ++ [CGPathCall.AddCurveToPoint iter.control_point1_.x iter.control_point1_.y
      iter.control_point2_.x iter.control_point2_.y iter.point_.x iter.point_.y])
  | kPathCommandTypeQuadBezier | kPathCommandTypeShorthandQuadBezier =>
    (true, path ++ [CGPathCall.AddQuadCurveToPoint iter.control_point1_.x
      iter.control_point1_.y iter.point_.x iter.point_.y])
  | kPathCommandTypeEllipticalArc => AddEllipticalArcToPath P iter path
  | kPathCommandTypeClosePath => (true, path ++ [CGPathCall.CloseSubpath])

/-- The loop `while (iter->Next())` of ProcessPathData: the path that is
built.  Every round but the implicit close consumes a byte; ProcessPathData
gives the length of the data plus two as `fuel`. -/
def ProcessPathDataLoop (P : Platform) :
    Nat → PathDataIterator → List CGPathCall → List CGPathCall
  | 0, _, path => path
  | fuel + 1, iter, path =>
    let n := iter.Next P
    if n.1 = false then path
    else
      let c := pathCallForCommand P n.2 path
      if c.1 = false then c.2 else ProcessPathDataLoop P fuel n.2 c.2

/-- Renderer::ProcessPathData: the call `CGC_CALL(AddPath, ..., path)` it ends
with. -/
def ProcessPathData (P : Platform) (iter : PathDataIterator) : List CGCall :=
  [CGCall.AddPath (ProcessPathDataLoop P (iter.s_.length + 2) iter [])]

/-- Renderer::DrawClippedGradient. -/
def Renderer.DrawClippedGradient (P : Platform) (r : Renderer) (iri : List Char) : Renderer :=
  let id := iri.drop 1
  match FindValueOrNull r.gradients_ id with
  | none => r
  | some gradient =>
    let cg_gradient := CreateCGGradient gradient
    let bounding_box := P.CGContextGetPathBoundingBox r.context_
    let r1 := r.CGC_CALL CGCall.Clip
    let r2 :=
      if gradient.units = GradientUnits.kUnitsObjectBoundingBox then
        r1.CGC_CALL (CGCall.ConcatCTM (CGAffineTransformToNormalizeRect bounding_box))
      else r1
    let gradient_options := 3
    match gradient.type with
    | GradientType.kTypeLinear =>
      let linear := gradient.linear
      let start_point : CGPoint := ⟨EvaluateLength linear.x1, EvaluateLength linear.y1⟩
      let end_point : CGPoint := ⟨EvaluateLength linear.x2, EvaluateLength linear.y2⟩
      (r2.concatAll gradient.transforms).CGC_CALL
        (CGCall.DrawLinearGradient cg_gradient.1 cg_gradient.2 start_point end_point
          gradient_options)
    | GradientType.kTypeRadial =>
      let radial := gradient.radial
      let focal_point : CGPoint := ⟨EvaluateLength radial.fx, EvaluateLength radial.fy⟩
      let center_point : CGPoint := ⟨EvaluateLength radial.cx, EvaluateLength radial.cy⟩
      let radius := EvaluateLength radial.r
      (r2.concatAll gradient.transforms).CGC_CALL
        (CGCall.DrawRadialGradient cg_gradient.1 cg_gradient.2 focal_point 0 center_point
          radius gradient_options)

/-- The calls of `define_path(context_)` appended to the context. -/
def Renderer.definePath (r : Renderer) (define_path : List CGCall) : Renderer :=
  { r with context_ := r.context_ ++ define_path }

/-- Renderer::PaintElement.  `define_path` is given by the calls the callback
makes on the context. -/
def Renderer.PaintElement (P : Platform) (r : Renderer) (define_path : List CGCall)
    (is_fillable : Bool) : Renderer :=
  let r1 :=
    if is_fillable ∧ r.graphics_.fill.should_paint ∧ r.graphics_.display
        ∧ r.graphics_.visibility then
      let a := (r.CGC_CALL CGCall.SaveGState).definePath define_path
      let b :=
        if a.graphics_.fill.iri ≠ [] then a.DrawClippedGradient P a.graphics_.fill.iri
        else if a.graphics_.fill_rule = FillRule.kFillRuleEvenOdd then
          a.CGC_CALL CGCall.EOFillPath
        else a.CGC_CALL CGCall.FillPath
      b.CGC_CALL CGCall.RestoreGState
    else r
  if r1.graphics_.stroke.should_paint ∧ r1.graphics_.display ∧ r1.graphics_.visibility then
    let a := (r1.CGC_CALL CGCall.SaveGState).definePath define_path
    let b :=
      if a.graphics_.stroke.iri ≠ [] then
        (a.CGC_CALL CGCall.ReplacePathWithStrokedPath).DrawClippedGradient P
          a.graphics_.stroke.iri
      else a.CGC_CALL CGCall.StrokePath
    b.CGC_CALL CGCall.RestoreGState
  else r1

/-- Renderer::PaintPolyElement. -/
def Renderer.PaintPolyElement (P : Platform) (r : Renderer) (attributes : StringMap)
    (implicit_close : Bool) (uninitialized : PathDataIterator) : Renderer :=
  match FindValueOrNull attributes "points".data with
  | none => r
  | some points =>
    r.PaintElement P
      (CGCall.BeginPath :: ProcessPathData P
        (PathDataIterator.init uninitialized points kPathDataFormatPoints implicit_close))
      true

/-- Renderer::ProcessCircleElement. -/
def Renderer.ProcessCircleElement (P : Platform) (r : Renderer) (attributes : StringMap) :
    Renderer :=
  let cx := (FloatValueForKey P attributes "cx".data 0).2
  let cy := (FloatValueForKey P attributes "cy".data 0).2
  let rad := (FloatValueForKey P attributes "r".data 0).2
  if rad ≤ 0 then r
  else
    r.PaintElement P
      [CGCall.BeginPath, CGCall.AddArc cx cy rad 0 (2 * P.kPi) 1, CGCall.ClosePath] true

/-- Renderer::ProcessEllipseElement. -/
def Renderer.ProcessEllipseElement (P : Platform) (r : Renderer) (attributes : StringMap) :
    Renderer :=
  let cx := (FloatValueForKey P attributes "cx".data 0).2
  let cy := (FloatValueForKey P attributes "cy".data 0).2
  let rx := (FloatValueForKey P attributes "rx".data 0).2
  let ry := (FloatValueForKey P attributes "ry".data 0).2
  if rx ≤ 0 ∨ ry ≤ 0 then r
  else
    r.PaintElement P
      [CGCall.BeginPath, CGCall.AddEllipseInRect ⟨cx - rx, cy - ry, rx * 2, ry * 2⟩,
        CGCall.ClosePath] true

/-- Renderer::ProcessLineElement. -/
def Renderer.ProcessLineElement (P : Platform) (r : Renderer) (attributes : StringMap) :
    Renderer :=
  let x1 := (FloatValueForKey P attributes "x1".data 0).2
  let y1 := (FloatValueForKey P attributes "y1".data 0).2
  let x2 := (FloatValueForKey P attributes "x2".data 0).2
  let y2 := (FloatValueForKey P attributes "y2".data 0).2
  r.PaintElement P [CGCall.BeginPath, CGCall.MoveToPoint x1 y1, CGCall.AddLineToPoint x2 y2] true

/-- Renderer::BeginLinearGradientElement. -/
def Renderer.BeginLinearGradientElement (P : Platform) (r : Renderer) (attributes : StringMap) :
    Renderer :=
  let g := Gradient.init P GradientType.kTypeLinear attributes
  let x1 := (LengthValueForKey P attributes "x1".data ⟨0, LengthUnit.kUnitPercent⟩).2
  let y1 := (LengthValueForKey P attributes "y1".data ⟨0, LengthUnit.kUnitPercent⟩).2
  let x2 := (LengthValueForKey P attributes "x2".data ⟨100, LengthUnit.kUnitPercent⟩).2
  let y2 := (LengthValueForKey P attributes "y2".data ⟨0, LengthUnit.kUnitPercent⟩).2
  { r with pending_gradient_ := some { g with linear := ⟨x1, y1, x2, y2⟩ } }

/-- Renderer::EndLinearGradientElement and Renderer::EndRadialGradientElement
(the two have the same body).  `pending_gradient_->id` is read without a test
of the pointer: the result `none` stands for the dereference of a null
`pending_gradient_`. -/
def Renderer.EndGradientElement (r : Renderer) : Option Renderer :=
  match r.pending_gradient_ with
  | none => none
  | some g =>
    some { r with gradients_ := mapAssign r.gradients_ g.id g, pending_gradient_ := none }

/-- Renderer::BeginRadialGradientElement. -/
def Renderer.BeginRadialGradientElement (P : Platform) (r : Renderer) (attributes : StringMap) :
    Renderer :=
  let g := Gradient.init P GradientType.kTypeRadial attributes
  let cx := (LengthValueForKey P attributes "cx".data ⟨50, LengthUnit.kUnitPercent⟩).2
  let cy := (LengthValueForKey P attributes "cy".data ⟨50, LengthUnit.kUnitPercent⟩).2
  let rad := (LengthValueForKey P attributes "r".data ⟨50, LengthUnit.kUnitPercent⟩).2
  let fx := (LengthValueForKey P attributes "fx".data cx).2
  let fy := (LengthValueForKey P attributes "fy".data cy).2
  { r with pending_gradient_ := some { g with radial := ⟨fx, fy, cx, cy, rad⟩ } }

/-- Renderer::ProcessPathElement. -/
def Renderer.ProcessPathElement (P : Platform) (r : Renderer) (attributes : StringMap)
    (uninitialized : PathDataIterator) : Renderer :=
  match FindValueOrNull attributes "d".data with
  | none => r
  | some d_value =>
    r.PaintElement P
      (ProcessPathData P (PathDataIterator.init uninitialized d_value kPathDataFormatPath false))
      true

/-- Renderer::ProcessPolygonElement. -/
def Renderer.ProcessPolygonElement (P : Platform) (r : Renderer) (attributes : StringMap)
    (uninitialized : PathDataIterator) : Renderer :=
  r.PaintPolyElement P attributes true uninitialized

/-- Renderer::ProcessPolylineElement. -/
def Renderer.ProcessPolylineElement (P : Platform) (r : Renderer) (attributes : StringMap)
    (uninitialized : PathDataIterator) : Renderer :=
  r.PaintPolyElement P attributes false uninitialized

/-- Renderer::ProcessRectElement.  The width, the height and the radii come
from FloatValueForKey and may be NaN, for which every comparison is false. -/
def Renderer.ProcessRectElement (P : Platform) (r : Renderer) (attributes : StringMap) :
    Renderer :=
  let x := (FloatValueForKey P attributes "x".data 0).2
  let y := (FloatValueForKey P attributes "y".data 0).2
  let width := (FloatValueForKey P attributes "width".data 0).2
  let height := (FloatValueForKey P attributes "height".data 0).2
  if (P.isnan width = false ∧ width ≤ 0) ∨ (P.isnan height = false ∧ height ≤ 0) then r
  else
    let frx := FloatValueForKey P attributes "rx".data 0
    let fry := FloatValueForKey P attributes "ry".data 0
    let has_valid_rx := frx.1
    let has_valid_ry := fry.1
    if (P.isnan frx.2 = false ∧ frx.2 < 0) ∨ (P.isnan fry.2 = false ∧ fry.2 < 0) then r
    else
      let ry0 := if has_valid_rx ∧ has_valid_ry = false then frx.2 else fry.2
      let rx0 :=
        if has_valid_rx ∧ has_valid_ry = false then frx.2
        else if has_valid_rx = false ∧ has_valid_ry then fry.2 else frx.2
      let rx :=
        if P.isnan rx0 = false ∧ P.isnan width = false ∧ rx0 > width / 2 then width / 2 else rx0
      let ry :=
        if P.isnan ry0 = false ∧ P.isnan height = false ∧ ry0 > height / 2 then height / 2
        else ry0
      r.PaintElement P
        [CGCall.BeginPath, CGCall.AddPath [CGPathCall.AddRoundedRect ⟨x, y, width, height⟩ rx ry],
          CGCall.ClosePath] true

/-- Renderer::ProcessStopElement. -/
def Renderer.ProcessStopElement (P : Platform) (r : Renderer) (attributes : StringMap) :
    Renderer :=
  match r.pending_gradient_ with
  | none => r
  | some pending_gradient =>
    let l := LengthValueForKey P attributes "offset".data Length.default
    if l.1 = false then r
    else
      let offset_length := l.2
      let parsed : Option CGFloat :=
        if offset_length.unit = LengthUnit.kUnitNone then
          some (ClampToUnitRange offset_length.value)
        else if offset_length.unit = LengthUnit.kUnitPercent then
          some (ClampToUnitRange (offset_length.value / 100))
        else none
      match parsed with
      | none => r
      | some offset0 =>
        let last_offset : CGFloat :=
          match pending_gradient.stops.getLast? with
          | some stop => stop.offset
          | none => 0
        let offset := if offset0 < last_offset then last_offset else offset0
        { r with pending_gradient_ := some { pending_gradient with
          stops := pending_gradient.stops ++
            [⟨offset, r.graphics_.stop_color, r.graphics_.stop_opacity⟩] } }

/-- Renderer::BeginStyleElement. -/
def Renderer.BeginStyleElement (r : Renderer) (attributes : StringMap) : Renderer :=
  match FindValueOrNull attributes "type".data with
  | some style_type => r.updateBack fun st => { st with style_type_ := style_type }
  | none => r

/-- Renderer::MergeStyleSheet. -/
def Renderer.MergeStyleSheet (r : Renderer) (style_sheet : MSCStyleSheet) : Renderer :=
  { r with style_sheet_ := some (MSCStyleSheetMerge style_sheet (r.style_sheet_.getD ⟨[]⟩)) }

/-- Renderer::EndStyleElement. -/
def Renderer.EndStyleElement (r : Renderer) : Renderer :=
  match r.state_stack_ with
  | [] => r
  | top :: _ =>
    if top.style_type_ = "text/css".data then
      match ParseStyleSheetData top.style_text_ with
      | some style_sheet => r.MergeStyleSheet style_sheet
      | none => r
    else r

/-- The first part of ProcessSvgElement for `width` or `height`: the length,
or `none` where the function returns. -/
def svgDimension (P : Platform) (attributes : StringMap) (key : List Char) : Option Length :=
  match FindValueOrNull attributes key with
  | some str =>
    let l := ParseLength P (StringPiece.ofString str) Length.default
    if l.1 = false ∨ l.2.value < 0 then none
    else if l.2.value = 0 then none
    else some l.2
  | none => some ⟨100, LengthUnit.kUnitPercent⟩

/-- Renderer::ProcessSvgElement. -/
def Renderer.ProcessSvgElement (P : Platform) (r : Renderer) (attributes : StringMap) :
    Renderer :=
  match svgDimension P attributes "width".data with
  | none => r
  | some width =>
    match svgDimension P attributes "height".data with
    | none => r
    | some height =>
      let is_outmost_svg_element := decide (r.state_stack_.length = 2)
      let new_viewport : CGRect :=
        if is_outmost_svg_element then ⟨0, 0, r.canvas_size_width, r.canvas_size_height⟩
        else ⟨0, 0, width.value, height.value⟩
      let r1 := r.CGC_CALL (CGCall.ClipToRect new_viewport)
      let parsed_view_box : Option CGRect :=
        match FindValueOrNull attributes "viewBox".data with
        | some viewbox_str =>
          let v := ParseFloats P (StringPiece.ofString viewbox_str) 4 (List.replicate 4 0)
          if v.1 then some ⟨v.2.getD 0 0, v.2.getD 1 0, v.2.getD 2 0, v.2.getD 3 0⟩ else none
        | none => none
      let view_box : Option CGRect :=
        match parsed_view_box with
        | some vb => some vb
        | none => if is_outmost_svg_element then some ⟨0, 0, width.value, height.value⟩ else none
      match view_box with
      | none => r1
      | some vb =>
        let aspect_ratio : PreserveAspectRatio :=
          match FindValueOrNull attributes "preserveAspectRatio".data with
          | some aspect_ratio_str =>
            let a := ParsePreserveAspectRatio (StringPiece.ofString aspect_ratio_str)
              PreserveAspectRatio.default_value
            if a.1 then a.2 else PreserveAspectRatio.default_value
          | none => PreserveAspectRatio.default_value
        r1.CGC_CALL (CGCall.ConcatCTM
          (CGAffineTransformForPreserveAspectRatio aspect_ratio vb new_viewport))

/-- The call `(this->*(begin_handler))(unprocessed_attributes, unprocessed_styles)`.
`uninitialized` gives the contents of a PathDataIterator before its constructor
runs. -/
def Renderer.callBeginHandler (P : Platform) (uninitialized : PathDataIterator) (r : Renderer)
    (handler : BeginElementHandler) (attributes : StringMap) : Renderer :=
  match handler with
  | BeginElementHandler.ProcessCircleElement => r.ProcessCircleElement P attributes
  | BeginElementHandler.ProcessEllipseElement => r.ProcessEllipseElement P attributes
  | BeginElementHandler.ProcessGElement => r
  | BeginElementHandler.ProcessLineElement => r.ProcessLineElement P attributes
  | BeginElementHandler.BeginLinearGradientElement => r.BeginLinearGradientElement P attributes
  | BeginElementHandler.ProcessPathElement => r.ProcessPathElement P attributes uninitialized
  | BeginElementHandler.ProcessPolygonElement =>
    r.ProcessPolygonElement P attributes uninitialized
  | BeginElementHandler.ProcessPolylineElement =>
    r.ProcessPolylineElement P attributes uninitialized
  | BeginElementHandler.BeginRadialGradientElement => r.BeginRadialGradientElement P attributes
  | BeginElementHandler.ProcessRectElement => r.ProcessRectElement P attributes
  | BeginElementHandler.ProcessStopElement => r.ProcessStopElement P attributes
  | BeginElementHandler.BeginStyleElement => r.BeginStyleElement attributes
  | BeginElementHandler.ProcessSvgElement => r.ProcessSvgElement P attributes

/-- The call `(this->*(end_handler))()`; `none` when the handler dereferences
a null pointer. -/
def Renderer.callEndHandler (r : Renderer) (handler : EndElementHandler) : Option Renderer :=
  match handler with
  | EndElementHandler.EndLinearGradientElement => r.EndGradientElement
  | EndElementHandler.EndRadialGradientElement => r.EndGradientElement
  | EndElementHandler.EndStyleElement => some r.EndStyleElement

/-- Renderer::FindElementDefinition. -/
def Renderer.FindElementDefinition (r : Renderer) (name : List Char) : SVGElementDefinition :=
  match r.svg_element_definitions_.find? fun d => decide (d.name = name) with
  | some d => d
  | none => kSvgElementUnknown

/-- The node types of the reader that the event loop tells apart. -/
inductive XmlNodeType where
  | XML_READER_TYPE_ELEMENT | XML_READER_TYPE_END_ELEMENT | XML_READER_TYPE_TEXT | other
  deriving DecidableEq

/-- What the xmlTextReader delivers for one node. -/
structure XmlNode where
  node_type : XmlNodeType
  name : List Char
  isEmptyElement : Bool
  attributes : List (List Char × Option (List Char))
  attribute_error : Bool
  line_number : Int
  column_number : Int
  text : List Char
  deriving DecidableEq

/-- The first statement of the body of the loop of CreateCGImageFromMSCDocument,
`if (node_type == XML_READER_TYPE_ELEMENT) { ... }`: a frame is pushed, the
graphics state is saved, and the attributes and the begin handler are
processed.  The result false stands for `return nullptr`. -/
def Renderer.processElementNode (P : Platform) (uninitialized : PathDataIterator)
    (r : Renderer) (node : XmlNode) : Bool × Renderer :=
  let element_definition := r.FindElementDefinition node.name
  if node.node_type = XmlNodeType.XML_READER_TYPE_ELEMENT then
    let frame := State.init element_definition node.line_number node.column_number r.graphics_
    let r1 := { r with state_stack_ := frame :: r.state_stack_ }
    let r2 := r1.CGC_CALL CGCall.SaveGState
    let c := r2.ProcessCommonAttributes P node.attributes node.attribute_error
    if c.1 = false then (false, c.2.1)
    else
      match element_definition.begin_handler with
      | some begin_handler =>
        (true, c.2.1.callBeginHandler P uninitialized begin_handler c.2.2.1)
      | none => (true, c.2.1)
  else (true, r)

/-- The second statement of the body of the loop,
`if (node_type == XML_READER_TYPE_END_ELEMENT) { ... }`: the end handler of
`state_stack_.back()` is called.  The result `none` stands for undefined
behaviour: `back()` on an empty stack, or an end handler that dereferences a
null pointer. -/
def Renderer.processEndElementNode (r : Renderer) (node : XmlNode) : Option Renderer :=
  if node.node_type = XmlNodeType.XML_READER_TYPE_END_ELEMENT then
    match r.state_stack_ with
    | [] => none
    | st :: _ =>
      match st.element_definition.end_handler with
      | some end_handler => r.callEndHandler end_handler
      | none => some r
  else some r

/-- The third statement of the body of the loop,
`if (node_type == XML_READER_TYPE_TEXT) { ... }`: the text of a style element
is kept in `state_stack_.back()`; `none` for `back()` on an empty stack. -/
def Renderer.processTextNode (r : Renderer) (node : XmlNode) : Option Renderer :=
  if node.node_type = XmlNodeType.XML_READER_TYPE_TEXT then
    match r.state_stack_ with
    | [] => none
    | st :: _ =>
      if st.element_definition.name = "style".data
      then some (r.updateBack fun st => { st with style_text_ := node.text })
      else some r
  else some r

/-- The fourth statement of the body of the loop,
`if (node_type == XML_READER_TYPE_END_ELEMENT || isEmptyElement) { ... }`: the
frame on top is closed; `none` for `back()` on an empty stack. -/
def Renderer.closeElementNode (r : Renderer) (node : XmlNode) : Option Renderer :=
  if node.node_type = XmlNodeType.XML_READER_TYPE_END_ELEMENT ∨ node.isEmptyElement then
    match r.state_stack_ with
    | [] => none
    | top :: below =>
      let d := if top.defines_transparency_layer
        then r.CGC_CALL CGCall.EndTransparencyLayer else r
      let e := d.CGC_CALL CGCall.RestoreGState
      some { e with graphics_ := top.graphics, state_stack_ := below }
  else some r

/-- The body of the loop `while (xmlTextReaderRead(reader_) > 0)` of
CreateCGImageFromMSCDocument for one node: its four statements in turn.  The
result false stands for `return nullptr`; the result `none` stands for
undefined behaviour in one of the statements. -/
def Renderer.processNode (P : Platform) (uninitialized : PathDataIterator) (r : Renderer)
    (node : XmlNode) : Option (Bool × Renderer) :=
  let a := r.processElementNode P uninitialized node
  if a.1 = false then some (false, a.2)
  else
    (a.2.processEndElementNode node).bind fun b =>
      (b.processTextNode node).bind fun c =>
        (c.closeElementNode node).map fun e => (true, e)

/-- The loop `while (xmlTextReaderRead(reader_) > 0)` over the nodes of the
document; `none` when the body of the loop has undefined behaviour at a
node. -/
def Renderer.processNodes (P : Platform) (uninitialized : PathDataIterator) :
    List XmlNode → Renderer → Option (Bool × Renderer)
  | [], r => some (true, r)
  | node :: nodes, r =>
    match r.processNode P uninitialized node with
    | none => none
    | some n =>
      if n.1 = false then some (false, n.2)
      else Renderer.processNodes P uninitialized nodes n.2

/-- Renderer::InitializeCGContext. -/
def Renderer.InitializeCGContext (r : Renderer) : Renderer :=
  let bitmap_width : CGFloat := ⌊r.canvas_size_width⌋
  let bitmap_height : CGFloat := ⌊r.canvas_size_height⌋
  (((Renderer.CGC_CALL { r with context_ := [] }
    (CGCall.ClearRect ⟨0, 0, bitmap_width, bitmap_height⟩)).CGC_CALL
    (CGCall.TranslateCTM 0 r.canvas_size_height)).CGC_CALL (CGCall.ScaleCTM 1 (-1)))

/-- An MSCDocument as the XML reader sees it: the nodes it delivers and
whether the last xmlTextReaderRead reports an error. -/
structure MSCDocument where
  nodes : List XmlNode
  read_error : Bool
  deriving DecidableEq

/-- Renderer::CreateCGImageFromMSCDocument.  The image is given by the calls
the context received; an image `none` is a NULL result.  The result is `none`
when the loop over the nodes has undefined behaviour. -/
def Renderer.CreateCGImageFromMSCDocument (P : Platform) (uninitialized : PathDataIterator)
    (r : Renderer) (document : Option MSCDocument) (canvas_width canvas_height : CGFloat)
    (style_sheet : Option MSCStyleSheet) : Option (Option (List CGCall) × Renderer) :=
  let r0 := { r with canvas_size_width := ⌊canvas_width⌋, canvas_size_height := ⌊canvas_height⌋ }
  match document with
  | none => some (none, r0)
  | some doc =>
    if r0.canvas_size_width < 1 ∨ r0.canvas_size_height < 1 then some (none, r0)
    else
      let r1 :=
        match style_sheet with
        | some sheet => r0.MergeStyleSheet sheet
        | none => r0
      let r2 := r1.InitializeCGContext
      let r3 := r2.CGC_CALL (CGCall.SetRGBFillColor 0 0 0 1)
      match Renderer.processNodes P uninitialized doc.nodes r3 with
      | none => none
      | some l =>
        if l.1 = false then some (none, l.2)
        else if doc.read_error then some (none, l.2)
        else some (some l.2.context_, l.2)

/-! ## Definitions used in the statements -/

/-- A platform for evaluating the code on concrete inputs: arithmetic is exact,
so no value is infinite; the build has no colour keywords
(SVG_COLOR_KEYWORD_SUPPORT is 0); `kPi` is the approximation 355/113.  The
functions of libm and CoreGraphics are constant; the evaluations below do
not reach them.  NaN is kept as 1/3, which no decimal numeral writes. -/
def Platform.exact : Platform :=
  { isinf := fun _ => false
    pow := fun x e => FloatValue.number (x ^ e)
    powf := fun x e => FloatValue.number (x ^ e)
    nan := 1 / 3
    FindSVGStandardColorOrNull := fun _ => none
    kPi := 355 / 113
    CGAffineTransformMakeRotation := fun _ => ⟨1, 0, 0, 1, 0, 0⟩
    tan := fun _ => 0
    sqrt := fun _ => 0
    atan2 := fun _ _ => 0
    CGPathGetCurrentPoint := fun _ => ⟨0, 0⟩
    CGContextGetPathBoundingBox := fun _ => ⟨0, 0, 0, 0⟩ }

/-- A PathDataIterator object whose storage is all zero before the
constructor runs. -/
def PathDataIterator.zero : PathDataIterator :=
  { s_ := ⟨[], []⟩, implicit_close_ := false, large_arc_ := false, sweep_ := false
    format_ := kPathDataFormatPoints, command_type_ := kPathCommandTypeMoveTo
    point_ := ⟨0, 0⟩, control_point1_ := ⟨0, 0⟩, control_point2_ := ⟨0, 0⟩
    arc_radius_x_ := 0, arc_radius_y_ := 0, rotation_ := 0
    is_first_command_ := false, absolute_ := false, shown_close_path_ := false
    subpath_start_point_ := ⟨0, 0⟩, last_command_type_ := kPathCommandTypeMoveTo }

/-- The invariant of PaintState: nothing to paint implies an empty iri. -/
def PaintState.invariant (p : PaintState) : Prop :=
  p.should_paint = false → p.iri = []

/-- The node the reader delivers for a start tag, or for an empty-element tag
when `isEmptyElement` is true, with its attributes in document order. -/
def XmlNode.element (name : String) (attributes : List (String × String))
    (isEmptyElement : Bool) : XmlNode :=
  { node_type := XmlNodeType.XML_READER_TYPE_ELEMENT
    name := name.data
    isEmptyElement := isEmptyElement
    attributes := attributes.map fun a => (a.1.data, some a.2.data)
    attribute_error := false
    line_number := 0
    column_number := 0
    text := [] }

/-- The node the reader delivers for an end tag. -/
def XmlNode.endElement (name : String) : XmlNode :=
  { node_type := XmlNodeType.XML_READER_TYPE_END_ELEMENT
    name := name.data
    isEmptyElement := false
    attributes := []
    attribute_error := false
    line_number := 0
    column_number := 0
    text := [] }

/-- A StringMap from string literals. -/
def StringMap.ofStrings (entries : List (String × String)) : StringMap :=
  entries.map fun e => (e.1.data, e.2.data)

/-- The names that ProcessStyle takes as styles. -/
def styleNames : List (List Char) :=
  ["fill".data, "stroke".data, "stroke-linecap".data, "stroke-linejoin".data,
   "stroke-miterlimit".data, "stroke-width".data, "fill-opacity".data, "stroke-opacity".data,
   "stop-color".data, "stop-opacity".data]

/-- The attribute-form styles of an attribute list, in the order of the list. -/
def attributeFormStyles (attributes : List (List Char × Option (List Char))) :
    List (List Char × List Char) :=
  attributes.filterMap fun a =>
    match a.2 with
    | some value => if a.1 ∈ styleNames then some (a.1, value) else none
    | none => none

/-- The value of the last attribute of the given name in an attribute list,
`init` when there is none. -/
def lastAttributeValue (name : List Char) (init : List Char)
    (attributes : List (List Char × Option (List Char))) : List Char :=
  attributes.foldl
    (fun acc a =>
      match a.2 with
      | some value => if a.1 = name then value else acc
      | none => acc) init

/-- The declarations a style sheet holds for a class name, none without a
style sheet or without the class. -/
def classDeclarations (style_sheet : Option MSCStyleSheet) (class_name : List Char) :
    List (List Char × List Char) :=
  match style_sheet with
  | some sheet => (FindValueOrNull sheet.entry class_name).getD []
  | none => []

/-- What ProcessStyle leaves alone: the style sheet and the supported styles. -/
def sameSheet (a b : Renderer) : Prop :=
  a.style_sheet_ = b.style_sheet_ ∧ a.supported_styles_ = b.supported_styles_

/-- The states of a PathDataIterator after the successive calls of Next, up to
the first call that returns false and for at most `n` calls. -/
def PathDataIterator.trace (P : Platform) : Nat → PathDataIterator → List PathDataIterator
  | 0, _ => []
  | n + 1, it =>
    let r := it.Next P
    if r.1 then r.2 :: PathDataIterator.trace P n r.2 else []

/-- The point of the most recent MoveTo command in a list of iterator states,
the oldest state first. -/
def mostRecentMoveTo : List PathDataIterator → Option CGPoint
  | [] => none
  | st :: later =>
    match mostRecentMoveTo later with
    | some p => some p
    | none => if st.command_type_ = kPathCommandTypeMoveTo then some st.point_ else none

/-- The members of a PathDataIterator that the functions reading the operands
of a command leave alone. -/
def PathDataIterator.sameRegisters (a b : PathDataIterator) : Prop :=
  a.command_type_ = b.command_type_ ∧ a.format_ = b.format_ ∧
  a.subpath_start_point_ = b.subpath_start_point_ ∧
  a.last_command_type_ = b.last_command_type_ ∧
  a.implicit_close_ = b.implicit_close_ ∧ a.shown_close_path_ = b.shown_close_path_

/-- The command types and points that the successive calls of Next yield for
path data, with the result of the call after the last one that returned true. -/
def PathDataIterator.commands (P : Platform) (data : String) (format : PathDataFormat)
    (implicit_close : Bool) (n : Nat) : List (PathCommandType × CGPoint) × Bool :=
  let t := PathDataIterator.trace P n
    (PathDataIterator.init PathDataIterator.zero data.data format implicit_close)
  (t.map fun st => (st.command_type_, st.point_),
    ((t.getLast?.getD
      (PathDataIterator.init PathDataIterator.zero data.data format implicit_close)).Next P).1)

/-- The last byte of the cursor is a whitespace byte. -/
def StringPiece.endsInWhitespace (s : StringPiece) : Bool :=
  match s.view.getLast? with
  | some c => isspace c
  | none => false

/-- The cursor `t` is the cursor `s` moved forward inside its view. -/
def StringPiece.Suffix (s t : StringPiece) : Prop :=
  ∃ n, n ≤ s.view.length ∧ t = ⟨s.view.drop n, s.rest⟩

/-- The cursor `t` is the cursor `s` moved forward by at least one byte, the
last byte passed not being whitespace. -/
def StringPiece.Tight (s t : StringPiece) : Prop :=
  ∃ n, 0 < n ∧ n ≤ s.view.length ∧ t = ⟨s.view.drop n, s.rest⟩ ∧
    isspace (s.view.getD (n - 1) ' ') = false

/-- The bytes '0' to '9'. -/
def isDecimalDigit (c : Char) : Bool := decide ('0' ≤ c ∧ c ≤ '9')

/-- The number written by a run of decimal digits. -/
def decimalValue (ds : List Char) : Int :=
  ds.foldl (fun acc c => acc * 10 + ((c.toNat : Int) - 48)) 0

/-- The contents of an `int` that holds `start` after a run of decimal digits
is read into it from the left, as ConsumeDecimalInt does. -/
def digitsValueFrom (start : Int) (ds : List Char) : Int :=
  ds.foldl (fun acc c => wrapInt (wrapInt (acc * 10) + ((c.toNat : Int) - 48))) start

/-- The `int` that ConsumeDecimalInt reads from a run of decimal digits: the
number written by the run when that is below 2^31. -/
def digitsValue (ds : List Char) : Int := digitsValueFrom 0 ds

/-- The mantissa of a float: leading whitespace, an optional '-', the digits
of the integer part, an optional '.' with the digits of the fraction; at least
one digit is present.  The result is sign * (integer part + fraction digits /
10 ^ number of fraction digits), computed in the floating point type from the
two runs of digits read as `int`, and the text behind the mantissa. -/
def floatMantissa (P : Platform) (l : List Char) : Option (FloatValue × List Char) :=
  let l1 := l.dropWhile isspace
  let negative : Bool := decide (l1.head? = some '-')
  let l2 := if negative then l1.tail else l1
  let ds := l2.takeWhile isDecimalDigit
  let l3 := l2.dropWhile isDecimalDigit
  let point : Bool := decide (l3.head? = some '.')
  let fs := if point then l3.tail.takeWhile isDecimalDigit else []
  let l4 := if point then l3.tail.dropWhile isDecimalDigit else l3
  if ds = [] ∧ fs = [] then none
  else
    some (FloatValue.mul P (FloatValue.number (if negative then -1 else 1))
        (FloatValue.add P (FloatValue.number (digitsValue ds))
          (FloatValue.div P (FloatValue.number (digitsValue fs)) (P.powf 10 fs.length))),
      l4)

/-- The exponent of a float: the byte `e`, an optional '-' and at least one
digit.  The result is the signed exponent as an `int` and the text behind
it. -/
def floatExponent (e : Char) (l : List Char) : Option (Int × List Char) :=
  if l.head? = some e then
    let l5 := l.tail
    let negative : Bool := decide (l5.head? = some '-')
    let l6 := if negative then l5.tail else l5
    let ks := l6.takeWhile isDecimalDigit
    if ks = [] then none
    else
      some (wrapInt ((if negative then -1 else 1) * digitsValue ks), l6.dropWhile isDecimalDigit)
  else none

/-- The value of a float as text in the floating point type: a mantissa and,
when one follows, an exponent introduced by 'e', by which the mantissa is
scaled.  The result is the value and the text behind the float, `none` for a
text without a mantissa. -/
def floatOutcome (P : Platform) (l : List Char) : Option (FloatValue × List Char) :=
  match floatMantissa P l with
  | none => none
  | some (m, l4) =>
    match floatExponent 'e' l4 with
    | none => some (m, l4)
    | some (k, l7) => some (FloatValue.mul P m (P.pow 10 k), l7)

/-- A float as text: the number that `floatOutcome` gives and the text behind
the float.  A text whose value is an infinity is no float; for a text whose
value is NaN the result holds `P.nan`. -/
def floatSyntax (P : Platform) (l : List Char) : Option (CGFloat × List Char) :=
  match floatOutcome P l with
  | none => none
  | some (FloatValue.infinity _, _) => none
  | some (FloatValue.number v, tl) => some (v, tl)
  | some (FloatValue.nan, tl) => some (P.nan, tl)

/-- The value of a key of a map is a float whose value is NaN. -/
def valueIsNaN (P : Platform) (map : StringMap) (key : List Char) : Bool :=
  match FindValueOrNull map key with
  | some value =>
    match floatOutcome P value with
    | some (FloatValue.nan, _) => true
    | _ => false
  | none => false

/-- The text has, after leading whitespace and an optional '-', a decimal
digit either directly or directly after a '.'. -/
def hasFloatDigits (l : List Char) : Bool :=
  let l1 := l.dropWhile isspace
  let l2 := if l1.head? = some '-' then l1.tail else l1
  match l2 with
  | [] => false
  | c :: t =>
    isDecimalDigit c ||
      (decide (c = '.') && match t with
        | [] => false
        | d :: _ => isDecimalDigit d)

/-- A platform whose CGFloat is an IEEE double: a value of magnitude 2^1024 or
more is infinite; `std::pow(10, e)` is infinite from 10^309 on and zero from
10^-324 down; `std::powf(10, e)`, a float, is infinite from 10^39 on.  Nothing
else differs from `Platform.exact`. -/
def Platform.double : Platform :=
  { Platform.exact with
    isinf := fun v => decide ((2 : CGFloat) ^ 1024 ≤ |v|)
    pow := fun x e =>
      if x = 10 ∧ 309 ≤ e then FloatValue.infinity false
      else if x = 10 ∧ e ≤ -324 then FloatValue.number 0
      else FloatValue.number (x ^ e)
    powf := fun x e =>
      if x = 10 ∧ 39 ≤ e then FloatValue.infinity false
      else FloatValue.number (x ^ e) }

/-- The text `rgb(` a `,` b `,` c `)` of a functional colour: `a`, `b`, `c`
are the digits of the components, `pa`, `pb`, `pc` say which of them carry a
percent sign, `w0` is the whitespace behind the parenthesis, `w1` to `w4` the
whitespace around the commas, `w5` the whitespace before the closing
parenthesis and `tail` the text behind it. -/
def rgbText (w0 a w1 w2 b w3 w4 c w5 tail : List Char) (pa pb pc : Bool) : List Char :=
  "rgb(".data ++ (w0 ++ (a ++ ((if pa then ['%'] else []) ++ (w1 ++ ',' :: (w2 ++
    (b ++ ((if pb then ['%'] else []) ++ (w3 ++ ',' :: (w4 ++
      (c ++ ((if pc then ['%'] else []) ++ (w5 ++ ')' :: tail))))))))))))

/-- The last lines of PathDataIterator::Next, given the result of the command
parser: on success `is_first_command_` is cleared and `last_command_type_` is
set. -/
def PathDataIterator.finish (r : Bool × PathDataIterator) : Bool × PathDataIterator :=
  if r.1 then
    (true, { r.2 with is_first_command_ := false, last_command_type_ := r.2.command_type_ })
  else (false, r.2)

/-- The result of the `k`-th call of Next (counted from 0) on an iterator,
whatever the earlier calls returned. -/
def PathDataIterator.call (P : Platform) (it : PathDataIterator) :
    Nat → Bool × PathDataIterator
  | 0 => it.Next P
  | k + 1 => (PathDataIterator.call P it k).2.Next P

/-- What the `k`-th call of Next yields: the command type and the point when
it returns true. -/
def PathDataIterator.yield (P : Platform) (it : PathDataIterator) (k : Nat) :
    Option (PathCommandType × CGPoint) :=
  let r := PathDataIterator.call P it k
  if r.1 then some (r.2.command_type_, r.2.point_) else none

/-- The delimiter between two numbers as the specification words it: a single
comma with any whitespace around it.  The result is the text behind the
delimiter; a text that has no comma after its leading whitespace is left as it
is. -/
def skipNumberDelimiter (l : List Char) : List Char :=
  let l1 := l.dropWhile isspace
  if l1.head? = some ',' then l1.tail.dropWhile isspace else l

/-- The declarations of a class after a merge as the specification words
them: the declarations of the destination followed by those of the source, a
missing list counting as empty; the class is absent when both are. -/
def appendDeclarations (dest source : Option (List (List Char × List Char))) :
    Option (List (List Char × List Char)) :=
  match dest, source with
  | none, none => none
  | some d, none => some d
  | none, some s => some s
  | some d, some s => some (d ++ s)

/-- The class names of a style sheet. -/
def MSCStyleSheet.keys (sheet : MSCStyleSheet) : List (List Char) :=
  sheet.entry.map Prod.fst

/-- Where a byte of a style sheet stands, in the words of the specification:
outside a rule, in the class name behind a '.', between the selector and its
brace, or inside the braces of a rule. -/
inductive SheetPosition where
  | outside | selector | beforeBrace | contents
  deriving DecidableEq

/-- The text of a style sheet has a hard-error byte, as the specification
words it: outside a rule a byte that is neither '.' nor whitespace (`ws`), or
between a selector and its brace a byte that is neither a space nor '{'.
The class name is made of ASCII letters, digits, '-' and '_'. -/
def hasHardErrorByte (ws : Char → Bool) : SheetPosition → List Char → Bool
  | _, [] => false
  | SheetPosition.outside, c :: cs =>
    if c = '.' then hasHardErrorByte ws SheetPosition.selector cs
    else if ws c then hasHardErrorByte ws SheetPosition.outside cs
    else true
  | SheetPosition.selector, c :: cs =>
    if isSelectorNameChar c then hasHardErrorByte ws SheetPosition.selector cs
    else if c = '{' then hasHardErrorByte ws SheetPosition.contents cs
    else if c = ' ' then hasHardErrorByte ws SheetPosition.beforeBrace cs
    else true
  | SheetPosition.beforeBrace, c :: cs =>
    if c = '{' then hasHardErrorByte ws SheetPosition.contents cs
    else if c = ' ' then hasHardErrorByte ws SheetPosition.beforeBrace cs
    else true
  | SheetPosition.contents, c :: cs =>
    if c = '}' then hasHardErrorByte ws SheetPosition.outside cs
    else hasHardErrorByte ws SheetPosition.contents cs

/-- The bytes that ParseStyleSheetData skips outside a rule: newline, tab and
space. -/
def isSheetWhitespace (c : Char) : Bool :=
  decide (c = '\n' ∨ c = '\t' ∨ c = ' ')

/-- The three alignment names that make up the keywords xAYB of
preserveAspectRatio, with the alignment each one stands for. -/
def alignmentNames : List (List Char × Alignment) :=
  [("Min".data, Alignment.kMin), ("Mid".data, Alignment.kMid), ("Max".data, Alignment.kMax)]

/-- The text of a preserveAspectRatio value behind the leading whitespace, an
optional "defer" and the whitespace after it: the place of the alignment
keyword. -/
def afterDefer (l : List Char) : List Char :=
  let t0 := l.dropWhile isspace
  (if "defer".data.isPrefixOf t0 then t0.drop 5 else t0).dropWhile isspace

/-- A list of `count` floats as text, with an optional delimiter (a single
comma with any whitespace, or whitespace alone) before every float but the
first.  The result is the values and the text behind the last float. -/
def floatsSyntax (P : Platform) : Nat → Bool → List Char → Option (List CGFloat × List Char)
  | 0, _, l => some ([], l)
  | n + 1, first, l =>
    match floatSyntax P (if first then l else skipNumberDelimiter l) with
    | none => none
    | some (v, tl) =>
      match floatsSyntax P n false tl with
      | none => none
      | some (vs, tl2) => some (v :: vs, tl2)

/-- The arguments of a transform function as text: '(' , exactly `count`
floats, optional whitespace and ')'.  The result is the values and the text
behind the closing parenthesis. -/
def argumentsSyntax (P : Platform) (count : Nat) (l : List Char) :
    Option (List CGFloat × List Char) :=
  match l with
  | '(' :: r =>
    match floatsSyntax P count true r with
    | none => none
    | some (vals, tl) =>
      match tl.dropWhile isspace with
      | ')' :: tl2 => some (vals, tl2)
      | _ => none
  | _ => none

/-- The cursor `s_copy` of TransformIterator::Next before the function name is
read: behind the whitespace and, unless this is the first call, the
delimiters. -/
def TransformIterator.start (it : TransformIterator) : StringPiece :=
  if it.is_first = false then ConsumeTransformDelimeters (ConsumeWhitespace it.s_).2
  else (ConsumeWhitespace it.s_).2

/-- The values written by a loop that stores `vals` in an array from index
`i` on. -/
def storeFrom (v : List CGFloat) : Nat → List CGFloat → List CGFloat
  | _, [] => v
  | i, x :: xs => storeFrom (v.set i x) (i + 1) xs

/-- The text of a property or value with the whitespace at both ends removed. -/
def trimWhitespace (l : List Char) : List Char :=
  ((l.dropWhile isspace).reverse.dropWhile isspace).reverse

/-- The declaration string p1:v1;p2:v2;...;pn:vn of the pairs (pi, vi), which
carry their surrounding whitespace; the string ends in ';' when `closed` is
set. -/
def declarationText : List (List Char × List Char) → Bool → List Char
  | [], _ => []
  | [d], closed => d.1 ++ ':' :: (d.2 ++ if closed then [';'] else [])
  | d :: d2 :: ds, closed => d.1 ++ ':' :: (d.2 ++ ';' :: declarationText (d2 :: ds) closed)

/-- The pairs (trim(pi), trim(vi)) whose property is in the set `supported`,
in source order. -/
def supportedDeclarations (ds : List (List Char × List Char)) (supported : List (List Char)) :
    List (List Char × List Char) :=
  (ds.map fun d => (trimWhitespace d.1, trimWhitespace d.2)).filter
    fun d => decide (d.1 ∈ supported)

/-! ## The bytes that ParseStyleSheetData reads -/

/-- The inner loop `while (... data[i + 1] ...) selector_name += data[(i++) + 1]`
of ParseStyleSheetData: the indices it reads and the value of `i` behind it.
`memory` holds the bytes from `data` on, the input and what lies behind it; a
byte behind `memory` reads as NUL.  The loop has no test against
`data_length`; `fuel` is the length of `memory` plus one. -/
def selectorNameReads (memory : List Char) : Nat → Nat → List Nat × Nat
  | 0, i => ([], i)
  | fuel + 1, i =>
    if isSelectorNameChar (memory.getD (i + 1) '\x00') then
      let r := selectorNameReads memory fuel (i + 1)
      ((i + 1) :: r.1, r.2)
    else ([i + 1], i)

/-- The loop `for (size_t i = 0; i < data_length; i++)` of ParseStyleSheetData
from the index `i` on: the indices of `data` that are read, in order.  Every
round raises `i`; `fuel` is `data_length` plus one. -/
def ParseStyleSheetDataReadsLoop (memory : List Char) (data_length : Nat) :
    Nat → Nat → ParserState → List Nat
  | 0, _, _ => []
  | fuel + 1, i, state =>
    if i < data_length then
      match state with
      | ParserState.OUTSIDE_CONTENTS =>
        if memory.getD i '\x00' = '.' then
          let r := selectorNameReads memory (memory.length + 1) i
          i :: (r.1 ++ ParseStyleSheetDataReadsLoop memory data_length fuel (r.2 + 1)
            ParserState.BEFORE_VALUE)
        else if memory.getD i '\x00' = '\n' ∨ memory.getD i '\x00' = '\t'
            ∨ memory.getD i '\x00' = ' ' then
          i :: ParseStyleSheetDataReadsLoop memory data_length fuel (i + 1) state
        else [i]
      | ParserState.BEFORE_VALUE =>
        if memory.getD i '\x00' = '{' then
          i :: ParseStyleSheetDataReadsLoop memory data_length fuel (i + 1)
            ParserState.FINDING_VALUE
        else if memory.getD i '\x00' = ' ' then
          i :: ParseStyleSheetDataReadsLoop memory data_length fuel (i + 1) state
        else [i]
      | ParserState.FINDING_VALUE =>
        if memory.getD i '\x00' = '}' then
          i :: ParseStyleSheetDataReadsLoop memory data_length fuel (i + 1)
            ParserState.OUTSIDE_CONTENTS
        else i :: ParseStyleSheetDataReadsLoop memory data_length fuel (i + 1) state
    else []

/-- The indices of `data` that ParseStyleSheetData(data, data_length) reads. -/
def ParseStyleSheetDataReads (memory : List Char) (data_length : Nat) : List Nat :=
  ParseStyleSheetDataReadsLoop memory data_length (data_length + 1) 0
    ParserState.OUTSIDE_CONTENTS

/-! ## The rules of a style sheet, as the specification words them -/

/-- The position behind a text of a style sheet that starts at the given
position; `none` when the text has a hard-error byte.  A text that is made of
complete rules and the whitespace between them, and nothing else, leads from
outside a rule to outside a rule. -/
def positionAfter : SheetPosition → List Char → Option SheetPosition
  | pos, [] => some pos
  | SheetPosition.outside, c :: cs =>
    if c = '.' then positionAfter SheetPosition.selector cs
    else if isSheetWhitespace c then positionAfter SheetPosition.outside cs
    else none
  | SheetPosition.selector, c :: cs =>
    if isSelectorNameChar c then positionAfter SheetPosition.selector cs
    else if c = '{' then positionAfter SheetPosition.contents cs
    else if c = ' ' then positionAfter SheetPosition.beforeBrace cs
    else none
  | SheetPosition.beforeBrace, c :: cs =>
    if c = '{' then positionAfter SheetPosition.contents cs
    else if c = ' ' then positionAfter SheetPosition.beforeBrace cs
    else none
  | SheetPosition.contents, c :: cs =>
    if c = '}' then positionAfter SheetPosition.outside cs
    else positionAfter SheetPosition.contents cs

/-- The flag `in_name` of the parser loop at a position. -/
def SheetPosition.inName : SheetPosition → Bool
  | SheetPosition.selector => true
  | _ => false

/-- The ParserState of the parser loop at a position. -/
def SheetPosition.parserState : SheetPosition → ParserState
  | SheetPosition.outside => ParserState.OUTSIDE_CONTENTS
  | SheetPosition.contents => ParserState.FINDING_VALUE
  | _ => ParserState.BEFORE_VALUE

/-- The body of a rule without its spaces and newlines. -/
def withoutSpacesAndNewlines (body : List Char) : List Char :=
  body.filter fun c => decide (¬ (c = ' ' ∨ c = '\n'))

/-- The properties that ParseStyleSheetData gives to its StyleIterator. -/
def sheetProperties : List (List Char) :=
  ["fill".data, "stop-color".data, "stroke".data, "stroke-width".data]

/-- The entries of a style sheet whose class name is not among `taken`. -/
def entriesNotIn (taken : List (List Char))
    (entries : List (List Char × List (List Char × List Char))) :
    List (List Char × List (List Char × List Char)) :=
  entries.filter fun e => decide (e.1 ∉ taken)

/-! ## The calls of Next that are left -/

/-- A bound for the calls of Next that can still return true: the bytes left
in the cursor, and one more while the implicit ClosePath is still to come. -/
def PathDataIterator.budget (it : PathDataIterator) : Nat :=
  it.s_.length + (if it.implicit_close_ = true ∧ it.shown_close_path_ = false then 1 else 0)

/-! ## The scopes of the graphics state -/

/-- The graphics states kept in the frames of `state_stack_`, the top frame
first. -/
def Renderer.stackGraphics (r : Renderer) : List GraphicsState :=
  r.state_stack_.map fun st => st.graphics

/-- The number of SaveGState calls in a list of calls on the context. -/
def saveCount (calls : List CGCall) : Nat := calls.count CGCall.SaveGState

/-- The number of RestoreGState calls in a list of calls on the context. -/
def restoreCount (calls : List CGCall) : Nat := calls.count CGCall.RestoreGState

/-- The calls take the number of graphics states saved on the context from `d`
to `d'`: no prefix of them restores more than `d` states beyond those it has
saved, and the totals differ as `d` and `d'` do. -/
def gstateFromTo (d d' : Nat) (calls : List CGCall) : Prop :=
  (∀ k : Nat, restoreCount (calls.take k) ≤ saveCount (calls.take k) + d) ∧
  saveCount calls + d = restoreCount calls + d'

/-- The renderer `b` comes from `a` by calls on the context that take the number
of saved graphics states from `d` to `d'`, with the graphics states in the
frames of the stack as they were. -/
def framesStep (d d' : Nat) (a b : Renderer) : Prop :=
  b.stackGraphics = a.stackGraphics ∧
  ∃ es : List CGCall, b.context_ = a.context_ ++ es ∧ gstateFromTo d d' es

/-- The number of open elements after a node that is read with `d` elements
open: a node of type ELEMENT opens one, and a node of type END_ELEMENT or an
empty element closes one; `none` when there is no open element to close. -/
def XmlNode.depthAfter (node : XmlNode) (d : Nat) : Option Nat :=
  let opened := if node.node_type = XmlNodeType.XML_READER_TYPE_ELEMENT then d + 1 else d
  if node.node_type = XmlNodeType.XML_READER_TYPE_END_ELEMENT ∨ node.isEmptyElement = true then
    (if opened = 0 then none else some (opened - 1))
  else some opened

/-- The number of open elements after a list of nodes that is read with `d`
elements open; `none` when some node closes an element that is not open.  A
list of nodes is well nested when `nesting 0` of it is `some 0`. -/
def nesting : Nat → List XmlNode → Option Nat
  | d, [] => some d
  | d, node :: nodes =>
    match node.depthAfter d with
    | some d1 => nesting d1 nodes
    | none => none

end MetroSVG

/-! # Theorems -/

namespace MetroSVG

open PathCommandType PathDataFormat

/-! ## C7: PaintState -/

/-- C7: the PaintState invariant (should_paint = false implies an empty iri)
holds for the default fill and stroke states and is kept by set_should_paint,
set_color, set_iri and ApplyOpacity; set_color and set_iri leave
should_paint = true; set_should_paint(false) empties iri and keeps color and
opacity. -/
theorem paint_state_invariant (p : PaintState) (h : p.invariant) (b : Bool) (c : RgbColor)
    (i : List Char) (o : CGFloat) :
    GraphicsState.init.fill.invariant ∧ GraphicsState.init.stroke.invariant ∧
    (p.set_should_paint b).invariant ∧ (p.set_color c).invariant ∧ (p.set_iri i).invariant ∧
    (p.ApplyOpacity o).invariant ∧
    (p.set_color c).should_paint = true ∧ (p.set_iri i).should_paint = true ∧
    (p.set_should_paint false).iri = [] ∧ (p.set_should_paint false).color = p.color ∧
    (p.set_should_paint false).opacity = p.opacity := by
  refine ⟨?_, ?_, ?_, ?_, ?_, ?_, rfl, rfl, rfl, rfl, rfl⟩
  · intro _; rfl
  · intro _; rfl
  · intro hb
    cases b with
    | false => rfl
    | true => exact absurd hb (by simp [PaintState.set_should_paint])
  · intro hc; exact absurd hc (by simp [PaintState.set_color])
  · intro hi; exact absurd hi (by simp [PaintState.set_iri])
  · intro ho; exact h ho

/-- C7 at the default stroke state, which paints nothing and has no iri. -/
theorem paint_state_invariant_witness :
    GraphicsState.init.stroke.invariant ∧
    ((GraphicsState.init.stroke.set_iri "#g".data).set_should_paint false).iri = [] ∧
    (GraphicsState.init.stroke.set_color (RgbColor.make 1 0 0)).should_paint = true :=
  ⟨fun _ => rfl,
   (paint_state_invariant (GraphicsState.init.stroke.set_iri "#g".data)
      (fun hp => absurd hp (by simp [PaintState.set_iri])) false RgbColor.default [] 1).2.2.2.2.2.2.2.2.1,
   (paint_state_invariant GraphicsState.init.stroke (fun _ => rfl) false (RgbColor.make 1 0 0)
      [] 1).2.2.2.2.2.2.1⟩

theorem ConsumeNumberDelimiter_false (s : StringPiece) :
    (ConsumeNumberDelimiter s).1 = false → (ConsumeNumberDelimiter s).2 = s := by
  unfold ConsumeNumberDelimiter; dsimp only; split_ifs <;> simp

theorem ConsumeDecimalInt_false (s : StringPiece) (n : Int) :
    (ConsumeDecimalInt s n).1 = false → (ConsumeDecimalInt s n).2.1 = s := by
  unfold ConsumeDecimalInt; dsimp only; split_ifs <;> simp

theorem ConsumeDecimalIntPercent_false (s : StringPiece) (n : Int) :
    (ConsumeDecimalIntPercent s n).1 = false → (ConsumeDecimalIntPercent s n).2.1 = s := by
  unfold ConsumeDecimalIntPercent; dsimp only; split_ifs <;> simp

theorem ConsumeHexInt_false (s : StringPiece) (w n : Int) :
    (ConsumeHexInt s w n).1 = false → (ConsumeHexInt s w n).2.1 = s := by
  unfold ConsumeHexInt; dsimp only; split_ifs <;> simp

theorem ConsumeSign_false (s : StringPiece) :
    (ConsumeSign s).1 = false → (ConsumeSign s).2 = s := by
  unfold ConsumeSign; split_ifs <;> simp

theorem ConsumeWhitespace_false (s : StringPiece) :
    (ConsumeWhitespace s).1 = false → (ConsumeWhitespace s).2 = s := by
  unfold ConsumeWhitespace; dsimp only; split_ifs <;> simp

theorem ConsumeFloat_false (P : Platform) (s : StringPiece) (f : CGFloat) :
    (ConsumeFloat P s f).1 = false → (ConsumeFloat P s f).2.1 = s := by
  unfold ConsumeFloat; dsimp only
  split_ifs
  all_goals first
    | (simp; done)
    | (split <;> simp)

theorem GenericConsumeValues_false {Value : Type} [Inhabited Value]
    (cv : StringPiece → Value → Bool × StringPiece × Value)
    (cd : StringPiece → Bool × StringPiece) (s : StringPiece) (count : Nat)
    (varray : List Value) (opt : Bool) :
    (GenericConsumeValues cv cd s count varray opt).1 = false →
    (GenericConsumeValues cv cd s count varray opt).2.1 = s := by
  unfold GenericConsumeValues; dsimp only; split_ifs <;> simp

theorem ConsumeFloats_false (P : Platform) (s : StringPiece) (count : Nat) (fa : List CGFloat) :
    (ConsumeFloats P s count fa).1 = false → (ConsumeFloats P s count fa).2.1 = s :=
  GenericConsumeValues_false _ _ _ _ _ _

theorem ConsumeLength_false (P : Platform) (s : StringPiece) (l : Length) :
    (ConsumeLength P s l).1 = false → (ConsumeLength P s l).2.1 = s := by
  unfold ConsumeLength; dsimp only; split_ifs <;> simp

theorem ConsumeString_false (s : StringPiece) (str : List Char) (cs : Bool) :
    (ConsumeString s str cs).1 = false → (ConsumeString s str cs).2 = s := by
  unfold ConsumeString; split_ifs <;> simp

theorem ConsumeParenthesizedFloats_false (P : Platform) (s : StringPiece) (count : Nat)
    (fa : List CGFloat) :
    (ConsumeParenthesizedFloats P s count fa).1 = false →
    (ConsumeParenthesizedFloats P s count fa).2.1 = s := by
  unfold ConsumeParenthesizedFloats; dsimp only; split_ifs <;> simp

theorem ConsumeFlag_false (s : StringPiece) (flag : Bool) :
    (ConsumeFlag s flag).1 = false → (ConsumeFlag s flag).2.1 = s := by
  unfold ConsumeFlag; dsimp only; split_ifs <;> simp

theorem ConsumeHexadecimalColor_false (s : StringPiece) (rgb : RgbColor) :
    (ConsumeHexadecimalColor s rgb).1 = false → (ConsumeHexadecimalColor s rgb).2.1 = s := by
  unfold ConsumeHexadecimalColor
  split_ifs
  · simp
  · split
    · simp
    · dsimp only; split_ifs <;> simp

theorem ConsumeFunctionalColorClose_false (s s_copy : StringPiece) (rgb : RgbColor) :
    (ConsumeFunctionalColorClose s s_copy rgb).1 = false →
    (ConsumeFunctionalColorClose s s_copy rgb).2.1 = s := by
  unfold ConsumeFunctionalColorClose; dsimp only; split_ifs <;> simp

theorem ConsumeFunctionalColor_false (s : StringPiece) (rgb : RgbColor) :
    (ConsumeFunctionalColor s rgb).1 = false → (ConsumeFunctionalColor s rgb).2.1 = s := by
  unfold ConsumeFunctionalColor; dsimp only
  split_ifs
  · simp
  · exact ConsumeFunctionalColorClose_false _ _ _
  · exact ConsumeFunctionalColorClose_false _ _ _
  · simp

theorem ConsumeIri_false (s iri : StringPiece) :
    (ConsumeIri s iri).1 = false → (ConsumeIri s iri).2.1 = s := by
  unfold ConsumeIri; dsimp only
  split_ifs
  · simp
  · split <;> simp

theorem ConsumePreserveAspectRatio_false (s : StringPiece) (a : PreserveAspectRatio) :
    (ConsumePreserveAspectRatio s a).1 = false → (ConsumePreserveAspectRatio s a).2.1 = s := by
  unfold ConsumePreserveAspectRatio; dsimp only; split_ifs <;> simp


/-- C1: for every consumer of BasicValueParsers and every cursor, a false
result leaves the cursor (begin and length) as it was before the call. -/
theorem consume_failure_keeps_cursor (P : Platform) (s : StringPiece) (n width : Int)
    (f : CGFloat) (count : Nat) (farray : List CGFloat) (length : Length) (string : List Char)
    (case_sensitive flag : Bool) (rgb : RgbColor) (iri : StringPiece)
    (aspect_ratio : PreserveAspectRatio) :
    ((ConsumeNumberDelimiter s).1 = false → (ConsumeNumberDelimiter s).2 = s) ∧
    ((ConsumeDecimalInt s n).1 = false → (ConsumeDecimalInt s n).2.1 = s) ∧
    ((ConsumeDecimalIntPercent s n).1 = false → (ConsumeDecimalIntPercent s n).2.1 = s) ∧
    ((ConsumeHexInt s width n).1 = false → (ConsumeHexInt s width n).2.1 = s) ∧
    ((ConsumeSign s).1 = false → (ConsumeSign s).2 = s) ∧
    ((ConsumeFloat P s f).1 = false → (ConsumeFloat P s f).2.1 = s) ∧
    ((ConsumeFloats P s count farray).1 = false → (ConsumeFloats P s count farray).2.1 = s) ∧
    ((ConsumeLength P s length).1 = false → (ConsumeLength P s length).2.1 = s) ∧
    ((ConsumeParenthesizedFloats P s count farray).1 = false →
      (ConsumeParenthesizedFloats P s count farray).2.1 = s) ∧
    ((ConsumeString s string case_sensitive).1 = false →
      (ConsumeString s string case_sensitive).2 = s) ∧
    ((ConsumeFlag s flag).1 = false → (ConsumeFlag s flag).2.1 = s) ∧
    ((ConsumeHexadecimalColor s rgb).1 = false → (ConsumeHexadecimalColor s rgb).2.1 = s) ∧
    ((ConsumeFunctionalColor s rgb).1 = false → (ConsumeFunctionalColor s rgb).2.1 = s) ∧
    ((ConsumeIri s iri).1 = false → (ConsumeIri s iri).2.1 = s) ∧
    ((ConsumePreserveAspectRatio s aspect_ratio).1 = false →
      (ConsumePreserveAspectRatio s aspect_ratio).2.1 = s) ∧
    ((ConsumeWhitespace s).1 = false → (ConsumeWhitespace s).2 = s) :=
  ⟨ConsumeNumberDelimiter_false s, ConsumeDecimalInt_false s n,
   ConsumeDecimalIntPercent_false s n, ConsumeHexInt_false s width n, ConsumeSign_false s,
   ConsumeFloat_false P s f, ConsumeFloats_false P s count farray,
   ConsumeLength_false P s length, ConsumeParenthesizedFloats_false P s count farray,
   ConsumeString_false s string case_sensitive, ConsumeFlag_false s flag,
   ConsumeHexadecimalColor_false s rgb, ConsumeFunctionalColor_false s rgb,
   ConsumeIri_false s iri, ConsumePreserveAspectRatio_false s aspect_ratio,
   ConsumeWhitespace_false s⟩

/-- C1 on the cursor "12x" inside the buffer "12x%": ConsumeDecimalIntPercent
reads the digits, finds no percent sign and fails; ConsumeFloats for two
values reads "12" and fails on "x".  Both leave the cursor where it was. -/
theorem consume_failure_keeps_cursor_witness :
    (ConsumeDecimalIntPercent ⟨"12x".data, "%".data⟩ 0).1 = false ∧
    (ConsumeDecimalIntPercent ⟨"12x".data, "%".data⟩ 0).2.1 = ⟨"12x".data, "%".data⟩ ∧
    (ConsumeFloats Platform.exact ⟨"12x".data, "%".data⟩ 2 [0, 0]).1 = false ∧
    (ConsumeFloats Platform.exact ⟨"12x".data, "%".data⟩ 2 [0, 0]).2.1
      = ⟨"12x".data, "%".data⟩ :=
  ⟨by decide,
   (consume_failure_keeps_cursor Platform.exact ⟨"12x".data, "%".data⟩ 0 0 0 2 [0, 0]
      Length.default [] true false RgbColor.default ⟨[], []⟩
      PreserveAspectRatio.default_value).2.2.1 (by decide),
   by decide!,
   (consume_failure_keeps_cursor Platform.exact ⟨"12x".data, "%".data⟩ 0 0 0 2 [0, 0]
      Length.default [] true false RgbColor.default ⟨[], []⟩
      PreserveAspectRatio.default_value).2.2.2.2.2.2.1 (by decide!)⟩

/-! ## C6: gradient stops -/

theorem ClampToUnitRange_mem (v : CGFloat) :
    0 ≤ ClampToUnitRange v ∧ ClampToUnitRange v ≤ 1 := by
  unfold ClampToUnitRange
  exact ⟨le_min (le_max_right _ _) zero_le_one, min_le_right _ _⟩

/-- C4, the code at the failing input: with the default graphics state (black
fill, no stroke) a line element and a polyline element each make the context
fill their path. -/
theorem line_and_polyline_are_filled :
    (Renderer.init.ProcessLineElement Platform.exact
        (StringMap.ofStrings [("x1", "0"), ("y1", "0"), ("x2", "10"), ("y2", "10")])).context_
      = [CGCall.SaveGState, CGCall.BeginPath, CGCall.MoveToPoint 0 0,
         CGCall.AddLineToPoint 10 10, CGCall.FillPath, CGCall.RestoreGState] ∧
    (Renderer.init.ProcessPolylineElement Platform.exact
        (StringMap.ofStrings [("points", "0,0 10,0 10,10")]) PathDataIterator.zero).context_
      = [CGCall.SaveGState, CGCall.BeginPath,
         CGCall.AddPath [CGPathCall.MoveToPoint 0 0, CGPathCall.AddLineToPoint 10 0,
           CGPathCall.AddLineToPoint 10 10],
         CGCall.FillPath, CGCall.RestoreGState] := by
  constructor <;> decide!

/-! ## C5: an outermost svg element of width 0 -/

/-- C5, the code at the failing input: for the document
`<svg width="0" height="10"><rect width="5" height="5"/></svg>` on a canvas of
10 by 10 the handler of svg returns early and the rect is filled all the same. -/
theorem zero_width_svg_still_renders :
    (Renderer.CreateCGImageFromMSCDocument Platform.exact PathDataIterator.zero Renderer.init
        (some ⟨[XmlNode.element "svg" [("width", "0"), ("height", "10")] false,
                XmlNode.element "rect" [("width", "5"), ("height", "5")] true,
                XmlNode.endElement "svg"], false⟩) 10 10 none).map Prod.fst
      = some (some [CGCall.ClearRect ⟨0, 0, 10, 10⟩, CGCall.TranslateCTM 0 10, CGCall.ScaleCTM 1 (-1),
          CGCall.SetRGBFillColor 0 0 0 1,
          CGCall.SaveGState,
          CGCall.SaveGState,
          CGCall.SaveGState, CGCall.BeginPath,
          CGCall.AddPath [CGPathCall.AddRoundedRect ⟨0, 0, 5, 5⟩ 0 0], CGCall.ClosePath,
          CGCall.FillPath, CGCall.RestoreGState,
          CGCall.RestoreGState,
          CGCall.RestoreGState]) := by
  decide!

/-! ## C3: the order of style application -/

theorem ite_fst_true {α : Type} (c : Prop) [Decidable c] (a b : Bool × α) (ha : a.1 = true)
    (hb : b.1 = true) : (if c then a else b).1 = true := by
  split_ifs <;> assumption

theorem ProcessStyle_fst (P : Platform) (r : Renderer) (name value : List Char) :
    (r.ProcessStyle P name value).1 = decide (name ∈ styleNames) := by
  unfold Renderer.ProcessStyle
  by_cases h0 : name = "fill".data
  · rewrite [if_pos h0]
    have hm : name ∈ styleNames := by rw [h0]; decide
    rewrite [decide_eq_true hm]
    rfl
  rewrite [if_neg h0]
  by_cases h1 : name = "stroke".data
  · rewrite [if_pos h1]
    have hm : name ∈ styleNames := by rw [h1]; decide
    rewrite [decide_eq_true hm]
    rfl
  rewrite [if_neg h1]
  by_cases h2 : name = "stroke-linecap".data
  · rewrite [if_pos h2]
    have hm : name ∈ styleNames := by rw [h2]; decide
    rewrite [decide_eq_true hm]
    repeat (first | with_reducible rfl | apply ite_fst_true)
  rewrite [if_neg h2]
  by_cases h3 : name = "stroke-linejoin".data
  · rewrite [if_pos h3]
    have hm : name ∈ styleNames := by rw [h3]; decide
    rewrite [decide_eq_true hm]
    repeat (first | with_reducible rfl | apply ite_fst_true)
  rewrite [if_neg h3]
  by_cases h4 : name = "stroke-miterlimit".data
  · rewrite [if_pos h4]
    have hm : name ∈ styleNames := by rw [h4]; decide
    rewrite [decide_eq_true hm]
    dsimp only
    repeat (first | with_reducible rfl | apply ite_fst_true)
  rewrite [if_neg h4]
  by_cases h5 : name = "stroke-width".data
  · rewrite [if_pos h5]
    have hm : name ∈ styleNames := by rw [h5]; decide
    rewrite [decide_eq_true hm]
    dsimp only
    repeat (first | with_reducible rfl | apply ite_fst_true)
  rewrite [if_neg h5]
  by_cases h6 : name = "fill-opacity".data
  · rewrite [if_pos h6]
    have hm : name ∈ styleNames := by rw [h6]; decide
    rewrite [decide_eq_true hm]
    dsimp only
    repeat (first | with_reducible rfl | apply ite_fst_true)
  rewrite [if_neg h6]
  by_cases h7 : name = "stroke-opacity".data
  · rewrite [if_pos h7]
    have hm : name ∈ styleNames := by rw [h7]; decide
    rewrite [decide_eq_true hm]
    dsimp only
    repeat (first | with_reducible rfl | apply ite_fst_true)
  rewrite [if_neg h7]
  by_cases h8 : name = "stop-color".data
  · rewrite [if_pos h8]
    have hm : name ∈ styleNames := by rw [h8]; decide
    rewrite [decide_eq_true hm]
    dsimp only
    repeat (first | with_reducible rfl | apply ite_fst_true)
  rewrite [if_neg h8]
  by_cases h9 : name = "stop-opacity".data
  · rewrite [if_pos h9]
    have hm : name ∈ styleNames := by rw [h9]; decide
    rewrite [decide_eq_true hm]
    dsimp only
    repeat (first | with_reducible rfl | apply ite_fst_true)
  rewrite [if_neg h9]
  have hm : name ∉ styleNames := by simp [styleNames, h0, h1, h2, h3, h4, h5, h6, h7, h8, h9]
  rewrite [decide_eq_false hm]
  rfl

theorem ProcessStyle_false (P : Platform) (r : Renderer) (name value : List Char)
    (h : (r.ProcessStyle P name value).1 = false) : (r.ProcessStyle P name value).2 = r := by
  rw [ProcessStyle_fst] at h
  have hm : name ∉ styleNames := of_decide_eq_false h
  simp only [styleNames, List.mem_cons, List.mem_singleton, List.not_mem_nil, or_false,
    not_or] at hm
  obtain ⟨h0, h1, h2, h3, h4, h5, h6, h7, h8, h9⟩ := hm
  unfold Renderer.ProcessStyle
  rewrite [if_neg h0, if_neg h1, if_neg h2, if_neg h3, if_neg h4, if_neg h5, if_neg h6,
    if_neg h7, if_neg h8, if_neg h9]
  rfl

theorem sameSheet_ite (c : Prop) [Decidable c] (a b r : Renderer) (ha : sameSheet a r)
    (hb : sameSheet b r) : sameSheet (if c then a else b) r := by
  split_ifs <;> assumption

theorem sameSheet_ite_snd (c : Prop) [Decidable c] (a b : Bool × Renderer) (r : Renderer)
    (ha : sameSheet a.2 r) (hb : sameSheet b.2 r) : sameSheet (if c then a else b).2 r := by
  split_ifs <;> assumption

theorem sameSheet_refl (r : Renderer) : sameSheet r r := ⟨rfl, rfl⟩

theorem sameSheet_trans {a b c : Renderer} (h1 : sameSheet a b) (h2 : sameSheet b c) :
    sameSheet a c := ⟨h1.1.trans h2.1, h1.2.trans h2.2⟩

theorem CGC_CALL_sameSheet (r : Renderer) (call : CGCall) : sameSheet (r.CGC_CALL call) r :=
  ⟨rfl, rfl⟩

theorem setPaintState_sameSheet (r : Renderer) (is_fill : Bool) (p : PaintState) :
    sameSheet (r.setPaintState is_fill p) r := by
  unfold Renderer.setPaintState
  split_ifs <;> exact ⟨rfl, rfl⟩

theorem CallCGSetColor_sameSheet (r : Renderer) (is_fill : Bool) :
    sameSheet (r.CallCGSetColor is_fill) r := by
  unfold Renderer.CallCGSetColor
  dsimp only
  split_ifs <;> exact ⟨rfl, rfl⟩

theorem ProcessFillOrStrokeValue_sameSheet (P : Platform) (r : Renderer) (value : List Char)
    (is_fill : Bool) : sameSheet (r.ProcessFillOrStrokeValue P value is_fill) r := by
  unfold Renderer.ProcessFillOrStrokeValue
  dsimp only
  apply sameSheet_ite
  · exact setPaintState_sameSheet _ _ _
  · apply sameSheet_ite
    · exact sameSheet_trans (CallCGSetColor_sameSheet _ _) (setPaintState_sameSheet _ _ _)
    · apply sameSheet_ite
      · exact setPaintState_sameSheet _ _ _
      · exact sameSheet_refl r

theorem ProcessStyle_sameSheet (P : Platform) (r : Renderer) (name value : List Char) :
    sameSheet (r.ProcessStyle P name value).2 r := by
  unfold Renderer.ProcessStyle
  by_cases h0 : name = "fill".data
  · rewrite [if_pos h0]
    exact ProcessFillOrStrokeValue_sameSheet _ _ _ _
  rewrite [if_neg h0]
  by_cases h1 : name = "stroke".data
  · rewrite [if_pos h1]
    exact ProcessFillOrStrokeValue_sameSheet _ _ _ _
  rewrite [if_neg h1]
  by_cases h2 : name = "stroke-linecap".data
  · rewrite [if_pos h2]
    repeat (first | apply sameSheet_ite_snd | exact CGC_CALL_sameSheet _ _ | exact sameSheet_refl r)
  rewrite [if_neg h2]
  by_cases h3 : name = "stroke-linejoin".data
  · rewrite [if_pos h3]
    repeat (first | apply sameSheet_ite_snd | exact CGC_CALL_sameSheet _ _ | exact sameSheet_refl r)
  rewrite [if_neg h3]
  by_cases h4 : name = "stroke-miterlimit".data
  · rewrite [if_pos h4]
    dsimp only
    apply sameSheet_ite_snd
    · exact sameSheet_refl r
    · exact CGC_CALL_sameSheet _ _
  rewrite [if_neg h4]
  by_cases h5 : name = "stroke-width".data
  · rewrite [if_pos h5]
    dsimp only
    apply sameSheet_ite_snd
    · exact sameSheet_refl r
    · exact CGC_CALL_sameSheet _ _
  rewrite [if_neg h5]
  by_cases h6 : name = "fill-opacity".data
  · rewrite [if_pos h6]
    dsimp only
    apply sameSheet_ite_snd
    · exact sameSheet_refl r
    · exact sameSheet_trans (CallCGSetColor_sameSheet _ _) ⟨rfl, rfl⟩
  rewrite [if_neg h6]
  by_cases h7 : name = "stroke-opacity".data
  · rewrite [if_pos h7]
    dsimp only
    apply sameSheet_ite_snd
    · exact sameSheet_refl r
    · exact sameSheet_trans (CallCGSetColor_sameSheet _ _) ⟨rfl, rfl⟩
  rewrite [if_neg h7]
  by_cases h8 : name = "stop-color".data
  · rewrite [if_pos h8]
    dsimp only
    apply sameSheet_ite_snd
    · exact ⟨rfl, rfl⟩
    · exact sameSheet_refl r
  rewrite [if_neg h8]
  by_cases h9 : name = "stop-opacity".data
  · rewrite [if_pos h9]
    dsimp only
    apply sameSheet_ite_snd
    · exact ⟨rfl, rfl⟩
    · exact sameSheet_refl r
  rewrite [if_neg h9]
  exact sameSheet_refl r


theorem processClassData_nil (P : Platform) (r : Renderer) : r.processClassData P [] = r := rfl

theorem processClassData_cons (P : Platform) (r : Renderer) (d : List Char × List Char)
    (ds : List (List Char × List Char)) :
    r.processClassData P (d :: ds) = Renderer.processClassData P (r.ProcessStyle P d.1 d.2).2 ds :=
  rfl

theorem processClassData_sameSheet (P : Platform) (ds : List (List Char × List Char)) :
    ∀ r : Renderer, sameSheet (r.processClassData P ds) r := by
  induction ds with
  | nil => intro r; exact sameSheet_refl r
  | cons d ds ih =>
    intro r
    rw [processClassData_cons]
    exact sameSheet_trans (ih _) (ProcessStyle_sameSheet P r d.1 d.2)

theorem processInlineStyles_fst (P : Platform) (ds : List (List Char × List Char)) :
    ∀ (r : Renderer) (u : StringMap),
      (Renderer.processInlineStyles P ds r u).1 = r.processClassData P ds := by
  induction ds with
  | nil => intro r u; rfl
  | cons d ds ih =>
    intro r u
    rw [processClassData_cons]
    unfold Renderer.processInlineStyles
    exact ih _ _

theorem styleDeclarations_nil (supported : List (List Char)) :
    styleDeclarations [] supported = [] := rfl

theorem lastAttributeValue_cons (name init : List Char) (a : List Char × Option (List Char))
    (attributes : List (List Char × Option (List Char))) :
    lastAttributeValue name init (a :: attributes) =
      lastAttributeValue name
        (match a.2 with
          | some value => if a.1 = name then value else init
          | none => init) attributes := rfl

theorem processAttribute_style (P : Platform) (r : Renderer) (acc : CommonAttributes)
    (name value : List Char) (h : name ∈ styleNames) :
    r.processAttribute P acc name value = ((r.ProcessStyle P name value).2, acc) := by
  unfold Renderer.processAttribute
  dsimp only
  rw [if_pos (by rw [ProcessStyle_fst]; exact decide_eq_true h)]

theorem processAttribute_class (P : Platform) (r : Renderer) (acc : CommonAttributes)
    (value : List Char) :
    r.processAttribute P acc "class".data value = (r, { acc with class_attr_value := value }) := by
  have hf : (r.ProcessStyle P "class".data value).1 = false := by
    rw [ProcessStyle_fst]; decide
  have h2 := ProcessStyle_false P r _ _ hf
  unfold Renderer.processAttribute
  dsimp only
  rw [if_neg (by rw [hf]; decide), h2]
  rfl

theorem processAttribute_inline (P : Platform) (r : Renderer) (acc : CommonAttributes)
    (value : List Char) :
    r.processAttribute P acc "style".data value = (r, { acc with style_attr_value := value }) := by
  have hf : (r.ProcessStyle P "style".data value).1 = false := by
    rw [ProcessStyle_fst]; decide
  have h2 := ProcessStyle_false P r _ _ hf
  unfold Renderer.processAttribute
  dsimp only
  rw [if_neg (by rw [hf]; decide), h2]
  rfl

theorem attributeLoop_styles (P : Platform) (attributes : List (List Char × Option (List Char))) :
    ∀ (r : Renderer) (acc : CommonAttributes),
    (∀ a ∈ attributes, a.1 ∈ styleNames ∨ a.1 = "class".data ∨ a.1 = "style".data) →
    Renderer.attributeLoop P attributes r acc =
      (r.processClassData P (attributeFormStyles attributes),
       { acc with
         class_attr_value := lastAttributeValue "class".data acc.class_attr_value attributes
         style_attr_value := lastAttributeValue "style".data acc.style_attr_value attributes }) := by
  induction attributes with
  | nil => intro r acc _; rfl
  | cons a attrs ih =>
    intro r acc h
    have htail : ∀ b ∈ attrs, b.1 ∈ styleNames ∨ b.1 = "class".data ∨ b.1 = "style".data :=
      fun b hb => h b (List.mem_cons_of_mem _ hb)
    obtain ⟨name, v⟩ := a
    cases v with
    | none =>
      unfold Renderer.attributeLoop
      rw [ih r acc htail]
      rfl
    | some value =>
      unfold Renderer.attributeLoop
      dsimp only
      rcases h (name, some value) (List.mem_cons_self _ _) with hs | hc | hi
      · have hcs : ¬ "class".data ∈ styleNames := by decide
        have his : ¬ "style".data ∈ styleNames := by decide
        have hnc : ¬ name = "class".data := fun hn => hcs (hn ▸ hs)
        have hni : ¬ name = "style".data := fun hn => his (hn ▸ hs)
        rw [processAttribute_style P r acc name value hs, ih _ _ htail]
        simp only [attributeFormStyles, List.filterMap_cons, if_pos hs,
          lastAttributeValue_cons, if_neg hnc, if_neg hni, processClassData_cons]
      · dsimp only at hc
        subst hc
        have hns : ¬ "class".data ∈ styleNames := by decide
        have hni : ¬ "class".data = "style".data := by decide
        rw [processAttribute_class P r acc value, ih _ _ htail]
        simp only [attributeFormStyles, List.filterMap_cons, if_neg hns,
          lastAttributeValue_cons, if_neg hni, if_pos]
      · dsimp only at hi
        subst hi
        have hns : ¬ "style".data ∈ styleNames := by decide
        have hnc : ¬ "style".data = "class".data := by decide
        rw [processAttribute_inline P r acc value, ih _ _ htail]
        simp only [attributeFormStyles, List.filterMap_cons, if_neg hns,
          lastAttributeValue_cons, if_neg hnc, if_pos]

theorem updateBack_sameSheet (r : Renderer) (f : State → State) :
    sameSheet (r.updateBack f) r := by
  unfold Renderer.updateBack
  cases r.state_stack_ <;> exact ⟨rfl, rfl⟩

theorem concatAll_sameSheet (transforms : List CGAffineTransform) :
    ∀ r : Renderer, sameSheet (r.concatAll transforms) r := by
  induction transforms with
  | nil => intro r; exact sameSheet_refl r
  | cons t ts ih =>
    intro r
    exact sameSheet_trans (ih (r.CGC_CALL (CGCall.ConcatCTM t))) (CGC_CALL_sameSheet r _)

theorem ProcessDisplayValue_sameSheet (r : Renderer) (value : List Char) :
    sameSheet (r.ProcessDisplayValue value) r := by
  unfold Renderer.ProcessDisplayValue
  split_ifs <;> exact ⟨rfl, rfl⟩

theorem ProcessVisibilityValue_sameSheet (r : Renderer) (value : List Char) :
    sameSheet (r.ProcessVisibilityValue value) r := by
  unfold Renderer.ProcessVisibilityValue
  split_ifs <;> exact ⟨rfl, rfl⟩

theorem ProcessOpacityValue_sameSheet (P : Platform) (r : Renderer) (value : List Char) :
    sameSheet (r.ProcessOpacityValue P value) r := by
  unfold Renderer.ProcessOpacityValue
  dsimp only
  split_ifs
  · exact sameSheet_trans (updateBack_sameSheet _ _) ⟨rfl, rfl⟩
  · exact sameSheet_refl r

theorem ProcessFillRuleValue_sameSheet (r : Renderer) (value : List Char) :
    sameSheet (r.ProcessFillRuleValue value) r := by
  unfold Renderer.ProcessFillRuleValue
  split_ifs <;> exact ⟨rfl, rfl⟩

theorem ProcessDashArrayValue_sameSheet (P : Platform) (r : Renderer) (value : List Char) :
    sameSheet (r.ProcessDashArrayValue P value) r := by
  unfold Renderer.ProcessDashArrayValue
  dsimp only
  split_ifs <;> exact ⟨rfl, rfl⟩

theorem ProcessDashOffsetValue_sameSheet (P : Platform) (r : Renderer) (value : List Char) :
    sameSheet (r.ProcessDashOffsetValue P value) r := by
  unfold Renderer.ProcessDashOffsetValue
  dsimp only
  split_ifs <;> exact ⟨rfl, rfl⟩

theorem sameSheet_fst {β : Type} {a r : Renderer} (x : β) (h : sameSheet a r) :
    sameSheet (a, x).1 r := h

theorem processAttribute_sameSheet (P : Platform) (r : Renderer) (acc : CommonAttributes)
    (name value : List Char) : sameSheet (r.processAttribute P acc name value).1 r := by
  have hs := ProcessStyle_sameSheet P r name value
  unfold Renderer.processAttribute
  dsimp only
  generalize r.ProcessStyle P name value = st at hs ⊢
  by_cases h : st.1 = true
  · rewrite [if_pos h]
    exact sameSheet_fst _ hs
  rewrite [if_neg h]
  by_cases h0 : name = "transform".data
  · rewrite [if_pos h0]
    exact sameSheet_fst _ (sameSheet_trans (concatAll_sameSheet (transformList P value) st.2) hs)
  rewrite [if_neg h0]
  by_cases h1 : name = "display".data
  · rewrite [if_pos h1]
    exact sameSheet_fst _ (sameSheet_trans (ProcessDisplayValue_sameSheet st.2 value) hs)
  rewrite [if_neg h1]
  by_cases h2 : name = "visibility".data
  · rewrite [if_pos h2]
    exact sameSheet_fst _ (sameSheet_trans (ProcessVisibilityValue_sameSheet st.2 value) hs)
  rewrite [if_neg h2]
  by_cases h3 : name = "opacity".data
  · rewrite [if_pos h3]
    exact sameSheet_fst _ (sameSheet_trans (ProcessOpacityValue_sameSheet P st.2 value) hs)
  rewrite [if_neg h3]
  by_cases h4 : name = "fill-rule".data
  · rewrite [if_pos h4]
    exact sameSheet_fst _ (sameSheet_trans (ProcessFillRuleValue_sameSheet st.2 value) hs)
  rewrite [if_neg h4]
  by_cases h5 : name = "stroke-dasharray".data
  · rewrite [if_pos h5]
    exact sameSheet_fst _ (sameSheet_trans (ProcessDashArrayValue_sameSheet P st.2 value) hs)
  rewrite [if_neg h5]
  by_cases h6 : name = "stroke-dashoffset".data
  · rewrite [if_pos h6]
    exact sameSheet_fst _ (sameSheet_trans (ProcessDashOffsetValue_sameSheet P st.2 value) hs)
  rewrite [if_neg h6]
  by_cases h7 : name = "style".data
  · rewrite [if_pos h7]
    exact sameSheet_fst _ hs
  rewrite [if_neg h7]
  by_cases h8 : name = "class".data
  · rewrite [if_pos h8]
    exact sameSheet_fst _ hs
  rewrite [if_neg h8]
  exact sameSheet_fst _ hs

theorem attributeLoop_sameSheet (P : Platform)
    (attributes : List (List Char × Option (List Char))) :
    ∀ (r : Renderer) (acc : CommonAttributes),
      sameSheet (Renderer.attributeLoop P attributes r acc).1 r := by
  induction attributes with
  | nil => intro r acc; exact sameSheet_refl r
  | cons a attrs ih =>
    intro r acc
    obtain ⟨name, v⟩ := a
    cases v with
    | none =>
      unfold Renderer.attributeLoop
      exact ih r acc
    | some value =>
      unfold Renderer.attributeLoop
      dsimp only
      exact sameSheet_trans (ih _ _) (processAttribute_sameSheet P r acc name value)

/-- The attribute loop keeps in `class_attr_value` and `style_attr_value` the
value of the attribute class and of the attribute style, and leaves them alone
at every other attribute. -/
theorem processAttribute_acc (P : Platform) (r : Renderer) (acc : CommonAttributes)
    (name value : List Char) :
    (r.processAttribute P acc name value).2.class_attr_value
      = (if name = "class".data then value else acc.class_attr_value) ∧
    (r.processAttribute P acc name value).2.style_attr_value
      = (if name = "style".data then value else acc.style_attr_value) := by
  unfold Renderer.processAttribute
  dsimp only
  by_cases hs : (r.ProcessStyle P name value).1 = true
  · have hs' := hs
    rw [ProcessStyle_fst] at hs'
    have hm : name ∈ styleNames := of_decide_eq_true hs'
    have hc : ¬ name = "class".data := fun h => absurd (h ▸ hm) (by decide)
    have hi : ¬ name = "style".data := fun h => absurd (h ▸ hm) (by decide)
    constructor <;> simp only [if_pos hs, if_neg hc, if_neg hi]
  by_cases h0 : name = "transform".data
  · have hc : ¬ name = "class".data := by rw [h0]; decide
    have hi : ¬ name = "style".data := by rw [h0]; decide
    constructor <;> simp only [if_neg hs, if_pos h0, if_neg hc, if_neg hi]
  by_cases h1 : name = "display".data
  · have hc : ¬ name = "class".data := by rw [h1]; decide
    have hi : ¬ name = "style".data := by rw [h1]; decide
    constructor <;> simp only [if_neg hs, if_neg h0, if_pos h1, if_neg hc, if_neg hi]
  by_cases h2 : name = "visibility".data
  · have hc : ¬ name = "class".data := by rw [h2]; decide
    have hi : ¬ name = "style".data := by rw [h2]; decide
    constructor <;> simp only [if_neg hs, if_neg h0, if_neg h1, if_pos h2, if_neg hc, if_neg hi]
  by_cases h3 : name = "opacity".data
  · have hc : ¬ name = "class".data := by rw [h3]; decide
    have hi : ¬ name = "style".data := by rw [h3]; decide
    constructor <;> simp only [if_neg hs, if_neg h0, if_neg h1, if_neg h2, if_pos h3, if_neg hc, if_neg hi]
  by_cases h4 : name = "fill-rule".data
  · have hc : ¬ name = "class".data := by rw [h4]; decide
    have hi : ¬ name = "style".data := by rw [h4]; decide
    constructor <;> simp only [if_neg hs, if_neg h0, if_neg h1, if_neg h2, if_neg h3, if_pos h4, if_neg hc, if_neg hi]
  by_cases h5 : name = "stroke-dasharray".data
  · have hc : ¬ name = "class".data := by rw [h5]; decide
    have hi : ¬ name = "style".data := by rw [h5]; decide
    constructor <;> simp only [if_neg hs, if_neg h0, if_neg h1, if_neg h2, if_neg h3, if_neg h4, if_pos h5, if_neg hc, if_neg hi]
  by_cases h6 : name = "stroke-dashoffset".data
  · have hc : ¬ name = "class".data := by rw [h6]; decide
    have hi : ¬ name = "style".data := by rw [h6]; decide
    constructor <;> simp only [if_neg hs, if_neg h0, if_neg h1, if_neg h2, if_neg h3, if_neg h4, if_neg h5, if_pos h6, if_neg hc, if_neg hi]
  by_cases hi : name = "style".data
  · have hc : ¬ name = "class".data := by rw [hi]; decide
    constructor <;> simp only [if_neg hs, if_neg h0, if_neg h1, if_neg h2, if_neg h3, if_neg h4, if_neg h5, if_neg h6, if_pos hi, if_neg hc]
  by_cases hc : name = "class".data
  · constructor <;> simp only [if_neg hs, if_neg h0, if_neg h1, if_neg h2, if_neg h3, if_neg h4, if_neg h5, if_neg h6, if_neg hi, if_pos hc]
  constructor <;> simp only [if_neg hs, if_neg h0, if_neg h1, if_neg h2, if_neg h3, if_neg h4, if_neg h5, if_neg h6, if_neg hi, if_neg hc]

theorem attributeLoop_acc (P : Platform) (attributes : List (List Char × Option (List Char))) :
    ∀ (r : Renderer) (acc : CommonAttributes),
    (Renderer.attributeLoop P attributes r acc).2.class_attr_value
      = lastAttributeValue "class".data acc.class_attr_value attributes ∧
    (Renderer.attributeLoop P attributes r acc).2.style_attr_value
      = lastAttributeValue "style".data acc.style_attr_value attributes := by
  induction attributes with
  | nil => intro r acc; exact ⟨rfl, rfl⟩
  | cons a attrs ih =>
    intro r acc
    obtain ⟨name, v⟩ := a
    cases v with
    | none =>
      unfold Renderer.attributeLoop
      exact ih r acc
    | some value =>
      unfold Renderer.attributeLoop
      dsimp only
      obtain ⟨h1, h2⟩ := processAttribute_acc P r acc name value
      obtain ⟨i1, i2⟩ := ih (r.processAttribute P acc name value).1
        (r.processAttribute P acc name value).2
      rw [i1, i2, h1, h2, lastAttributeValue_cons, lastAttributeValue_cons]
      exact ⟨rfl, rfl⟩

theorem attributeLoop_append (P : Platform) (pre : List (List Char × Option (List Char))) :
    ∀ (post : List (List Char × Option (List Char))) (r : Renderer) (acc : CommonAttributes),
    Renderer.attributeLoop P (pre ++ post) r acc =
      Renderer.attributeLoop P post (Renderer.attributeLoop P pre r acc).1
        (Renderer.attributeLoop P pre r acc).2 := by
  induction pre with
  | nil => intro post r acc; rfl
  | cons a pre ih =>
    intro post r acc
    obtain ⟨name, v⟩ := a
    cases v with
    | none => exact ih post r acc
    | some value =>
      exact ih post (r.processAttribute P acc name value).1 (r.processAttribute P acc name value).2

theorem attributeLoop_style_cons (P : Platform) (r : Renderer) (acc : CommonAttributes)
    (name value : List Char) (post : List (List Char × Option (List Char)))
    (h : name ∈ styleNames) :
    Renderer.attributeLoop P ((name, some value) :: post) r acc =
      Renderer.attributeLoop P post (r.ProcessStyle P name value).2 acc := by
  show Renderer.attributeLoop P post (r.processAttribute P acc name value).1
    (r.processAttribute P acc name value).2 = _
  rw [processAttribute_style P r acc name value h]

theorem ProcessFillOrStrokeValue_stroke_keeps_fill (P : Platform) (r : Renderer)
    (value : List Char) :
    (r.ProcessFillOrStrokeValue P value false).graphics_.fill = r.graphics_.fill := by
  unfold Renderer.ProcessFillOrStrokeValue Renderer.setPaintState Renderer.CallCGSetColor
  simp only [Bool.false_eq_true, if_false]
  by_cases h1 : value = "none".data
  · rewrite [if_pos h1]
    rfl
  rewrite [if_neg h1]
  by_cases h2 : (ParseRgbColor P (StringPiece.ofString value) RgbColor.default).1 = true
  · rewrite [if_pos h2]
    rfl
  rewrite [if_neg h2]
  by_cases h3 : (ParseIri (StringPiece.ofString value) ⟨[], []⟩).1 = true
  · rewrite [if_pos h3]
    rfl
  rewrite [if_neg h3]
  rfl

theorem fill_color_ite_snd (c : Prop) [Decidable c] (a b : Bool × Renderer) (r : Renderer)
    (ha : a.2.graphics_.fill.color = r.graphics_.fill.color)
    (hb : b.2.graphics_.fill.color = r.graphics_.fill.color) :
    (if c then a else b).2.graphics_.fill.color = r.graphics_.fill.color := by
  split_ifs <;> assumption

/-- ProcessStyle for a property other than fill keeps the fill colour. -/
theorem ProcessStyle_keeps_fill_color (P : Platform) (r : Renderer) (name value : List Char)
    (h : name ≠ "fill".data) :
    (r.ProcessStyle P name value).2.graphics_.fill.color = r.graphics_.fill.color := by
  unfold Renderer.ProcessStyle
  rewrite [if_neg h]
  by_cases h1 : name = "stroke".data
  · rewrite [if_pos h1]
    exact congrArg PaintState.color (ProcessFillOrStrokeValue_stroke_keeps_fill P r value)
  rewrite [if_neg h1]
  by_cases h2 : name = "stroke-linecap".data
  · rewrite [if_pos h2]
    try dsimp only
    repeat (first | apply fill_color_ite_snd | exact rfl)
  rewrite [if_neg h2]
  by_cases h3 : name = "stroke-linejoin".data
  · rewrite [if_pos h3]
    try dsimp only
    repeat (first | apply fill_color_ite_snd | exact rfl)
  rewrite [if_neg h3]
  by_cases h4 : name = "stroke-miterlimit".data
  · rewrite [if_pos h4]
    try dsimp only
    repeat (first | apply fill_color_ite_snd | exact rfl)
  rewrite [if_neg h4]
  by_cases h5 : name = "stroke-width".data
  · rewrite [if_pos h5]
    try dsimp only
    repeat (first | apply fill_color_ite_snd | exact rfl)
  rewrite [if_neg h5]
  by_cases h6 : name = "fill-opacity".data
  · rewrite [if_pos h6]
    try dsimp only
    repeat (first | apply fill_color_ite_snd | exact rfl)
  rewrite [if_neg h6]
  by_cases h7 : name = "stroke-opacity".data
  · rewrite [if_pos h7]
    try dsimp only
    repeat (first | apply fill_color_ite_snd | exact rfl)
  rewrite [if_neg h7]
  by_cases h8 : name = "stop-color".data
  · rewrite [if_pos h8]
    try dsimp only
    repeat (first | apply fill_color_ite_snd | exact rfl)
  rewrite [if_neg h8]
  by_cases h9 : name = "stop-opacity".data
  · rewrite [if_pos h9]
    try dsimp only
    repeat (first | apply fill_color_ite_snd | exact rfl)
  rewrite [if_neg h9]
  exact rfl

/-- ProcessStyle for the property fill with a colour sets the fill colour. -/
theorem ProcessStyle_fill_color (P : Platform) (r : Renderer) (value : List Char)
    (c : RgbColor) (hn : value ≠ "none".data)
    (hc : ParseRgbColor P (StringPiece.ofString value) RgbColor.default = (true, c)) :
    (r.ProcessStyle P "fill".data value).2.graphics_.fill.color = c := by
  unfold Renderer.ProcessStyle
  rewrite [if_pos rfl]
  unfold Renderer.ProcessFillOrStrokeValue
  dsimp only
  rewrite [if_neg hn, hc]
  exact rfl

theorem processClassData_keeps_fill_color (P : Platform) (ds : List (List Char × List Char)) :
    ∀ r : Renderer, (∀ d ∈ ds, d.1 ≠ "fill".data) →
      (r.processClassData P ds).graphics_.fill.color = r.graphics_.fill.color := by
  induction ds with
  | nil => intro r _; rfl
  | cons d ds ih =>
    intro r h
    rw [processClassData_cons, ih _ fun e he => h e (List.mem_cons_of_mem _ he)]
    exact ProcessStyle_keeps_fill_color P r d.1 d.2 (h d (List.mem_cons_self _ _))

theorem processClassData_append (P : Platform) (a b : List (List Char × List Char))
    (r : Renderer) :
    r.processClassData P (a ++ b) = Renderer.processClassData P (r.processClassData P a) b := by
  unfold Renderer.processClassData
  exact List.foldl_append _ _ _ _

/-- The last declaration of fill with a colour in a list of declarations gives
the fill colour, whatever the renderer was. -/
theorem processClassData_fill_color (P : Platform) (pre post : List (List Char × List Char))
    (v : List Char) (c : RgbColor) (hpost : ∀ d ∈ post, d.1 ≠ "fill".data)
    (hn : v ≠ "none".data)
    (hc : ParseRgbColor P (StringPiece.ofString v) RgbColor.default = (true, c))
    (r : Renderer) :
    (r.processClassData P (pre ++ ("fill".data, v) :: post)).graphics_.fill.color = c := by
  rw [processClassData_append, processClassData_cons,
    processClassData_keeps_fill_color P post _ hpost]
  exact ProcessStyle_fill_color P _ v c hn hc

theorem NextFuel_property_supported : ∀ (fuel : Nat) (it : StyleIterator),
    (StyleIterator.NextFuel fuel it).2.supported_properties_ = it.supported_properties_ ∧
    ((StyleIterator.NextFuel fuel it).1 = true →
      (StyleIterator.NextFuel fuel it).2.property_.view ∈ it.supported_properties_) := by
  intro fuel
  induction fuel with
  | zero =>
    intro it
    exact ⟨rfl, fun h => by cases h⟩
  | succ n ih =>
    intro it
    rw [StyleIterator.NextFuel]
    dsimp only
    split_ifs with h1
    · exact ⟨rfl, fun h => by cases h⟩
    · split
      · exact ⟨rfl, fun h => by cases h⟩
      · split_ifs with h2
        · exact ⟨rfl, fun _ => h2⟩
        · exact ih _

theorem collect_property_supported : ∀ (fuel : Nat) (it : StyleIterator),
    ∀ d ∈ StyleIterator.collect fuel it, d.1 ∈ it.supported_properties_ := by
  intro fuel
  induction fuel with
  | zero =>
    intro it d hd
    cases hd
  | succ n ih =>
    intro it d hd
    rw [StyleIterator.collect] at hd
    obtain ⟨hs, hp⟩ := NextFuel_property_supported (it.s_.length + 1) it
    by_cases h1 : it.Next.1 = true
    · rw [if_pos h1] at hd
      rcases List.mem_cons.1 hd with hd | hd
      · rw [hd]
        exact hp h1
      · have := ih it.Next.2 d hd
        rw [← hs]
        exact this
    · rw [if_neg h1] at hd
      cases hd

/-- The inline declarations are those of the supported properties only. -/
theorem styleDeclarations_property_supported (text : List Char) (supported : List (List Char)) :
    ∀ d ∈ styleDeclarations text supported, d.1 ∈ supported :=
  collect_property_supported _ _

/-- C3 as amended, for every attribute list.  ProcessCommonAttributes succeeds
when the reader reports no error, and its renderer is that of the attribute
loop, then ProcessStyle on the declarations of the class named by the last
class attribute, then ProcessStyle on the declarations of the last style
attribute.  In the attribute loop every attribute-form style is given to
ProcessStyle at its place in the list; when the list holds attribute-form
styles, class attributes and style attributes only, the loop is ProcessStyle
on the attribute-form styles in their order.  The declarations of the style
attribute are those of the properties in `supported_styles_` only.  When the
style attribute declares fill with a colour (last among its declarations of
fill), the graphics state ends with that fill colour, whatever the attributes
and the class set. -/
theorem styles_applied_attributes_class_inline (P : Platform) (r : Renderer)
    (attributes : List (List Char × Option (List Char))) :
    (r.ProcessCommonAttributes P attributes false).1 = true ∧
    (r.ProcessCommonAttributes P attributes false).2.1 =
      Renderer.processClassData P
        (Renderer.processClassData P
          (Renderer.attributeLoop P attributes r ⟨[], [], []⟩).1
          (classDeclarations r.style_sheet_ (lastAttributeValue "class".data [] attributes)))
        (styleDeclarations (lastAttributeValue "style".data [] attributes)
          r.supported_styles_) ∧
    (∀ (pre post : List (List Char × Option (List Char))) (name value : List Char),
      attributes = pre ++ (name, some value) :: post → name ∈ styleNames →
      (Renderer.attributeLoop P attributes r ⟨[], [], []⟩).1 =
        (Renderer.attributeLoop P post
          ((Renderer.attributeLoop P pre r ⟨[], [], []⟩).1.ProcessStyle P name value).2
          (Renderer.attributeLoop P pre r ⟨[], [], []⟩).2).1) ∧
    ((∀ a ∈ attributes, a.1 ∈ styleNames ∨ a.1 = "class".data ∨ a.1 = "style".data) →
      (Renderer.attributeLoop P attributes r ⟨[], [], []⟩).1
        = r.processClassData P (attributeFormStyles attributes)) ∧
    (∀ d ∈ styleDeclarations (lastAttributeValue "style".data [] attributes)
        r.supported_styles_, d.1 ∈ r.supported_styles_) ∧
    (∀ (dpre dpost : List (List Char × List Char)) (v : List Char) (c : RgbColor),
      styleDeclarations (lastAttributeValue "style".data [] attributes) r.supported_styles_
        = dpre ++ ("fill".data, v) :: dpost →
      (∀ d ∈ dpost, d.1 ≠ "fill".data) → v ≠ "none".data →
      ParseRgbColor P (StringPiece.ofString v) RgbColor.default = (true, c) →
      (r.ProcessCommonAttributes P attributes false).2.1.graphics_.fill.color = c) := by
  have main : (r.ProcessCommonAttributes P attributes false).1 = true ∧
      (r.ProcessCommonAttributes P attributes false).2.1 =
        Renderer.processClassData P
          (Renderer.processClassData P
            (Renderer.attributeLoop P attributes r ⟨[], [], []⟩).1
            (classDeclarations r.style_sheet_ (lastAttributeValue "class".data [] attributes)))
          (styleDeclarations (lastAttributeValue "style".data [] attributes)
            r.supported_styles_) := by
    unfold Renderer.ProcessCommonAttributes
    obtain ⟨hcv, hsv⟩ := attributeLoop_acc P attributes r ⟨[], [], []⟩
    have hs1 := attributeLoop_sameSheet P attributes r ⟨[], [], []⟩
    have hcv : _ = lastAttributeValue "class".data [] attributes := hcv
    have hsv : _ = lastAttributeValue "style".data [] attributes := hsv
    generalize Renderer.attributeLoop P attributes r ⟨[], [], []⟩ = l at hcv hsv hs1 ⊢
    dsimp only
    rw [hcv, hsv]
    generalize lastAttributeValue "class".data [] attributes = cv
    generalize lastAttributeValue "style".data [] attributes = sv
    have hs2 := processClassData_sameSheet P (classDeclarations r.style_sheet_ cv) l.1
    have hr1 : l.1.processClassAttribute P cv =
        Renderer.processClassData P l.1 (classDeclarations r.style_sheet_ cv) := by
      unfold Renderer.processClassAttribute classDeclarations
      rw [hs1.1]
      cases r.style_sheet_ with
      | none => rfl
      | some sheet =>
        dsimp only
        cases FindValueOrNull sheet.entry cv <;> rfl
    rw [hr1]
    by_cases he : sv = []
    · rw [if_neg (by simp), if_neg (not_not.2 he), he, styleDeclarations_nil]
      exact ⟨rfl, rfl⟩
    · rw [if_neg (by simp), if_pos he]
      refine ⟨rfl, ?_⟩
      dsimp only
      rw [processInlineStyles_fst, (sameSheet_trans hs2 hs1).2]
  refine ⟨main.1, main.2, ?_, ?_, styleDeclarations_property_supported _ _, ?_⟩
  · intro pre post name value hsplit hname
    rw [hsplit, attributeLoop_append, attributeLoop_style_cons P _ _ name value post hname]
  · intro h
    rw [attributeLoop_styles P attributes r _ h]
  · intro dpre dpost v c hd hpost hn hc
    rw [main.2, hd]
    exact processClassData_fill_color P dpre dpost v c hpost hn hc _


/-- C3 as stated fails: for an element with the attributes fill="#f00",
class="a" and style="fill:#00f" and a style sheet with .a{fill:#0f0}, the fill
colour is set three times, in the order attribute, class, style attribute, and
the graphics state ends with the colour of the style attribute, not with that
of the fill attribute; the same holds when the fill attribute comes last. -/
theorem attribute_form_style_is_applied_first :
    (((Renderer.init.MergeStyleSheet ⟨[("a".data, [("fill".data, "#0f0".data)])]⟩).ProcessCommonAttributes
        Platform.exact
        [("fill".data, some "#f00".data), ("class".data, some "a".data),
         ("style".data, some "fill:#00f".data)] false).2.1.context_
      = [CGCall.SetRGBFillColor 1 0 0 1, CGCall.SetRGBFillColor 0 1 0 1,
         CGCall.SetRGBFillColor 0 0 1 1]) ∧
    (((Renderer.init.MergeStyleSheet ⟨[("a".data, [("fill".data, "#0f0".data)])]⟩).ProcessCommonAttributes
        Platform.exact
        [("fill".data, some "#f00".data), ("class".data, some "a".data),
         ("style".data, some "fill:#00f".data)] false).2.1.graphics_.fill.color
      = ⟨0, 0, 1⟩) ∧
    (((Renderer.init.MergeStyleSheet ⟨[("a".data, [("fill".data, "#0f0".data)])]⟩).ProcessCommonAttributes
        Platform.exact
        [("class".data, some "a".data), ("style".data, some "fill:#00f".data),
         ("fill".data, some "#f00".data)] false).2.1.graphics_.fill.color
      ≠ ⟨1, 0, 0⟩) := by
  refine ⟨?_, ?_, ?_⟩ <;> decide!

/-- The amended C3 at the element with fill="#f00", transform="scale(2)",
class="a" and style="stroke-width:3;fill:#00f" under the style sheet
.a\x7bfill:#0f0\x7d: the call succeeds, the declarations of the style attribute
are that of fill alone (stroke-width is not a supported inline property), and
the fill colour ends as the colour of the style attribute. -/
theorem styles_applied_attributes_class_inline_witness :
    ((Renderer.init.MergeStyleSheet ⟨[("a".data, [("fill".data, "#0f0".data)])]⟩).ProcessCommonAttributes Platform.exact
      [("fill".data, some "#f00".data), ("transform".data, some "scale(2)".data),
       ("class".data, some "a".data), ("style".data, some "stroke-width:3;fill:#00f".data)] false).1 = true ∧
    styleDeclarations "stroke-width:3;fill:#00f".data (Renderer.init.MergeStyleSheet ⟨[("a".data, [("fill".data, "#0f0".data)])]⟩).supported_styles_
      = [("fill".data, "#00f".data)] ∧
    ((Renderer.init.MergeStyleSheet ⟨[("a".data, [("fill".data, "#0f0".data)])]⟩).ProcessCommonAttributes Platform.exact
      [("fill".data, some "#f00".data), ("transform".data, some "scale(2)".data),
       ("class".data, some "a".data), ("style".data, some "stroke-width:3;fill:#00f".data)] false).2.1.graphics_.fill.color = ⟨0, 0, 1⟩ ∧
    ((Renderer.init.MergeStyleSheet ⟨[("a".data, [("fill".data, "#0f0".data)])]⟩).ProcessCommonAttributes Platform.exact
      [("fill".data, some "#f00".data), ("transform".data, some "scale(2)".data),
       ("class".data, some "a".data), ("style".data, some "stroke-width:3;fill:#00f".data)] false).2.1.context_
      = [CGCall.SetRGBFillColor 1 0 0 1, CGCall.ConcatCTM ⟨2, 0, 0, 2, 0, 0⟩,
         CGCall.SetRGBFillColor 0 1 0 1, CGCall.SetRGBFillColor 0 0 1 1] :=
  ⟨(styles_applied_attributes_class_inline Platform.exact (Renderer.init.MergeStyleSheet ⟨[("a".data, [("fill".data, "#0f0".data)])]⟩)
      [("fill".data, some "#f00".data), ("transform".data, some "scale(2)".data),
       ("class".data, some "a".data), ("style".data, some "stroke-width:3;fill:#00f".data)]).1,
   by decide!,
   (styles_applied_attributes_class_inline Platform.exact (Renderer.init.MergeStyleSheet ⟨[("a".data, [("fill".data, "#0f0".data)])]⟩)
      [("fill".data, some "#f00".data), ("transform".data, some "scale(2)".data),
       ("class".data, some "a".data), ("style".data, some "stroke-width:3;fill:#00f".data)]).2.2.2.2.2 [] [] "#00f".data ⟨0, 0, 1⟩ (by decide!) (by decide) (by decide)
      (by decide!),
   by decide!⟩

/-! ## C8, C9, C10: PathDataIterator -/

theorem sameRegisters_refl (a : PathDataIterator) : a.sameRegisters a :=
  ⟨rfl, rfl, rfl, rfl, rfl, rfl⟩

theorem ParseMoveAndLineCommand_regs (P : Platform) (it : PathDataIterator)
    (t : PathCommandType) : (it.ParseMoveAndLineCommand P t).2.sameRegisters it := by
  unfold PathDataIterator.ParseMoveAndLineCommand
  cases t <;> dsimp only <;> split_ifs <;> exact ⟨rfl, rfl, rfl, rfl, rfl, rfl⟩

theorem ParseCubicBezierCommand_regs (P : Platform) (it : PathDataIterator) :
    (it.ParseCubicBezierCommand P).2.sameRegisters it := by
  unfold PathDataIterator.ParseCubicBezierCommand
  dsimp only; split_ifs <;> exact ⟨rfl, rfl, rfl, rfl, rfl, rfl⟩

theorem ParseShorthandCubicBezierCommand_regs (P : Platform) (it : PathDataIterator) :
    (it.ParseShorthandCubicBezierCommand P).2.sameRegisters it := by
  unfold PathDataIterator.ParseShorthandCubicBezierCommand
  dsimp only; split_ifs <;> exact ⟨rfl, rfl, rfl, rfl, rfl, rfl⟩

theorem ParseQuadBezierCommand_regs (P : Platform) (it : PathDataIterator) :
    (it.ParseQuadBezierCommand P).2.sameRegisters it := by
  unfold PathDataIterator.ParseQuadBezierCommand
  dsimp only; split_ifs <;> exact ⟨rfl, rfl, rfl, rfl, rfl, rfl⟩

theorem ParseShorthandQuadBezierCommand_regs (P : Platform) (it : PathDataIterator) :
    (it.ParseShorthandQuadBezierCommand P).2.sameRegisters it := by
  unfold PathDataIterator.ParseShorthandQuadBezierCommand
  dsimp only; split_ifs <;> exact ⟨rfl, rfl, rfl, rfl, rfl, rfl⟩

theorem ParseEllipticalArcCommand_regs (P : Platform) (it : PathDataIterator) :
    (it.ParseEllipticalArcCommand P).2.sameRegisters it := by
  unfold PathDataIterator.ParseEllipticalArcCommand
  dsimp only; split_ifs <;> exact ⟨rfl, rfl, rfl, rfl, rfl, rfl⟩


theorem dispatch_regs (P : Platform) (d : PathDataIterator) :
    (d.dispatch P).2.command_type_ = d.command_type_ ∧
    (d.dispatch P).2.format_ = d.format_ ∧
    (d.dispatch P).2.last_command_type_ = d.last_command_type_ := by
  unfold PathDataIterator.dispatch
  split
  · have h := ParseMoveAndLineCommand_regs P d d.command_type_
    exact ⟨h.1, h.2.1, h.2.2.2.1⟩
  · have h := ParseMoveAndLineCommand_regs P d d.command_type_
    exact ⟨h.1, h.2.1, h.2.2.2.1⟩
  · have h := ParseMoveAndLineCommand_regs P d d.command_type_
    exact ⟨h.1, h.2.1, h.2.2.2.1⟩
  · have h := ParseMoveAndLineCommand_regs P d d.command_type_
    exact ⟨h.1, h.2.1, h.2.2.2.1⟩
  · have h := ParseCubicBezierCommand_regs P d
    exact ⟨h.1, h.2.1, h.2.2.2.1⟩
  · have h := ParseShorthandCubicBezierCommand_regs P d
    exact ⟨h.1, h.2.1, h.2.2.2.1⟩
  · have h := ParseQuadBezierCommand_regs P d
    exact ⟨h.1, h.2.1, h.2.2.2.1⟩
  · have h := ParseShorthandQuadBezierCommand_regs P d
    exact ⟨h.1, h.2.1, h.2.2.2.1⟩
  · have h := ParseEllipticalArcCommand_regs P d
    exact ⟨h.1, h.2.1, h.2.2.2.1⟩
  · exact ⟨rfl, rfl, rfl⟩

theorem subpath_other (d x : PathDataIterator) (t : PathCommandType)
    (h : d.command_type_ = t) (hm : t ≠ kPathCommandTypeMoveTo)
    (hc : t ≠ kPathCommandTypeClosePath)
    (hs : x.subpath_start_point_ = d.subpath_start_point_) :
    (d.command_type_ = kPathCommandTypeMoveTo → x.subpath_start_point_ = x.point_) ∧
    (d.command_type_ ≠ kPathCommandTypeMoveTo →
      x.subpath_start_point_ = d.subpath_start_point_) ∧
    (d.command_type_ = kPathCommandTypeClosePath → x.point_ = d.subpath_start_point_) :=
  ⟨fun h1 => absurd (h.symm.trans h1) hm, fun _ => hs, fun h1 => absurd (h.symm.trans h1) hc⟩

theorem dispatch_subpath (P : Platform) (d : PathDataIterator) :
    (d.command_type_ = kPathCommandTypeMoveTo →
      (d.dispatch P).2.subpath_start_point_ = (d.dispatch P).2.point_) ∧
    (d.command_type_ ≠ kPathCommandTypeMoveTo →
      (d.dispatch P).2.subpath_start_point_ = d.subpath_start_point_) ∧
    (d.command_type_ = kPathCommandTypeClosePath →
      (d.dispatch P).2.point_ = d.subpath_start_point_) := by
  unfold PathDataIterator.dispatch
  split
  · rename_i h
    exact ⟨fun _ => rfl, fun hn => absurd h hn, fun hc => absurd (h.symm.trans hc) (by decide)⟩
  · rename_i h
    exact subpath_other d _ _ h (by decide) (by decide)
      (ParseMoveAndLineCommand_regs P d d.command_type_).2.2.1
  · rename_i h
    exact subpath_other d _ _ h (by decide) (by decide)
      (ParseMoveAndLineCommand_regs P d d.command_type_).2.2.1
  · rename_i h
    exact subpath_other d _ _ h (by decide) (by decide)
      (ParseMoveAndLineCommand_regs P d d.command_type_).2.2.1
  · rename_i h
    exact subpath_other d _ _ h (by decide) (by decide) (ParseCubicBezierCommand_regs P d).2.2.1
  · rename_i h
    exact subpath_other d _ _ h (by decide) (by decide)
      (ParseShorthandCubicBezierCommand_regs P d).2.2.1
  · rename_i h
    exact subpath_other d _ _ h (by decide) (by decide) (ParseQuadBezierCommand_regs P d).2.2.1
  · rename_i h
    exact subpath_other d _ _ h (by decide) (by decide)
      (ParseShorthandQuadBezierCommand_regs P d).2.2.1
  · rename_i h
    exact subpath_other d _ _ h (by decide) (by decide) (ParseEllipticalArcCommand_regs P d).2.2.1
  · rename_i h
    exact ⟨fun hm => absurd (h.symm.trans hm) (by decide), fun _ => rfl, fun _ => rfl⟩

/-- The first control point of a shorthand curve: the mirror image of `c`
in `p` after a curve of the same family, else `p`. -/
theorem ParseShorthandCubicBezierCommand_cp1 (P : Platform) (d : PathDataIterator)
    (h : (d.ParseShorthandCubicBezierCommand P).1 = true) :
    (d.ParseShorthandCubicBezierCommand P).2.control_point1_ =
      if d.last_command_type_ = kPathCommandTypeCubicBezier ∨
          d.last_command_type_ = kPathCommandTypeShorthandCubicBezier then
        ⟨d.point_.x + (d.point_.x - d.control_point2_.x),
          d.point_.y + (d.point_.y - d.control_point2_.y)⟩
      else d.point_ := by
  unfold PathDataIterator.ParseShorthandCubicBezierCommand at h ⊢
  dsimp only at h ⊢
  split_ifs at h ⊢ <;> rfl

theorem ParseShorthandQuadBezierCommand_cp1 (P : Platform) (d : PathDataIterator)
    (h : (d.ParseShorthandQuadBezierCommand P).1 = true) :
    (d.ParseShorthandQuadBezierCommand P).2.control_point1_ =
      if d.last_command_type_ = kPathCommandTypeQuadBezier ∨
          d.last_command_type_ = kPathCommandTypeShorthandQuadBezier then
        ⟨d.point_.x + (d.point_.x - d.control_point1_.x),
          d.point_.y + (d.point_.y - d.control_point1_.y)⟩
      else d.point_ := by
  unfold PathDataIterator.ParseShorthandQuadBezierCommand at h ⊢
  dsimp only at h ⊢
  split_ifs at h ⊢ <;> rfl

theorem dispatch_shorthand (P : Platform) (d : PathDataIterator)
    (h : (d.dispatch P).1 = true) :
    (d.command_type_ = kPathCommandTypeShorthandCubicBezier →
      (d.dispatch P).2.control_point1_ =
        if d.last_command_type_ = kPathCommandTypeCubicBezier ∨
            d.last_command_type_ = kPathCommandTypeShorthandCubicBezier then
          ⟨d.point_.x + (d.point_.x - d.control_point2_.x),
            d.point_.y + (d.point_.y - d.control_point2_.y)⟩
        else d.point_) ∧
    (d.command_type_ = kPathCommandTypeShorthandQuadBezier →
      (d.dispatch P).2.control_point1_ =
        if d.last_command_type_ = kPathCommandTypeQuadBezier ∨
            d.last_command_type_ = kPathCommandTypeShorthandQuadBezier then
          ⟨d.point_.x + (d.point_.x - d.control_point1_.x),
            d.point_.y + (d.point_.y - d.control_point1_.y)⟩
        else d.point_) := by
  constructor
  · intro hs
    have e : d.dispatch P = d.ParseShorthandCubicBezierCommand P := by
      unfold PathDataIterator.dispatch; rw [hs]
    rw [e] at h ⊢
    exact ParseShorthandCubicBezierCommand_cp1 P d h
  · intro hs
    have e : d.dispatch P = d.ParseShorthandQuadBezierCommand P := by
      unfold PathDataIterator.dispatch; rw [hs]
    rw [e] at h ⊢
    exact ParseShorthandQuadBezierCommand_cp1 P d h

/-- The state that ParseSingleCommandForPath hands to the switch on the
command type agrees with the state before the call in the members that hold
points and the previous command. -/
theorem ParseSingleCommandForPath_cases (P : Platform) (it : PathDataIterator)
    (h : (it.ParseSingleCommandForPath P).1 = true) :
    ∃ d : PathDataIterator, it.ParseSingleCommandForPath P = d.dispatch P ∧
      d.point_ = it.point_ ∧ d.control_point1_ = it.control_point1_ ∧
      d.control_point2_ = it.control_point2_ ∧
      d.last_command_type_ = it.last_command_type_ ∧
      d.subpath_start_point_ = it.subpath_start_point_ ∧ d.format_ = it.format_ := by
  unfold PathDataIterator.ParseSingleCommandForPath at h ⊢
  dsimp only at h ⊢
  by_cases hpk : (PeekAlpha it.s_ '\x00').1 = true
  · rw [if_pos hpk] at h ⊢
    by_cases hca : (ConsumeAlpha it.s_ (PeekAlpha it.s_ '\x00').2).1 = false
    · rw [if_pos hca] at h
      exact absurd h (by simp)
    · rw [if_neg hca] at h ⊢
      generalize commandTypeOfChar _ = o at h ⊢
      cases o with
      | none => exact absurd h (by simp)
      | some t => exact ⟨_, rfl, rfl, rfl, rfl, rfl, rfl, rfl⟩
  · rw [if_neg hpk] at h ⊢
    by_cases hf : it.is_first_command_ = true ∨ it.command_type_ = kPathCommandTypeClosePath
    · rw [if_pos hf] at h
      exact absurd h (by simp)
    · rw [if_neg hf]
      by_cases hm : it.command_type_ = kPathCommandTypeMoveTo
      · rw [if_pos hm]
        exact ⟨_, rfl, rfl, rfl, rfl, rfl, rfl, rfl⟩
      · rw [if_neg hm]
        exact ⟨_, rfl, rfl, rfl, rfl, rfl, rfl, rfl⟩


theorem ParseSingleCommandForPoints_regs (P : Platform) (it : PathDataIterator) :
    (it.ParseSingleCommandForPoints P).2.format_ = it.format_ ∧
    (it.ParseSingleCommandForPoints P).2.subpath_start_point_ = it.subpath_start_point_ ∧
    ((it.ParseSingleCommandForPoints P).2.command_type_ = kPathCommandTypeMoveTo ∨
      (it.ParseSingleCommandForPoints P).2.command_type_ = kPathCommandTypeLineTo) := by
  unfold PathDataIterator.ParseSingleCommandForPoints
  split_ifs
  · dsimp only
    exact ⟨(ParseMoveAndLineCommand_regs P _ _).2.1, (ParseMoveAndLineCommand_regs P _ _).2.2.1,
      Or.inl (ParseMoveAndLineCommand_regs P _ _).1⟩
  · dsimp only
    exact ⟨(ParseMoveAndLineCommand_regs P _ _).2.1, (ParseMoveAndLineCommand_regs P _ _).2.2.1,
      Or.inr (ParseMoveAndLineCommand_regs P _ _).1⟩

/-- What one successful call of Next does to the members that the claims about
ClosePath and the shorthand curves read. -/
theorem Next_step (P : Platform) (it it2 : PathDataIterator) (h : it.Next P = (true, it2)) :
    it2.format_ = it.format_ ∧
    (it.format_ = kPathDataFormatPath → it2.command_type_ = kPathCommandTypeMoveTo →
      it2.subpath_start_point_ = it2.point_) ∧
    (it2.command_type_ ≠ kPathCommandTypeMoveTo →
      it2.subpath_start_point_ = it.subpath_start_point_) ∧
    ((ConsumeWhitespace it.s_).2.length ≠ 0 → it2.command_type_ = kPathCommandTypeClosePath →
      it2.point_ = it.subpath_start_point_) ∧
    (it2.command_type_ = kPathCommandTypeShorthandCubicBezier →
      it2.control_point1_ =
        if it.last_command_type_ = kPathCommandTypeCubicBezier ∨
            it.last_command_type_ = kPathCommandTypeShorthandCubicBezier then
          ⟨it.point_.x + (it.point_.x - it.control_point2_.x),
            it.point_.y + (it.point_.y - it.control_point2_.y)⟩
        else it.point_) ∧
    (it2.command_type_ = kPathCommandTypeShorthandQuadBezier →
      it2.control_point1_ =
        if it.last_command_type_ = kPathCommandTypeQuadBezier ∨
            it.last_command_type_ = kPathCommandTypeShorthandQuadBezier then
          ⟨it.point_.x + (it.point_.x - it.control_point1_.x),
            it.point_.y + (it.point_.y - it.control_point1_.y)⟩
        else it.point_) ∧
    (it2.last_command_type_ = it2.command_type_ ∨
      (it2.s_.length = 0 ∧ it2.shown_close_path_ = true)) := by
  unfold PathDataIterator.Next at h
  dsimp only at h
  by_cases hlen : (ConsumeWhitespace it.s_).2.length = 0
  · rw [if_pos hlen] at h
    split_ifs at h
    · have e := (Prod.mk.inj h).2
      subst e
      refine ⟨rfl, ?_, fun _ => rfl, fun hn => absurd hlen hn, ?_, ?_, Or.inr ⟨hlen, rfl⟩⟩
      · intro _ hm; cases hm
      · intro hm; cases hm
      · intro hm; cases hm
    · exact absurd (Prod.mk.inj h).1 (by decide)
  · rw [if_neg hlen] at h
    by_cases hfmt : it.format_ = kPathDataFormatPoints
    · rw [if_pos hfmt] at h
      split_ifs at h
      · have e := (Prod.mk.inj h).2
        subst e
        obtain ⟨hf, hsp, hct⟩ := ParseSingleCommandForPoints_regs P
          { it with s_ := (ConsumeWhitespace it.s_).2 }
        refine ⟨hf, fun hp => absurd (hfmt.symm.trans hp) (by decide), fun _ => hsp, ?_, ?_, ?_,
          Or.inl rfl⟩
        · intro _ hc
          rcases hct with hct | hct <;> exact absurd (hct.symm.trans hc) (by decide)
        · intro hc
          rcases hct with hct | hct <;> exact absurd (hct.symm.trans hc) (by decide)
        · intro hc
          rcases hct with hct | hct <;> exact absurd (hct.symm.trans hc) (by decide)
      · exact absurd (Prod.mk.inj h).1 (by decide)
    · rw [if_neg hfmt] at h
      split_ifs at h with hok
      · have e := (Prod.mk.inj h).2
        subst e
        obtain ⟨d, hd, hp, hc1, hc2, hl, hsp, hf⟩ := ParseSingleCommandForPath_cases P
          { it with s_ := (ConsumeWhitespace it.s_).2 } hok
        rw [hd] at hok
        have hreg := dispatch_regs P d
        have hsub := dispatch_subpath P d
        have hsh := dispatch_shorthand P d hok
        dsimp only at hp hc1 hc2 hl hsp hf ⊢
        rw [hd]
        refine ⟨hreg.2.1.trans hf, ?_, ?_, ?_, ?_, ?_, Or.inl rfl⟩
        · intro _ hm
          exact hsub.1 (hreg.1.symm.trans hm)
        · intro hm
          exact (hsub.2.1 (fun e => hm (hreg.1.trans e))).trans hsp
        · intro _ hc
          exact (hsub.2.2 (hreg.1.symm.trans hc)).trans hsp
        · intro hs
          rw [hsh.1 (hreg.1.symm.trans hs), hl, hp, hc2]
        · intro hs
          rw [hsh.2 (hreg.1.symm.trans hs), hl, hp, hc1]
      · exact absurd (Prod.mk.inj h).1 (by decide)

theorem Next_exhausted (P : Platform) (it : PathDataIterator) (h0 : it.s_.length = 0)
    (hs : it.shown_close_path_ = true) : (it.Next P).1 = false := by
  have hv : it.s_.view = [] := List.length_eq_zero.1 h0
  have hw : (ConsumeWhitespace it.s_).2 = it.s_ := by
    unfold ConsumeWhitespace
    rw [hv]
    rfl
  unfold PathDataIterator.Next
  dsimp only
  rw [hw, if_pos h0, hs]
  simp


theorem trace_succ (P : Platform) (n : Nat) (it : PathDataIterator) :
    PathDataIterator.trace P (n + 1) it =
      if (it.Next P).1 then (it.Next P).2 :: PathDataIterator.trace P n (it.Next P).2 else [] :=
  rfl

theorem trace_next (P : Platform) : ∀ (n : Nat) (it : PathDataIterator) (k : Nat)
    (a b : PathDataIterator), (PathDataIterator.trace P n it)[k]? = some a →
    (PathDataIterator.trace P n it)[k + 1]? = some b → a.Next P = (true, b) := by
  intro n
  induction n with
  | zero => intro it k a b ha; simp [PathDataIterator.trace] at ha
  | succ n ih =>
    intro it k a b ha hb
    rw [trace_succ] at ha hb
    by_cases hok : (it.Next P).1 = true
    · rw [if_pos hok] at ha hb
      cases k with
      | zero =>
        simp only [List.getElem?_cons_zero, Option.some.injEq] at ha
        simp only [List.getElem?_cons_succ] at hb
        subst ha
        cases n with
        | zero => simp [PathDataIterator.trace] at hb
        | succ m =>
          rw [trace_succ] at hb
          by_cases hok2 : ((it.Next P).2.Next P).1 = true
          · rw [if_pos hok2] at hb
            simp only [List.getElem?_cons_zero, Option.some.injEq] at hb
            rw [← hb]
            exact Prod.ext hok2 rfl
          · rw [if_neg hok2] at hb
            simp at hb
      | succ k =>
        simp only [List.getElem?_cons_succ] at ha hb
        exact ih _ k a b ha hb
    · rw [if_neg hok] at ha
      simp at ha

theorem mostRecentMoveTo_cons (st : PathDataIterator) (later : List PathDataIterator) :
    mostRecentMoveTo (st :: later) =
      match mostRecentMoveTo later with
      | some p => some p
      | none => if st.command_type_ = kPathCommandTypeMoveTo then some st.point_ else none :=
  rfl

theorem trace_subpath (P : Platform) : ∀ (n : Nat) (it : PathDataIterator) (k : Nat)
    (st : PathDataIterator), it.format_ = kPathDataFormatPath →
    (PathDataIterator.trace P n it)[k]? = some st →
    st.subpath_start_point_ =
      (mostRecentMoveTo ((PathDataIterator.trace P n it).take (k + 1))).getD
        it.subpath_start_point_ := by
  intro n
  induction n with
  | zero => intro it k st _ hst; simp [PathDataIterator.trace] at hst
  | succ n ih =>
    intro it k st hfmt hst
    rw [trace_succ] at hst ⊢
    by_cases hok : (it.Next P).1 = true
    · rw [if_pos hok] at hst ⊢
      have hN := Next_step P it (it.Next P).2 (Prod.ext hok rfl)
      cases k with
      | zero =>
        simp only [List.getElem?_cons_zero, Option.some.injEq] at hst
        subst hst
        simp only [List.take_succ_cons, List.take_zero, mostRecentMoveTo_cons, mostRecentMoveTo]
        by_cases hm : (it.Next P).2.command_type_ = kPathCommandTypeMoveTo
        · rw [if_pos hm]
          exact hN.2.1 hfmt hm
        · rw [if_neg hm]
          exact hN.2.2.1 hm
      | succ k =>
        simp only [List.getElem?_cons_succ] at hst
        have h2 := ih (it.Next P).2 k st (hN.1.trans hfmt) hst
        rw [h2]
        simp only [List.take_succ_cons, mostRecentMoveTo_cons]
        cases mostRecentMoveTo (List.take (k + 1) (PathDataIterator.trace P n (it.Next P).2)) with
        | some p => rfl
        | none =>
          by_cases hm : (it.Next P).2.command_type_ = kPathCommandTypeMoveTo
          · simp only [if_pos hm, Option.getD_none, Option.getD_some]
            exact hN.2.1 hfmt hm
          · simp only [if_neg hm, Option.getD_none]
            exact hN.2.2.1 hm
    · rw [if_neg hok] at hst
      simp at hst

/-- C8: in path format, a ClosePath command that Next parsed from the data
leaves point() at the point of the most recent MoveTo command among the
commands yielded before it. -/
theorem close_path_returns_to_last_move_to (P : Platform) (uninitialized : PathDataIterator)
    (data : List Char) (implicit_close : Bool) (n k : Nat) (prev cur : PathDataIterator)
    (p : CGPoint)
    (hprev : (PathDataIterator.trace P n
      (PathDataIterator.init uninitialized data kPathDataFormatPath implicit_close))[k]?
        = some prev)
    (hcur : (PathDataIterator.trace P n
      (PathDataIterator.init uninitialized data kPathDataFormatPath implicit_close))[k + 1]?
        = some cur)
    (hclose : cur.command_type_ = kPathCommandTypeClosePath)
    (hparsed : (ConsumeWhitespace prev.s_).2.length ≠ 0)
    (hmove : mostRecentMoveTo ((PathDataIterator.trace P n
      (PathDataIterator.init uninitialized data kPathDataFormatPath implicit_close)).take (k + 1))
        = some p) :
    cur.point_ = p := by
  have hstep := trace_next P n _ k prev cur hprev hcur
  have hsub := trace_subpath P n _ k prev rfl hprev
  rw [hmove] at hsub
  rw [(Next_step P prev cur hstep).2.2.2.1 hparsed hclose, hsub]
  rfl

/-- C8 on "M0 0 L10 0 l0 10 z M20 20": Next yields MoveTo (0,0), LineTo (10,0),
LineTo (10,10), ClosePath with point (0,0), MoveTo (20,20), and then returns
false; the ClosePath is the fourth state of the trace. -/
theorem close_path_returns_to_last_move_to_witness :
    PathDataIterator.commands Platform.exact "M0 0 L10 0 l0 10 z M20 20" kPathDataFormatPath
        false 10
      = ([(kPathCommandTypeMoveTo, ⟨0, 0⟩), (kPathCommandTypeLineTo, ⟨10, 0⟩),
          (kPathCommandTypeLineTo, ⟨10, 10⟩), (kPathCommandTypeClosePath, ⟨0, 0⟩),
          (kPathCommandTypeMoveTo, ⟨20, 20⟩)], false) ∧
    (((PathDataIterator.trace Platform.exact 10
        (PathDataIterator.init PathDataIterator.zero "M0 0 L10 0 l0 10 z M20 20".data
          kPathDataFormatPath false))[3]?).getD PathDataIterator.zero).point_ = ⟨0, 0⟩ :=
  ⟨by decide!,
   close_path_returns_to_last_move_to Platform.exact PathDataIterator.zero
     "M0 0 L10 0 l0 10 z M20 20".data false 10 2
     (((PathDataIterator.trace Platform.exact 10
        (PathDataIterator.init PathDataIterator.zero "M0 0 L10 0 l0 10 z M20 20".data
          kPathDataFormatPath false))[2]?).getD PathDataIterator.zero)
     (((PathDataIterator.trace Platform.exact 10
        (PathDataIterator.init PathDataIterator.zero "M0 0 L10 0 l0 10 z M20 20".data
          kPathDataFormatPath false))[3]?).getD PathDataIterator.zero)
     ⟨0, 0⟩ (by decide!) (by decide!) (by decide!) (by decide!) (by decide!)⟩

/-! ## C9: shorthand cubic curves -/

/-- C9: when Next yields a shorthand cubic curve from the current point p,
control_point1() is 2p - c2 if the command yielded before it was a CubicBezier
or a ShorthandCubicBezier with second control point c2, and p after a command
of any other type. -/
theorem shorthand_cubic_reflects_control_point2 (P : Platform) (before it it2 : PathDataIterator)
    (h1 : before.Next P = (true, it)) (h2 : it.Next P = (true, it2))
    (h3 : it2.command_type_ = kPathCommandTypeShorthandCubicBezier) :
    ((it.command_type_ = kPathCommandTypeCubicBezier ∨
        it.command_type_ = kPathCommandTypeShorthandCubicBezier) →
      it2.control_point1_ =
        ⟨2 * it.point_.x - it.control_point2_.x, 2 * it.point_.y - it.control_point2_.y⟩) ∧
    (¬ (it.command_type_ = kPathCommandTypeCubicBezier ∨
        it.command_type_ = kPathCommandTypeShorthandCubicBezier) →
      it2.control_point1_ = it.point_) := by
  have hlast : it.last_command_type_ = it.command_type_ := by
    rcases (Next_step P before it h1).2.2.2.2.2.2 with h | ⟨h0, hs⟩
    · exact h
    · have := Next_exhausted P it h0 hs
      rw [h2] at this
      cases this
  have hcp := (Next_step P it it2 h2).2.2.2.2.1 h3
  rw [hlast] at hcp
  constructor
  · intro hc
    rw [hcp, if_pos hc]
    congr 1 <;> ring
  · intro hc
    rw [hcp, if_neg hc]

/-- C9 on "M 0 0 C 10 0 20 10 30 10 S 50 20 60 10": the S command has
control_point1 (40,10), control_point2 (50,20) and point (60,10). -/
theorem shorthand_cubic_reflects_control_point2_witness :
    ((PathDataIterator.trace Platform.exact 10
        (PathDataIterator.init PathDataIterator.zero
          "M 0 0 C 10 0 20 10 30 10 S 50 20 60 10".data kPathDataFormatPath false)).map
        fun st => (st.command_type_, st.control_point1_, st.control_point2_, st.point_))
      = [(kPathCommandTypeMoveTo, ⟨0, 0⟩, ⟨0, 0⟩, ⟨0, 0⟩),
         (kPathCommandTypeCubicBezier, ⟨10, 0⟩, ⟨20, 10⟩, ⟨30, 10⟩),
         (kPathCommandTypeShorthandCubicBezier, ⟨40, 10⟩, ⟨50, 20⟩, ⟨60, 10⟩)] ∧
    (((PathDataIterator.trace Platform.exact 10
        (PathDataIterator.init PathDataIterator.zero
          "M 0 0 C 10 0 20 10 30 10 S 50 20 60 10".data kPathDataFormatPath false))[2]?).getD
        PathDataIterator.zero).control_point1_ = ⟨2 * 30 - 20, 2 * 10 - 10⟩ :=
  ⟨by decide!,
   ((shorthand_cubic_reflects_control_point2 Platform.exact
     (((PathDataIterator.trace Platform.exact 10
        (PathDataIterator.init PathDataIterator.zero
          "M 0 0 C 10 0 20 10 30 10 S 50 20 60 10".data kPathDataFormatPath false))[0]?).getD
        PathDataIterator.zero)
     (((PathDataIterator.trace Platform.exact 10
        (PathDataIterator.init PathDataIterator.zero
          "M 0 0 C 10 0 20 10 30 10 S 50 20 60 10".data kPathDataFormatPath false))[1]?).getD
        PathDataIterator.zero)
     (((PathDataIterator.trace Platform.exact 10
        (PathDataIterator.init PathDataIterator.zero
          "M 0 0 C 10 0 20 10 30 10 S 50 20 60 10".data kPathDataFormatPath false))[2]?).getD
        PathDataIterator.zero)
     (by decide!) (by decide!) (by decide!)).1 (by decide!)).trans (by decide!)⟩

/-! ## C10: shorthand quadratic curves -/

/-- C10: when Next yields a shorthand quadratic curve from the current point
p, control_point1() is 2p - c1 if the command yielded before it was a
QuadBezier or a ShorthandQuadBezier whose control point (written or reflected)
is c1, and p after a command of any other type. -/
theorem shorthand_quad_reflects_control_point1 (P : Platform) (before it it2 : PathDataIterator)
    (h1 : before.Next P = (true, it)) (h2 : it.Next P = (true, it2))
    (h3 : it2.command_type_ = kPathCommandTypeShorthandQuadBezier) :
    ((it.command_type_ = kPathCommandTypeQuadBezier ∨
        it.command_type_ = kPathCommandTypeShorthandQuadBezier) →
      it2.control_point1_ =
        ⟨2 * it.point_.x - it.control_point1_.x, 2 * it.point_.y - it.control_point1_.y⟩) ∧
    (¬ (it.command_type_ = kPathCommandTypeQuadBezier ∨
        it.command_type_ = kPathCommandTypeShorthandQuadBezier) →
      it2.control_point1_ = it.point_) := by
  have hlast : it.last_command_type_ = it.command_type_ := by
    rcases (Next_step P before it h1).2.2.2.2.2.2 with h | ⟨h0, hs⟩
    · exact h
    · have := Next_exhausted P it h0 hs
      rw [h2] at this
      cases this
  have hcp := (Next_step P it it2 h2).2.2.2.2.2.1 h3
  rw [hlast] at hcp
  constructor
  · intro hc
    rw [hcp, if_pos hc]
    congr 1 <;> ring
  · intro hc
    rw [hcp, if_neg hc]

/-- C10 on the chain "M0 0 Q 10 10 20 0 T 40 0 T 60 0": the first T reflects the
control point (10,10) of the Q in (20,0) and gets (30,-10); the second T reflects
that point in (40,0) and gets (50,10), not the reflection (70,-10) of the point
written in the Q. -/
theorem shorthand_quad_reflects_control_point1_witness :
    ((PathDataIterator.trace Platform.exact 10
        (PathDataIterator.init PathDataIterator.zero
          "M0 0 Q 10 10 20 0 T 40 0 T 60 0".data kPathDataFormatPath false)).map
        fun st => (st.command_type_, st.control_point1_, st.point_))
      = [(kPathCommandTypeMoveTo, ⟨0, 0⟩, ⟨0, 0⟩),
         (kPathCommandTypeQuadBezier, ⟨10, 10⟩, ⟨20, 0⟩),
         (kPathCommandTypeShorthandQuadBezier, ⟨30, -10⟩, ⟨40, 0⟩),
         (kPathCommandTypeShorthandQuadBezier, ⟨50, 10⟩, ⟨60, 0⟩)] ∧
    (((PathDataIterator.trace Platform.exact 10
        (PathDataIterator.init PathDataIterator.zero
          "M0 0 Q 10 10 20 0 T 40 0 T 60 0".data kPathDataFormatPath false))[3]?).getD
        PathDataIterator.zero).control_point1_ = ⟨2 * 40 - 30, 2 * 0 - (-10)⟩ :=
  ⟨by decide!,
   ((shorthand_quad_reflects_control_point1 Platform.exact
     (((PathDataIterator.trace Platform.exact 10
        (PathDataIterator.init PathDataIterator.zero
          "M0 0 Q 10 10 20 0 T 40 0 T 60 0".data kPathDataFormatPath false))[1]?).getD
        PathDataIterator.zero)
     (((PathDataIterator.trace Platform.exact 10
        (PathDataIterator.init PathDataIterator.zero
          "M0 0 Q 10 10 20 0 T 40 0 T 60 0".data kPathDataFormatPath false))[2]?).getD
        PathDataIterator.zero)
     (((PathDataIterator.trace Platform.exact 10
        (PathDataIterator.init PathDataIterator.zero
          "M0 0 Q 10 10 20 0 T 40 0 T 60 0".data kPathDataFormatPath false))[3]?).getD
        PathDataIterator.zero)
     (by decide!) (by decide!) (by decide!)).1 (by decide!)).trans (by decide!)⟩

/-! ## C2: parsers -/


theorem Advance_le (s : StringPiece) (n : Nat) (h : n ≤ s.view.length) :
    s.Advance n = ⟨s.view.drop n, s.rest⟩ := by
  simp [StringPiece.Advance, Nat.min_eq_left h]

theorem Suffix_refl (s : StringPiece) : s.Suffix s := ⟨0, Nat.zero_le _, by simp⟩

theorem Suffix_trans {s t u : StringPiece} (h1 : s.Suffix t) (h2 : t.Suffix u) : s.Suffix u := by
  obtain ⟨n, hn, rfl⟩ := h1
  obtain ⟨m, hm, rfl⟩ := h2
  simp only [List.length_drop] at hm
  exact ⟨n + m, by omega, by simp [List.drop_drop, Nat.add_comm]⟩

theorem Tight_suffix {s t : StringPiece} (h : s.Tight t) : s.Suffix t := by
  obtain ⟨n, _, hn, rfl, _⟩ := h
  exact ⟨n, hn, rfl⟩

theorem Suffix_tight {s t u : StringPiece} (h1 : s.Suffix t) (h2 : t.Tight u) : s.Tight u := by
  obtain ⟨n, hn, rfl⟩ := h1
  obtain ⟨m, hm0, hm, rfl, hsp⟩ := h2
  simp only [List.length_drop] at hm
  refine ⟨n + m, by omega, by omega, by simp [List.drop_drop, Nat.add_comm], ?_⟩
  rw [← hsp]
  simp only [List.getD_eq_getElem?_getD, List.getElem?_drop]
  have e : n + m - 1 = n + (m - 1) := by omega
  rw [e]

theorem isspace_digit (c : Char) (h1 : '0' ≤ c) (h2 : c ≤ '9') : isspace c = false := by
  have e1 : (48 : Nat) ≤ c.toNat := h1
  have e2 : c.toNat ≤ 57 := h2
  simp only [isspace, Bool.or_eq_false_iff, decide_eq_false_iff_not]
  refine ⟨⟨⟨⟨⟨?_, ?_⟩, ?_⟩, ?_⟩, ?_⟩, ?_⟩ <;> (rintro rfl; revert e1; decide)

theorem ConsumeWhitespaceLoop_spec : ∀ (l : List Char) (it : Nat),
    ∃ k, k ≤ l.length ∧ ConsumeWhitespaceLoop l it = it + k := by
  intro l
  induction l with
  | nil => intro it; exact ⟨0, Nat.le_refl _, rfl⟩
  | cons c cs ih =>
    intro it
    simp only [ConsumeWhitespaceLoop]
    split_ifs
    · obtain ⟨k, hk, he⟩ := ih (it + 1)
      exact ⟨k + 1, by simp; omega, by rw [he]; omega⟩
    · exact ⟨0, Nat.zero_le _, rfl⟩

theorem ConsumeWhitespace_suffix (s : StringPiece) : s.Suffix (ConsumeWhitespace s).2 := by
  obtain ⟨k, hk, he⟩ := ConsumeWhitespaceLoop_spec s.view 0
  simp only [ConsumeWhitespace, he, Nat.zero_add]
  split_ifs
  · exact ⟨k, hk, Advance_le s k hk⟩
  · exact Suffix_refl s

theorem ConsumeDecimalIntLoop_spec : ∀ (l : List Char) (ret : Int) (iter : Nat),
    ∃ k, k ≤ l.length ∧ (ConsumeDecimalIntLoop l ret iter).2 = iter + k ∧
      (0 < k → isspace (l.getD (k - 1) ' ') = false) := by
  intro l
  induction l with
  | nil => intro ret iter; exact ⟨0, Nat.le_refl _, rfl, fun h => absurd h (by decide)⟩
  | cons c cs ih =>
    intro ret iter
    simp only [ConsumeDecimalIntLoop]
    split_ifs with hd
    · obtain ⟨k, hk, he, hsp⟩ := ih (wrapInt (wrapInt (ret * 10) + ((c.toNat : Int) - 48))) (iter + 1)
      refine ⟨k + 1, by simp; omega, by rw [he]; omega, fun _ => ?_⟩
      cases k with
      | zero => simpa using isspace_digit c hd.1 hd.2
      | succ k => simpa using hsp (Nat.succ_pos k)
    · exact ⟨0, Nat.zero_le _, rfl, fun h => absurd h (by decide)⟩

theorem ConsumeDecimalInt_tight (s : StringPiece) (n : Int) :
    ((ConsumeDecimalInt s n).1 = true ∧ s.Tight (ConsumeDecimalInt s n).2.1) ∨
    ((ConsumeDecimalInt s n).1 = false ∧ (ConsumeDecimalInt s n).2.1 = s) := by
  obtain ⟨k, hk, he, hsp⟩ := ConsumeDecimalIntLoop_spec s.view 0 0
  simp only [ConsumeDecimalInt, he, Nat.zero_add]
  split_ifs with h0
  · exact Or.inl ⟨rfl, k, Nat.pos_of_ne_zero h0, hk, Advance_le s k hk, hsp (Nat.pos_of_ne_zero h0)⟩
  · exact Or.inr ⟨rfl, rfl⟩

theorem ConsumeSign_tight (s : StringPiece) :
    (ConsumeSign s).2 = s ∨ s.Tight (ConsumeSign s).2 := by
  simp only [ConsumeSign]
  split_ifs with h
  · right
    have hl : 0 < s.view.length := Nat.pos_of_ne_zero h.1
    refine ⟨1, Nat.one_pos, hl, Advance_le s 1 hl, ?_⟩
    have hg : s.view.getD 0 ' ' = '-' := by
      have := h.2
      simp only [StringPiece.get, List.getD_eq_getElem?_getD] at this ⊢
      rw [List.getElem?_append_left hl] at this
      rw [List.getElem?_eq_getElem hl, Option.getD_some] at this ⊢
      exact this
    show isspace (s.view.getD 0 ' ') = false
    rw [hg]
    decide
  · exact Or.inl rfl

theorem Tight_trans {s t u : StringPiece} (h1 : s.Tight t) (h2 : t.Tight u) : s.Tight u :=
  Suffix_tight (Tight_suffix h1) h2

theorem Tight_same_or {s t u : StringPiece} (h1 : s.Tight t) (h2 : u = t ∨ t.Tight u) :
    s.Tight u := by
  rcases h2 with rfl | h2
  · exact h1
  · exact Tight_trans h1 h2

theorem Suffix_same_or {s t u : StringPiece} (h1 : s.Suffix t) (h2 : u = t ∨ t.Tight u) :
    s.Suffix u := by
  rcases h2 with rfl | h2
  · exact h1
  · exact Suffix_trans h1 (Tight_suffix h2)

theorem Suffix_beginDiff {s t : StringPiece} (h : s.Suffix t) : t.beginDiff s ≤ s.view.length ∧
    s.Advance (t.beginDiff s) = t := by
  obtain ⟨n, hn, rfl⟩ := h
  have e : StringPiece.beginDiff ⟨s.view.drop n, s.rest⟩ s = n := by
    simp only [StringPiece.beginDiff, StringPiece.remaining, List.length_drop]
    omega
  rw [e]
  exact ⟨hn, Advance_le s n hn⟩

theorem Tight_advance_beginDiff {s t : StringPiece} (h : s.Tight t) :
    s.Tight (s.Advance (t.beginDiff s)) := by
  rw [(Suffix_beginDiff (Tight_suffix h)).2]
  exact h

theorem Suffix_lengthDiff {s t : StringPiece} (h : s.Suffix t) :
    s.Advance (s.length - t.length) = t := by
  obtain ⟨n, hn, rfl⟩ := h
  have e : s.length - StringPiece.length ⟨s.view.drop n, s.rest⟩ = n := by
    simp only [StringPiece.length, List.length_drop]
    omega
  rw [e]
  exact Advance_le s n hn

theorem Tight_advance_one (s : StringPiece) (h0 : s.length ≠ 0) (hc : isspace (s.get 0) = false) :
    s.Tight (s.Advance 1) := by
  have hl : 0 < s.view.length := Nat.pos_of_ne_zero h0
  refine ⟨1, Nat.one_pos, hl, Advance_le s 1 hl, ?_⟩
  show isspace (s.view.getD 0 ' ') = false
  rw [← hc]
  simp only [StringPiece.get, List.getD_eq_getElem?_getD]
  rw [List.getElem?_append_left hl, List.getElem?_eq_getElem hl, Option.getD_some,
    Option.getD_some]

theorem ConsumeFloatFraction_tight (after_base : StringPiece) :
    ((ConsumeFloatFraction after_base).1 = after_base ∧ (ConsumeFloatFraction after_base).2.2 = 0) ∨
    after_base.Tight (ConsumeFloatFraction after_base).1 := by
  simp only [ConsumeFloatFraction]
  split_ifs with h hd
  · right
    have h1 := Tight_advance_one after_base h.1 (by rw [h.2]; decide)
    rcases ConsumeDecimalInt_tight (after_base.Advance 1) 0 with ⟨_, ht⟩ | ⟨hf, _⟩
    · exact Tight_trans h1 ht
    · rw [hf] at hd; cases hd
  · right
    have h1 := Tight_advance_one after_base h.1 (by rw [h.2]; decide)
    rcases ConsumeDecimalInt_tight (after_base.Advance 1) 0 with ⟨ht, _⟩ | ⟨_, he⟩
    · exact absurd ht hd
    · rw [he]; exact h1
  · exact Or.inl ⟨rfl, rfl⟩

theorem ConsumeFloatExponent_tight (P : Platform) (after_base : StringPiece)
    (value : FloatValue) :
    (ConsumeFloatExponent P after_base value).1 = after_base ∨
    after_base.Tight (ConsumeFloatExponent P after_base value).1 := by
  unfold ConsumeFloatExponent
  dsimp only
  by_cases h : after_base.length ≠ 0 ∧ after_base.get 0 = 'e'
  · rewrite [if_pos h]
    by_cases hd : (ConsumeDecimalInt (ConsumeSign (after_base.Advance 1)).2 0).1 = true
    · rewrite [if_pos hd]
      right
      have h1 := Tight_advance_one after_base h.1 (by rw [h.2]; decide)
      have h3 := Tight_same_or h1 (ConsumeSign_tight (after_base.Advance 1))
      rcases ConsumeDecimalInt_tight (ConsumeSign (after_base.Advance 1)).2 0 with
        ⟨_, ht⟩ | ⟨hf, _⟩
      · exact Tight_advance_beginDiff (Tight_trans h3 ht)
      · rw [hf] at hd; cases hd
    · rewrite [if_neg hd]
      exact Or.inl rfl
  · rewrite [if_neg h]
    exact Or.inl rfl

theorem ite_true_right {α : Type} (c : Prop) [Decidable c] (x y : Bool × α) (hx : x.1 = false)
    (h : (if c then x else y).1 = true) : (if c then x else y) = y := by
  split_ifs at h ⊢ with hc
  · rw [hx] at h; cases h
  · rfl

theorem ConsumeFloat_tight (P : Platform) (s : StringPiece) (f : CGFloat)
    (h : (ConsumeFloat P s f).1 = true) : s.Tight (ConsumeFloat P s f).2.1 := by
  have hws := ConsumeWhitespace_suffix s
  have hsg := Suffix_same_or hws (ConsumeSign_tight (ConsumeWhitespace s).2)
  have hfr := ConsumeFloatFraction_tight
    (ConsumeDecimalInt (ConsumeSign (ConsumeWhitespace s).2).2 0).2.1
  have hbase : s.Tight (ConsumeFloatFraction
      (ConsumeDecimalInt (ConsumeSign (ConsumeWhitespace s).2).2 0).2.1).1 ∨
      ((ConsumeDecimalInt (ConsumeSign (ConsumeWhitespace s).2).2 0).2.1.beginDiff
        (ConsumeSign (ConsumeWhitespace s).2).2 = 0 ∧
       (ConsumeFloatFraction
        (ConsumeDecimalInt (ConsumeSign (ConsumeWhitespace s).2).2 0).2.1).2.2 = 0) := by
    rcases ConsumeDecimalInt_tight (ConsumeSign (ConsumeWhitespace s).2).2 0 with ⟨_, ht⟩ | ⟨_, he⟩
    · left
      refine Tight_same_or (Suffix_tight hsg ht) ?_
      rcases hfr with ⟨h1, _⟩ | h1
      · exact Or.inl h1
      · exact Or.inr h1
    · rcases hfr with ⟨_, h1⟩ | h1
      · right
        refine ⟨?_, h1⟩
        rw [he]
        simp [StringPiece.beginDiff]
      · left
        have hsg2 : s.Suffix (ConsumeDecimalInt (ConsumeSign (ConsumeWhitespace s).2).2 0).2.1 := by
          rw [he]; exact hsg
        exact Suffix_tight hsg2 h1
  revert h
  unfold ConsumeFloat
  dsimp only
  by_cases h1 : decide ((ConsumeDecimalInt (ConsumeSign (ConsumeWhitespace s).2).2 0).2.1.beginDiff
        (ConsumeSign (ConsumeWhitespace s).2).2 ≠ 0) = false ∧
      (ConsumeFloatFraction
        (ConsumeDecimalInt (ConsumeSign (ConsumeWhitespace s).2).2 0).2.1).2.2 = 0
  · rewrite [if_pos h1]
    intro h; cases h
  · rewrite [if_neg h1]
    intro h
    have key : ∀ v : FloatValue, s.Tight (s.Advance ((ConsumeFloatExponent P
        (ConsumeFloatFraction
          (ConsumeDecimalInt (ConsumeSign (ConsumeWhitespace s).2).2 0).2.1).1 v).1.beginDiff
        s)) := by
      intro v
      rcases hbase with ht | ⟨hb, hf⟩
      · exact Tight_advance_beginDiff (Tight_same_or ht (ConsumeFloatExponent_tight P _ v))
      · exact absurd ⟨by simp [hb], hf⟩ h1
    revert h
    split
    · intro h; cases h
    · exact fun _ => key _
    · exact fun _ => key _

theorem Tight_endsInWhitespace {s t : StringPiece} (h : s.Tight t)
    (hw : s.endsInWhitespace = true) : t.length ≠ 0 := by
  obtain ⟨n, hn0, hn, rfl, hsp⟩ := h
  intro h0
  simp only [StringPiece.length, List.length_drop] at h0
  have e : n = s.view.length := by omega
  subst e
  simp only [StringPiece.endsInWhitespace, List.getLast?_eq_getElem?] at hw
  simp only [List.getD_eq_getElem?_getD] at hsp
  cases hv : s.view[s.view.length - 1]? with
  | none => rw [hv] at hw; cases hw
  | some c =>
    rw [hv] at hw hsp
    simp only [Option.getD_some] at hsp
    have hw2 : isspace c = true := hw
    rw [hsp] at hw2
    cases hw2

theorem ParseFloat_trailing_whitespace (P : Platform) (s : StringPiece) (f : CGFloat)
    (hw : s.endsInWhitespace = true) : (ParseFloat P s f).1 = false := by
  simp only [ParseFloat, GenericParse1]
  cases h : (ConsumeFloat P s f).1 with
  | false => rfl
  | true =>
    have := Tight_endsInWhitespace (ConsumeFloat_tight P s f h) hw
    simp [this]

theorem isPrefixOf_getD (word l : List Char) (h : word.isPrefixOf l = true) (i : Nat)
    (hi : i < word.length) : l.getD i ' ' = word.getD i ' ' := by
  rw [List.isPrefixOf_iff_prefix] at h
  obtain ⟨t, rfl⟩ := h
  simp only [List.getD_eq_getElem?_getD]
  rw [List.getElem?_append_left hi]

theorem ConsumeVocabulary_tight {Word : Type} (s : StringPiece) :
    ∀ (dictionary : List (List Char × Word)) (word : Word),
    (∀ entry ∈ dictionary, ∀ c ∈ entry.1, isspace c = false) →
    (ConsumeVocabulary s dictionary word).2.1 = s ∨
      s.Tight (ConsumeVocabulary s dictionary word).2.1 := by
  intro dictionary
  induction dictionary with
  | nil => intro word _; exact Or.inl rfl
  | cons entry dictionary ih =>
    intro word hd
    simp only [ConsumeVocabulary]
    split_ifs with hp
    · by_cases h0 : min entry.1.length s.view.length = 0
      · left
        show s.Advance entry.1.length = s
        simp [StringPiece.Advance, h0]
      · right
        show s.Tight (s.Advance entry.1.length)
        refine ⟨min entry.1.length s.view.length, Nat.pos_of_ne_zero h0, Nat.min_le_right _ _,
          rfl, ?_⟩
        have hlt : min entry.1.length s.view.length - 1 < entry.1.length := by omega
        have hlt2 : min entry.1.length s.view.length - 1 < s.view.length := by omega
        have e1 := isPrefixOf_getD entry.1 (s.view ++ s.rest) hp _ hlt
        simp only [List.getD_eq_getElem?_getD] at e1 ⊢
        rw [List.getElem?_append_left hlt2] at e1
        rw [e1, List.getElem?_eq_getElem hlt, Option.getD_some]
        exact hd entry (List.mem_cons_self _ _) _ (List.getElem_mem _)
    · exact ih word (fun e he => hd e (List.mem_cons_of_mem _ he))

theorem ConsumeLength_tight (P : Platform) (s : StringPiece) (length : Length)
    (h : (ConsumeLength P s length).1 = true) : s.Tight (ConsumeLength P s length).2.1 := by
  revert h
  unfold ConsumeLength
  dsimp only
  by_cases hf : (ConsumeFloat P s 0).1 = false
  · rewrite [if_pos hf]
    intro h; cases h
  · rewrite [if_neg hf]
    intro _
    have h1 := ConsumeFloat_tight P s 0 (by simpa using hf)
    have h2 := Tight_same_or h1 (ConsumeVocabulary_tight (ConsumeFloat P s 0).2.1
      kLengthUnitDictionary LengthUnit.kUnitNone (by decide))
    show s.Tight (s.Advance _)
    rw [Suffix_lengthDiff (Tight_suffix h2)]
    exact h2

theorem ParseLength_trailing_whitespace (P : Platform) (s : StringPiece) (length : Length)
    (hw : s.endsInWhitespace = true) : (ParseLength P s length).1 = false := by
  simp only [ParseLength, GenericParse1]
  cases h : (ConsumeLength P s length).1 with
  | false => rfl
  | true =>
    have := Tight_endsInWhitespace (ConsumeLength_tight P s length h) hw
    simp [this]

theorem isspace_close : isspace ')' = false := by decide

theorem ConsumeNumberDelimiterLoop_spec : ∀ (l : List Char) (seen_comma : Bool) (it : Nat),
    ∃ k, k ≤ l.length ∧ (ConsumeNumberDelimiterLoop l seen_comma it).1 = it + k := by
  intro l
  induction l with
  | nil => intro seen it; exact ⟨0, Nat.le_refl _, rfl⟩
  | cons c cs ih =>
    intro seen it
    simp only [ConsumeNumberDelimiterLoop]
    split_ifs
    · exact ⟨0, Nat.zero_le _, rfl⟩
    · obtain ⟨k, hk, he⟩ := ih true (it + 1)
      exact ⟨k + 1, by simp; omega, by rw [he]; omega⟩
    · exact ⟨0, Nat.zero_le _, rfl⟩
    · obtain ⟨k, hk, he⟩ := ih seen (it + 1)
      exact ⟨k + 1, by simp; omega, by rw [he]; omega⟩

theorem ConsumeNumberDelimiter_suffix (s : StringPiece) :
    s.Suffix (ConsumeNumberDelimiter s).2 := by
  obtain ⟨k, hk, he⟩ := ConsumeNumberDelimiterLoop_spec s.view false 0
  simp only [ConsumeNumberDelimiter, he, Nat.zero_add]
  split_ifs
  · exact ⟨k, hk, Advance_le s k hk⟩
  · exact Suffix_refl s

theorem GenericConsumeValuesLoop_tight {Value : Type} [Inhabited Value]
    (consume_value : StringPiece → Value → Bool × StringPiece × Value)
    (consume_delimiter : StringPiece → Bool × StringPiece) (is_delemeter_optional : Bool)
    (hv : ∀ (s : StringPiece) (v : Value), (consume_value s v).1 = true →
      s.Tight (consume_value s v).2.1)
    (hd : ∀ s : StringPiece, s.Suffix (consume_delimiter s).2) :
    ∀ (n i : Nat) (s_copy : StringPiece) (varray : List Value),
    (GenericConsumeValuesLoop consume_value consume_delimiter is_delemeter_optional
      n i s_copy varray).1 = true →
    (GenericConsumeValuesLoop consume_value consume_delimiter is_delemeter_optional
      n i s_copy varray).2.1 = s_copy ∨
    s_copy.Tight (GenericConsumeValuesLoop consume_value consume_delimiter is_delemeter_optional
      n i s_copy varray).2.1 := by
  intro n
  induction n with
  | zero => intro i s_copy varray _; exact Or.inl rfl
  | succ n ih =>
    intro i s_copy varray
    have hsuf : s_copy.Suffix (if i ≠ 0 then consume_delimiter s_copy else (true, s_copy)).2 := by
      split_ifs
      · exact hd s_copy
      · exact Suffix_refl s_copy
    simp only [GenericConsumeValuesLoop]
    generalize (if i ≠ 0 then consume_delimiter s_copy else (true, s_copy)) = d at hsuf ⊢
    split_ifs with h1 h2
    · intro h; cases h
    · intro h; cases h
    · intro h
      right
      have ht := hv d.2 (varray.getD i default) (by simpa using h2)
      exact Suffix_tight hsuf (Tight_same_or ht (ih _ _ _ h))

theorem endsInWhitespace_length (s : StringPiece) (hw : s.endsInWhitespace = true) :
    s.length ≠ 0 := by
  intro h0
  have : s.view = [] := List.length_eq_zero.mp h0
  simp [StringPiece.endsInWhitespace, this] at hw

theorem GenericConsumeValues_whitespace {Value : Type} [Inhabited Value]
    (consume_value : StringPiece → Value → Bool × StringPiece × Value)
    (consume_delimiter : StringPiece → Bool × StringPiece) (is_delemeter_optional : Bool)
    (hv : ∀ (s : StringPiece) (v : Value), (consume_value s v).1 = true →
      s.Tight (consume_value s v).2.1)
    (hd : ∀ s : StringPiece, s.Suffix (consume_delimiter s).2)
    (s : StringPiece) (count : Nat) (varray : List Value) (hw : s.endsInWhitespace = true) :
    (GenericConsumeValues consume_value consume_delimiter s count varray
      is_delemeter_optional).2.1.length ≠ 0 := by
  simp only [GenericConsumeValues]
  split_ifs with h
  · show (s.Advance _).length ≠ 0
    rcases GenericConsumeValuesLoop_tight consume_value consume_delimiter is_delemeter_optional
      hv hd count 0 s varray h with he | ht
    · rw [he, (Suffix_beginDiff (Suffix_refl s)).2]
      exact endsInWhitespace_length s hw
    · rw [(Suffix_beginDiff (Tight_suffix ht)).2]
      exact Tight_endsInWhitespace ht hw
  · exact endsInWhitespace_length s hw

theorem ParseFloats_trailing_whitespace (P : Platform) (s : StringPiece) (count : Nat)
    (farray : List CGFloat) (hw : s.endsInWhitespace = true) :
    (ParseFloats P s count farray).1 = false := by
  have := GenericConsumeValues_whitespace (ConsumeFloat P) ConsumeNumberDelimiter true
    (ConsumeFloat_tight P) ConsumeNumberDelimiter_suffix s count farray hw
  simp only [ParseFloats, GenericParse2, ConsumeFloats]
  simp [this]

theorem ConsumeString_suffix (s : StringPiece) (string : List Char) (case_sensitive : Bool) :
    s.Suffix (ConsumeString s string case_sensitive).2 := by
  simp only [ConsumeString]
  by_cases h1 : s.length < string.length
  · rw [if_pos h1]
    exact Suffix_refl s
  · rw [if_neg h1]
    have hl : string.length ≤ s.view.length := by simpa [StringPiece.length] using h1
    split_ifs
    · exact ⟨string.length, hl, Advance_le s _ hl⟩
    · exact Suffix_refl s
    · exact ⟨string.length, hl, Advance_le s _ hl⟩
    · exact Suffix_refl s

theorem findIndexFrom_spec (c : Char) : ∀ (l : List Char) (i p : Nat),
    findIndexFrom c l i = some p → ∃ j, p = i + j ∧ j < l.length ∧ l.getD j ' ' = c := by
  intro l
  induction l with
  | nil => intro i p h; cases h
  | cons x xs ih =>
    intro i p h
    simp only [findIndexFrom] at h
    split_ifs at h with hx
    · cases h
      exact ⟨0, rfl, by simp, by simpa using hx⟩
    · obtain ⟨j, hj, hl, hg⟩ := ih (i + 1) p h
      exact ⟨j + 1, by omega, by simpa using hl, by simpa using hg⟩

theorem ConsumeIri_tight (s iri : StringPiece) (h : (ConsumeIri s iri).1 = true) :
    s.Tight (ConsumeIri s iri).2.1 := by
  have hsuf := Suffix_trans (ConsumeWhitespace_suffix s)
    (ConsumeString_suffix (ConsumeWhitespace s).2 "url(".data true)
  revert h
  unfold ConsumeIri
  dsimp only
  generalize ConsumeString (ConsumeWhitespace s).2 "url(".data true = o at hsuf ⊢
  by_cases ho : o.1 = false
  · rewrite [if_pos ho]
    intro h; cases h
  · rewrite [if_neg ho]
    cases hf : o.2.find ')' with
    | none => intro h; cases h
    | some pos =>
      intro _
      obtain ⟨j, hj, hl, hg⟩ := findIndexFrom_spec ')' o.2.view 0 pos hf
      obtain ⟨n, hn, ho2⟩ := hsuf
      have hb : o.2.beginDiff s = n := by
        rw [ho2]
        simp only [StringPiece.beginDiff, StringPiece.remaining, List.length_drop]
        omega
      rw [ho2] at hl hg
      simp only [List.length_drop] at hl
      show s.Tight (s.Advance (o.2.beginDiff s + pos + 1))
      rw [hb]
      refine ⟨n + pos + 1, by omega, by omega, Advance_le s _ (by omega), ?_⟩
      have e : n + pos + 1 - 1 = n + j := by omega
      rw [e, ← isspace_close]
      rw [← hg]
      simp only [List.getD_eq_getElem?_getD, List.getElem?_drop]

theorem ParseIri_trailing_whitespace (s iri : StringPiece) (hw : s.endsInWhitespace = true) :
    (ParseIri s iri).1 = false := by
  simp only [ParseIri, GenericParse1]
  cases h : (ConsumeIri s iri).1 with
  | false => rfl
  | true =>
    have := Tight_endsInWhitespace (ConsumeIri_tight s iri h) hw
    simp [this]

theorem Advance_suffix (s : StringPiece) (n : Nat) : s.Suffix (s.Advance n) :=
  ⟨min n s.view.length, Nat.min_le_right _ _, rfl⟩

theorem isspace_isalpha (c : Char) (h : isalpha c = true) : isspace c = false := by
  simp only [isalpha, Bool.or_eq_true, Bool.and_eq_true, decide_eq_true_eq] at h
  have e : (65 : Nat) ≤ c.toNat := by
    rcases h with ⟨h1, _⟩ | ⟨h1, _⟩
    · exact Nat.le_trans (by decide) (show (97 : Nat) ≤ c.toNat from h1)
    · exact h1
  simp only [isspace, Bool.or_eq_false_iff, decide_eq_false_iff_not]
  refine ⟨⟨⟨⟨⟨?_, ?_⟩, ?_⟩, ?_⟩, ?_⟩, ?_⟩ <;> (rintro rfl; revert e; decide)

theorem isspace_ishexnumber (c : Char) (h : ishexnumber c = true) : isspace c = false := by
  simp only [ishexnumber, Bool.or_eq_true, Bool.and_eq_true, decide_eq_true_eq] at h
  have e : (48 : Nat) ≤ c.toNat := by
    rcases h with (⟨h1, _⟩ | ⟨h1, _⟩) | ⟨h1, _⟩
    · exact h1
    · exact Nat.le_trans (by decide) (show (97 : Nat) ≤ c.toNat from h1)
    · exact Nat.le_trans (by decide) (show (65 : Nat) ≤ c.toNat from h1)
  simp only [isspace, Bool.or_eq_false_iff, decide_eq_false_iff_not]
  refine ⟨⟨⟨⟨⟨?_, ?_⟩, ?_⟩, ?_⟩, ?_⟩, ?_⟩ <;> (rintro rfl; revert e; decide)

theorem alphaTokenLength_spec : ∀ l : List Char, alphaTokenLength l ≤ l.length ∧
    (0 < alphaTokenLength l → isspace (l.getD (alphaTokenLength l - 1) ' ') = false) := by
  intro l
  induction l with
  | nil => exact ⟨Nat.le_refl _, fun h => absurd h (by decide)⟩
  | cons c cs ih =>
    simp only [alphaTokenLength]
    split_ifs with hc
    · refine ⟨by simp; exact ih.1, fun _ => ?_⟩
      cases hk : alphaTokenLength cs with
      | zero => simpa using isspace_isalpha c hc
      | succ k =>
        have := ih.2 (by omega)
        rw [hk] at this
        simpa using this
    · exact ⟨Nat.zero_le _, fun h => absurd h (by decide)⟩

theorem ConsumeStandardSVGColor_tight (P : Platform) (hP : P.FindSVGStandardColorOrNull [] = none)
    (sp : StringPiece) (out : Option SvgStandardColorDefinition) :
    ((ConsumeStandardSVGColor P sp out).1 = false ∧ (ConsumeStandardSVGColor P sp out).2.1 = sp) ∨
    (∃ c, (ConsumeStandardSVGColor P sp out).2.2 = some c ∧
      (ConsumeStandardSVGColor P sp out).1 = true ∧
      sp.Tight (ConsumeStandardSVGColor P sp out).2.1) := by
  unfold ConsumeStandardSVGColor
  dsimp only
  cases hf : P.FindSVGStandardColorOrNull (List.take (alphaTokenLength (ConsumeWhitespace sp).2.view)
      (ConsumeWhitespace sp).2.view) with
  | none => exact Or.inl ⟨rfl, rfl⟩
  | some c =>
    right
    refine ⟨c, rfl, rfl, ?_⟩
    have hpos : 0 < alphaTokenLength (ConsumeWhitespace sp).2.view := by
      rcases Nat.eq_zero_or_pos (alphaTokenLength (ConsumeWhitespace sp).2.view) with h0 | h0
      · rw [h0, List.take_zero, hP] at hf; cases hf
      · exact h0
    obtain ⟨hle, hsp⟩ := alphaTokenLength_spec (ConsumeWhitespace sp).2.view
    have ht : (ConsumeWhitespace sp).2.Tight
        ⟨(ConsumeWhitespace sp).2.view.drop (alphaTokenLength (ConsumeWhitespace sp).2.view),
          (ConsumeWhitespace sp).2.rest⟩ := ⟨_, hpos, hle, rfl, hsp hpos⟩
    have ht2 := Suffix_tight (ConsumeWhitespace_suffix sp) ht
    obtain ⟨n, hn, he⟩ := ConsumeWhitespace_suffix sp
    obtain ⟨m, hm0, hm, he2, hsp2⟩ := ht2
    have hb : (ConsumeWhitespace sp).2.beginDiff sp = n := by
      rw [he]
      simp only [StringPiece.beginDiff, StringPiece.remaining, List.length_drop]
      omega
    show sp.Tight (sp.Advance _)
    rw [hb]
    have hm2 : n + alphaTokenLength (ConsumeWhitespace sp).2.view = m := by
      have := congrArg (fun t => t.view.length) he2
      simp only [List.length_drop] at this
      have h3 : (ConsumeWhitespace sp).2.view.length = sp.view.length - n := by
        rw [he]; simp
      omega
    rw [hm2]
    exact ⟨m, hm0, hm, Advance_le sp m hm, hsp2⟩

theorem ConsumeHexIntLoop_spec : ∀ (l : List Char) (result : Int) (iter : Nat),
    ∃ k, k ≤ l.length ∧ (ConsumeHexIntLoop l result iter).2 = iter + k ∧
      (0 < k → isspace (l.getD (k - 1) ' ') = false) := by
  intro l
  induction l with
  | nil => intro result iter; exact ⟨0, Nat.le_refl _, rfl, fun h => absurd h (by decide)⟩
  | cons c cs ih =>
    intro result iter
    simp only [ConsumeHexIntLoop]
    split_ifs with hd
    · obtain ⟨k, hk, he, hsp⟩ := ih (wrapInt (wrapInt (result * 16) + digittoint c)) (iter + 1)
      refine ⟨k + 1, by simp; omega, by rw [he]; omega, fun _ => ?_⟩
      cases k with
      | zero => simpa using isspace_ishexnumber c hd
      | succ k => simpa using hsp (Nat.succ_pos k)
    · exact ⟨0, Nat.zero_le _, rfl, fun h => absurd h (by decide)⟩

theorem ConsumeHexInt_limit (s : StringPiece) (limit : List Char)
    (hl : limit = s.view ∨ ∃ w, limit = s.view.take w)
    (h0 : (ConsumeHexIntLoop limit 0 0).2 ≠ 0) :
    s.Tight (s.Advance (ConsumeHexIntLoop limit 0 0).2) := by
  obtain ⟨k, hk, he, hsp⟩ := ConsumeHexIntLoop_spec limit 0 0
  rw [he, Nat.zero_add] at h0 ⊢
  have hpos := Nat.pos_of_ne_zero h0
  have hle : limit.length ≤ s.view.length := by
    rcases hl with rfl | ⟨w, rfl⟩
    · exact Nat.le_refl _
    · simp
  have hget : limit.getD (k - 1) ' ' = s.view.getD (k - 1) ' ' := by
    rcases hl with rfl | ⟨w, rfl⟩
    · rfl
    · simp only [List.length_take] at hk
      simp only [List.getD_eq_getElem?_getD]
      rw [List.getElem?_take_of_lt (by omega)]
  refine ⟨k, hpos, Nat.le_trans hk hle, Advance_le s k (Nat.le_trans hk hle), ?_⟩
  rw [← hget]
  exact hsp hpos

theorem ConsumeHexInt_tight (s : StringPiece) (w n : Int) (h : (ConsumeHexInt s w n).1 = true) :
    s.Tight (ConsumeHexInt s w n).2.1 := by
  revert h
  unfold ConsumeHexInt
  dsimp only
  split_ifs
  all_goals first
    | (intro h; cases h; done)
    | (intro _; exact ConsumeHexInt_limit s _ (Or.inr ⟨_, rfl⟩) (by assumption))
    | (intro _; exact ConsumeHexInt_limit s _ (Or.inl rfl) (by assumption))

theorem ConsumeHexadecimalColorLoop_tight (is_three_digits : Bool) :
    ∀ (n : Nat) (s_copy : StringPiece) (color_comps : List CGFloat),
    (ConsumeHexadecimalColorLoop is_three_digits n s_copy color_comps).1 = true →
    (ConsumeHexadecimalColorLoop is_three_digits n s_copy color_comps).2.1 = s_copy ∨
    s_copy.Tight (ConsumeHexadecimalColorLoop is_three_digits n s_copy color_comps).2.1 := by
  intro n
  induction n with
  | zero => intro s_copy color_comps _; exact Or.inl rfl
  | succ n ih =>
    intro s_copy color_comps
    simp only [ConsumeHexadecimalColorLoop]
    by_cases hr : (ConsumeHexInt s_copy (if is_three_digits = true then 1 else 2) 0).1 = false
    · rw [if_pos hr]
      intro h; cases h
    · rw [if_neg hr]
      intro h
      right
      exact Tight_same_or (ConsumeHexInt_tight s_copy _ 0 (by simpa using hr)) (ih _ _ h)

theorem ConsumeString_tight (s : StringPiece) (c : Char) (hc : isspace c = false)
    (h : (ConsumeString s [c] true).1 = true) : s.Tight (ConsumeString s [c] true).2 := by
  revert h
  simp only [ConsumeString, List.length_singleton, if_true]
  by_cases h1 : s.length < 1
  · rw [if_pos h1]
    intro h; cases h
  · rw [if_neg h1]
    have hl : 0 < s.view.length := by
      simp only [StringPiece.length] at h1
      omega
    by_cases h2 : decide (List.take 1 s.view = [c]) = true
    · rw [if_pos h2]
      intro _
      refine ⟨1, Nat.one_pos, hl, Advance_le s 1 hl, ?_⟩
      have h3 : List.take 1 s.view = [c] := of_decide_eq_true h2
      cases hv : s.view with
      | nil => rw [hv] at hl; cases hl
      | cons x xs =>
        rw [hv] at h3
        simp only [List.take_succ_cons, List.take_zero, List.cons.injEq, and_true] at h3
        show isspace ((x :: xs).getD 0 ' ') = false
        simpa [h3] using hc
    · rw [if_neg h2]
      intro h; cases h

theorem ConsumeFunctionalColorClose_tight (s s_copy : StringPiece) (rgb : RgbColor)
    (hs : s.Suffix s_copy) (h : (ConsumeFunctionalColorClose s s_copy rgb).1 = true) :
    s.Tight (ConsumeFunctionalColorClose s s_copy rgb).2.1 := by
  revert h
  unfold ConsumeFunctionalColorClose
  dsimp only
  by_cases hc : (ConsumeString (ConsumeWhitespace s_copy).2 ")".data true).1 = false
  · rw [if_pos hc]
    intro h; cases h
  · rw [if_neg hc]
    intro _
    have ht := Suffix_tight (Suffix_trans hs (ConsumeWhitespace_suffix s_copy))
      (ConsumeString_tight (ConsumeWhitespace s_copy).2 ')' (by decide) (by simpa using hc))
    show s.Tight (s.Advance _)
    rw [Suffix_lengthDiff (Tight_suffix ht)]
    exact ht

theorem GenericConsumeValues_suffix {Value : Type} [Inhabited Value]
    (cv : StringPiece → Value → Bool × StringPiece × Value)
    (cd : StringPiece → Bool × StringPiece) (s : StringPiece) (count : Nat)
    (varray : List Value) (opt : Bool) :
    s.Suffix (GenericConsumeValues cv cd s count varray opt).2.1 := by
  unfold GenericConsumeValues; dsimp only
  split_ifs
  · exact Advance_suffix s _
  · exact Suffix_refl s

theorem ConsumeFunctionalColor_tight (s : StringPiece) (rgb : RgbColor)
    (h : (ConsumeFunctionalColor s rgb).1 = true) : s.Tight (ConsumeFunctionalColor s rgb).2.1 := by
  have h1 := Suffix_trans (ConsumeString_suffix s "rgb(".data false)
    (ConsumeWhitespace_suffix (ConsumeString s "rgb(".data false).2)
  have h2 := Suffix_trans h1 (GenericConsumeValues_suffix ConsumeDecimalInt ConsumeNumberDelimiter
    (ConsumeWhitespace (ConsumeString s "rgb(".data false).2).2 3 [0, 0, 0] false)
  have h3 := Suffix_trans h2 (GenericConsumeValues_suffix ConsumeDecimalIntPercent
    ConsumeNumberDelimiter (GenericConsumeValues ConsumeDecimalInt ConsumeNumberDelimiter
      (ConsumeWhitespace (ConsumeString s "rgb(".data false).2).2 3 [0, 0, 0] false).2.1 3
    (GenericConsumeValues ConsumeDecimalInt ConsumeNumberDelimiter
      (ConsumeWhitespace (ConsumeString s "rgb(".data false).2).2 3 [0, 0, 0] false).2.2 false)
  revert h
  unfold ConsumeFunctionalColor
  dsimp only
  split_ifs
  · intro h; cases h
  · exact ConsumeFunctionalColorClose_tight s _ _ h2
  · exact ConsumeFunctionalColorClose_tight s _ _ h3
  · intro h; cases h

theorem ConsumeHexadecimalColor_tight (s : StringPiece) (rgb : RgbColor)
    (h : (ConsumeHexadecimalColor s rgb).1 = true) :
    s.Tight (ConsumeHexadecimalColor s rgb).2.1 := by
  rcases s with ⟨_ | ⟨x, tail⟩, rest⟩
  · revert h
    unfold ConsumeHexadecimalColor
    split_ifs
    · intro h; cases h
    · intro h; cases h
  · revert h
    unfold ConsumeHexadecimalColor
    dsimp only
    by_cases hx : StringPiece.get ⟨x :: tail, rest⟩ 0 ≠ '#'
    · rw [if_pos hx]
      intro h; cases h
    · rw [if_neg hx]
      have h1 : StringPiece.Tight ⟨x :: tail, rest⟩ ⟨tail, rest⟩ := by
        refine ⟨1, Nat.one_pos, by simp, by simp, ?_⟩
        have hx2 : x = '#' := by simpa [StringPiece.get] using hx
        show isspace x = false
        rw [hx2]
        decide
      split_ifs with ha hc hr
      · intro h; cases h
      · intro h; cases h
      · intro h; cases h
      · intro _
        have h2 := Tight_same_or h1 (ConsumeHexadecimalColorLoop_tight _ 3 ⟨tail, rest⟩ []
          (by simpa using hr))
        exact Tight_advance_beginDiff h2

theorem ConsumeRgbColor_tight (P : Platform) (hP : P.FindSVGStandardColorOrNull [] = none)
    (s : StringPiece) (rgb : RgbColor) (h : (ConsumeRgbColor P s rgb).1 = true) :
    s.Tight (ConsumeRgbColor P s rgb).2.1 := by
  revert h
  unfold ConsumeRgbColor
  dsimp only
  rcases ConsumeStandardSVGColor_tight P hP s none with ⟨hf, he⟩ | ⟨c, hc, ht, htight⟩
  · rw [hf, he]
    dsimp only
    split_ifs with hh
    · intro _; exact ConsumeHexadecimalColor_tight s rgb hh
    · intro h
      have e := ConsumeHexadecimalColor_false s rgb (by simpa using hh)
      rw [e] at h ⊢
      exact ConsumeFunctionalColor_tight s _ h
  · rw [ht, hc]
    intro _
    exact htight

theorem ParseRgbColor_trailing_whitespace (P : Platform)
    (hP : P.FindSVGStandardColorOrNull [] = none) (s : StringPiece) (rgb : RgbColor)
    (hw : s.endsInWhitespace = true) : (ParseRgbColor P s rgb).1 = false := by
  simp only [ParseRgbColor, GenericParse1]
  cases h : (ConsumeRgbColor P s rgb).1 with
  | false => rfl
  | true =>
    have := Tight_endsInWhitespace (ConsumeRgbColor_tight P hP s rgb h) hw
    simp [this]

theorem GenericParse1_iff {Arg0 : Type}
    (consume : StringPiece → Arg0 → Bool × StringPiece × Arg0) (s : StringPiece) (arg0 : Arg0) :
    (GenericParse1 consume s arg0).1 = true ↔
      (consume s arg0).1 = true ∧ (consume s arg0).2.1.length = 0 := by
  simp [GenericParse1]

theorem GenericParse2_iff {Arg0 Arg1 : Type}
    (consume : StringPiece → Arg0 → Arg1 → Bool × StringPiece × Arg1) (s : StringPiece)
    (arg0 : Arg0) (arg1 : Arg1) :
    (GenericParse2 consume s arg0 arg1).1 = true ↔
      (consume s arg0 arg1).1 = true ∧ (consume s arg0 arg1).2.1.length = 0 := by
  simp [GenericParse2]

/-- C2, amended: each of the seven parsers returns true exactly when its
consumer returns true and leaves a cursor of length 0, so a byte that the
consumer leaves unread makes the parser return false.  An input whose last
byte is whitespace makes ParseFloat, ParseFloats, ParseLength and ParseIri
return false, and ParseRgbColor too when the colour keyword table does not
hold the empty word. -/
theorem parse_iff_consume_to_end (P : Platform) (s : StringPiece) (f : CGFloat) (count : Nat)
    (farray : List CGFloat) (length : Length) (lengths : List Length) (rgb : RgbColor)
    (iri : StringPiece) (aspect_ratio : PreserveAspectRatio) :
    ((ParseFloat P s f).1 = true ↔
      (ConsumeFloat P s f).1 = true ∧ (ConsumeFloat P s f).2.1.length = 0) ∧
    ((ParseFloats P s count farray).1 = true ↔
      (ConsumeFloats P s count farray).1 = true ∧
        (ConsumeFloats P s count farray).2.1.length = 0) ∧
    ((ParseLength P s length).1 = true ↔
      (ConsumeLength P s length).1 = true ∧ (ConsumeLength P s length).2.1.length = 0) ∧
    ((ParseLengths P s lengths).1 = true ↔
      (ConsumeLengths P s lengths).1 = true ∧ (ConsumeLengths P s lengths).2.1.length = 0) ∧
    ((ParseRgbColor P s rgb).1 = true ↔
      (ConsumeRgbColor P s rgb).1 = true ∧ (ConsumeRgbColor P s rgb).2.1.length = 0) ∧
    ((ParseIri s iri).1 = true ↔
      (ConsumeIri s iri).1 = true ∧ (ConsumeIri s iri).2.1.length = 0) ∧
    ((ParsePreserveAspectRatio s aspect_ratio).1 = true ↔
      (ConsumePreserveAspectRatio s aspect_ratio).1 = true ∧
        (ConsumePreserveAspectRatio s aspect_ratio).2.1.length = 0) ∧
    (s.endsInWhitespace = true →
      (ParseFloat P s f).1 = false ∧ (ParseFloats P s count farray).1 = false ∧
      (ParseLength P s length).1 = false ∧ (ParseIri s iri).1 = false) ∧
    (s.endsInWhitespace = true → P.FindSVGStandardColorOrNull [] = none →
      (ParseRgbColor P s rgb).1 = false) :=
  ⟨GenericParse1_iff _ _ _, GenericParse2_iff _ _ _ _, GenericParse1_iff _ _ _,
   GenericParse1_iff _ _ _, GenericParse1_iff _ _ _, GenericParse1_iff _ _ _,
   GenericParse1_iff _ _ _,
   fun hw => ⟨ParseFloat_trailing_whitespace P s f hw,
     ParseFloats_trailing_whitespace P s count farray hw,
     ParseLength_trailing_whitespace P s length hw, ParseIri_trailing_whitespace s iri hw⟩,
   fun hw hP => ParseRgbColor_trailing_whitespace P hP s rgb hw⟩

/-- C2 as stated fails: "xMidYMid " and "1, " end in a whitespace byte, and
ParsePreserveAspectRatio and ParseLengths return true on them, the consumer
having read the whitespace itself. -/
theorem parsers_accepting_trailing_whitespace :
    (StringPiece.ofString "xMidYMid ".data).endsInWhitespace = true ∧
    ParsePreserveAspectRatio (StringPiece.ofString "xMidYMid ".data)
        ⟨true, true, Alignment.kMin, Alignment.kMin, MeetOrSlice.kSlice⟩
      = (true, ⟨false, false, Alignment.kMid, Alignment.kMid, MeetOrSlice.kMeet⟩) ∧
    (StringPiece.ofString "1, ".data).endsInWhitespace = true ∧
    ParseLengths Platform.exact (StringPiece.ofString "1, ".data) []
      = (true, [⟨1, LengthUnit.kUnitNone⟩]) :=
  ⟨by decide, by decide, by decide, by decide!⟩

/-- C2 on the input "1 ": ConsumeFloat reads "1" and leaves the space, so
ParseFloat returns false, as do ParseFloats, ParseLength, ParseIri and
ParseRgbColor. -/
theorem parse_iff_consume_to_end_witness :
    (StringPiece.ofString "1 ".data).endsInWhitespace = true ∧
    Platform.exact.FindSVGStandardColorOrNull [] = none ∧
    ConsumeFloat Platform.exact (StringPiece.ofString "1 ".data) 0
      = (true, ⟨" ".data, []⟩, 1) ∧
    ((ParseFloat Platform.exact (StringPiece.ofString "1 ".data) 0).1 = false ∧
      (ParseFloats Platform.exact (StringPiece.ofString "1 ".data) 1 [0]).1 = false ∧
      (ParseLength Platform.exact (StringPiece.ofString "1 ".data) Length.default).1 = false ∧
      (ParseIri (StringPiece.ofString "1 ".data) ⟨[], []⟩).1 = false) ∧
    (ParseRgbColor Platform.exact (StringPiece.ofString "1 ".data) RgbColor.default).1 = false :=
  ⟨by decide, rfl, by decide!,
   (parse_iff_consume_to_end Platform.exact (StringPiece.ofString "1 ".data) 0 1 [0]
     Length.default [] RgbColor.default ⟨[], []⟩ PreserveAspectRatio.default_value).2.2.2.2.2.2.2.1
     (by decide),
   (parse_iff_consume_to_end Platform.exact (StringPiece.ofString "1 ".data) 0 1 [0]
     Length.default [] RgbColor.default ⟨[], []⟩ PreserveAspectRatio.default_value).2.2.2.2.2.2.2.2
     (by decide) rfl⟩

/-! ## The fuel of the loops -/

theorem Suffix_length {s t : StringPiece} (h : s.Suffix t) : t.length ≤ s.length := by
  obtain ⟨n, _, rfl⟩ := h
  simp [StringPiece.length]

theorem Tight_length {s t : StringPiece} (h : s.Tight t) : t.length < s.length := by
  obtain ⟨n, hn0, hn, rfl, _⟩ := h
  simp only [StringPiece.length, List.length_drop]
  omega

theorem ConsumeLengthsLoop_fuel (P : Platform) : ∀ (fuel extra : Nat) (s : StringPiece)
    (lengths : List Length) (consumed : Bool), s.length < fuel →
    ConsumeLengthsLoop P (fuel + extra) s lengths consumed =
      ConsumeLengthsLoop P fuel s lengths consumed := by
  intro fuel
  induction fuel with
  | zero => intro extra s lengths consumed h; cases h
  | succ fuel ih =>
    intro extra s lengths consumed h
    rw [show fuel + 1 + extra = (fuel + extra) + 1 by omega]
    simp only [ConsumeLengthsLoop]
    by_cases h0 : s.length > 0
    · rw [if_pos h0, if_pos h0]
      by_cases hr : (ConsumeLength P s Length.default).1 = false
      · rw [if_pos hr, if_pos hr]
      · rw [if_neg hr, if_neg hr]
        have h1 := Tight_length (ConsumeLength_tight P s Length.default (by simpa using hr))
        have h2 := Suffix_length (ConsumeNumberDelimiter_suffix (ConsumeLength P s Length.default).2.1)
        exact ih extra _ _ _ (by omega)
    · rw [if_neg h0, if_neg h0]

theorem ConsumeLengths_fuel (P : Platform) (s : StringPiece) (lengths : List Length)
    (extra : Nat) :
    ConsumeLengthsLoop P (s.length + 1 + extra) s lengths false = ConsumeLengths P s lengths :=
  ConsumeLengthsLoop_fuel P (s.length + 1) extra s lengths false (Nat.lt_succ_self _)

theorem Advance_succ_length (s : StringPiece) (n : Nat) (h : s.length ≠ 0) :
    (s.Advance (n + 1)).length < s.length := by
  simp only [StringPiece.length] at h
  simp only [StringPiece.Advance, StringPiece.length, List.length_drop]
  omega

theorem StyleIterator_step_length (s1 : StringPiece) (pos n : Nat) (h : s1.length ≠ 0) :
    ((ConsumeWhitespace (s1.Advance (pos + 1))).2.Advance n).length < s1.length := by
  have h1 := Advance_succ_length s1 pos h
  have h2 := Suffix_length (ConsumeWhitespace_suffix (s1.Advance (pos + 1)))
  have h3 := Suffix_length (Advance_suffix (ConsumeWhitespace (s1.Advance (pos + 1))).2 n)
  exact Nat.lt_of_le_of_lt (Nat.le_trans h3 h2) h1

theorem StyleIterator_NextFuel_fuel : ∀ (fuel extra : Nat) (it : StyleIterator),
    it.s_.length < fuel →
    StyleIterator.NextFuel (fuel + extra) it = StyleIterator.NextFuel fuel it := by
  intro fuel
  induction fuel with
  | zero => intro extra it h; cases h
  | succ fuel ih =>
    intro extra it h
    rw [show fuel + 1 + extra = (fuel + extra) + 1 by omega]
    simp only [StyleIterator.NextFuel]
    by_cases h0 : (ConsumeWhitespace it.s_).2.length = 0
    · rw [if_pos h0, if_pos h0]
    · rw [if_neg h0, if_neg h0]
      have h2 := Suffix_length (ConsumeWhitespace_suffix it.s_)
      cases (ConsumeWhitespace it.s_).2.find ':' with
      | none => rfl
      | some pos =>
        dsimp only
        cases (ConsumeWhitespace ((ConsumeWhitespace it.s_).2.Advance (pos + 1))).2.find ';' with
        | none =>
          dsimp only
          have h1 := StyleIterator_step_length (ConsumeWhitespace it.s_).2 pos
            (ConsumeWhitespace ((ConsumeWhitespace it.s_).2.Advance (pos + 1))).2.length h0
          split_ifs with hs
          · rfl
          · exact ih extra _ (by dsimp only; omega)
        | some pos2 =>
          dsimp only
          have h1 := StyleIterator_step_length (ConsumeWhitespace it.s_).2 pos (pos2 + 1) h0
          split_ifs with hs
          · rfl
          · exact ih extra _ (by dsimp only; omega)

theorem StyleIterator_NextFuel_length : ∀ (fuel : Nat) (it : StyleIterator),
    (StyleIterator.NextFuel fuel it).1 = true →
    (StyleIterator.NextFuel fuel it).2.s_.length < it.s_.length := by
  intro fuel
  induction fuel with
  | zero => intro it h; cases h
  | succ fuel ih =>
    intro it
    simp only [StyleIterator.NextFuel]
    by_cases h0 : (ConsumeWhitespace it.s_).2.length = 0
    · rw [if_pos h0]
      intro h; cases h
    · rw [if_neg h0]
      have h2 := Suffix_length (ConsumeWhitespace_suffix it.s_)
      cases (ConsumeWhitespace it.s_).2.find ':' with
      | none => intro h; cases h
      | some pos =>
        dsimp only
        cases (ConsumeWhitespace ((ConsumeWhitespace it.s_).2.Advance (pos + 1))).2.find ';' with
        | none =>
          dsimp only
          have h1 := StyleIterator_step_length (ConsumeWhitespace it.s_).2 pos
            (ConsumeWhitespace ((ConsumeWhitespace it.s_).2.Advance (pos + 1))).2.length h0
          split_ifs with hs
          · intro _
            dsimp only
            omega
          · intro h
            have := ih _ h
            dsimp only at this
            omega
        | some pos2 =>
          dsimp only
          have h1 := StyleIterator_step_length (ConsumeWhitespace it.s_).2 pos (pos2 + 1) h0
          split_ifs with hs
          · intro _
            dsimp only
            omega
          · intro h
            have := ih _ h
            dsimp only at this
            omega

theorem StyleIterator_collect_fuel : ∀ (fuel extra : Nat) (it : StyleIterator),
    it.s_.length < fuel →
    StyleIterator.collect (fuel + extra) it = StyleIterator.collect fuel it := by
  intro fuel
  induction fuel with
  | zero => intro extra it h; cases h
  | succ fuel ih =>
    intro extra it h
    rw [show fuel + 1 + extra = (fuel + extra) + 1 by omega]
    simp only [StyleIterator.collect]
    by_cases hr : it.Next.1 = true
    · rw [if_pos hr, if_pos hr]
      have := StyleIterator_NextFuel_length _ it hr
      rw [ih extra it.Next.2 (by unfold StyleIterator.Next; omega)]
    · rw [if_neg hr, if_neg hr]

/-! ## The consumers on text -/

theorem drop_length_takeWhile (p : Char → Bool) : ∀ l : List Char,
    l.drop (l.takeWhile p).length = l.dropWhile p := by
  intro l
  induction l with
  | nil => rfl
  | cons c cs ih =>
    by_cases h : p c = true
    · simp [List.takeWhile_cons_of_pos h, List.dropWhile_cons_of_pos h, ih]
    · simp [List.takeWhile_cons_of_neg h, List.dropWhile_cons_of_neg h]

theorem length_takeWhile_le (p : Char → Bool) (l : List Char) :
    (l.takeWhile p).length ≤ l.length :=
  (List.takeWhile_sublist p).length_le

theorem ConsumeWhitespaceLoop_takeWhile : ∀ (l : List Char) (it : Nat),
    ConsumeWhitespaceLoop l it = it + (l.takeWhile isspace).length := by
  intro l
  induction l with
  | nil => intro it; rfl
  | cons c cs ih =>
    intro it
    simp only [ConsumeWhitespaceLoop]
    by_cases h : isspace c = true
    · rw [if_pos h, ih, List.takeWhile_cons_of_pos h, List.length_cons]
      omega
    · rw [if_neg h, List.takeWhile_cons_of_neg h]
      rfl

theorem ConsumeWhitespace_dropWhile (s : StringPiece) :
    (ConsumeWhitespace s).2 = ⟨s.view.dropWhile isspace, s.rest⟩ := by
  simp only [ConsumeWhitespace, ConsumeWhitespaceLoop_takeWhile, Nat.zero_add]
  split_ifs with h
  · rw [Advance_le s _ (length_takeWhile_le _ _), drop_length_takeWhile]
  · have h0 : (s.view.takeWhile isspace).length = 0 := by simpa using h
    have := drop_length_takeWhile isspace s.view
    rw [h0, List.drop_zero] at this
    rw [← this]

theorem ConsumeDecimalIntLoop_takeWhile : ∀ (l : List Char) (ret : Int) (iter : Nat),
    ConsumeDecimalIntLoop l ret iter =
      (digitsValueFrom ret (l.takeWhile isDecimalDigit),
        iter + (l.takeWhile isDecimalDigit).length) := by
  intro l
  induction l with
  | nil => intro ret iter; rfl
  | cons c cs ih =>
    intro ret iter
    simp only [ConsumeDecimalIntLoop]
    by_cases h : '0' ≤ c ∧ c ≤ '9'
    · have hd : isDecimalDigit c = true := by simpa [isDecimalDigit] using h
      rw [if_pos h, ih, List.takeWhile_cons_of_pos hd]
      simp only [digitsValueFrom, List.foldl_cons, List.length_cons, Prod.mk.injEq, true_and]
      omega
    · have hd : ¬ isDecimalDigit c = true := by simpa [isDecimalDigit] using h
      rw [if_neg h, List.takeWhile_cons_of_neg hd]
      rfl

theorem ConsumeDecimalInt_takeWhile (s : StringPiece) (n : Int) :
    ConsumeDecimalInt s n =
      if s.view.takeWhile isDecimalDigit = [] then (false, s, n)
      else (true, ⟨s.view.dropWhile isDecimalDigit, s.rest⟩,
        digitsValue (s.view.takeWhile isDecimalDigit)) := by
  simp only [ConsumeDecimalInt, ConsumeDecimalIntLoop_takeWhile, Nat.zero_add]
  by_cases h : s.view.takeWhile isDecimalDigit = []
  · rw [if_pos h, if_neg (by simp [h])]
  · rw [if_neg h, if_pos (by simpa using h),
      Advance_le s _ (length_takeWhile_le _ _), drop_length_takeWhile]
    rfl

/-! ## C16: ConsumeFlag -/

theorem Advance_past_prefix (s : StringPiece) (pre t : List Char) (h : s.view = pre ++ t) :
    s.Advance (s.length - t.length) = ⟨t, s.rest⟩ := by
  have hl : s.length - t.length = pre.length := by
    simp [StringPiece.length, h]
  rw [hl, Advance_le s _ (by simp [h])]
  simp [h]

theorem ConsumeFlag_of_dropWhile (s : StringPiece) (flag : Bool) (c : Char) (t : List Char)
    (h : s.view.dropWhile isspace = c :: t) :
    ConsumeFlag s flag =
      if c ≠ '0' ∧ c ≠ '1' then (false, s, flag) else (true, ⟨t, s.rest⟩, decide (c ≠ '0')) := by
  have hv : s.view = (s.view.takeWhile isspace ++ [c]) ++ t := by
    rw [List.append_assoc, List.singleton_append, ← h, List.takeWhile_append_dropWhile]
  have hadv := Advance_past_prefix s _ t hv
  simp only [ConsumeFlag, ConsumeWhitespace_dropWhile, h, StringPiece.length, StringPiece.get,
    List.length_cons, Nat.succ_ne_zero, if_false, List.cons_append, List.getD_cons_zero]
  split_ifs with h1
  · rfl
  · have e : s.view.length - (t.length + 1) + 1 = s.length - t.length := by
      have := congrArg List.length hv
      simp only [List.length_append, List.length_singleton] at this
      simp only [StringPiece.length]
      omega
    rw [e, hadv]

/-- C16: ConsumeFlag succeeds exactly when the bytes after the leading
whitespace start with '0' or '1'; it then leaves the cursor behind that byte
and gives false for '0' and true for '1'; in every other case it fails and
leaves the cursor and the flag as they were. -/
theorem ConsumeFlag_zero_or_one (s : StringPiece) (flag : Bool) :
    ((ConsumeFlag s flag).1 = true ↔
      ∃ c t, s.view.dropWhile isspace = c :: t ∧ (c = '0' ∨ c = '1')) ∧
    (∀ c t, s.view.dropWhile isspace = c :: t → (c = '0' ∨ c = '1') →
      s.view = s.view.takeWhile isspace ++ c :: t ∧
      ConsumeFlag s flag = (true, ⟨t, s.rest⟩, decide (c = '1'))) ∧
    ((ConsumeFlag s flag).1 = false → ConsumeFlag s flag = (false, s, flag)) := by
  cases hd : s.view.dropWhile isspace with
  | nil =>
    have hf : ConsumeFlag s flag = (false, s, flag) := by
      simp [ConsumeFlag, ConsumeWhitespace_dropWhile, hd, StringPiece.length]
    refine ⟨?_, ?_, fun _ => hf⟩
    · rw [hf]; simp
    · intro c t h; cases h
  | cons c t =>
    have hf := ConsumeFlag_of_dropWhile s flag c t hd
    refine ⟨?_, ?_, ?_⟩
    · rw [hf]
      constructor
      · intro h
        refine ⟨c, t, rfl, ?_⟩
        by_contra hc
        rw [if_pos (by push_neg at hc; exact hc)] at h
        cases h
      · rintro ⟨c2, t2, he, hc⟩
        cases he
        rw [if_neg (by rcases hc with rfl | rfl <;> decide)]
    · intro c2 t2 he hc
      cases he
      refine ⟨by rw [← hd, List.takeWhile_append_dropWhile], ?_⟩
      rw [hf, if_neg (by rcases hc with rfl | rfl <;> decide)]
      rcases hc with rfl | rfl <;> rfl
    · rw [hf]
      split_ifs
      · intro _; rfl
      · intro h; cases h

/-- C16 on " 1x", "0", "2" and "": the flag of " 1x" is true and the cursor is
left at "x", the flag of "0" is false, and "2" and the empty cursor fail. -/
theorem ConsumeFlag_zero_or_one_witness :
    ConsumeFlag (StringPiece.ofString " 1x".data) false = (true, ⟨"x".data, []⟩, true) ∧
    ConsumeFlag (StringPiece.ofString "0".data) true = (true, ⟨[], []⟩, false) ∧
    ConsumeFlag (StringPiece.ofString "2".data) true = (false, ⟨"2".data, []⟩, true) ∧
    ConsumeFlag (StringPiece.ofString "".data) true = (false, ⟨[], []⟩, true) :=
  ⟨((ConsumeFlag_zero_or_one (StringPiece.ofString " 1x".data) false).2.1 '1' "x".data
      (by decide) (Or.inr rfl)).2,
   by decide, by decide, by decide⟩

/-! ## C17, C18: ConsumeFloat on text -/

theorem Suffix_of_isSuffix (s : StringPiece) (l : List Char) (h : l <:+ s.view) :
    s.Suffix ⟨l, s.rest⟩ := by
  obtain ⟨pre, hp⟩ := h
  refine ⟨pre.length, by rw [← hp]; simp, ?_⟩
  rw [← hp, List.drop_left]

theorem Advance_beginDiff_of_isSuffix (s : StringPiece) (l : List Char) (h : l <:+ s.view) :
    s.Advance (StringPiece.beginDiff ⟨l, s.rest⟩ s) = ⟨l, s.rest⟩ :=
  (Suffix_beginDiff (Suffix_of_isSuffix s l h)).2

theorem ConsumeSign_head (s : StringPiece) :
    ConsumeSign s =
      if s.view.head? = some '-' then (true, ⟨s.view.tail, s.rest⟩) else (false, s) := by
  rcases s with ⟨_ | ⟨c, t⟩, rest⟩
  · simp [ConsumeSign, StringPiece.length]
  · simp only [ConsumeSign, StringPiece.length, StringPiece.get, List.length_cons,
      List.cons_append, List.getD_cons_zero, List.head?_cons, Option.some.injEq, List.tail_cons]
    by_cases hc : c = '-'
    · rw [if_pos ⟨Nat.succ_ne_zero _, hc⟩, if_pos hc]
      simp [StringPiece.Advance]
    · rw [if_neg (fun h => hc h.2), if_neg hc]

theorem dropWhile_of_takeWhile_nil (p : Char → Bool) (l : List Char)
    (h : l.takeWhile p = []) : l.dropWhile p = l := by
  have := List.takeWhile_append_dropWhile p l
  rw [h, List.nil_append] at this
  exact this

theorem beginDiff_dropWhile (p : Char → Bool) (l rest : List Char) :
    StringPiece.beginDiff ⟨l.dropWhile p, rest⟩ ⟨l, rest⟩ = (l.takeWhile p).length := by
  have := congrArg List.length (List.takeWhile_append_dropWhile p l)
  simp only [List.length_append] at this
  simp only [StringPiece.beginDiff, StringPiece.remaining]
  omega

theorem ConsumeFloatFraction_text (l3 rest : List Char) :
    ConsumeFloatFraction ⟨l3, rest⟩ =
      if l3.head? = some '.' then
        (⟨l3.tail.dropWhile isDecimalDigit, rest⟩,
          digitsValue (l3.tail.takeWhile isDecimalDigit),
          (l3.tail.takeWhile isDecimalDigit).length)
      else (⟨l3, rest⟩, 0, 0) := by
  rcases l3 with _ | ⟨c, t⟩
  · simp [ConsumeFloatFraction, StringPiece.length]
  · simp only [ConsumeFloatFraction, StringPiece.length, StringPiece.get, List.length_cons,
      List.cons_append, List.getD_cons_zero, List.head?_cons, Option.some.injEq, List.tail_cons]
    by_cases hc : c = '.'
    · rw [if_pos ⟨Nat.succ_ne_zero _, hc⟩, if_pos hc]
      have ha : StringPiece.Advance ⟨c :: t, rest⟩ 1 = ⟨t, rest⟩ := by
        simp [StringPiece.Advance]
      rw [ha, ConsumeDecimalInt_takeWhile]
      by_cases hf : t.takeWhile isDecimalDigit = []
      · simp only [hf, if_true, Bool.false_eq_true, if_false, List.length_nil]
        rw [dropWhile_of_takeWhile_nil _ _ hf]
        rfl
      · simp only [hf, if_false, if_true, beginDiff_dropWhile]
    · rw [if_neg (fun h => hc h.2), if_neg hc]

theorem wrapInt_of_range (n : Int) (h1 : -2147483648 ≤ n) (h2 : n < 2147483648) :
    wrapInt n = n := by
  unfold wrapInt; omega

theorem wrapInt_range (n : Int) : -2147483648 ≤ wrapInt n ∧ wrapInt n < 2147483648 := by
  unfold wrapInt; omega

theorem digit_range (c : Char) (h : isDecimalDigit c = true) :
    0 ≤ (c.toNat : Int) - 48 ∧ (c.toNat : Int) - 48 ≤ 9 := by
  simp only [isDecimalDigit, decide_eq_true_eq] at h
  have e1 : (48 : Nat) ≤ c.toNat := h.1
  have e2 : c.toNat ≤ 57 := h.2
  omega

theorem decimalValue_append_singleton (ds : List Char) (c : Char) :
    decimalValue (ds ++ [c]) = decimalValue ds * 10 + ((c.toNat : Int) - 48) := by
  simp [decimalValue, List.foldl_append]

theorem digitsValue_append_singleton (ds : List Char) (c : Char) :
    digitsValue (ds ++ [c]) = wrapInt (wrapInt (digitsValue ds * 10) + ((c.toNat : Int) - 48)) := by
  simp [digitsValue, digitsValueFrom, List.foldl_append]

theorem decimalValue_nonneg : ∀ ds : List Char, (∀ c ∈ ds, isDecimalDigit c = true) →
    0 ≤ decimalValue ds := by
  intro ds
  induction ds using List.reverseRecOn with
  | nil => intro _; exact le_refl _
  | append_singleton ds c ih =>
    intro h
    rw [decimalValue_append_singleton]
    have h1 := ih (fun d hd => h d (List.mem_append_left _ hd))
    have h2 := digit_range c (h c (by simp))
    omega

/-- A run of digits that writes a number below 2^31 is read into an `int`
without an overflow. -/
theorem digitsValue_eq_decimalValue : ∀ ds : List Char, (∀ c ∈ ds, isDecimalDigit c = true) →
    decimalValue ds < 2 ^ 31 → digitsValue ds = decimalValue ds := by
  intro ds
  induction ds using List.reverseRecOn with
  | nil => intro _ _; rfl
  | append_singleton ds c ih =>
    intro h hlt
    rw [decimalValue_append_singleton] at hlt
    have h0 := decimalValue_nonneg ds (fun d hd => h d (List.mem_append_left _ hd))
    have h2 := digit_range c (h c (by simp))
    have h1 := ih (fun d hd => h d (List.mem_append_left _ hd)) (by omega)
    rw [digitsValue_append_singleton, decimalValue_append_singleton, h1,
      wrapInt_of_range (decimalValue ds * 10) (by omega) (by omega),
      wrapInt_of_range _ (by omega) (by omega)]

theorem ConsumeFloatExponent_text (P : Platform) (l4 rest : List Char) (value : FloatValue) :
    ConsumeFloatExponent P ⟨l4, rest⟩ value =
      match floatExponent 'e' l4 with
      | none => (⟨l4, rest⟩, value)
      | some (k, l7) => (⟨l7, rest⟩, FloatValue.mul P value (P.pow 10 k)) := by
  rcases l4 with _ | ⟨c, t⟩
  · simp [ConsumeFloatExponent, floatExponent, StringPiece.length]
  · simp only [ConsumeFloatExponent, floatExponent, StringPiece.length, StringPiece.get,
      List.length_cons, List.cons_append, List.getD_cons_zero, List.head?_cons,
      Option.some.injEq, List.tail_cons]
    by_cases hc : c = 'e'
    · rw [if_pos ⟨Nat.succ_ne_zero _, hc⟩, if_pos hc]
      have ha : StringPiece.Advance ⟨c :: t, rest⟩ 1 = ⟨t, rest⟩ := by
        simp [StringPiece.Advance]
      rw [ha, ConsumeSign_head]
      dsimp only
      by_cases hn : t.head? = some '-'
      · simp only [hn, if_true, decide_True]
        rw [ConsumeDecimalInt_takeWhile]
        dsimp only
        by_cases hk : t.tail.takeWhile isDecimalDigit = []
        · simp [hk]
        · simp only [hk, if_false, if_true]
          have hs : t.tail.dropWhile isDecimalDigit <:+ c :: t :=
            ((List.dropWhile_suffix _).trans (List.tail_suffix t)).trans
              (List.suffix_cons c t)
          have := Advance_beginDiff_of_isSuffix ⟨c :: t, rest⟩ _ hs
          dsimp only at this
          rw [this]
      · simp only [hn, if_false, decide_False, Bool.false_eq_true]
        rw [ConsumeDecimalInt_takeWhile]
        dsimp only
        by_cases hk : t.takeWhile isDecimalDigit = []
        · simp [hk]
        · simp only [hk, if_false, if_true]
          have hs : t.dropWhile isDecimalDigit <:+ c :: t :=
            (List.dropWhile_suffix _).trans (List.suffix_cons c t)
          have := Advance_beginDiff_of_isSuffix ⟨c :: t, rest⟩ _ hs
          dsimp only at this
          rw [this]
    · rw [if_neg (fun h => hc h.2), if_neg hc]

theorem ConsumeFloat_signed (P : Platform) (s : StringPiece) (f : CGFloat) (negative : Bool)
    (l2 : List Char)
    (hsign : ConsumeSign (ConsumeWhitespace s).2 = (negative, ⟨l2, s.rest⟩)) :
    ConsumeFloat P s f =
      if l2.takeWhile isDecimalDigit = [] ∧
          (ConsumeFloatFraction ⟨l2.dropWhile isDecimalDigit, s.rest⟩).2.2 = 0 then (false, s, f)
      else
        match ConsumeFloatExponent P
            (ConsumeFloatFraction ⟨l2.dropWhile isDecimalDigit, s.rest⟩).1
            (FloatValue.mul P (FloatValue.number (if negative then -1 else 1))
              (FloatValue.add P
                (FloatValue.number ((digitsValue (l2.takeWhile isDecimalDigit) : Int) : CGFloat))
                (FloatValue.div P
                  (FloatValue.number
                    (((ConsumeFloatFraction ⟨l2.dropWhile isDecimalDigit, s.rest⟩).2.1 : Int) :
                      CGFloat))
                  (P.powf 10
                    (ConsumeFloatFraction ⟨l2.dropWhile isDecimalDigit, s.rest⟩).2.2)))) with
        | (_, FloatValue.infinity _) => (false, s, f)
        | (e, FloatValue.number v) => (true, s.Advance (e.beginDiff s), v)
        | (e, FloatValue.nan) => (true, s.Advance (e.beginDiff s), P.nan) := by
  unfold ConsumeFloat
  dsimp only
  rw [hsign]
  dsimp only
  rw [ConsumeDecimalInt_takeWhile]
  dsimp only
  by_cases hd : l2.takeWhile isDecimalDigit = []
  · simp only [hd, if_true]
    rw [dropWhile_of_takeWhile_nil _ _ hd]
    simp only [StringPiece.beginDiff, digitsValue, digitsValueFrom, List.foldl_nil,
      Nat.sub_self, ne_eq, not_true_eq_false, decide_False, Bool.not_false, Bool.true_and,
      true_and, beq_iff_eq, Bool.and_true]
    split_ifs
    all_goals first
      | rfl
      | (generalize ConsumeFloatExponent P _ _ = ex
         rcases ex with ⟨e, _ | _ | _⟩ <;> rfl)
  · simp only [hd, if_false, false_and]
    rw [beginDiff_dropWhile]
    have hl : (l2.takeWhile isDecimalDigit).length ≠ 0 := by
      simpa using hd
    simp only [hl, ne_eq, not_false_eq_true, decide_True, Bool.not_true, Bool.false_and,
      Bool.false_eq_true, if_false]
    generalize ConsumeFloatExponent P _ _ = ex
    rcases ex with ⟨e, _ | _ | _⟩ <;> rfl

theorem floatExponent_suffix (e : Char) (l : List Char) (k : Int) (l7 : List Char)
    (h : floatExponent e l = some (k, l7)) : l7 <:+ l := by
  unfold floatExponent at h
  by_cases h1 : l.head? = some e
  · rw [if_pos h1] at h
    dsimp only at h
    have h6 : (if decide (l.tail.head? = some '-') = true then l.tail.tail else l.tail) <:+ l := by
      by_cases hn : decide (l.tail.head? = some '-') = true
      · rw [if_pos hn]; exact (List.tail_suffix _).trans (List.tail_suffix _)
      · rw [if_neg hn]; exact List.tail_suffix _
    generalize (if decide (l.tail.head? = some '-') = true then l.tail.tail else l.tail) = l6
      at h h6
    by_cases hk : l6.takeWhile isDecimalDigit = []
    · rw [if_pos hk] at h; cases h
    · rw [if_neg hk] at h
      simp only [Option.some.injEq, Prod.mk.injEq] at h
      rw [← h.2]
      exact (List.dropWhile_suffix _).trans h6
  · rw [if_neg h1] at h; cases h

theorem floatMantissa_suffix (P : Platform) (l : List Char) (m : FloatValue) (l4 : List Char)
    (h : floatMantissa P l = some (m, l4)) : l4 <:+ l := by
  unfold floatMantissa at h
  dsimp only at h
  have h2 : (if decide ((List.dropWhile isspace l).head? = some '-') = true
      then (List.dropWhile isspace l).tail else List.dropWhile isspace l) <:+ l := by
    by_cases hn : decide ((List.dropWhile isspace l).head? = some '-') = true
    · rw [if_pos hn]; exact (List.tail_suffix _).trans (List.dropWhile_suffix _)
    · rw [if_neg hn]; exact List.dropWhile_suffix _
  generalize (if decide ((List.dropWhile isspace l).head? = some '-') = true
      then (List.dropWhile isspace l).tail else List.dropWhile isspace l) = l2 at h h2
  have h4 : (if decide ((l2.dropWhile isDecimalDigit).head? = some '.') = true
      then (l2.dropWhile isDecimalDigit).tail.dropWhile isDecimalDigit
      else l2.dropWhile isDecimalDigit) <:+ l := by
    by_cases hp : decide ((l2.dropWhile isDecimalDigit).head? = some '.') = true
    · rw [if_pos hp]
      exact (((List.dropWhile_suffix _).trans (List.tail_suffix _)).trans
        (List.dropWhile_suffix _)).trans h2
    · rw [if_neg hp]
      exact (List.dropWhile_suffix _).trans h2
  generalize (if decide ((l2.dropWhile isDecimalDigit).head? = some '.') = true
      then (l2.dropWhile isDecimalDigit).tail.dropWhile isDecimalDigit
      else l2.dropWhile isDecimalDigit) = l4x at h h4
  generalize (if decide ((l2.dropWhile isDecimalDigit).head? = some '.') = true
      then (l2.dropWhile isDecimalDigit).tail.takeWhile isDecimalDigit else []) = fs at h
  by_cases hc : l2.takeWhile isDecimalDigit = [] ∧ fs = []
  · rw [if_pos hc] at h; cases h
  · rw [if_neg hc] at h
    simp only [Option.some.injEq, Prod.mk.injEq] at h
    rw [← h.2]
    exact h4

theorem floatOutcome_suffix (P : Platform) (l : List Char) (x : FloatValue) (tl : List Char)
    (h : floatOutcome P l = some (x, tl)) : tl <:+ l := by
  unfold floatOutcome at h
  cases hm : floatMantissa P l with
  | none => rw [hm] at h; cases h
  | some r =>
    obtain ⟨m, l4⟩ := r
    rw [hm] at h
    dsimp only at h
    have h4 := floatMantissa_suffix P l m l4 hm
    cases he : floatExponent 'e' l4 with
    | none =>
      rw [he] at h
      simp only [Option.some.injEq, Prod.mk.injEq] at h
      rw [← h.2]; exact h4
    | some r2 =>
      obtain ⟨k, l7⟩ := r2
      rw [he] at h
      simp only [Option.some.injEq, Prod.mk.injEq] at h
      rw [← h.2]
      exact (floatExponent_suffix 'e' l4 k l7 he).trans h4

/-- What `floatSyntax` makes of the value of a text. -/
theorem floatSyntax_cases (P : Platform) (l : List Char) (v : CGFloat) (tl : List Char)
    (h : floatSyntax P l = some (v, tl)) :
    floatOutcome P l = some (FloatValue.number v, tl) ∨
    (floatOutcome P l = some (FloatValue.nan, tl) ∧ v = P.nan) := by
  unfold floatSyntax at h
  cases ho : floatOutcome P l with
  | none => rw [ho] at h; cases h
  | some r =>
    obtain ⟨x, t⟩ := r
    rw [ho] at h
    cases x with
    | number q =>
      simp only [Option.some.injEq, Prod.mk.injEq] at h
      rw [h.1, h.2]; exact Or.inl rfl
    | infinity b => cases h
    | nan =>
      simp only [Option.some.injEq, Prod.mk.injEq] at h
      rw [← h.1, h.2]; exact Or.inr ⟨rfl, rfl⟩

theorem floatSyntax_suffix (P : Platform) (l : List Char) (v : CGFloat) (tl : List Char)
    (h : floatSyntax P l = some (v, tl)) : tl <:+ l := by
  rcases floatSyntax_cases P l v tl h with h1 | ⟨h1, _⟩
  · exact floatOutcome_suffix P l _ tl h1
  · exact floatOutcome_suffix P l _ tl h1

theorem ConsumeFloat_mantissa (P : Platform) (s : StringPiece) (f : CGFloat) :
    ConsumeFloat P s f =
      match floatMantissa P s.view with
      | none => (false, s, f)
      | some (m, l4) =>
        match ConsumeFloatExponent P ⟨l4, s.rest⟩ m with
        | (_, FloatValue.infinity _) => (false, s, f)
        | (e, FloatValue.number v) => (true, s.Advance (e.beginDiff s), v)
        | (e, FloatValue.nan) => (true, s.Advance (e.beginDiff s), P.nan) := by
  have hsign : ConsumeSign (ConsumeWhitespace s).2 =
      (decide ((s.view.dropWhile isspace).head? = some '-'),
        ⟨if decide ((s.view.dropWhile isspace).head? = some '-') = true
          then (s.view.dropWhile isspace).tail else s.view.dropWhile isspace, s.rest⟩) := by
    rw [ConsumeWhitespace_dropWhile, ConsumeSign_head]
    dsimp only
    split_ifs with h1 h2 h2
    · simp [h1]
    · simp at h2; exact absurd h1 h2
    · simp at h2; exact absurd h2 h1
    · simp [h1]
  rw [ConsumeFloat_signed P s f _ _ hsign, ConsumeFloatFraction_text]
  unfold floatMantissa
  dsimp only
  generalize (if decide ((s.view.dropWhile isspace).head? = some '-') = true
      then (s.view.dropWhile isspace).tail else s.view.dropWhile isspace) = l2
  generalize decide ((s.view.dropWhile isspace).head? = some '-') = negative
  by_cases hp : (l2.dropWhile isDecimalDigit).head? = some '.'
  · simp only [hp, if_true, decide_True, List.length_eq_zero]
    by_cases hc : l2.takeWhile isDecimalDigit = [] ∧
        (l2.dropWhile isDecimalDigit).tail.takeWhile isDecimalDigit = []
    · rw [if_pos hc, if_pos hc]
    · rw [if_neg hc, if_neg hc]
  · simp only [hp, if_false, decide_False, Bool.false_eq_true, and_true]
    by_cases hd : l2.takeWhile isDecimalDigit = []
    · simp [hd]
    · simp [hd, digitsValue, digitsValueFrom]

/-- ConsumeFloat on the text of a cursor: it fails for a text without a
mantissa and for a text whose value is an infinity; it stores a number, and
`P.nan` for the value NaN, and leaves the cursor behind the float. -/
theorem ConsumeFloat_outcome (P : Platform) (s : StringPiece) (f : CGFloat) :
    ConsumeFloat P s f =
      match floatOutcome P s.view with
      | none => (false, s, f)
      | some (FloatValue.infinity _, _) => (false, s, f)
      | some (FloatValue.number v, tl) => (true, ⟨tl, s.rest⟩, v)
      | some (FloatValue.nan, tl) => (true, ⟨tl, s.rest⟩, P.nan) := by
  rw [ConsumeFloat_mantissa]
  unfold floatOutcome
  cases hm : floatMantissa P s.view with
  | none => rfl
  | some r =>
    obtain ⟨m, l4⟩ := r
    dsimp only
    rw [ConsumeFloatExponent_text]
    have h4 := floatMantissa_suffix P s.view m l4 hm
    cases he : floatExponent 'e' l4 with
    | none =>
      dsimp only
      cases m with
      | infinity b => rfl
      | number q =>
        dsimp only
        rw [Advance_beginDiff_of_isSuffix s l4 h4]
      | nan =>
        dsimp only
        rw [Advance_beginDiff_of_isSuffix s l4 h4]
    | some r2 =>
      obtain ⟨k, l7⟩ := r2
      dsimp only
      have h7 := (floatExponent_suffix 'e' l4 k l7 he).trans h4
      generalize FloatValue.mul P m (P.pow 10 k) = x
      cases x with
      | infinity b => rfl
      | number q =>
        dsimp only
        rw [Advance_beginDiff_of_isSuffix s l7 h7]
      | nan =>
        dsimp only
        rw [Advance_beginDiff_of_isSuffix s l7 h7]

theorem ConsumeFloat_text (P : Platform) (s : StringPiece) (f : CGFloat) :
    ConsumeFloat P s f =
      match floatSyntax P s.view with
      | none => (false, s, f)
      | some (v, tl) => (true, ⟨tl, s.rest⟩, v) := by
  rw [ConsumeFloat_outcome]
  unfold floatSyntax
  cases floatOutcome P s.view with
  | none => rfl
  | some r =>
    obtain ⟨x, tl⟩ := r
    cases x <;> rfl

theorem ConsumeFloat_none (P : Platform) (s : StringPiece) (f : CGFloat)
    (h : floatSyntax P s.view = none) : ConsumeFloat P s f = (false, s, f) := by
  rw [ConsumeFloat_text, h]

theorem ConsumeFloat_some (P : Platform) (s : StringPiece) (f : CGFloat) (v : CGFloat)
    (tl : List Char) (h : floatSyntax P s.view = some (v, tl)) :
    ConsumeFloat P s f = (true, ⟨tl, s.rest⟩, v) := by
  rw [ConsumeFloat_text, h]

theorem takeWhile_stop (p : Char → Bool) (u : List Char)
    (hu : ∀ c, u.head? = some c → p c = false) : u.takeWhile p = [] := by
  rcases u with _ | ⟨c, t⟩
  · rfl
  · exact List.takeWhile_cons_of_neg (by simp [hu c rfl])

theorem dropWhile_stop (p : Char → Bool) (u : List Char)
    (hu : ∀ c, u.head? = some c → p c = false) : u.dropWhile p = u :=
  dropWhile_of_takeWhile_nil p u (takeWhile_stop p u hu)

theorem takeWhile_append_stop (p : Char → Bool) (ds u : List Char) (h : ∀ c ∈ ds, p c = true)
    (hu : ∀ c, u.head? = some c → p c = false) : (ds ++ u).takeWhile p = ds := by
  rw [List.takeWhile_append_of_pos h, takeWhile_stop p u hu, List.append_nil]

theorem dropWhile_append_stop (p : Char → Bool) (ds u : List Char) (h : ∀ c ∈ ds, p c = true)
    (hu : ∀ c, u.head? = some c → p c = false) : (ds ++ u).dropWhile p = u := by
  rw [List.dropWhile_append_of_pos h, dropWhile_stop p u hu]

theorem isspace_of_isDecimalDigit (c : Char) (h : isDecimalDigit c = true) : isspace c = false := by
  simp only [isDecimalDigit, decide_eq_true_eq] at h
  exact isspace_digit c h.1 h.2

theorem takeWhile_eq_nil_cons (p : Char → Bool) (c : Char) (t : List Char) :
    (c :: t).takeWhile p = [] ↔ p c = false := by
  by_cases h : p c = true
  · simp [List.takeWhile_cons_of_pos h, h]
  · simp [List.takeWhile_cons_of_neg h, h]

theorem hasFloatDigits_iff (P : Platform) (l : List Char) :
    hasFloatDigits l = true ↔ floatMantissa P l ≠ none := by
  unfold hasFloatDigits floatMantissa
  dsimp only
  simp only [decide_eq_true_eq]
  generalize (if (List.dropWhile isspace l).head? = some '-' then (List.dropWhile isspace l).tail
    else List.dropWhile isspace l) = l2
  generalize decide ((List.dropWhile isspace l).head? = some '-') = negative
  rcases l2 with _ | ⟨c, t⟩
  · simp
  · by_cases hd : isDecimalDigit c = true
    · have hne : (c :: t).takeWhile isDecimalDigit ≠ [] := by
        rw [Ne, takeWhile_eq_nil_cons]; simp [hd]
      simp [hd, hne]
    · have hds : (c :: t).takeWhile isDecimalDigit = [] := by
        rw [takeWhile_eq_nil_cons]; simpa using hd
      have hdr : (c :: t).dropWhile isDecimalDigit = c :: t :=
        dropWhile_of_takeWhile_nil _ _ hds
      simp only [hds, hdr, List.head?_cons, Option.some.injEq, List.tail_cons, true_and]
      by_cases hc : c = '.'
      · have hpt : isDecimalDigit '.' = false := by decide
        rcases t with _ | ⟨d, t2⟩
        · simp [hc, hpt]
        · by_cases hdd : isDecimalDigit d = true
          · have : (d :: t2).takeWhile isDecimalDigit ≠ [] := by
              rw [Ne, takeWhile_eq_nil_cons]; simp [hdd]
            simp [hc, hdd, this, hpt]
          · have : (d :: t2).takeWhile isDecimalDigit = [] := by
              rw [takeWhile_eq_nil_cons]; simpa using hdd
            simp [hc, hdd, this, hpt]
      · simp [hd, hc]

theorem floatOutcome_eq_none_iff (P : Platform) (l : List Char) :
    floatOutcome P l = none ↔ floatMantissa P l = none := by
  unfold floatOutcome
  cases floatMantissa P l with
  | none => simp
  | some r =>
    obtain ⟨m, l4⟩ := r
    dsimp only
    cases floatExponent 'e' l4 with
    | none => simp
    | some r2 => simp

theorem floatSyntax_of_nan (P : Platform) (l : List Char) (tl : List Char)
    (h : floatOutcome P l = some (FloatValue.nan, tl)) :
    floatSyntax P l = some (P.nan, tl) := by
  unfold floatSyntax
  rw [h]

theorem floatSyntax_of_infinity (P : Platform) (l : List Char) (b : Bool) (tl : List Char)
    (h : floatOutcome P l = some (FloatValue.infinity b, tl)) :
    floatSyntax P l = none := by
  unfold floatSyntax
  rw [h]

theorem ConsumeHexIntLoop_count : ∀ (l : List Char) (result : Int) (iter : Nat),
    (ConsumeHexIntLoop l result iter).2 = iter + (l.takeWhile ishexnumber).length := by
  intro l
  induction l with
  | nil => intro result iter; rfl
  | cons c cs ih =>
    intro result iter
    simp only [ConsumeHexIntLoop]
    by_cases h : ishexnumber c = true
    · rw [if_pos h, ih, List.takeWhile_cons_of_pos h, List.length_cons]
      omega
    · rw [if_neg h, List.takeWhile_cons_of_neg h]
      rfl

theorem ConsumeHexInt_unlimited (l rest : List Char) :
    (ConsumeHexInt ⟨l, rest⟩ (-1) 0).1 = decide ((l.takeWhile ishexnumber).length ≠ 0) ∧
    ((ConsumeHexInt ⟨l, rest⟩ (-1) 0).1 = true →
      (ConsumeHexInt ⟨l, rest⟩ (-1) 0).2.1.beginDiff ⟨l, rest⟩ =
        (l.takeWhile ishexnumber).length) := by
  have hneg : ¬ ((-1 : Int) > 0) := by decide
  simp only [ConsumeHexInt, hneg, false_and, if_false, ConsumeHexIntLoop_count, Nat.zero_add]
  by_cases h0 : (l.takeWhile ishexnumber).length ≠ 0
  · rw [if_pos h0]
    refine ⟨by simp [h0], fun _ => ?_⟩
    have hle : (l.takeWhile ishexnumber).length ≤ l.length := length_takeWhile_le _ _
    rw [Advance_le ⟨l, rest⟩ _ hle]
    simp only [StringPiece.beginDiff, StringPiece.remaining, List.length_drop]
    omega
  · rw [if_neg h0]
    exact ⟨by simp [h0], fun h => by cases h⟩

theorem digittoint_range (c : Char) : 0 ≤ digittoint c ∧ digittoint c ≤ 15 := by
  unfold digittoint
  by_cases h1 : ('0' ≤ c && c ≤ '9') = true
  · rw [if_pos h1]
    simp only [Bool.and_eq_true, decide_eq_true_eq] at h1
    have e1 : (48 : Nat) ≤ c.toNat := h1.1
    have e2 : c.toNat ≤ 57 := h1.2
    omega
  · rw [if_neg h1]
    by_cases h2 : ('a' ≤ c && c ≤ 'f') = true
    · rw [if_pos h2]
      simp only [Bool.and_eq_true, decide_eq_true_eq] at h2
      have e1 : (97 : Nat) ≤ c.toNat := h2.1
      have e2 : c.toNat ≤ 102 := h2.2
      omega
    · rw [if_neg h2]
      by_cases h3 : ('A' ≤ c && c ≤ 'F') = true
      · rw [if_pos h3]
        simp only [Bool.and_eq_true, decide_eq_true_eq] at h3
        have e1 : (65 : Nat) ≤ c.toNat := h3.1
        have e2 : c.toNat ≤ 70 := h3.2
        omega
      · rw [if_neg h3]
        omega

theorem wrapInt_zero : wrapInt 0 = 0 := rfl

theorem wrapInt_digittoint (c : Char) : wrapInt (digittoint c) = digittoint c := by
  have h := digittoint_range c
  exact wrapInt_of_range _ (by omega) (by omega)

theorem wrapInt_two_digittoint (c d : Char) :
    wrapInt (wrapInt (digittoint c * 16) + digittoint d) = digittoint c * 16 + digittoint d := by
  have h := digittoint_range c
  have h2 := digittoint_range d
  rw [wrapInt_of_range (digittoint c * 16) (by omega) (by omega),
    wrapInt_of_range _ (by omega) (by omega)]

theorem ConsumeHexInt_one (c : Char) (cs rest : List Char) (hc : ishexnumber c = true) :
    ConsumeHexInt ⟨c :: cs, rest⟩ 1 0 = (true, ⟨cs, rest⟩, digittoint c) := by
  rcases cs with _ | ⟨d, ds⟩
  · simp [ConsumeHexInt, ConsumeHexIntLoop, StringPiece.length, StringPiece.Advance, hc,
      wrapInt_zero, wrapInt_digittoint]
  · have h1 : ¬ ((ds.length : Int) + 1 + 1 < 1) := by omega
    have h2 : (1 : Int) < (ds.length : Int) + 1 + 1 := by omega
    simp [ConsumeHexInt, ConsumeHexIntLoop, StringPiece.length, StringPiece.Advance, hc, h1, h2,
      wrapInt_zero, wrapInt_digittoint]

theorem ConsumeHexInt_two (c d : Char) (cs rest : List Char) (hc : ishexnumber c = true)
    (hd : ishexnumber d = true) :
    ConsumeHexInt ⟨c :: d :: cs, rest⟩ 2 0 = (true, ⟨cs, rest⟩, digittoint c * 16 + digittoint d) := by
  rcases cs with _ | ⟨e, es⟩
  · simp [ConsumeHexInt, ConsumeHexIntLoop, StringPiece.length, StringPiece.Advance, hc, hd,
      wrapInt_zero, wrapInt_digittoint, wrapInt_two_digittoint]
  · have h1 : ¬ ((es.length : Int) + 1 + 1 + 1 < 2) := by omega
    have h2 : (2 : Int) < (es.length : Int) + 1 + 1 + 1 := by omega
    simp [ConsumeHexInt, ConsumeHexIntLoop, StringPiece.length, StringPiece.Advance, hc, hd,
      h1, h2, wrapInt_zero, wrapInt_digittoint, wrapInt_two_digittoint]

theorem takeWhile_length_pos (p : Char → Bool) (l : List Char)
    (h : 0 < (l.takeWhile p).length) :
    ∃ c cs, l = c :: cs ∧ p c = true ∧
      (l.takeWhile p).length = (cs.takeWhile p).length + 1 := by
  rcases l with _ | ⟨c, cs⟩
  · simp at h
  · by_cases hc : p c = true
    · exact ⟨c, cs, rfl, hc, by rw [List.takeWhile_cons_of_pos hc]; rfl⟩
    · rw [List.takeWhile_cons_of_neg hc] at h
      simp at h

theorem takeWhile_length_of_all (p : Char → Bool) (l : List Char) (h : ∀ c ∈ l, p c = true) :
    (l.takeWhile p).length = l.length := by
  have : (l ++ []).takeWhile p = l ++ ([] : List Char).takeWhile p :=
    List.takeWhile_append_of_pos h
  rw [List.append_nil, List.takeWhile_nil, List.append_nil] at this
  rw [this]

theorem ConsumeHexadecimalColor_few (t rest : List Char) (rgb : RgbColor)
    (hn : (t.takeWhile ishexnumber).length < 3) :
    ConsumeHexadecimalColor ⟨'#' :: t, rest⟩ rgb = (false, ⟨'#' :: t, rest⟩, rgb) := by
  obtain ⟨h1, h2⟩ := ConsumeHexInt_unlimited t rest
  unfold ConsumeHexadecimalColor
  rw [if_neg (by simp [StringPiece.get])]
  dsimp only
  by_cases ha : (ConsumeHexInt ⟨t, rest⟩ (-1) 0).1 = false
  · rw [if_pos ha]
  · rw [if_neg ha, h2 (by simpa using ha), if_pos hn]

theorem ConsumeHexadecimalColor_three (a b c : Char) (t rest : List Char) (rgb : RgbColor)
    (ha : ishexnumber a = true) (hb : ishexnumber b = true) (hc : ishexnumber c = true)
    (hn : (t.takeWhile ishexnumber).length < 3) :
    ConsumeHexadecimalColor ⟨'#' :: a :: b :: c :: t, rest⟩ rgb =
      (true, ⟨t, rest⟩, RgbColor.make ((digittoint a : CGFloat) / 15)
        ((digittoint b : CGFloat) / 15) ((digittoint c : CGFloat) / 15)) := by
  obtain ⟨h1, h2⟩ := ConsumeHexInt_unlimited (a :: b :: c :: t) rest
  have hcount : ((a :: b :: c :: t).takeWhile ishexnumber).length =
      (t.takeWhile ishexnumber).length + 3 := by
    rw [List.takeWhile_cons_of_pos ha, List.takeWhile_cons_of_pos hb,
      List.takeWhile_cons_of_pos hc]
    rfl
  rw [hcount] at h1 h2
  have hs : (ConsumeHexInt ⟨a :: b :: c :: t, rest⟩ (-1) 0).1 = true := by
    rw [h1]; simp
  unfold ConsumeHexadecimalColor
  rw [if_neg (by simp [StringPiece.get])]
  dsimp only
  rw [if_neg (by simp [hs]), h2 hs, if_neg (by omega)]
  have h6 : decide ((t.takeWhile ishexnumber).length + 3 < 6) = true := by
    simp only [decide_eq_true_eq]; omega
  rw [h6]
  simp only [ConsumeHexadecimalColorLoop, if_true, ConsumeHexInt_one a _ rest ha,
    ConsumeHexInt_one b _ rest hb, ConsumeHexInt_one c _ rest hc, Bool.true_eq_false, if_false,
    List.nil_append, List.cons_append, List.getD_cons_zero, List.getD_cons_succ]
  have hsuf : StringPiece.Suffix ⟨'#' :: a :: b :: c :: t, rest⟩ ⟨t, rest⟩ :=
    ⟨4, by simp, by simp⟩
  rw [(Suffix_beginDiff hsuf).2]

theorem ConsumeHexadecimalColor_six (a b c d e f : Char) (t rest : List Char) (rgb : RgbColor)
    (ha : ishexnumber a = true) (hb : ishexnumber b = true) (hc : ishexnumber c = true)
    (hd : ishexnumber d = true) (he : ishexnumber e = true) (hf : ishexnumber f = true) :
    ConsumeHexadecimalColor ⟨'#' :: a :: b :: c :: d :: e :: f :: t, rest⟩ rgb =
      (true, ⟨t, rest⟩, RgbColor.make
        (((digittoint a * 16 + digittoint b : Int) : CGFloat) / 255)
        (((digittoint c * 16 + digittoint d : Int) : CGFloat) / 255)
        (((digittoint e * 16 + digittoint f : Int) : CGFloat) / 255)) := by
  obtain ⟨h1, h2⟩ := ConsumeHexInt_unlimited (a :: b :: c :: d :: e :: f :: t) rest
  have hcount : ((a :: b :: c :: d :: e :: f :: t).takeWhile ishexnumber).length =
      (t.takeWhile ishexnumber).length + 6 := by
    rw [List.takeWhile_cons_of_pos ha, List.takeWhile_cons_of_pos hb,
      List.takeWhile_cons_of_pos hc, List.takeWhile_cons_of_pos hd,
      List.takeWhile_cons_of_pos he, List.takeWhile_cons_of_pos hf]
    rfl
  rw [hcount] at h1 h2
  have hs : (ConsumeHexInt ⟨a :: b :: c :: d :: e :: f :: t, rest⟩ (-1) 0).1 = true := by
    rw [h1]; simp
  unfold ConsumeHexadecimalColor
  rw [if_neg (by simp [StringPiece.get])]
  dsimp only
  rw [if_neg (by simp [hs]), h2 hs, if_neg (by omega)]
  have h6 : decide ((t.takeWhile ishexnumber).length + 6 < 6) = false := by
    simp only [decide_eq_false_iff_not]; omega
  rw [h6]
  simp only [ConsumeHexadecimalColorLoop, Bool.false_eq_true, if_false,
    ConsumeHexInt_two a b _ rest ha hb, ConsumeHexInt_two c d _ rest hc hd,
    ConsumeHexInt_two e f _ rest he hf, Bool.true_eq_false,
    List.nil_append, List.cons_append, List.getD_cons_zero, List.getD_cons_succ]
  have hsuf : StringPiece.Suffix ⟨'#' :: a :: b :: c :: d :: e :: f :: t, rest⟩ ⟨t, rest⟩ :=
    ⟨7, by simp, by simp⟩
  rw [(Suffix_beginDiff hsuf).2]

theorem ClampToUnitRange_of_mem (v : CGFloat) (h0 : 0 ≤ v) (h1 : v ≤ 1) :
    ClampToUnitRange v = v := by
  unfold ClampToUnitRange
  rw [max_eq_left h0, min_eq_left h1]

theorem clamp_digit (c : Char) :
    ClampToUnitRange ((digittoint c : CGFloat) / 15) = (digittoint c : CGFloat) / 15 := by
  obtain ⟨h0, h1⟩ := digittoint_range c
  have e0 : (0 : CGFloat) ≤ (digittoint c : CGFloat) := by exact_mod_cast h0
  have e1 : (digittoint c : CGFloat) ≤ 15 := by exact_mod_cast h1
  exact ClampToUnitRange_of_mem _ (div_nonneg e0 (by norm_num))
    ((div_le_one (by norm_num)).2 e1)

theorem clamp_byte (c d : Char) :
    ClampToUnitRange (((digittoint c * 16 + digittoint d : Int) : CGFloat) / 255) =
      ((digittoint c * 16 + digittoint d : Int) : CGFloat) / 255 := by
  obtain ⟨h0, h1⟩ := digittoint_range c
  obtain ⟨h2, h3⟩ := digittoint_range d
  have e0 : (0 : CGFloat) ≤ ((digittoint c * 16 + digittoint d : Int) : CGFloat) := by
    exact_mod_cast (show (0 : Int) ≤ digittoint c * 16 + digittoint d by omega)
  have e1 : ((digittoint c * 16 + digittoint d : Int) : CGFloat) ≤ 255 := by
    exact_mod_cast (show digittoint c * 16 + digittoint d ≤ (255 : Int) by omega)
  exact ClampToUnitRange_of_mem _ (div_nonneg e0 (by norm_num))
    ((div_le_one (by norm_num)).2 e1)

/-- C19: behind a '#', ConsumeHexadecimalColor succeeds and leaves an empty
cursor exactly when the rest of the view is 3 or 6 hexadecimal digits; three
digits give the colour (h1/15, h2/15, h3/15) and six digits the colour
(byte1/255, byte2/255, byte3/255). -/
theorem hexadecimal_colour_three_or_six_digits (t rest : List Char) (rgb : RgbColor) :
    (((ConsumeHexadecimalColor ⟨'#' :: t, rest⟩ rgb).1 = true ∧
        (ConsumeHexadecimalColor ⟨'#' :: t, rest⟩ rgb).2.1.length = 0) ↔
      ((∀ c ∈ t, ishexnumber c = true) ∧ (t.length = 3 ∨ t.length = 6))) ∧
    (∀ a b c, t = [a, b, c] → ishexnumber a = true → ishexnumber b = true →
      ishexnumber c = true →
      ConsumeHexadecimalColor ⟨'#' :: t, rest⟩ rgb =
        (true, ⟨[], rest⟩, ⟨(digittoint a : CGFloat) / 15, (digittoint b : CGFloat) / 15,
          (digittoint c : CGFloat) / 15⟩)) ∧
    (∀ a b c d e f, t = [a, b, c, d, e, f] → ishexnumber a = true → ishexnumber b = true →
      ishexnumber c = true → ishexnumber d = true → ishexnumber e = true →
      ishexnumber f = true →
      ConsumeHexadecimalColor ⟨'#' :: t, rest⟩ rgb =
        (true, ⟨[], rest⟩, ⟨((digittoint a * 16 + digittoint b : Int) : CGFloat) / 255,
          ((digittoint c * 16 + digittoint d : Int) : CGFloat) / 255,
          ((digittoint e * 16 + digittoint f : Int) : CGFloat) / 255⟩)) := by
  refine ⟨?_, ?_, ?_⟩
  · by_cases hn : (t.takeWhile ishexnumber).length < 3
    · rw [ConsumeHexadecimalColor_few t rest rgb hn]
      constructor
      · rintro ⟨h, _⟩; cases h
      · rintro ⟨hall, hlen⟩
        rw [takeWhile_length_of_all _ t hall] at hn
        omega
    · obtain ⟨a, t1, rfl, ha, e1⟩ := takeWhile_length_pos ishexnumber t (by omega)
      obtain ⟨b, t2, rfl, hb, e2⟩ := takeWhile_length_pos ishexnumber t1 (by omega)
      obtain ⟨c, t3, rfl, hc, e3⟩ := takeWhile_length_pos ishexnumber t2 (by omega)
      by_cases hn3 : (t3.takeWhile ishexnumber).length < 3
      · rw [ConsumeHexadecimalColor_three a b c t3 rest rgb ha hb hc hn3]
        constructor
        · rintro ⟨_, h⟩
          have ht : t3 = [] := List.length_eq_zero.mp h
          subst ht
          refine ⟨?_, Or.inl rfl⟩
          intro x hx
          simp only [List.mem_cons, List.mem_singleton, List.not_mem_nil, or_false] at hx
          rcases hx with rfl | rfl | rfl <;> assumption
        · rintro ⟨hall, hlen⟩
          have hall3 : ∀ x ∈ t3, ishexnumber x = true := fun x hx =>
            hall x (by simp [hx])
          rw [takeWhile_length_of_all _ t3 hall3] at hn3
          simp only [List.length_cons] at hlen
          refine ⟨rfl, ?_⟩
          show t3.length = 0
          omega
      · obtain ⟨d, t4, rfl, hd, e4⟩ := takeWhile_length_pos ishexnumber t3 (by omega)
        obtain ⟨e, t5, rfl, he, e5⟩ := takeWhile_length_pos ishexnumber t4 (by omega)
        obtain ⟨f, t6, rfl, hf, e6⟩ := takeWhile_length_pos ishexnumber t5 (by omega)
        rw [ConsumeHexadecimalColor_six a b c d e f t6 rest rgb ha hb hc hd he hf]
        constructor
        · rintro ⟨_, h⟩
          have ht : t6 = [] := List.length_eq_zero.mp h
          subst ht
          refine ⟨?_, Or.inr rfl⟩
          intro x hx
          simp only [List.mem_cons, List.mem_singleton, List.not_mem_nil, or_false] at hx
          rcases hx with rfl | rfl | rfl | rfl | rfl | rfl <;> assumption
        · rintro ⟨_, hlen⟩
          simp only [List.length_cons] at hlen
          refine ⟨rfl, ?_⟩
          show t6.length = 0
          omega
  · rintro a b c rfl ha hb hc
    rw [ConsumeHexadecimalColor_three a b c [] rest rgb ha hb hc (by simp)]
    simp only [RgbColor.make, clamp_digit a, clamp_digit b, clamp_digit c]
  · rintro a b c d e f rfl ha hb hc hd he hf
    rw [ConsumeHexadecimalColor_six a b c d e f [] rest rgb ha hb hc hd he hf]
    simp only [RgbColor.make, clamp_byte a b, clamp_byte c d, clamp_byte e f]

/-- C19 on "#f80", "#FF8000", "#ff80" and "#ff": the first two are whole
colours (1, 8/15, 0) and (1, 128/255, 0); "#ff80" is read up to the last
digit and "#ff" fails. -/
theorem hexadecimal_colour_three_or_six_digits_witness :
    ConsumeHexadecimalColor (StringPiece.ofString "#f80".data) RgbColor.default
      = (true, ⟨[], []⟩, ⟨1, 8 / 15, 0⟩) ∧
    ConsumeHexadecimalColor (StringPiece.ofString "#FF8000".data) RgbColor.default
      = (true, ⟨[], []⟩, ⟨1, 128 / 255, 0⟩) ∧
    ConsumeHexadecimalColor (StringPiece.ofString "#ff80".data) RgbColor.default
      = (true, ⟨"0".data, []⟩, ⟨1, 1, 8 / 15⟩) ∧
    (ConsumeHexadecimalColor (StringPiece.ofString "#ff".data) RgbColor.default).1 = false :=
  ⟨((hexadecimal_colour_three_or_six_digits "f80".data [] RgbColor.default).2.1 'f' '8' '0' rfl
      (by decide) (by decide) (by decide)).trans (by decide!),
   by decide!, by decide!, by decide!⟩

/-! ## C20: functional colours -/

theorem head_ws_stop (p : Char → Prop) (w : List Char) (c : Char) (u : List Char)
    (hw : ∀ x ∈ w, isspace x = true) (hp : ∀ x, isspace x = true → p x) (hc : p c) :
    ∀ x, (w ++ c :: u).head? = some x → p x := by
  intro x hx
  rcases w with _ | ⟨y, w⟩
  · simp only [List.nil_append, List.head?_cons, Option.some.injEq] at hx
    exact hx ▸ hc
  · simp only [List.cons_append, List.head?_cons, Option.some.injEq] at hx
    exact hx ▸ hp y (hw y (by simp))

theorem isDecimalDigit_of_isspace (x : Char) (h : isspace x = true) :
    isDecimalDigit x = false := by
  cases hd : isDecimalDigit x with
  | false => rfl
  | true => rw [isspace_of_isDecimalDigit x hd] at h; cases h

theorem ConsumeDecimalInt_run (d : Char) (ds u rest : List Char) (n : Int)
    (hd : isDecimalDigit d = true) (hds : ∀ x ∈ ds, isDecimalDigit x = true)
    (hu : ∀ x, u.head? = some x → isDecimalDigit x = false) :
    ConsumeDecimalInt ⟨(d :: ds) ++ u, rest⟩ n = (true, ⟨u, rest⟩, digitsValue (d :: ds)) := by
  have hall : ∀ x ∈ d :: ds, isDecimalDigit x = true := by
    intro x hx
    rcases List.mem_cons.1 hx with rfl | h
    · exact hd
    · exact hds x h
  rw [ConsumeDecimalInt_takeWhile]
  dsimp only
  rw [takeWhile_append_stop _ _ u hall hu, dropWhile_append_stop _ _ u hall hu,
    if_neg (List.cons_ne_nil _ _)]

theorem ConsumeDecimalIntPercent_run (d : Char) (ds u rest : List Char) (n : Int)
    (hd : isDecimalDigit d = true) (hds : ∀ x ∈ ds, isDecimalDigit x = true) :
    ConsumeDecimalIntPercent ⟨(d :: ds) ++ '%' :: u, rest⟩ n =
      (true, ⟨u, rest⟩, digitsValue (d :: ds)) := by
  have hr := ConsumeDecimalInt_run d ds ('%' :: u) rest n hd hds (by
    intro x hx
    simp only [List.head?_cons, Option.some.injEq] at hx
    rw [← hx]; decide)
  unfold ConsumeDecimalIntPercent
  rw [hr]
  dsimp only
  rw [if_pos (by simp [StringPiece.length, StringPiece.get])]
  have := Advance_past_prefix ⟨(d :: ds) ++ '%' :: u, rest⟩ ((d :: ds) ++ ['%']) u (by simp)
  have e : StringPiece.length ⟨(d :: ds) ++ '%' :: u, rest⟩ -
      StringPiece.length ⟨'%' :: u, rest⟩ + 1 =
      StringPiece.length ⟨(d :: ds) ++ '%' :: u, rest⟩ - u.length := by
    simp only [StringPiece.length, List.length_append, List.length_cons]
    omega
  rw [e, this]

theorem ConsumeDecimalIntPercent_no_percent (d : Char) (ds u rest : List Char) (n : Int)
    (hd : isDecimalDigit d = true) (hds : ∀ x ∈ ds, isDecimalDigit x = true)
    (hu : ∀ x, u.head? = some x → isDecimalDigit x = false ∧ x ≠ '%') :
    (ConsumeDecimalIntPercent ⟨(d :: ds) ++ u, rest⟩ n).1 = false := by
  have hr := ConsumeDecimalInt_run d ds u rest n hd hds (fun x hx => (hu x hx).1)
  unfold ConsumeDecimalIntPercent
  rw [hr]
  dsimp only
  rw [if_neg]
  rintro ⟨_, h0, hg⟩
  rcases u with _ | ⟨x, u⟩
  · exact h0 rfl
  · simp only [StringPiece.get, List.cons_append, List.getD_cons_zero] at hg
    exact (hu x rfl).2 hg

theorem ConsumeNumberDelimiterLoop_ws : ∀ (w u : List Char) (seen : Bool) (it : Nat),
    (∀ x ∈ w, isspace x = true) →
    ConsumeNumberDelimiterLoop (w ++ u) seen it =
      ConsumeNumberDelimiterLoop u seen (it + w.length) := by
  intro w
  induction w with
  | nil => intro u seen it _; rfl
  | cons y w ih =>
    intro u seen it hw
    have hy : isspace y = true := hw y (by simp)
    have hyc : y ≠ ',' := by rintro rfl; revert hy; decide
    simp only [List.cons_append, ConsumeNumberDelimiterLoop, if_neg hyc, hy,
      Bool.true_eq_false, if_false]
    show ConsumeNumberDelimiterLoop (w ++ u) seen (it + 1) = _
    rw [ih u seen (it + 1) (fun x hx => hw x (by simp [hx])), List.length_cons]
    congr 1
    omega

theorem ConsumeNumberDelimiterLoop_stop (u : List Char) (seen : Bool) (it : Nat)
    (hu : ∀ x, u.head? = some x → isspace x = false ∧ (seen = false → x ≠ ',')) :
    ConsumeNumberDelimiterLoop u seen it = (it, seen) := by
  rcases u with _ | ⟨x, u⟩
  · rfl
  · obtain ⟨h1, h2⟩ := hu x rfl
    simp only [ConsumeNumberDelimiterLoop]
    by_cases hx : x = ','
    · rw [if_pos hx]
      cases seen with
      | true => rfl
      | false => exact absurd hx (h2 rfl)
    · rw [if_neg hx, if_pos h1]

theorem ConsumeNumberDelimiter_comma (w1 w2 u rest : List Char)
    (hw1 : ∀ x ∈ w1, isspace x = true) (hw2 : ∀ x ∈ w2, isspace x = true)
    (hu : ∀ x, u.head? = some x → isspace x = false) :
    ConsumeNumberDelimiter ⟨w1 ++ ',' :: (w2 ++ u), rest⟩ = (true, ⟨u, rest⟩) := by
  unfold ConsumeNumberDelimiter
  dsimp only
  rw [ConsumeNumberDelimiterLoop_ws w1 _ false 0 hw1]
  simp only [ConsumeNumberDelimiterLoop, if_true, Bool.false_eq_true, if_false]
  rw [ConsumeNumberDelimiterLoop_ws w2 _ true _ hw2,
    ConsumeNumberDelimiterLoop_stop u true _ (fun x hx => ⟨hu x hx, fun h => by cases h⟩)]
  dsimp only
  rw [if_pos rfl]
  have := Advance_past_prefix ⟨w1 ++ ',' :: (w2 ++ u), rest⟩ (w1 ++ ',' :: w2) u (by simp)
  have e : 0 + w1.length + 1 + w2.length =
      StringPiece.length ⟨w1 ++ ',' :: (w2 ++ u), rest⟩ - u.length := by
    simp only [StringPiece.length, List.length_append, List.length_cons]
    omega
  rw [e, this]

theorem ConsumeNumberDelimiter_none (u rest : List Char)
    (hu : ∀ x, u.head? = some x → isspace x = false ∧ x ≠ ',') :
    ConsumeNumberDelimiter ⟨u, rest⟩ = (false, ⟨u, rest⟩) := by
  unfold ConsumeNumberDelimiter
  dsimp only
  rw [ConsumeNumberDelimiterLoop_stop u false 0 (fun x hx => ⟨(hu x hx).1, fun _ => (hu x hx).2⟩)]
  rfl

theorem ConsumeWhitespace_run (w u rest : List Char) (hw : ∀ x ∈ w, isspace x = true)
    (hu : ∀ x, u.head? = some x → isspace x = false) :
    (ConsumeWhitespace ⟨w ++ u, rest⟩).2 = ⟨u, rest⟩ := by
  rw [ConsumeWhitespace_dropWhile]
  dsimp only
  rw [dropWhile_append_stop _ w u hw hu]

theorem Loop_first {Value : Type} [Inhabited Value]
    (cv : StringPiece → Value → Bool × StringPiece × Value)
    (cd : StringPiece → Bool × StringPiece) (opt : Bool) (n : Nat) (s s2 : StringPiece)
    (v : List Value) (x : Value) (hv : cv s (v.getD 0 default) = (true, s2, x)) :
    GenericConsumeValuesLoop cv cd opt (n + 1) 0 s v =
      GenericConsumeValuesLoop cv cd opt n 1 s2 (v.set 0 x) := by
  simp only [GenericConsumeValuesLoop, ne_eq, not_true_eq_false, if_false, false_and, hv,
    Bool.true_eq_false]

theorem Loop_next {Value : Type} [Inhabited Value]
    (cv : StringPiece → Value → Bool × StringPiece × Value)
    (cd : StringPiece → Bool × StringPiece) (opt : Bool) (n i : Nat) (s s1 s2 : StringPiece)
    (v : List Value) (x : Value) (hd : cd s = (true, s1))
    (hv : cv s1 (v.getD (i + 1) default) = (true, s2, x)) :
    GenericConsumeValuesLoop cv cd opt (n + 1) (i + 1) s v =
      GenericConsumeValuesLoop cv cd opt n (i + 2) s2 (v.set (i + 1) x) := by
  simp only [GenericConsumeValuesLoop, ne_eq, Nat.succ_ne_zero, not_false_eq_true, if_true, hd,
    Bool.true_eq_false, false_and, and_false, if_false, hv]

theorem Loop_no_delimiter {Value : Type} [Inhabited Value]
    (cv : StringPiece → Value → Bool × StringPiece × Value)
    (cd : StringPiece → Bool × StringPiece) (n i : Nat) (s : StringPiece)
    (v : List Value) (hd : (cd s).1 = false) :
    (GenericConsumeValuesLoop cv cd false (n + 1) (i + 1) s v).1 = false := by
  simp [GenericConsumeValuesLoop, hd]

theorem Loop_no_first {Value : Type} [Inhabited Value]
    (cv : StringPiece → Value → Bool × StringPiece × Value)
    (cd : StringPiece → Bool × StringPiece) (opt : Bool) (n : Nat) (s : StringPiece)
    (v : List Value) (hv : (cv s (v.getD 0 default)).1 = false) :
    (GenericConsumeValuesLoop cv cd opt (n + 1) 0 s v).1 = false := by
  simp only [GenericConsumeValuesLoop, ne_eq, not_true_eq_false, if_false, false_and, hv,
    if_true]

theorem Loop_no_value {Value : Type} [Inhabited Value]
    (cv : StringPiece → Value → Bool × StringPiece × Value)
    (cd : StringPiece → Bool × StringPiece) (opt : Bool) (n i : Nat) (s s1 : StringPiece)
    (v : List Value) (hd : cd s = (true, s1))
    (hv : (cv s1 (v.getD (i + 1) default)).1 = false) :
    (GenericConsumeValuesLoop cv cd opt (n + 1) (i + 1) s v).1 = false := by
  simp only [GenericConsumeValuesLoop, ne_eq, Nat.succ_ne_zero, not_false_eq_true, if_true, hd,
    Bool.true_eq_false, false_and, and_false, if_false, hv]

theorem GenericConsumeValues_of_loop {Value : Type} [Inhabited Value]
    (cv : StringPiece → Value → Bool × StringPiece × Value)
    (cd : StringPiece → Bool × StringPiece) (opt : Bool) (count : Nat) (s : StringPiece)
    (v vs : List Value) (l : List Char) (hl : l <:+ s.view)
    (h : GenericConsumeValuesLoop cv cd opt count 0 s v = (true, ⟨l, s.rest⟩, vs)) :
    GenericConsumeValues cv cd s count v opt = (true, ⟨l, s.rest⟩, vs) := by
  unfold GenericConsumeValues
  rw [h]
  dsimp only
  rw [if_pos rfl, Advance_beginDiff_of_isSuffix s l hl]

theorem GenericConsumeValues_of_loop_false {Value : Type} [Inhabited Value]
    (cv : StringPiece → Value → Bool × StringPiece × Value)
    (cd : StringPiece → Bool × StringPiece) (opt : Bool) (count : Nat) (s : StringPiece)
    (v : List Value) (h : (GenericConsumeValuesLoop cv cd opt count 0 s v).1 = false) :
    (GenericConsumeValues cv cd s count v opt).1 = false ∧
    (GenericConsumeValues cv cd s count v opt).2.1 = s := by
  unfold GenericConsumeValues
  dsimp only
  rw [h]
  exact ⟨rfl, rfl⟩

theorem GenericConsumeValuesLoop_length {Value : Type} [Inhabited Value]
    (cv : StringPiece → Value → Bool × StringPiece × Value)
    (cd : StringPiece → Bool × StringPiece) (opt : Bool) :
    ∀ (n i : Nat) (s : StringPiece) (v : List Value),
    (GenericConsumeValuesLoop cv cd opt n i s v).2.2.length = v.length := by
  intro n
  induction n with
  | zero => intro i s v; rfl
  | succ n ih =>
    intro i s v
    simp only [GenericConsumeValuesLoop]
    split_ifs <;> first | rfl | (rw [ih]; simp) | simp

theorem GenericConsumeValues_length {Value : Type} [Inhabited Value]
    (cv : StringPiece → Value → Bool × StringPiece × Value)
    (cd : StringPiece → Bool × StringPiece) (opt : Bool) (count : Nat) (s : StringPiece)
    (v : List Value) : (GenericConsumeValues cv cd s count v opt).2.2.length = v.length := by
  unfold GenericConsumeValues
  dsimp only
  split_ifs <;> exact GenericConsumeValuesLoop_length cv cd opt count 0 s v

theorem Loop_three {Value : Type} [Inhabited Value]
    (cv : StringPiece → Value → Bool × StringPiece × Value)
    (cd : StringPiece → Bool × StringPiece) (opt : Bool) (s s1 s2 s3 s4 s5 : StringPiece)
    (v : List Value) (x y z : Value)
    (h0 : ∀ n, cv s n = (true, s1, x)) (hd1 : cd s1 = (true, s2))
    (h1 : ∀ n, cv s2 n = (true, s3, y)) (hd2 : cd s3 = (true, s4))
    (h2 : ∀ n, cv s4 n = (true, s5, z)) :
    GenericConsumeValuesLoop cv cd opt 3 0 s v = (true, s5, ((v.set 0 x).set 1 y).set 2 z) :=
  (Loop_first cv cd opt 2 s s1 v x (h0 _)).trans
    ((Loop_next cv cd opt 1 0 s1 s2 s3 (v.set 0 x) y hd1 (h1 _)).trans
      ((Loop_next cv cd opt 0 1 s3 s4 s5 ((v.set 0 x).set 1 y) z hd2 (h2 _)).trans rfl))

theorem Loop_three_fail0 {Value : Type} [Inhabited Value]
    (cv : StringPiece → Value → Bool × StringPiece × Value)
    (cd : StringPiece → Bool × StringPiece) (opt : Bool) (s : StringPiece) (v : List Value)
    (h0 : ∀ n, (cv s n).1 = false) :
    (GenericConsumeValuesLoop cv cd opt 3 0 s v).1 = false :=
  Loop_no_first cv cd opt 2 s v (h0 _)

theorem Loop_three_fail_d1 {Value : Type} [Inhabited Value]
    (cv : StringPiece → Value → Bool × StringPiece × Value)
    (cd : StringPiece → Bool × StringPiece) (s s1 : StringPiece) (v : List Value) (x : Value)
    (h0 : ∀ n, cv s n = (true, s1, x)) (hd1 : (cd s1).1 = false) :
    (GenericConsumeValuesLoop cv cd false 3 0 s v).1 = false := by
  rw [Loop_first cv cd false 2 s s1 v x (h0 _)]
  exact Loop_no_delimiter cv cd 1 0 s1 _ hd1

theorem Loop_three_fail1 {Value : Type} [Inhabited Value]
    (cv : StringPiece → Value → Bool × StringPiece × Value)
    (cd : StringPiece → Bool × StringPiece) (opt : Bool) (s s1 s2 : StringPiece)
    (v : List Value) (x : Value)
    (h0 : ∀ n, cv s n = (true, s1, x)) (hd1 : cd s1 = (true, s2))
    (h1 : ∀ n, (cv s2 n).1 = false) :
    (GenericConsumeValuesLoop cv cd opt 3 0 s v).1 = false := by
  rw [Loop_first cv cd opt 2 s s1 v x (h0 _)]
  exact Loop_no_value cv cd opt 1 0 s1 s2 _ hd1 (h1 _)

theorem Loop_three_fail_d2 {Value : Type} [Inhabited Value]
    (cv : StringPiece → Value → Bool × StringPiece × Value)
    (cd : StringPiece → Bool × StringPiece) (s s1 s2 s3 : StringPiece)
    (v : List Value) (x y : Value)
    (h0 : ∀ n, cv s n = (true, s1, x)) (hd1 : cd s1 = (true, s2))
    (h1 : ∀ n, cv s2 n = (true, s3, y)) (hd2 : (cd s3).1 = false) :
    (GenericConsumeValuesLoop cv cd false 3 0 s v).1 = false := by
  rw [Loop_first cv cd false 2 s s1 v x (h0 _),
    Loop_next cv cd false 1 0 s1 s2 s3 (v.set 0 x) y hd1 (h1 _)]
  exact Loop_no_delimiter cv cd 0 1 s3 _ hd2

theorem Loop_three_fail2 {Value : Type} [Inhabited Value]
    (cv : StringPiece → Value → Bool × StringPiece × Value)
    (cd : StringPiece → Bool × StringPiece) (opt : Bool) (s s1 s2 s3 s4 : StringPiece)
    (v : List Value) (x y : Value)
    (h0 : ∀ n, cv s n = (true, s1, x)) (hd1 : cd s1 = (true, s2))
    (h1 : ∀ n, cv s2 n = (true, s3, y)) (hd2 : cd s3 = (true, s4))
    (h2 : ∀ n, (cv s4 n).1 = false) :
    (GenericConsumeValuesLoop cv cd opt 3 0 s v).1 = false := by
  rw [Loop_first cv cd opt 2 s s1 v x (h0 _),
    Loop_next cv cd opt 1 0 s1 s2 s3 (v.set 0 x) y hd1 (h1 _)]
  exact Loop_no_value cv cd opt 0 1 s3 s4 _ hd2 (h2 _)

theorem set_three {Value : Type} (v : List Value) (x y z : Value) (h : v.length = 3) :
    ((v.set 0 x).set 1 y).set 2 z = [x, y, z] := by
  rcases v with _ | ⟨a, _ | ⟨b, _ | ⟨c, _ | ⟨d, t⟩⟩⟩⟩ <;> simp at h ⊢

theorem not_digit_percent (u : List Char) : ∀ x, ('%' :: u).head? = some x →
    isDecimalDigit x = false := by
  intro x hx
  simp only [List.head?_cons, Option.some.injEq] at hx
  rw [← hx]; decide

theorem not_digit_ws_comma (w u : List Char) (hw : ∀ x ∈ w, isspace x = true) :
    ∀ x, (w ++ ',' :: u).head? = some x → isDecimalDigit x = false :=
  head_ws_stop (fun x => isDecimalDigit x = false) w ',' u hw isDecimalDigit_of_isspace
    (by decide)

theorem not_percent_of_isspace (x : Char) (h : isspace x = true) : x ≠ '%' := by
  rintro rfl
  revert h; decide

theorem not_digit_percent_ws (w u : List Char) (c : Char) (hw : ∀ x ∈ w, isspace x = true)
    (hc : isDecimalDigit c = false ∧ c ≠ '%') :
    ∀ x, (w ++ c :: u).head? = some x → isDecimalDigit x = false ∧ x ≠ '%' :=
  head_ws_stop (fun x => isDecimalDigit x = false ∧ x ≠ '%') w c u hw
    (fun x hx => ⟨isDecimalDigit_of_isspace x hx, not_percent_of_isspace x hx⟩) hc

theorem not_space_digit_run (d : Char) (ds u : List Char) (hd : isDecimalDigit d = true) :
    ∀ x, ((d :: ds) ++ u).head? = some x → isspace x = false := by
  intro x hx
  simp only [List.cons_append, List.head?_cons, Option.some.injEq] at hx
  rw [← hx]
  exact isspace_of_isDecimalDigit d hd

theorem percent_no_delimiter (u rest : List Char) :
    (ConsumeNumberDelimiter ⟨'%' :: u, rest⟩).1 = false := by
  rw [ConsumeNumberDelimiter_none ('%' :: u) rest (by
    intro x hx
    simp only [List.head?_cons, Option.some.injEq] at hx
    rw [← hx]
    exact ⟨by decide, by decide⟩)]

/-- The attempt of ConsumeFunctionalColor to read three plain integers. -/
theorem plain_attempt (a0 b0 c0 : Char) (a w1 w2 b w3 w4 c e rest : List Char) (v : List Int)
    (ha0 : isDecimalDigit a0 = true) (ha : ∀ x ∈ a, isDecimalDigit x = true)
    (hb0 : isDecimalDigit b0 = true) (hb : ∀ x ∈ b, isDecimalDigit x = true)
    (hc0 : isDecimalDigit c0 = true) (hc : ∀ x ∈ c, isDecimalDigit x = true)
    (hw1 : ∀ x ∈ w1, isspace x = true) (hw2 : ∀ x ∈ w2, isspace x = true)
    (hw3 : ∀ x ∈ w3, isspace x = true) (hw4 : ∀ x ∈ w4, isspace x = true)
    (he : ∀ x, e.head? = some x → isDecimalDigit x = false) :
    GenericConsumeValuesLoop ConsumeDecimalInt ConsumeNumberDelimiter false 3 0
      ⟨(a0 :: a) ++ (w1 ++ ',' :: (w2 ++ ((b0 :: b) ++ (w3 ++ ',' :: (w4 ++
        ((c0 :: c) ++ e)))))), rest⟩ v =
      (true, ⟨e, rest⟩, ((v.set 0 (digitsValue (a0 :: a))).set 1 (digitsValue (b0 :: b))).set 2
        (digitsValue (c0 :: c))) :=
  Loop_three ConsumeDecimalInt ConsumeNumberDelimiter false _ _ _ _ _ _ v _ _ _
    (fun n => ConsumeDecimalInt_run a0 a _ rest n ha0 ha (not_digit_ws_comma w1 _ hw1))
    (ConsumeNumberDelimiter_comma w1 w2 _ rest hw1 hw2 (not_space_digit_run b0 b _ hb0))
    (fun n => ConsumeDecimalInt_run b0 b _ rest n hb0 hb (not_digit_ws_comma w3 _ hw3))
    (ConsumeNumberDelimiter_comma w3 w4 _ rest hw3 hw4 (not_space_digit_run c0 c _ hc0))
    (fun n => ConsumeDecimalInt_run c0 c e rest n hc0 hc he)

theorem plain_attempt_percent_first (a0 : Char) (a u rest : List Char) (v : List Int)
    (ha0 : isDecimalDigit a0 = true) (ha : ∀ x ∈ a, isDecimalDigit x = true) :
    (GenericConsumeValuesLoop ConsumeDecimalInt ConsumeNumberDelimiter false 3 0
      ⟨(a0 :: a) ++ '%' :: u, rest⟩ v).1 = false :=
  Loop_three_fail_d1 ConsumeDecimalInt ConsumeNumberDelimiter _ _ v _
    (fun n => ConsumeDecimalInt_run a0 a _ rest n ha0 ha (not_digit_percent _))
    (percent_no_delimiter u rest)

theorem plain_attempt_percent_second (a0 b0 : Char) (a w1 w2 b u rest : List Char)
    (v : List Int)
    (ha0 : isDecimalDigit a0 = true) (ha : ∀ x ∈ a, isDecimalDigit x = true)
    (hb0 : isDecimalDigit b0 = true) (hb : ∀ x ∈ b, isDecimalDigit x = true)
    (hw1 : ∀ x ∈ w1, isspace x = true) (hw2 : ∀ x ∈ w2, isspace x = true) :
    (GenericConsumeValuesLoop ConsumeDecimalInt ConsumeNumberDelimiter false 3 0
      ⟨(a0 :: a) ++ (w1 ++ ',' :: (w2 ++ ((b0 :: b) ++ '%' :: u))), rest⟩ v).1 = false :=
  Loop_three_fail_d2 ConsumeDecimalInt ConsumeNumberDelimiter _ _ _ _ v _ _
    (fun n => ConsumeDecimalInt_run a0 a _ rest n ha0 ha (not_digit_ws_comma w1 _ hw1))
    (ConsumeNumberDelimiter_comma w1 w2 _ rest hw1 hw2 (not_space_digit_run b0 b _ hb0))
    (fun n => ConsumeDecimalInt_run b0 b _ rest n hb0 hb (not_digit_percent _))
    (percent_no_delimiter u rest)

/-- The attempt of ConsumeFunctionalColor to read three percentages. -/
theorem percent_attempt (a0 b0 c0 : Char) (a w1 w2 b w3 w4 c e rest : List Char) (v : List Int)
    (ha0 : isDecimalDigit a0 = true) (ha : ∀ x ∈ a, isDecimalDigit x = true)
    (hb0 : isDecimalDigit b0 = true) (hb : ∀ x ∈ b, isDecimalDigit x = true)
    (hc0 : isDecimalDigit c0 = true) (hc : ∀ x ∈ c, isDecimalDigit x = true)
    (hw1 : ∀ x ∈ w1, isspace x = true) (hw2 : ∀ x ∈ w2, isspace x = true)
    (hw3 : ∀ x ∈ w3, isspace x = true) (hw4 : ∀ x ∈ w4, isspace x = true) :
    GenericConsumeValuesLoop ConsumeDecimalIntPercent ConsumeNumberDelimiter false 3 0
      ⟨(a0 :: a) ++ '%' :: (w1 ++ ',' :: (w2 ++ ((b0 :: b) ++ '%' :: (w3 ++ ',' :: (w4 ++
        ((c0 :: c) ++ '%' :: e)))))), rest⟩ v =
      (true, ⟨e, rest⟩, ((v.set 0 (digitsValue (a0 :: a))).set 1 (digitsValue (b0 :: b))).set 2
        (digitsValue (c0 :: c))) :=
  Loop_three ConsumeDecimalIntPercent ConsumeNumberDelimiter false _ _ _ _ _ _ v _ _ _
    (fun n => ConsumeDecimalIntPercent_run a0 a _ rest n ha0 ha)
    (ConsumeNumberDelimiter_comma w1 w2 _ rest hw1 hw2 (not_space_digit_run b0 b _ hb0))
    (fun n => ConsumeDecimalIntPercent_run b0 b _ rest n hb0 hb)
    (ConsumeNumberDelimiter_comma w3 w4 _ rest hw3 hw4 (not_space_digit_run c0 c _ hc0))
    (fun n => ConsumeDecimalIntPercent_run c0 c e rest n hc0 hc)

theorem percent_attempt_plain_first (a0 : Char) (a w u rest : List Char) (v : List Int)
    (x : Char) (ha0 : isDecimalDigit a0 = true) (ha : ∀ x ∈ a, isDecimalDigit x = true)
    (hw : ∀ x ∈ w, isspace x = true) (hx : isDecimalDigit x = false ∧ x ≠ '%') :
    (GenericConsumeValuesLoop ConsumeDecimalIntPercent ConsumeNumberDelimiter false 3 0
      ⟨(a0 :: a) ++ (w ++ x :: u), rest⟩ v).1 = false :=
  Loop_three_fail0 ConsumeDecimalIntPercent ConsumeNumberDelimiter false _ v
    (fun n => ConsumeDecimalIntPercent_no_percent a0 a _ rest n ha0 ha
      (not_digit_percent_ws w u x hw hx))

theorem percent_attempt_plain_second (a0 b0 : Char) (a w1 w2 b w u rest : List Char)
    (v : List Int) (x : Char)
    (ha0 : isDecimalDigit a0 = true) (ha : ∀ x ∈ a, isDecimalDigit x = true)
    (hb0 : isDecimalDigit b0 = true) (hb : ∀ x ∈ b, isDecimalDigit x = true)
    (hw1 : ∀ x ∈ w1, isspace x = true) (hw2 : ∀ x ∈ w2, isspace x = true)
    (hw : ∀ x ∈ w, isspace x = true) (hx : isDecimalDigit x = false ∧ x ≠ '%') :
    (GenericConsumeValuesLoop ConsumeDecimalIntPercent ConsumeNumberDelimiter false 3 0
      ⟨(a0 :: a) ++ '%' :: (w1 ++ ',' :: (w2 ++ ((b0 :: b) ++ (w ++ x :: u)))), rest⟩ v).1
      = false :=
  Loop_three_fail1 ConsumeDecimalIntPercent ConsumeNumberDelimiter false _ _ _ v _
    (fun n => ConsumeDecimalIntPercent_run a0 a _ rest n ha0 ha)
    (ConsumeNumberDelimiter_comma w1 w2 _ rest hw1 hw2 (not_space_digit_run b0 b _ hb0))
    (fun n => ConsumeDecimalIntPercent_no_percent b0 b _ rest n hb0 hb
      (not_digit_percent_ws w u x hw hx))

theorem percent_attempt_plain_third (a0 b0 c0 : Char) (a w1 w2 b w3 w4 c w u rest : List Char)
    (v : List Int) (x : Char)
    (ha0 : isDecimalDigit a0 = true) (ha : ∀ x ∈ a, isDecimalDigit x = true)
    (hb0 : isDecimalDigit b0 = true) (hb : ∀ x ∈ b, isDecimalDigit x = true)
    (hc0 : isDecimalDigit c0 = true) (hc : ∀ x ∈ c, isDecimalDigit x = true)
    (hw1 : ∀ x ∈ w1, isspace x = true) (hw2 : ∀ x ∈ w2, isspace x = true)
    (hw3 : ∀ x ∈ w3, isspace x = true) (hw4 : ∀ x ∈ w4, isspace x = true)
    (hw : ∀ x ∈ w, isspace x = true) (hx : isDecimalDigit x = false ∧ x ≠ '%') :
    (GenericConsumeValuesLoop ConsumeDecimalIntPercent ConsumeNumberDelimiter false 3 0
      ⟨(a0 :: a) ++ '%' :: (w1 ++ ',' :: (w2 ++ ((b0 :: b) ++ '%' :: (w3 ++ ',' :: (w4 ++
        ((c0 :: c) ++ (w ++ x :: u))))))), rest⟩ v).1 = false :=
  Loop_three_fail2 ConsumeDecimalIntPercent ConsumeNumberDelimiter false _ _ _ _ _ v _ _
    (fun n => ConsumeDecimalIntPercent_run a0 a _ rest n ha0 ha)
    (ConsumeNumberDelimiter_comma w1 w2 _ rest hw1 hw2 (not_space_digit_run b0 b _ hb0))
    (fun n => ConsumeDecimalIntPercent_run b0 b _ rest n hb0 hb)
    (ConsumeNumberDelimiter_comma w3 w4 _ rest hw3 hw4 (not_space_digit_run c0 c _ hc0))
    (fun n => ConsumeDecimalIntPercent_no_percent c0 c _ rest n hc0 hc
      (not_digit_percent_ws w u x hw hx))

theorem ConsumeString_rgb (x rest : List Char) :
    ConsumeString ⟨"rgb(".data ++ x, rest⟩ "rgb(".data false = (true, ⟨x, rest⟩) := by
  have hl : ¬ (StringPiece.length ⟨"rgb(".data ++ x, rest⟩ < "rgb(".data.length) := by
    simp [StringPiece.length]
  have ht : List.take "rgb(".data.length ("rgb(".data ++ x) = "rgb(".data :=
    List.take_left _ _
  unfold ConsumeString
  rw [if_neg hl]
  dsimp only
  rw [ht]
  simp only [Bool.false_eq_true, if_false, decide_True, if_true]
  rw [Advance_le _ _ (by simp)]
  dsimp only
  rw [List.drop_left]

theorem ConsumeFunctionalColorClose_ok (s : StringPiece) (pre w tail : List Char)
    (rgb : RgbColor) (hs : s.view = pre ++ (w ++ ')' :: tail))
    (hw : ∀ x ∈ w, isspace x = true) :
    ConsumeFunctionalColorClose s ⟨w ++ ')' :: tail, s.rest⟩ rgb = (true, ⟨tail, s.rest⟩, rgb) := by
  have h1 : (ConsumeWhitespace ⟨w ++ ')' :: tail, s.rest⟩).2 = ⟨')' :: tail, s.rest⟩ :=
    ConsumeWhitespace_run w _ _ hw (by
      intro x hx
      simp only [List.head?_cons, Option.some.injEq] at hx
      rw [← hx]; decide)
  have h2 : ConsumeString ⟨')' :: tail, s.rest⟩ ")".data true = (true, ⟨tail, s.rest⟩) := by
    simp [ConsumeString, StringPiece.length, StringPiece.Advance]
  unfold ConsumeFunctionalColorClose
  dsimp only
  rw [h1, h2]
  dsimp only
  rw [if_neg (by simp)]
  have := Advance_past_prefix s (pre ++ (w ++ [')'])) tail (by rw [hs]; simp)
  show (true, s.Advance (s.length - tail.length), rgb) = _
  rw [this]

theorem ConsumeFunctionalColorClose_percent (s : StringPiece) (u rest : List Char)
    (rgb : RgbColor) :
    ConsumeFunctionalColorClose s ⟨'%' :: u, rest⟩ rgb = (false, s, rgb) := by
  have h1 : (ConsumeWhitespace ⟨'%' :: u, rest⟩).2 = ⟨'%' :: u, rest⟩ :=
    ConsumeWhitespace_run [] _ _ (by simp) (by
      intro x hx
      simp only [List.head?_cons, Option.some.injEq] at hx
      rw [← hx]; decide)
  have h2 : (ConsumeString ⟨'%' :: u, rest⟩ ")".data true).1 = false := by
    simp [ConsumeString, StringPiece.length]
  unfold ConsumeFunctionalColorClose
  dsimp only
  rw [h1, if_pos h2]

theorem ConsumeFunctionalColor_start (x w0 t rest : List Char) (rgb : RgbColor)
    (hx : x = "rgb(".data ++ (w0 ++ t)) (hw0 : ∀ c ∈ w0, isspace c = true)
    (ht : ∀ c, t.head? = some c → isspace c = false) :
    ConsumeFunctionalColor ⟨x, rest⟩ rgb =
      if (GenericConsumeValues ConsumeDecimalInt ConsumeNumberDelimiter ⟨t, rest⟩ 3
          [0, 0, 0] false).1 = true then
        ConsumeFunctionalColorClose ⟨x, rest⟩
          (GenericConsumeValues ConsumeDecimalInt ConsumeNumberDelimiter ⟨t, rest⟩ 3
            [0, 0, 0] false).2.1
          (RgbColor.make
            (((GenericConsumeValues ConsumeDecimalInt ConsumeNumberDelimiter ⟨t, rest⟩ 3
              [0, 0, 0] false).2.2.getD 0 0 : CGFloat) / 255)
            (((GenericConsumeValues ConsumeDecimalInt ConsumeNumberDelimiter ⟨t, rest⟩ 3
              [0, 0, 0] false).2.2.getD 1 0 : CGFloat) / 255)
            (((GenericConsumeValues ConsumeDecimalInt ConsumeNumberDelimiter ⟨t, rest⟩ 3
              [0, 0, 0] false).2.2.getD 2 0 : CGFloat) / 255))
      else
        if (GenericConsumeValues ConsumeDecimalIntPercent ConsumeNumberDelimiter
            (GenericConsumeValues ConsumeDecimalInt ConsumeNumberDelimiter ⟨t, rest⟩ 3
              [0, 0, 0] false).2.1 3
            (GenericConsumeValues ConsumeDecimalInt ConsumeNumberDelimiter ⟨t, rest⟩ 3
              [0, 0, 0] false).2.2 false).1 = true then
          ConsumeFunctionalColorClose ⟨x, rest⟩
            (GenericConsumeValues ConsumeDecimalIntPercent ConsumeNumberDelimiter
              (GenericConsumeValues ConsumeDecimalInt ConsumeNumberDelimiter ⟨t, rest⟩ 3
                [0, 0, 0] false).2.1 3
              (GenericConsumeValues ConsumeDecimalInt ConsumeNumberDelimiter ⟨t, rest⟩ 3
                [0, 0, 0] false).2.2 false).2.1
            (RgbColor.make
              (((GenericConsumeValues ConsumeDecimalIntPercent ConsumeNumberDelimiter
                (GenericConsumeValues ConsumeDecimalInt ConsumeNumberDelimiter ⟨t, rest⟩ 3
                  [0, 0, 0] false).2.1 3
                (GenericConsumeValues ConsumeDecimalInt ConsumeNumberDelimiter ⟨t, rest⟩ 3
                  [0, 0, 0] false).2.2 false).2.2.getD 0 0 : CGFloat) / 100)
              (((GenericConsumeValues ConsumeDecimalIntPercent ConsumeNumberDelimiter
                (GenericConsumeValues ConsumeDecimalInt ConsumeNumberDelimiter ⟨t, rest⟩ 3
                  [0, 0, 0] false).2.1 3
                (GenericConsumeValues ConsumeDecimalInt ConsumeNumberDelimiter ⟨t, rest⟩ 3
                  [0, 0, 0] false).2.2 false).2.2.getD 1 0 : CGFloat) / 100)
              (((GenericConsumeValues ConsumeDecimalIntPercent ConsumeNumberDelimiter
                (GenericConsumeValues ConsumeDecimalInt ConsumeNumberDelimiter ⟨t, rest⟩ 3
                  [0, 0, 0] false).2.1 3
                (GenericConsumeValues ConsumeDecimalInt ConsumeNumberDelimiter ⟨t, rest⟩ 3
                  [0, 0, 0] false).2.2 false).2.2.getD 2 0 : CGFloat) / 100))
        else (false, ⟨x, rest⟩, rgb) := by
  subst hx
  unfold ConsumeFunctionalColor
  dsimp only
  rw [ConsumeString_rgb]
  dsimp only
  rw [if_neg (by simp), ConsumeWhitespace_run w0 t rest hw0 ht]

theorem suf_app {l y : List Char} (x : List Char) (h : l <:+ y) : l <:+ x ++ y :=
  h.trans (List.suffix_append x y)

theorem suf_cons {l y : List Char} (c : Char) (h : l <:+ y) : l <:+ c :: y :=
  h.trans (List.suffix_cons c y)

theorem not_digit_ws_close (w u : List Char) (hw : ∀ x ∈ w, isspace x = true) :
    ∀ x, (w ++ ')' :: u).head? = some x → isDecimalDigit x = false :=
  head_ws_stop (fun x => isDecimalDigit x = false) w ')' u hw isDecimalDigit_of_isspace
    (by decide)

theorem getD_three (x y z : Int) :
    ([x, y, z] : List Int).getD 0 0 = x ∧ ([x, y, z] : List Int).getD 1 0 = y ∧
      ([x, y, z] : List Int).getD 2 0 = z := ⟨rfl, rfl, rfl⟩

theorem functional_of_plain (x w0 t e rest : List Char) (rgb : RgbColor) (vs : List Int)
    (hx : x = "rgb(".data ++ (w0 ++ t)) (hw0 : ∀ c ∈ w0, isspace c = true)
    (ht : ∀ c, t.head? = some c → isspace c = false) (he : e <:+ t)
    (hloop : GenericConsumeValuesLoop ConsumeDecimalInt ConsumeNumberDelimiter false 3 0
      ⟨t, rest⟩ [0, 0, 0] = (true, ⟨e, rest⟩, vs)) :
    ConsumeFunctionalColor ⟨x, rest⟩ rgb =
      ConsumeFunctionalColorClose ⟨x, rest⟩ ⟨e, rest⟩
        (RgbColor.make ((vs.getD 0 0 : CGFloat) / 255) ((vs.getD 1 0 : CGFloat) / 255)
          ((vs.getD 2 0 : CGFloat) / 255)) := by
  have hints := GenericConsumeValues_of_loop ConsumeDecimalInt ConsumeNumberDelimiter false 3
    ⟨t, rest⟩ [0, 0, 0] vs e he hloop
  dsimp only at hints
  rw [ConsumeFunctionalColor_start x w0 t rest rgb hx hw0 ht, hints]
  dsimp only
  rw [if_pos rfl]

theorem functional_of_percent (x w0 t e rest : List Char) (rgb : RgbColor) (p q r : Int)
    (hx : x = "rgb(".data ++ (w0 ++ t)) (hw0 : ∀ c ∈ w0, isspace c = true)
    (ht : ∀ c, t.head? = some c → isspace c = false) (he : e <:+ t)
    (hplain : (GenericConsumeValuesLoop ConsumeDecimalInt ConsumeNumberDelimiter false 3 0
      ⟨t, rest⟩ [0, 0, 0]).1 = false)
    (hloop : ∀ v : List Int, v.length = 3 →
      GenericConsumeValuesLoop ConsumeDecimalIntPercent ConsumeNumberDelimiter false 3 0
        ⟨t, rest⟩ v = (true, ⟨e, rest⟩, [p, q, r])) :
    ConsumeFunctionalColor ⟨x, rest⟩ rgb =
      ConsumeFunctionalColorClose ⟨x, rest⟩ ⟨e, rest⟩
        (RgbColor.make ((p : CGFloat) / 100) ((q : CGFloat) / 100) ((r : CGFloat) / 100)) := by
  obtain ⟨h1, h2⟩ := GenericConsumeValues_of_loop_false ConsumeDecimalInt ConsumeNumberDelimiter
    false 3 ⟨t, rest⟩ [0, 0, 0] hplain
  have h3 := GenericConsumeValues_length ConsumeDecimalInt ConsumeNumberDelimiter false 3
    ⟨t, rest⟩ [0, 0, 0]
  rw [ConsumeFunctionalColor_start x w0 t rest rgb hx hw0 ht]
  generalize GenericConsumeValues ConsumeDecimalInt ConsumeNumberDelimiter ⟨t, rest⟩ 3
    [0, 0, 0] false = res at h1 h2 h3 ⊢
  obtain ⟨r1, r2, v⟩ := res
  dsimp only at h1 h2 h3 ⊢
  subst h1 h2
  have hp := GenericConsumeValues_of_loop ConsumeDecimalIntPercent ConsumeNumberDelimiter false 3
    ⟨t, rest⟩ v [p, q, r] e he (hloop v h3)
  dsimp only at hp
  rw [if_neg (by simp), hp]
  dsimp only
  rw [if_pos rfl]
  rfl

theorem functional_of_neither (x w0 t rest : List Char) (rgb : RgbColor)
    (hx : x = "rgb(".data ++ (w0 ++ t)) (hw0 : ∀ c ∈ w0, isspace c = true)
    (ht : ∀ c, t.head? = some c → isspace c = false)
    (hplain : (GenericConsumeValuesLoop ConsumeDecimalInt ConsumeNumberDelimiter false 3 0
      ⟨t, rest⟩ [0, 0, 0]).1 = false)
    (hloop : ∀ v : List Int,
      (GenericConsumeValuesLoop ConsumeDecimalIntPercent ConsumeNumberDelimiter false 3 0
        ⟨t, rest⟩ v).1 = false) :
    ConsumeFunctionalColor ⟨x, rest⟩ rgb = (false, ⟨x, rest⟩, rgb) := by
  obtain ⟨h1, h2⟩ := GenericConsumeValues_of_loop_false ConsumeDecimalInt ConsumeNumberDelimiter
    false 3 ⟨t, rest⟩ [0, 0, 0] hplain
  rw [ConsumeFunctionalColor_start x w0 t rest rgb hx hw0 ht]
  generalize GenericConsumeValues ConsumeDecimalInt ConsumeNumberDelimiter ⟨t, rest⟩ 3
    [0, 0, 0] false = res at h1 h2 ⊢
  obtain ⟨r1, r2, v⟩ := res
  dsimp only at h1 h2 ⊢
  subst h1 h2
  obtain ⟨h4, _⟩ := GenericConsumeValues_of_loop_false ConsumeDecimalIntPercent
    ConsumeNumberDelimiter false 3 ⟨t, rest⟩ v (hloop v)
  rw [if_neg (by simp), if_neg (by simp [h4])]

theorem functional_plain (a0 b0 c0 : Char) (w0 a w1 w2 b w3 w4 c w5 tail rest : List Char)
    (rgb : RgbColor)
    (ha0 : isDecimalDigit a0 = true) (ha : ∀ x ∈ a, isDecimalDigit x = true)
    (hb0 : isDecimalDigit b0 = true) (hb : ∀ x ∈ b, isDecimalDigit x = true)
    (hc0 : isDecimalDigit c0 = true) (hc : ∀ x ∈ c, isDecimalDigit x = true)
    (hw0 : ∀ x ∈ w0, isspace x = true)
    (hw1 : ∀ x ∈ w1, isspace x = true) (hw2 : ∀ x ∈ w2, isspace x = true)
    (hw3 : ∀ x ∈ w3, isspace x = true) (hw4 : ∀ x ∈ w4, isspace x = true)
    (hw5 : ∀ x ∈ w5, isspace x = true) :
    ConsumeFunctionalColor
      ⟨rgbText w0 (a0 :: a) w1 w2 (b0 :: b) w3 w4 (c0 :: c) w5 tail false false false, rest⟩ rgb =
      (true, ⟨tail, rest⟩, RgbColor.make ((digitsValue (a0 :: a) : CGFloat) / 255)
        ((digitsValue (b0 :: b) : CGFloat) / 255) ((digitsValue (c0 :: c) : CGFloat) / 255)) := by
  have hloop := plain_attempt a0 b0 c0 a w1 w2 b w3 w4 c (w5 ++ ')' :: tail) rest [0, 0, 0]
    ha0 ha hb0 hb hc0 hc hw1 hw2 hw3 hw4 (not_digit_ws_close w5 tail hw5)
  have hints := GenericConsumeValues_of_loop ConsumeDecimalInt ConsumeNumberDelimiter false 3
    ⟨(a0 :: a) ++ (w1 ++ ',' :: (w2 ++ ((b0 :: b) ++ (w3 ++ ',' :: (w4 ++
        ((c0 :: c) ++ (w5 ++ ')' :: tail))))))), rest⟩ [0, 0, 0] _ (w5 ++ ')' :: tail)
    (suf_app _ (suf_app _ (suf_cons _ (suf_app _ (suf_app _ (suf_app _ (suf_cons _ (suf_app _
      (suf_app _ (List.suffix_refl _)))))))))) hloop
  dsimp only at hints
  rw [ConsumeFunctionalColor_start
      (rgbText w0 (a0 :: a) w1 w2 (b0 :: b) w3 w4 (c0 :: c) w5 tail false false false) w0
      ((a0 :: a) ++ (w1 ++ ',' :: (w2 ++ ((b0 :: b) ++ (w3 ++ ',' :: (w4 ++
        ((c0 :: c) ++ (w5 ++ ')' :: tail))))))))
      rest rgb rfl hw0 (not_space_digit_run a0 a _ ha0),
    hints]
  dsimp only
  rw [if_pos rfl]
  exact ConsumeFunctionalColorClose_ok
    ⟨rgbText w0 (a0 :: a) w1 w2 (b0 :: b) w3 w4 (c0 :: c) w5 tail false false false, rest⟩
    ("rgb(".data ++ (w0 ++ ((a0 :: a) ++ (w1 ++ ',' :: (w2 ++ ((b0 :: b) ++ (w3 ++ ',' :: (w4 ++
        (c0 :: c)))))))))
    w5 tail _ (by simp [rgbText]) hw5

theorem percent_attempt_three (a0 b0 c0 : Char) (a w1 w2 b w3 w4 c e rest : List Char)
    (v : List Int) (hv : v.length = 3)
    (ha0 : isDecimalDigit a0 = true) (ha : ∀ x ∈ a, isDecimalDigit x = true)
    (hb0 : isDecimalDigit b0 = true) (hb : ∀ x ∈ b, isDecimalDigit x = true)
    (hc0 : isDecimalDigit c0 = true) (hc : ∀ x ∈ c, isDecimalDigit x = true)
    (hw1 : ∀ x ∈ w1, isspace x = true) (hw2 : ∀ x ∈ w2, isspace x = true)
    (hw3 : ∀ x ∈ w3, isspace x = true) (hw4 : ∀ x ∈ w4, isspace x = true) :
    GenericConsumeValuesLoop ConsumeDecimalIntPercent ConsumeNumberDelimiter false 3 0
      ⟨(a0 :: a) ++ '%' :: (w1 ++ ',' :: (w2 ++ ((b0 :: b) ++ '%' :: (w3 ++ ',' :: (w4 ++
        ((c0 :: c) ++ '%' :: e)))))), rest⟩ v =
      (true, ⟨e, rest⟩, [digitsValue (a0 :: a), digitsValue (b0 :: b), digitsValue (c0 :: c)]) := by
  rw [percent_attempt a0 b0 c0 a w1 w2 b w3 w4 c e rest v ha0 ha hb0 hb hc0 hc hw1 hw2 hw3 hw4,
    set_three v _ _ _ hv]

theorem not_digit_not_percent_comma : isDecimalDigit ',' = false ∧ ',' ≠ '%' :=
  ⟨by decide, by decide⟩

theorem not_digit_not_percent_close : isDecimalDigit ')' = false ∧ ')' ≠ '%' :=
  ⟨by decide, by decide⟩

theorem functional_plain_plain_percent (a0 b0 c0 : Char) (w0 a w1 w2 b w3 w4 c w5 tail rest : List Char)
    (rgb : RgbColor)
    (ha0 : isDecimalDigit a0 = true) (ha : ∀ x ∈ a, isDecimalDigit x = true)
    (hb0 : isDecimalDigit b0 = true) (hb : ∀ x ∈ b, isDecimalDigit x = true)
    (hc0 : isDecimalDigit c0 = true) (hc : ∀ x ∈ c, isDecimalDigit x = true)
    (hw0 : ∀ x ∈ w0, isspace x = true)
    (hw1 : ∀ x ∈ w1, isspace x = true) (hw2 : ∀ x ∈ w2, isspace x = true)
    (hw3 : ∀ x ∈ w3, isspace x = true) (hw4 : ∀ x ∈ w4, isspace x = true)
    (hw5 : ∀ x ∈ w5, isspace x = true) :
    (ConsumeFunctionalColor ⟨rgbText w0 (a0 :: a) w1 w2 (b0 :: b) w3 w4 (c0 :: c) w5 tail false false true, rest⟩ rgb).1 = false := by
  rw [functional_of_plain (rgbText w0 (a0 :: a) w1 w2 (b0 :: b) w3 w4 (c0 :: c) w5 tail false false true) w0
      ((a0 :: a) ++ (w1 ++ (',' :: (w2 ++ ((b0 :: b) ++ (w3 ++ (',' :: (w4 ++ ((c0 :: c) ++ ('%' :: (w5 ++ (')' :: tail)))))))))))) ('%' :: (w5 ++ (')' :: tail))) rest rgb _ rfl hw0 (not_space_digit_run a0 a _ ha0)
      (suf_app _ (suf_app _ (suf_cons _ (suf_app _ (suf_app _ (suf_app _ (suf_cons _ (suf_app _
        (suf_app _ (List.suffix_refl _))))))))))
      (plain_attempt a0 b0 c0 a w1 w2 b w3 w4 c ('%' :: (w5 ++ (')' :: tail))) rest [0, 0, 0]
        ha0 ha hb0 hb hc0 hc hw1 hw2 hw3 hw4 (not_digit_percent _)),
    ConsumeFunctionalColorClose_percent]

theorem functional_plain_percent_plain (a0 b0 c0 : Char) (w0 a w1 w2 b w3 w4 c w5 tail rest : List Char)
    (rgb : RgbColor)
    (ha0 : isDecimalDigit a0 = true) (ha : ∀ x ∈ a, isDecimalDigit x = true)
    (hb0 : isDecimalDigit b0 = true) (hb : ∀ x ∈ b, isDecimalDigit x = true)
    (hc0 : isDecimalDigit c0 = true) (hc : ∀ x ∈ c, isDecimalDigit x = true)
    (hw0 : ∀ x ∈ w0, isspace x = true)
    (hw1 : ∀ x ∈ w1, isspace x = true) (hw2 : ∀ x ∈ w2, isspace x = true)
    (hw3 : ∀ x ∈ w3, isspace x = true) (hw4 : ∀ x ∈ w4, isspace x = true)
    (hw5 : ∀ x ∈ w5, isspace x = true) :
    (ConsumeFunctionalColor ⟨rgbText w0 (a0 :: a) w1 w2 (b0 :: b) w3 w4 (c0 :: c) w5 tail false true false, rest⟩ rgb).1 = false := by
  rw [functional_of_neither (rgbText w0 (a0 :: a) w1 w2 (b0 :: b) w3 w4 (c0 :: c) w5 tail false true false) w0
      ((a0 :: a) ++ (w1 ++ (',' :: (w2 ++ ((b0 :: b) ++ ('%' :: (w3 ++ (',' :: (w4 ++ ((c0 :: c) ++ (w5 ++ (')' :: tail)))))))))))) rest rgb rfl hw0 (not_space_digit_run a0 a _ ha0)
      (plain_attempt_percent_second a0 b0 a w1 w2 b _ rest [0, 0, 0] ha0 ha hb0 hb hw1 hw2)
      (fun v => percent_attempt_plain_first a0 a w1 _ rest v ',' ha0 ha hw1 not_digit_not_percent_comma)]

theorem functional_plain_percent_percent (a0 b0 c0 : Char) (w0 a w1 w2 b w3 w4 c w5 tail rest : List Char)
    (rgb : RgbColor)
    (ha0 : isDecimalDigit a0 = true) (ha : ∀ x ∈ a, isDecimalDigit x = true)
    (hb0 : isDecimalDigit b0 = true) (hb : ∀ x ∈ b, isDecimalDigit x = true)
    (hc0 : isDecimalDigit c0 = true) (hc : ∀ x ∈ c, isDecimalDigit x = true)
    (hw0 : ∀ x ∈ w0, isspace x = true)
    (hw1 : ∀ x ∈ w1, isspace x = true) (hw2 : ∀ x ∈ w2, isspace x = true)
    (hw3 : ∀ x ∈ w3, isspace x = true) (hw4 : ∀ x ∈ w4, isspace x = true)
    (hw5 : ∀ x ∈ w5, isspace x = true) :
    (ConsumeFunctionalColor ⟨rgbText w0 (a0 :: a) w1 w2 (b0 :: b) w3 w4 (c0 :: c) w5 tail false true true, rest⟩ rgb).1 = false := by
  rw [functional_of_neither (rgbText w0 (a0 :: a) w1 w2 (b0 :: b) w3 w4 (c0 :: c) w5 tail false true true) w0
      ((a0 :: a) ++ (w1 ++ (',' :: (w2 ++ ((b0 :: b) ++ ('%' :: (w3 ++ (',' :: (w4 ++ ((c0 :: c) ++ ('%' :: (w5 ++ (')' :: tail))))))))))))) rest rgb rfl hw0 (not_space_digit_run a0 a _ ha0)
      (plain_attempt_percent_second a0 b0 a w1 w2 b _ rest [0, 0, 0] ha0 ha hb0 hb hw1 hw2)
      (fun v => percent_attempt_plain_first a0 a w1 _ rest v ',' ha0 ha hw1 not_digit_not_percent_comma)]

theorem functional_percent_plain_plain (a0 b0 c0 : Char) (w0 a w1 w2 b w3 w4 c w5 tail rest : List Char)
    (rgb : RgbColor)
    (ha0 : isDecimalDigit a0 = true) (ha : ∀ x ∈ a, isDecimalDigit x = true)
    (hb0 : isDecimalDigit b0 = true) (hb : ∀ x ∈ b, isDecimalDigit x = true)
    (hc0 : isDecimalDigit c0 = true) (hc : ∀ x ∈ c, isDecimalDigit x = true)
    (hw0 : ∀ x ∈ w0, isspace x = true)
    (hw1 : ∀ x ∈ w1, isspace x = true) (hw2 : ∀ x ∈ w2, isspace x = true)
    (hw3 : ∀ x ∈ w3, isspace x = true) (hw4 : ∀ x ∈ w4, isspace x = true)
    (hw5 : ∀ x ∈ w5, isspace x = true) :
    (ConsumeFunctionalColor ⟨rgbText w0 (a0 :: a) w1 w2 (b0 :: b) w3 w4 (c0 :: c) w5 tail true false false, rest⟩ rgb).1 = false := by
  rw [functional_of_neither (rgbText w0 (a0 :: a) w1 w2 (b0 :: b) w3 w4 (c0 :: c) w5 tail true false false) w0
      ((a0 :: a) ++ ('%' :: (w1 ++ (',' :: (w2 ++ ((b0 :: b) ++ (w3 ++ (',' :: (w4 ++ ((c0 :: c) ++ (w5 ++ (')' :: tail)))))))))))) rest rgb rfl hw0 (not_space_digit_run a0 a _ ha0)
      (plain_attempt_percent_first a0 a _ rest [0, 0, 0] ha0 ha)
      (fun v => percent_attempt_plain_second a0 b0 a w1 w2 b w3 _ rest v ',' ha0 ha hb0 hb hw1 hw2 hw3 not_digit_not_percent_comma)]

theorem functional_percent_plain_percent (a0 b0 c0 : Char) (w0 a w1 w2 b w3 w4 c w5 tail rest : List Char)
    (rgb : RgbColor)
    (ha0 : isDecimalDigit a0 = true) (ha : ∀ x ∈ a, isDecimalDigit x = true)
    (hb0 : isDecimalDigit b0 = true) (hb : ∀ x ∈ b, isDecimalDigit x = true)
    (hc0 : isDecimalDigit c0 = true) (hc : ∀ x ∈ c, isDecimalDigit x = true)
    (hw0 : ∀ x ∈ w0, isspace x = true)
    (hw1 : ∀ x ∈ w1, isspace x = true) (hw2 : ∀ x ∈ w2, isspace x = true)
    (hw3 : ∀ x ∈ w3, isspace x = true) (hw4 : ∀ x ∈ w4, isspace x = true)
    (hw5 : ∀ x ∈ w5, isspace x = true) :
    (ConsumeFunctionalColor ⟨rgbText w0 (a0 :: a) w1 w2 (b0 :: b) w3 w4 (c0 :: c) w5 tail true false true, rest⟩ rgb).1 = false := by
  rw [functional_of_neither (rgbText w0 (a0 :: a) w1 w2 (b0 :: b) w3 w4 (c0 :: c) w5 tail true false true) w0
      ((a0 :: a) ++ ('%' :: (w1 ++ (',' :: (w2 ++ ((b0 :: b) ++ (w3 ++ (',' :: (w4 ++ ((c0 :: c) ++ ('%' :: (w5 ++ (')' :: tail))))))))))))) rest rgb rfl hw0 (not_space_digit_run a0 a _ ha0)
      (plain_attempt_percent_first a0 a _ rest [0, 0, 0] ha0 ha)
      (fun v => percent_attempt_plain_second a0 b0 a w1 w2 b w3 _ rest v ',' ha0 ha hb0 hb hw1 hw2 hw3 not_digit_not_percent_comma)]

theorem functional_percent_percent_plain (a0 b0 c0 : Char) (w0 a w1 w2 b w3 w4 c w5 tail rest : List Char)
    (rgb : RgbColor)
    (ha0 : isDecimalDigit a0 = true) (ha : ∀ x ∈ a, isDecimalDigit x = true)
    (hb0 : isDecimalDigit b0 = true) (hb : ∀ x ∈ b, isDecimalDigit x = true)
    (hc0 : isDecimalDigit c0 = true) (hc : ∀ x ∈ c, isDecimalDigit x = true)
    (hw0 : ∀ x ∈ w0, isspace x = true)
    (hw1 : ∀ x ∈ w1, isspace x = true) (hw2 : ∀ x ∈ w2, isspace x = true)
    (hw3 : ∀ x ∈ w3, isspace x = true) (hw4 : ∀ x ∈ w4, isspace x = true)
    (hw5 : ∀ x ∈ w5, isspace x = true) :
    (ConsumeFunctionalColor ⟨rgbText w0 (a0 :: a) w1 w2 (b0 :: b) w3 w4 (c0 :: c) w5 tail true true false, rest⟩ rgb).1 = false := by
  rw [functional_of_neither (rgbText w0 (a0 :: a) w1 w2 (b0 :: b) w3 w4 (c0 :: c) w5 tail true true false) w0
      ((a0 :: a) ++ ('%' :: (w1 ++ (',' :: (w2 ++ ((b0 :: b) ++ ('%' :: (w3 ++ (',' :: (w4 ++ ((c0 :: c) ++ (w5 ++ (')' :: tail))))))))))))) rest rgb rfl hw0 (not_space_digit_run a0 a _ ha0)
      (plain_attempt_percent_first a0 a _ rest [0, 0, 0] ha0 ha)
      (fun v => percent_attempt_plain_third a0 b0 c0 a w1 w2 b w3 w4 c w5 tail rest v ')' ha0 ha hb0 hb hc0 hc hw1 hw2 hw3 hw4 hw5 not_digit_not_percent_close)]

theorem functional_percent_percent_percent (a0 b0 c0 : Char) (w0 a w1 w2 b w3 w4 c w5 tail rest : List Char)
    (rgb : RgbColor)
    (ha0 : isDecimalDigit a0 = true) (ha : ∀ x ∈ a, isDecimalDigit x = true)
    (hb0 : isDecimalDigit b0 = true) (hb : ∀ x ∈ b, isDecimalDigit x = true)
    (hc0 : isDecimalDigit c0 = true) (hc : ∀ x ∈ c, isDecimalDigit x = true)
    (hw0 : ∀ x ∈ w0, isspace x = true)
    (hw1 : ∀ x ∈ w1, isspace x = true) (hw2 : ∀ x ∈ w2, isspace x = true)
    (hw3 : ∀ x ∈ w3, isspace x = true) (hw4 : ∀ x ∈ w4, isspace x = true)
    (hw5 : ∀ x ∈ w5, isspace x = true) :
    ConsumeFunctionalColor ⟨rgbText w0 (a0 :: a) w1 w2 (b0 :: b) w3 w4 (c0 :: c) w5 tail true true true, rest⟩ rgb =
      (true, ⟨tail, rest⟩, RgbColor.make ((digitsValue (a0 :: a) : CGFloat) / 100)
        ((digitsValue (b0 :: b) : CGFloat) / 100) ((digitsValue (c0 :: c) : CGFloat) / 100)) := by
  rw [functional_of_percent (rgbText w0 (a0 :: a) w1 w2 (b0 :: b) w3 w4 (c0 :: c) w5 tail true true true) w0
      ((a0 :: a) ++ ('%' :: (w1 ++ (',' :: (w2 ++ ((b0 :: b) ++ ('%' :: (w3 ++ (',' :: (w4 ++ ((c0 :: c) ++ ('%' :: (w5 ++ (')' :: tail)))))))))))))) (w5 ++ (')' :: tail)) rest rgb _ _ _ rfl hw0 (not_space_digit_run a0 a _ ha0)
      (suf_app _ (suf_cons _ (suf_app _ (suf_cons _ (suf_app _ (suf_app _ (suf_cons _ (suf_app _
        (suf_cons _ (suf_app _ (suf_cons _ (suf_app _ (suf_cons _ (List.suffix_refl _))))))))))))))
      (plain_attempt_percent_first a0 a _ rest [0, 0, 0] ha0 ha)
      (fun v hv => percent_attempt_three a0 b0 c0 a w1 w2 b w3 w4 c (w5 ++ (')' :: tail)) rest v hv
        ha0 ha hb0 hb hc0 hc hw1 hw2 hw3 hw4)]
  exact ConsumeFunctionalColorClose_ok ⟨rgbText w0 (a0 :: a) w1 w2 (b0 :: b) w3 w4 (c0 :: c) w5 tail true true true, rest⟩
    ("rgb(".data ++ (w0 ++ ((a0 :: a) ++ ('%' :: (w1 ++ (',' :: (w2 ++ ((b0 :: b) ++ ('%' ::
      (w3 ++ (',' :: (w4 ++ ((c0 :: c) ++ ['%'])))))))))))))
    w5 tail _ (by simp [rgbText]) hw5


/-- C20, amended: on the text `rgb(` a `,` b `,` c `)` with digit runs a, b,
c and optional whitespace behind the parenthesis, around the commas and before
the closing parenthesis, ConsumeFunctionalColor succeeds with the clamped
colour (a/255, b/255, c/255) when no component has a percent sign, succeeds
with (a/100, b/100, c/100) when all three have one, both for components that
write numbers below 2^31, and fails for every mix.  For digit runs of any
length the colour is made from the contents of the `int` of each component
(`digitsValue`). -/
theorem functional_colour_same_form (w0 a w1 w2 b w3 w4 c w5 tail rest : List Char)
    (pa pb pc : Bool) (rgb : RgbColor)
    (ha : ∀ x ∈ a, isDecimalDigit x = true) (hane : a ≠ [])
    (hb : ∀ x ∈ b, isDecimalDigit x = true) (hbne : b ≠ [])
    (hc : ∀ x ∈ c, isDecimalDigit x = true) (hcne : c ≠ [])
    (hw0 : ∀ x ∈ w0, isspace x = true)
    (hw1 : ∀ x ∈ w1, isspace x = true) (hw2 : ∀ x ∈ w2, isspace x = true)
    (hw3 : ∀ x ∈ w3, isspace x = true) (hw4 : ∀ x ∈ w4, isspace x = true)
    (hw5 : ∀ x ∈ w5, isspace x = true) :
    (pa = false ∧ pb = false ∧ pc = false →
      decimalValue a < 2 ^ 31 → decimalValue b < 2 ^ 31 → decimalValue c < 2 ^ 31 →
      ConsumeFunctionalColor ⟨rgbText w0 a w1 w2 b w3 w4 c w5 tail pa pb pc, rest⟩ rgb =
        (true, ⟨tail, rest⟩, ⟨ClampToUnitRange ((decimalValue a : CGFloat) / 255),
          ClampToUnitRange ((decimalValue b : CGFloat) / 255),
          ClampToUnitRange ((decimalValue c : CGFloat) / 255)⟩)) ∧
    (pa = true ∧ pb = true ∧ pc = true →
      decimalValue a < 2 ^ 31 → decimalValue b < 2 ^ 31 → decimalValue c < 2 ^ 31 →
      ConsumeFunctionalColor ⟨rgbText w0 a w1 w2 b w3 w4 c w5 tail pa pb pc, rest⟩ rgb =
        (true, ⟨tail, rest⟩, ⟨ClampToUnitRange ((decimalValue a : CGFloat) / 100),
          ClampToUnitRange ((decimalValue b : CGFloat) / 100),
          ClampToUnitRange ((decimalValue c : CGFloat) / 100)⟩)) ∧
    (¬ (pa = pb ∧ pb = pc) →
      (ConsumeFunctionalColor ⟨rgbText w0 a w1 w2 b w3 w4 c w5 tail pa pb pc, rest⟩ rgb).1
        = false) ∧
    (pa = false ∧ pb = false ∧ pc = false →
      ConsumeFunctionalColor ⟨rgbText w0 a w1 w2 b w3 w4 c w5 tail pa pb pc, rest⟩ rgb =
        (true, ⟨tail, rest⟩, ⟨ClampToUnitRange ((digitsValue a : CGFloat) / 255),
          ClampToUnitRange ((digitsValue b : CGFloat) / 255),
          ClampToUnitRange ((digitsValue c : CGFloat) / 255)⟩)) ∧
    (pa = true ∧ pb = true ∧ pc = true →
      ConsumeFunctionalColor ⟨rgbText w0 a w1 w2 b w3 w4 c w5 tail pa pb pc, rest⟩ rgb =
        (true, ⟨tail, rest⟩, ⟨ClampToUnitRange ((digitsValue a : CGFloat) / 100),
          ClampToUnitRange ((digitsValue b : CGFloat) / 100),
          ClampToUnitRange ((digitsValue c : CGFloat) / 100)⟩)) := by
  have eqv : decimalValue a < 2 ^ 31 → decimalValue b < 2 ^ 31 → decimalValue c < 2 ^ 31 →
      digitsValue a = decimalValue a ∧ digitsValue b = decimalValue b ∧
        digitsValue c = decimalValue c := fun h1 h2 h3 =>
    ⟨digitsValue_eq_decimalValue a ha h1, digitsValue_eq_decimalValue b hb h2,
      digitsValue_eq_decimalValue c hc h3⟩
  revert eqv
  rcases a with _ | ⟨a0, a⟩
  · exact absurd rfl hane
  rcases b with _ | ⟨b0, b⟩
  · exact absurd rfl hbne
  rcases c with _ | ⟨c0, c⟩
  · exact absurd rfl hcne
  have ha0 := ha a0 (List.mem_cons_self _ _)
  have hb0 := hb b0 (List.mem_cons_self _ _)
  have hc0 := hc c0 (List.mem_cons_self _ _)
  have ha1 : ∀ x ∈ a, isDecimalDigit x = true := fun x hx => ha x (List.mem_cons_of_mem _ hx)
  have hb1 : ∀ x ∈ b, isDecimalDigit x = true := fun x hx => hb x (List.mem_cons_of_mem _ hx)
  have hc1 : ∀ x ∈ c, isDecimalDigit x = true := fun x hx => hc x (List.mem_cons_of_mem _ hx)
  intro eqv
  have hplain := functional_plain a0 b0 c0 w0 a w1 w2 b w3 w4 c w5 tail rest rgb
    ha0 ha1 hb0 hb1 hc0 hc1 hw0 hw1 hw2 hw3 hw4 hw5
  have hpercent := functional_percent_percent_percent a0 b0 c0 w0 a w1 w2 b w3 w4 c w5 tail rest
    rgb ha0 ha1 hb0 hb1 hc0 hc1 hw0 hw1 hw2 hw3 hw4 hw5
  refine ⟨?_, ?_, ?_, ?_, ?_⟩
  · rintro ⟨rfl, rfl, rfl⟩ h1 h2 h3
    obtain ⟨e1, e2, e3⟩ := eqv h1 h2 h3
    rw [← e1, ← e2, ← e3]
    exact hplain
  · rintro ⟨rfl, rfl, rfl⟩ h1 h2 h3
    obtain ⟨e1, e2, e3⟩ := eqv h1 h2 h3
    rw [← e1, ← e2, ← e3]
    exact hpercent
  rotate_left
  · rintro ⟨rfl, rfl, rfl⟩
    exact hplain
  · rintro ⟨rfl, rfl, rfl⟩
    exact hpercent
  · intro hmix
    cases pa <;> cases pb <;> cases pc
    · exact absurd ⟨rfl, rfl⟩ hmix
    · exact functional_plain_plain_percent a0 b0 c0 w0 a w1 w2 b w3 w4 c w5 tail rest rgb
        ha0 ha1 hb0 hb1 hc0 hc1 hw0 hw1 hw2 hw3 hw4 hw5
    · exact functional_plain_percent_plain a0 b0 c0 w0 a w1 w2 b w3 w4 c w5 tail rest rgb
        ha0 ha1 hb0 hb1 hc0 hc1 hw0 hw1 hw2 hw3 hw4 hw5
    · exact functional_plain_percent_percent a0 b0 c0 w0 a w1 w2 b w3 w4 c w5 tail rest rgb
        ha0 ha1 hb0 hb1 hc0 hc1 hw0 hw1 hw2 hw3 hw4 hw5
    · exact functional_percent_plain_plain a0 b0 c0 w0 a w1 w2 b w3 w4 c w5 tail rest rgb
        ha0 ha1 hb0 hb1 hc0 hc1 hw0 hw1 hw2 hw3 hw4 hw5
    · exact functional_percent_plain_percent a0 b0 c0 w0 a w1 w2 b w3 w4 c w5 tail rest rgb
        ha0 ha1 hb0 hb1 hc0 hc1 hw0 hw1 hw2 hw3 hw4 hw5
    · exact functional_percent_percent_plain a0 b0 c0 w0 a w1 w2 b w3 w4 c w5 tail rest rgb
        ha0 ha1 hb0 hb1 hc0 hc1 hw0 hw1 hw2 hw3 hw4 hw5
    · exact absurd ⟨rfl, rfl⟩ hmix

/-- C20 as stated fails for a component that an `int` does not hold: the
first component of "rgb(4294967296,0,0)" is read as 0, so the colour is (0, 0,
0), where the claim has the clamped 4294967296/255, which is 1. -/
theorem functional_colour_component_overflows :
    ConsumeFunctionalColor (StringPiece.ofString "rgb(4294967296,0,0)".data) RgbColor.default
      = (true, ⟨[], []⟩, ⟨0, 0, 0⟩) ∧
    ClampToUnitRange ((4294967296 : CGFloat) / 255) = 1 ∧
    decimalValue "4294967296".data = 4294967296 ∧ digitsValue "4294967296".data = 0 :=
  ⟨by decide!, by decide!, by decide, by decide⟩

/-- C20 on "rgb(50%, 50%, 50%)", which gives (1/2, 1/2, 1/2), with "#808080",
which gives (128/255, 128/255, 128/255), the plain "rgb( 255 , 0,300 )", which
gives (1, 0, 1), and the mixed "rgb(50%, 50, 50)", which fails. -/
theorem functional_colour_same_form_witness :
    rgbText [] "50".data [] " ".data "50".data [] " ".data "50".data [] [] true true true
      = "rgb(50%, 50%, 50%)".data ∧
    ConsumeFunctionalColor
      ⟨rgbText [] "50".data [] " ".data "50".data [] " ".data "50".data [] [] true true true, []⟩
      RgbColor.default = (true, ⟨[], []⟩, ⟨1 / 2, 1 / 2, 1 / 2⟩) ∧
    ParseRgbColor Platform.exact (StringPiece.ofString "rgb(50%, 50%, 50%)".data) RgbColor.default
      = (true, ⟨1 / 2, 1 / 2, 1 / 2⟩) ∧
    ParseRgbColor Platform.exact (StringPiece.ofString "#808080".data) RgbColor.default
      = (true, ⟨128 / 255, 128 / 255, 128 / 255⟩) ∧
    ConsumeFunctionalColor (StringPiece.ofString "rgb( 255 , 0,300 )".data) RgbColor.default
      = (true, ⟨[], []⟩, ⟨1, 0, 1⟩) ∧
    (ConsumeFunctionalColor (StringPiece.ofString "rgb(50%, 50, 50)".data) RgbColor.default).1
      = false :=
  ⟨by decide,
   ((functional_colour_same_form [] "50".data [] " ".data "50".data [] " ".data "50".data [] [] []
      true true true RgbColor.default (by decide) (by decide) (by decide) (by decide) (by decide)
      (by decide) (by decide) (by decide) (by decide) (by decide) (by decide) (by decide)).2.1
      ⟨rfl, rfl, rfl⟩ (by decide) (by decide) (by decide)).trans (by decide!),
   by decide!, by decide!, by decide!, by decide!⟩

/-! ## C11 to C15: one call of PathDataIterator::Next -/

theorem Next_of_path (P : Platform) (it : PathDataIterator)
    (hfmt : it.format_ = kPathDataFormatPath)
    (hne : (ConsumeWhitespace it.s_).2.length ≠ 0) :
    it.Next P = PathDataIterator.finish
      (PathDataIterator.ParseSingleCommandForPath P
        { it with s_ := (ConsumeWhitespace it.s_).2 }) := by
  have hf : ¬ it.format_ = kPathDataFormatPoints := by rw [hfmt]; decide
  unfold PathDataIterator.Next PathDataIterator.finish
  dsimp only
  rw [if_neg hne, if_neg hf]

theorem ParseSingleCommandForPath_letter (P : Platform) (it : PathDataIterator) (ch : Char)
    (l rest : List Char) (t : PathCommandType) (hs : it.s_ = ⟨ch :: l, rest⟩)
    (halpha : ('a' ≤ ch ∧ ch ≤ 'z') ∨ ('A' ≤ ch ∧ ch ≤ 'Z'))
    (ht : commandTypeOfChar
      (if decide ('A' ≤ ch ∧ ch ≤ 'Z') = true then Char.ofNat (ch.toNat + 32) else ch) = some t) :
    it.ParseSingleCommandForPath P =
      PathDataIterator.dispatch P { it with
        s_ := ⟨l, rest⟩
        absolute_ := decide ('A' ≤ ch ∧ ch ≤ 'Z')
        command_type_ := t } := by
  have hpk : PeekAlpha ⟨ch :: l, rest⟩ '\x00' = (true, ch) := by
    unfold PeekAlpha
    simp only [StringPiece.get, List.cons_append, List.getD_cons_zero]
    rw [if_pos halpha]
  have hpk2 : PeekAlpha ⟨ch :: l, rest⟩ ch = (true, ch) := by
    unfold PeekAlpha
    simp only [StringPiece.get, List.cons_append, List.getD_cons_zero]
    rw [if_pos halpha]
  have hca : ConsumeAlpha ⟨ch :: l, rest⟩ ch = (true, ⟨l, rest⟩, ch) := by
    unfold ConsumeAlpha
    rw [hpk2]
    simp [StringPiece.Advance]
  unfold PathDataIterator.ParseSingleCommandForPath
  dsimp only
  rw [hs, hpk]
  dsimp only
  rw [if_pos rfl, hca]
  dsimp only
  rw [if_neg (show ¬ (true = false) by decide), ht]

theorem Next_letter (P : Platform) (it : PathDataIterator) (ch : Char) (l rest : List Char)
    (t : PathCommandType) (hfmt : it.format_ = kPathDataFormatPath)
    (hs : (ConsumeWhitespace it.s_).2 = ⟨ch :: l, rest⟩)
    (halpha : ('a' ≤ ch ∧ ch ≤ 'z') ∨ ('A' ≤ ch ∧ ch ≤ 'Z'))
    (ht : commandTypeOfChar
      (if decide ('A' ≤ ch ∧ ch ≤ 'Z') = true then Char.ofNat (ch.toNat + 32) else ch) = some t) :
    it.Next P = PathDataIterator.finish
      (PathDataIterator.dispatch P { it with
        s_ := ⟨l, rest⟩
        absolute_ := decide ('A' ≤ ch ∧ ch ≤ 'Z')
        command_type_ := t }) := by
  rw [Next_of_path P it hfmt (by rw [hs]; simp [StringPiece.length]),
    ParseSingleCommandForPath_letter P _ ch l rest t hs halpha ht]

theorem Next_repeat (P : Platform) (it : PathDataIterator)
    (hfmt : it.format_ = kPathDataFormatPath)
    (hne : (ConsumeWhitespace it.s_).2.length ≠ 0)
    (hpk : (PeekAlpha (ConsumeWhitespace it.s_).2 '\x00').1 = false)
    (hfirst : it.is_first_command_ = false)
    (hclose : it.command_type_ ≠ kPathCommandTypeClosePath) :
    it.Next P = PathDataIterator.finish
      (PathDataIterator.dispatch P { it with
        s_ := (ConsumeNumberDelimiter (ConsumeWhitespace it.s_).2).2
        command_type_ := if it.command_type_ = kPathCommandTypeMoveTo
          then kPathCommandTypeLineTo else it.command_type_ }) := by
  rw [Next_of_path P it hfmt hne]
  congr 1
  unfold PathDataIterator.ParseSingleCommandForPath
  dsimp only
  rw [if_neg (by rw [hpk]; decide),
    if_neg (show ¬ (it.is_first_command_ = true ∨ it.command_type_ = kPathCommandTypeClosePath)
      by rw [hfirst]; simp [hclose])]
  by_cases hm : it.command_type_ = kPathCommandTypeMoveTo
  · rw [if_pos hm, if_pos hm]
  · rw [if_neg hm, if_neg hm]

theorem Next_no_repeat (P : Platform) (it : PathDataIterator)
    (hfmt : it.format_ = kPathDataFormatPath)
    (hne : (ConsumeWhitespace it.s_).2.length ≠ 0)
    (hpk : (PeekAlpha (ConsumeWhitespace it.s_).2 '\x00').1 = false)
    (h : it.is_first_command_ = true ∨ it.command_type_ = kPathCommandTypeClosePath) :
    (it.Next P).1 = false := by
  rw [Next_of_path P it hfmt hne]
  unfold PathDataIterator.ParseSingleCommandForPath
  dsimp only
  rw [if_neg (by rw [hpk]; decide), if_pos h]
  rfl

/-! ## C14: horizontal and vertical lines -/

theorem ParseMoveAndLineCommand_horizontal (P : Platform) (d : PathDataIterator)
    (s2 : StringPiece) (v : CGFloat)
    (hop : ConsumeFloat P d.s_ d.point_.x = (true, s2, v)) :
    d.ParseMoveAndLineCommand P kPathCommandTypeHorizontalLineTo =
      (true, { d with
        s_ := s2
        point_ := if d.absolute_ then ⟨v, d.point_.y⟩ else ⟨d.point_.x + v, d.point_.y⟩ }) := by
  have e : [d.point_.x, d.point_.y].getD 0 0 = d.point_.x := rfl
  unfold PathDataIterator.ParseMoveAndLineCommand
  dsimp only
  rw [e, hop]
  dsimp only
  rw [if_neg (show ¬ (true = false) by decide)]
  cases d.absolute_ <;> rfl

theorem ParseMoveAndLineCommand_vertical (P : Platform) (d : PathDataIterator)
    (s2 : StringPiece) (v : CGFloat)
    (hop : ConsumeFloat P d.s_ d.point_.y = (true, s2, v)) :
    d.ParseMoveAndLineCommand P kPathCommandTypeVerticalLineTo =
      (true, { d with
        s_ := s2
        point_ := if d.absolute_ then ⟨d.point_.x, v⟩ else ⟨d.point_.x, d.point_.y + v⟩ }) := by
  have e : [d.point_.x, d.point_.y].getD 1 0 = d.point_.y := rfl
  unfold PathDataIterator.ParseMoveAndLineCommand
  dsimp only
  rw [e, hop]
  dsimp only
  rw [if_neg (show ¬ (true = false) by decide)]
  cases d.absolute_ <;> rfl

theorem Next_upper_h (P : Platform) (it : PathDataIterator)
    (l rest : List Char) (s2 : StringPiece) (v : CGFloat)
    (hfmt : it.format_ = kPathDataFormatPath)
    (hs : (ConsumeWhitespace it.s_).2 = ⟨'H' :: l, rest⟩)
    (hop : ConsumeFloat P ⟨l, rest⟩ it.point_.x = (true, s2, v)) :
    (it.Next P).1 = true ∧
    (it.Next P).2.command_type_ = kPathCommandTypeHorizontalLineTo ∧
    (it.Next P).2.point_ = ⟨v, it.point_.y⟩ ∧ (it.Next P).2.s_ = s2 := by
  have h1 := Next_letter P it 'H' l rest kPathCommandTypeHorizontalLineTo hfmt hs
    (by decide) (by decide)
  have h2 : PathDataIterator.dispatch P { it with
        s_ := ⟨l, rest⟩
        absolute_ := decide ('A' ≤ 'H' ∧ 'H' ≤ 'Z')
        command_type_ := kPathCommandTypeHorizontalLineTo } =
      PathDataIterator.ParseMoveAndLineCommand P { it with
        s_ := ⟨l, rest⟩
        absolute_ := decide ('A' ≤ 'H' ∧ 'H' ≤ 'Z')
        command_type_ := kPathCommandTypeHorizontalLineTo }
        kPathCommandTypeHorizontalLineTo := rfl
  have h3 := ParseMoveAndLineCommand_horizontal P { it with
        s_ := ⟨l, rest⟩
        absolute_ := decide ('A' ≤ 'H' ∧ 'H' ≤ 'Z')
        command_type_ := kPathCommandTypeHorizontalLineTo } s2 v hop
  rw [h1, h2, h3]
  exact ⟨rfl, rfl, rfl, rfl⟩

theorem Next_lower_h (P : Platform) (it : PathDataIterator)
    (l rest : List Char) (s2 : StringPiece) (v : CGFloat)
    (hfmt : it.format_ = kPathDataFormatPath)
    (hs : (ConsumeWhitespace it.s_).2 = ⟨'h' :: l, rest⟩)
    (hop : ConsumeFloat P ⟨l, rest⟩ it.point_.x = (true, s2, v)) :
    (it.Next P).1 = true ∧
    (it.Next P).2.command_type_ = kPathCommandTypeHorizontalLineTo ∧
    (it.Next P).2.point_ = ⟨it.point_.x + v, it.point_.y⟩ ∧ (it.Next P).2.s_ = s2 := by
  have h1 := Next_letter P it 'h' l rest kPathCommandTypeHorizontalLineTo hfmt hs
    (by decide) (by decide)
  have h2 : PathDataIterator.dispatch P { it with
        s_ := ⟨l, rest⟩
        absolute_ := decide ('A' ≤ 'h' ∧ 'h' ≤ 'Z')
        command_type_ := kPathCommandTypeHorizontalLineTo } =
      PathDataIterator.ParseMoveAndLineCommand P { it with
        s_ := ⟨l, rest⟩
        absolute_ := decide ('A' ≤ 'h' ∧ 'h' ≤ 'Z')
        command_type_ := kPathCommandTypeHorizontalLineTo }
        kPathCommandTypeHorizontalLineTo := rfl
  have h3 := ParseMoveAndLineCommand_horizontal P { it with
        s_ := ⟨l, rest⟩
        absolute_ := decide ('A' ≤ 'h' ∧ 'h' ≤ 'Z')
        command_type_ := kPathCommandTypeHorizontalLineTo } s2 v hop
  rw [h1, h2, h3]
  exact ⟨rfl, rfl, rfl, rfl⟩

theorem Next_upper_v (P : Platform) (it : PathDataIterator)
    (l rest : List Char) (s2 : StringPiece) (v : CGFloat)
    (hfmt : it.format_ = kPathDataFormatPath)
    (hs : (ConsumeWhitespace it.s_).2 = ⟨'V' :: l, rest⟩)
    (hop : ConsumeFloat P ⟨l, rest⟩ it.point_.y = (true, s2, v)) :
    (it.Next P).1 = true ∧
    (it.Next P).2.command_type_ = kPathCommandTypeVerticalLineTo ∧
    (it.Next P).2.point_ = ⟨it.point_.x, v⟩ ∧ (it.Next P).2.s_ = s2 := by
  have h1 := Next_letter P it 'V' l rest kPathCommandTypeVerticalLineTo hfmt hs
    (by decide) (by decide)
  have h2 : PathDataIterator.dispatch P { it with
        s_ := ⟨l, rest⟩
        absolute_ := decide ('A' ≤ 'V' ∧ 'V' ≤ 'Z')
        command_type_ := kPathCommandTypeVerticalLineTo } =
      PathDataIterator.ParseMoveAndLineCommand P { it with
        s_ := ⟨l, rest⟩
        absolute_ := decide ('A' ≤ 'V' ∧ 'V' ≤ 'Z')
        command_type_ := kPathCommandTypeVerticalLineTo }
        kPathCommandTypeVerticalLineTo := rfl
  have h3 := ParseMoveAndLineCommand_vertical P { it with
        s_ := ⟨l, rest⟩
        absolute_ := decide ('A' ≤ 'V' ∧ 'V' ≤ 'Z')
        command_type_ := kPathCommandTypeVerticalLineTo } s2 v hop
  rw [h1, h2, h3]
  exact ⟨rfl, rfl, rfl, rfl⟩

theorem Next_lower_v (P : Platform) (it : PathDataIterator)
    (l rest : List Char) (s2 : StringPiece) (v : CGFloat)
    (hfmt : it.format_ = kPathDataFormatPath)
    (hs : (ConsumeWhitespace it.s_).2 = ⟨'v' :: l, rest⟩)
    (hop : ConsumeFloat P ⟨l, rest⟩ it.point_.y = (true, s2, v)) :
    (it.Next P).1 = true ∧
    (it.Next P).2.command_type_ = kPathCommandTypeVerticalLineTo ∧
    (it.Next P).2.point_ = ⟨it.point_.x, it.point_.y + v⟩ ∧ (it.Next P).2.s_ = s2 := by
  have h1 := Next_letter P it 'v' l rest kPathCommandTypeVerticalLineTo hfmt hs
    (by decide) (by decide)
  have h2 : PathDataIterator.dispatch P { it with
        s_ := ⟨l, rest⟩
        absolute_ := decide ('A' ≤ 'v' ∧ 'v' ≤ 'Z')
        command_type_ := kPathCommandTypeVerticalLineTo } =
      PathDataIterator.ParseMoveAndLineCommand P { it with
        s_ := ⟨l, rest⟩
        absolute_ := decide ('A' ≤ 'v' ∧ 'v' ≤ 'Z')
        command_type_ := kPathCommandTypeVerticalLineTo }
        kPathCommandTypeVerticalLineTo := rfl
  have h3 := ParseMoveAndLineCommand_vertical P { it with
        s_ := ⟨l, rest⟩
        absolute_ := decide ('A' ≤ 'v' ∧ 'v' ≤ 'Z')
        command_type_ := kPathCommandTypeVerticalLineTo } s2 v hop
  rw [h1, h2, h3]
  exact ⟨rfl, rfl, rfl, rfl⟩

/-- C14: in path format, when the data behind the whitespace starts with H, h,
V or v and ConsumeFloat reads the operand `v` behind the letter, Next returns
true with the horizontal or vertical line type, and from the point (x, y) the
point becomes (v, y) for H, (x + v, y) for h, (x, v) for V and (x, y + v) for
v. -/
theorem horizontal_vertical_touch_one_axis (P : Platform) (it : PathDataIterator) (ch : Char)
    (l rest : List Char) (s2 : StringPiece) (v : CGFloat)
    (hfmt : it.format_ = kPathDataFormatPath)
    (hs : (ConsumeWhitespace it.s_).2 = ⟨ch :: l, rest⟩) :
    (ch = 'H' → ConsumeFloat P ⟨l, rest⟩ it.point_.x = (true, s2, v) →
      (it.Next P).1 = true ∧
      (it.Next P).2.command_type_ = kPathCommandTypeHorizontalLineTo ∧
      (it.Next P).2.point_ = ⟨v, it.point_.y⟩ ∧ (it.Next P).2.s_ = s2) ∧
    (ch = 'h' → ConsumeFloat P ⟨l, rest⟩ it.point_.x = (true, s2, v) →
      (it.Next P).1 = true ∧
      (it.Next P).2.command_type_ = kPathCommandTypeHorizontalLineTo ∧
      (it.Next P).2.point_ = ⟨it.point_.x + v, it.point_.y⟩ ∧ (it.Next P).2.s_ = s2) ∧
    (ch = 'V' → ConsumeFloat P ⟨l, rest⟩ it.point_.y = (true, s2, v) →
      (it.Next P).1 = true ∧
      (it.Next P).2.command_type_ = kPathCommandTypeVerticalLineTo ∧
      (it.Next P).2.point_ = ⟨it.point_.x, v⟩ ∧ (it.Next P).2.s_ = s2) ∧
    (ch = 'v' → ConsumeFloat P ⟨l, rest⟩ it.point_.y = (true, s2, v) →
      (it.Next P).1 = true ∧
      (it.Next P).2.command_type_ = kPathCommandTypeVerticalLineTo ∧
      (it.Next P).2.point_ = ⟨it.point_.x, it.point_.y + v⟩ ∧ (it.Next P).2.s_ = s2) := by
  refine ⟨?_, ?_, ?_, ?_⟩
  · rintro rfl hop
    exact Next_upper_h P it l rest s2 v hfmt hs hop
  · rintro rfl hop
    exact Next_lower_h P it l rest s2 v hfmt hs hop
  · rintro rfl hop
    exact Next_upper_v P it l rest s2 v hfmt hs hop
  · rintro rfl hop
    exact Next_lower_v P it l rest s2 v hfmt hs hop

/-- C14 on "M 1 2 H 5 v 3 h -1 V 0": the points are (1,2), (5,2), (5,5), (4,5)
and (4,0). -/
theorem horizontal_vertical_touch_one_axis_witness :
    PathDataIterator.commands Platform.exact "M 1 2 H 5 v 3 h -1 V 0" kPathDataFormatPath
        false 10
      = ([(kPathCommandTypeMoveTo, ⟨1, 2⟩), (kPathCommandTypeHorizontalLineTo, ⟨5, 2⟩),
          (kPathCommandTypeVerticalLineTo, ⟨5, 5⟩), (kPathCommandTypeHorizontalLineTo, ⟨4, 5⟩),
          (kPathCommandTypeVerticalLineTo, ⟨4, 0⟩)], false) ∧
    ((PathDataIterator.init PathDataIterator.zero "h 3".data kPathDataFormatPath false).Next
        Platform.exact).1 = true ∧
    ((PathDataIterator.init PathDataIterator.zero "h 3".data kPathDataFormatPath false).Next
        Platform.exact).2.command_type_ = kPathCommandTypeHorizontalLineTo ∧
    ((PathDataIterator.init PathDataIterator.zero "h 3".data kPathDataFormatPath false).Next
        Platform.exact).2.point_ = ⟨0 + 3, 0⟩ ∧
    ((PathDataIterator.init PathDataIterator.zero "h 3".data kPathDataFormatPath false).Next
        Platform.exact).2.s_ = ⟨[], []⟩ :=
  ⟨by decide!,
   (horizontal_vertical_touch_one_axis Platform.exact
     (PathDataIterator.init PathDataIterator.zero "h 3".data kPathDataFormatPath false) 'h'
     " 3".data [] ⟨[], []⟩ 3 rfl (by decide)).2.1 rfl (by decide!)⟩

/-! ## C15: elliptical arcs -/

theorem fabs_of_not_nan (P : Platform) (x : CGFloat) (h : P.isnan x = false) :
    P.fabs x = |x| := by
  unfold Platform.fabs
  rw [h]
  rfl

theorem fabs_of_nan (P : Platform) (x : CGFloat) (h : P.isnan x = true) : P.fabs x = P.nan := by
  unfold Platform.fabs
  rw [h]
  rfl

/-- The test `arc_radius_x_ == 0 || arc_radius_y_ == 0` on the operands rx and
ry: a radius that is a number is 0. -/
theorem zero_radius_test_iff (P : Platform) (rx ry rot : CGFloat) :
    ((P.isnan (([rx, ry, rot] : List CGFloat).getD 0 0) = false ∧
        P.fabs (([rx, ry, rot] : List CGFloat).getD 0 0) = 0) ∨
      (P.isnan (([rx, ry, rot] : List CGFloat).getD 1 0) = false ∧
        P.fabs (([rx, ry, rot] : List CGFloat).getD 1 0) = 0)) ↔
    ((P.isnan rx = false ∧ rx = 0) ∨ (P.isnan ry = false ∧ ry = 0)) := by
  show ((P.isnan rx = false ∧ P.fabs rx = 0) ∨ (P.isnan ry = false ∧ P.fabs ry = 0)) ↔ _
  constructor
  · rintro (⟨hn, h⟩ | ⟨hn, h⟩)
    · rw [fabs_of_not_nan P rx hn] at h
      exact Or.inl ⟨hn, abs_eq_zero.1 h⟩
    · rw [fabs_of_not_nan P ry hn] at h
      exact Or.inr ⟨hn, abs_eq_zero.1 h⟩
  · rintro (⟨hn, h⟩ | ⟨hn, h⟩)
    · exact Or.inl ⟨hn, by rw [fabs_of_not_nan P rx hn, h, abs_zero]⟩
    · exact Or.inr ⟨hn, by rw [fabs_of_not_nan P ry hn, h, abs_zero]⟩

theorem ParseEllipticalArcCommand_zero_radius (P : Platform) (d : PathDataIterator)
    (s1 : StringPiece) (rx ry rot : CGFloat)
    (h1 : ConsumeFloats P d.s_ 3 (List.replicate 3 0) = (true, s1, [rx, ry, rot]))
    (h0 : (P.isnan rx = false ∧ rx = 0) ∨ (P.isnan ry = false ∧ ry = 0)) :
    (d.ParseEllipticalArcCommand P).1 = false := by
  unfold PathDataIterator.ParseEllipticalArcCommand
  dsimp only
  rw [h1]
  dsimp only
  rw [if_neg (show ¬ (true = false) by decide)]
  rw [if_pos ((zero_radius_test_iff P rx ry rot).2 h0)]

theorem ParseEllipticalArcCommand_true (P : Platform) (d : PathDataIterator)
    (s1 : StringPiece) (rx ry rot : CGFloat)
    (h1 : ConsumeFloats P d.s_ 3 (List.replicate 3 0) = (true, s1, [rx, ry, rot]))
    (ht : (d.ParseEllipticalArcCommand P).1 = true) :
    ¬ ((P.isnan rx = false ∧ rx = 0) ∨ (P.isnan ry = false ∧ ry = 0)) ∧
    (ConsumeFlag (ConsumeNumberDelimiter s1).2 d.large_arc_).1 = true ∧
    (ConsumeFlag (ConsumeNumberDelimiter
       (ConsumeFlag (ConsumeNumberDelimiter s1).2 d.large_arc_).2.1).2 d.sweep_).1 = true ∧
    (ConsumeFloats P (ConsumeNumberDelimiter
       (ConsumeFlag (ConsumeNumberDelimiter
         (ConsumeFlag (ConsumeNumberDelimiter s1).2 d.large_arc_).2.1).2 d.sweep_).2.1).2 2
       (List.replicate 2 0)).1 = true := by
  have hn : ¬ ((P.isnan rx = false ∧ rx = 0) ∨ (P.isnan ry = false ∧ ry = 0)) := by
    intro h0
    rw [ParseEllipticalArcCommand_zero_radius P d s1 rx ry rot h1 h0] at ht
    cases ht
  have hz := fun h => hn ((zero_radius_test_iff P rx ry rot).1 h)
  revert ht
  unfold PathDataIterator.ParseEllipticalArcCommand
  dsimp only
  rw [h1]
  dsimp only
  rw [if_neg (show ¬ (true = false) by decide), if_neg hz]
  by_cases hf1 : (ConsumeFlag (ConsumeNumberDelimiter s1).2 d.large_arc_).1 = false
  · rw [if_pos hf1]
    intro h; cases h
  · rw [if_neg hf1]
    by_cases hf2 : (ConsumeFlag (ConsumeNumberDelimiter
        (ConsumeFlag (ConsumeNumberDelimiter s1).2 d.large_arc_).2.1).2 d.sweep_).1 = false
    · rw [if_pos hf2]
      intro h; cases h
    · rw [if_neg hf2]
      by_cases hf3 : (ConsumeFloats P (ConsumeNumberDelimiter
          (ConsumeFlag (ConsumeNumberDelimiter
            (ConsumeFlag (ConsumeNumberDelimiter s1).2 d.large_arc_).2.1).2 d.sweep_).2.1).2 2
          (List.replicate 2 0)).1 = false
      · rw [if_pos hf3]
        intro h; cases h
      · intro _
        exact ⟨hn, Bool.of_not_eq_false hf1, Bool.of_not_eq_false hf2,
          Bool.of_not_eq_false hf3⟩

theorem ParseEllipticalArcCommand_ok (P : Platform) (d : PathDataIterator)
    (s1 s2 s3 s4 : StringPiece) (rx ry rot : CGFloat) (pv : List CGFloat) (f1 f2 : Bool)
    (h1 : ConsumeFloats P d.s_ 3 (List.replicate 3 0) = (true, s1, [rx, ry, rot]))
    (hn : ¬ ((P.isnan rx = false ∧ rx = 0) ∨ (P.isnan ry = false ∧ ry = 0)))
    (h2 : ConsumeFlag (ConsumeNumberDelimiter s1).2 d.large_arc_ = (true, s2, f1))
    (h3 : ConsumeFlag (ConsumeNumberDelimiter s2).2 d.sweep_ = (true, s3, f2))
    (h4 : ConsumeFloats P (ConsumeNumberDelimiter s3).2 2 (List.replicate 2 0)
      = (true, s4, pv)) :
    d.ParseEllipticalArcCommand P =
      (true, { d with
        s_ := s4
        arc_radius_x_ := P.fabs rx
        arc_radius_y_ := P.fabs ry
        rotation_ := rot
        large_arc_ := f1
        sweep_ := f2
        point_ := ⟨pv.getD 0 0 + (if d.absolute_ = true then 0 else d.point_.x),
          pv.getD 1 0 + (if d.absolute_ = true then 0 else d.point_.y)⟩ }) := by
  have hz := fun h => hn ((zero_radius_test_iff P rx ry rot).1 h)
  unfold PathDataIterator.ParseEllipticalArcCommand
  dsimp only
  rw [h1]
  dsimp only
  rw [if_neg (show ¬ (true = false) by decide), if_neg hz, h2]
  dsimp only
  rw [if_neg (show ¬ (true = false) by decide), h3]
  dsimp only
  rw [if_neg (show ¬ (true = false) by decide), h4]
  dsimp only
  rw [if_neg (show ¬ (true = false) by decide)]
  rfl

theorem prod3_eta {α β : Type} (r : Bool × α × β) (h : r.1 = true) : r = (true, r.2.1, r.2.2) := by
  rcases r with ⟨a, b, c⟩
  cases h
  rfl

theorem ConsumeFlag_true_text (s : StringPiece) (flag : Bool)
    (h : (ConsumeFlag s flag).1 = true) :
    ∃ c t, s.view.dropWhile isspace = c :: t ∧ (c = '0' ∨ c = '1') ∧
      (ConsumeFlag s flag).2.2 = decide (c = '1') := by
  cases hd : s.view.dropWhile isspace with
  | nil =>
    have hf : ConsumeFlag s flag = (false, s, flag) := by
      simp [ConsumeFlag, ConsumeWhitespace_dropWhile, hd, StringPiece.length]
    rw [hf] at h
    cases h
  | cons c t =>
    have hf := ConsumeFlag_of_dropWhile s flag c t hd
    by_cases hc : c ≠ '0' ∧ c ≠ '1'
    · rw [hf, if_pos hc] at h
      cases h
    · rw [hf, if_neg hc]
      have hc2 : c = '0' ∨ c = '1' := by
        by_cases h0 : c = '0'
        · exact Or.inl h0
        · by_cases h1 : c = '1'
          · exact Or.inr h1
          · exact absurd ⟨h0, h1⟩ hc
      refine ⟨c, t, rfl, hc2, ?_⟩
      rcases hc2 with rfl | rfl
      · show decide (('0' : Char) ≠ '0') = decide (('0' : Char) = '1')
        decide
      · show decide (('1' : Char) ≠ '0') = decide (('1' : Char) = '1')
        decide

theorem finish_fst (r : Bool × PathDataIterator) : (PathDataIterator.finish r).1 = r.1 := by
  unfold PathDataIterator.finish
  split_ifs with h
  · exact h.symm
  · simpa using h

theorem finish_fields (r : Bool × PathDataIterator) :
    (PathDataIterator.finish r).2.s_ = r.2.s_ ∧
    (PathDataIterator.finish r).2.command_type_ = r.2.command_type_ ∧
    (PathDataIterator.finish r).2.point_ = r.2.point_ ∧
    (PathDataIterator.finish r).2.absolute_ = r.2.absolute_ ∧
    (PathDataIterator.finish r).2.subpath_start_point_ = r.2.subpath_start_point_ ∧
    (PathDataIterator.finish r).2.arc_radius_x_ = r.2.arc_radius_x_ ∧
    (PathDataIterator.finish r).2.arc_radius_y_ = r.2.arc_radius_y_ ∧
    (PathDataIterator.finish r).2.rotation_ = r.2.rotation_ ∧
    (PathDataIterator.finish r).2.large_arc_ = r.2.large_arc_ ∧
    (PathDataIterator.finish r).2.sweep_ = r.2.sweep_ := by
  unfold PathDataIterator.finish
  split_ifs <;> exact ⟨rfl, rfl, rfl, rfl, rfl, rfl, rfl, rfl, rfl, rfl⟩

theorem ConsumeNumberDelimiter_rest (s : StringPiece) :
    (ConsumeNumberDelimiter s).2.rest = s.rest := by
  unfold ConsumeNumberDelimiter
  dsimp only
  split_ifs <;> rfl

theorem ConsumeFlag_true_cursor (s : StringPiece) (flag : Bool) (c : Char) (t : List Char)
    (hd : s.view.dropWhile isspace = c :: t) (h : (ConsumeFlag s flag).1 = true) :
    (c = '0' ∨ c = '1') ∧ ConsumeFlag s flag = (true, ⟨t, s.rest⟩, decide (c = '1')) := by
  have hf := ConsumeFlag_of_dropWhile s flag c t hd
  by_cases hc : c ≠ '0' ∧ c ≠ '1'
  · rw [hf, if_pos hc] at h
    cases h
  · have hc2 : c = '0' ∨ c = '1' := by
      by_cases h0 : c = '0'
      · exact Or.inl h0
      · by_cases h1 : c = '1'
        · exact Or.inr h1
        · exact absurd ⟨h0, h1⟩ hc
    refine ⟨hc2, ?_⟩
    rw [hf, if_neg hc]
    rcases hc2 with rfl | rfl
    · show (true, (⟨t, s.rest⟩ : StringPiece), decide (('0' : Char) ≠ '0')) =
        (true, ⟨t, s.rest⟩, decide (('0' : Char) = '1'))
      rfl
    · show (true, (⟨t, s.rest⟩ : StringPiece), decide (('1' : Char) ≠ '0')) =
        (true, ⟨t, s.rest⟩, decide (('1' : Char) = '1'))
      rfl

theorem Next_arc (P : Platform) (it : PathDataIterator) (cur : StringPiece) (absolute : Bool)
    (hfmt : it.format_ = kPathDataFormatPath)
    (hcur : (∃ ch l rest, (ConsumeWhitespace it.s_).2 = ⟨ch :: l, rest⟩ ∧
        ((ch = 'A' ∧ absolute = true) ∨ (ch = 'a' ∧ absolute = false)) ∧ cur = ⟨l, rest⟩) ∨
      ((ConsumeWhitespace it.s_).2.length ≠ 0 ∧
        (PeekAlpha (ConsumeWhitespace it.s_).2 '\x00').1 = false ∧
        it.is_first_command_ = false ∧ it.command_type_ = kPathCommandTypeEllipticalArc ∧
        absolute = it.absolute_ ∧ cur = (ConsumeNumberDelimiter (ConsumeWhitespace it.s_).2).2)) :
    it.Next P = PathDataIterator.finish (PathDataIterator.ParseEllipticalArcCommand P
      { it with
        s_ := cur
        absolute_ := absolute
        command_type_ := kPathCommandTypeEllipticalArc }) := by
  rcases hcur with ⟨ch, l, rest, hs, hch, rfl⟩ | ⟨hne, hpk, hfirst, hct, rfl, rfl⟩
  · rcases hch with ⟨rfl, rfl⟩ | ⟨rfl, rfl⟩
    · rw [Next_letter P it 'A' l rest kPathCommandTypeEllipticalArc hfmt hs (by decide)
        (by decide)]
      rfl
    · rw [Next_letter P it 'a' l rest kPathCommandTypeEllipticalArc hfmt hs (by decide)
        (by decide)]
      rfl
  · rw [Next_repeat P it hfmt hne hpk hfirst (by rw [hct]; decide), hct]
    rfl

theorem list_length_two {α : Type} (l : List α) (h : l.length = 2) : ∃ x y, l = [x, y] := by
  rcases l with _ | ⟨x, _ | ⟨y, _ | ⟨z, l⟩⟩⟩
  · cases h
  · cases h
  · exact ⟨x, y, rfl⟩
  · simp at h

theorem ConsumeFloats_two_eta (P : Platform) (s : StringPiece)
    (h : (ConsumeFloats P s 2 (List.replicate 2 0)).1 = true) :
    ∃ s4 x y, ConsumeFloats P s 2 (List.replicate 2 0) = (true, s4, [x, y]) := by
  have hlen : (ConsumeFloats P s 2 (List.replicate 2 0)).2.2.length = 2 :=
    GenericConsumeValues_length (ConsumeFloat P) ConsumeNumberDelimiter true 2 s
      (List.replicate 2 0)
  revert h hlen
  generalize ConsumeFloats P s 2 (List.replicate 2 0) = r
  rcases r with ⟨b, s4, pv⟩
  intro h hlen
  obtain ⟨x, y, hxy⟩ := list_length_two pv hlen
  cases h
  exact ⟨s4, x, y, by rw [hxy]⟩

theorem ParseEllipticalArcCommand_text (P : Platform) (d : PathDataIterator)
    (s1 : StringPiece) (rx ry rot : CGFloat)
    (h1 : ConsumeFloats P d.s_ 3 (List.replicate 3 0) = (true, s1, [rx, ry, rot]))
    (ht : (d.ParseEllipticalArcCommand P).1 = true) :
    ¬ ((P.isnan rx = false ∧ rx = 0) ∨ (P.isnan ry = false ∧ ry = 0)) ∧
    ∃ c1 t1 c2 t2 s4 x y,
      ((ConsumeNumberDelimiter s1).2.view.dropWhile isspace = c1 :: t1 ∧ (c1 = '0' ∨ c1 = '1')) ∧
      ((ConsumeNumberDelimiter ⟨t1, s1.rest⟩).2.view.dropWhile isspace = c2 :: t2 ∧
        (c2 = '0' ∨ c2 = '1')) ∧
      ConsumeFloats P (ConsumeNumberDelimiter ⟨t2, s1.rest⟩).2 2 (List.replicate 2 0)
        = (true, s4, [x, y]) ∧
      d.ParseEllipticalArcCommand P =
        (true, { d with
          s_ := s4
          arc_radius_x_ := P.fabs rx
          arc_radius_y_ := P.fabs ry
          rotation_ := rot
          large_arc_ := decide (c1 = '1')
          sweep_ := decide (c2 = '1')
          point_ := ⟨x + (if d.absolute_ = true then 0 else d.point_.x),
            y + (if d.absolute_ = true then 0 else d.point_.y)⟩ }) := by
  obtain ⟨hn, hf1, hf2, hf3⟩ := ParseEllipticalArcCommand_true P d s1 rx ry rot h1 ht
  obtain ⟨c1, t1, hd1, _, _⟩ := ConsumeFlag_true_text _ _ hf1
  obtain ⟨hc1, e1⟩ := ConsumeFlag_true_cursor _ _ c1 t1 hd1 hf1
  rw [ConsumeNumberDelimiter_rest] at e1
  rw [e1] at hf2 hf3
  dsimp only at hf2 hf3
  obtain ⟨c2, t2, hd2, _, _⟩ := ConsumeFlag_true_text _ _ hf2
  obtain ⟨hc2, e2⟩ := ConsumeFlag_true_cursor _ _ c2 t2 hd2 hf2
  rw [ConsumeNumberDelimiter_rest] at e2
  rw [e2] at hf3
  dsimp only at hf3
  obtain ⟨s4, x, y, e4⟩ := ConsumeFloats_two_eta P _ hf3
  exact ⟨hn, c1, t1, c2, t2, s4, x, y, ⟨hd1, hc1⟩, ⟨hd2, hc2⟩, e4,
    ParseEllipticalArcCommand_ok P d s1 ⟨t1, s1.rest⟩ ⟨t2, s1.rest⟩ s4 rx ry rot [x, y]
      (decide (c1 = '1')) (decide (c2 = '1')) h1 hn e1 e2 e4⟩

/-! ## C13: repeated operands -/

theorem ParseMoveAndLineCommand_line (P : Platform) (d : PathDataIterator)
    (s2 : StringPiece) (c e : CGFloat)
    (hop : ConsumeFloats P d.s_ 2 [d.point_.x, d.point_.y] = (true, s2, [c, e])) :
    d.ParseMoveAndLineCommand P kPathCommandTypeLineTo =
      (true, { d with
        s_ := s2
        point_ := if d.absolute_ then ⟨c, e⟩ else ⟨d.point_.x + c, d.point_.y + e⟩ }) := by
  unfold PathDataIterator.ParseMoveAndLineCommand
  dsimp only
  rw [hop]
  dsimp only
  rw [if_neg (show ¬ (true = false) by decide)]
  cases d.absolute_ <;> rfl

theorem ParseMoveAndLineCommand_move (P : Platform) (d : PathDataIterator)
    (s2 : StringPiece) (c e : CGFloat)
    (hop : ConsumeFloats P d.s_ 2 [d.point_.x, d.point_.y] = (true, s2, [c, e])) :
    d.ParseMoveAndLineCommand P kPathCommandTypeMoveTo =
      (true, { d with
        s_ := s2
        point_ := if d.absolute_ then ⟨c, e⟩ else ⟨d.point_.x + c, d.point_.y + e⟩ }) := by
  unfold PathDataIterator.ParseMoveAndLineCommand
  dsimp only
  rw [hop]
  dsimp only
  rw [if_neg (show ¬ (true = false) by decide)]
  cases d.absolute_ <;> rfl

theorem ParseMoveAndLineCommand_keeps (P : Platform) (d : PathDataIterator)
    (t : PathCommandType) :
    (d.ParseMoveAndLineCommand P t).2.command_type_ = d.command_type_ ∧
    (d.ParseMoveAndLineCommand P t).2.absolute_ = d.absolute_ ∧
    (d.ParseMoveAndLineCommand P t).2.subpath_start_point_ = d.subpath_start_point_ := by
  unfold PathDataIterator.ParseMoveAndLineCommand
  dsimp only
  split_ifs <;> exact ⟨rfl, rfl, rfl⟩

theorem ParseCubicBezierCommand_keeps (P : Platform) (d : PathDataIterator) :
    (d.ParseCubicBezierCommand P).2.command_type_ = d.command_type_ ∧
    (d.ParseCubicBezierCommand P).2.absolute_ = d.absolute_ ∧
    (d.ParseCubicBezierCommand P).2.subpath_start_point_ = d.subpath_start_point_ := by
  unfold PathDataIterator.ParseCubicBezierCommand
  dsimp only
  split_ifs <;> exact ⟨rfl, rfl, rfl⟩

theorem ParseShorthandCubicBezierCommand_keeps (P : Platform) (d : PathDataIterator) :
    (d.ParseShorthandCubicBezierCommand P).2.command_type_ = d.command_type_ ∧
    (d.ParseShorthandCubicBezierCommand P).2.absolute_ = d.absolute_ ∧
    (d.ParseShorthandCubicBezierCommand P).2.subpath_start_point_ = d.subpath_start_point_ := by
  unfold PathDataIterator.ParseShorthandCubicBezierCommand
  dsimp only
  by_cases h : (ConsumeFloats P d.s_ 4 (List.replicate 4 0)).1 = false
  · rw [if_pos h]
    exact ⟨rfl, rfl, rfl⟩
  · rw [if_neg h]
    exact ⟨rfl, rfl, rfl⟩

theorem ParseQuadBezierCommand_keeps (P : Platform) (d : PathDataIterator) :
    (d.ParseQuadBezierCommand P).2.command_type_ = d.command_type_ ∧
    (d.ParseQuadBezierCommand P).2.absolute_ = d.absolute_ ∧
    (d.ParseQuadBezierCommand P).2.subpath_start_point_ = d.subpath_start_point_ := by
  unfold PathDataIterator.ParseQuadBezierCommand
  dsimp only
  split_ifs <;> exact ⟨rfl, rfl, rfl⟩

theorem ParseShorthandQuadBezierCommand_keeps (P : Platform) (d : PathDataIterator) :
    (d.ParseShorthandQuadBezierCommand P).2.command_type_ = d.command_type_ ∧
    (d.ParseShorthandQuadBezierCommand P).2.absolute_ = d.absolute_ ∧
    (d.ParseShorthandQuadBezierCommand P).2.subpath_start_point_ = d.subpath_start_point_ := by
  unfold PathDataIterator.ParseShorthandQuadBezierCommand
  dsimp only
  by_cases h : (ConsumeFloats P d.s_ 2 (List.replicate 2 0)).1 = false
  · rw [if_pos h]
    exact ⟨rfl, rfl, rfl⟩
  · rw [if_neg h]
    exact ⟨rfl, rfl, rfl⟩

theorem ParseEllipticalArcCommand_keeps (P : Platform) (d : PathDataIterator) :
    (d.ParseEllipticalArcCommand P).2.command_type_ = d.command_type_ ∧
    (d.ParseEllipticalArcCommand P).2.absolute_ = d.absolute_ ∧
    (d.ParseEllipticalArcCommand P).2.subpath_start_point_ = d.subpath_start_point_ := by
  unfold PathDataIterator.ParseEllipticalArcCommand
  dsimp only
  split_ifs <;> exact ⟨rfl, rfl, rfl⟩

theorem dispatch_keeps (P : Platform) (d : PathDataIterator) :
    (PathDataIterator.dispatch P d).2.command_type_ = d.command_type_ ∧
    (PathDataIterator.dispatch P d).2.absolute_ = d.absolute_ := by
  unfold PathDataIterator.dispatch
  split
  · exact ⟨(ParseMoveAndLineCommand_keeps P d _).1, (ParseMoveAndLineCommand_keeps P d _).2.1⟩
  · exact ⟨(ParseMoveAndLineCommand_keeps P d _).1, (ParseMoveAndLineCommand_keeps P d _).2.1⟩
  · exact ⟨(ParseMoveAndLineCommand_keeps P d _).1, (ParseMoveAndLineCommand_keeps P d _).2.1⟩
  · exact ⟨(ParseMoveAndLineCommand_keeps P d _).1, (ParseMoveAndLineCommand_keeps P d _).2.1⟩
  · exact ⟨(ParseCubicBezierCommand_keeps P d).1, (ParseCubicBezierCommand_keeps P d).2.1⟩
  · exact ⟨(ParseShorthandCubicBezierCommand_keeps P d).1,
      (ParseShorthandCubicBezierCommand_keeps P d).2.1⟩
  · exact ⟨(ParseQuadBezierCommand_keeps P d).1, (ParseQuadBezierCommand_keeps P d).2.1⟩
  · exact ⟨(ParseShorthandQuadBezierCommand_keeps P d).1,
      (ParseShorthandQuadBezierCommand_keeps P d).2.1⟩
  · exact ⟨(ParseEllipticalArcCommand_keeps P d).1, (ParseEllipticalArcCommand_keeps P d).2.1⟩
  · exact ⟨rfl, rfl⟩

theorem dispatch_keeps_start (P : Platform) (d : PathDataIterator)
    (h : d.command_type_ ≠ kPathCommandTypeMoveTo) :
    (PathDataIterator.dispatch P d).2.subpath_start_point_ = d.subpath_start_point_ := by
  unfold PathDataIterator.dispatch
  split
  · rename_i hm
    exact absurd hm h
  · exact (ParseMoveAndLineCommand_keeps P d _).2.2
  · exact (ParseMoveAndLineCommand_keeps P d _).2.2
  · exact (ParseMoveAndLineCommand_keeps P d _).2.2
  · exact (ParseCubicBezierCommand_keeps P d).2.2
  · exact (ParseShorthandCubicBezierCommand_keeps P d).2.2
  · exact (ParseQuadBezierCommand_keeps P d).2.2
  · exact (ParseShorthandQuadBezierCommand_keeps P d).2.2
  · exact (ParseEllipticalArcCommand_keeps P d).2.2
  · rfl

theorem repeat_type_ne_move (t : PathCommandType) :
    (if t = kPathCommandTypeMoveTo then kPathCommandTypeLineTo else t) ≠
      kPathCommandTypeMoveTo := by
  by_cases h : t = kPathCommandTypeMoveTo
  · rw [if_pos h]; decide
  · rw [if_neg h]; exact h

theorem Next_repeat_line (P : Platform) (it : PathDataIterator) (s2 : StringPiece)
    (c e : CGFloat)
    (hfmt : it.format_ = kPathDataFormatPath)
    (hne : (ConsumeWhitespace it.s_).2.length ≠ 0)
    (hpk : (PeekAlpha (ConsumeWhitespace it.s_).2 '\x00').1 = false)
    (hfirst : it.is_first_command_ = false)
    (ht : it.command_type_ = kPathCommandTypeMoveTo ∨ it.command_type_ = kPathCommandTypeLineTo)
    (hop : ConsumeFloats P (ConsumeNumberDelimiter (ConsumeWhitespace it.s_).2).2 2
      [it.point_.x, it.point_.y] = (true, s2, [c, e])) :
    it.Next P = (true, { it with
      s_ := s2
      command_type_ := kPathCommandTypeLineTo
      point_ := if it.absolute_ then ⟨c, e⟩ else ⟨it.point_.x + c, it.point_.y + e⟩
      is_first_command_ := false
      last_command_type_ := kPathCommandTypeLineTo }) := by
  have hclose : it.command_type_ ≠ kPathCommandTypeClosePath := by
    rcases ht with h | h <;> rw [h] <;> decide
  have hty : (if it.command_type_ = kPathCommandTypeMoveTo then kPathCommandTypeLineTo
      else it.command_type_) = kPathCommandTypeLineTo := by
    rcases ht with h | h
    · rw [if_pos h]
    · rw [h]; rfl
  rw [Next_repeat P it hfmt hne hpk hfirst hclose, hty]
  have h2 : PathDataIterator.dispatch P { it with
        s_ := (ConsumeNumberDelimiter (ConsumeWhitespace it.s_).2).2
        command_type_ := kPathCommandTypeLineTo } =
      PathDataIterator.ParseMoveAndLineCommand P { it with
        s_ := (ConsumeNumberDelimiter (ConsumeWhitespace it.s_).2).2
        command_type_ := kPathCommandTypeLineTo } kPathCommandTypeLineTo := rfl
  have h3 := ParseMoveAndLineCommand_line P { it with
        s_ := (ConsumeNumberDelimiter (ConsumeWhitespace it.s_).2).2
        command_type_ := kPathCommandTypeLineTo } s2 c e hop
  rw [h2, h3]
  rfl

/-- C13: in path format, when the byte after the whitespace is not a letter:
as the first command, or while the command type is ClosePath, Next returns
false; otherwise Next runs the command of the current type again, LineTo in
place of MoveTo, behind an optional comma delimiter, with the absolute or
relative mode and the subpath start point as they were.  After a MoveTo or
LineTo whose operands read as (c, e), Next returns true with LineTo and the
point (c, e) in absolute mode and (x + c, y + e) in relative mode. -/
theorem bare_operands_repeat_command (P : Platform) (it : PathDataIterator)
    (hfmt : it.format_ = kPathDataFormatPath)
    (hne : (ConsumeWhitespace it.s_).2.length ≠ 0)
    (hpk : (PeekAlpha (ConsumeWhitespace it.s_).2 '\x00').1 = false) :
    ((it.is_first_command_ = true ∨ it.command_type_ = kPathCommandTypeClosePath) →
      (it.Next P).1 = false) ∧
    (it.is_first_command_ = false → it.command_type_ ≠ kPathCommandTypeClosePath →
      it.Next P = PathDataIterator.finish
        (PathDataIterator.dispatch P { it with
          s_ := (ConsumeNumberDelimiter (ConsumeWhitespace it.s_).2).2
          command_type_ := if it.command_type_ = kPathCommandTypeMoveTo
            then kPathCommandTypeLineTo else it.command_type_ }) ∧
      (it.Next P).2.command_type_ =
        (if it.command_type_ = kPathCommandTypeMoveTo then kPathCommandTypeLineTo
          else it.command_type_) ∧
      (it.Next P).2.absolute_ = it.absolute_ ∧
      (it.Next P).2.subpath_start_point_ = it.subpath_start_point_) ∧
    (∀ (s2 : StringPiece) (c e : CGFloat), it.is_first_command_ = false →
      (it.command_type_ = kPathCommandTypeMoveTo ∨ it.command_type_ = kPathCommandTypeLineTo) →
      ConsumeFloats P (ConsumeNumberDelimiter (ConsumeWhitespace it.s_).2).2 2
        [it.point_.x, it.point_.y] = (true, s2, [c, e]) →
      (it.Next P).1 = true ∧
      (it.Next P).2.command_type_ = kPathCommandTypeLineTo ∧
      (it.Next P).2.point_ =
        (if it.absolute_ then ⟨c, e⟩ else ⟨it.point_.x + c, it.point_.y + e⟩) ∧
      (it.Next P).2.s_ = s2) := by
  refine ⟨Next_no_repeat P it hfmt hne hpk, ?_, ?_⟩
  · intro hfirst hclose
    have hN := Next_repeat P it hfmt hne hpk hfirst hclose
    have hf := finish_fields (PathDataIterator.dispatch P { it with
          s_ := (ConsumeNumberDelimiter (ConsumeWhitespace it.s_).2).2
          command_type_ := if it.command_type_ = kPathCommandTypeMoveTo
            then kPathCommandTypeLineTo else it.command_type_ })
    have hk := dispatch_keeps P { it with
          s_ := (ConsumeNumberDelimiter (ConsumeWhitespace it.s_).2).2
          command_type_ := if it.command_type_ = kPathCommandTypeMoveTo
            then kPathCommandTypeLineTo else it.command_type_ }
    have hs := dispatch_keeps_start P { it with
          s_ := (ConsumeNumberDelimiter (ConsumeWhitespace it.s_).2).2
          command_type_ := if it.command_type_ = kPathCommandTypeMoveTo
            then kPathCommandTypeLineTo else it.command_type_ }
          (repeat_type_ne_move it.command_type_)
    refine ⟨hN, ?_, ?_, ?_⟩
    · rw [hN, hf.2.1, hk.1]
    · rw [hN, hf.2.2.2.1, hk.2]
    · rw [hN, hf.2.2.2.2.1, hs]
  · intro s2 c e hfirst ht hop
    rw [Next_repeat_line P it s2 c e hfmt hne hpk hfirst ht hop]
    exact ⟨rfl, rfl, rfl, rfl⟩

/-- C13 on "M 1 2 3 4" and "m 1 2 3 4": the bare pair is a LineTo, to (3,4)
after M and to (4,6) after m; and on "1 2" and "M 1 2 z 3 4": bare operands
first or after ClosePath end the iteration with false. -/
theorem bare_operands_repeat_command_witness :
    ((PathDataIterator.init PathDataIterator.zero "1 2".data kPathDataFormatPath false).Next
      Platform.exact).1 = false ∧
    PathDataIterator.commands Platform.exact "M 1 2 3 4" kPathDataFormatPath false 10
      = ([(kPathCommandTypeMoveTo, ⟨1, 2⟩), (kPathCommandTypeLineTo, ⟨3, 4⟩)], false) ∧
    PathDataIterator.commands Platform.exact "m 1 2 3 4" kPathDataFormatPath false 10
      = ([(kPathCommandTypeMoveTo, ⟨1, 2⟩), (kPathCommandTypeLineTo, ⟨4, 6⟩)], false) ∧
    PathDataIterator.commands Platform.exact "M 1 2 z 3 4" kPathDataFormatPath false 10
      = ([(kPathCommandTypeMoveTo, ⟨1, 2⟩), (kPathCommandTypeClosePath, ⟨1, 2⟩)], false) :=
  ⟨(bare_operands_repeat_command Platform.exact
      (PathDataIterator.init PathDataIterator.zero "1 2".data kPathDataFormatPath false)
      rfl (by decide) (by decide)).1 (Or.inl rfl),
   by decide!, by decide!, by decide!⟩

/-! ## C12: the points format -/

theorem ConsumeNumberDelimiter_text (s : StringPiece) :
    (ConsumeNumberDelimiter s).2 = ⟨skipNumberDelimiter s.view, s.rest⟩ := by
  rcases s with ⟨l, rest⟩
  have hw : ∀ x ∈ l.takeWhile isspace, isspace x = true := fun x hx => List.mem_takeWhile_imp hx
  have hl : l = l.takeWhile isspace ++ l.dropWhile isspace :=
    (List.takeWhile_append_dropWhile isspace l).symm
  unfold skipNumberDelimiter
  dsimp only
  cases hd : l.dropWhile isspace with
  | nil =>
    rw [if_neg (show ¬ ([] : List Char).head? = some ',' by simp)]
    unfold ConsumeNumberDelimiter
    dsimp only
    have e : ConsumeNumberDelimiterLoop l false 0 = (0 + (l.takeWhile isspace).length, false) := by
      conv_lhs => rw [hl, hd]
      rw [ConsumeNumberDelimiterLoop_ws _ [] false 0 hw]
      rfl
    rw [e]
    rfl
  | cons c t =>
    by_cases hc : c = ','
    · subst hc
      rw [if_pos (show (',' :: t).head? = some ',' from rfl)]
      have hw2 : ∀ x ∈ t.takeWhile isspace, isspace x = true :=
        fun x hx => List.mem_takeWhile_imp hx
      have hu : ∀ x, (t.dropWhile isspace).head? = some x → isspace x = false := by
        intro x hx
        cases hdd : t.dropWhile isspace with
        | nil => rw [hdd] at hx; cases hx
        | cons y u =>
          rw [hdd] at hx
          cases hx
          have := List.head_dropWhile_not isspace t (by rw [hdd]; simp)
          simpa [hdd] using this
      have := ConsumeNumberDelimiter_comma (l.takeWhile isspace) (t.takeWhile isspace)
        (t.dropWhile isspace) rest hw hw2 hu
      rw [List.takeWhile_append_dropWhile, ← hd, List.takeWhile_append_dropWhile] at this
      rw [this]
      rfl
    · rw [if_neg (show ¬ (c :: t).head? = some ',' by simpa using hc)]
      have hsp : isspace c = false := by
        have := List.head_dropWhile_not isspace l (by rw [hd]; simp)
        simpa [hd] using this
      unfold ConsumeNumberDelimiter
      dsimp only
      have e : ConsumeNumberDelimiterLoop l false 0 =
          (0 + (l.takeWhile isspace).length, false) := by
        conv_lhs => rw [hl, hd]
        rw [ConsumeNumberDelimiterLoop_ws _ (c :: t) false 0 hw]
        exact ConsumeNumberDelimiterLoop_stop (c :: t) false _
          (fun x hx => by cases hx; exact ⟨hsp, fun _ => hc⟩)
      rw [e]
      rfl

theorem skipNumberDelimiter_suffix (l : List Char) : skipNumberDelimiter l <:+ l := by
  unfold skipNumberDelimiter
  dsimp only
  split_ifs
  · exact (List.dropWhile_suffix _).trans ((List.tail_suffix _).trans (List.dropWhile_suffix _))
  · exact List.suffix_refl l

theorem Loop_next_optional {Value : Type} [Inhabited Value]
    (cv : StringPiece → Value → Bool × StringPiece × Value)
    (cd : StringPiece → Bool × StringPiece) (n i : Nat) (s s2 : StringPiece)
    (v : List Value) (x : Value)
    (hv : cv (cd s).2 (v.getD (i + 1) default) = (true, s2, x)) :
    GenericConsumeValuesLoop cv cd true (n + 1) (i + 1) s v =
      GenericConsumeValuesLoop cv cd true n (i + 2) s2 (v.set (i + 1) x) := by
  simp only [GenericConsumeValuesLoop, ne_eq, Nat.succ_ne_zero, not_false_eq_true, if_true,
    Bool.true_eq_false, false_and, and_false, if_false, hv]

theorem Next_end_close (P : Platform) (it : PathDataIterator)
    (h0 : (ConsumeWhitespace it.s_).2.length = 0)
    (hic : it.implicit_close_ = true) (hs : it.shown_close_path_ = false) :
    it.Next P = (true, { it with
      s_ := (ConsumeWhitespace it.s_).2
      command_type_ := kPathCommandTypeClosePath
      shown_close_path_ := true }) := by
  unfold PathDataIterator.Next
  dsimp only
  rw [if_pos h0, if_pos ⟨hic, hs⟩]

theorem Next_end (P : Platform) (it : PathDataIterator)
    (h0 : (ConsumeWhitespace it.s_).2.length = 0)
    (h : it.implicit_close_ = false ∨ it.shown_close_path_ = true) :
    it.Next P = (false, { it with s_ := (ConsumeWhitespace it.s_).2 }) := by
  unfold PathDataIterator.Next
  dsimp only
  rw [if_pos h0, if_neg]
  rintro ⟨h1, h2⟩
  rcases h with h | h
  · rw [h] at h1; cases h1
  · rw [h] at h2; cases h2

theorem call_succ (P : Platform) (it : PathDataIterator) : ∀ k : Nat,
    PathDataIterator.call P it (k + 1) = PathDataIterator.call P (it.Next P).2 k := by
  intro k
  induction k with
  | zero => rfl
  | succ k ih =>
    show (PathDataIterator.call P it (k + 1)).2.Next P = _
    rw [ih]
    rfl

theorem yield_succ (P : Platform) (it : PathDataIterator) (k : Nat) :
    PathDataIterator.yield P it (k + 1) = PathDataIterator.yield P (it.Next P).2 k := by
  unfold PathDataIterator.yield
  rw [call_succ]

theorem yield_zero (P : Platform) (it it2 : PathDataIterator) (h : it.Next P = (true, it2)) :
    PathDataIterator.yield P it 0 = some (it2.command_type_, it2.point_) := by
  unfold PathDataIterator.yield PathDataIterator.call
  rw [h]
  rfl

theorem ConsumeFloats_three_text (P : Platform) (s : StringPiece) (a b c x y z : CGFloat)
    (l1 l2 l3 : List Char) (h1 : floatSyntax P s.view = some (x, l1))
    (h2 : floatSyntax P (skipNumberDelimiter l1) = some (y, l2))
    (h3 : floatSyntax P (skipNumberDelimiter l2) = some (z, l3)) :
    ConsumeFloats P s 3 [a, b, c] = (true, ⟨l3, s.rest⟩, [x, y, z]) := by
  have e1 : ConsumeFloat P s (([a, b, c] : List CGFloat).getD 0 default)
      = (true, ⟨l1, s.rest⟩, x) :=
    ConsumeFloat_some P s _ x l1 h1
  have e2 : ConsumeFloat P (ConsumeNumberDelimiter ⟨l1, s.rest⟩).2
      ((([a, b, c] : List CGFloat).set 0 x).getD (0 + 1) default) = (true, ⟨l2, s.rest⟩, y) := by
    rw [ConsumeNumberDelimiter_text]
    exact ConsumeFloat_some P _ _ y l2 h2
  have e3 : ConsumeFloat P (ConsumeNumberDelimiter ⟨l2, s.rest⟩).2
      (((([a, b, c] : List CGFloat).set 0 x).set (0 + 1) y).getD (1 + 1) default)
      = (true, ⟨l3, s.rest⟩, z) := by
    rw [ConsumeNumberDelimiter_text]
    exact ConsumeFloat_some P _ _ z l3 h3
  have hsuf : l3 <:+ s.view :=
    (floatSyntax_suffix P _ z l3 h3).trans ((skipNumberDelimiter_suffix l2).trans
      ((floatSyntax_suffix P _ y l2 h2).trans
        ((skipNumberDelimiter_suffix l1).trans (floatSyntax_suffix P _ x l1 h1))))
  unfold ConsumeFloats
  apply GenericConsumeValues_of_loop (ConsumeFloat P) ConsumeNumberDelimiter true 3 s [a, b, c]
    [x, y, z] l3 hsuf
  rw [Loop_first (ConsumeFloat P) ConsumeNumberDelimiter true 2 s ⟨l1, s.rest⟩ [a, b, c] x e1,
    Loop_next_optional (ConsumeFloat P) ConsumeNumberDelimiter 1 0 ⟨l1, s.rest⟩ ⟨l2, s.rest⟩
      (([a, b, c] : List CGFloat).set 0 x) y e2,
    Loop_next_optional (ConsumeFloat P) ConsumeNumberDelimiter 0 1 ⟨l2, s.rest⟩ ⟨l3, s.rest⟩
      ((([a, b, c] : List CGFloat).set 0 x).set (0 + 1) y) z e3]
  rfl

/-- C15: an arc command in path format, either introduced by the letter A
(absolute) or a (relative) or repeated by bare operands after an arc, whose
three leading operands read as rx, ry and the rotation.  Next returns false
when rx or ry is a number and is 0.  When Next returns true the command type
is EllipticalArc, the radii are `fabs` of rx and of ry: for an operand that is
a number the radius is its absolute value and is positive, for an operand that
is NaN the radius is NaN; the rotation is the third operand, the two flags are
the bytes '0' or '1' found after the delimiters (true for '1'), and the point
is the final pair, added to the previous point in relative mode only. -/
theorem arc_radii_flags_and_point (P : Platform) (it : PathDataIterator) (cur : StringPiece)
    (absolute : Bool) (rx ry rot : CGFloat) (l1 l2 l3 : List Char)
    (hfmt : it.format_ = kPathDataFormatPath)
    (hcur : (∃ ch l rest, (ConsumeWhitespace it.s_).2 = ⟨ch :: l, rest⟩ ∧
        ((ch = 'A' ∧ absolute = true) ∨ (ch = 'a' ∧ absolute = false)) ∧ cur = ⟨l, rest⟩) ∨
      ((ConsumeWhitespace it.s_).2.length ≠ 0 ∧
        (PeekAlpha (ConsumeWhitespace it.s_).2 '\x00').1 = false ∧
        it.is_first_command_ = false ∧ it.command_type_ = kPathCommandTypeEllipticalArc ∧
        absolute = it.absolute_ ∧ cur = (ConsumeNumberDelimiter (ConsumeWhitespace it.s_).2).2))
    (hrx : floatSyntax P cur.view = some (rx, l1))
    (hry : floatSyntax P (skipNumberDelimiter l1) = some (ry, l2))
    (hrot : floatSyntax P (skipNumberDelimiter l2) = some (rot, l3)) :
    ConsumeFloats P cur 3 [0, 0, 0] = (true, ⟨l3, cur.rest⟩, [rx, ry, rot]) ∧
    (((P.isnan rx = false ∧ rx = 0) ∨ (P.isnan ry = false ∧ ry = 0)) →
      (it.Next P).1 = false) ∧
    ((it.Next P).1 = true →
      (it.Next P).2.command_type_ = kPathCommandTypeEllipticalArc ∧
      ((it.Next P).2.arc_radius_x_ = P.fabs rx ∧
        (P.isnan rx = false → (it.Next P).2.arc_radius_x_ = |rx| ∧ 0 < |rx|) ∧
        (P.isnan rx = true → (it.Next P).2.arc_radius_x_ = P.nan)) ∧
      ((it.Next P).2.arc_radius_y_ = P.fabs ry ∧
        (P.isnan ry = false → (it.Next P).2.arc_radius_y_ = |ry| ∧ 0 < |ry|) ∧
        (P.isnan ry = true → (it.Next P).2.arc_radius_y_ = P.nan)) ∧
      (it.Next P).2.rotation_ = rot ∧
      ∃ c1 t1 c2 t2 s4 x y,
        ((ConsumeNumberDelimiter ⟨l3, cur.rest⟩).2.view.dropWhile isspace = c1 :: t1 ∧
          (c1 = '0' ∨ c1 = '1')) ∧
        ((ConsumeNumberDelimiter ⟨t1, cur.rest⟩).2.view.dropWhile isspace = c2 :: t2 ∧
          (c2 = '0' ∨ c2 = '1')) ∧
        ConsumeFloats P (ConsumeNumberDelimiter ⟨t2, cur.rest⟩).2 2 [0, 0] = (true, s4, [x, y]) ∧
        (it.Next P).2.large_arc_ = decide (c1 = '1') ∧
        (it.Next P).2.sweep_ = decide (c2 = '1') ∧
        (it.Next P).2.point_ = ⟨x + (if absolute = true then 0 else it.point_.x),
          y + (if absolute = true then 0 else it.point_.y)⟩ ∧
        (it.Next P).2.s_ = s4) := by
  have h1 : ConsumeFloats P cur 3 [0, 0, 0] = (true, ⟨l3, cur.rest⟩, [rx, ry, rot]) :=
    ConsumeFloats_three_text P cur 0 0 0 rx ry rot l1 l2 l3 hrx hry hrot
  have hN := Next_arc P it cur absolute hfmt hcur
  have h1a : ConsumeFloats P
      ({ it with
        s_ := cur
        absolute_ := absolute
        command_type_ := kPathCommandTypeEllipticalArc } : PathDataIterator).s_ 3
      (List.replicate 3 0) = (true, ⟨l3, cur.rest⟩, [rx, ry, rot]) := h1
  refine ⟨h1, ?_, ?_⟩
  · intro h0
    rw [hN, finish_fst]
    exact ParseEllipticalArcCommand_zero_radius P _ _ rx ry rot h1a h0
  · intro ht
    rw [hN, finish_fst] at ht
    obtain ⟨hn, c1, t1, c2, t2, s4, x, y, hA, hB, hC, hD⟩ :=
      ParseEllipticalArcCommand_text P _ _ rx ry rot h1a ht
    rw [hN, hD]
    refine ⟨rfl, ⟨rfl, ?_, ?_⟩, ⟨rfl, ?_, ?_⟩, rfl, c1, t1, c2, t2, s4, x, y,
      hA, hB, hC, rfl, rfl, rfl, rfl⟩
    · intro hx
      exact ⟨fabs_of_not_nan P rx hx, abs_pos.2 fun h => hn (Or.inl ⟨hx, h⟩)⟩
    · intro hx
      exact fabs_of_nan P rx hx
    · intro hy
      exact ⟨fabs_of_not_nan P ry hy, abs_pos.2 fun h => hn (Or.inr ⟨hy, h⟩)⟩
    · intro hy
      exact fabs_of_nan P ry hy

/-- C15, the code at the failing input: on "A 0e400 1 0 0 0 1 1" with IEEE
doubles the first operand is 0 times the infinite power 10^400, which is NaN.
ConsumeFloat reads it with success, the test of the radii against 0 does not
reject it, and Next returns true with a radius x that is NaN. -/
theorem arc_radius_nan_passes_zero_test :
    floatOutcome Platform.double " 0e400 1 0 0 0 1 1".data
      = some (FloatValue.nan, " 1 0 0 0 1 1".data) ∧
    (ConsumeFloat Platform.double ⟨" 0e400 1 0 0 0 1 1".data, []⟩ 0).1 = true ∧
    ((PathDataIterator.init PathDataIterator.zero "A 0e400 1 0 0 0 1 1".data
        kPathDataFormatPath false).Next Platform.double).1 = true ∧
    ((PathDataIterator.init PathDataIterator.zero "A 0e400 1 0 0 0 1 1".data
        kPathDataFormatPath false).Next Platform.double).2.command_type_ = kPathCommandTypeEllipticalArc ∧
    ((PathDataIterator.init PathDataIterator.zero "A 0e400 1 0 0 0 1 1".data
        kPathDataFormatPath false).Next Platform.double).2.arc_radius_x_ = Platform.double.nan ∧
    Platform.double.isnan
      ((PathDataIterator.init PathDataIterator.zero "A 0e400 1 0 0 0 1 1".data
        kPathDataFormatPath false).Next Platform.double).2.arc_radius_x_ = true ∧
    ((PathDataIterator.init PathDataIterator.zero "A 0e400 1 0 0 0 1 1".data
        kPathDataFormatPath false).Next Platform.double).2.arc_radius_y_ = 1 := by
  refine ⟨?_, ?_, ?_, ?_, ?_, ?_, ?_⟩ <;> decide!

/-- C15 on "A 0 4 30 1 0 5 6", where rx is 0 and Next returns false, and on
"M 1 2 a 3 -4 30 1,0 5 6 2 2 0 0 1 1 1": the arc behind the MoveTo has the
radii 3 and 4, the rotation 30, large_arc true, sweep false and the point
(1 + 5, 2 + 6), and the bare operands behind it are a second relative arc to
(6 + 1, 8 + 1). -/
theorem arc_radii_flags_and_point_witness :
    ((PathDataIterator.init PathDataIterator.zero "A 0 4 30 1 0 5 6".data kPathDataFormatPath
        false).Next Platform.exact).1 = false ∧
    ((PathDataIterator.call Platform.exact
        (PathDataIterator.init PathDataIterator.zero
          "M 1 2 a 3 -4 30 1,0 5 6 2 2 0 0 1 1 1".data kPathDataFormatPath false) 1).1 = true ∧
     (PathDataIterator.call Platform.exact
        (PathDataIterator.init PathDataIterator.zero
          "M 1 2 a 3 -4 30 1,0 5 6 2 2 0 0 1 1 1".data kPathDataFormatPath false)
        1).2.command_type_ = kPathCommandTypeEllipticalArc ∧
     (PathDataIterator.call Platform.exact
        (PathDataIterator.init PathDataIterator.zero
          "M 1 2 a 3 -4 30 1,0 5 6 2 2 0 0 1 1 1".data kPathDataFormatPath false)
        1).2.arc_radius_x_ = 3 ∧
     (PathDataIterator.call Platform.exact
        (PathDataIterator.init PathDataIterator.zero
          "M 1 2 a 3 -4 30 1,0 5 6 2 2 0 0 1 1 1".data kPathDataFormatPath false)
        1).2.arc_radius_y_ = 4 ∧
     (PathDataIterator.call Platform.exact
        (PathDataIterator.init PathDataIterator.zero
          "M 1 2 a 3 -4 30 1,0 5 6 2 2 0 0 1 1 1".data kPathDataFormatPath false)
        1).2.rotation_ = 30 ∧
     (PathDataIterator.call Platform.exact
        (PathDataIterator.init PathDataIterator.zero
          "M 1 2 a 3 -4 30 1,0 5 6 2 2 0 0 1 1 1".data kPathDataFormatPath false)
        1).2.large_arc_ = true ∧
     (PathDataIterator.call Platform.exact
        (PathDataIterator.init PathDataIterator.zero
          "M 1 2 a 3 -4 30 1,0 5 6 2 2 0 0 1 1 1".data kPathDataFormatPath false)
        1).2.sweep_ = false ∧
     (PathDataIterator.call Platform.exact
        (PathDataIterator.init PathDataIterator.zero
          "M 1 2 a 3 -4 30 1,0 5 6 2 2 0 0 1 1 1".data kPathDataFormatPath false)
        1).2.point_ = ⟨6, 8⟩) ∧
    PathDataIterator.yield Platform.exact
      (PathDataIterator.init PathDataIterator.zero
          "M 1 2 a 3 -4 30 1,0 5 6 2 2 0 0 1 1 1".data kPathDataFormatPath false) 2 =
      some (kPathCommandTypeEllipticalArc, ⟨7, 9⟩) :=
  ⟨((arc_radii_flags_and_point Platform.exact
      (PathDataIterator.init PathDataIterator.zero "A 0 4 30 1 0 5 6".data kPathDataFormatPath
        false) ⟨" 0 4 30 1 0 5 6".data, []⟩ true 0 4 30 " 4 30 1 0 5 6".data " 30 1 0 5 6".data
      " 1 0 5 6".data rfl
      (Or.inl ⟨'A', " 0 4 30 1 0 5 6".data, [], by decide, Or.inl ⟨rfl, rfl⟩, rfl⟩)
      (by decide!) (by decide!) (by decide!)).2.1) (Or.inl ⟨by decide!, rfl⟩),
   by decide!, by decide!⟩

/-! ## C11: a relative command and its absolute form -/

theorem yield_zero_false (P : Platform) (it it2 : PathDataIterator)
    (h : it.Next P = (false, it2)) : PathDataIterator.yield P it 0 = none := by
  unfold PathDataIterator.yield PathDataIterator.call
  rw [h]
  rfl

theorem ConsumeWhitespace_idem_empty (s : StringPiece)
    (h0 : (ConsumeWhitespace s).2.length = 0) :
    (ConsumeWhitespace (ConsumeWhitespace s).2).2.length = 0 := by
  rw [ConsumeWhitespace_dropWhile] at h0 ⊢
  rw [ConsumeWhitespace_dropWhile]
  dsimp only [StringPiece.length] at *
  have hv : s.view.dropWhile isspace = [] := List.length_eq_zero.1 h0
  rw [hv]
  rfl

theorem yield_absolute_empty (P : Platform) : ∀ (k : Nat) (a : PathDataIterator) (v : Bool),
    (ConsumeWhitespace a.s_).2.length = 0 →
    PathDataIterator.yield P { a with absolute_ := v } k = PathDataIterator.yield P a k := by
  intro k
  induction k with
  | zero =>
    intro a v h0
    by_cases hc : a.implicit_close_ = true ∧ a.shown_close_path_ = false
    · rw [yield_zero P _ _ (Next_end_close P { a with absolute_ := v } h0 hc.1 hc.2),
        yield_zero P _ _ (Next_end_close P a h0 hc.1 hc.2)]
    · have hc2 : a.implicit_close_ = false ∨ a.shown_close_path_ = true := by
        cases h1 : a.implicit_close_
        · exact Or.inl rfl
        · cases h2 : a.shown_close_path_
          · exact absurd ⟨h1, h2⟩ hc
          · exact Or.inr rfl
      rw [yield_zero_false P _ _ (Next_end P { a with absolute_ := v } h0 hc2),
        yield_zero_false P _ _ (Next_end P a h0 hc2)]
  | succ k ih =>
    intro a v h0
    rw [yield_succ, yield_succ]
    by_cases hc : a.implicit_close_ = true ∧ a.shown_close_path_ = false
    · rw [Next_end_close P { a with absolute_ := v } h0 hc.1 hc.2,
        Next_end_close P a h0 hc.1 hc.2]
      exact ih { a with
        s_ := (ConsumeWhitespace a.s_).2
        command_type_ := kPathCommandTypeClosePath
        shown_close_path_ := true } v (ConsumeWhitespace_idem_empty a.s_ h0)
    · have hc2 : a.implicit_close_ = false ∨ a.shown_close_path_ = true := by
        cases h1 : a.implicit_close_
        · exact Or.inl rfl
        · cases h2 : a.shown_close_path_
          · exact absurd ⟨h1, h2⟩ hc
          · exact Or.inr rfl
      rw [Next_end P { a with absolute_ := v } h0 hc2, Next_end P a h0 hc2]
      exact ih { a with s_ := (ConsumeWhitespace a.s_).2 } v
        (ConsumeWhitespace_idem_empty a.s_ h0)

theorem ParseSingleCommandForPath_letter_none (P : Platform) (it : PathDataIterator) (ch : Char)
    (l rest : List Char) (hs : it.s_ = ⟨ch :: l, rest⟩)
    (halpha : ('a' ≤ ch ∧ ch ≤ 'z') ∨ ('A' ≤ ch ∧ ch ≤ 'Z'))
    (ht : commandTypeOfChar
      (if decide ('A' ≤ ch ∧ ch ≤ 'Z') = true then Char.ofNat (ch.toNat + 32) else ch) = none) :
    it.ParseSingleCommandForPath P =
      (false, { it with
        s_ := ⟨l, rest⟩
        absolute_ := decide ('A' ≤ ch ∧ ch ≤ 'Z') }) := by
  have hpk : PeekAlpha ⟨ch :: l, rest⟩ '\x00' = (true, ch) := by
    unfold PeekAlpha
    simp only [StringPiece.get, List.cons_append, List.getD_cons_zero]
    rw [if_pos halpha]
  have hpk2 : PeekAlpha ⟨ch :: l, rest⟩ ch = (true, ch) := by
    unfold PeekAlpha
    simp only [StringPiece.get, List.cons_append, List.getD_cons_zero]
    rw [if_pos halpha]
  have hca : ConsumeAlpha ⟨ch :: l, rest⟩ ch = (true, ⟨l, rest⟩, ch) := by
    unfold ConsumeAlpha
    rw [hpk2]
    simp [StringPiece.Advance]
  unfold PathDataIterator.ParseSingleCommandForPath
  dsimp only
  rw [hs, hpk]
  dsimp only
  rw [if_pos rfl, hca]
  dsimp only
  rw [if_neg (show ¬ (true = false) by decide), ht]

theorem Next_absolute_letter (P : Platform) (a : PathDataIterator) (v : Bool) (ch : Char)
    (l rest : List Char) (hfmt : a.format_ = kPathDataFormatPath)
    (hs : (ConsumeWhitespace a.s_).2 = ⟨ch :: l, rest⟩)
    (halpha : ('a' ≤ ch ∧ ch ≤ 'z') ∨ ('A' ≤ ch ∧ ch ≤ 'Z')) :
    PathDataIterator.Next P { a with absolute_ := v } = a.Next P := by
  have hne : (ConsumeWhitespace a.s_).2.length ≠ 0 := by
    rw [hs]; simp [StringPiece.length]
  rw [Next_of_path P { a with absolute_ := v } hfmt hne, Next_of_path P a hfmt hne]
  cases ht : commandTypeOfChar
      (if decide ('A' ≤ ch ∧ ch ≤ 'Z') = true then Char.ofNat (ch.toNat + 32) else ch) with
  | none =>
    rw [ParseSingleCommandForPath_letter_none P _ ch l rest hs halpha ht,
      ParseSingleCommandForPath_letter_none P _ ch l rest hs halpha ht]
  | some t =>
    rw [ParseSingleCommandForPath_letter P _ ch l rest t hs halpha ht,
      ParseSingleCommandForPath_letter P _ ch l rest t hs halpha ht]

theorem PeekAlpha_cons (ch : Char) (l rest : List Char)
    (h : (PeekAlpha ⟨ch :: l, rest⟩ '\x00').1 = true) :
    ('a' ≤ ch ∧ ch ≤ 'z') ∨ ('A' ≤ ch ∧ ch ≤ 'Z') := by
  unfold PeekAlpha at h
  simp only [StringPiece.get, List.cons_append, List.getD_cons_zero] at h
  by_contra hc
  rw [if_neg hc] at h
  cases h

theorem yield_absolute_irrelevant (P : Platform) (a : PathDataIterator) (v : Bool)
    (hfmt : a.format_ = kPathDataFormatPath)
    (hnext : (ConsumeWhitespace a.s_).2.length = 0 ∨
      (PeekAlpha (ConsumeWhitespace a.s_).2 '\x00').1 = true) (k : Nat) :
    PathDataIterator.yield P { a with absolute_ := v } k = PathDataIterator.yield P a k := by
  by_cases h0 : (ConsumeWhitespace a.s_).2.length = 0
  · exact yield_absolute_empty P k a v h0
  · have hpk : (PeekAlpha (ConsumeWhitespace a.s_).2 '\x00').1 = true := by
      rcases hnext with h | h
      · exact absurd h h0
      · exact h
    cases hv : (ConsumeWhitespace a.s_).2 with
    | mk view rest =>
      cases view with
      | nil => rw [hv] at h0; exact absurd rfl h0
      | cons ch l =>
        rw [hv] at hpk
        have hN := Next_absolute_letter P a v ch l rest hfmt hv (PeekAlpha_cons ch l rest hpk)
        cases k with
        | zero =>
          unfold PathDataIterator.yield PathDataIterator.call
          rw [hN]
        | succ k =>
          rw [yield_succ, yield_succ, hN]

theorem dispatch_move (P : Platform) (d : PathDataIterator)
    (h : d.command_type_ = kPathCommandTypeMoveTo) :
    PathDataIterator.dispatch P d =
      ((d.ParseMoveAndLineCommand P kPathCommandTypeMoveTo).1,
       { (d.ParseMoveAndLineCommand P kPathCommandTypeMoveTo).2 with
         subpath_start_point_ := (d.ParseMoveAndLineCommand P kPathCommandTypeMoveTo).2.point_ }) := by
  unfold PathDataIterator.dispatch
  rw [h]

theorem Next_move_letter (P : Platform) (it : PathDataIterator) (ch : Char) (l rest : List Char)
    (s2 : StringPiece) (c e : CGFloat) (hfmt : it.format_ = kPathDataFormatPath)
    (hs : (ConsumeWhitespace it.s_).2 = ⟨ch :: l, rest⟩) (hch : ch = 'm' ∨ ch = 'M')
    (hop : ConsumeFloats P ⟨l, rest⟩ 2 [it.point_.x, it.point_.y] = (true, s2, [c, e])) :
    it.Next P = (true, { it with
      s_ := s2
      absolute_ := decide (ch = 'M')
      command_type_ := kPathCommandTypeMoveTo
      point_ := if ch = 'M' then ⟨c, e⟩ else ⟨it.point_.x + c, it.point_.y + e⟩
      subpath_start_point_ :=
        if ch = 'M' then ⟨c, e⟩ else ⟨it.point_.x + c, it.point_.y + e⟩
      is_first_command_ := false
      last_command_type_ := kPathCommandTypeMoveTo }) := by
  rcases hch with rfl | rfl
  · have h1 := Next_letter P it 'm' l rest kPathCommandTypeMoveTo hfmt hs (by decide) (by decide)
    have h3 := ParseMoveAndLineCommand_move P { it with
          s_ := ⟨l, rest⟩
          absolute_ := decide ('A' ≤ 'm' ∧ 'm' ≤ 'Z')
          command_type_ := kPathCommandTypeMoveTo } s2 c e hop
    rw [h1, dispatch_move P _ rfl, h3]
    rfl
  · have h1 := Next_letter P it 'M' l rest kPathCommandTypeMoveTo hfmt hs (by decide) (by decide)
    have h3 := ParseMoveAndLineCommand_move P { it with
          s_ := ⟨l, rest⟩
          absolute_ := decide ('A' ≤ 'M' ∧ 'M' ≤ 'Z')
          command_type_ := kPathCommandTypeMoveTo } s2 c e hop
    rw [h1, dispatch_move P _ rfl, h3]
    rfl

theorem Next_line_letter (P : Platform) (it : PathDataIterator) (ch : Char) (l rest : List Char)
    (s2 : StringPiece) (c e : CGFloat) (hfmt : it.format_ = kPathDataFormatPath)
    (hs : (ConsumeWhitespace it.s_).2 = ⟨ch :: l, rest⟩) (hch : ch = 'l' ∨ ch = 'L')
    (hop : ConsumeFloats P ⟨l, rest⟩ 2 [it.point_.x, it.point_.y] = (true, s2, [c, e])) :
    it.Next P = (true, { it with
      s_ := s2
      absolute_ := decide (ch = 'L')
      command_type_ := kPathCommandTypeLineTo
      point_ := if ch = 'L' then ⟨c, e⟩ else ⟨it.point_.x + c, it.point_.y + e⟩
      is_first_command_ := false
      last_command_type_ := kPathCommandTypeLineTo }) := by
  rcases hch with rfl | rfl
  · have h1 := Next_letter P it 'l' l rest kPathCommandTypeLineTo hfmt hs (by decide) (by decide)
    have h2 : PathDataIterator.dispatch P { it with
          s_ := ⟨l, rest⟩
          absolute_ := decide ('A' ≤ 'l' ∧ 'l' ≤ 'Z')
          command_type_ := kPathCommandTypeLineTo } =
        PathDataIterator.ParseMoveAndLineCommand P { it with
          s_ := ⟨l, rest⟩
          absolute_ := decide ('A' ≤ 'l' ∧ 'l' ≤ 'Z')
          command_type_ := kPathCommandTypeLineTo } kPathCommandTypeLineTo := rfl
    have h3 := ParseMoveAndLineCommand_line P { it with
          s_ := ⟨l, rest⟩
          absolute_ := decide ('A' ≤ 'l' ∧ 'l' ≤ 'Z')
          command_type_ := kPathCommandTypeLineTo } s2 c e hop
    rw [h1, h2, h3]
    rfl
  · have h1 := Next_letter P it 'L' l rest kPathCommandTypeLineTo hfmt hs (by decide) (by decide)
    have h2 : PathDataIterator.dispatch P { it with
          s_ := ⟨l, rest⟩
          absolute_ := decide ('A' ≤ 'L' ∧ 'L' ≤ 'Z')
          command_type_ := kPathCommandTypeLineTo } =
        PathDataIterator.ParseMoveAndLineCommand P { it with
          s_ := ⟨l, rest⟩
          absolute_ := decide ('A' ≤ 'L' ∧ 'L' ≤ 'Z')
          command_type_ := kPathCommandTypeLineTo } kPathCommandTypeLineTo := rfl
    have h3 := ParseMoveAndLineCommand_line P { it with
          s_ := ⟨l, rest⟩
          absolute_ := decide ('A' ≤ 'L' ∧ 'L' ≤ 'Z')
          command_type_ := kPathCommandTypeLineTo } s2 c e hop
    rw [h1, h2, h3]
    rfl

/-- C11 as stated fails when bare operands follow the replaced command: from
the origin "m 1 1 2 2" yields MoveTo (1,1) and LineTo (3,3), while its
absolute form "M 1 1 2 2" yields MoveTo (1,1) and LineTo (2,2), because the
repeated command keeps the mode of the letter. -/
theorem relative_absolute_differ_on_repeat :
    PathDataIterator.commands Platform.exact "m 1 1 2 2" kPathDataFormatPath false 10
      = ([(kPathCommandTypeMoveTo, ⟨1, 1⟩), (kPathCommandTypeLineTo, ⟨3, 3⟩)], false) ∧
    PathDataIterator.commands Platform.exact "M 1 1 2 2" kPathDataFormatPath false 10
      = ([(kPathCommandTypeMoveTo, ⟨1, 1⟩), (kPathCommandTypeLineTo, ⟨2, 2⟩)], false) := by
  decide!

/-- C11, amended: in path format, at a relative command m or l whose operands
read as (dx, dy) with the current point (x, y), let the absolute form M or L
with operands that read as (x + dx, y + dy) stand in its place, with the same
data behind the operands.  When that data, after whitespace, is empty or
starts with a letter, every call of Next yields the same command type and the
same point for both; the first call yields MoveTo or LineTo with the point
(x + dx, y + dy). -/
theorem relative_absolute_equivalence (P : Platform) (it : PathDataIterator)
    (sAbs : StringPiece) (ch chA : Char) (l rest lA restA : List Char) (s2 : StringPiece)
    (dx dy : CGFloat) (hfmt : it.format_ = kPathDataFormatPath)
    (hch : (ch = 'm' ∧ chA = 'M') ∨ (ch = 'l' ∧ chA = 'L'))
    (hs : (ConsumeWhitespace it.s_).2 = ⟨ch :: l, rest⟩)
    (hrel : ConsumeFloats P ⟨l, rest⟩ 2 [it.point_.x, it.point_.y] = (true, s2, [dx, dy]))
    (hsA : (ConsumeWhitespace sAbs).2 = ⟨chA :: lA, restA⟩)
    (habs : ConsumeFloats P ⟨lA, restA⟩ 2 [it.point_.x, it.point_.y]
      = (true, s2, [it.point_.x + dx, it.point_.y + dy]))
    (hnext : (ConsumeWhitespace s2).2.length = 0 ∨
      (PeekAlpha (ConsumeWhitespace s2).2 '\x00').1 = true) :
    PathDataIterator.yield P it 0 =
      some (if ch = 'm' then kPathCommandTypeMoveTo else kPathCommandTypeLineTo,
        ⟨it.point_.x + dx, it.point_.y + dy⟩) ∧
    ∀ k, PathDataIterator.yield P { it with s_ := sAbs } k = PathDataIterator.yield P it k := by
  rcases hch with ⟨rfl, rfl⟩ | ⟨rfl, rfl⟩
  · have hR : it.Next P = (true, { it with
        s_ := s2
        absolute_ := false
        command_type_ := kPathCommandTypeMoveTo
        point_ := ⟨it.point_.x + dx, it.point_.y + dy⟩
        subpath_start_point_ := ⟨it.point_.x + dx, it.point_.y + dy⟩
        is_first_command_ := false
        last_command_type_ := kPathCommandTypeMoveTo }) :=
      Next_move_letter P it 'm' l rest s2 dx dy hfmt hs (Or.inl rfl) hrel
    have hA : PathDataIterator.Next P { it with s_ := sAbs } = (true, { it with
        s_ := s2
        absolute_ := true
        command_type_ := kPathCommandTypeMoveTo
        point_ := ⟨it.point_.x + dx, it.point_.y + dy⟩
        subpath_start_point_ := ⟨it.point_.x + dx, it.point_.y + dy⟩
        is_first_command_ := false
        last_command_type_ := kPathCommandTypeMoveTo }) :=
      Next_move_letter P { it with s_ := sAbs } 'M' lA restA s2 _ _ hfmt hsA (Or.inr rfl) habs
    refine ⟨yield_zero P it _ hR, ?_⟩
    intro k
    cases k with
    | zero => rw [yield_zero P _ _ hA, yield_zero P _ _ hR]
    | succ k =>
      rw [yield_succ, yield_succ, hA, hR]
      exact yield_absolute_irrelevant P { it with
        s_ := s2
        absolute_ := false
        command_type_ := kPathCommandTypeMoveTo
        point_ := ⟨it.point_.x + dx, it.point_.y + dy⟩
        subpath_start_point_ := ⟨it.point_.x + dx, it.point_.y + dy⟩
        is_first_command_ := false
        last_command_type_ := kPathCommandTypeMoveTo } true hfmt hnext k
  · have hR : it.Next P = (true, { it with
        s_ := s2
        absolute_ := false
        command_type_ := kPathCommandTypeLineTo
        point_ := ⟨it.point_.x + dx, it.point_.y + dy⟩
        is_first_command_ := false
        last_command_type_ := kPathCommandTypeLineTo }) :=
      Next_line_letter P it 'l' l rest s2 dx dy hfmt hs (Or.inl rfl) hrel
    have hA : PathDataIterator.Next P { it with s_ := sAbs } = (true, { it with
        s_ := s2
        absolute_ := true
        command_type_ := kPathCommandTypeLineTo
        point_ := ⟨it.point_.x + dx, it.point_.y + dy⟩
        is_first_command_ := false
        last_command_type_ := kPathCommandTypeLineTo }) :=
      Next_line_letter P { it with s_ := sAbs } 'L' lA restA s2 _ _ hfmt hsA (Or.inr rfl) habs
    refine ⟨yield_zero P it _ hR, ?_⟩
    intro k
    cases k with
    | zero => rw [yield_zero P _ _ hA, yield_zero P _ _ hR]
    | succ k =>
      rw [yield_succ, yield_succ, hA, hR]
      exact yield_absolute_irrelevant P { it with
        s_ := s2
        absolute_ := false
        command_type_ := kPathCommandTypeLineTo
        point_ := ⟨it.point_.x + dx, it.point_.y + dy⟩
        is_first_command_ := false
        last_command_type_ := kPathCommandTypeLineTo } true hfmt hnext k

/-- C11, amended, on "M 5 5 l 1 2 L 0 0" and "M 5 5 L 6 7 L 0 0": both yield
MoveTo (5,5), LineTo (6,7), LineTo (0,0); behind the first command the cursor
" L 6 7 L 0 0" stands in place of " l 1 2 L 0 0" and every call of Next yields
the same for both. -/
theorem relative_absolute_equivalence_witness :
    PathDataIterator.commands Platform.exact "M 5 5 l 1 2 L 0 0" kPathDataFormatPath false 10
      = ([(kPathCommandTypeMoveTo, ⟨5, 5⟩), (kPathCommandTypeLineTo, ⟨6, 7⟩),
          (kPathCommandTypeLineTo, ⟨0, 0⟩)], false) ∧
    PathDataIterator.commands Platform.exact "M 5 5 L 6 7 L 0 0" kPathDataFormatPath false 10
      = ([(kPathCommandTypeMoveTo, ⟨5, 5⟩), (kPathCommandTypeLineTo, ⟨6, 7⟩),
          (kPathCommandTypeLineTo, ⟨0, 0⟩)], false) ∧
    ((PathDataIterator.init PathDataIterator.zero "M 5 5 l 1 2 L 0 0".data kPathDataFormatPath
      false).Next Platform.exact).2.s_ = ⟨" l 1 2 L 0 0".data, []⟩ ∧
    ∀ k, PathDataIterator.yield Platform.exact
        { ((PathDataIterator.init PathDataIterator.zero "M 5 5 l 1 2 L 0 0".data
            kPathDataFormatPath false).Next Platform.exact).2 with
          s_ := ⟨" L 6 7 L 0 0".data, []⟩ } k =
      PathDataIterator.yield Platform.exact
        ((PathDataIterator.init PathDataIterator.zero "M 5 5 l 1 2 L 0 0".data
            kPathDataFormatPath false).Next Platform.exact).2 k :=
  ⟨by decide!, by decide!, by decide!,
   (relative_absolute_equivalence Platform.exact
      ((PathDataIterator.init PathDataIterator.zero "M 5 5 l 1 2 L 0 0".data
        kPathDataFormatPath false).Next Platform.exact).2
      ⟨" L 6 7 L 0 0".data, []⟩ 'l' 'L' " 1 2 L 0 0".data [] " 6 7 L 0 0".data []
      ⟨" L 0 0".data, []⟩ 1 2 (by decide!) (Or.inr ⟨rfl, rfl⟩) (by decide!) (by decide!)
      (by decide!) (by decide!) (Or.inr (by decide!))).2⟩

/-! ## C21: RgbColor -/

/-- C21: the constructor RgbColor(r, g, b) stores min(max(v, 0), 1) for each
component, so each stored component lies in [0, 1], and a component that is
in [0, 1] already is stored as it is. -/
theorem RgbColor_components_clamped (r g b : CGFloat) :
    ((RgbColor.make r g b).red = min (max r 0) 1 ∧
      (RgbColor.make r g b).green = min (max g 0) 1 ∧
      (RgbColor.make r g b).blue = min (max b 0) 1) ∧
    ((0 ≤ (RgbColor.make r g b).red ∧ (RgbColor.make r g b).red ≤ 1) ∧
      (0 ≤ (RgbColor.make r g b).green ∧ (RgbColor.make r g b).green ≤ 1) ∧
      (0 ≤ (RgbColor.make r g b).blue ∧ (RgbColor.make r g b).blue ≤ 1)) ∧
    ((0 ≤ r → r ≤ 1 → (RgbColor.make r g b).red = r) ∧
      (0 ≤ g → g ≤ 1 → (RgbColor.make r g b).green = g) ∧
      (0 ≤ b → b ≤ 1 → (RgbColor.make r g b).blue = b)) :=
  ⟨⟨rfl, rfl, rfl⟩,
   ⟨ClampToUnitRange_mem r, ClampToUnitRange_mem g, ClampToUnitRange_mem b⟩,
   ⟨ClampToUnitRange_of_mem r, ClampToUnitRange_of_mem g, ClampToUnitRange_of_mem b⟩⟩

/-- C21 on RgbColor(300, 0, 0), whose red is 1, on RgbColor(1/2, -3, 1), whose
components are 1/2, 0 and 1, and on the text "rgb(300,0,0)". -/
theorem RgbColor_components_clamped_witness :
    (RgbColor.make 300 0 0).red = 1 ∧
    (RgbColor.make (1 / 2) (-3) 1).red = 1 / 2 ∧
    (RgbColor.make (1 / 2) (-3) 1).green = 0 ∧
    (RgbColor.make (1 / 2) (-3) 1).blue = 1 ∧
    ConsumeFunctionalColor (StringPiece.ofString "rgb(300,0,0)".data) RgbColor.default =
      (true, ⟨[], []⟩, ⟨1, 0, 0⟩) :=
  ⟨(RgbColor_components_clamped 300 0 0).1.1.trans (by decide!),
   (RgbColor_components_clamped (1 / 2) (-3) 1).2.2.1 (by norm_num) (by norm_num),
   (RgbColor_components_clamped (1 / 2) (-3) 1).1.2.1.trans (by decide!),
   (RgbColor_components_clamped (1 / 2) (-3) 1).2.2.2.2 (by norm_num) (by norm_num),
   by decide!⟩

/-! ## C23: the transform of preserveAspectRatio -/

theorem CGAffineTransformScale_translation (ox oy sx sy : CGFloat) :
    CGAffineTransformScale (CGAffineTransformMakeTranslation ox oy) sx sy =
      ⟨sx, 0, 0, sy, ox, oy⟩ := by
  simp [CGAffineTransformScale, CGAffineTransformMakeTranslation, CGAffineTransformMakeScale,
    CGAffineTransformConcat]

theorem CGAffineTransformForPreserveAspectRatio_matrix (ar : PreserveAspectRatio)
    (vb vp : CGRect) (hal : ar.no_alignment = false) :
    CGAffineTransformForPreserveAspectRatio ar vb vp =
      ⟨(if ar.meet_or_slice = MeetOrSlice.kMeet
          then min (vp.width / vb.width) (vp.height / vb.height)
          else max (vp.width / vb.width) (vp.height / vb.height)), 0, 0,
        (if ar.meet_or_slice = MeetOrSlice.kMeet
          then min (vp.width / vb.width) (vp.height / vb.height)
          else max (vp.width / vb.width) (vp.height / vb.height)),
        OffsetForAlignment ar.x_alignment vp.width
          ((if ar.meet_or_slice = MeetOrSlice.kMeet
            then min (vp.width / vb.width) (vp.height / vb.height)
            else max (vp.width / vb.width) (vp.height / vb.height)) * vb.width),
        OffsetForAlignment ar.y_alignment vp.height
          ((if ar.meet_or_slice = MeetOrSlice.kMeet
            then min (vp.width / vb.width) (vp.height / vb.height)
            else max (vp.width / vb.width) (vp.height / vb.height)) * vb.height)⟩ := by
  unfold CGAffineTransformForPreserveAspectRatio
  dsimp only
  rw [if_pos hal, if_pos hal, CGAffineTransformScale_translation]

theorem OffsetForAlignment_inside (al : Alignment) (t o : CGFloat) (h : o ≤ t) :
    0 ≤ OffsetForAlignment al t o ∧ OffsetForAlignment al t o + o ≤ t := by
  cases al
  · exact ⟨le_refl _, by simpa [OffsetForAlignment] using h⟩
  · constructor
    · show 0 ≤ (t - o) / 2
      linarith
    · show (t - o) / 2 + o ≤ t
      linarith
  · constructor
    · show 0 ≤ t - o
      linarith
    · show t - o + o ≤ t
      linarith

theorem OffsetForAlignment_covers (al : Alignment) (t o : CGFloat) (h : t ≤ o) :
    OffsetForAlignment al t o ≤ 0 ∧ t ≤ OffsetForAlignment al t o + o := by
  cases al
  · exact ⟨le_refl _, by simpa [OffsetForAlignment] using h⟩
  · constructor
    · show (t - o) / 2 ≤ 0
      linarith
    · show t ≤ (t - o) / 2 + o
      linarith
  · constructor
    · show t - o ≤ 0
      linarith
    · show t ≤ t - o + o
      linarith

/-- C23: for an alignment other than none, a view box (0, 0, vw, vh) of
positive size and a viewport (0, 0, tw, th), the transform is (s, 0, 0, s, ox, oy)
with s the smaller of tw / vw and th / vh for meet and the larger for slice,
and with the offset 0, (t - s * v) / 2 or t - s * v of the alignment min, mid
or max on each axis.  For meet the image of the view box, from (ox, oy) to
(ox + s * vw, oy + s * vh), lies inside the viewport; for slice it covers the
viewport. -/
theorem preserve_aspect_ratio_transform (ar : PreserveAspectRatio) (vw vh tw th s : CGFloat)
    (hal : ar.no_alignment = false) (hvw : 0 < vw) (hvh : 0 < vh)
    (hs : s = if ar.meet_or_slice = MeetOrSlice.kMeet then min (tw / vw) (th / vh)
      else max (tw / vw) (th / vh)) :
    CGAffineTransformForPreserveAspectRatio ar ⟨0, 0, vw, vh⟩ ⟨0, 0, tw, th⟩ =
      ⟨s, 0, 0, s, OffsetForAlignment ar.x_alignment tw (s * vw),
        OffsetForAlignment ar.y_alignment th (s * vh)⟩ ∧
    ((ar.x_alignment = Alignment.kMin → OffsetForAlignment ar.x_alignment tw (s * vw) = 0) ∧
      (ar.x_alignment = Alignment.kMid →
        OffsetForAlignment ar.x_alignment tw (s * vw) = (tw - s * vw) / 2) ∧
      (ar.x_alignment = Alignment.kMax →
        OffsetForAlignment ar.x_alignment tw (s * vw) = tw - s * vw)) ∧
    ((ar.y_alignment = Alignment.kMin → OffsetForAlignment ar.y_alignment th (s * vh) = 0) ∧
      (ar.y_alignment = Alignment.kMid →
        OffsetForAlignment ar.y_alignment th (s * vh) = (th - s * vh) / 2) ∧
      (ar.y_alignment = Alignment.kMax →
        OffsetForAlignment ar.y_alignment th (s * vh) = th - s * vh)) ∧
    (CGPointApplyAffineTransform ⟨0, 0⟩
        (CGAffineTransformForPreserveAspectRatio ar ⟨0, 0, vw, vh⟩ ⟨0, 0, tw, th⟩) =
        ⟨OffsetForAlignment ar.x_alignment tw (s * vw),
          OffsetForAlignment ar.y_alignment th (s * vh)⟩ ∧
      CGPointApplyAffineTransform ⟨vw, vh⟩
        (CGAffineTransformForPreserveAspectRatio ar ⟨0, 0, vw, vh⟩ ⟨0, 0, tw, th⟩) =
        ⟨OffsetForAlignment ar.x_alignment tw (s * vw) + s * vw,
          OffsetForAlignment ar.y_alignment th (s * vh) + s * vh⟩) ∧
    (ar.meet_or_slice = MeetOrSlice.kMeet →
      (0 ≤ OffsetForAlignment ar.x_alignment tw (s * vw) ∧
        OffsetForAlignment ar.x_alignment tw (s * vw) + s * vw ≤ tw) ∧
      (0 ≤ OffsetForAlignment ar.y_alignment th (s * vh) ∧
        OffsetForAlignment ar.y_alignment th (s * vh) + s * vh ≤ th)) ∧
    (ar.meet_or_slice = MeetOrSlice.kSlice →
      (OffsetForAlignment ar.x_alignment tw (s * vw) ≤ 0 ∧
        tw ≤ OffsetForAlignment ar.x_alignment tw (s * vw) + s * vw) ∧
      (OffsetForAlignment ar.y_alignment th (s * vh) ≤ 0 ∧
        th ≤ OffsetForAlignment ar.y_alignment th (s * vh) + s * vh)) := by
  have hM : CGAffineTransformForPreserveAspectRatio ar ⟨0, 0, vw, vh⟩ ⟨0, 0, tw, th⟩ =
      ⟨s, 0, 0, s, OffsetForAlignment ar.x_alignment tw (s * vw),
        OffsetForAlignment ar.y_alignment th (s * vh)⟩ := by
    rw [CGAffineTransformForPreserveAspectRatio_matrix ar _ _ hal, hs]
  have ex : tw / vw * vw = tw := div_mul_cancel₀ tw (ne_of_gt hvw)
  have ey : th / vh * vh = th := div_mul_cancel₀ th (ne_of_gt hvh)
  refine ⟨hM, ⟨?_, ?_, ?_⟩, ⟨?_, ?_, ?_⟩, ⟨?_, ?_⟩, ?_, ?_⟩
  · intro h; rw [h]; rfl
  · intro h; rw [h]; rfl
  · intro h; rw [h]; rfl
  · intro h; rw [h]; rfl
  · intro h; rw [h]; rfl
  · intro h; rw [h]; rfl
  · rw [hM]
    simp [CGPointApplyAffineTransform]
  · rw [hM]
    simp only [CGPointApplyAffineTransform, CGPoint.mk.injEq]
    constructor <;> ring
  · intro hm
    rw [if_pos hm] at hs
    have hx : s * vw ≤ tw := by
      rw [hs]
      calc min (tw / vw) (th / vh) * vw ≤ tw / vw * vw :=
          mul_le_mul_of_nonneg_right (min_le_left _ _) (le_of_lt hvw)
        _ = tw := ex
    have hy : s * vh ≤ th := by
      rw [hs]
      calc min (tw / vw) (th / vh) * vh ≤ th / vh * vh :=
          mul_le_mul_of_nonneg_right (min_le_right _ _) (le_of_lt hvh)
        _ = th := ey
    exact ⟨OffsetForAlignment_inside _ _ _ hx, OffsetForAlignment_inside _ _ _ hy⟩
  · intro hm
    rw [if_neg (by rw [hm]; decide)] at hs
    have hx : tw ≤ s * vw := by
      rw [hs]
      calc tw = tw / vw * vw := ex.symm
        _ ≤ max (tw / vw) (th / vh) * vw :=
          mul_le_mul_of_nonneg_right (le_max_left _ _) (le_of_lt hvw)
    have hy : th ≤ s * vh := by
      rw [hs]
      calc th = th / vh * vh := ey.symm
        _ ≤ max (tw / vw) (th / vh) * vh :=
          mul_le_mul_of_nonneg_right (le_max_right _ _) (le_of_lt hvh)
    exact ⟨OffsetForAlignment_covers _ _ _ hx, OffsetForAlignment_covers _ _ _ hy⟩

/-- C23 on xMidYMid meet with the view box (0, 0, 100, 50) and the viewport
(0, 0, 200, 200): the scale is 2 and the translation (0, 50). -/
theorem preserve_aspect_ratio_transform_witness :
    CGAffineTransformForPreserveAspectRatio
      ⟨false, false, Alignment.kMid, Alignment.kMid, MeetOrSlice.kMeet⟩
      ⟨0, 0, 100, 50⟩ ⟨0, 0, 200, 200⟩ = ⟨2, 0, 0, 2, 0, 50⟩ :=
  (preserve_aspect_ratio_transform
    ⟨false, false, Alignment.kMid, Alignment.kMid, MeetOrSlice.kMeet⟩ 100 50 200 200 2 rfl
    (by norm_num) (by norm_num) (by decide!)).1.trans (by decide!)

/-! ## C30: CGAffineTransformToNormalizeRect -/

/-- C30 does not hold: for every rectangle the matrix returned by
CGAffineTransformToNormalizeRect is (width, 0, 0, height, x, y), which maps
(0, 0) to the corner (x, y) and (1, 1) to the corner (x + width, y + height),
the unit rectangle to the given one; the corner (x, y) goes to
(width * x + x, height * y + y), which for a rectangle of positive size is
(0, 0) only when the rectangle starts at the origin. -/
theorem normalize_rect_maps_unit_square_to_rect (rect : CGRect) :
    CGAffineTransformToNormalizeRect rect =
      ⟨rect.width, 0, 0, rect.height, rect.x, rect.y⟩ ∧
    CGPointApplyAffineTransform ⟨0, 0⟩ (CGAffineTransformToNormalizeRect rect) =
      ⟨rect.x, rect.y⟩ ∧
    CGPointApplyAffineTransform ⟨1, 1⟩ (CGAffineTransformToNormalizeRect rect) =
      ⟨rect.x + rect.width, rect.y + rect.height⟩ ∧
    CGPointApplyAffineTransform ⟨rect.x, rect.y⟩ (CGAffineTransformToNormalizeRect rect) =
      ⟨rect.width * rect.x + rect.x, rect.height * rect.y + rect.y⟩ ∧
    (0 < rect.width → 0 < rect.height →
      (CGPointApplyAffineTransform ⟨rect.x, rect.y⟩ (CGAffineTransformToNormalizeRect rect) =
        ⟨0, 0⟩ ↔ rect.x = 0 ∧ rect.y = 0)) := by
  have hM : CGAffineTransformToNormalizeRect rect =
      ⟨rect.width, 0, 0, rect.height, rect.x, rect.y⟩ := by
    unfold CGAffineTransformToNormalizeRect
    rw [CGAffineTransformScale_translation]
  refine ⟨hM, ?_, ?_, ?_, ?_⟩
  · rw [hM]
    simp [CGPointApplyAffineTransform]
  · rw [hM]
    simp only [CGPointApplyAffineTransform, CGPoint.mk.injEq]
    constructor <;> ring
  · rw [hM]
    simp only [CGPointApplyAffineTransform, CGPoint.mk.injEq]
    constructor <;> ring
  · intro hw hh
    rw [hM]
    simp only [CGPointApplyAffineTransform, CGPoint.mk.injEq, zero_mul, add_zero]
    constructor
    · rintro ⟨h1, h2⟩
      have e1 : (rect.width + 1) * rect.x = 0 := by linarith
      have e2 : (rect.height + 1) * rect.y = 0 := by linarith
      rcases mul_eq_zero.1 e1 with h | h
      · linarith
      · rcases mul_eq_zero.1 e2 with h' | h'
        · linarith
        · exact ⟨h, h'⟩
    · rintro ⟨h1, h2⟩
      rw [h1, h2]
      simp

/-- C30 on the rectangle (10, 20, 30, 40): the corner (10, 20) goes to
(310, 820) and the corner (40, 60) to (1210, 2420), while (0, 0) goes to
(10, 20) and (1, 1) to (40, 60). -/
theorem normalize_rect_maps_unit_square_to_rect_witness :
    CGPointApplyAffineTransform ⟨10, 20⟩ (CGAffineTransformToNormalizeRect ⟨10, 20, 30, 40⟩) =
      ⟨310, 820⟩ ∧
    CGPointApplyAffineTransform ⟨40, 60⟩ (CGAffineTransformToNormalizeRect ⟨10, 20, 30, 40⟩) =
      ⟨1210, 2420⟩ ∧
    CGPointApplyAffineTransform ⟨0, 0⟩ (CGAffineTransformToNormalizeRect ⟨10, 20, 30, 40⟩) =
      ⟨10, 20⟩ ∧
    CGPointApplyAffineTransform ⟨1, 1⟩ (CGAffineTransformToNormalizeRect ⟨10, 20, 30, 40⟩) =
      ⟨40, 60⟩ ∧
    ¬ CGPointApplyAffineTransform ⟨10, 20⟩
      (CGAffineTransformToNormalizeRect ⟨10, 20, 30, 40⟩) = ⟨0, 0⟩ :=
  ⟨by decide!, by decide!,
   (normalize_rect_maps_unit_square_to_rect ⟨10, 20, 30, 40⟩).2.1,
   (normalize_rect_maps_unit_square_to_rect ⟨10, 20, 30, 40⟩).2.2.1.trans (by decide!),
   fun h => absurd
     (((normalize_rect_maps_unit_square_to_rect ⟨10, 20, 30, 40⟩).2.2.2.2
       (by norm_num) (by norm_num)).1 h).1 (by norm_num)⟩

/-! ## C29: FloatValueForKey -/

theorem ParseFloat_text (P : Platform) (value : List Char) (out : CGFloat) :
    ParseFloat P (StringPiece.ofString value) out =
      match floatSyntax P value with
      | none => (false, out)
      | some (v, tl) => (decide (tl = []), v) := by
  unfold ParseFloat GenericParse1
  dsimp only
  rw [ConsumeFloat_text]
  have hv : (StringPiece.ofString value).view = value := rfl
  rw [hv]
  cases floatSyntax P value with
  | none => rfl
  | some r =>
    obtain ⟨v, tl⟩ := r
    simp [StringPiece.length]

/-- C29 does not hold: FloatValueForKey returns false and leaves the output
as it was when the key is absent, when the value does not start with a float
or when the value of the float is an infinity; but when the value starts with
a float v that is not infinite and other bytes follow it, the function returns
false and the output holds v.  When the value is such a float and nothing
else, the function returns true and the output holds v. -/
theorem FloatValueForKey_writes_before_length_check (P : Platform) (map : StringMap)
    (key : List Char) (out : CGFloat) :
    (FindValueOrNull map key = none → FloatValueForKey P map key out = (false, out)) ∧
    (∀ value, FindValueOrNull map key = some value → floatSyntax P value = none →
      FloatValueForKey P map key out = (false, out)) ∧
    (∀ value b tl, FindValueOrNull map key = some value →
      floatOutcome P value = some (FloatValue.infinity b, tl) →
      FloatValueForKey P map key out = (false, out)) ∧
    (∀ value v tl, FindValueOrNull map key = some value → floatSyntax P value = some (v, tl) →
      FloatValueForKey P map key out = (decide (tl = []), v)) := by
  refine ⟨?_, ?_, ?_, ?_⟩
  · intro h
    unfold FloatValueForKey
    rw [h]
  · intro value h hs
    unfold FloatValueForKey
    rw [h]
    dsimp only
    rw [ParseFloat_text, hs]
  · intro value b tl h hs
    unfold FloatValueForKey
    rw [h]
    dsimp only
    rw [ParseFloat_text, floatSyntax_of_infinity P value b tl hs]
  · intro value v tl h hs
    unfold FloatValueForKey
    rw [h]
    dsimp only
    rw [ParseFloat_text, hs]

/-- C29 on the values "12abc" and "10px" with the output 7 before the call:
the function returns false and the output is 12 and 10; on "12" it returns
true with 12, on "abc" and for an absent key it returns false with 7. -/
theorem FloatValueForKey_writes_before_length_check_witness :
    FloatValueForKey Platform.exact [("width".data, "12abc".data)] "width".data 7 = (false, 12) ∧
    FloatValueForKey Platform.exact [("width".data, "10px".data)] "width".data 7 = (false, 10) ∧
    FloatValueForKey Platform.exact [("width".data, "12".data)] "width".data 7 = (true, 12) ∧
    FloatValueForKey Platform.exact [("width".data, "abc".data)] "width".data 7 = (false, 7) ∧
    FloatValueForKey Platform.exact [("width".data, "12".data)] "height".data 7 = (false, 7) :=
  ⟨(FloatValueForKey_writes_before_length_check Platform.exact [("width".data, "12abc".data)]
      "width".data 7).2.2.2 "12abc".data 12 "abc".data (by decide) (by decide!),
   (FloatValueForKey_writes_before_length_check Platform.exact [("width".data, "10px".data)]
      "width".data 7).2.2.2 "10px".data 10 "px".data (by decide) (by decide!),
   (FloatValueForKey_writes_before_length_check Platform.exact [("width".data, "12".data)]
      "width".data 7).2.2.2 "12".data 12 [] (by decide) (by decide!),
   (FloatValueForKey_writes_before_length_check Platform.exact [("width".data, "abc".data)]
      "width".data 7).2.1 "abc".data (by decide) (by decide!),
   (FloatValueForKey_writes_before_length_check Platform.exact [("width".data, "12".data)]
      "height".data 7).1 (by decide)⟩

/-! ## C28: MSCStyleSheetMerge -/

theorem FindValueOrNull_append_ne {V : Type} (m : List (List Char × V)) (item : List Char × V)
    (k : List Char) (h : ¬ item.1 = k) :
    FindValueOrNull (m ++ [item]) k = FindValueOrNull m k := by
  induction m with
  | nil => simp [FindValueOrNull, h]
  | cons e es ih =>
    simp only [List.cons_append, FindValueOrNull]
    split_ifs
    · rfl
    · exact ih

theorem FindValueOrNull_append_none {V : Type} (m : List (List Char × V))
    (item : List Char × V) (h : FindValueOrNull m item.1 = none) :
    FindValueOrNull (m ++ [item]) item.1 = some item.2 := by
  induction m with
  | nil => simp [FindValueOrNull]
  | cons e es ih =>
    simp only [FindValueOrNull] at h
    simp only [List.cons_append, FindValueOrNull]
    split_ifs at h ⊢ with he
    exact ih h

theorem FindValueOrNull_mapAssign {V : Type} (m : List (List Char × V)) (key k : List Char)
    (v old : V) (h : FindValueOrNull m key = some old) :
    FindValueOrNull (mapAssign m key v) k =
      if key = k then some v else FindValueOrNull m k := by
  induction m with
  | nil => simp [FindValueOrNull] at h
  | cons e es ih =>
    simp only [FindValueOrNull] at h
    simp only [mapAssign]
    by_cases he : e.1 = key
    · rw [if_pos he]
      simp only [FindValueOrNull]
      by_cases hk : key = k
      · rw [if_pos hk, if_pos hk]
      · rw [if_neg hk, if_neg hk, if_neg (by rw [he]; exact hk)]
    · rw [if_neg he] at h ⊢
      simp only [FindValueOrNull]
      by_cases hk : e.1 = k
      · rw [if_pos hk, if_pos hk, if_neg (by rw [← hk]; exact fun h' => he h'.symm)]
      · rw [if_neg hk, if_neg hk]
        exact ih h

theorem FindValueOrNull_isSome_iff {V : Type} (m : List (List Char × V)) (k : List Char) :
    (FindValueOrNull m k).isSome = true ↔ k ∈ m.map Prod.fst := by
  induction m with
  | nil => simp [FindValueOrNull]
  | cons e es ih =>
    simp only [FindValueOrNull, List.map_cons, List.mem_cons]
    by_cases he : e.1 = k
    · rw [if_pos he]
      exact ⟨fun _ => Or.inl he.symm, fun _ => rfl⟩
    · rw [if_neg he, ih]
      constructor
      · exact Or.inr
      · rintro (h | h)
        · exact absurd h.symm he
        · exact h

theorem FindValueOrNull_none_of_not_mem {V : Type} (m : List (List Char × V)) (k : List Char)
    (h : k ∉ m.map Prod.fst) : FindValueOrNull m k = none := by
  cases hf : FindValueOrNull m k with
  | none => rfl
  | some v =>
    exact absurd ((FindValueOrNull_isSome_iff m k).1 (by rw [hf]; rfl)) h

theorem mergeItem_lookup (dest : List (List Char × List (List Char × List Char)))
    (item : List Char × List (List Char × List Char)) (k : List Char) :
    FindValueOrNull (mergeItem dest item) k =
      if item.1 = k then appendDeclarations (FindValueOrNull dest k) (some item.2)
      else FindValueOrNull dest k := by
  unfold mergeItem
  cases hd : FindValueOrNull dest item.1 with
  | none =>
    dsimp only
    by_cases hk : item.1 = k
    · rw [if_pos hk, ← hk, FindValueOrNull_append_none dest item hd, hd]
      rfl
    · rw [if_neg hk, FindValueOrNull_append_ne dest item k hk]
  | some d =>
    dsimp only
    rw [FindValueOrNull_mapAssign dest item.1 k _ d hd]
    by_cases hk : item.1 = k
    · rw [if_pos hk, if_pos hk, ← hk, hd]
      rfl
    · rw [if_neg hk, if_neg hk]

theorem mergeItem_keys (dest : List (List Char × List (List Char × List Char)))
    (item : List Char × List (List Char × List Char)) (h : (dest.map Prod.fst).Nodup) :
    ((mergeItem dest item).map Prod.fst).Nodup := by
  unfold mergeItem
  cases hd : FindValueOrNull dest item.1 with
  | none =>
    dsimp only
    rw [List.map_append, List.nodup_append]
    refine ⟨h, by simp, ?_⟩
    intro a ha hb
    simp only [List.map_cons, List.map_nil, List.mem_singleton] at hb
    subst hb
    have := (FindValueOrNull_isSome_iff dest item.1).2 ha
    rw [hd] at this
    cases this
  | some d =>
    dsimp only
    have hk : ∀ (m : List (List Char × List (List Char × List Char))) v,
        (mapAssign m item.1 v).map Prod.fst = m.map Prod.fst ∨ FindValueOrNull m item.1 = none := by
      intro m v
      induction m with
      | nil => exact Or.inr rfl
      | cons e es ih =>
        simp only [mapAssign, FindValueOrNull]
        by_cases he : e.1 = item.1
        · rw [if_pos he]
          left
          simp [he]
        · rw [if_neg he, if_neg he]
          rcases ih with h1 | h1
          · left
            simp [h1]
          · exact Or.inr h1
    rcases hk dest (d ++ item.2) with h1 | h1
    · rw [h1]; exact h
    · rw [h1] at hd; cases hd

theorem merge_lookup : ∀ (src dest : List (List Char × List (List Char × List Char)))
    (k : List Char), (src.map Prod.fst).Nodup →
    FindValueOrNull (src.foldl mergeItem dest) k =
      appendDeclarations (FindValueOrNull dest k) (FindValueOrNull src k) := by
  intro src
  induction src with
  | nil =>
    intro dest k _
    simp only [List.foldl_nil, FindValueOrNull]
    cases FindValueOrNull dest k <;> rfl
  | cons item rest ih =>
    intro dest k hn
    rw [List.map_cons, List.nodup_cons] at hn
    rw [List.foldl_cons, ih (mergeItem dest item) k hn.2, mergeItem_lookup]
    simp only [FindValueOrNull]
    by_cases hk : item.1 = k
    · rw [if_pos hk, if_pos hk,
        FindValueOrNull_none_of_not_mem rest k (by rw [← hk]; exact hn.1)]
      cases FindValueOrNull dest k <;> rfl
    · rw [if_neg hk, if_neg hk]

theorem merge_keys_nodup : ∀ (src dest : List (List Char × List (List Char × List Char))),
    (dest.map Prod.fst).Nodup → ((src.foldl mergeItem dest).map Prod.fst).Nodup := by
  intro src
  induction src with
  | nil => intro dest h; exact h
  | cons item rest ih =>
    intro dest h
    rw [List.foldl_cons]
    exact ih _ (mergeItem_keys dest item h)

theorem appendDeclarations_assoc (a b c : Option (List (List Char × List Char))) :
    appendDeclarations (appendDeclarations a b) c =
      appendDeclarations a (appendDeclarations b c) := by
  cases a <;> cases b <;> cases c <;> simp [appendDeclarations]

theorem appendDeclarations_isSome (a b : Option (List (List Char × List Char))) :
    (appendDeclarations a b).isSome = true ↔ a.isSome = true ∨ b.isSome = true := by
  cases a <;> cases b <;> simp [appendDeclarations]

/-- C28: for style sheets A, B, C whose class names are the keys of a map
(each name once), MSCStyleSheetMerge(B, A) leaves for every class name the
declarations of A followed by those of B, a missing list counting as empty, so
its class names are those of A and those of B; and merging B into A and then C
into the result gives for every class name the same declarations as merging
into A the result of merging C into B. -/
theorem merge_appends_and_is_associative (A B C : MSCStyleSheet)
    (hB : B.keys.Nodup) (hC : C.keys.Nodup) :
    (∀ k, FindValueOrNull (MSCStyleSheetMerge B A).entry k =
      appendDeclarations (FindValueOrNull A.entry k) (FindValueOrNull B.entry k)) ∧
    (∀ k, k ∈ (MSCStyleSheetMerge B A).keys ↔ k ∈ A.keys ∨ k ∈ B.keys) ∧
    (A.keys.Nodup → (MSCStyleSheetMerge B A).keys.Nodup) ∧
    (∀ k, FindValueOrNull (MSCStyleSheetMerge C (MSCStyleSheetMerge B A)).entry k =
      FindValueOrNull (MSCStyleSheetMerge (MSCStyleSheetMerge C B) A).entry k) := by
  have h1 : ∀ k, FindValueOrNull (MSCStyleSheetMerge B A).entry k =
      appendDeclarations (FindValueOrNull A.entry k) (FindValueOrNull B.entry k) :=
    fun k => merge_lookup B.entry A.entry k hB
  refine ⟨h1, ?_, ?_, ?_⟩
  · intro k
    unfold MSCStyleSheet.keys
    rw [← FindValueOrNull_isSome_iff, ← FindValueOrNull_isSome_iff, ← FindValueOrNull_isSome_iff,
      h1 k, appendDeclarations_isSome]
  · intro hA
    exact merge_keys_nodup B.entry A.entry hA
  · intro k
    have hCB : (MSCStyleSheetMerge C B).keys.Nodup := merge_keys_nodup C.entry B.entry hB
    have e1 : FindValueOrNull (MSCStyleSheetMerge C (MSCStyleSheetMerge B A)).entry k =
        appendDeclarations (FindValueOrNull (MSCStyleSheetMerge B A).entry k)
          (FindValueOrNull C.entry k) :=
      merge_lookup C.entry (MSCStyleSheetMerge B A).entry k hC
    have e2 : FindValueOrNull (MSCStyleSheetMerge (MSCStyleSheetMerge C B) A).entry k =
        appendDeclarations (FindValueOrNull A.entry k)
          (FindValueOrNull (MSCStyleSheetMerge C B).entry k) :=
      merge_lookup (MSCStyleSheetMerge C B).entry A.entry k hCB
    have e3 : FindValueOrNull (MSCStyleSheetMerge C B).entry k =
        appendDeclarations (FindValueOrNull B.entry k) (FindValueOrNull C.entry k) :=
      merge_lookup C.entry B.entry k hC
    rw [e1, e2, e3, h1 k, appendDeclarations_assoc]

/-- C28 on the sheets A = .a fill:red, B = .a fill:blue .b stroke:red and
C = .b stroke:blue .c fill:none: merging B into A gives .a fill:red fill:blue
and .b stroke:red, and both ways of merging all three give the same sheet. -/
theorem merge_appends_and_is_associative_witness :
    MSCStyleSheetMerge
      ⟨[("a".data, [("fill".data, "blue".data)]), ("b".data, [("stroke".data, "red".data)])]⟩
      ⟨[("a".data, [("fill".data, "red".data)])]⟩ =
      ⟨[("a".data, [("fill".data, "red".data), ("fill".data, "blue".data)]),
        ("b".data, [("stroke".data, "red".data)])]⟩ ∧
    MSCStyleSheetMerge
      ⟨[("b".data, [("stroke".data, "blue".data)]), ("c".data, [("fill".data, "none".data)])]⟩
      (MSCStyleSheetMerge
        ⟨[("a".data, [("fill".data, "blue".data)]), ("b".data, [("stroke".data, "red".data)])]⟩
        ⟨[("a".data, [("fill".data, "red".data)])]⟩) =
      MSCStyleSheetMerge
        (MSCStyleSheetMerge
          ⟨[("b".data, [("stroke".data, "blue".data)]), ("c".data, [("fill".data, "none".data)])]⟩
          ⟨[("a".data, [("fill".data, "blue".data)]),
            ("b".data, [("stroke".data, "red".data)])]⟩)
        ⟨[("a".data, [("fill".data, "red".data)])]⟩ ∧
    FindValueOrNull (MSCStyleSheetMerge
      ⟨[("a".data, [("fill".data, "blue".data)]), ("b".data, [("stroke".data, "red".data)])]⟩
      ⟨[("a".data, [("fill".data, "red".data)])]⟩).entry "a".data =
      appendDeclarations (some [("fill".data, "red".data)]) (some [("fill".data, "blue".data)]) :=
  ⟨by decide, by decide,
   (merge_appends_and_is_associative
      ⟨[("a".data, [("fill".data, "red".data)])]⟩
      ⟨[("a".data, [("fill".data, "blue".data)]), ("b".data, [("stroke".data, "red".data)])]⟩
      ⟨[("b".data, [("stroke".data, "blue".data)]), ("c".data, [("fill".data, "none".data)])]⟩
      (by decide) (by decide)).1 "a".data⟩

/-! ## C27: ParseStyleSheetData -/

theorem ParseStyleSheetDataLoop_outside (c : Char) (cs name value : List Char)
    (sheet : MSCStyleSheet) :
    ParseStyleSheetDataLoop (c :: cs) false ParserState.OUTSIDE_CONTENTS name value sheet =
      if c = '.' then
        ParseStyleSheetDataLoop cs true ParserState.BEFORE_VALUE name value sheet
      else if c = '\n' ∨ c = '\t' ∨ c = ' ' then
        ParseStyleSheetDataLoop cs false ParserState.OUTSIDE_CONTENTS name value sheet
      else none := by
  rw [ParseStyleSheetDataLoop, if_neg (by simp)]

theorem ParseStyleSheetDataLoop_selector (c : Char) (cs name value : List Char)
    (sheet : MSCStyleSheet) :
    ParseStyleSheetDataLoop (c :: cs) true ParserState.BEFORE_VALUE name value sheet =
      if isSelectorNameChar c = true then
        ParseStyleSheetDataLoop cs true ParserState.BEFORE_VALUE (name ++ [c]) value sheet
      else if c = '{' then
        ParseStyleSheetDataLoop cs false ParserState.FINDING_VALUE name value sheet
      else if c = ' ' then
        ParseStyleSheetDataLoop cs false ParserState.BEFORE_VALUE name value sheet
      else none := by
  rw [ParseStyleSheetDataLoop]
  by_cases h : isSelectorNameChar c = true
  · rw [if_pos ⟨rfl, h⟩, if_pos h]
  · rw [if_neg (fun hc => h hc.2), if_neg h]

theorem ParseStyleSheetDataLoop_beforeBrace (c : Char) (cs name value : List Char)
    (sheet : MSCStyleSheet) :
    ParseStyleSheetDataLoop (c :: cs) false ParserState.BEFORE_VALUE name value sheet =
      if c = '{' then
        ParseStyleSheetDataLoop cs false ParserState.FINDING_VALUE name value sheet
      else if c = ' ' then
        ParseStyleSheetDataLoop cs false ParserState.BEFORE_VALUE name value sheet
      else none := by
  rw [ParseStyleSheetDataLoop, if_neg (by simp)]

theorem ParseStyleSheetDataLoop_contents (c : Char) (cs name value : List Char)
    (sheet : MSCStyleSheet) :
    ParseStyleSheetDataLoop (c :: cs) false ParserState.FINDING_VALUE name value sheet =
      if c = '}' then
        ParseStyleSheetDataLoop cs false ParserState.OUTSIDE_CONTENTS [] []
          ⟨mapInsert sheet.entry name (styleDeclarations value
            ["fill".data, "stop-color".data, "stroke".data, "stroke-width".data])⟩
      else if c = ' ' ∨ c = '\n' then
        ParseStyleSheetDataLoop cs false ParserState.FINDING_VALUE name value sheet
      else ParseStyleSheetDataLoop cs false ParserState.FINDING_VALUE name (value ++ [c]) sheet := by
  rw [ParseStyleSheetDataLoop, if_neg (by simp)]

theorem ParseStyleSheetDataLoop_none : ∀ (data : List Char) (name value : List Char)
    (sheet : MSCStyleSheet),
    (ParseStyleSheetDataLoop data false ParserState.OUTSIDE_CONTENTS name value sheet = none ↔
      hasHardErrorByte isSheetWhitespace SheetPosition.outside data = true) ∧
    (ParseStyleSheetDataLoop data true ParserState.BEFORE_VALUE name value sheet = none ↔
      hasHardErrorByte isSheetWhitespace SheetPosition.selector data = true) ∧
    (ParseStyleSheetDataLoop data false ParserState.BEFORE_VALUE name value sheet = none ↔
      hasHardErrorByte isSheetWhitespace SheetPosition.beforeBrace data = true) ∧
    (ParseStyleSheetDataLoop data false ParserState.FINDING_VALUE name value sheet = none ↔
      hasHardErrorByte isSheetWhitespace SheetPosition.contents data = true) := by
  intro data
  induction data with
  | nil =>
    intro name value sheet
    simp [ParseStyleSheetDataLoop, hasHardErrorByte]
  | cons c cs ih =>
    intro name value sheet
    refine ⟨?_, ?_, ?_, ?_⟩
    · rw [ParseStyleSheetDataLoop_outside]
      simp only [hasHardErrorByte]
      by_cases h1 : c = '.'
      · rw [if_pos h1, if_pos h1]
        exact (ih name value sheet).2.1
      · rw [if_neg h1, if_neg h1]
        by_cases h2 : c = '\n' ∨ c = '\t' ∨ c = ' '
        · rw [if_pos h2, if_pos (show isSheetWhitespace c = true by
            simpa [isSheetWhitespace] using h2)]
          exact (ih name value sheet).1
        · rw [if_neg h2, if_neg (show ¬ isSheetWhitespace c = true by
            simpa [isSheetWhitespace] using h2)]
          simp
    · rw [ParseStyleSheetDataLoop_selector]
      simp only [hasHardErrorByte]
      by_cases h0 : isSelectorNameChar c = true
      · rw [if_pos h0, if_pos h0]
        exact (ih (name ++ [c]) value sheet).2.1
      · rw [if_neg h0, if_neg h0]
        by_cases h1 : c = '{'
        · rw [if_pos h1, if_pos h1]
          exact (ih name value sheet).2.2.2
        · rw [if_neg h1, if_neg h1]
          by_cases h2 : c = ' '
          · rw [if_pos h2, if_pos h2]
            exact (ih name value sheet).2.2.1
          · rw [if_neg h2, if_neg h2]
            simp
    · rw [ParseStyleSheetDataLoop_beforeBrace]
      simp only [hasHardErrorByte]
      by_cases h1 : c = '{'
      · rw [if_pos h1, if_pos h1]
        exact (ih name value sheet).2.2.2
      · rw [if_neg h1, if_neg h1]
        by_cases h2 : c = ' '
        · rw [if_pos h2, if_pos h2]
          exact (ih name value sheet).2.2.1
        · rw [if_neg h2, if_neg h2]
          simp
    · rw [ParseStyleSheetDataLoop_contents]
      simp only [hasHardErrorByte]
      by_cases h1 : c = '}'
      · rw [if_pos h1, if_pos h1]
        exact (ih _ _ _).1
      · rw [if_neg h1, if_neg h1]
        by_cases h2 : c = ' ' ∨ c = '\n'
        · rw [if_pos h2]
          exact (ih name value sheet).2.2.2
        · rw [if_neg h2]
          exact (ih name (value ++ [c]) sheet).2.2.2

/-- C27 as stated fails for whitespace other than newline, tab and space
outside a rule: a carriage return is whitespace and not a hard-error byte,
yet ParseStyleSheetData returns NULL for "\r" and for the sheet
".a{fill:red}\r\n.b{fill:blue}"; with "\n" alone in its place the sheet is
read. -/
theorem carriage_return_outside_rule_is_hard_error :
    isspace '\r' = true ∧
    hasHardErrorByte isspace SheetPosition.outside "\r".data = false ∧
    ParseStyleSheetData "\r".data = none ∧
    hasHardErrorByte isspace SheetPosition.outside ".a{fill:red}\r\n.b{fill:blue}".data = false ∧
    ParseStyleSheetData ".a{fill:red}\r\n.b{fill:blue}".data = none ∧
    ParseStyleSheetData ".a{fill:red}\n.b{fill:blue}".data =
      some ⟨[("a".data, [("fill".data, "red".data)]),
        ("b".data, [("fill".data, "blue".data)])]⟩ := by
  decide

/-- C27, amended: ParseStyleSheetData returns NULL exactly when the input has
a hard-error byte: outside a rule a byte that is none of '.', newline, tab and
space, or between a selector and its brace a byte that is neither a space nor
'{'.  For every other input it returns a style sheet. -/
theorem ParseStyleSheetData_null_iff_hard_error (data : List Char) :
    (ParseStyleSheetData data = none ↔
      hasHardErrorByte isSheetWhitespace SheetPosition.outside data = true) ∧
    (hasHardErrorByte isSheetWhitespace SheetPosition.outside data = false →
      ∃ sheet, ParseStyleSheetData data = some sheet) := by
  have h := (ParseStyleSheetDataLoop_none data [] [] ⟨[]⟩).1
  refine ⟨h, ?_⟩
  intro hn
  cases hp : ParseStyleSheetData data with
  | some sheet => exact ⟨sheet, rfl⟩
  | none =>
    have := h.1 hp
    rw [hn] at this
    cases this

/-- C27, amended, on the empty input, on a sheet of two rules, on an input
that ends inside a rule, and on inputs with a hard-error byte outside a rule
("a") and between the selector and the brace (".a\n{"). -/
theorem ParseStyleSheetData_null_iff_hard_error_witness :
    ParseStyleSheetData [] = some ⟨[]⟩ ∧
    (∃ sheet, ParseStyleSheetData ".a {fill:red}\n\t.b{stroke:blue}".data = some sheet) ∧
    (∃ sheet, ParseStyleSheetData ".a \x7bfill:red".data = some sheet) ∧
    ParseStyleSheetData "a".data = none ∧
    ParseStyleSheetData ".a\n{fill:red}".data = none :=
  ⟨by decide,
   (ParseStyleSheetData_null_iff_hard_error ".a {fill:red}\n\t.b{stroke:blue}".data).2
     (by decide),
   (ParseStyleSheetData_null_iff_hard_error ".a \x7bfill:red".data).2 (by decide),
   (ParseStyleSheetData_null_iff_hard_error "a".data).1.2 (by decide),
   (ParseStyleSheetData_null_iff_hard_error ".a\n{fill:red}".data).1.2 (by decide)⟩

/-! ## C22: ConsumePreserveAspectRatio -/

theorem ConsumeVocabulary_none {Word : Type} (s : StringPiece) :
    ∀ (dictionary : List (List Char × Word)) (word : Word),
    (∀ e ∈ dictionary, e.1.isPrefixOf (s.view ++ s.rest) = false) →
    ConsumeVocabulary s dictionary word = (false, s, word) := by
  intro dictionary
  induction dictionary with
  | nil => intro word _; rfl
  | cons e es ih =>
    intro word h
    simp only [ConsumeVocabulary, strncmpAtBegin]
    rw [if_neg (by rw [h e (List.mem_cons_self e es)]; decide)]
    exact ih word (fun x hx => h x (List.mem_cons_of_mem e hx))

theorem ConsumeVocabulary_first {Word : Type} (s : StringPiece) :
    ∀ (dictionary : List (List Char × Word)) (word : Word) (w : List Char) (a : Word),
    (w, a) ∈ dictionary → w.isPrefixOf (s.view ++ s.rest) = true →
    (∀ e ∈ dictionary, e.1.isPrefixOf (s.view ++ s.rest) = true → e = (w, a)) →
    ConsumeVocabulary s dictionary word = (true, s.Advance w.length, a) := by
  intro dictionary
  induction dictionary with
  | nil => intro word w a hm; cases hm
  | cons e es ih =>
    intro word w a hm hp hu
    simp only [ConsumeVocabulary, strncmpAtBegin]
    by_cases he : e.1.isPrefixOf (s.view ++ s.rest) = true
    · rw [if_pos he, hu e (List.mem_cons_self e es) he]
    · rw [if_neg he]
      have hm2 : (w, a) ∈ es := by
        rcases List.mem_cons.1 hm with h | h
        · rw [← h] at he
          exact absurd hp he
        · exact h
      exact ih word w a hm2 hp (fun x hx => hu x (List.mem_cons_of_mem e hx))

theorem ConsumeVocabulary_some {Word : Type} (s : StringPiece) :
    ∀ (dictionary : List (List Char × Word)) (word : Word),
    (ConsumeVocabulary s dictionary word).1 = true →
    ∃ e ∈ dictionary, e.1.isPrefixOf (s.view ++ s.rest) = true := by
  intro dictionary
  induction dictionary with
  | nil => intro word h; cases h
  | cons e es ih =>
    intro word h
    simp only [ConsumeVocabulary, strncmpAtBegin] at h
    by_cases he : e.1.isPrefixOf (s.view ++ s.rest) = true
    · exact ⟨e, List.mem_cons_self e es, he⟩
    · rw [if_neg he] at h
      obtain ⟨x, hx, hp⟩ := ih word h
      exact ⟨x, List.mem_cons_of_mem e hx, hp⟩

theorem isPrefixOf_unique (l : List Char) {Word : Type} [DecidableEq Word]
    (dictionary : List (List Char × Word))
    (hd : ∀ e1 ∈ dictionary, ∀ e2 ∈ dictionary, e1.1.isPrefixOf e2.1 = true → e1 = e2)
    (e1 e2 : List Char × Word) (h1 : e1 ∈ dictionary) (h2 : e2 ∈ dictionary)
    (p1 : e1.1.isPrefixOf l = true) (p2 : e2.1.isPrefixOf l = true) : e1 = e2 := by
  rw [List.isPrefixOf_iff_prefix] at p1 p2
  rcases List.prefix_or_prefix_of_prefix p1 p2 with h | h
  · exact hd e1 h1 e2 h2 (List.isPrefixOf_iff_prefix.2 h)
  · exact (hd e2 h2 e1 h1 (List.isPrefixOf_iff_prefix.2 h)).symm

set_option maxRecDepth 100000 in
theorem alignment_words_distinct : ∀ e1 ∈ kInternalAlignmentDictionary,
    ∀ e2 ∈ kInternalAlignmentDictionary, e1.1.isPrefixOf e2.1 = true → e1 = e2 := by
  decide

theorem meet_slice_words_distinct : ∀ e1 ∈ kMeetOrSliceDictionary,
    ∀ e2 ∈ kMeetOrSliceDictionary, e1.1.isPrefixOf e2.1 = true → e1 = e2 := by
  decide

theorem ConsumeVocabulary_alignment (s : StringPiece) (word : InternalAlignment)
    (w : List Char) (a : InternalAlignment) (hm : (w, a) ∈ kInternalAlignmentDictionary)
    (hp : w.isPrefixOf (s.view ++ s.rest) = true) :
    ConsumeVocabulary s kInternalAlignmentDictionary word = (true, s.Advance w.length, a) :=
  ConsumeVocabulary_first s _ word w a hm hp
    (fun e he hpe => isPrefixOf_unique _ _ alignment_words_distinct e (w, a) he hm hpe hp)

theorem ConsumeVocabulary_meet_or_slice (s : StringPiece) :
    (ConsumeVocabulary s kMeetOrSliceDictionary MeetOrSlice.kMeet).2.2 =
      if "slice".data.isPrefixOf (s.view ++ s.rest) = true then MeetOrSlice.kSlice
      else MeetOrSlice.kMeet := by
  by_cases hs : "slice".data.isPrefixOf (s.view ++ s.rest) = true
  · rw [if_pos hs, ConsumeVocabulary_first s _ _ "slice".data MeetOrSlice.kSlice (by decide) hs
      (fun e he hpe => isPrefixOf_unique _ _ meet_slice_words_distinct e _ he (by decide) hpe hs)]
  · rw [if_neg hs]
    by_cases hm : "meet".data.isPrefixOf (s.view ++ s.rest) = true
    · rw [ConsumeVocabulary_first s _ _ "meet".data MeetOrSlice.kMeet (by decide) hm
        (fun e he hpe => isPrefixOf_unique _ _ meet_slice_words_distinct e _ he (by decide)
          hpe hm)]
    · rw [ConsumeVocabulary_none s _ _ (by
        intro e he
        simp only [kMeetOrSliceDictionary, List.mem_cons, List.mem_singleton,
          List.not_mem_nil, or_false] at he
        rcases he with rfl | rfl
        · exact Bool.eq_false_iff.2 hm
        · exact Bool.eq_false_iff.2 hs)]

theorem ConsumeString_text (l rest w : List Char) :
    ConsumeString ⟨l, rest⟩ w true = (w.isPrefixOf l, ⟨if w.isPrefixOf l = true
      then l.drop w.length else l, rest⟩) := by
  unfold ConsumeString
  by_cases hp : w.isPrefixOf l = true
  · have hpre := List.isPrefixOf_iff_prefix.1 hp
    have hlen : ¬ (StringPiece.length ⟨l, rest⟩ < w.length) := by
      have := hpre.length_le
      simp only [StringPiece.length]
      omega
    have ht : l.take w.length = w := (List.prefix_iff_eq_take.1 hpre).symm
    rw [if_neg hlen]
    simp only [if_true, ht, decide_True]
    rw [hp, if_pos rfl, Advance_le _ _ (by simpa [StringPiece.length] using hlen)]
  · have hp2 : w.isPrefixOf l = false := Bool.eq_false_iff.2 hp
    rw [hp2]
    by_cases hlen : StringPiece.length ⟨l, rest⟩ < w.length
    · rw [if_pos hlen]
      rfl
    · rw [if_neg hlen]
      have ht : ¬ l.take w.length = w := by
        intro h
        apply hp
        rw [List.isPrefixOf_iff_prefix, List.prefix_iff_eq_take]
        exact h.symm
      simp only [if_true, ht, decide_False]
      rfl

theorem drop_min_length (l : List Char) (n : Nat) : l.drop (min n l.length) = l.drop n := by
  by_cases h : n ≤ l.length
  · rw [min_eq_left h]
  · have h2 : l.length ≤ n := by omega
    rw [min_eq_right h2, List.drop_length, List.drop_eq_nil_of_le h2]

theorem ConsumePreserveAspectRatio_alignment (s : StringPiece) (ar : PreserveAspectRatio) :
    ConsumePreserveAspectRatio s ar =
      if (ConsumeVocabulary ⟨afterDefer s.view, s.rest⟩ kInternalAlignmentDictionary
          InternalAlignment.kInternalAlignmentXMidYMid).1 = false then (false, s, ar)
      else
        (true, s.Advance (StringPiece.beginDiff (ConsumeVocabulary (ConsumeWhitespace
            (ConsumeVocabulary ⟨afterDefer s.view, s.rest⟩ kInternalAlignmentDictionary
              InternalAlignment.kInternalAlignmentXMidYMid).2.1).2 kMeetOrSliceDictionary
            MeetOrSlice.kMeet).2.1 s),
          ⟨"defer".data.isPrefixOf (s.view.dropWhile isspace),
            decide ((ConsumeVocabulary ⟨afterDefer s.view, s.rest⟩ kInternalAlignmentDictionary
              InternalAlignment.kInternalAlignmentXMidYMid).2.2 =
                InternalAlignment.kInternalAlignmentNone),
            xAlignmentOf (ConsumeVocabulary ⟨afterDefer s.view, s.rest⟩
              kInternalAlignmentDictionary InternalAlignment.kInternalAlignmentXMidYMid).2.2,
            yAlignmentOf (ConsumeVocabulary ⟨afterDefer s.view, s.rest⟩
              kInternalAlignmentDictionary InternalAlignment.kInternalAlignmentXMidYMid).2.2,
            (ConsumeVocabulary (ConsumeWhitespace
              (ConsumeVocabulary ⟨afterDefer s.view, s.rest⟩ kInternalAlignmentDictionary
                InternalAlignment.kInternalAlignmentXMidYMid).2.1).2 kMeetOrSliceDictionary
              MeetOrSlice.kMeet).2.2⟩) := by
  unfold ConsumePreserveAspectRatio
  dsimp only
  rw [ConsumeWhitespace_dropWhile s, ConsumeString_text]
  dsimp only
  rw [ConsumeWhitespace_dropWhile]
  rfl

theorem ConsumePreserveAspectRatio_keyword (s : StringPiece) (ar : PreserveAspectRatio)
    (w : List Char) (a : InternalAlignment) (hm : (w, a) ∈ kInternalAlignmentDictionary)
    (hp : w.isPrefixOf (afterDefer s.view ++ s.rest) = true) :
    (ConsumePreserveAspectRatio s ar).1 = true ∧
    (ConsumePreserveAspectRatio s ar).2.2 =
      ⟨"defer".data.isPrefixOf (s.view.dropWhile isspace),
        decide (a = InternalAlignment.kInternalAlignmentNone), xAlignmentOf a, yAlignmentOf a,
        if "slice".data.isPrefixOf
            (((afterDefer s.view).drop w.length).dropWhile isspace ++ s.rest) = true
          then MeetOrSlice.kSlice else MeetOrSlice.kMeet⟩ := by
  have hv := ConsumeVocabulary_alignment ⟨afterDefer s.view, s.rest⟩
    InternalAlignment.kInternalAlignmentXMidYMid w a hm hp
  have hadv : StringPiece.Advance ⟨afterDefer s.view, s.rest⟩ w.length =
      ⟨(afterDefer s.view).drop w.length, s.rest⟩ := by
    unfold StringPiece.Advance
    dsimp only
    rw [drop_min_length]
  rw [hadv] at hv
  rw [ConsumePreserveAspectRatio_alignment, hv]
  dsimp only
  rw [if_neg (by decide), ConsumeWhitespace_dropWhile, ConsumeVocabulary_meet_or_slice]
  exact ⟨rfl, rfl⟩

theorem ConsumePreserveAspectRatio_no_keyword (s : StringPiece) (ar : PreserveAspectRatio)
    (h : ∀ e ∈ kInternalAlignmentDictionary,
      e.1.isPrefixOf (afterDefer s.view ++ s.rest) = false) :
    ConsumePreserveAspectRatio s ar = (false, s, ar) := by
  rw [ConsumePreserveAspectRatio_alignment,
    ConsumeVocabulary_none ⟨afterDefer s.view, s.rest⟩ _ _ h]
  rfl

theorem ConsumePreserveAspectRatio_success (s : StringPiece) (ar : PreserveAspectRatio)
    (h : (ConsumePreserveAspectRatio s ar).1 = true) :
    ∃ e ∈ kInternalAlignmentDictionary, e.1.isPrefixOf (afterDefer s.view ++ s.rest) = true := by
  rw [ConsumePreserveAspectRatio_alignment] at h
  by_cases hv : (ConsumeVocabulary ⟨afterDefer s.view, s.rest⟩ kInternalAlignmentDictionary
      InternalAlignment.kInternalAlignmentXMidYMid).1 = false
  · rw [if_pos hv] at h
    cases h
  · exact ConsumeVocabulary_some _ _ _ (Bool.of_not_eq_false hv)

set_option maxRecDepth 100000 in
theorem alignment_keyword_table : ∀ A ∈ alignmentNames, ∀ B ∈ alignmentNames,
    ∃ e ∈ kInternalAlignmentDictionary, e.1 = 'x' :: A.1 ++ 'Y' :: B.1 ∧
      xAlignmentOf e.2 = A.2 ∧ yAlignmentOf e.2 = B.2 ∧
      e.2 ≠ InternalAlignment.kInternalAlignmentNone := by
  decide

set_option maxRecDepth 100000 in
theorem alignment_keyword_cases : ∀ e ∈ kInternalAlignmentDictionary,
    (e.1 = "none".data ∧ e.2 = InternalAlignment.kInternalAlignmentNone) ∨
    (e.2 ≠ InternalAlignment.kInternalAlignmentNone ∧
      ∃ A ∈ alignmentNames, ∃ B ∈ alignmentNames, e.1 = 'x' :: A.1 ++ 'Y' :: B.1) := by
  decide

/-- C22: ConsumePreserveAspectRatio on a cursor whose text, behind the leading
whitespace, an optional "defer" and more whitespace, starts with an alignment
keyword.  With the keyword "none" it succeeds with no_alignment true and both
alignments kMid; with a keyword xAYB, for A and B among Min, Mid and Max, it
succeeds with no_alignment false, x_alignment A and y_alignment B.  In both
cases defer says whether the text starts, behind the whitespace, with "defer",
and meet_or_slice is kSlice when "slice" follows the keyword (whitespace
between them left out) and kMeet otherwise.  It succeeds with such a keyword
only, so no_alignment is true exactly for "none"; without a keyword it fails
and leaves the cursor and the result as they were. -/
theorem preserve_aspect_ratio_keywords (s : StringPiece) (ar : PreserveAspectRatio) :
    ("none".data.isPrefixOf (afterDefer s.view ++ s.rest) = true →
      (ConsumePreserveAspectRatio s ar).1 = true ∧
      (ConsumePreserveAspectRatio s ar).2.2 =
        ⟨"defer".data.isPrefixOf (s.view.dropWhile isspace), true, Alignment.kMid,
          Alignment.kMid,
          if "slice".data.isPrefixOf
              (((afterDefer s.view).drop 4).dropWhile isspace ++ s.rest) = true
            then MeetOrSlice.kSlice else MeetOrSlice.kMeet⟩) ∧
    (∀ A ∈ alignmentNames, ∀ B ∈ alignmentNames,
      ('x' :: A.1 ++ 'Y' :: B.1).isPrefixOf (afterDefer s.view ++ s.rest) = true →
      (ConsumePreserveAspectRatio s ar).1 = true ∧
      (ConsumePreserveAspectRatio s ar).2.2 =
        ⟨"defer".data.isPrefixOf (s.view.dropWhile isspace), false, A.2, B.2,
          if "slice".data.isPrefixOf
              (((afterDefer s.view).drop 8).dropWhile isspace ++ s.rest) = true
            then MeetOrSlice.kSlice else MeetOrSlice.kMeet⟩) ∧
    ((ConsumePreserveAspectRatio s ar).1 = true →
      ("none".data.isPrefixOf (afterDefer s.view ++ s.rest) = true ∨
        ∃ A ∈ alignmentNames, ∃ B ∈ alignmentNames,
          ('x' :: A.1 ++ 'Y' :: B.1).isPrefixOf (afterDefer s.view ++ s.rest) = true) ∧
      ((ConsumePreserveAspectRatio s ar).2.2.no_alignment = true ↔
        "none".data.isPrefixOf (afterDefer s.view ++ s.rest) = true)) ∧
    ((ConsumePreserveAspectRatio s ar).1 = false →
      ConsumePreserveAspectRatio s ar = (false, s, ar)) := by
  have hnone : "none".data.isPrefixOf (afterDefer s.view ++ s.rest) = true →
      (ConsumePreserveAspectRatio s ar).1 = true ∧
      (ConsumePreserveAspectRatio s ar).2.2 =
        ⟨"defer".data.isPrefixOf (s.view.dropWhile isspace), true, Alignment.kMid,
          Alignment.kMid,
          if "slice".data.isPrefixOf
              (((afterDefer s.view).drop 4).dropWhile isspace ++ s.rest) = true
            then MeetOrSlice.kSlice else MeetOrSlice.kMeet⟩ := by
    intro hp
    exact ConsumePreserveAspectRatio_keyword s ar "none".data
      InternalAlignment.kInternalAlignmentNone (by decide) hp
  have hxy : ∀ A ∈ alignmentNames, ∀ B ∈ alignmentNames,
      ('x' :: A.1 ++ 'Y' :: B.1).isPrefixOf (afterDefer s.view ++ s.rest) = true →
      (ConsumePreserveAspectRatio s ar).1 = true ∧
      (ConsumePreserveAspectRatio s ar).2.2 =
        ⟨"defer".data.isPrefixOf (s.view.dropWhile isspace), false, A.2, B.2,
          if "slice".data.isPrefixOf
              (((afterDefer s.view).drop 8).dropWhile isspace ++ s.rest) = true
            then MeetOrSlice.kSlice else MeetOrSlice.kMeet⟩ := by
    intro A hA B hB hp
    obtain ⟨e, he, hw, hx, hy, hn⟩ := alignment_keyword_table A hA B hB
    have hlen : ('x' :: A.1 ++ 'Y' :: B.1).length = 8 := by
      simp only [alignmentNames, List.mem_cons, List.mem_singleton, List.not_mem_nil,
        or_false] at hA hB
      rcases hA with rfl | rfl | rfl <;> rcases hB with rfl | rfl | rfl <;> rfl
    have hk := ConsumePreserveAspectRatio_keyword s ar e.1 e.2 he (by rw [hw]; exact hp)
    rw [hw, hlen, hx, hy, decide_eq_false hn] at hk
    exact hk
  refine ⟨hnone, hxy, ?_, ?_⟩
  · intro hs
    obtain ⟨e, he, hp⟩ := ConsumePreserveAspectRatio_success s ar hs
    rcases alignment_keyword_cases e he with ⟨hw, _⟩ | ⟨_, A, hA, B, hB, hw⟩
    · rw [hw] at hp
      refine ⟨Or.inl hp, ?_⟩
      rw [(hnone hp).2]
      exact ⟨fun _ => hp, fun _ => rfl⟩
    · rw [hw] at hp
      refine ⟨Or.inr ⟨A, hA, B, hB, hp⟩, ?_⟩
      rw [(hxy A hA B hB hp).2]
      constructor
      · intro h; cases h
      · intro hn
        have e1 := isPrefixOf_unique _ _ alignment_words_distinct
          ("none".data, InternalAlignment.kInternalAlignmentNone) e (by decide) he hn
          (by rw [hw]; exact hp)
        obtain ⟨e2, he2, hw2, _, _, hne⟩ := alignment_keyword_table A hA B hB
        have e3 := isPrefixOf_unique _ _ alignment_words_distinct e e2 he he2
          (by rw [hw]; exact hp) (by rw [hw2]; exact hp)
        rw [← e3, ← e1] at hne
        exact absurd rfl hne
  · intro hf
    apply ConsumePreserveAspectRatio_no_keyword
    intro e he
    by_contra hc
    have hp : e.1.isPrefixOf (afterDefer s.view ++ s.rest) = true := by
      cases h : e.1.isPrefixOf (afterDefer s.view ++ s.rest)
      · exact absurd h hc
      · rfl
    rcases alignment_keyword_cases e he with ⟨hw, _⟩ | ⟨_, A, hA, B, hB, hw⟩
    · rw [hw] at hp
      rw [(hnone hp).1] at hf
      cases hf
    · rw [hw] at hp
      rw [(hxy A hA B hB hp).1] at hf
      cases hf

/-- C22 on "defer xMinYMax slice", " none", "xMidYMid meet" and "slice": the
first gives defer, kMin, kMax and kSlice, the second no_alignment with kMid
twice and kMeet, the third kMid twice and kMeet, and the last fails. -/
theorem preserve_aspect_ratio_keywords_witness :
    (ConsumePreserveAspectRatio (StringPiece.ofString "defer xMinYMax slice".data)
      PreserveAspectRatio.default_value).2.2 =
      ⟨true, false, Alignment.kMin, Alignment.kMax, MeetOrSlice.kSlice⟩ ∧
    (ConsumePreserveAspectRatio (StringPiece.ofString " none".data)
      PreserveAspectRatio.default_value).2.2 =
      ⟨false, true, Alignment.kMid, Alignment.kMid, MeetOrSlice.kMeet⟩ ∧
    (ConsumePreserveAspectRatio (StringPiece.ofString "xMidYMid meet".data)
      PreserveAspectRatio.default_value).2.2 =
      ⟨false, false, Alignment.kMid, Alignment.kMid, MeetOrSlice.kMeet⟩ ∧
    ConsumePreserveAspectRatio (StringPiece.ofString "slice".data)
      PreserveAspectRatio.default_value =
      (false, StringPiece.ofString "slice".data, PreserveAspectRatio.default_value) :=
  ⟨((preserve_aspect_ratio_keywords (StringPiece.ofString "defer xMinYMax slice".data)
      PreserveAspectRatio.default_value).2.1 ("Min".data, Alignment.kMin) (by decide)
      ("Max".data, Alignment.kMax) (by decide) (by decide)).2.trans (by decide),
   ((preserve_aspect_ratio_keywords (StringPiece.ofString " none".data)
      PreserveAspectRatio.default_value).1 (by decide)).2.trans (by decide),
   by decide,
   (preserve_aspect_ratio_keywords (StringPiece.ofString "slice".data)
      PreserveAspectRatio.default_value).2.2.2 (by decide)⟩

/-! ## C24, C25: the arguments of a transform function -/

theorem Loop_no_value_optional {Value : Type} [Inhabited Value]
    (cv : StringPiece → Value → Bool × StringPiece × Value)
    (cd : StringPiece → Bool × StringPiece) (n i : Nat) (s : StringPiece)
    (v : List Value) (hv : (cv (cd s).2 (v.getD (i + 1) default)).1 = false) :
    (GenericConsumeValuesLoop cv cd true (n + 1) (i + 1) s v).1 = false := by
  simp only [GenericConsumeValuesLoop, ne_eq, Nat.succ_ne_zero, not_false_eq_true, if_true,
    Bool.true_eq_false, false_and, and_false, if_false, hv]

theorem storeFrom_length : ∀ (vals v : List CGFloat) (i : Nat),
    (storeFrom v i vals).length = v.length := by
  intro vals
  induction vals with
  | nil => intro v i; rfl
  | cons x xs ih =>
    intro v i
    simp only [storeFrom]
    rw [ih, List.length_set]

theorem storeFrom_getD_lt : ∀ (vals v : List CGFloat) (i j : Nat), j < i →
    (storeFrom v i vals).getD j 0 = v.getD j 0 := by
  intro vals
  induction vals with
  | nil => intro v i j _; rfl
  | cons x xs ih =>
    intro v i j hj
    simp only [storeFrom]
    rw [ih (v.set i x) (i + 1) j (by omega)]
    simp only [List.getD_eq_getElem?_getD]
    rw [List.getElem?_set_ne (by omega)]

theorem storeFrom_getD : ∀ (vals v : List CGFloat) (i j : Nat), j < vals.length →
    i + vals.length ≤ v.length →
    (storeFrom v i vals).getD (i + j) 0 = vals.getD j 0 := by
  intro vals
  induction vals with
  | nil => intro v i j hj; cases hj
  | cons x xs ih =>
    intro v i j hj hl
    simp only [List.length_cons] at hj hl
    simp only [storeFrom]
    cases j with
    | zero =>
      show (storeFrom (v.set i x) (i + 1) xs).getD i 0 = x
      rw [storeFrom_getD_lt xs (v.set i x) (i + 1) i (by omega)]
      simp only [List.getD_eq_getElem?_getD]
      rw [List.getElem?_set_self (by omega)]
      rfl
    | succ j =>
      have := ih (v.set i x) (i + 1) j (by omega) (by rw [List.length_set]; omega)
      rw [show i + (j + 1) = i + 1 + j by omega, this]
      rfl

theorem Loop_floats_some (P : Platform) : ∀ (n i : Nat) (s : StringPiece) (v : List CGFloat)
    (vals : List CGFloat) (tl : List Char),
    floatsSyntax P n (decide (i = 0)) s.view = some (vals, tl) →
    GenericConsumeValuesLoop (ConsumeFloat P) ConsumeNumberDelimiter true n i s v =
      (true, ⟨tl, s.rest⟩, storeFrom v i vals) := by
  intro n
  induction n with
  | zero =>
    intro i s v vals tl h
    simp only [floatsSyntax, Option.some.injEq, Prod.mk.injEq] at h
    obtain ⟨rfl, rfl⟩ := h
    rfl
  | succ n ih =>
    intro i s v vals tl h
    simp only [floatsSyntax] at h
    cases i with
    | zero =>
      simp only [decide_True, if_true] at h
      cases h1 : floatSyntax P s.view with
      | none => rw [h1] at h; cases h
      | some r =>
        obtain ⟨x, t1⟩ := r
        rw [h1] at h
        dsimp only at h
        cases h2 : floatsSyntax P n false t1 with
        | none => rw [h2] at h; cases h
        | some r2 =>
          obtain ⟨vs, t2⟩ := r2
          rw [h2] at h
          simp only [Option.some.injEq, Prod.mk.injEq] at h
          obtain ⟨rfl, rfl⟩ := h
          have e1 : ConsumeFloat P s (v.getD 0 default) = (true, ⟨t1, s.rest⟩, x) :=
            ConsumeFloat_some P s _ x t1 h1
          rw [Loop_first (ConsumeFloat P) ConsumeNumberDelimiter true n s ⟨t1, s.rest⟩ v x e1]
          exact ih 1 ⟨t1, s.rest⟩ (v.set 0 x) vs t2 h2
    | succ i =>
      have hd : decide (i + 1 = 0) = false := by simp
      rw [hd] at h
      simp only [Bool.false_eq_true, if_false] at h
      cases h1 : floatSyntax P (skipNumberDelimiter s.view) with
      | none => rw [h1] at h; cases h
      | some r =>
        obtain ⟨x, t1⟩ := r
        rw [h1] at h
        dsimp only at h
        cases h2 : floatsSyntax P n false t1 with
        | none => rw [h2] at h; cases h
        | some r2 =>
          obtain ⟨vs, t2⟩ := r2
          rw [h2] at h
          simp only [Option.some.injEq, Prod.mk.injEq] at h
          obtain ⟨rfl, rfl⟩ := h
          have e1 : ConsumeFloat P (ConsumeNumberDelimiter s).2 (v.getD (i + 1) default) =
              (true, ⟨t1, s.rest⟩, x) := by
            rw [ConsumeNumberDelimiter_text, ConsumeFloat_some P _ _ x t1 h1]
          rw [Loop_next_optional (ConsumeFloat P) ConsumeNumberDelimiter n i s ⟨t1, s.rest⟩ v x
            e1]
          exact ih (i + 2) ⟨t1, s.rest⟩ (v.set (i + 1) x) vs t2 h2

theorem Loop_floats_none (P : Platform) : ∀ (n i : Nat) (s : StringPiece) (v : List CGFloat),
    floatsSyntax P n (decide (i = 0)) s.view = none →
    (GenericConsumeValuesLoop (ConsumeFloat P) ConsumeNumberDelimiter true n i s v).1 = false := by
  intro n
  induction n with
  | zero => intro i s v h; cases h
  | succ n ih =>
    intro i s v h
    simp only [floatsSyntax] at h
    cases i with
    | zero =>
      simp only [decide_True, if_true] at h
      cases h1 : floatSyntax P s.view with
      | none =>
        exact Loop_no_first _ _ true n s v (by rw [ConsumeFloat_none P s _ h1])
      | some r =>
        obtain ⟨x, t1⟩ := r
        rw [h1] at h
        dsimp only at h
        have e1 : ConsumeFloat P s (v.getD 0 default) = (true, ⟨t1, s.rest⟩, x) :=
          ConsumeFloat_some P s _ x t1 h1
        rw [Loop_first (ConsumeFloat P) ConsumeNumberDelimiter true n s ⟨t1, s.rest⟩ v x e1]
        apply ih 1 ⟨t1, s.rest⟩
        cases h2 : floatsSyntax P n false t1 with
        | none => exact h2
        | some r2 => rw [h2] at h; cases h
    | succ i =>
      have hd : decide (i + 1 = 0) = false := by simp
      rw [hd] at h
      simp only [Bool.false_eq_true, if_false] at h
      cases h1 : floatSyntax P (skipNumberDelimiter s.view) with
      | none =>
        exact Loop_no_value_optional _ _ n i s v (by
          rw [ConsumeNumberDelimiter_text, ConsumeFloat_none P _ _ h1])
      | some r =>
        obtain ⟨x, t1⟩ := r
        rw [h1] at h
        dsimp only at h
        have e1 : ConsumeFloat P (ConsumeNumberDelimiter s).2 (v.getD (i + 1) default) =
            (true, ⟨t1, s.rest⟩, x) := by
          rw [ConsumeNumberDelimiter_text, ConsumeFloat_some P _ _ x t1 h1]
        rw [Loop_next_optional (ConsumeFloat P) ConsumeNumberDelimiter n i s ⟨t1, s.rest⟩ v x
          e1]
        apply ih (i + 2) ⟨t1, s.rest⟩
        cases h2 : floatsSyntax P n false t1 with
        | none => exact h2
        | some r2 => rw [h2] at h; cases h

theorem floatMantissa_dropWhile (P : Platform) (l : List Char) :
    floatMantissa P (l.dropWhile isspace) = floatMantissa P l := by
  have h : (l.dropWhile isspace).dropWhile isspace = l.dropWhile isspace := by
    apply dropWhile_stop
    intro c hc
    cases hd : l.dropWhile isspace with
    | nil => rw [hd] at hc; cases hc
    | cons y u =>
      rw [hd] at hc
      cases hc
      have := List.head_dropWhile_not isspace l (by rw [hd]; simp)
      simpa [hd] using this
  unfold floatMantissa
  rw [h]

theorem floatSyntax_dropWhile (P : Platform) (l : List Char) :
    floatSyntax P (l.dropWhile isspace) = floatSyntax P l := by
  unfold floatSyntax floatOutcome
  rw [floatMantissa_dropWhile]

theorem floatSyntax_none_of_close (P : Platform) (l t : List Char)
    (h : l.dropWhile isspace = ')' :: t) :
    floatSyntax P l = none := by
  have hf : hasFloatDigits l = false := by
    unfold hasFloatDigits
    dsimp only
    rw [h]
    rfl
  cases hm : floatMantissa P l with
  | none =>
    unfold floatSyntax
    rw [(floatOutcome_eq_none_iff P l).2 hm]
  | some r =>
    have := (hasFloatDigits_iff P l).2 (by rw [hm]; simp)
    rw [hf] at this
    cases this

theorem skipNumberDelimiter_of_close (l t : List Char) (h : l.dropWhile isspace = ')' :: t) :
    skipNumberDelimiter l = l := by
  unfold skipNumberDelimiter
  dsimp only
  rw [h, if_neg (by simp)]

theorem not_close_of_float (P : Platform) (l : List Char) (first : Bool)
    (h : floatSyntax P (if first = true then l else skipNumberDelimiter l) ≠ none) :
    ∀ t, l.dropWhile isspace ≠ ')' :: t := by
  intro t ht
  apply h
  cases first with
  | true => exact floatSyntax_none_of_close P l t ht
  | false =>
    rw [if_neg (by decide), skipNumberDelimiter_of_close l t ht]
    exact floatSyntax_none_of_close P l t ht

theorem floatsSyntax_length (P : Platform) : ∀ (k : Nat) (first : Bool) (l : List Char) (vals : List CGFloat)
    (tl : List Char), floatsSyntax P k first l = some (vals, tl) → vals.length = k := by
  intro k
  induction k with
  | zero =>
    intro first l vals tl h
    simp only [floatsSyntax, Option.some.injEq, Prod.mk.injEq] at h
    rw [← h.1]; rfl
  | succ k ih =>
    intro first l vals tl h
    simp only [floatsSyntax] at h
    cases h1 : floatSyntax P (if first = true then l else skipNumberDelimiter l) with
    | none => simp [h1] at h
    | some r =>
      obtain ⟨x, t1⟩ := r
      rw [h1] at h
      dsimp only at h
      cases h2 : floatsSyntax P k false t1 with
      | none => simp [h2] at h
      | some r2 =>
        obtain ⟨vs, t2⟩ := r2
        rw [h2] at h
        simp only [Option.some.injEq, Prod.mk.injEq] at h
        rw [← h.1, List.length_cons, ih false t1 vs t2 h2]

theorem floatsSyntax_suffix (P : Platform) : ∀ (k : Nat) (first : Bool) (l : List Char) (vals : List CGFloat)
    (tl : List Char), floatsSyntax P k first l = some (vals, tl) → tl <:+ l := by
  intro k
  induction k with
  | zero =>
    intro first l vals tl h
    simp only [floatsSyntax, Option.some.injEq, Prod.mk.injEq] at h
    rw [← h.2]
  | succ k ih =>
    intro first l vals tl h
    simp only [floatsSyntax] at h
    cases h1 : floatSyntax P (if first = true then l else skipNumberDelimiter l) with
    | none => simp [h1] at h
    | some r =>
      obtain ⟨x, t1⟩ := r
      rw [h1] at h
      dsimp only at h
      cases h2 : floatsSyntax P k false t1 with
      | none => simp [h2] at h
      | some r2 =>
        obtain ⟨vs, t2⟩ := r2
        rw [h2] at h
        simp only [Option.some.injEq, Prod.mk.injEq] at h
        rw [← h.2]
        have s1 := ih false t1 vs t2 h2
        have s2 := floatSyntax_suffix P _ x t1 h1
        have s3 : (if first = true then l else skipNumberDelimiter l) <:+ l := by
          cases first
          · exact skipNumberDelimiter_suffix l
          · exact List.suffix_refl l
        exact s1.trans (s2.trans s3)

theorem floatsSyntax_more (P : Platform) : ∀ (k count : Nat) (first : Bool) (l : List Char)
    (vals : List CGFloat) (tl t : List Char), floatsSyntax P k first l = some (vals, tl) →
    tl.dropWhile isspace = ')' :: t → k < count → floatsSyntax P count first l = none := by
  intro k
  induction k with
  | zero =>
    intro count first l vals tl t h hc hlt
    simp only [floatsSyntax, Option.some.injEq, Prod.mk.injEq] at h
    obtain ⟨_, rfl⟩ := h
    obtain ⟨c, rfl⟩ : ∃ c, count = c + 1 := ⟨count - 1, by omega⟩
    simp only [floatsSyntax]
    have : floatSyntax P (if first = true then l else skipNumberDelimiter l) = none := by
      cases first
      · rw [if_neg (by decide), skipNumberDelimiter_of_close l t hc]
        exact floatSyntax_none_of_close P l t hc
      · exact floatSyntax_none_of_close P l t hc
    rw [this]
  | succ k ih =>
    intro count first l vals tl t h hc hlt
    obtain ⟨c, rfl⟩ : ∃ c, count = c + 1 := ⟨count - 1, by omega⟩
    simp only [floatsSyntax] at h ⊢
    cases h1 : floatSyntax P (if first = true then l else skipNumberDelimiter l) with
    | none => simp [h1] at h
    | some r =>
      obtain ⟨x, t1⟩ := r
      rw [h1] at h
      dsimp only at h ⊢
      cases h2 : floatsSyntax P k false t1 with
      | none => simp [h2] at h
      | some r2 =>
        obtain ⟨vs, t2⟩ := r2
        rw [h2] at h
        simp only [Option.some.injEq, Prod.mk.injEq] at h
        obtain ⟨_, rfl⟩ := h
        rw [ih c false t1 vs t2 t h2 hc (by omega)]

theorem floatsSyntax_fewer (P : Platform) : ∀ (k count : Nat) (first : Bool) (l : List Char)
    (vals : List CGFloat) (tl : List Char), floatsSyntax P k first l = some (vals, tl) →
    count < k → ∃ v1 t1, floatsSyntax P count first l = some (v1, t1) ∧
      (∀ x ∈ v1, x ∈ vals) ∧ ∀ t, t1.dropWhile isspace ≠ ')' :: t := by
  intro k
  induction k with
  | zero => intro count first l vals tl _ h; cases h
  | succ k ih =>
    intro count first l vals tl h hlt
    simp only [floatsSyntax] at h
    cases h1 : floatSyntax P (if first = true then l else skipNumberDelimiter l) with
    | none => simp [h1] at h
    | some r =>
      obtain ⟨x, t1⟩ := r
      rw [h1] at h
      dsimp only at h
      cases h2 : floatsSyntax P k false t1 with
      | none => simp [h2] at h
      | some r2 =>
        obtain ⟨vs, t2⟩ := r2
        rw [h2] at h
        simp only [Option.some.injEq, Prod.mk.injEq] at h
        obtain ⟨rfl, rfl⟩ := h
        cases count with
        | zero =>
          refine ⟨[], l, rfl, fun y hy => absurd hy (List.not_mem_nil y), ?_⟩
          exact not_close_of_float P l first (by rw [h1]; simp)
        | succ c =>
          obtain ⟨v1, u1, e1, hsub, hnc⟩ := ih c false t1 vs t2 h2 (by omega)
          refine ⟨x :: v1, u1, ?_, ?_, hnc⟩
          · simp only [floatsSyntax]
            rw [h1]
            dsimp only
            rw [e1]
          · intro y hy
            rcases List.mem_cons.1 hy with rfl | hy
            · exact List.mem_cons_self _ _
            · exact List.mem_cons_of_mem _ (hsub y hy)

theorem floatsSyntax_dropWhile (P : Platform) (count : Nat) (l : List Char) (hc : 1 ≤ count) :
    floatsSyntax P count true (l.dropWhile isspace) = floatsSyntax P count true l := by
  obtain ⟨c, rfl⟩ : ∃ c, count = c + 1 := ⟨count - 1, by omega⟩
  simp only [floatsSyntax, if_true]
  rw [floatSyntax_dropWhile]

theorem ConsumeFloats_some (P : Platform) (s : StringPiece) (count : Nat) (out : List CGFloat)
    (vals : List CGFloat) (tl : List Char)
    (h : floatsSyntax P count true s.view = some (vals, tl)) :
    ConsumeFloats P s count out = (true, ⟨tl, s.rest⟩, storeFrom out 0 vals) := by
  unfold ConsumeFloats
  exact GenericConsumeValues_of_loop (ConsumeFloat P) ConsumeNumberDelimiter true count s out
    (storeFrom out 0 vals) tl (floatsSyntax_suffix P count true s.view vals tl h)
    (Loop_floats_some P count 0 s out vals tl h)

theorem ConsumeFloats_none (P : Platform) (s : StringPiece) (count : Nat) (out : List CGFloat)
    (h : floatsSyntax P count true s.view = none) :
    (ConsumeFloats P s count out).1 = false := by
  unfold ConsumeFloats
  exact (GenericConsumeValues_of_loop_false (ConsumeFloat P) ConsumeNumberDelimiter true count s
    out (Loop_floats_none P count 0 s out h)).1

theorem ConsumeString_open (r rest : List Char) :
    ConsumeString ⟨'(' :: r, rest⟩ "(".data true = (true, ⟨r, rest⟩) := by
  have h : "(".data.isPrefixOf ('(' :: r) = true := by
    rw [List.isPrefixOf_iff_prefix]
    exact ⟨r, rfl⟩
  rw [ConsumeString_text, h]
  rfl

theorem ConsumeString_close (t rest : List Char) :
    ConsumeString ⟨')' :: t, rest⟩ ")".data true = (true, ⟨t, rest⟩) := by
  have h : ")".data.isPrefixOf (')' :: t) = true := by
    rw [List.isPrefixOf_iff_prefix]
    exact ⟨t, rfl⟩
  rw [ConsumeString_text, h]
  rfl

theorem ConsumeString_not_close (u rest : List Char) (h : ∀ t, u ≠ ')' :: t) :
    (ConsumeString ⟨u, rest⟩ ")".data true).1 = false := by
  rw [ConsumeString_text]
  dsimp only
  apply Bool.eq_false_iff.2
  intro hp
  rw [List.isPrefixOf_iff_prefix] at hp
  obtain ⟨t, ht⟩ := hp
  exact h t ht.symm

theorem ConsumeParenthesizedFloats_open (P : Platform) (r rest : List Char) (count : Nat)
    (out : List CGFloat) :
    ConsumeParenthesizedFloats P ⟨'(' :: r, rest⟩ count out =
      if (ConsumeFloats P ⟨r.dropWhile isspace, rest⟩ count out).1 = false then
        (false, ⟨'(' :: r, rest⟩, (ConsumeFloats P ⟨r.dropWhile isspace, rest⟩ count out).2.2)
      else if (ConsumeString (ConsumeWhitespace
          (ConsumeFloats P ⟨r.dropWhile isspace, rest⟩ count out).2.1).2 ")".data true).1 = false
        then (false, ⟨'(' :: r, rest⟩,
          (ConsumeFloats P ⟨r.dropWhile isspace, rest⟩ count out).2.2)
      else (true, StringPiece.Advance ⟨'(' :: r, rest⟩ (StringPiece.beginDiff
          (ConsumeString (ConsumeWhitespace
            (ConsumeFloats P ⟨r.dropWhile isspace, rest⟩ count out).2.1).2 ")".data true).2
          ⟨'(' :: r, rest⟩),
        (ConsumeFloats P ⟨r.dropWhile isspace, rest⟩ count out).2.2) := by
  unfold ConsumeParenthesizedFloats
  dsimp only
  rw [ConsumeString_open]
  dsimp only
  rw [if_neg (by decide), ConsumeWhitespace_dropWhile]

theorem argumentsSyntax_open (P : Platform) (k : Nat) (l : List Char) (vals : List CGFloat) (tl : List Char)
    (h : argumentsSyntax P k l = some (vals, tl)) :
    ∃ r tl0, l = '(' :: r ∧ floatsSyntax P k true r = some (vals, tl0) ∧
      tl0.dropWhile isspace = ')' :: tl := by
  unfold argumentsSyntax at h
  split at h
  · rename_i r
    split at h
    · cases h
    · rename_i vals2 tl0 hf
      split at h
      · rename_i tl2 hd
        simp only [Option.some.injEq, Prod.mk.injEq] at h
        obtain ⟨rfl, rfl⟩ := h
        exact ⟨r, tl0, rfl, hf, hd⟩
      · cases h
  · cases h

theorem ConsumeParenthesizedFloats_arguments (P : Platform) (l rest : List Char) (k : Nat)
    (vals : List CGFloat) (tl : List Char) (count : Nat) (out : List CGFloat)
    (harg : argumentsSyntax P k l = some (vals, tl))
    (hc : 1 ≤ count) (hlen : count ≤ out.length) :
    (count = k → ∃ e, ConsumeParenthesizedFloats P ⟨l, rest⟩ count out = (true, ⟨tl, rest⟩, e) ∧
      e.length = out.length ∧ ∀ i, i < count → e.getD i 0 = vals.getD i 0) ∧
    (count ≠ k → ∃ e, ConsumeParenthesizedFloats P ⟨l, rest⟩ count out = (false, ⟨l, rest⟩, e) ∧
      e.length = out.length) := by
  obtain ⟨r, tl0, rfl, hf, hd⟩ := argumentsSyntax_open P k l vals tl harg
  have hk := floatsSyntax_length P k true r vals tl0 hf
  rw [ConsumeParenthesizedFloats_open]
  constructor
  · intro hck
    subst hck
    have hfl := ConsumeFloats_some P ⟨r.dropWhile isspace, rest⟩ count out vals tl0
      (by rw [floatsSyntax_dropWhile P count r hc]; exact hf)
    rw [hfl]
    dsimp only
    rw [if_neg (by decide), ConsumeWhitespace_dropWhile]
    dsimp only
    rw [hd, ConsumeString_close]
    dsimp only
    rw [if_neg (by decide)]
    have hsuf : tl <:+ '(' :: r := by
      have s1 : tl <:+ ')' :: tl := List.suffix_cons _ _
      have s2 : (')' :: tl) <:+ tl0 := by rw [← hd]; exact List.dropWhile_suffix _
      have s3 := floatsSyntax_suffix P count true r vals tl0 hf
      exact s1.trans (s2.trans (s3.trans (List.suffix_cons _ _)))
    have hadv := Advance_beginDiff_of_isSuffix ⟨'(' :: r, rest⟩ tl hsuf
    dsimp only at hadv
    rw [hadv]
    refine ⟨_, rfl, storeFrom_length vals out 0, ?_⟩
    intro i hi
    have := storeFrom_getD vals out 0 i (by omega) (by omega)
    rw [Nat.zero_add] at this
    exact this
  · intro hck
    by_cases hlt : count < k
    · obtain ⟨v1, t1, e1, hsub, hnc⟩ := floatsSyntax_fewer P k count true r vals tl0 hf hlt
      have hfl := ConsumeFloats_some P ⟨r.dropWhile isspace, rest⟩ count out v1 t1
        (by rw [floatsSyntax_dropWhile P count r hc]; exact e1)
      rw [hfl]
      dsimp only
      rw [if_neg (by decide), ConsumeWhitespace_dropWhile]
      dsimp only
      rw [if_pos (ConsumeString_not_close _ rest hnc)]
      exact ⟨_, rfl, storeFrom_length v1 out 0⟩
    · have hgt : k < count := by omega
      have hn := floatsSyntax_more P k count true r vals tl0 tl hf hd hgt
      have hfl := ConsumeFloats_none P ⟨r.dropWhile isspace, rest⟩ count out
        (by rw [floatsSyntax_dropWhile P count r hc]; exact hn)
      rw [if_pos hfl]
      refine ⟨_, rfl, ?_⟩
      exact GenericConsumeValues_length (ConsumeFloat P) ConsumeNumberDelimiter true count _ out

theorem ConsumeString_no (s : StringPiece) (w : List Char) (h : w.isPrefixOf s.view = false) :
    ConsumeString s w true = (false, s) := by
  rcases s with ⟨l, rest⟩
  rw [ConsumeString_text]
  dsimp only at h
  rw [h]
  rfl

theorem ConsumeString_yes (w l rest : List Char) :
    ConsumeString ⟨w ++ l, rest⟩ w true = (true, ⟨l, rest⟩) := by
  have h : w.isPrefixOf (w ++ l) = true := by
    rw [List.isPrefixOf_iff_prefix]
    exact ⟨l, rfl⟩
  rw [ConsumeString_text, h, if_pos rfl, List.drop_left]

theorem parseOne_rotate (P : Platform) (l rest : List Char) :
    (∀ s1 e, consumeArgsOr1 P ⟨l, rest⟩ 3 = some (true, s1, e) →
      TransformIterator.parseOne P ⟨"rotate".data ++ l, rest⟩ = some (s1, CGAffineTransformConcat
        (CGAffineTransformMakeTranslation (e.getD 1 0) (e.getD 2 0))
        (CGAffineTransformConcat (P.CGAffineTransformMakeRotation (ToRadians P (e.getD 0 0)))
          (CGAffineTransformMakeTranslation (-(e.getD 1 0)) (-(e.getD 2 0)))))) ∧
    (∀ s1 e, consumeArgsOr1 P ⟨l, rest⟩ 3 = some (false, s1, e) →
      TransformIterator.parseOne P ⟨"rotate".data ++ l, rest⟩ = some (s1, P.CGAffineTransformMakeRotation (ToRadians P (e.getD 0 0)))) ∧
    (consumeArgsOr1 P ⟨l, rest⟩ 3 = none →
      TransformIterator.parseOne P ⟨"rotate".data ++ l, rest⟩ = none) := by
  have h1 := ConsumeString_no ⟨"rotate".data ++ l, rest⟩ "matrix".data rfl
  have h2 := ConsumeString_no ⟨"rotate".data ++ l, rest⟩ "translate".data rfl
  have h3 := ConsumeString_no ⟨"rotate".data ++ l, rest⟩ "scale".data rfl
  refine ⟨fun s1 e h => ?_, fun s1 e h => ?_, fun h => ?_⟩ <;>
  · unfold TransformIterator.parseOne
    dsimp only
    rw [h1]
    dsimp only
    rw [if_neg (by decide), h2]
    dsimp only
    rw [if_neg (by decide), h3]
    dsimp only
    rw [if_neg (by decide), ConsumeString_yes]
    dsimp only
    rw [if_pos rfl, h]

theorem consumeArgsOr1_arguments (P : Platform) (l rest : List Char) (k : Nat)
    (vals : List CGFloat) (tl : List Char) (n : Nat)
    (harg : argumentsSyntax P k l = some (vals, tl))
    (hn : 1 ≤ n) :
    (k = n → ∃ e, consumeArgsOr1 P ⟨l, rest⟩ n = some (true, ⟨tl, rest⟩, e) ∧
      ∀ i, i < n → e.getD i 0 = vals.getD i 0) ∧
    (k ≠ n → k = 1 → ∃ e, consumeArgsOr1 P ⟨l, rest⟩ n = some (false, ⟨tl, rest⟩, e) ∧
      e.getD 0 0 = vals.getD 0 0) ∧
    (k ≠ n → k ≠ 1 → consumeArgsOr1 P ⟨l, rest⟩ n = none) := by
  have hA := ConsumeParenthesizedFloats_arguments P l rest k vals tl n (List.replicate n 0)
    harg hn (by rw [List.length_replicate])
  refine ⟨fun hk => ?_, fun hk h1 => ?_, fun hk h1 => ?_⟩
  · obtain ⟨e, he, _, hget⟩ := hA.1 hk.symm
    refine ⟨e, ?_, hget⟩
    unfold consumeArgsOr1
    dsimp only
    rw [he]
    rfl
  · obtain ⟨e, he, hlen⟩ := hA.2 (fun h => hk h.symm)
    have hB := ConsumeParenthesizedFloats_arguments P l rest k vals tl 1 e harg
      (le_refl 1) (by rw [hlen, List.length_replicate]; exact hn)
    obtain ⟨e2, he2, _, hget⟩ := hB.1 h1.symm
    refine ⟨e2, ?_, hget 0 (by decide)⟩
    unfold consumeArgsOr1
    dsimp only
    rw [he]
    dsimp only
    rw [he2]
    rfl
  · obtain ⟨e, he, hlen⟩ := hA.2 (fun h => hk h.symm)
    have hB := ConsumeParenthesizedFloats_arguments P l rest k vals tl 1 e harg
      (le_refl 1) (by rw [hlen, List.length_replicate]; exact hn)
    obtain ⟨e2, he2, _⟩ := hB.2 (fun h => h1 h.symm)
    unfold consumeArgsOr1
    dsimp only
    rw [he]
    dsimp only
    rw [he2]
    rfl

theorem TransformIterator.Next_some (P : Platform) (it : TransformIterator) (s1 : StringPiece)
    (T : CGAffineTransform) (h0 : it.start.length ≠ 0)
    (h : TransformIterator.parseOne P it.start = some (s1, T)) :
    it.Next P = (true, ⟨it.s_.Advance (s1.beginDiff it.s_), T, false⟩) := by
  unfold TransformIterator.Next
  unfold TransformIterator.start at h h0
  dsimp only
  rw [h, if_neg h0]

theorem start_eq (it : TransformIterator) (t : List Char) (h : it.start.view = t) :
    it.start = ⟨t, it.start.rest⟩ := by
  rw [← h]

theorem start_length_ne (it : TransformIterator) (c : Char) (t : List Char)
    (h : it.start.view = c :: t) : it.start.length ≠ 0 := by
  unfold StringPiece.length
  rw [h]
  exact Nat.succ_ne_zero _

theorem CGPointApplyAffineTransform_concat (p : CGPoint) (t1 t2 : CGAffineTransform) :
    CGPointApplyAffineTransform p (CGAffineTransformConcat t1 t2) =
      CGPointApplyAffineTransform (CGPointApplyAffineTransform p t1) t2 := by
  unfold CGPointApplyAffineTransform CGAffineTransformConcat
  dsimp only
  congr 1 <;> ring

theorem findIndexFrom_append (c : Char) : ∀ (a b : List Char) (i : Nat), c ∉ a →
    findIndexFrom c (a ++ c :: b) i = some (i + a.length) := by
  intro a
  induction a with
  | nil =>
    intro b i _
    simp [findIndexFrom]
  | cons x a ih =>
    intro b i h
    have hx : x ≠ c := fun e => h (e ▸ List.mem_cons_self _ _)
    have ha : c ∉ a := fun m => h (List.mem_cons_of_mem _ m)
    rw [List.cons_append, findIndexFrom, if_neg hx, ih b (i + 1) ha, List.length_cons]
    congr 1
    omega

theorem findIndexFrom_none (c : Char) : ∀ (a : List Char) (i : Nat), c ∉ a →
    findIndexFrom c a i = none := by
  intro a
  induction a with
  | nil =>
    intro i _
    rfl
  | cons x a ih =>
    intro i h
    have hx : x ≠ c := fun e => h (e ▸ List.mem_cons_self _ _)
    have ha : c ∉ a := fun m => h (List.mem_cons_of_mem _ m)
    simp only [findIndexFrom, if_neg hx]
    exact ih (i + 1) ha

theorem dropWhile_append_nonspace (c : Char) (t : List Char) (hc : isspace c = false) :
    ∀ a : List Char, (a ++ c :: t).dropWhile isspace = a.dropWhile isspace ++ c :: t := by
  intro a
  induction a with
  | nil =>
    show (c :: t).dropWhile isspace = c :: t
    rw [List.dropWhile_cons_of_neg (by rw [hc]; decide)]
  | cons x a ih =>
    by_cases hx : isspace x = true
    · rw [List.cons_append, List.dropWhile_cons_of_pos hx, List.dropWhile_cons_of_pos hx, ih]
    · rw [List.cons_append, List.dropWhile_cons_of_neg hx, List.dropWhile_cons_of_neg hx]
      rfl

theorem not_mem_dropWhile (c : Char) (a : List Char) (h : c ∉ a) : c ∉ a.dropWhile isspace :=
  fun m => h ((List.dropWhile_sublist _).subset m)

theorem TrimTrailingWhitespaceLoop_spec (v : List Char) : ∀ n, n ≤ v.length →
    (TrimTrailingWhitespaceLoop v n = none → (v.take n).rdropWhile isspace = []) ∧
    (∀ k, TrimTrailingWhitespaceLoop v n = some k →
      v.take k = (v.take n).rdropWhile isspace) := by
  intro n
  induction n with
  | zero =>
    intro _
    refine ⟨fun _ => ?_, fun k h => ?_⟩
    · rw [List.take_zero, List.rdropWhile_nil]
    · simp only [TrimTrailingWhitespaceLoop] at h
      cases h
  | succ n ih =>
    intro hn
    have hlt : n < v.length := hn
    have hget : v.getD n '\x00' = v[n] := by
      rw [List.getD_eq_getElem?_getD, List.getElem?_eq_getElem hlt]
      rfl
    have htake : v.take (n + 1) = v.take n ++ [v[n]] := by
      rw [List.take_succ, List.getElem?_eq_getElem hlt]
      rfl
    simp only [TrimTrailingWhitespaceLoop]
    rw [hget, htake]
    by_cases hsp : isspace v[n] = false
    · rw [if_pos hsp, List.rdropWhile_concat_neg _ _ _ (by rw [hsp]; decide)]
      refine ⟨fun h => ?_, fun k h => ?_⟩
      · cases h
      · simp only [Option.some.injEq] at h
        rw [← h, htake]
    · rw [if_neg hsp, List.rdropWhile_concat_pos _ _ _ (Bool.of_not_eq_false hsp)]
      exact ih (Nat.le_of_lt hlt)

theorem TrimTrailingWhitespace_view (v r : List Char) :
    (TrimTrailingWhitespace ⟨v, r⟩).view = v.rdropWhile isspace := by
  have h := TrimTrailingWhitespaceLoop_spec v v.length (le_refl _)
  rw [List.take_length] at h
  unfold TrimTrailingWhitespace
  show (match TrimTrailingWhitespaceLoop v v.length with
    | some non_whitespace_length => (⟨v, r⟩ : StringPiece).first non_whitespace_length
    | none => ⟨[], []⟩).view = _
  cases hl : TrimTrailingWhitespaceLoop v v.length with
  | none => exact (h.1 hl).symm
  | some k => exact h.2 k hl

theorem trimWhitespace_eq (l : List Char) :
    trimWhitespace l = (l.dropWhile isspace).rdropWhile isspace := rfl

theorem StyleIterator_NextFuel_some (fuel : Nat) (it : StyleIterator) (pos pos2 : Nat)
    (s1 s2 : StringPiece) (hs1 : (ConsumeWhitespace it.s_).2 = s1)
    (h0 : s1.length ≠ 0) (h1 : s1.find ':' = some pos)
    (hs2 : (ConsumeWhitespace (s1.Advance (pos + 1))).2 = s2)
    (h2 : s2.find ';' = some pos2) :
    StyleIterator.NextFuel (fuel + 1) it =
      if (TrimTrailingWhitespace (s1.first pos)).view ∈ it.supported_properties_ then
        (true, ⟨s2.Advance (pos2 + 1), TrimTrailingWhitespace (s1.first pos),
          TrimTrailingWhitespace (s2.first pos2), it.supported_properties_⟩)
      else StyleIterator.NextFuel fuel ⟨s2.Advance (pos2 + 1),
        TrimTrailingWhitespace (s1.first pos), TrimTrailingWhitespace (s2.first pos2),
        it.supported_properties_⟩ := by
  subst hs1
  subst hs2
  rw [StyleIterator.NextFuel]
  dsimp only
  rw [if_neg h0, h1]
  dsimp only
  rw [h2]

theorem StyleIterator_NextFuel_last (fuel : Nat) (it : StyleIterator) (pos : Nat)
    (s1 s2 : StringPiece) (hs1 : (ConsumeWhitespace it.s_).2 = s1)
    (h0 : s1.length ≠ 0) (h1 : s1.find ':' = some pos)
    (hs2 : (ConsumeWhitespace (s1.Advance (pos + 1))).2 = s2)
    (h2 : s2.find ';' = none) :
    StyleIterator.NextFuel (fuel + 1) it =
      if (TrimTrailingWhitespace (s1.first pos)).view ∈ it.supported_properties_ then
        (true, ⟨s2.Advance s2.length, TrimTrailingWhitespace (s1.first pos),
          TrimTrailingWhitespace s2, it.supported_properties_⟩)
      else StyleIterator.NextFuel fuel ⟨s2.Advance s2.length,
        TrimTrailingWhitespace (s1.first pos), TrimTrailingWhitespace s2,
        it.supported_properties_⟩ := by
  subst hs1
  subst hs2
  rw [StyleIterator.NextFuel]
  dsimp only
  rw [if_neg h0, h1]
  dsimp only
  rw [h2]

theorem Advance_view_append (a b rest : List Char) (n : Nat) (h : n = a.length) :
    (StringPiece.Advance ⟨a ++ b, rest⟩ n) = ⟨b, rest⟩ := by
  subst h
  unfold StringPiece.Advance
  dsimp only
  rw [Nat.min_eq_left (by rw [List.length_append]; omega), List.drop_left]

theorem Advance_view_stop (a : List Char) (c : Char) (b rest : List Char) :
    (StringPiece.Advance ⟨a ++ c :: b, rest⟩ (a.length + 1)) = ⟨b, rest⟩ := by
  have e : a ++ c :: b = (a ++ [c]) ++ b := by
    rw [List.append_assoc]
    rfl
  rw [e]
  exact Advance_view_append _ _ _ _ (by rw [List.length_append]; rfl)

theorem Trim_first_view (a b rest : List Char) :
    (TrimTrailingWhitespace (StringPiece.first ⟨a ++ b, rest⟩ a.length)).view
      = a.rdropWhile isspace := by
  have e : StringPiece.first ⟨a ++ b, rest⟩ a.length
      = ⟨a, (a ++ b).drop a.length ++ rest⟩ := by
    unfold StringPiece.first
    dsimp only
    rw [List.take_left]
  rw [e, TrimTrailingWhitespace_view]

theorem isspace_colon : isspace ':' = false := by decide

theorem isspace_semicolon : isspace ';' = false := by decide

/-- One declaration `p:v` followed by `sep`, which is either the end of the
text or a ';' and the text `t`: the call of Next yields the trimmed pair and
leaves the cursor on `t`, or goes on with the next declaration. -/
theorem StyleIterator_NextFuel_step (fuel : Nat) (it : StyleIterator) (p v sep t : List Char)
    (hsep : (sep = [] ∧ t = []) ∨ sep = ';' :: t)
    (hp : ':' ∉ p) (hv : ';' ∉ v)
    (hview : it.s_.view = p ++ ':' :: (v ++ sep)) :
    ∃ it1 : StyleIterator, it1.s_.view = t ∧ it1.property_.view = trimWhitespace p ∧
      it1.value_.view = trimWhitespace v ∧
      it1.supported_properties_ = it.supported_properties_ ∧
      StyleIterator.NextFuel (fuel + 1) it =
        if trimWhitespace p ∈ it.supported_properties_ then (true, it1)
        else StyleIterator.NextFuel fuel it1 := by
  have hw1 : (ConsumeWhitespace it.s_).2 =
      ⟨p.dropWhile isspace ++ ':' :: (v ++ sep), it.s_.rest⟩ := by
    rw [ConsumeWhitespace_dropWhile, hview, dropWhile_append_nonspace ':' _ isspace_colon]
  have h0 : (⟨p.dropWhile isspace ++ ':' :: (v ++ sep), it.s_.rest⟩ : StringPiece).length
      ≠ 0 := by
    unfold StringPiece.length
    dsimp only
    rw [List.length_append, List.length_cons]
    omega
  have h1 : (⟨p.dropWhile isspace ++ ':' :: (v ++ sep), it.s_.rest⟩ : StringPiece).find ':'
      = some (p.dropWhile isspace).length := by
    unfold StringPiece.find
    dsimp only
    rw [findIndexFrom_append ':' _ _ 0 (not_mem_dropWhile ':' p hp), Nat.zero_add]
  have hprop : (TrimTrailingWhitespace
      (StringPiece.first ⟨p.dropWhile isspace ++ ':' :: (v ++ sep), it.s_.rest⟩
        (p.dropWhile isspace).length)).view = trimWhitespace p := Trim_first_view _ _ _
  rcases hsep with ⟨hsep, ht⟩ | hsep
  · subst hsep
    subst ht
    have hw2 : (ConsumeWhitespace (StringPiece.Advance
        ⟨p.dropWhile isspace ++ ':' :: (v ++ []), it.s_.rest⟩
        ((p.dropWhile isspace).length + 1))).2 = ⟨v.dropWhile isspace, it.s_.rest⟩ := by
      rw [Advance_view_stop, ConsumeWhitespace_dropWhile, List.append_nil]
    have h2 : (⟨v.dropWhile isspace, it.s_.rest⟩ : StringPiece).find ';' = none := by
      unfold StringPiece.find
      dsimp only
      exact findIndexFrom_none ';' _ 0 (not_mem_dropWhile ';' v hv)
    have hN := StyleIterator_NextFuel_last fuel it _ _ _ hw1 h0 h1 hw2 h2
    rw [hprop] at hN
    have hs3 : (StringPiece.Advance ⟨v.dropWhile isspace, it.s_.rest⟩
        (⟨v.dropWhile isspace, it.s_.rest⟩ : StringPiece).length).view = [] := by
      unfold StringPiece.Advance StringPiece.length
      dsimp only
      rw [Nat.min_self, List.drop_length]
    have hval : (TrimTrailingWhitespace ⟨v.dropWhile isspace, it.s_.rest⟩).view
        = trimWhitespace v := TrimTrailingWhitespace_view _ _
    exact Exists.intro
      ⟨StringPiece.Advance ⟨v.dropWhile isspace, it.s_.rest⟩
          (⟨v.dropWhile isspace, it.s_.rest⟩ : StringPiece).length,
        TrimTrailingWhitespace (StringPiece.first
          ⟨p.dropWhile isspace ++ ':' :: (v ++ []), it.s_.rest⟩ (p.dropWhile isspace).length),
        TrimTrailingWhitespace ⟨v.dropWhile isspace, it.s_.rest⟩, it.supported_properties_⟩
      ⟨hs3, hprop, hval, rfl, hN⟩
  · subst hsep
    have hw2 : (ConsumeWhitespace (StringPiece.Advance
        ⟨p.dropWhile isspace ++ ':' :: (v ++ ';' :: t), it.s_.rest⟩
        ((p.dropWhile isspace).length + 1))).2
          = ⟨v.dropWhile isspace ++ ';' :: t, it.s_.rest⟩ := by
      rw [Advance_view_stop, ConsumeWhitespace_dropWhile]
      dsimp only
      rw [dropWhile_append_nonspace ';' _ isspace_semicolon]
    have h2 : (⟨v.dropWhile isspace ++ ';' :: t, it.s_.rest⟩ : StringPiece).find ';'
        = some (v.dropWhile isspace).length := by
      unfold StringPiece.find
      dsimp only
      rw [findIndexFrom_append ';' _ _ 0 (not_mem_dropWhile ';' v hv), Nat.zero_add]
    have hN := StyleIterator_NextFuel_some fuel it _ _ _ _ hw1 h0 h1 hw2 h2
    rw [hprop] at hN
    have hs3 : (StringPiece.Advance ⟨v.dropWhile isspace ++ ';' :: t, it.s_.rest⟩
        ((v.dropWhile isspace).length + 1)).view = t := by
      rw [Advance_view_stop]
    have hval : (TrimTrailingWhitespace (StringPiece.first
        ⟨v.dropWhile isspace ++ ';' :: t, it.s_.rest⟩ (v.dropWhile isspace).length)).view
          = trimWhitespace v := Trim_first_view _ _ _
    exact Exists.intro
      ⟨StringPiece.Advance ⟨v.dropWhile isspace ++ ';' :: t, it.s_.rest⟩
          ((v.dropWhile isspace).length + 1),
        TrimTrailingWhitespace (StringPiece.first
          ⟨p.dropWhile isspace ++ ':' :: (v ++ ';' :: t), it.s_.rest⟩
          (p.dropWhile isspace).length),
        TrimTrailingWhitespace (StringPiece.first
          ⟨v.dropWhile isspace ++ ';' :: t, it.s_.rest⟩ (v.dropWhile isspace).length),
        it.supported_properties_⟩
      ⟨hs3, hprop, hval, rfl, hN⟩

theorem declarationText_cons (d : List Char × List Char) (ds : List (List Char × List Char))
    (closed : Bool) :
    ∃ sep, declarationText (d :: ds) closed = d.1 ++ ':' :: (d.2 ++ sep) ∧
      ((sep = [] ∧ declarationText ds closed = []) ∨
        sep = ';' :: declarationText ds closed) := by
  cases ds with
  | nil =>
    cases closed with
    | false => exact ⟨[], rfl, Or.inl ⟨rfl, rfl⟩⟩
    | true => exact ⟨[';'], rfl, Or.inr rfl⟩
  | cons d2 ds => exact ⟨';' :: declarationText (d2 :: ds) closed, rfl, Or.inr rfl⟩

theorem supportedDeclarations_cons (d : List Char × List Char)
    (ds : List (List Char × List Char)) (S : List (List Char)) :
    supportedDeclarations (d :: ds) S =
      if trimWhitespace d.1 ∈ S then
        (trimWhitespace d.1, trimWhitespace d.2) :: supportedDeclarations ds S
      else supportedDeclarations ds S := by
  unfold supportedDeclarations
  rw [List.map_cons, List.filter_cons]
  by_cases h : trimWhitespace d.1 ∈ S
  · rw [if_pos h, if_pos (by dsimp only; exact decide_eq_true h)]
  · rw [if_neg h, if_neg (by dsimp only; rw [decide_eq_false h]; decide)]

theorem StyleIterator_NextFuel_empty (fuel : Nat) (it : StyleIterator) (h : it.s_.view = []) :
    (StyleIterator.NextFuel fuel it).1 = false := by
  cases fuel with
  | zero => rfl
  | succ fuel =>
    have hw : (ConsumeWhitespace it.s_).2.length = 0 := by
      rw [ConsumeWhitespace_dropWhile, h]
      rfl
    rw [StyleIterator.NextFuel]
    dsimp only
    rw [if_pos hw]

/-- The call of Next on the text of the declarations `ds`: false when no
property is supported, and otherwise the first supported pair, with the
cursor left on the text of the declarations behind it. -/
theorem StyleIterator_NextFuel_declarations (closed : Bool) :
    ∀ (ds : List (List Char × List Char)) (fuel : Nat) (it : StyleIterator),
    (∀ d ∈ ds, ':' ∉ d.1 ∧ ';' ∉ d.2) →
    it.s_.view = declarationText ds closed → it.s_.length < fuel →
    (supportedDeclarations ds it.supported_properties_ = [] →
      (StyleIterator.NextFuel fuel it).1 = false) ∧
    (∀ e es, supportedDeclarations ds it.supported_properties_ = e :: es →
      ∃ ds2, (StyleIterator.NextFuel fuel it).1 = true ∧
        ((StyleIterator.NextFuel fuel it).2.property_.view,
          (StyleIterator.NextFuel fuel it).2.value_.view) = e ∧
        (StyleIterator.NextFuel fuel it).2.s_.view = declarationText ds2 closed ∧
        (StyleIterator.NextFuel fuel it).2.supported_properties_ = it.supported_properties_ ∧
        supportedDeclarations ds2 it.supported_properties_ = es ∧
        ∀ d ∈ ds2, ':' ∉ d.1 ∧ ';' ∉ d.2) := by
  intro ds
  induction ds with
  | nil =>
    intro fuel it _ hview _
    refine ⟨fun _ => StyleIterator_NextFuel_empty fuel it hview, fun e es h => ?_⟩
    cases h
  | cons d ds ih =>
    intro fuel it hform hview hfuel
    cases fuel with
    | zero => cases hfuel
    | succ fuel =>
      obtain ⟨sep, htext, hsep⟩ := declarationText_cons d ds closed
      have hd := hform d (List.mem_cons_self _ _)
      have hform2 : ∀ x ∈ ds, ':' ∉ x.1 ∧ ';' ∉ x.2 :=
        fun x hx => hform x (List.mem_cons_of_mem _ hx)
      rw [htext] at hview
      obtain ⟨it1, h1s, h1p, h1v, h1S, hN⟩ :=
        StyleIterator_NextFuel_step fuel it d.1 d.2 sep (declarationText ds closed) hsep
          hd.1 hd.2 hview
      have hlen : it1.s_.length < fuel := by
        have h1 : it.s_.length = d.1.length + (1 + (d.2.length + sep.length)) := by
          unfold StringPiece.length
          rw [hview, List.length_append, List.length_cons, List.length_append]
          omega
        have h2 : (declarationText ds closed).length ≤ sep.length := by
          rcases hsep with ⟨_, h⟩ | h
          · rw [h]
            exact Nat.zero_le _
          · rw [h, List.length_cons]
            exact Nat.le_succ _
        unfold StringPiece.length
        rw [h1s]
        omega
      rw [supportedDeclarations_cons]
      by_cases hin : trimWhitespace d.1 ∈ it.supported_properties_
      · rw [if_pos hin] at hN
        rw [if_pos hin, hN]
        refine ⟨fun h => ?_, fun e es h => ?_⟩
        · cases h
        · simp only [List.cons.injEq] at h
          refine ⟨ds, rfl, ?_, h1s, h1S, h.2, hform2⟩
          rw [← h.1]
          show (it1.property_.view, it1.value_.view) = _
          rw [h1p, h1v]
      · rw [if_neg hin] at hN
        rw [if_neg hin, hN, ← h1S]
        exact ih fuel it1 hform2 h1s hlen

theorem StyleIterator_collect_declarations (closed : Bool) :
    ∀ (fuel : Nat) (ds : List (List Char × List Char)) (it : StyleIterator),
    (∀ d ∈ ds, ':' ∉ d.1 ∧ ';' ∉ d.2) →
    it.s_.view = declarationText ds closed →
    (supportedDeclarations ds it.supported_properties_).length < fuel →
    StyleIterator.collect fuel it = supportedDeclarations ds it.supported_properties_ := by
  intro fuel
  induction fuel with
  | zero =>
    intro ds it _ _ h
    cases h
  | succ fuel ih =>
    intro ds it hform hview hlen
    have hN := StyleIterator_NextFuel_declarations closed ds (it.s_.length + 1) it hform hview
      (Nat.lt_succ_self _)
    rw [StyleIterator.collect]
    cases hsup : supportedDeclarations ds it.supported_properties_ with
    | nil =>
      have h := hN.1 hsup
      unfold StyleIterator.Next
      rw [h]
      rfl
    | cons e es =>
      obtain ⟨ds2, h1, h2, h3, h4, h5, h6⟩ := hN.2 e es hsup
      rw [hsup, List.length_cons] at hlen
      unfold StyleIterator.Next
      rw [h1, if_pos rfl]
      have hrec := ih ds2 (StyleIterator.NextFuel (it.s_.length + 1) it).2 h6 h3
        (by rw [h4, h5]; omega)
      rw [h4, h5] at hrec
      have hrec2 : StyleIterator.collect fuel
          (StyleIterator.NextFuel (it.s_.length + 1) it).2 = es := hrec
      rw [h2]
      exact congrArg (List.cons e) hrec2

/-- C26: on a declaration string p1:v1;...;pn:vn, with or without a final
';', in which no pi and no vi holds a ':' or a ';', and for every set S of
supported properties, the loop over StyleIterator::Next yields exactly the
pairs (trim(pi), trim(vi)) with trim(pi) in S, in source order, where trim
removes the whitespace at both ends.  The loop is given more calls than there
are such pairs, so the call after the last pair returned false; every pair
yielded has its property in S; and when no property is in S the first call
returns false. -/
theorem style_declarations_yielded (ds : List (List Char × List Char)) (closed : Bool)
    (rest : List Char) (S : List (List Char))
    (hform : ∀ d ∈ ds, ':' ∉ d.1 ∧ ';' ∉ d.1 ∧ ':' ∉ d.2 ∧ ';' ∉ d.2) :
    (∀ fuel, (supportedDeclarations ds S).length < fuel →
      StyleIterator.collect fuel (StyleIterator.init ⟨declarationText ds closed, rest⟩ S)
        = supportedDeclarations ds S) ∧
    styleDeclarations (declarationText ds closed) S = supportedDeclarations ds S ∧
    (∀ d ∈ supportedDeclarations ds S, d.1 ∈ S) ∧
    (supportedDeclarations ds S = [] →
      (StyleIterator.init ⟨declarationText ds closed, rest⟩ S).Next.1 = false) := by
  have hform2 : ∀ d ∈ ds, ':' ∉ d.1 ∧ ';' ∉ d.2 := fun d hd => ⟨(hform d hd).1, (hform d hd).2.2.2⟩
  have hall : ∀ (r : List Char) (fuel : Nat), (supportedDeclarations ds S).length < fuel →
      StyleIterator.collect fuel (StyleIterator.init ⟨declarationText ds closed, r⟩ S)
        = supportedDeclarations ds S := fun r fuel hf =>
    StyleIterator_collect_declarations closed fuel ds
      (StyleIterator.init ⟨declarationText ds closed, r⟩ S) hform2 rfl hf
  refine ⟨hall rest, ?_, fun d hd => ?_, fun hnil => ?_⟩
  · unfold styleDeclarations
    have h1 := StyleIterator_collect_fuel ((declarationText ds closed).length + 1)
      (supportedDeclarations ds S).length
      (StyleIterator.init (StringPiece.ofString (declarationText ds closed)) S)
      (Nat.lt_succ_self _)
    rw [← h1]
    exact hall [] _ (by omega)
  · unfold supportedDeclarations at hd
    exact of_decide_eq_true (List.mem_filter.1 hd).2
  · exact (StyleIterator_NextFuel_declarations closed ds _
      (StyleIterator.init ⟨declarationText ds closed, rest⟩ S) hform2 rfl
      (Nat.lt_succ_self _)).1 hnil

set_option maxRecDepth 100000 in
theorem style_declarations_yielded_witness :
    declarationText [(" fill ".data, " red ".data), ("foo".data, "1".data),
        ("stroke".data, "\tblue\n".data)] true
      = " fill : red ;foo:1;stroke:\tblue\n;".data ∧
    declarationText [(" fill ".data, " red ".data), ("foo".data, "1".data),
        ("stroke".data, "\tblue\n".data)] false
      = " fill : red ;foo:1;stroke:\tblue\n".data ∧
    supportedDeclarations [(" fill ".data, " red ".data), ("foo".data, "1".data),
        ("stroke".data, "\tblue\n".data)] ["fill".data, "stroke".data]
      = [("fill".data, "red".data), ("stroke".data, "blue".data)] ∧
    styleDeclarations (declarationText [(" fill ".data, " red ".data), ("foo".data, "1".data),
        ("stroke".data, "\tblue\n".data)] true) ["fill".data, "stroke".data]
      = supportedDeclarations [(" fill ".data, " red ".data), ("foo".data, "1".data),
        ("stroke".data, "\tblue\n".data)] ["fill".data, "stroke".data] ∧
    styleDeclarations (declarationText [(" fill ".data, " red ".data), ("foo".data, "1".data),
        ("stroke".data, "\tblue\n".data)] false) ["fill".data, "stroke".data]
      = supportedDeclarations [(" fill ".data, " red ".data), ("foo".data, "1".data),
        ("stroke".data, "\tblue\n".data)] ["fill".data, "stroke".data] :=
  ⟨by decide, by decide, by decide,
    (style_declarations_yielded _ true [] _ (by decide)).2.1,
    (style_declarations_yielded _ false [] _ (by decide)).2.1⟩

/-! ## C31: the names ProcessStyle recognises -/

/-- C31: ProcessStyle returns true exactly for the ten names fill, stroke,
stroke-linecap, stroke-linejoin, stroke-miterlimit, stroke-width,
fill-opacity, stroke-opacity, stop-color and stop-opacity, whatever the value;
for every other name it returns false and leaves the renderer, with its
graphics state, as it was.  A value that does not parse leaves the renderer as
it was too: for fill and stroke a value that is not "none", not a colour and
not an IRI, for stroke-linecap and stroke-linejoin a value that is none of the
three keywords, for stop-color a value that is not a colour, and for the five
numeric styles a value that is not a float. -/
theorem ProcessStyle_recognised_names (P : Platform) (r : Renderer) (name value : List Char) :
    ((r.ProcessStyle P name value).1 = true ↔ name ∈ styleNames) ∧
    (name ∉ styleNames → r.ProcessStyle P name value = (false, r)) ∧
    (name = "fill".data ∨ name = "stroke".data → value ≠ "none".data →
      (ParseRgbColor P (StringPiece.ofString value) RgbColor.default).1 = false →
      (ParseIri (StringPiece.ofString value) ⟨[], []⟩).1 = false →
      r.ProcessStyle P name value = (true, r)) ∧
    (name = "stroke-linecap".data → value ≠ "butt".data → value ≠ "round".data →
      value ≠ "square".data → r.ProcessStyle P name value = (true, r)) ∧
    (name = "stroke-linejoin".data → value ≠ "miter".data → value ≠ "round".data →
      value ≠ "bevel".data → r.ProcessStyle P name value = (true, r)) ∧
    (name = "stroke-miterlimit".data ∨ name = "stroke-width".data ∨
        name = "fill-opacity".data ∨ name = "stroke-opacity".data →
      (ParseFloat P (StringPiece.ofString value) 0).1 = false →
      r.ProcessStyle P name value = (true, r)) ∧
    (name = "stop-color".data →
      (ParseRgbColor P (StringPiece.ofString value) RgbColor.default).1 = false →
      r.ProcessStyle P name value = (true, r)) ∧
    (name = "stop-opacity".data → (ParseFloat P (StringPiece.ofString value) 1).1 = false →
      r.ProcessStyle P name value = (true, r)) := by
  refine ⟨?_, ?_, ?_, ?_, ?_, ?_, ?_, ?_⟩
  · rw [ProcessStyle_fst]
    exact decide_eq_true_iff
  · intro hn
    have h1 : (r.ProcessStyle P name value).1 = false := by
      rw [ProcessStyle_fst]
      exact decide_eq_false hn
    have h2 := ProcessStyle_false P r name value h1
    exact Prod.ext h1 h2
  · intro hname hv hc hi
    have hfs : ∀ is_fill : Bool, r.ProcessFillOrStrokeValue P value is_fill = r := by
      intro is_fill
      unfold Renderer.ProcessFillOrStrokeValue
      dsimp only
      rw [if_neg hv, hc, if_neg (show ¬ false = true from Bool.false_ne_true), hi,
        if_neg (show ¬ false = true from Bool.false_ne_true)]
    rcases hname with h | h
    · rw [h]
      unfold Renderer.ProcessStyle
      rw [if_pos (show "fill".data = "fill".data from rfl)]
      rw [hfs]
    · rw [h]
      unfold Renderer.ProcessStyle
      rw [if_neg (show ¬ "stroke".data = "fill".data from by decide),
        if_pos (show "stroke".data = "stroke".data from rfl)]
      rw [hfs]
  · intro h h1 h2 h3
    rw [h]
    unfold Renderer.ProcessStyle
    rw [if_neg (show ¬ "stroke-linecap".data = "fill".data from by decide),
      if_neg (show ¬ "stroke-linecap".data = "stroke".data from by decide),
      if_pos (show "stroke-linecap".data = "stroke-linecap".data from rfl)]
    rw [if_neg h1, if_neg h2, if_neg h3]
  · intro h h1 h2 h3
    rw [h]
    unfold Renderer.ProcessStyle
    rw [if_neg (show ¬ "stroke-linejoin".data = "fill".data from by decide),
      if_neg (show ¬ "stroke-linejoin".data = "stroke".data from by decide),
      if_neg (show ¬ "stroke-linejoin".data = "stroke-linecap".data from by decide),
      if_pos (show "stroke-linejoin".data = "stroke-linejoin".data from rfl)]
    rw [if_neg h1, if_neg h2, if_neg h3]
  · intro hname hf
    rcases hname with h | h | h | h
    · rw [h]
      unfold Renderer.ProcessStyle
      rw [if_neg (show ¬ "stroke-miterlimit".data = "fill".data from by decide),
        if_neg (show ¬ "stroke-miterlimit".data = "stroke".data from by decide),
        if_neg (show ¬ "stroke-miterlimit".data = "stroke-linecap".data from by decide),
        if_neg (show ¬ "stroke-miterlimit".data = "stroke-linejoin".data from by decide),
        if_pos (show "stroke-miterlimit".data = "stroke-miterlimit".data from rfl)]
      dsimp only
      rw [if_pos hf]
    · rw [h]
      unfold Renderer.ProcessStyle
      rw [if_neg (show ¬ "stroke-width".data = "fill".data from by decide),
        if_neg (show ¬ "stroke-width".data = "stroke".data from by decide),
        if_neg (show ¬ "stroke-width".data = "stroke-linecap".data from by decide),
        if_neg (show ¬ "stroke-width".data = "stroke-linejoin".data from by decide),
        if_neg (show ¬ "stroke-width".data = "stroke-miterlimit".data from by decide),
        if_pos (show "stroke-width".data = "stroke-width".data from rfl)]
      dsimp only
      rw [if_pos hf]
    · rw [h]
      unfold Renderer.ProcessStyle
      rw [if_neg (show ¬ "fill-opacity".data = "fill".data from by decide),
        if_neg (show ¬ "fill-opacity".data = "stroke".data from by decide),
        if_neg (show ¬ "fill-opacity".data = "stroke-linecap".data from by decide),
        if_neg (show ¬ "fill-opacity".data = "stroke-linejoin".data from by decide),
        if_neg (show ¬ "fill-opacity".data = "stroke-miterlimit".data from by decide),
        if_neg (show ¬ "fill-opacity".data = "stroke-width".data from by decide),
        if_pos (show "fill-opacity".data = "fill-opacity".data from rfl)]
      dsimp only
      rw [if_pos hf]
    · rw [h]
      unfold Renderer.ProcessStyle
      rw [if_neg (show ¬ "stroke-opacity".data = "fill".data from by decide),
        if_neg (show ¬ "stroke-opacity".data = "stroke".data from by decide),
        if_neg (show ¬ "stroke-opacity".data = "stroke-linecap".data from by decide),
        if_neg (show ¬ "stroke-opacity".data = "stroke-linejoin".data from by decide),
        if_neg (show ¬ "stroke-opacity".data = "stroke-miterlimit".data from by decide),
        if_neg (show ¬ "stroke-opacity".data = "stroke-width".data from by decide),
        if_neg (show ¬ "stroke-opacity".data = "fill-opacity".data from by decide),
        if_pos (show "stroke-opacity".data = "stroke-opacity".data from rfl)]
      dsimp only
      rw [if_pos hf]
  · intro h hc
    rw [h]
    unfold Renderer.ProcessStyle
    rw [if_neg (show ¬ "stop-color".data = "fill".data from by decide),
      if_neg (show ¬ "stop-color".data = "stroke".data from by decide),
      if_neg (show ¬ "stop-color".data = "stroke-linecap".data from by decide),
      if_neg (show ¬ "stop-color".data = "stroke-linejoin".data from by decide),
      if_neg (show ¬ "stop-color".data = "stroke-miterlimit".data from by decide),
      if_neg (show ¬ "stop-color".data = "stroke-width".data from by decide),
      if_neg (show ¬ "stop-color".data = "fill-opacity".data from by decide),
      if_neg (show ¬ "stop-color".data = "stroke-opacity".data from by decide),
      if_pos (show "stop-color".data = "stop-color".data from rfl)]
    dsimp only
    rw [hc, if_neg (show ¬ false = true from Bool.false_ne_true)]
  · intro h hf
    rw [h]
    unfold Renderer.ProcessStyle
    rw [if_neg (show ¬ "stop-opacity".data = "fill".data from by decide),
      if_neg (show ¬ "stop-opacity".data = "stroke".data from by decide),
      if_neg (show ¬ "stop-opacity".data = "stroke-linecap".data from by decide),
      if_neg (show ¬ "stop-opacity".data = "stroke-linejoin".data from by decide),
      if_neg (show ¬ "stop-opacity".data = "stroke-miterlimit".data from by decide),
      if_neg (show ¬ "stop-opacity".data = "stroke-width".data from by decide),
      if_neg (show ¬ "stop-opacity".data = "fill-opacity".data from by decide),
      if_neg (show ¬ "stop-opacity".data = "stroke-opacity".data from by decide),
      if_neg (show ¬ "stop-opacity".data = "stop-color".data from by decide),
      if_pos (show "stop-opacity".data = "stop-opacity".data from rfl)]
    dsimp only
    rw [hf, if_neg (show ¬ false = true from Bool.false_ne_true)]

set_option maxRecDepth 100000 in
/-- C31 on a renderer as constructed: "fill" with the value "bogus" and
"stroke-width" with "wide" return true and change nothing, "opacity" and
"display" return false and change nothing, and "fill" with "red" where there
is no colour keyword table returns true. -/
theorem ProcessStyle_recognised_names_witness :
    Renderer.init.ProcessStyle Platform.exact "fill".data "bogus".data = (true, Renderer.init) ∧
    Renderer.init.ProcessStyle Platform.exact "stroke-width".data "wide".data
      = (true, Renderer.init) ∧
    Renderer.init.ProcessStyle Platform.exact "opacity".data "0.5".data
      = (false, Renderer.init) ∧
    Renderer.init.ProcessStyle Platform.exact "display".data "none".data
      = (false, Renderer.init) ∧
    (Renderer.init.ProcessStyle Platform.exact "stop-opacity".data "0.5".data).1 = true :=
  ⟨(ProcessStyle_recognised_names Platform.exact Renderer.init "fill".data "bogus".data).2.2.1
      (Or.inl rfl) (by decide) (by decide) (by decide),
   (ProcessStyle_recognised_names Platform.exact Renderer.init "stroke-width".data
      "wide".data).2.2.2.2.2.1 (Or.inr (Or.inl rfl)) (by decide),
   (ProcessStyle_recognised_names Platform.exact Renderer.init "opacity".data "0.5".data).2.1
      (by decide),
   (ProcessStyle_recognised_names Platform.exact Renderer.init "display".data "none".data).2.1
      (by decide),
   (ProcessStyle_recognised_names Platform.exact Renderer.init "stop-opacity".data
      "0.5".data).1.2 (by decide)⟩

/-! ## C32: the radii of a rect element -/

theorem rect_radius_bounds (v half : CGFloat) (hv : 0 ≤ v) (hh : 0 < half) :
    (if v > half then half else v) = min v half ∧ 0 ≤ min v half ∧ min v half ≤ half := by
  refine ⟨?_, le_min hv (le_of_lt hh), min_le_right _ _⟩
  by_cases h : v > half
  · rw [if_pos h, min_eq_right (le_of_lt h)]
  · rw [if_neg h, min_eq_left (not_lt.1 h)]

/-- What FloatValueForKey leaves in the output for a key whose value is NaN:
the value that stands for NaN. -/
theorem FloatValueForKey_nan (P : Platform) (map : StringMap) (key : List Char)
    (out : CGFloat) (hn : valueIsNaN P map key = true) :
    P.isnan (FloatValueForKey P map key out).2 = true := by
  unfold valueIsNaN at hn
  unfold FloatValueForKey
  cases hf : FindValueOrNull map key with
  | none =>
    rw [hf] at hn
    cases hn
  | some value =>
    rw [hf] at hn
    dsimp only at hn ⊢
    rw [ParseFloat_text]
    cases ho : floatOutcome P value with
    | none =>
      rw [ho] at hn
      cases hn
    | some q =>
      obtain ⟨v, tl⟩ := q
      cases v with
      | number n =>
        rw [ho] at hn
        cases hn
      | infinity b =>
        rw [ho] at hn
        cases hn
      | nan =>
        rw [floatSyntax_of_nan P value tl ho]
        show decide (P.nan = P.nan) = true
        exact decide_eq_true rfl

theorem rect_radius_clamp (P : Platform) (v w : CGFloat) (hnv : P.isnan v = false)
    (hnw : P.isnan w = false) (hv : 0 ≤ v) (hw : 0 < w / 2) :
    (if P.isnan v = false ∧ P.isnan w = false ∧ v > w / 2 then w / 2 else v) = min v (w / 2) ∧
    0 ≤ min v (w / 2) ∧ min v (w / 2) ≤ w / 2 := by
  have h := rect_radius_bounds v (w / 2) hv hw
  refine ⟨?_, h.2⟩
  rw [← h.1]
  by_cases hc : v > w / 2
  · rw [if_pos ⟨hnv, hnw, hc⟩, if_pos hc]
  · rw [if_neg (fun h3 => hc h3.2.2), if_neg hc]

/-- C32: ProcessRectElement with the values x, y, width, height, rx and ry
that FloatValueForKey leaves for the attributes.  With a width or a height that
is a number and is <= 0 the renderer is left as it was: no path, no paint.
With width and height positive numbers: a radius that is a negative number
leaves the renderer as it was; with radii that are numbers and not negative
the element is painted with the rounded rectangle of radii
min(rx', width / 2) and min(ry', height / 2), which lie between 0 and half the
dimension, where rx' = ry' = rx when only rx is valid, rx' = ry' = ry when
only ry is valid, and rx' = rx, ry' = ry otherwise; with a valid rx that is NaN
and no valid ry the element is painted with both radii NaN.  An attribute
whose value is NaN leaves NaN in its variable. -/
theorem rect_radii_mirrored_and_clamped (P : Platform) (r : Renderer) (attributes : StringMap)
    (x y width height rx ry : CGFloat) (has_valid_rx has_valid_ry : Bool)
    (hx : (FloatValueForKey P attributes "x".data 0).2 = x)
    (hy : (FloatValueForKey P attributes "y".data 0).2 = y)
    (hw : (FloatValueForKey P attributes "width".data 0).2 = width)
    (hh : (FloatValueForKey P attributes "height".data 0).2 = height)
    (hrx : FloatValueForKey P attributes "rx".data 0 = (has_valid_rx, rx))
    (hry : FloatValueForKey P attributes "ry".data 0 = (has_valid_ry, ry)) :
    ((P.isnan width = false ∧ width ≤ 0) ∨ (P.isnan height = false ∧ height ≤ 0) →
      r.ProcessRectElement P attributes = r) ∧
    (P.isnan width = false → P.isnan height = false → 0 < width → 0 < height →
      ((P.isnan rx = false ∧ rx < 0) ∨ (P.isnan ry = false ∧ ry < 0) →
        r.ProcessRectElement P attributes = r) ∧
      (P.isnan rx = false → P.isnan ry = false → 0 ≤ rx → 0 ≤ ry →
        (∃ rx2 ry2, r.ProcessRectElement P attributes =
            r.PaintElement P [CGCall.BeginPath,
              CGCall.AddPath [CGPathCall.AddRoundedRect ⟨x, y, width, height⟩ rx2 ry2],
              CGCall.ClosePath] true ∧
          0 ≤ rx2 ∧ rx2 ≤ width / 2 ∧ 0 ≤ ry2 ∧ ry2 ≤ height / 2) ∧
        (has_valid_rx = true → has_valid_ry = false →
          r.ProcessRectElement P attributes =
            r.PaintElement P [CGCall.BeginPath,
              CGCall.AddPath [CGPathCall.AddRoundedRect ⟨x, y, width, height⟩
                (min rx (width / 2)) (min rx (height / 2))],
              CGCall.ClosePath] true) ∧
        (has_valid_rx = false → has_valid_ry = true →
          r.ProcessRectElement P attributes =
            r.PaintElement P [CGCall.BeginPath,
              CGCall.AddPath [CGPathCall.AddRoundedRect ⟨x, y, width, height⟩
                (min ry (width / 2)) (min ry (height / 2))],
              CGCall.ClosePath] true) ∧
        (has_valid_rx = has_valid_ry →
          r.ProcessRectElement P attributes =
            r.PaintElement P [CGCall.BeginPath,
              CGCall.AddPath [CGPathCall.AddRoundedRect ⟨x, y, width, height⟩
                (min rx (width / 2)) (min ry (height / 2))],
              CGCall.ClosePath] true)) ∧
      (P.isnan rx = true → ¬ (P.isnan ry = false ∧ ry < 0) →
        has_valid_rx = true → has_valid_ry = false →
        r.ProcessRectElement P attributes =
          r.PaintElement P [CGCall.BeginPath,
            CGCall.AddPath [CGPathCall.AddRoundedRect ⟨x, y, width, height⟩ rx rx],
            CGCall.ClosePath] true)) ∧
    ((valueIsNaN P attributes "width".data = true → P.isnan width = true) ∧
      (valueIsNaN P attributes "height".data = true → P.isnan height = true) ∧
      (valueIsNaN P attributes "rx".data = true → P.isnan rx = true) ∧
      (valueIsNaN P attributes "ry".data = true → P.isnan ry = true)) := by
  have hrx2 : (FloatValueForKey P attributes "rx".data 0).2 = rx := by rw [hrx]
  have hry2 : (FloatValueForKey P attributes "ry".data 0).2 = ry := by rw [hry]
  refine ⟨fun h => ?_, fun hnw hnh hwp hhp => ⟨fun h => ?_, fun hnx hny hrx0 hry0 => ?_,
    fun hnx hny h1 h2 => ?_⟩, ⟨fun h => ?_, fun h => ?_, fun h => ?_, fun h => ?_⟩⟩
  · unfold Renderer.ProcessRectElement
    dsimp only
    rw [hw, hh, if_pos h]
  · have hsize : ¬ ((P.isnan width = false ∧ width ≤ 0) ∨
        (P.isnan height = false ∧ height ≤ 0)) := fun hc =>
      hc.elim (fun h1 => absurd hwp (not_lt.2 h1.2)) (fun h1 => absurd hhp (not_lt.2 h1.2))
    unfold Renderer.ProcessRectElement
    dsimp only
    rw [hw, hh, if_neg hsize, hrx, hry]
    dsimp only
    rw [if_pos h]
  · have hsize : ¬ ((P.isnan width = false ∧ width ≤ 0) ∨
        (P.isnan height = false ∧ height ≤ 0)) := fun hc =>
      hc.elim (fun h1 => absurd hwp (not_lt.2 h1.2)) (fun h1 => absurd hhp (not_lt.2 h1.2))
    have hneg : ¬ ((P.isnan rx = false ∧ rx < 0) ∨ (P.isnan ry = false ∧ ry < 0)) := fun hc =>
      hc.elim (fun h1 => absurd hrx0 (not_le.2 h1.2)) (fun h1 => absurd hry0 (not_le.2 h1.2))
    have hw2 : 0 < width / 2 := by linarith
    have hh2 : 0 < height / 2 := by linarith
    have c1 := rect_radius_clamp P (if has_valid_rx = true ∧ has_valid_ry = false then rx
        else if has_valid_rx = false ∧ has_valid_ry = true then ry else rx) width
      (by split_ifs <;> assumption) hnw (by split_ifs <;> assumption) hw2
    have c2 := rect_radius_clamp P (if has_valid_rx = true ∧ has_valid_ry = false then rx
        else ry) height (by split_ifs <;> assumption) hnh (by split_ifs <;> assumption) hh2
    have hE : r.ProcessRectElement P attributes =
        r.PaintElement P [CGCall.BeginPath,
          CGCall.AddPath [CGPathCall.AddRoundedRect ⟨x, y, width, height⟩
            (min (if has_valid_rx = true ∧ has_valid_ry = false then rx
              else if has_valid_rx = false ∧ has_valid_ry = true then ry else rx) (width / 2))
            (min (if has_valid_rx = true ∧ has_valid_ry = false then rx else ry) (height / 2))],
          CGCall.ClosePath] true := by
      unfold Renderer.ProcessRectElement
      dsimp only
      rw [hx, hy, hw, hh, if_neg hsize, hrx, hry]
      dsimp only
      rw [if_neg hneg, c1.1, c2.1]
    refine ⟨⟨_, _, hE, c1.2.1, c1.2.2, c2.2.1, c2.2.2⟩, fun h1 h2 => ?_, fun h1 h2 => ?_,
      fun h12 => ?_⟩
    · rw [hE, if_pos ⟨h1, h2⟩, if_pos ⟨h1, h2⟩]
    · have hn : ¬ (has_valid_rx = true ∧ has_valid_ry = false) := by
        rw [h1, h2]
        decide
      rw [hE, if_neg hn, if_pos ⟨h1, h2⟩, if_neg hn]
    · have hn : ¬ (has_valid_rx = true ∧ has_valid_ry = false) := by
        rw [h12]
        cases has_valid_ry <;> decide
      have hn2 : ¬ (has_valid_rx = false ∧ has_valid_ry = true) := by
        rw [h12]
        cases has_valid_ry <;> decide
      rw [hE, if_neg hn, if_neg hn2, if_neg hn]
  · have hsize : ¬ ((P.isnan width = false ∧ width ≤ 0) ∨
        (P.isnan height = false ∧ height ≤ 0)) := fun hc =>
      hc.elim (fun h1 => absurd hwp (not_lt.2 h1.2)) (fun h1 => absurd hhp (not_lt.2 h1.2))
    have hneg : ¬ ((P.isnan rx = false ∧ rx < 0) ∨ (P.isnan ry = false ∧ ry < 0)) := fun hc =>
      hc.elim (fun h3 => by rw [hnx] at h3; cases h3.1) hny
    have hclamp : ∀ w : CGFloat,
        (if P.isnan rx = false ∧ P.isnan w = false ∧ rx > w / 2 then w / 2 else rx) = rx :=
      fun w => if_neg (fun h3 => by rw [hnx] at h3; cases h3.1)
    unfold Renderer.ProcessRectElement
    dsimp only
    rw [hx, hy, hw, hh, if_neg hsize, hrx, hry]
    dsimp only
    have hv : has_valid_rx = true ∧ has_valid_ry = false := ⟨h1, h2⟩
    rw [if_neg hneg]
    simp only [if_pos hv]
    rw [hclamp, hclamp]
  · rw [← hw]
    exact FloatValueForKey_nan P attributes _ 0 h
  · rw [← hh]
    exact FloatValueForKey_nan P attributes _ 0 h
  · rw [← hrx2]
    exact FloatValueForKey_nan P attributes _ 0 h
  · rw [← hry2]
    exact FloatValueForKey_nan P attributes _ 0 h

set_option maxRecDepth 100000 in
/-- C32, the code at the failing input: for a rect with width="10",
height="10" and rx="0e400" on IEEE doubles the value of rx is NaN,
FloatValueForKey returns true for it, no test of ProcessRectElement rejects or
clamps it, and the rounded rectangle is added with both radii NaN. -/
theorem rect_radius_nan_reaches_path :
    valueIsNaN Platform.double
      [("width".data, "10".data), ("height".data, "10".data), ("rx".data, "0e400".data)]
      "rx".data = true ∧
    FloatValueForKey Platform.double
      [("width".data, "10".data), ("height".data, "10".data), ("rx".data, "0e400".data)]
      "rx".data 0 = (true, Platform.double.nan) ∧
    Renderer.init.ProcessRectElement Platform.double
      [("width".data, "10".data), ("height".data, "10".data), ("rx".data, "0e400".data)] =
      Renderer.init.PaintElement Platform.double [CGCall.BeginPath,
        CGCall.AddPath [CGPathCall.AddRoundedRect ⟨0, 0, 10, 10⟩ Platform.double.nan
          Platform.double.nan], CGCall.ClosePath] true ∧
    Renderer.init.ProcessRectElement Platform.double
      [("width".data, "10".data), ("height".data, "10".data), ("rx".data, "0e400".data)] ≠
      Renderer.init := by
  refine ⟨?_, ?_, ?_, ?_⟩ <;> decide!

set_option maxRecDepth 100000 in
/-- C32 on a rect of width 10 and height 20: with rx = 8 alone both radii
start from 8 and become 5 and 8; with ry = 3 alone both radii are 3; with
width 0 nothing is painted. -/
theorem rect_radii_mirrored_and_clamped_witness :
    Renderer.init.ProcessRectElement Platform.exact
        [("width".data, "10".data), ("height".data, "20".data), ("rx".data, "8".data)] =
      Renderer.init.PaintElement Platform.exact [CGCall.BeginPath,
        CGCall.AddPath [CGPathCall.AddRoundedRect ⟨0, 0, 10, 20⟩ (min 8 (10 / 2))
          (min 8 (20 / 2))], CGCall.ClosePath] true ∧
    min (8 : CGFloat) (10 / 2) = 5 ∧ min (8 : CGFloat) (20 / 2) = 8 ∧
    Renderer.init.ProcessRectElement Platform.exact
        [("width".data, "10".data), ("height".data, "20".data), ("ry".data, "3".data)] =
      Renderer.init.PaintElement Platform.exact [CGCall.BeginPath,
        CGCall.AddPath [CGPathCall.AddRoundedRect ⟨0, 0, 10, 20⟩ (min 3 (10 / 2))
          (min 3 (20 / 2))], CGCall.ClosePath] true ∧
    Renderer.init.ProcessRectElement Platform.exact
        [("width".data, "0".data), ("height".data, "20".data)] = Renderer.init :=
  ⟨((rect_radii_mirrored_and_clamped Platform.exact Renderer.init
      [("width".data, "10".data), ("height".data, "20".data), ("rx".data, "8".data)]
      0 0 10 20 8 0 true false (by decide!) (by decide!) (by decide!) (by decide!) (by decide!)
      (by decide!)).2.1
      (by decide!) (by decide!) (by norm_num) (by norm_num)).2.1
      (by decide!) (by decide!) (by norm_num) (by norm_num)
      |>.2.1 rfl rfl,
   by norm_num, by norm_num,
   ((rect_radii_mirrored_and_clamped Platform.exact Renderer.init
      [("width".data, "10".data), ("height".data, "20".data), ("ry".data, "3".data)]
      0 0 10 20 0 3 false true (by decide!) (by decide!) (by decide!) (by decide!) (by decide!)
      (by decide!)).2.1
      (by decide!) (by decide!) (by norm_num) (by norm_num)).2.1
      (by decide!) (by decide!) (by norm_num) (by norm_num)
      |>.2.2.1 rfl rfl,
   (rect_radii_mirrored_and_clamped Platform.exact Renderer.init
      [("width".data, "0".data), ("height".data, "20".data)]
      0 0 0 20 0 0 false false (by decide!) (by decide!) (by decide!) (by decide!) (by decide!)
      (by decide!)).1
      (Or.inl ⟨by decide!, le_refl 0⟩)⟩

/-! ## C34: SvgArcToCgArc -/

/-- SvgArcToCgArc is `SvgArcToCgArcOver` at the rationals with the square root
and the arc tangent of the platform. -/
theorem SvgArcToCgArc_eq_Over (P : Platform) (s e : CGPoint) (large_arc sweep : Bool)
    (out : CgArc) :
    SvgArcToCgArc P s e large_arc sweep out =
      ((SvgArcToCgArcOver P.sqrt P.atan2 (s.x, s.y) (e.x, e.y) large_arc sweep
          (out.radius, (out.center.x, out.center.y), out.start_angle, out.end_angle)).1,
        ⟨(SvgArcToCgArcOver P.sqrt P.atan2 (s.x, s.y) (e.x, e.y) large_arc sweep
            (out.radius, (out.center.x, out.center.y), out.start_angle, out.end_angle)).2.1,
          ⟨(SvgArcToCgArcOver P.sqrt P.atan2 (s.x, s.y) (e.x, e.y) large_arc sweep
              (out.radius, (out.center.x, out.center.y), out.start_angle,
                out.end_angle)).2.2.1.1,
            (SvgArcToCgArcOver P.sqrt P.atan2 (s.x, s.y) (e.x, e.y) large_arc sweep
              (out.radius, (out.center.x, out.center.y), out.start_angle,
                out.end_angle)).2.2.1.2⟩,
          (SvgArcToCgArcOver P.sqrt P.atan2 (s.x, s.y) (e.x, e.y) large_arc sweep
            (out.radius, (out.center.x, out.center.y), out.start_angle,
              out.end_angle)).2.2.2.1,
          (SvgArcToCgArcOver P.sqrt P.atan2 (s.x, s.y) (e.x, e.y) large_arc sweep
            (out.radius, (out.center.x, out.center.y), out.start_angle,
              out.end_angle)).2.2.2.2⟩) := by
  have hpt : (s = e) ↔ ((s.x, s.y) = (e.x, e.y)) := by
    constructor
    · intro h; rw [h]
    · intro h
      cases s
      cases e
      simp only [Prod.mk.injEq] at h
      rw [h.1, h.2]
  unfold SvgArcToCgArc SvgArcToCgArcOver
  by_cases h : s = e ∨ out.radius ≤ 0
  · rw [if_pos h, if_pos (by rw [← hpt]; exact h)]
  · rw [if_neg h, if_neg (by rw [← hpt]; exact h)]

set_option maxRecDepth 100000 in
/-- C35 as stated fails: path data need not begin with a MoveTo.  On "L 10 10"
the first call of Next returns true with the command LineTo and the point
(10, 10), on "z" it returns true with ClosePath, and on empty data with an
implicit close it returns true with ClosePath. -/
theorem first_command_need_not_be_move_to :
    ((PathDataIterator.init PathDataIterator.zero "L 10 10".data kPathDataFormatPath false).Next
      Platform.exact).1 = true ∧
    ((PathDataIterator.init PathDataIterator.zero "L 10 10".data kPathDataFormatPath false).Next
      Platform.exact).2.command_type_ = kPathCommandTypeLineTo ∧
    ((PathDataIterator.init PathDataIterator.zero "L 10 10".data kPathDataFormatPath false).Next
      Platform.exact).2.point_ = ⟨10, 10⟩ ∧
    ((PathDataIterator.init PathDataIterator.zero "z".data kPathDataFormatPath false).Next
      Platform.exact).1 = true ∧
    ((PathDataIterator.init PathDataIterator.zero "z".data kPathDataFormatPath false).Next
      Platform.exact).2.command_type_ = kPathCommandTypeClosePath ∧
    ((PathDataIterator.init PathDataIterator.zero [] kPathDataFormatPath true).Next
      Platform.exact).1 = true ∧
    ((PathDataIterator.init PathDataIterator.zero [] kPathDataFormatPath true).Next
      Platform.exact).2.command_type_ = kPathCommandTypeClosePath := by
  refine ⟨?_, ?_, ?_, ?_, ?_, ?_, ?_⟩ <;> decide!

theorem commandTypeOfChar_move (c : Char)
    (h : commandTypeOfChar c = some kPathCommandTypeMoveTo) : c = 'm' := by
  unfold commandTypeOfChar at h
  split_ifs at h with h1 h2 h3 h4 h5 h6 h7 h8 h9 h10
  all_goals first | exact h5 | cases h

theorem upper_case_range (ch : Char) (h : 'A' ≤ ch ∧ ch ≤ 'Z') :
    65 ≤ ch.toNat ∧ ch.toNat ≤ 90 := by
  obtain ⟨h1, h2⟩ := h
  exact ⟨h1, h2⟩

set_option maxRecDepth 100000 in
theorem upper_case_move (ch : Char) (h : 'A' ≤ ch ∧ ch ≤ 'Z')
    (hc : commandTypeOfChar (Char.ofNat (ch.toNat + 32)) = some kPathCommandTypeMoveTo) :
    ch = 'M' := by
  obtain ⟨h1, h2⟩ := upper_case_range ch h
  have e : ch = Char.ofNat ch.toNat := (Char.ofNat_toNat ch).symm
  generalize ch.toNat = n at h1 h2 hc e
  subst e
  interval_cases n <;> first | rfl | (exfalso; revert hc; decide)

theorem PeekAlpha_not_letter (ch : Char) (l rest : List Char)
    (h : ¬ (('a' ≤ ch ∧ ch ≤ 'z') ∨ ('A' ≤ ch ∧ ch ≤ 'Z'))) :
    (PeekAlpha ⟨ch :: l, rest⟩ '\x00').1 = false := by
  unfold PeekAlpha
  simp only [StringPiece.get, List.cons_append, List.getD_cons_zero]
  rw [if_neg h]

theorem init_whitespace (u : PathDataIterator) (data : List Char) (format : PathDataFormat)
    (ic : Bool) :
    (ConsumeWhitespace (PathDataIterator.init u data format ic).s_).2
      = ⟨data.dropWhile isspace, []⟩ := by
  rw [ConsumeWhitespace_dropWhile]
  rfl

/-- C35, amended: on the first call of Next for path data, a command letter
at the start of the data (behind whitespace) decides the command: when the
call returns true, command_type() is the type that letter stands for, MoveTo
for 'M' and 'm' only.  Data that starts with a byte that is no letter, such as
an operand, or with a letter that is no command, is rejected; on data that is
empty or all whitespace the call returns true exactly when an implicit close
was asked for, with the command ClosePath. -/
theorem first_command_follows_letter (P : Platform) (u : PathDataIterator) (data : List Char)
    (ic : Bool) :
    (data.dropWhile isspace = [] →
      ((PathDataIterator.init u data kPathDataFormatPath ic).Next P).1 = ic ∧
      (ic = true → ((PathDataIterator.init u data kPathDataFormatPath ic).Next P).2.command_type_
        = kPathCommandTypeClosePath)) ∧
    (∀ ch l, data.dropWhile isspace = ch :: l →
      (¬ (('a' ≤ ch ∧ ch ≤ 'z') ∨ ('A' ≤ ch ∧ ch ≤ 'Z')) →
        ((PathDataIterator.init u data kPathDataFormatPath ic).Next P).1 = false) ∧
      (('a' ≤ ch ∧ ch ≤ 'z') ∨ ('A' ≤ ch ∧ ch ≤ 'Z') →
        (commandTypeOfChar
          (if decide ('A' ≤ ch ∧ ch ≤ 'Z') = true then Char.ofNat (ch.toNat + 32) else ch)
            = none →
          ((PathDataIterator.init u data kPathDataFormatPath ic).Next P).1 = false) ∧
        (∀ t, commandTypeOfChar
          (if decide ('A' ≤ ch ∧ ch ≤ 'Z') = true then Char.ofNat (ch.toNat + 32) else ch)
            = some t →
          ((PathDataIterator.init u data kPathDataFormatPath ic).Next P).2.command_type_ = t) ∧
        (((PathDataIterator.init u data kPathDataFormatPath ic).Next P).1 = true →
          ((PathDataIterator.init u data kPathDataFormatPath ic).Next P).2.command_type_
            = kPathCommandTypeMoveTo → ch = 'M' ∨ ch = 'm'))) := by
  have hfmt : (PathDataIterator.init u data kPathDataFormatPath ic).format_
      = kPathDataFormatPath := rfl
  have hws := init_whitespace u data kPathDataFormatPath ic
  refine ⟨fun hnil => ?_, fun ch l hcons => ?_⟩
  · rw [hnil] at hws
    unfold PathDataIterator.Next
    dsimp only
    rw [hws, if_pos (show (⟨[], []⟩ : StringPiece).length = 0 from rfl)]
    cases ic with
    | false => exact ⟨rfl, fun h => absurd h Bool.false_ne_true⟩
    | true => exact ⟨rfl, fun _ => rfl⟩
  · rw [hcons] at hws
    have hne : (ConsumeWhitespace (PathDataIterator.init u data kPathDataFormatPath ic).s_).2.length
        ≠ 0 := by
      rw [hws]
      exact Nat.succ_ne_zero _
    refine ⟨fun hnl => ?_, fun hl => ?_⟩
    · exact Next_no_repeat P _ hfmt hne (by rw [hws]; exact PeekAlpha_not_letter ch l [] hnl)
        (Or.inl rfl)
    · have hsome : ∀ t, commandTypeOfChar
          (if decide ('A' ≤ ch ∧ ch ≤ 'Z') = true then Char.ofNat (ch.toNat + 32) else ch)
            = some t →
          ((PathDataIterator.init u data kPathDataFormatPath ic).Next P).2.command_type_ = t := by
        intro t ht
        rw [Next_letter P _ ch l [] t hfmt hws hl ht, (finish_fields _).2.1,
          (dispatch_keeps P _).1]
      refine ⟨fun hnone => ?_, hsome, fun htrue hmove => ?_⟩
      · rw [Next_of_path P _ hfmt hne, finish_fst,
          ParseSingleCommandForPath_letter_none P _ ch l [] hws hl hnone]
      · cases hc : commandTypeOfChar
            (if decide ('A' ≤ ch ∧ ch ≤ 'Z') = true then Char.ofNat (ch.toNat + 32) else ch) with
        | none =>
          rw [Next_of_path P _ hfmt hne, finish_fst,
            ParseSingleCommandForPath_letter_none P _ ch l [] hws hl hc] at htrue
          cases htrue
        | some t =>
          have ht := hsome t hc
          rw [hmove] at ht
          rw [← ht] at hc
          by_cases hup : 'A' ≤ ch ∧ ch ≤ 'Z'
          · left
            rw [if_pos (decide_eq_true hup)] at hc
            exact upper_case_move ch hup hc
          · right
            rw [if_neg (by rw [decide_eq_false hup]; decide)] at hc
            exact commandTypeOfChar_move ch hc

set_option maxRecDepth 100000 in
/-- C35, amended, on "M 1 2", "L 10 10", "10 10", "x" and "  ": the first
call yields MoveTo for 'M' and LineTo for 'L', and it fails on an operand, on
a letter that is no command and on blank data without an implicit close. -/
theorem first_command_follows_letter_witness :
    ((PathDataIterator.init PathDataIterator.zero "M 1 2".data kPathDataFormatPath false).Next
      Platform.exact).2.command_type_ = kPathCommandTypeMoveTo ∧
    ((PathDataIterator.init PathDataIterator.zero "L 10 10".data kPathDataFormatPath false).Next
      Platform.exact).2.command_type_ = kPathCommandTypeLineTo ∧
    ((PathDataIterator.init PathDataIterator.zero "10 10".data kPathDataFormatPath false).Next
      Platform.exact).1 = false ∧
    ((PathDataIterator.init PathDataIterator.zero "x".data kPathDataFormatPath false).Next
      Platform.exact).1 = false ∧
    ((PathDataIterator.init PathDataIterator.zero "  ".data kPathDataFormatPath false).Next
      Platform.exact).1 = false :=
  ⟨(((first_command_follows_letter Platform.exact PathDataIterator.zero "M 1 2".data false).2
      'M' " 1 2".data (by decide)).2 (by decide)).2.1 _ (by decide),
   (((first_command_follows_letter Platform.exact PathDataIterator.zero "L 10 10".data false).2
      'L' " 10 10".data (by decide)).2 (by decide)).2.1 _ (by decide),
   ((first_command_follows_letter Platform.exact PathDataIterator.zero "10 10".data false).2
      '1' "0 10".data (by decide)).1 (by decide),
   (((first_command_follows_letter Platform.exact PathDataIterator.zero "x".data false).2
      'x' [] (by decide)).2 (by decide)).1 (by decide),
   ((first_command_follows_letter Platform.exact PathDataIterator.zero "  ".data false).1
      (by decide)).1⟩

/-! ## C39: the centre of rotate(a cx cy) -/

theorem Next_rotate_three (P : Platform) (it : TransformIterator) (l : List Char)
    (a cx cy : CGFloat) (tl : List Char)
    (hview : it.start.view = "rotate".data ++ l)
    (harg : argumentsSyntax P 3 l = some ([a, cx, cy], tl)) :
    (it.Next P).1 = true ∧
    (it.Next P).2.transform_ =
      CGAffineTransformConcat (CGAffineTransformMakeTranslation cx cy)
        (CGAffineTransformConcat (P.CGAffineTransformMakeRotation (ToRadians P a))
          (CGAffineTransformMakeTranslation (-cx) (-cy))) := by
  have h0 := start_length_ne it _ _ hview
  have hs := start_eq it _ hview
  have hC := consumeArgsOr1_arguments P l it.start.rest 3 [a, cx, cy] tl 3 harg (by decide)
  have hp := parseOne_rotate P l it.start.rest
  rw [← hs] at hp
  obtain ⟨e, he, hget⟩ := hC.1 rfl
  have hN := TransformIterator.Next_some P it _ _ h0 (hp.1 _ _ he)
  rw [hget 0 (by decide), hget 1 (by decide), hget 2 (by decide)] at hN
  rw [hN]
  exact ⟨rfl, rfl⟩

/-- C39 does not hold: the matrix that TransformIterator::Next yields for
"rotate(a cx cy)" maps the point (cx, cy) to (2cx, 2cy) * R - (cx, cy), where R
is the rotation by a; (cx, cy) is a fixed point only when R leaves
(2cx, 2cy) where it is.  The product taken in the other order,
Concat(Translate(-cx, -cy), Concat(R, Translate(cx, cy))), leaves (cx, cy)
fixed for every R without a translation part. -/
theorem rotate_centre_is_moved (P : Platform) (it : TransformIterator) (l : List Char)
    (a cx cy : CGFloat) (tl : List Char)
    (hview : it.start.view = "rotate".data ++ l)
    (harg : argumentsSyntax P 3 l = some ([a, cx, cy], tl)) :
    (it.Next P).1 = true ∧
    CGPointApplyAffineTransform ⟨cx, cy⟩ (it.Next P).2.transform_ =
      ⟨(CGPointApplyAffineTransform ⟨2 * cx, 2 * cy⟩
          (P.CGAffineTransformMakeRotation (ToRadians P a))).x - cx,
        (CGPointApplyAffineTransform ⟨2 * cx, 2 * cy⟩
          (P.CGAffineTransformMakeRotation (ToRadians P a))).y - cy⟩ ∧
    (CGPointApplyAffineTransform ⟨cx, cy⟩ (it.Next P).2.transform_ = ⟨cx, cy⟩ ↔
      CGPointApplyAffineTransform ⟨2 * cx, 2 * cy⟩
        (P.CGAffineTransformMakeRotation (ToRadians P a)) = ⟨2 * cx, 2 * cy⟩) ∧
    ((P.CGAffineTransformMakeRotation (ToRadians P a)).tx = 0 →
      (P.CGAffineTransformMakeRotation (ToRadians P a)).ty = 0 →
      CGPointApplyAffineTransform ⟨cx, cy⟩
        (CGAffineTransformConcat (CGAffineTransformMakeTranslation (-cx) (-cy))
          (CGAffineTransformConcat (P.CGAffineTransformMakeRotation (ToRadians P a))
            (CGAffineTransformMakeTranslation cx cy))) = ⟨cx, cy⟩) := by
  obtain ⟨h1, hT⟩ := Next_rotate_three P it l a cx cy tl hview harg
  have hA : CGPointApplyAffineTransform ⟨cx, cy⟩ (it.Next P).2.transform_ =
      ⟨(CGPointApplyAffineTransform ⟨2 * cx, 2 * cy⟩
          (P.CGAffineTransformMakeRotation (ToRadians P a))).x - cx,
        (CGPointApplyAffineTransform ⟨2 * cx, 2 * cy⟩
          (P.CGAffineTransformMakeRotation (ToRadians P a))).y - cy⟩ := by
    rw [hT, CGPointApplyAffineTransform_concat, CGPointApplyAffineTransform_concat]
    unfold CGPointApplyAffineTransform CGAffineTransformMakeTranslation
    dsimp only
    congr 1 <;> ring
  refine ⟨h1, hA, ?_, ?_⟩
  · rw [hA]
    constructor
    · intro h
      have hx := congrArg CGPoint.x h
      have hy := congrArg CGPoint.y h
      dsimp only at hx hy
      have e : ∀ p : CGPoint, p.x = 2 * cx → p.y = 2 * cy → p = ⟨2 * cx, 2 * cy⟩ := by
        intro p h1 h2
        cases p
        dsimp only at h1 h2
        rw [h1, h2]
      exact e _ (by linarith) (by linarith)
    · intro h
      rw [h]
      dsimp only
      congr 1 <;> ring
  · intro htx hty
    rw [CGPointApplyAffineTransform_concat, CGPointApplyAffineTransform_concat]
    unfold CGPointApplyAffineTransform CGAffineTransformMakeTranslation
    dsimp only
    rw [htx, hty]
    congr 1 <;> ring

set_option maxRecDepth 100000 in
/-- C39 on "rotate(90 10 20)", the rotation by 90 degrees being the matrix
(0, 1, -1, 0, 0, 0): the call succeeds and the centre (10, 20) is mapped to
(-50, 0). -/
theorem rotate_centre_is_moved_witness :
    ((TransformIterator.init ⟨0, 0, 0, 0, 0, 0⟩ (StringPiece.ofString "rotate(90 10 20)".data)).Next
      { Platform.exact with CGAffineTransformMakeRotation := fun _ => ⟨0, 1, -1, 0, 0, 0⟩ }).1
        = true ∧
    CGPointApplyAffineTransform ⟨10, 20⟩
      ((TransformIterator.init ⟨0, 0, 0, 0, 0, 0⟩
        (StringPiece.ofString "rotate(90 10 20)".data)).Next
        { Platform.exact with
          CGAffineTransformMakeRotation := fun _ => ⟨0, 1, -1, 0, 0, 0⟩ }).2.transform_
        = ⟨-50, 0⟩ ∧
    ¬ CGPointApplyAffineTransform ⟨10, 20⟩
      ((TransformIterator.init ⟨0, 0, 0, 0, 0, 0⟩
        (StringPiece.ofString "rotate(90 10 20)".data)).Next
        { Platform.exact with
          CGAffineTransformMakeRotation := fun _ => ⟨0, 1, -1, 0, 0, 0⟩ }).2.transform_
        = ⟨10, 20⟩ :=
  ⟨(rotate_centre_is_moved
      { Platform.exact with CGAffineTransformMakeRotation := fun _ => ⟨0, 1, -1, 0, 0, 0⟩ }
      _ "(90 10 20)".data 90 10 20 [] (by decide) (by decide!)).1,
   (rotate_centre_is_moved
      { Platform.exact with CGAffineTransformMakeRotation := fun _ => ⟨0, 1, -1, 0, 0, 0⟩ }
      _ "(90 10 20)".data 90 10 20 [] (by decide) (by decide!)).2.1.trans (by decide!),
   fun h => absurd
     ((rotate_centre_is_moved
      { Platform.exact with CGAffineTransformMakeRotation := fun _ => ⟨0, 1, -1, 0, 0, 0⟩ }
      _ "(90 10 20)".data 90 10 20 [] (by decide) (by decide!)).2.2.1.1 h) (by decide!)⟩

/-! ## C37: the bytes read by ParseStyleSheetData -/

theorem selectorNameReads_end : ∀ (name : List Char) (fuel i : Nat) (pre behind : List Char),
    pre.length = i + 1 → name.length < fuel → (∀ c ∈ name, isSelectorNameChar c = true) →
    i + 1 + name.length ∈ (selectorNameReads (pre ++ name ++ behind) fuel i).1 := by
  intro name
  induction name with
  | nil =>
    intro fuel i pre behind _ hf _
    cases fuel with
    | zero => cases hf
    | succ fuel =>
      rw [selectorNameReads]
      split_ifs
      · exact List.mem_cons_self _ _
      · exact List.mem_cons_self _ _
  | cons c cs ih =>
    intro fuel i pre behind hpre hf hname
    cases fuel with
    | zero => cases hf
    | succ fuel =>
      have hget : (pre ++ (c :: cs) ++ behind).getD (i + 1) '\x00' = c := by
        rw [List.append_assoc, List.getD_eq_getElem?_getD, ← hpre,
          List.getElem?_append_right (le_refl _), Nat.sub_self]
        simp
      rw [selectorNameReads, hget, if_pos (hname c (List.mem_cons_self _ _))]
      dsimp only
      have e : pre ++ (c :: cs) ++ behind = (pre ++ [c]) ++ cs ++ behind := by
        simp
      have := ih fuel (i + 1) (pre ++ [c]) behind (by rw [List.length_append, hpre]; rfl)
        (by rw [List.length_cons] at hf; omega)
        (fun x hx => hname x (List.mem_cons_of_mem _ hx))
      rw [← e] at this
      rw [List.length_cons]
      refine List.mem_cons_of_mem _ ?_
      rw [show i + 1 + (cs.length + 1) = i + 1 + 1 + cs.length by omega]
      exact this

/-- C37 does not hold: when the input is a '.' followed by any number of
class-name characters, ParseStyleSheetData reads the byte at the index
`data_length`, whatever lies behind the input. -/
theorem ParseStyleSheetData_reads_behind_the_data (name behind : List Char)
    (hname : ∀ c ∈ name, isSelectorNameChar c = true) :
    name.length + 1 ∈ ParseStyleSheetDataReads ('.' :: name ++ behind) (name.length + 1) ∧
    ¬ ∀ i ∈ ParseStyleSheetDataReads ('.' :: name ++ behind) (name.length + 1),
      i < name.length + 1 := by
  have h : name.length + 1 ∈
      ParseStyleSheetDataReads ('.' :: name ++ behind) (name.length + 1) := by
    unfold ParseStyleSheetDataReads
    rw [ParseStyleSheetDataReadsLoop, if_pos (Nat.succ_pos _)]
    dsimp only
    rw [if_pos (show ('.' :: name ++ behind).getD 0 '\x00' = '.' from rfl)]
    refine List.mem_cons_of_mem _ (List.mem_append_left _ ?_)
    have := selectorNameReads_end name (('.' :: name ++ behind).length + 1) 0 ['.'] behind rfl
      (by simp only [List.length_cons, List.length_append]; omega) hname
    rw [show 0 + 1 + name.length = name.length + 1 by omega] at this
    exact this
  exact ⟨h, fun hall => absurd (hall _ h) (Nat.lt_irrefl _)⟩

/-- C37 on the two-byte input ".a": the indices read are 0, 1 and 2; with
the bytes "bc" behind the input the indices 3 and 4 are read as well; the
input ".a{}" is read inside its four bytes. -/
theorem ParseStyleSheetData_reads_behind_the_data_witness :
    2 ∈ ParseStyleSheetDataReads ".a".data 2 ∧
    ParseStyleSheetDataReads ".a".data 2 = [0, 1, 2] ∧
    ParseStyleSheetDataReads ".abc\x7b".data 2 = [0, 1, 2, 3, 4] ∧
    ParseStyleSheetDataReads ".a\x7b\x7d".data 4 = [0, 1, 2, 2, 3] :=
  ⟨(ParseStyleSheetData_reads_behind_the_data "a".data [] (by decide)).1,
   by decide, by decide, by decide⟩

/-! ## C33, C38: the rules of a style sheet -/

/-- One round of the parser loop at a position. -/
theorem ParseStyleSheetDataLoop_step (pos : SheetPosition) (c : Char)
    (cs name value : List Char) (sheet : MSCStyleSheet) :
    ParseStyleSheetDataLoop (c :: cs) pos.inName pos.parserState name value sheet =
      match pos with
      | SheetPosition.outside =>
        if c = '.' then
          ParseStyleSheetDataLoop cs true ParserState.BEFORE_VALUE name value sheet
        else if c = '\n' ∨ c = '\t' ∨ c = ' ' then
          ParseStyleSheetDataLoop cs false ParserState.OUTSIDE_CONTENTS name value sheet
        else none
      | SheetPosition.selector =>
        if isSelectorNameChar c = true then
          ParseStyleSheetDataLoop cs true ParserState.BEFORE_VALUE (name ++ [c]) value sheet
        else if c = '{' then
          ParseStyleSheetDataLoop cs false ParserState.FINDING_VALUE name value sheet
        else if c = ' ' then
          ParseStyleSheetDataLoop cs false ParserState.BEFORE_VALUE name value sheet
        else none
      | SheetPosition.beforeBrace =>
        if c = '{' then
          ParseStyleSheetDataLoop cs false ParserState.FINDING_VALUE name value sheet
        else if c = ' ' then
          ParseStyleSheetDataLoop cs false ParserState.BEFORE_VALUE name value sheet
        else none
      | SheetPosition.contents =>
        if c = '}' then
          ParseStyleSheetDataLoop cs false ParserState.OUTSIDE_CONTENTS [] []
            ⟨mapInsert sheet.entry name (styleDeclarations value sheetProperties)⟩
        else if c = ' ' ∨ c = '\n' then
          ParseStyleSheetDataLoop cs false ParserState.FINDING_VALUE name value sheet
        else ParseStyleSheetDataLoop cs false ParserState.FINDING_VALUE name (value ++ [c])
          sheet := by
  cases pos with
  | outside => exact ParseStyleSheetDataLoop_outside c cs name value sheet
  | selector => exact ParseStyleSheetDataLoop_selector c cs name value sheet
  | beforeBrace => exact ParseStyleSheetDataLoop_beforeBrace c cs name value sheet
  | contents => exact ParseStyleSheetDataLoop_contents c cs name value sheet

theorem isSheetWhitespace_iff (c : Char) :
    isSheetWhitespace c = true ↔ c = '\n' ∨ c = '\t' ∨ c = ' ' := by
  unfold isSheetWhitespace
  exact decide_eq_true_iff

/-- A text that leads to a position outside a rule can be parsed by itself:
the parser goes on behind it from the sheet it has built, with an empty
selector name and an empty value. -/
theorem ParseStyleSheetDataLoop_append : ∀ (A B : List Char) (pos : SheetPosition)
    (name value : List Char) (sheet : MSCStyleSheet),
    positionAfter pos A = some SheetPosition.outside →
    (pos = SheetPosition.outside → name = [] ∧ value = []) →
    ParseStyleSheetDataLoop (A ++ B) pos.inName pos.parserState name value sheet =
      (ParseStyleSheetDataLoop A pos.inName pos.parserState name value sheet).bind
        fun S => ParseStyleSheetDataLoop B false ParserState.OUTSIDE_CONTENTS [] [] S := by
  intro A
  induction A with
  | nil =>
    intro B pos name value sheet hp hnv
    simp only [positionAfter, Option.some.injEq] at hp
    subst hp
    obtain ⟨rfl, rfl⟩ := hnv rfl
    rw [List.nil_append, ParseStyleSheetDataLoop]
    rfl
  | cons c cs ih =>
    intro B pos name value sheet hp hnv
    rw [List.cons_append, ParseStyleSheetDataLoop_step, ParseStyleSheetDataLoop_step]
    cases pos with
    | outside =>
      obtain ⟨rfl, rfl⟩ := hnv rfl
      simp only [positionAfter] at hp
      dsimp only
      by_cases h1 : c = '.'
      · rw [if_pos h1] at hp
        rw [if_pos h1, if_pos h1]
        exact ih B SheetPosition.selector [] [] sheet hp (fun h => by cases h)
      · rw [if_neg h1] at hp
        rw [if_neg h1, if_neg h1]
        by_cases h2 : c = '\n' ∨ c = '\t' ∨ c = ' '
        · rw [if_pos ((isSheetWhitespace_iff c).2 h2)] at hp
          rw [if_pos h2, if_pos h2]
          exact ih B SheetPosition.outside [] [] sheet hp (fun _ => ⟨rfl, rfl⟩)
        · rw [if_neg (fun h => h2 ((isSheetWhitespace_iff c).1 h))] at hp
          cases hp
    | selector =>
      simp only [positionAfter] at hp
      dsimp only
      by_cases h1 : isSelectorNameChar c = true
      · rw [if_pos h1] at hp
        rw [if_pos h1, if_pos h1]
        exact ih B SheetPosition.selector _ _ sheet hp (fun h => by cases h)
      · rw [if_neg h1] at hp
        rw [if_neg h1, if_neg h1]
        by_cases h2 : c = '{'
        · rw [if_pos h2] at hp
          rw [if_pos h2, if_pos h2]
          exact ih B SheetPosition.contents _ _ sheet hp (fun h => by cases h)
        · rw [if_neg h2] at hp
          rw [if_neg h2, if_neg h2]
          by_cases h3 : c = ' '
          · rw [if_pos h3] at hp
            rw [if_pos h3, if_pos h3]
            exact ih B SheetPosition.beforeBrace _ _ sheet hp (fun h => by cases h)
          · rw [if_neg h3] at hp
            cases hp
    | beforeBrace =>
      simp only [positionAfter] at hp
      dsimp only
      by_cases h2 : c = '{'
      · rw [if_pos h2] at hp
        rw [if_pos h2, if_pos h2]
        exact ih B SheetPosition.contents _ _ sheet hp (fun h => by cases h)
      · rw [if_neg h2] at hp
        rw [if_neg h2, if_neg h2]
        by_cases h3 : c = ' '
        · rw [if_pos h3] at hp
          rw [if_pos h3, if_pos h3]
          exact ih B SheetPosition.beforeBrace _ _ sheet hp (fun h => by cases h)
        · rw [if_neg h3] at hp
          cases hp
    | contents =>
      simp only [positionAfter] at hp
      dsimp only
      by_cases h1 : c = '}'
      · rw [if_pos h1] at hp
        rw [if_pos h1, if_pos h1]
        exact ih B SheetPosition.outside [] [] _ hp (fun _ => ⟨rfl, rfl⟩)
      · rw [if_neg h1] at hp
        rw [if_neg h1, if_neg h1]
        by_cases h2 : c = ' ' ∨ c = '\n'
        · rw [if_pos h2, if_pos h2]
          exact ih B SheetPosition.contents _ _ sheet hp (fun h => by cases h)
        · rw [if_neg h2, if_neg h2]
          exact ih B SheetPosition.contents _ _ sheet hp (fun h => by cases h)

theorem mapInsert_lookup {V : Type} (m : List (List Char × V)) (key k : List Char) (v d : V)
    (h : FindValueOrNull m k = some d) : FindValueOrNull (mapInsert m key v) k = some d := by
  unfold mapInsert
  cases hk : FindValueOrNull m key with
  | some old => exact h
  | none =>
    dsimp only
    have hne : ¬ ((key, v) : List Char × V).1 = k := by
      intro e
      dsimp only at e
      rw [e, h] at hk
      cases hk
    rw [FindValueOrNull_append_ne m (key, v) k hne]
    exact h

theorem mapInsert_lookup_new {V : Type} (m : List (List Char × V)) (key : List Char) (v : V)
    (h : FindValueOrNull m key = none) : FindValueOrNull (mapInsert m key v) key = some v := by
  unfold mapInsert
  rw [h]
  exact FindValueOrNull_append_none m (key, v) h

theorem mapInsert_keys_nodup {V : Type} (m : List (List Char × V)) (key : List Char) (v : V)
    (h : (m.map Prod.fst).Nodup) : ((mapInsert m key v).map Prod.fst).Nodup := by
  unfold mapInsert
  cases hk : FindValueOrNull m key with
  | some old => exact h
  | none =>
    dsimp only
    rw [List.map_append, List.map_singleton]
    refine List.Nodup.append h (List.nodup_singleton _) ?_
    intro x hx hx2
    rw [List.mem_singleton] at hx2
    subst hx2
    have := (FindValueOrNull_isSome_iff m x).2 hx
    rw [hk] at this
    cases this

/-- What the parser loop leaves alone in the sheet it started with: a class
that has declarations keeps them, and the class names stay distinct. -/
theorem ParseStyleSheetDataLoop_keeps : ∀ (B : List Char) (pos : SheetPosition)
    (name value : List Char) (sheet F : MSCStyleSheet),
    ParseStyleSheetDataLoop B pos.inName pos.parserState name value sheet = some F →
    (∀ k d, FindValueOrNull sheet.entry k = some d → FindValueOrNull F.entry k = some d) ∧
    (sheet.keys.Nodup → F.keys.Nodup) := by
  intro B
  induction B with
  | nil =>
    intro pos name value sheet F h
    rw [ParseStyleSheetDataLoop] at h
    simp only [Option.some.injEq] at h
    subst h
    exact ⟨fun _ _ h => h, fun h => h⟩
  | cons c cs ih =>
    intro pos name value sheet F h
    rw [ParseStyleSheetDataLoop_step] at h
    cases pos with
    | outside =>
      dsimp only at h
      by_cases h1 : c = '.'
      · rw [if_pos h1] at h
        exact ih SheetPosition.selector _ _ _ _ h
      · rw [if_neg h1] at h
        by_cases h2 : c = '\n' ∨ c = '\t' ∨ c = ' '
        · rw [if_pos h2] at h
          exact ih SheetPosition.outside _ _ _ _ h
        · rw [if_neg h2] at h
          cases h
    | selector =>
      dsimp only at h
      by_cases h1 : isSelectorNameChar c = true
      · rw [if_pos h1] at h
        exact ih SheetPosition.selector _ _ _ _ h
      · rw [if_neg h1] at h
        by_cases h2 : c = '{'
        · rw [if_pos h2] at h
          exact ih SheetPosition.contents _ _ _ _ h
        · rw [if_neg h2] at h
          by_cases h3 : c = ' '
          · rw [if_pos h3] at h
            exact ih SheetPosition.beforeBrace _ _ _ _ h
          · rw [if_neg h3] at h
            cases h
    | beforeBrace =>
      dsimp only at h
      by_cases h2 : c = '{'
      · rw [if_pos h2] at h
        exact ih SheetPosition.contents _ _ _ _ h
      · rw [if_neg h2] at h
        by_cases h3 : c = ' '
        · rw [if_pos h3] at h
          exact ih SheetPosition.beforeBrace _ _ _ _ h
        · rw [if_neg h3] at h
          cases h
    | contents =>
      dsimp only at h
      by_cases h1 : c = '}'
      · rw [if_pos h1] at h
        have := ih SheetPosition.outside _ _ _ _ h
        exact ⟨fun k d hk => this.1 k d (mapInsert_lookup _ _ _ _ _ hk),
          fun hn => this.2 (mapInsert_keys_nodup _ _ _ hn)⟩
      · rw [if_neg h1] at h
        by_cases h2 : c = ' ' ∨ c = '\n'
        · rw [if_pos h2] at h
          exact ih SheetPosition.contents _ _ _ _ h
        · rw [if_neg h2] at h
          exact ih SheetPosition.contents _ _ _ _ h

theorem ParseStyleSheetDataLoop_name : ∀ (name rest n value : List Char) (sheet : MSCStyleSheet),
    (∀ c ∈ name, isSelectorNameChar c = true) →
    ParseStyleSheetDataLoop (name ++ rest) true ParserState.BEFORE_VALUE n value sheet =
      ParseStyleSheetDataLoop rest true ParserState.BEFORE_VALUE (n ++ name) value sheet := by
  intro name
  induction name with
  | nil =>
    intro rest n value sheet _
    rw [List.nil_append, List.append_nil]
  | cons c cs ih =>
    intro rest n value sheet h
    rw [List.cons_append, ParseStyleSheetDataLoop_selector,
      if_pos (h c (List.mem_cons_self _ _)),
      ih rest (n ++ [c]) value sheet (fun x hx => h x (List.mem_cons_of_mem _ hx)),
      List.append_assoc]
    rfl

theorem ParseStyleSheetDataLoop_spaces : ∀ (spaces rest n value : List Char)
    (sheet : MSCStyleSheet), (∀ c ∈ spaces, c = ' ') →
    ParseStyleSheetDataLoop (spaces ++ '{' :: rest) false ParserState.BEFORE_VALUE n value sheet =
      ParseStyleSheetDataLoop rest false ParserState.FINDING_VALUE n value sheet := by
  intro spaces
  induction spaces with
  | nil =>
    intro rest n value sheet _
    rw [List.nil_append, ParseStyleSheetDataLoop_beforeBrace, if_pos rfl]
  | cons c cs ih =>
    intro rest n value sheet h
    have hc : c = ' ' := h c (List.mem_cons_self _ _)
    subst hc
    rw [List.cons_append, ParseStyleSheetDataLoop_beforeBrace,
      if_neg (show ¬ ' ' = '{' from by decide), if_pos rfl,
      ih rest n value sheet (fun x hx => h x (List.mem_cons_of_mem _ hx))]

theorem ParseStyleSheetDataLoop_selector_end (spaces rest n value : List Char)
    (sheet : MSCStyleSheet) (h : ∀ c ∈ spaces, c = ' ') :
    ParseStyleSheetDataLoop (spaces ++ '{' :: rest) true ParserState.BEFORE_VALUE n value sheet =
      ParseStyleSheetDataLoop rest false ParserState.FINDING_VALUE n value sheet := by
  cases spaces with
  | nil =>
    rw [List.nil_append, ParseStyleSheetDataLoop_selector,
      if_neg (show ¬ isSelectorNameChar '{' = true from by decide), if_pos rfl]
  | cons c cs =>
    have hc : c = ' ' := h c (List.mem_cons_self _ _)
    subst hc
    rw [List.cons_append, ParseStyleSheetDataLoop_selector,
      if_neg (show ¬ isSelectorNameChar ' ' = true from by decide),
      if_neg (show ¬ ' ' = '{' from by decide), if_pos rfl,
      ParseStyleSheetDataLoop_spaces cs rest n value sheet
        (fun x hx => h x (List.mem_cons_of_mem _ hx))]

theorem withoutSpacesAndNewlines_skip (c : Char) (cs : List Char) (h : c = ' ' ∨ c = '\n') :
    withoutSpacesAndNewlines (c :: cs) = withoutSpacesAndNewlines cs := by
  unfold withoutSpacesAndNewlines
  rw [List.filter_cons, if_neg]
  rw [decide_eq_true_iff]
  exact fun hn => hn h

theorem withoutSpacesAndNewlines_keep (c : Char) (cs : List Char) (h : ¬ (c = ' ' ∨ c = '\n')) :
    withoutSpacesAndNewlines (c :: cs) = c :: withoutSpacesAndNewlines cs := by
  unfold withoutSpacesAndNewlines
  rw [List.filter_cons, if_pos (decide_eq_true h)]

theorem ParseStyleSheetDataLoop_body : ∀ (body rest n value : List Char)
    (sheet : MSCStyleSheet), '}' ∉ body →
    ParseStyleSheetDataLoop (body ++ '}' :: rest) false ParserState.FINDING_VALUE n value sheet =
      ParseStyleSheetDataLoop rest false ParserState.OUTSIDE_CONTENTS [] []
        ⟨mapInsert sheet.entry n
          (styleDeclarations (value ++ withoutSpacesAndNewlines body) sheetProperties)⟩ := by
  intro body
  induction body with
  | nil =>
    intro rest n value sheet _
    rw [List.nil_append, ParseStyleSheetDataLoop_contents, if_pos rfl]
    unfold withoutSpacesAndNewlines
    rw [List.filter_nil, List.append_nil]
    rfl
  | cons c cs ih =>
    intro rest n value sheet h
    have hc : ¬ c = '}' := fun e => h (e ▸ List.mem_cons_self _ _)
    have hcs : '}' ∉ cs := fun m => h (List.mem_cons_of_mem _ m)
    rw [List.cons_append, ParseStyleSheetDataLoop_contents, if_neg hc]
    by_cases h2 : c = ' ' ∨ c = '\n'
    · rw [if_pos h2, ih rest n value sheet hcs, withoutSpacesAndNewlines_skip c cs h2]
    · rw [if_neg h2, ih rest n (value ++ [c]) sheet hcs, withoutSpacesAndNewlines_keep c cs h2,
        List.append_assoc]
      rfl

/-- The parser loop on one complete rule, from outside a rule. -/
theorem ParseStyleSheetDataLoop_rule (name spaces body rest : List Char) (sheet : MSCStyleSheet)
    (hname : ∀ c ∈ name, isSelectorNameChar c = true) (hspaces : ∀ c ∈ spaces, c = ' ')
    (hbody : '}' ∉ body) :
    ParseStyleSheetDataLoop ('.' :: (name ++ (spaces ++ '{' :: (body ++ '}' :: rest)))) false
        ParserState.OUTSIDE_CONTENTS [] [] sheet =
      ParseStyleSheetDataLoop rest false ParserState.OUTSIDE_CONTENTS [] []
        ⟨mapInsert sheet.entry name
          (styleDeclarations (withoutSpacesAndNewlines body) sheetProperties)⟩ := by
  rw [ParseStyleSheetDataLoop_outside, if_pos rfl, ParseStyleSheetDataLoop_name _ _ _ _ _ hname,
    ParseStyleSheetDataLoop_selector_end _ _ _ _ _ hspaces,
    ParseStyleSheetDataLoop_body _ _ _ _ _ hbody]
  rfl

set_option maxRecDepth 100000 in
/-- C33 as stated fails: ParseStyleSheetData leaves the spaces and newlines of
a body out before it gives the body to StyleIterator.  For the rule
".a{fill: rgb(1, 2, 3)}" the value installed is "rgb(1,2,3)", while
StyleIterator yields "rgb(1, 2, 3)" on the body. -/
theorem rule_body_is_read_without_spaces :
    styleDeclarations "fill: rgb(1, 2, 3)".data sheetProperties
      = [("fill".data, "rgb(1, 2, 3)".data)] ∧
    ParseStyleSheetData ".a\x7bfill: rgb(1, 2, 3)\x7d".data
      = some ⟨[("a".data, [("fill".data, "rgb(1,2,3)".data)])]⟩ := by
  decide

/-- C33, amended: a complete rule ".name{body}" that follows complete rules
only, none of which has the class name, the name followed by spaces or by the
brace at once.  The declarations that ParseStyleSheetData installs under the
name are those StyleIterator yields, with the supported set fill, stop-color,
stroke and stroke-width, on the body without its spaces and newlines.  A body
that has no space and no newline is read as it is. -/
theorem rule_installs_declarations_of_stripped_body (pre name spaces body post : List Char)
    (S0 F : MSCStyleSheet)
    (hpre : positionAfter SheetPosition.outside pre = some SheetPosition.outside)
    (hname : ∀ c ∈ name, isSelectorNameChar c = true) (hspaces : ∀ c ∈ spaces, c = ' ')
    (hbody : '}' ∉ body)
    (hS0 : ParseStyleSheetData pre = some S0)
    (hF : ParseStyleSheetData
      (pre ++ '.' :: (name ++ (spaces ++ '{' :: (body ++ '}' :: post)))) = some F)
    (hnew : FindValueOrNull S0.entry name = none) :
    FindValueOrNull F.entry name =
      some (styleDeclarations (withoutSpacesAndNewlines body) sheetProperties) ∧
    ((∀ c ∈ body, ¬ (c = ' ' ∨ c = '\n')) → withoutSpacesAndNewlines body = body) := by
  unfold ParseStyleSheetData at hF hS0
  have happ := ParseStyleSheetDataLoop_append pre
    ('.' :: (name ++ (spaces ++ '{' :: (body ++ '}' :: post)))) SheetPosition.outside [] [] ⟨[]⟩
    hpre (fun _ => ⟨rfl, rfl⟩)
  have happ2 : ParseStyleSheetDataLoop
      (pre ++ '.' :: (name ++ (spaces ++ '{' :: (body ++ '}' :: post)))) false
      ParserState.OUTSIDE_CONTENTS [] [] ⟨[]⟩ =
      (ParseStyleSheetDataLoop pre false ParserState.OUTSIDE_CONTENTS [] [] ⟨[]⟩).bind
        fun S => ParseStyleSheetDataLoop
          ('.' :: (name ++ (spaces ++ '{' :: (body ++ '}' :: post)))) false
          ParserState.OUTSIDE_CONTENTS [] [] S := happ
  rw [happ2, hS0, Option.some_bind,
    ParseStyleSheetDataLoop_rule name spaces body post S0 hname hspaces hbody] at hF
  have hk := (ParseStyleSheetDataLoop_keeps post SheetPosition.outside [] [] _ F hF).1
  refine ⟨?_, fun hb => ?_⟩
  · exact hk _ _ (mapInsert_lookup_new _ _ _ hnew)
  · unfold withoutSpacesAndNewlines
    rw [List.filter_eq_self]
    intro c hc
    exact decide_eq_true (hb c hc)

set_option maxRecDepth 100000 in
/-- C33, amended, on the sheet ".a{fill: rgb(1, 2, 3)} .b {stroke:blue}
.c{fill:red}": the class b, a first rule behind a complete rule, has the
declarations of its body, and the class a has those of "fill:rgb(1,2,3)". -/
theorem rule_installs_declarations_of_stripped_body_witness :
    FindValueOrNull (MSCStyleSheet.mk [("a".data, [("fill".data, "rgb(1,2,3)".data)]),
        ("b".data, [("stroke".data, "blue".data)]),
        ("c".data, [("fill".data, "red".data)])]).entry "b".data =
      some (styleDeclarations (withoutSpacesAndNewlines "stroke:blue".data) sheetProperties) ∧
    FindValueOrNull (MSCStyleSheet.mk [("a".data, [("fill".data, "rgb(1,2,3)".data)])]).entry
        "a".data =
      some (styleDeclarations (withoutSpacesAndNewlines "fill: rgb(1, 2, 3)".data)
        sheetProperties) ∧
    styleDeclarations (withoutSpacesAndNewlines "fill: rgb(1, 2, 3)".data) sheetProperties
      = [("fill".data, "rgb(1,2,3)".data)] :=
  ⟨(rule_installs_declarations_of_stripped_body ".a\x7bfill: rgb(1, 2, 3)\x7d ".data "b".data
      " ".data "stroke:blue".data "\n.c\x7bfill:red\x7d".data
      ⟨[("a".data, [("fill".data, "rgb(1,2,3)".data)])]⟩
      ⟨[("a".data, [("fill".data, "rgb(1,2,3)".data)]),
        ("b".data, [("stroke".data, "blue".data)]),
        ("c".data, [("fill".data, "red".data)])]⟩
      (by decide) (by decide) (by decide) (by decide) (by decide) (by decide) (by decide)).1,
   (rule_installs_declarations_of_stripped_body [] "a".data [] "fill: rgb(1, 2, 3)".data []
      ⟨[]⟩ ⟨[("a".data, [("fill".data, "rgb(1,2,3)".data)])]⟩
      (by decide) (by decide) (by decide) (by decide) (by decide) (by decide) (by decide)).1,
   by decide⟩

/-! ## C38: the sheet of a concatenation -/

theorem FindValueOrNull_append_some {V : Type} : ∀ (a b : List (List Char × V)) (k : List Char)
    (d : V), FindValueOrNull a k = some d → FindValueOrNull (a ++ b) k = some d := by
  intro a
  induction a with
  | nil => intro b k d h; cases h
  | cons e es ih =>
    intro b k d h
    rw [List.cons_append, FindValueOrNull]
    rw [FindValueOrNull] at h
    by_cases he : e.1 = k
    · rw [if_pos he] at h ⊢
      exact h
    · rw [if_neg he] at h ⊢
      exact ih b k d h

theorem FindValueOrNull_append_right {V : Type} : ∀ (a b : List (List Char × V))
    (k : List Char), FindValueOrNull a k = none →
    FindValueOrNull (a ++ b) k = FindValueOrNull b k := by
  intro a
  induction a with
  | nil => intro b k _; rfl
  | cons e es ih =>
    intro b k h
    rw [List.cons_append, FindValueOrNull]
    rw [FindValueOrNull] at h
    by_cases he : e.1 = k
    · rw [if_pos he] at h
      cases h
    · rw [if_neg he] at h ⊢
      exact ih b k h

theorem FindValueOrNull_entriesNotIn (taken : List (List Char)) :
    ∀ (x : List (List Char × List (List Char × List Char))) (k : List Char), k ∉ taken →
    FindValueOrNull (entriesNotIn taken x) k = FindValueOrNull x k := by
  intro x
  induction x with
  | nil => intro k _; rfl
  | cons e es ih =>
    intro k hk
    unfold entriesNotIn
    rw [List.filter_cons]
    by_cases he : e.1 ∈ taken
    · rw [if_neg (by rw [decide_eq_true_iff]; exact fun hn => hn he)]
      have hne : ¬ e.1 = k := fun e1 => hk (e1 ▸ he)
      have hr : FindValueOrNull (e :: es) k = FindValueOrNull es k := by
        rw [FindValueOrNull, if_neg hne]
      rw [hr]
      exact ih k hk
    · rw [if_pos (decide_eq_true he), FindValueOrNull, FindValueOrNull]
      by_cases hek : e.1 = k
      · rw [if_pos hek, if_pos hek]
      · rw [if_neg hek, if_neg hek]
        exact ih k hk

theorem entriesNotIn_append (taken : List (List Char))
    (x y : List (List Char × List (List Char × List Char))) :
    entriesNotIn taken (x ++ y) = entriesNotIn taken x ++ entriesNotIn taken y := by
  unfold entriesNotIn
  exact List.filter_append _ _

theorem mapInsert_entriesNotIn (sa x : List (List Char × List (List Char × List Char)))
    (key : List Char) (v : List (List Char × List Char)) :
    mapInsert (sa ++ entriesNotIn (sa.map Prod.fst) x) key v =
      sa ++ entriesNotIn (sa.map Prod.fst) (mapInsert x key v) := by
  by_cases hk : key ∈ sa.map Prod.fst
  · have h1 := (FindValueOrNull_isSome_iff sa key).2 hk
    obtain ⟨d, hd⟩ := Option.isSome_iff_exists.1 h1
    have hL : mapInsert (sa ++ entriesNotIn (sa.map Prod.fst) x) key v =
        sa ++ entriesNotIn (sa.map Prod.fst) x := by
      unfold mapInsert
      rw [FindValueOrNull_append_some sa _ key d hd]
    rw [hL]
    unfold mapInsert
    cases FindValueOrNull x key with
    | some old => rfl
    | none =>
      dsimp only
      rw [entriesNotIn_append]
      have : entriesNotIn (sa.map Prod.fst) [(key, v)] = [] := by
        unfold entriesNotIn
        rw [List.filter_cons, if_neg (by rw [decide_eq_true_iff]; exact fun hn => hn hk)]
        rfl
      rw [this, List.append_nil]
  · have h1 := FindValueOrNull_none_of_not_mem sa key hk
    have h2 : FindValueOrNull (sa ++ entriesNotIn (sa.map Prod.fst) x) key =
        FindValueOrNull x key := by
      rw [FindValueOrNull_append_right sa _ key h1, FindValueOrNull_entriesNotIn _ x key hk]
    unfold mapInsert
    rw [h2]
    cases FindValueOrNull x key with
    | some old => rfl
    | none =>
      dsimp only
      rw [entriesNotIn_append]
      have : entriesNotIn (sa.map Prod.fst) [(key, v)] = [(key, v)] := by
        unfold entriesNotIn
        rw [List.filter_cons, if_pos (decide_eq_true hk)]
        rfl
      rw [this, List.append_assoc]

/-- The parser loop from a sheet that already has the classes of `sa`: the
rules for these classes are dropped, the others are installed as they are from
an empty sheet. -/
theorem ParseStyleSheetDataLoop_from_sheet
    (sa : List (List Char × List (List Char × List Char))) :
    ∀ (B : List Char) (pos : SheetPosition) (name value : List Char)
      (x : List (List Char × List (List Char × List Char))),
    ParseStyleSheetDataLoop B pos.inName pos.parserState name value
        ⟨sa ++ entriesNotIn (sa.map Prod.fst) x⟩ =
      (ParseStyleSheetDataLoop B pos.inName pos.parserState name value ⟨x⟩).map
        fun F => ⟨sa ++ entriesNotIn (sa.map Prod.fst) F.entry⟩ := by
  intro B
  induction B with
  | nil =>
    intro pos name value x
    rw [ParseStyleSheetDataLoop, ParseStyleSheetDataLoop]
    rfl
  | cons c cs ih =>
    intro pos name value x
    rw [ParseStyleSheetDataLoop_step, ParseStyleSheetDataLoop_step]
    cases pos with
    | outside =>
      dsimp only
      by_cases h1 : c = '.'
      · rw [if_pos h1, if_pos h1]
        exact ih SheetPosition.selector _ _ _
      · rw [if_neg h1, if_neg h1]
        by_cases h2 : c = '\n' ∨ c = '\t' ∨ c = ' '
        · rw [if_pos h2, if_pos h2]
          exact ih SheetPosition.outside _ _ _
        · rw [if_neg h2, if_neg h2]
          rfl
    | selector =>
      dsimp only
      by_cases h1 : isSelectorNameChar c = true
      · rw [if_pos h1, if_pos h1]
        exact ih SheetPosition.selector _ _ _
      · rw [if_neg h1, if_neg h1]
        by_cases h2 : c = '{'
        · rw [if_pos h2, if_pos h2]
          exact ih SheetPosition.contents _ _ _
        · rw [if_neg h2, if_neg h2]
          by_cases h3 : c = ' '
          · rw [if_pos h3, if_pos h3]
            exact ih SheetPosition.beforeBrace _ _ _
          · rw [if_neg h3, if_neg h3]
            rfl
    | beforeBrace =>
      dsimp only
      by_cases h2 : c = '{'
      · rw [if_pos h2, if_pos h2]
        exact ih SheetPosition.contents _ _ _
      · rw [if_neg h2, if_neg h2]
        by_cases h3 : c = ' '
        · rw [if_pos h3, if_pos h3]
          exact ih SheetPosition.beforeBrace _ _ _
        · rw [if_neg h3, if_neg h3]
          rfl
    | contents =>
      dsimp only
      by_cases h1 : c = '}'
      · rw [if_pos h1, if_pos h1, mapInsert_entriesNotIn]
        exact ih SheetPosition.outside _ _ _
      · rw [if_neg h1, if_neg h1]
        by_cases h2 : c = ' ' ∨ c = '\n'
        · rw [if_pos h2, if_pos h2]
          exact ih SheetPosition.contents _ _ _
        · rw [if_neg h2, if_neg h2]
          exact ih SheetPosition.contents _ _ _

theorem merge_of_new_classes : ∀ (src dest : List (List Char × List (List Char × List Char))),
    (src.map Prod.fst).Nodup → (∀ k ∈ src.map Prod.fst, k ∉ dest.map Prod.fst) →
    src.foldl mergeItem dest = dest ++ src := by
  intro src
  induction src with
  | nil =>
    intro dest _ _
    rw [List.foldl_nil, List.append_nil]
  | cons item rest ih =>
    intro dest hnd hdis
    rw [List.map_cons, List.nodup_cons] at hnd
    have h1 : mergeItem dest item = dest ++ [item] := by
      unfold mergeItem
      rw [FindValueOrNull_none_of_not_mem dest item.1
        (hdis item.1 (by rw [List.map_cons]; exact List.mem_cons_self _ _))]
    rw [List.foldl_cons, h1, ih (dest ++ [item]) hnd.2, List.append_assoc]
    · rfl
    · intro k hk hk2
      rw [List.map_append, List.mem_append, List.map_singleton, List.mem_singleton] at hk2
      rcases hk2 with h | h
      · exact hdis k (by rw [List.map_cons]; exact List.mem_cons_of_mem _ hk) h
      · rw [h] at hk
        exact hnd.1 hk

theorem entriesNotIn_of_new_classes (taken : List (List Char))
    (x : List (List Char × List (List Char × List Char)))
    (h : ∀ k ∈ x.map Prod.fst, k ∉ taken) : entriesNotIn taken x = x := by
  unfold entriesNotIn
  rw [List.filter_eq_self]
  intro e he
  exact decide_eq_true (h e.1 (List.mem_map_of_mem _ he))

/-- C38 does not hold for a class that both texts have: for a text A of
complete rules and a text B, the sheet of A ++ B is the sheet of A followed by
the rules of the sheet of B for classes that A does not have; a rule of B for
a class of A is dropped, where MSCStyleSheetMerge appends its declarations.
When no class of B is a class of A the sheet of A ++ B is the merge of the
sheet of B into the sheet of A. -/
theorem parse_of_concatenation_drops_repeated_classes (A B : List Char) (SA SB : MSCStyleSheet)
    (hA : positionAfter SheetPosition.outside A = some SheetPosition.outside)
    (hpA : ParseStyleSheetData A = some SA) (hpB : ParseStyleSheetData B = some SB) :
    ParseStyleSheetData (A ++ B) = some ⟨SA.entry ++ entriesNotIn SA.keys SB.entry⟩ ∧
    ((∀ k ∈ SB.keys, k ∉ SA.keys) →
      ParseStyleSheetData (A ++ B) = some (MSCStyleSheetMerge SB SA)) ∧
    (∀ k dA dB, FindValueOrNull SA.entry k = some dA → FindValueOrNull SB.entry k = some dB →
      FindValueOrNull (SA.entry ++ entriesNotIn SA.keys SB.entry) k = some dA ∧
      FindValueOrNull (MSCStyleSheetMerge SB SA).entry k = some (dA ++ dB)) := by
  have hnd : SB.keys.Nodup :=
    (ParseStyleSheetDataLoop_keeps B SheetPosition.outside [] [] ⟨[]⟩ SB hpB).2
      List.nodup_nil
  have hmain : ParseStyleSheetData (A ++ B) =
      some ⟨SA.entry ++ entriesNotIn SA.keys SB.entry⟩ := by
    unfold ParseStyleSheetData at hpA hpB ⊢
    have happ := ParseStyleSheetDataLoop_append A B SheetPosition.outside [] [] ⟨[]⟩ hA
      (fun _ => ⟨rfl, rfl⟩)
    have happ2 : ParseStyleSheetDataLoop (A ++ B) false ParserState.OUTSIDE_CONTENTS [] [] ⟨[]⟩ =
        (ParseStyleSheetDataLoop A false ParserState.OUTSIDE_CONTENTS [] [] ⟨[]⟩).bind
          fun S => ParseStyleSheetDataLoop B false ParserState.OUTSIDE_CONTENTS [] [] S := happ
    rw [happ2, hpA, Option.some_bind]
    have hfrom := ParseStyleSheetDataLoop_from_sheet SA.entry B SheetPosition.outside [] [] []
    have hfrom2 : ParseStyleSheetDataLoop B false ParserState.OUTSIDE_CONTENTS [] [] SA =
        (ParseStyleSheetDataLoop B false ParserState.OUTSIDE_CONTENTS [] [] ⟨[]⟩).map
          fun F => ⟨SA.entry ++ entriesNotIn (SA.entry.map Prod.fst) F.entry⟩ := by
      have e : (⟨SA.entry ++ entriesNotIn (SA.entry.map Prod.fst) []⟩ : MSCStyleSheet) = SA := by
        cases SA
        unfold entriesNotIn
        rw [List.filter_nil, List.append_nil]
      rw [e] at hfrom
      exact hfrom
    rw [hfrom2, hpB]
    rfl
  refine ⟨hmain, fun hdis => ?_, fun k dA dB hkA hkB => ⟨?_, ?_⟩⟩
  · rw [hmain, entriesNotIn_of_new_classes _ _ hdis]
    unfold MSCStyleSheetMerge
    rw [merge_of_new_classes SB.entry SA.entry hnd hdis]
  · exact FindValueOrNull_append_some _ _ _ _ hkA
  · unfold MSCStyleSheetMerge
    dsimp only
    rw [merge_lookup SB.entry SA.entry k hnd, hkA, hkB]
    rfl

set_option maxRecDepth 100000 in
/-- C38 on A = ".a{fill:red}" and B = ".a{stroke:blue}": the sheet of A ++ B
has the class a with the declaration of A only, the merge has both
declarations; with B = ".b{stroke:blue}" the sheet of A ++ B is the merge. -/
theorem parse_of_concatenation_drops_repeated_classes_witness :
    ParseStyleSheetData (".a\x7bfill:red\x7d".data ++ ".a\x7bstroke:blue\x7d".data) =
      some ⟨[("a".data, [("fill".data, "red".data)])]⟩ ∧
    MSCStyleSheetMerge ⟨[("a".data, [("stroke".data, "blue".data)])]⟩
        ⟨[("a".data, [("fill".data, "red".data)])]⟩ =
      ⟨[("a".data, [("fill".data, "red".data), ("stroke".data, "blue".data)])]⟩ ∧
    ParseStyleSheetData (".a\x7bfill:red\x7d".data ++ ".b\x7bstroke:blue\x7d".data) =
      some (MSCStyleSheetMerge ⟨[("b".data, [("stroke".data, "blue".data)])]⟩
        ⟨[("a".data, [("fill".data, "red".data)])]⟩) :=
  ⟨(parse_of_concatenation_drops_repeated_classes ".a\x7bfill:red\x7d".data
      ".a\x7bstroke:blue\x7d".data ⟨[("a".data, [("fill".data, "red".data)])]⟩
      ⟨[("a".data, [("stroke".data, "blue".data)])]⟩ (by decide) (by decide) (by decide)).1,
   by decide,
   (parse_of_concatenation_drops_repeated_classes ".a\x7bfill:red\x7d".data
      ".b\x7bstroke:blue\x7d".data ⟨[("a".data, [("fill".data, "red".data)])]⟩
      ⟨[("b".data, [("stroke".data, "blue".data)])]⟩ (by decide) (by decide) (by decide)).2.1
      (by decide)⟩

/-! ## C36: the iteration over path data ends -/

theorem GenericConsumeValuesLoop_tight_succ {Value : Type} [Inhabited Value]
    (consume_value : StringPiece → Value → Bool × StringPiece × Value)
    (consume_delimiter : StringPiece → Bool × StringPiece) (is_delemeter_optional : Bool)
    (hv : ∀ (s : StringPiece) (v : Value), (consume_value s v).1 = true →
      s.Tight (consume_value s v).2.1)
    (hd : ∀ s : StringPiece, s.Suffix (consume_delimiter s).2)
    (n i : Nat) (s_copy : StringPiece) (varray : List Value) :
    (GenericConsumeValuesLoop consume_value consume_delimiter is_delemeter_optional
      (n + 1) i s_copy varray).1 = true →
    s_copy.Tight (GenericConsumeValuesLoop consume_value consume_delimiter is_delemeter_optional
      (n + 1) i s_copy varray).2.1 := by
  have hsuf : s_copy.Suffix (if i ≠ 0 then consume_delimiter s_copy else (true, s_copy)).2 := by
    split_ifs
    · exact hd s_copy
    · exact Suffix_refl s_copy
  simp only [GenericConsumeValuesLoop]
  generalize (if i ≠ 0 then consume_delimiter s_copy else (true, s_copy)) = d at hsuf ⊢
  split_ifs with h1 h2
  · intro h; cases h
  · intro h; cases h
  · intro h
    have ht := hv d.2 (varray.getD i default) (by simpa using h2)
    exact Suffix_tight hsuf (Tight_same_or ht
      (GenericConsumeValuesLoop_tight consume_value consume_delimiter is_delemeter_optional
        hv hd n (i + 1) _ _ h))

theorem ConsumeFloats_length_lt (P : Platform) (s : StringPiece) (n : Nat) (fa : List CGFloat)
    (hn : 0 < n) (h : (ConsumeFloats P s n fa).1 = true) :
    (ConsumeFloats P s n fa).2.1.length < s.length := by
  obtain ⟨m, rfl⟩ := Nat.exists_eq_succ_of_ne_zero (Nat.pos_iff_ne_zero.1 hn)
  unfold ConsumeFloats GenericConsumeValues at h ⊢
  dsimp only at h ⊢
  by_cases hr : (GenericConsumeValuesLoop (ConsumeFloat P) ConsumeNumberDelimiter true (m + 1) 0
      s fa).1 = true
  · rw [if_pos hr]
    have ht := GenericConsumeValuesLoop_tight_succ (ConsumeFloat P) ConsumeNumberDelimiter true
      (ConsumeFloat_tight P) ConsumeNumberDelimiter_suffix m 0 s fa hr
    exact Tight_length (Tight_advance_beginDiff ht)
  · rw [if_neg hr] at h
    cases h

theorem ConsumeFloats_length_le (P : Platform) (s : StringPiece) (n : Nat) (fa : List CGFloat) :
    (ConsumeFloats P s n fa).2.1.length ≤ s.length :=
  Suffix_length (GenericConsumeValues_suffix _ _ _ _ _ _)

theorem ConsumeFloat_length_lt (P : Platform) (s : StringPiece) (f : CGFloat)
    (h : (ConsumeFloat P s f).1 = true) : (ConsumeFloat P s f).2.1.length < s.length :=
  Tight_length (ConsumeFloat_tight P s f h)

theorem ConsumeFloat_length_le (P : Platform) (s : StringPiece) (f : CGFloat) :
    (ConsumeFloat P s f).2.1.length ≤ s.length := by
  cases h : (ConsumeFloat P s f).1 with
  | true => exact Nat.le_of_lt (ConsumeFloat_length_lt P s f h)
  | false => rw [ConsumeFloat_false P s f h]

theorem ConsumeFlag_length_le (s : StringPiece) (flag : Bool) :
    (ConsumeFlag s flag).2.1.length ≤ s.length := by
  unfold ConsumeFlag
  dsimp only
  split_ifs
  · exact le_refl _
  · exact le_refl _
  · exact Suffix_length (Advance_suffix _ _)

theorem ConsumeNumberDelimiter_length_le (s : StringPiece) :
    (ConsumeNumberDelimiter s).2.length ≤ s.length :=
  Suffix_length (ConsumeNumberDelimiter_suffix s)

theorem parse_step_length (len0 : Nat) (c : Bool × StringPiece × List CGFloat)
    (a b : Bool × PathDataIterator)
    (ha : a.1 = false) (hal : a.2.s_ = c.2.1) (hb : b.2.s_ = c.2.1)
    (hle : c.2.1.length ≤ len0) (hlt : c.1 = true → c.2.1.length < len0) :
    (if c.1 = false then a else b).2.s_.length ≤ len0 ∧
    ((if c.1 = false then a else b).1 = true →
      (if c.1 = false then a else b).2.s_.length < len0) := by
  by_cases h : c.1 = false
  · rw [if_pos h, hal]
    exact ⟨hle, fun h2 => by rw [ha] at h2; cases h2⟩
  · rw [if_neg h, hb]
    exact ⟨hle, fun _ => hlt (Bool.of_not_eq_false h)⟩

theorem ParseMoveAndLineCommand_length (P : Platform) (it : PathDataIterator)
    (t : PathCommandType) :
    (it.ParseMoveAndLineCommand P t).2.s_.length ≤ it.s_.length ∧
    ((it.ParseMoveAndLineCommand P t).1 = true →
      (it.ParseMoveAndLineCommand P t).2.s_.length < it.s_.length) := by
  have hle := ConsumeFloats_length_le P it.s_ 2 [it.point_.x, it.point_.y]
  have hlt := ConsumeFloats_length_lt P it.s_ 2 [it.point_.x, it.point_.y] (by decide)
  have hle0 := ConsumeFloat_length_le P it.s_ ([it.point_.x, it.point_.y].getD 0 0)
  have hlt0 := ConsumeFloat_length_lt P it.s_ ([it.point_.x, it.point_.y].getD 0 0)
  have hle1 := ConsumeFloat_length_le P it.s_ ([it.point_.x, it.point_.y].getD 1 0)
  have hlt1 := ConsumeFloat_length_lt P it.s_ ([it.point_.x, it.point_.y].getD 1 0)
  unfold PathDataIterator.ParseMoveAndLineCommand
  cases t
  case kPathCommandTypeMoveTo =>
    dsimp only
    generalize ConsumeFloats P it.s_ 2 [it.point_.x, it.point_.y] = c at hle hlt ⊢
    refine parse_step_length _ c _ _ rfl rfl ?_ hle hlt
    split_ifs <;> rfl
  case kPathCommandTypeLineTo =>
    dsimp only
    generalize ConsumeFloats P it.s_ 2 [it.point_.x, it.point_.y] = c at hle hlt ⊢
    refine parse_step_length _ c _ _ rfl rfl ?_ hle hlt
    split_ifs <;> rfl
  case kPathCommandTypeHorizontalLineTo =>
    dsimp only
    generalize ConsumeFloat P it.s_ ([it.point_.x, it.point_.y].getD 0 0) = c at hle0 hlt0 ⊢
    by_cases h : c.1 = false
    · rw [if_pos h]
      exact ⟨hle0, fun h2 => by cases h2⟩
    · rw [if_neg h]
      have := hlt0 (Bool.of_not_eq_false h)
      split_ifs <;> exact ⟨hle0, fun _ => this⟩
  case kPathCommandTypeVerticalLineTo =>
    dsimp only
    generalize ConsumeFloat P it.s_ ([it.point_.x, it.point_.y].getD 1 0) = c at hle1 hlt1 ⊢
    by_cases h : c.1 = false
    · rw [if_pos h]
      exact ⟨hle1, fun h2 => by cases h2⟩
    · rw [if_neg h]
      have := hlt1 (Bool.of_not_eq_false h)
      split_ifs <;> exact ⟨hle1, fun _ => this⟩
  all_goals exact ⟨le_refl _, fun h2 => by cases h2⟩

theorem ParseCubicBezierCommand_length (P : Platform) (it : PathDataIterator) :
    (it.ParseCubicBezierCommand P).2.s_.length ≤ it.s_.length ∧
    ((it.ParseCubicBezierCommand P).1 = true →
      (it.ParseCubicBezierCommand P).2.s_.length < it.s_.length) := by
  have hle := ConsumeFloats_length_le P it.s_ 6 (List.replicate 6 0)
  have hlt := ConsumeFloats_length_lt P it.s_ 6 (List.replicate 6 0) (by decide)
  unfold PathDataIterator.ParseCubicBezierCommand
  dsimp only
  generalize ConsumeFloats P it.s_ 6 (List.replicate 6 0) = c at hle hlt ⊢
  exact parse_step_length _ c _ _ rfl rfl rfl hle hlt

theorem ParseShorthandCubicBezierCommand_length (P : Platform) (it : PathDataIterator) :
    (it.ParseShorthandCubicBezierCommand P).2.s_.length ≤ it.s_.length ∧
    ((it.ParseShorthandCubicBezierCommand P).1 = true →
      (it.ParseShorthandCubicBezierCommand P).2.s_.length < it.s_.length) := by
  have hle := ConsumeFloats_length_le P it.s_ 4 (List.replicate 4 0)
  have hlt := ConsumeFloats_length_lt P it.s_ 4 (List.replicate 4 0) (by decide)
  unfold PathDataIterator.ParseShorthandCubicBezierCommand
  dsimp only
  generalize ConsumeFloats P it.s_ 4 (List.replicate 4 0) = c at hle hlt ⊢
  exact parse_step_length _ c _ _ rfl rfl rfl hle hlt

theorem ParseQuadBezierCommand_length (P : Platform) (it : PathDataIterator) :
    (it.ParseQuadBezierCommand P).2.s_.length ≤ it.s_.length ∧
    ((it.ParseQuadBezierCommand P).1 = true →
      (it.ParseQuadBezierCommand P).2.s_.length < it.s_.length) := by
  have hle := ConsumeFloats_length_le P it.s_ 4 (List.replicate 4 0)
  have hlt := ConsumeFloats_length_lt P it.s_ 4 (List.replicate 4 0) (by decide)
  unfold PathDataIterator.ParseQuadBezierCommand
  dsimp only
  generalize ConsumeFloats P it.s_ 4 (List.replicate 4 0) = c at hle hlt ⊢
  exact parse_step_length _ c _ _ rfl rfl rfl hle hlt

theorem ParseShorthandQuadBezierCommand_length (P : Platform) (it : PathDataIterator) :
    (it.ParseShorthandQuadBezierCommand P).2.s_.length ≤ it.s_.length ∧
    ((it.ParseShorthandQuadBezierCommand P).1 = true →
      (it.ParseShorthandQuadBezierCommand P).2.s_.length < it.s_.length) := by
  have hle := ConsumeFloats_length_le P it.s_ 2 (List.replicate 2 0)
  have hlt := ConsumeFloats_length_lt P it.s_ 2 (List.replicate 2 0) (by decide)
  unfold PathDataIterator.ParseShorthandQuadBezierCommand
  dsimp only
  generalize ConsumeFloats P it.s_ 2 (List.replicate 2 0) = c at hle hlt ⊢
  exact parse_step_length _ c _ _ rfl rfl rfl hle hlt

theorem ParseEllipticalArcCommand_length (P : Platform) (it : PathDataIterator) :
    (it.ParseEllipticalArcCommand P).2.s_.length ≤ it.s_.length ∧
    ((it.ParseEllipticalArcCommand P).1 = true →
      (it.ParseEllipticalArcCommand P).2.s_.length < it.s_.length) := by
  have hle := ConsumeFloats_length_le P it.s_ 3 (List.replicate 3 0)
  have hlt := ConsumeFloats_length_lt P it.s_ 3 (List.replicate 3 0) (by decide)
  unfold PathDataIterator.ParseEllipticalArcCommand
  dsimp only
  generalize ConsumeFloats P it.s_ 3 (List.replicate 3 0) = c at hle hlt ⊢
  have h1b := ConsumeNumberDelimiter_length_le c.2.1
  have h1 := ConsumeFlag_length_le (ConsumeNumberDelimiter c.2.1).2 it.large_arc_
  generalize ConsumeFlag (ConsumeNumberDelimiter c.2.1).2 it.large_arc_ = f1 at h1 ⊢
  have h2b := ConsumeNumberDelimiter_length_le f1.2.1
  have h2 := ConsumeFlag_length_le (ConsumeNumberDelimiter f1.2.1).2 it.sweep_
  generalize ConsumeFlag (ConsumeNumberDelimiter f1.2.1).2 it.sweep_ = f2 at h2 ⊢
  have h3b := ConsumeNumberDelimiter_length_le f2.2.1
  have h3 := ConsumeFloats_length_le P (ConsumeNumberDelimiter f2.2.1).2 2 (List.replicate 2 0)
  generalize ConsumeFloats P (ConsumeNumberDelimiter f2.2.1).2 2 (List.replicate 2 0) = pc
    at h3 ⊢
  by_cases h : c.1 = false
  · rw [if_pos h]
    exact ⟨hle, fun h2 => by cases h2⟩
  · rw [if_neg h]
    have hlt2 := hlt (Bool.of_not_eq_false h)
    split_ifs
    · exact ⟨hle, fun h => by cases h⟩
    · exact ⟨by dsimp only; omega, fun h => by cases h⟩
    · exact ⟨by dsimp only; omega, fun h => by cases h⟩
    · exact ⟨by dsimp only; omega, fun h => by cases h⟩
    · exact ⟨by dsimp only; omega, fun _ => by dsimp only; omega⟩

theorem dispatch_length (P : Platform) (d : PathDataIterator) :
    (d.dispatch P).2.s_.length ≤ d.s_.length ∧
    (d.command_type_ ≠ kPathCommandTypeClosePath → (d.dispatch P).1 = true →
      (d.dispatch P).2.s_.length < d.s_.length) := by
  unfold PathDataIterator.dispatch
  split
  · exact ⟨(ParseMoveAndLineCommand_length P d _).1,
      fun _ h => (ParseMoveAndLineCommand_length P d _).2 h⟩
  · exact ⟨(ParseMoveAndLineCommand_length P d _).1,
      fun _ h => (ParseMoveAndLineCommand_length P d _).2 h⟩
  · exact ⟨(ParseMoveAndLineCommand_length P d _).1,
      fun _ h => (ParseMoveAndLineCommand_length P d _).2 h⟩
  · exact ⟨(ParseMoveAndLineCommand_length P d _).1,
      fun _ h => (ParseMoveAndLineCommand_length P d _).2 h⟩
  · exact ⟨(ParseCubicBezierCommand_length P d).1,
      fun _ h => (ParseCubicBezierCommand_length P d).2 h⟩
  · exact ⟨(ParseShorthandCubicBezierCommand_length P d).1,
      fun _ h => (ParseShorthandCubicBezierCommand_length P d).2 h⟩
  · exact ⟨(ParseQuadBezierCommand_length P d).1,
      fun _ h => (ParseQuadBezierCommand_length P d).2 h⟩
  · exact ⟨(ParseShorthandQuadBezierCommand_length P d).1,
      fun _ h => (ParseShorthandQuadBezierCommand_length P d).2 h⟩
  · exact ⟨(ParseEllipticalArcCommand_length P d).1,
      fun _ h => (ParseEllipticalArcCommand_length P d).2 h⟩
  · rename_i hc
    exact ⟨le_refl _, fun hn _ => absurd hc hn⟩

theorem dispatch_close_flags (P : Platform) (d : PathDataIterator) :
    (d.dispatch P).2.implicit_close_ = d.implicit_close_ ∧
    (d.dispatch P).2.shown_close_path_ = d.shown_close_path_ := by
  unfold PathDataIterator.dispatch
  split
  · have h := ParseMoveAndLineCommand_regs P d d.command_type_
    exact ⟨h.2.2.2.2.1, h.2.2.2.2.2⟩
  · have h := ParseMoveAndLineCommand_regs P d d.command_type_
    exact ⟨h.2.2.2.2.1, h.2.2.2.2.2⟩
  · have h := ParseMoveAndLineCommand_regs P d d.command_type_
    exact ⟨h.2.2.2.2.1, h.2.2.2.2.2⟩
  · have h := ParseMoveAndLineCommand_regs P d d.command_type_
    exact ⟨h.2.2.2.2.1, h.2.2.2.2.2⟩
  · have h := ParseCubicBezierCommand_regs P d
    exact ⟨h.2.2.2.2.1, h.2.2.2.2.2⟩
  · have h := ParseShorthandCubicBezierCommand_regs P d
    exact ⟨h.2.2.2.2.1, h.2.2.2.2.2⟩
  · have h := ParseQuadBezierCommand_regs P d
    exact ⟨h.2.2.2.2.1, h.2.2.2.2.2⟩
  · have h := ParseShorthandQuadBezierCommand_regs P d
    exact ⟨h.2.2.2.2.1, h.2.2.2.2.2⟩
  · have h := ParseEllipticalArcCommand_regs P d
    exact ⟨h.2.2.2.2.1, h.2.2.2.2.2⟩
  · exact ⟨rfl, rfl⟩

theorem ConsumeAlpha_length (s : StringPiece) (c : Char) (hne : s.length ≠ 0)
    (h : ¬ (ConsumeAlpha s c).1 = false) : (ConsumeAlpha s c).2.1.length < s.length := by
  unfold ConsumeAlpha at h ⊢
  dsimp only at h ⊢
  by_cases hp : (PeekAlpha s c).1 = true
  · rw [if_pos hp]
    exact Advance_succ_length s 0 hne
  · rw [if_neg hp] at h
    exact absurd rfl h

/-- A successful ParseSingleCommandForPath is a dispatch on an iterator whose
cursor is shorter, or no longer while the command is not ClosePath. -/
theorem ParseSingleCommandForPath_dispatch (P : Platform) (it : PathDataIterator)
    (hne : it.s_.length ≠ 0) (h : (it.ParseSingleCommandForPath P).1 = true) :
    ∃ d : PathDataIterator, it.ParseSingleCommandForPath P = d.dispatch P ∧
      d.implicit_close_ = it.implicit_close_ ∧ d.shown_close_path_ = it.shown_close_path_ ∧
      (d.s_.length < it.s_.length ∨
        (d.command_type_ ≠ kPathCommandTypeClosePath ∧ d.s_.length ≤ it.s_.length)) := by
  unfold PathDataIterator.ParseSingleCommandForPath at h ⊢
  dsimp only at h ⊢
  by_cases hpk : (PeekAlpha it.s_ '\x00').1 = true
  · rw [if_pos hpk] at h ⊢
    by_cases hca : (ConsumeAlpha it.s_ (PeekAlpha it.s_ '\x00').2).1 = false
    · rw [if_pos hca] at h
      exact absurd h (by simp)
    · rw [if_neg hca] at h ⊢
      have hlen := ConsumeAlpha_length it.s_ (PeekAlpha it.s_ '\x00').2 hne hca
      generalize commandTypeOfChar _ = o at h ⊢
      cases o with
      | none => exact absurd h (by simp)
      | some t => exact ⟨_, rfl, rfl, rfl, Or.inl hlen⟩
  · rw [if_neg hpk] at h ⊢
    by_cases hf : it.is_first_command_ = true ∨ it.command_type_ = kPathCommandTypeClosePath
    · rw [if_pos hf] at h
      exact absurd h (by simp)
    · rw [if_neg hf]
      have hle := ConsumeNumberDelimiter_length_le it.s_
      by_cases hm : it.command_type_ = kPathCommandTypeMoveTo
      · rw [if_pos hm]
        exact ⟨_, rfl, rfl, rfl, Or.inr ⟨by dsimp only; decide, hle⟩⟩
      · rw [if_neg hm]
        exact ⟨_, rfl, rfl, rfl, Or.inr ⟨fun hc => hf (Or.inr hc), hle⟩⟩

theorem ParseSingleCommandForPath_length (P : Platform) (it : PathDataIterator)
    (hne : it.s_.length ≠ 0) (h : (it.ParseSingleCommandForPath P).1 = true) :
    (it.ParseSingleCommandForPath P).2.s_.length < it.s_.length ∧
    (it.ParseSingleCommandForPath P).2.implicit_close_ = it.implicit_close_ ∧
    (it.ParseSingleCommandForPath P).2.shown_close_path_ = it.shown_close_path_ := by
  obtain ⟨d, hd, hi, hs, hlen⟩ := ParseSingleCommandForPath_dispatch P it hne h
  rw [hd] at h ⊢
  have hl := dispatch_length P d
  have hf := dispatch_close_flags P d
  refine ⟨?_, hf.1.trans hi, hf.2.trans hs⟩
  rcases hlen with h1 | ⟨h1, h2⟩
  · exact Nat.lt_of_le_of_lt hl.1 h1
  · exact Nat.lt_of_lt_of_le (hl.2 h1 h) h2

theorem ParseSingleCommandForPoints_length (P : Platform) (it : PathDataIterator)
    (h : (it.ParseSingleCommandForPoints P).1 = true) :
    (it.ParseSingleCommandForPoints P).2.s_.length < it.s_.length ∧
    (it.ParseSingleCommandForPoints P).2.implicit_close_ = it.implicit_close_ ∧
    (it.ParseSingleCommandForPoints P).2.shown_close_path_ = it.shown_close_path_ := by
  unfold PathDataIterator.ParseSingleCommandForPoints at h ⊢
  by_cases hfirst : it.is_first_command_ = true
  · rw [if_pos hfirst] at h ⊢
    dsimp only at h ⊢
    have hl := ParseMoveAndLineCommand_length P
      { it with command_type_ := kPathCommandTypeMoveTo } kPathCommandTypeMoveTo
    have hr := ParseMoveAndLineCommand_regs P
      { it with command_type_ := kPathCommandTypeMoveTo } kPathCommandTypeMoveTo
    exact ⟨hl.2 h, hr.2.2.2.2.1, hr.2.2.2.2.2⟩
  · rw [if_neg hfirst] at h ⊢
    dsimp only at h ⊢
    have hl := ParseMoveAndLineCommand_length P
      { it with command_type_ := kPathCommandTypeLineTo,
                s_ := (ConsumeNumberDelimiter it.s_).2 } kPathCommandTypeLineTo
    have hr := ParseMoveAndLineCommand_regs P
      { it with command_type_ := kPathCommandTypeLineTo,
                s_ := (ConsumeNumberDelimiter it.s_).2 } kPathCommandTypeLineTo
    exact ⟨Nat.lt_of_lt_of_le (hl.2 h) (ConsumeNumberDelimiter_length_le it.s_),
      hr.2.2.2.2.1, hr.2.2.2.2.2⟩

/-- One call of Next that returns true: either the cursor gets shorter and
the two flags of the implicit close stay, or the cursor is at its end and this
is the implicit ClosePath, which sets `shown_close_path_`. -/
theorem Next_true_cases (P : Platform) (it : PathDataIterator) (h : (it.Next P).1 = true) :
    ((it.Next P).2.s_.length < it.s_.length ∧
      (it.Next P).2.implicit_close_ = it.implicit_close_ ∧
      (it.Next P).2.shown_close_path_ = it.shown_close_path_) ∨
    ((ConsumeWhitespace it.s_).2.length = 0 ∧ it.implicit_close_ = true ∧
      it.shown_close_path_ = false ∧
      (it.Next P).2.command_type_ = kPathCommandTypeClosePath ∧
      (it.Next P).2.implicit_close_ = true ∧
      (it.Next P).2.shown_close_path_ = true ∧ (it.Next P).2.s_.length = 0) := by
  have hws := Suffix_length (ConsumeWhitespace_suffix it.s_)
  unfold PathDataIterator.Next at h ⊢
  dsimp only at h ⊢
  by_cases h0 : (ConsumeWhitespace it.s_).2.length = 0
  · rw [if_pos h0] at h ⊢
    by_cases hic : it.implicit_close_ = true ∧ it.shown_close_path_ = false
    · rw [if_pos hic]
      exact Or.inr ⟨h0, hic.1, hic.2, rfl, hic.1, rfl, h0⟩
    · rw [if_neg hic] at h
      cases h
  · rw [if_neg h0] at h ⊢
    left
    by_cases hfmt : it.format_ = kPathDataFormatPoints
    · rw [if_pos hfmt] at h ⊢
      by_cases hr : (PathDataIterator.ParseSingleCommandForPoints P
          { it with s_ := (ConsumeWhitespace it.s_).2 }).1 = true
      · rw [if_pos hr]
        have := ParseSingleCommandForPoints_length P { it with s_ := (ConsumeWhitespace it.s_).2 }
          hr
        exact ⟨Nat.lt_of_lt_of_le this.1 hws, this.2.1, this.2.2⟩
      · rw [if_neg hr] at h
        cases h
    · rw [if_neg hfmt] at h ⊢
      by_cases hr : (PathDataIterator.ParseSingleCommandForPath P
          { it with s_ := (ConsumeWhitespace it.s_).2 }).1 = true
      · rw [if_pos hr]
        have := ParseSingleCommandForPath_length P { it with s_ := (ConsumeWhitespace it.s_).2 }
          h0 hr
        exact ⟨Nat.lt_of_lt_of_le this.1 hws, this.2.1, this.2.2⟩
      · rw [if_neg hr] at h
        cases h

theorem Next_budget (P : Platform) (it : PathDataIterator) (h : (it.Next P).1 = true) :
    (it.Next P).2.budget < it.budget := by
  unfold PathDataIterator.budget
  rcases Next_true_cases P it h with ⟨h1, h2, h3⟩ | ⟨_, h2, h3, _, h5, h6, h7⟩
  · rw [h2, h3]
    exact Nat.add_lt_add_right h1 _
  · have e1 : (if (it.Next P).2.implicit_close_ = true ∧
        (it.Next P).2.shown_close_path_ = false then 1 else 0 : Nat) = 0 :=
      if_neg (fun hc => by rw [h6] at hc; cases hc.2)
    have e2 : (if it.implicit_close_ = true ∧ it.shown_close_path_ = false then 1 else 0 : Nat)
        = 1 := if_pos ⟨h2, h3⟩
    rw [e1, e2, h7]
    omega

theorem budget_le (it : PathDataIterator) : it.budget ≤ it.s_.length + 1 := by
  unfold PathDataIterator.budget
  split_ifs <;> omega

theorem trace_length_le_budget (P : Platform) : ∀ (n : Nat) (it : PathDataIterator),
    (PathDataIterator.trace P n it).length ≤ it.budget := by
  intro n
  induction n with
  | zero =>
    intro it
    exact Nat.zero_le _
  | succ n ih =>
    intro it
    rw [PathDataIterator.trace]
    by_cases h : (it.Next P).1 = true
    · rw [if_pos h, List.length_cons]
      have h1 := Next_budget P it h
      have h2 := ih (it.Next P).2
      omega
    · rw [if_neg h]
      exact Nat.zero_le _

theorem ProcessPathDataLoop_fuel (P : Platform) : ∀ (fuel extra : Nat) (it : PathDataIterator)
    (path : List CGPathCall), it.budget < fuel →
    ProcessPathDataLoop P (fuel + extra) it path = ProcessPathDataLoop P fuel it path := by
  intro fuel
  induction fuel with
  | zero =>
    intro extra it path h
    cases h
  | succ fuel ih =>
    intro extra it path h
    rw [show fuel + 1 + extra = (fuel + extra) + 1 by omega, ProcessPathDataLoop,
      ProcessPathDataLoop]
    dsimp only
    by_cases hn : (it.Next P).1 = false
    · rw [if_pos hn, if_pos hn]
    · rw [if_neg hn, if_neg hn]
      have hb := Next_budget P it (Bool.of_not_eq_false hn)
      rw [ih extra (it.Next P).2 _ (by omega)]

/-- C36: iterating a PathDataIterator ends.  A call of Next that returns true
leaves a strictly shorter cursor, except the implicit ClosePath at the end of
the data, which needs `implicit_close_` set and `shown_close_path_` clear, sets
`shown_close_path_`, and is followed by a call that returns false; once
`shown_close_path_` is set it stays set and every true call shortens the
cursor.  So a run of true calls has at most length + 1 members, and the loop of
Renderer::ProcessPathData gives the same path with any larger bound on the
number of rounds than the length + 2 it is run with. -/
theorem path_iteration_terminates (P : Platform) (it : PathDataIterator) :
    ((it.Next P).1 = true →
      (it.Next P).2.s_.length < it.s_.length ∨
      (it.implicit_close_ = true ∧ it.shown_close_path_ = false ∧
        (it.Next P).2.command_type_ = kPathCommandTypeClosePath ∧
        (it.Next P).2.s_.length = 0 ∧ (it.Next P).2.shown_close_path_ = true ∧
        ((it.Next P).2.Next P).1 = false)) ∧
    (it.shown_close_path_ = true → (it.Next P).1 = true →
      (it.Next P).2.s_.length < it.s_.length ∧ (it.Next P).2.shown_close_path_ = true) ∧
    (∀ n : Nat, (PathDataIterator.trace P n it).length ≤ it.s_.length + 1) ∧
    (∀ (extra : Nat) (path : List CGPathCall),
      ProcessPathDataLoop P (it.s_.length + 2 + extra) it path =
        ProcessPathDataLoop P (it.s_.length + 2) it path) ∧
    (∀ (u : PathDataIterator) (data : List Char) (format : PathDataFormat) (ic : Bool) (n : Nat),
      (PathDataIterator.trace P n (PathDataIterator.init u data format ic)).length
        ≤ data.length + 1) := by
  refine ⟨?_, ?_, ?_, ?_, ?_⟩
  · intro h
    rcases Next_true_cases P it h with ⟨h1, _, _⟩ | ⟨_, h2, h3, h4, _, h6, h7⟩
    · exact Or.inl h1
    · refine Or.inr ⟨h2, h3, h4, h7, h6, ?_⟩
      cases hn : ((it.Next P).2.Next P).1 with
      | false => rfl
      | true =>
        rcases Next_true_cases P (it.Next P).2 hn with ⟨k1, _, _⟩ | ⟨_, _, k3, _⟩
        · rw [h7] at k1
          exact absurd k1 (Nat.not_lt_zero _)
        · rw [h6] at k3
          cases k3
  · intro hs h
    rcases Next_true_cases P it h with ⟨h1, _, h3⟩ | ⟨_, _, h3, _⟩
    · exact ⟨h1, h3.trans hs⟩
    · rw [hs] at h3
      cases h3
  · intro n
    exact Nat.le_trans (trace_length_le_budget P n it) (budget_le it)
  · intro extra path
    exact ProcessPathDataLoop_fuel P _ extra it path
      (Nat.lt_of_le_of_lt (budget_le it) (Nat.lt_succ_self _))
  · intro u data format ic n
    exact Nat.le_trans (trace_length_le_budget P n _) (budget_le _)

/-- C36 on "M1 2" with an implicit close: the first call shortens the cursor,
the second is the implicit ClosePath, the third returns false. -/
theorem path_iteration_terminates_witness :
    (((PathDataIterator.init PathDataIterator.zero "M1 2".data kPathDataFormatPath true).Next
        Platform.exact).1 = true ∧
      ((PathDataIterator.init PathDataIterator.zero "M1 2".data kPathDataFormatPath true).Next
        Platform.exact).2.s_.length = 0) ∧
    (PathDataIterator.trace Platform.exact 9
      (PathDataIterator.init PathDataIterator.zero "M1 2".data kPathDataFormatPath true)).length
        = 2 ∧
    (PathDataIterator.trace Platform.exact 9
      (PathDataIterator.init PathDataIterator.zero "M1 2".data kPathDataFormatPath true)).length
        ≤ 4 + 1 ∧
    ProcessPathDataLoop Platform.exact (4 + 2 + 7)
        (PathDataIterator.init PathDataIterator.zero "M1 2".data kPathDataFormatPath true) [] =
      ProcessPathDataLoop Platform.exact (4 + 2)
        (PathDataIterator.init PathDataIterator.zero "M1 2".data kPathDataFormatPath true) [] :=
  ⟨⟨by decide!, by decide!⟩, by decide!,
   (path_iteration_terminates Platform.exact
      (PathDataIterator.init PathDataIterator.zero "M1 2".data kPathDataFormatPath true)).2.2.1 9,
   (path_iteration_terminates Platform.exact
      (PathDataIterator.init PathDataIterator.zero "M1 2".data kPathDataFormatPath true)).2.2.2.1
      7 []⟩

/-! ## C40: the scopes of the graphics state -/

theorem saveCount_append (a b : List CGCall) : saveCount (a ++ b) = saveCount a + saveCount b :=
  List.count_append _ _ _

theorem restoreCount_append (a b : List CGCall) :
    restoreCount (a ++ b) = restoreCount a + restoreCount b :=
  List.count_append _ _ _

theorem gstateFromTo_nil (d : Nat) : gstateFromTo d d [] :=
  ⟨fun k => by simp [restoreCount, saveCount], rfl⟩

theorem gstateFromTo_append {d d' d'' : Nat} {a b : List CGCall} (ha : gstateFromTo d d' a)
    (hb : gstateFromTo d' d'' b) : gstateFromTo d d'' (a ++ b) := by
  refine ⟨fun k => ?_, ?_⟩
  · rw [List.take_append_eq_append_take, saveCount_append, restoreCount_append]
    by_cases hk : k ≤ a.length
    · have h0 : k - a.length = 0 := Nat.sub_eq_zero_of_le hk
      rw [h0, List.take_zero]
      have := ha.1 k
      simp only [restoreCount, saveCount, List.count_nil, Nat.add_zero] at this ⊢
      omega
    · have h1 : List.take k a = a := List.take_of_length_le (by omega)
      rw [h1]
      have h2 := hb.1 (k - a.length)
      have h3 := ha.2
      omega
  · rw [saveCount_append, restoreCount_append]
    have h1 := ha.2
    have h2 := hb.2
    omega

theorem gstateFromTo_save (d : Nat) : gstateFromTo d (d + 1) [CGCall.SaveGState] := by
  refine ⟨fun k => ?_, ?_⟩
  · cases k <;> simp [restoreCount, saveCount]
  · simp [restoreCount, saveCount]
    omega

theorem gstateFromTo_restore (d : Nat) : gstateFromTo (d + 1) d [CGCall.RestoreGState] := by
  refine ⟨fun k => ?_, ?_⟩
  · cases k <;> simp [restoreCount, saveCount]
  · simp only [restoreCount, saveCount, List.count_singleton]
    simp
    omega

theorem gstateFromTo_plain (d : Nat) (l : List CGCall)
    (h : ∀ c ∈ l, c ≠ CGCall.SaveGState ∧ c ≠ CGCall.RestoreGState) : gstateFromTo d d l := by
  have hs : ∀ m : List CGCall, (∀ c ∈ m, c ≠ CGCall.SaveGState ∧ c ≠ CGCall.RestoreGState) →
      saveCount m = 0 ∧ restoreCount m = 0 := by
    intro m hm
    constructor
    · exact List.count_eq_zero.mpr fun hin => (hm _ hin).1 rfl
    · exact List.count_eq_zero.mpr fun hin => (hm _ hin).2 rfl
  refine ⟨fun k => ?_, ?_⟩
  · have := hs (l.take k) fun c hc => h c (List.mem_of_mem_take hc)
    omega
  · have := hs l h
    omega

theorem gstateFromTo_other (d : Nat) (c : CGCall) (h1 : c ≠ CGCall.SaveGState)
    (h2 : c ≠ CGCall.RestoreGState) : gstateFromTo d d [c] :=
  gstateFromTo_plain d [c] fun x hx => by
    rw [List.mem_singleton] at hx
    rw [hx]
    exact ⟨h1, h2⟩

theorem framesStep_refl (d : Nat) (r : Renderer) : framesStep d d r r :=
  ⟨rfl, [], (List.append_nil _).symm, gstateFromTo_nil d⟩

theorem framesStep_trans {d d' d'' : Nat} {a b c : Renderer} (h1 : framesStep d d' a b)
    (h2 : framesStep d' d'' b c) : framesStep d d'' a c := by
  obtain ⟨s1, e1, c1, g1⟩ := h1
  obtain ⟨s2, e2, c2, g2⟩ := h2
  exact ⟨s2.trans s1, e1 ++ e2, by rw [c2, c1, List.append_assoc], gstateFromTo_append g1 g2⟩

theorem framesStep_of_eq (d : Nat) {a b : Renderer} (h1 : b.state_stack_ = a.state_stack_)
    (h2 : b.context_ = a.context_) : framesStep d d a b :=
  ⟨by unfold Renderer.stackGraphics; rw [h1], [], by rw [h2, List.append_nil],
    gstateFromTo_nil d⟩

theorem framesStep_call (d : Nat) (r : Renderer) (c : CGCall) (h1 : c ≠ CGCall.SaveGState)
    (h2 : c ≠ CGCall.RestoreGState) : framesStep d d r (r.CGC_CALL c) :=
  ⟨rfl, [c], rfl, gstateFromTo_other d c h1 h2⟩

theorem framesStep_save (d : Nat) (r : Renderer) :
    framesStep d (d + 1) r (r.CGC_CALL CGCall.SaveGState) :=
  ⟨rfl, [CGCall.SaveGState], rfl, gstateFromTo_save d⟩

theorem framesStep_restore (d : Nat) (r : Renderer) :
    framesStep (d + 1) d r (r.CGC_CALL CGCall.RestoreGState) :=
  ⟨rfl, [CGCall.RestoreGState], rfl, gstateFromTo_restore d⟩

theorem framesStep_then_call {d d' : Nat} {a b : Renderer} (c : CGCall)
    (h1 : c ≠ CGCall.SaveGState) (h2 : c ≠ CGCall.RestoreGState) (h : framesStep d d' a b) :
    framesStep d d' a (b.CGC_CALL c) :=
  framesStep_trans h (framesStep_call d' b c h1 h2)

theorem framesStep_updateBack (d : Nat) (r : Renderer) (f : State → State)
    (hf : ∀ st : State, (f st).graphics = st.graphics) : framesStep d d r (r.updateBack f) := by
  unfold Renderer.updateBack
  cases hs : r.state_stack_ with
  | nil => exact framesStep_refl d r
  | cons top below =>
    refine ⟨?_, [], (List.append_nil _).symm, gstateFromTo_nil d⟩
    unfold Renderer.stackGraphics
    rw [hs]
    simp only [List.map_cons, hf]

theorem framesStep_graphics {d d' : Nat} {a b : Renderer} (g : GraphicsState)
    (h : framesStep d d' a b) : framesStep d d' a { b with graphics_ := g } := h

theorem framesStep_fst {d d' : Nat} {β : Type} {r a : Renderer} (x : β)
    (h : framesStep d d' r a) : framesStep d d' r (a, x).1 := h

theorem framesStep_ite {d d' : Nat} (c : Prop) [Decidable c] (r a b : Renderer)
    (ha : framesStep d d' r a) (hb : framesStep d d' r b) :
    framesStep d d' r (if c then a else b) := by
  split_ifs <;> assumption

theorem framesStep_ite_snd {d d' : Nat} (c : Prop) [Decidable c] (r : Renderer)
    (a b : Bool × Renderer) (ha : framesStep d d' r a.2) (hb : framesStep d d' r b.2) :
    framesStep d d' r (if c then a else b).2 := by
  split_ifs <;> assumption

theorem framesStep_definePath (d : Nat) (r : Renderer) (define_path : List CGCall)
    (h : ∀ c ∈ define_path, c ≠ CGCall.SaveGState ∧ c ≠ CGCall.RestoreGState) :
    framesStep d d r (r.definePath define_path) :=
  ⟨rfl, define_path, rfl, gstateFromTo_plain d define_path h⟩

theorem setPaintState_framesStep (d : Nat) (r : Renderer) (is_fill : Bool) (p : PaintState) :
    framesStep d d r (r.setPaintState is_fill p) := by
  unfold Renderer.setPaintState
  split_ifs <;> exact framesStep_of_eq d rfl rfl

theorem CallCGSetColor_framesStep (d : Nat) (r : Renderer) (is_fill : Bool) :
    framesStep d d r (r.CallCGSetColor is_fill) := by
  unfold Renderer.CallCGSetColor
  dsimp only
  split_ifs <;> exact framesStep_call d _ _ (by intro h; cases h) (by intro h; cases h)

theorem ProcessFillOrStrokeValue_framesStep (P : Platform) (d : Nat) (r : Renderer)
    (value : List Char) (is_fill : Bool) :
    framesStep d d r (r.ProcessFillOrStrokeValue P value is_fill) := by
  unfold Renderer.ProcessFillOrStrokeValue
  dsimp only
  apply framesStep_ite
  · exact setPaintState_framesStep _ _ _ _
  · apply framesStep_ite
    · exact framesStep_trans (setPaintState_framesStep _ _ _ _) (CallCGSetColor_framesStep _ _ _)
    · apply framesStep_ite
      · exact setPaintState_framesStep _ _ _ _
      · exact framesStep_refl d r

theorem ProcessStyle_framesStep (P : Platform) (d : Nat) (r : Renderer)
    (name value : List Char) : framesStep d d r (r.ProcessStyle P name value).2 := by
  unfold Renderer.ProcessStyle
  by_cases h0 : name = "fill".data
  · rewrite [if_pos h0]
    exact ProcessFillOrStrokeValue_framesStep _ _ _ _ _
  rewrite [if_neg h0]
  by_cases h1 : name = "stroke".data
  · rewrite [if_pos h1]
    exact ProcessFillOrStrokeValue_framesStep _ _ _ _ _
  rewrite [if_neg h1]
  by_cases h2 : name = "stroke-linecap".data
  · rewrite [if_pos h2]
    repeat first
      | apply framesStep_ite_snd
      | exact framesStep_call d _ _ (by intro h; cases h) (by intro h; cases h)
      | exact framesStep_refl d r
  rewrite [if_neg h2]
  by_cases h3 : name = "stroke-linejoin".data
  · rewrite [if_pos h3]
    repeat first
      | apply framesStep_ite_snd
      | exact framesStep_call d _ _ (by intro h; cases h) (by intro h; cases h)
      | exact framesStep_refl d r
  rewrite [if_neg h3]
  by_cases h4 : name = "stroke-miterlimit".data
  · rewrite [if_pos h4]
    dsimp only
    apply framesStep_ite_snd
    · exact framesStep_refl d r
    · exact framesStep_call d _ _ (by intro h; cases h) (by intro h; cases h)
  rewrite [if_neg h4]
  by_cases h5 : name = "stroke-width".data
  · rewrite [if_pos h5]
    dsimp only
    apply framesStep_ite_snd
    · exact framesStep_refl d r
    · exact framesStep_call d _ _ (by intro h; cases h) (by intro h; cases h)
  rewrite [if_neg h5]
  by_cases h6 : name = "fill-opacity".data
  · rewrite [if_pos h6]
    dsimp only
    apply framesStep_ite_snd
    · exact framesStep_refl d r
    · exact framesStep_trans (framesStep_of_eq d rfl rfl) (CallCGSetColor_framesStep _ _ _)
  rewrite [if_neg h6]
  by_cases h7 : name = "stroke-opacity".data
  · rewrite [if_pos h7]
    dsimp only
    apply framesStep_ite_snd
    · exact framesStep_refl d r
    · exact framesStep_trans (framesStep_of_eq d rfl rfl) (CallCGSetColor_framesStep _ _ _)
  rewrite [if_neg h7]
  by_cases h8 : name = "stop-color".data
  · rewrite [if_pos h8]
    dsimp only
    apply framesStep_ite_snd
    · exact framesStep_of_eq d rfl rfl
    · exact framesStep_refl d r
  rewrite [if_neg h8]
  by_cases h9 : name = "stop-opacity".data
  · rewrite [if_pos h9]
    dsimp only
    apply framesStep_ite_snd
    · exact framesStep_of_eq d rfl rfl
    · exact framesStep_refl d r
  rewrite [if_neg h9]
  exact framesStep_refl d r

theorem ProcessDisplayValue_framesStep (d : Nat) (r : Renderer) (value : List Char) :
    framesStep d d r (r.ProcessDisplayValue value) := by
  unfold Renderer.ProcessDisplayValue
  split_ifs
  · exact framesStep_of_eq d rfl rfl
  · exact framesStep_refl d r

theorem ProcessVisibilityValue_framesStep (d : Nat) (r : Renderer) (value : List Char) :
    framesStep d d r (r.ProcessVisibilityValue value) := by
  unfold Renderer.ProcessVisibilityValue
  split_ifs
  · exact framesStep_of_eq d rfl rfl
  · exact framesStep_of_eq d rfl rfl
  · exact framesStep_refl d r

theorem ProcessFillRuleValue_framesStep (d : Nat) (r : Renderer) (value : List Char) :
    framesStep d d r (r.ProcessFillRuleValue value) := by
  unfold Renderer.ProcessFillRuleValue
  split_ifs
  · exact framesStep_of_eq d rfl rfl
  · exact framesStep_of_eq d rfl rfl
  · exact framesStep_refl d r

theorem ProcessOpacityValue_framesStep (P : Platform) (d : Nat) (r : Renderer)
    (value : List Char) : framesStep d d r (r.ProcessOpacityValue P value) := by
  unfold Renderer.ProcessOpacityValue
  dsimp only
  apply framesStep_ite
  · exact framesStep_trans
      (framesStep_then_call _ (by intro h; cases h) (by intro h; cases h) (framesStep_call d r _ (by intro h; cases h) (by intro h; cases h)))
      (framesStep_updateBack d _ _ fun _ => rfl)
  · exact framesStep_refl d r

theorem ProcessDashArrayValue_framesStep (P : Platform) (d : Nat) (r : Renderer)
    (value : List Char) : framesStep d d r (r.ProcessDashArrayValue P value) := by
  unfold Renderer.ProcessDashArrayValue
  dsimp only
  apply framesStep_ite
  · apply framesStep_ite
    · exact framesStep_graphics _ (framesStep_call d r _ (by intro h; cases h)
        (by intro h; cases h))
    · exact framesStep_graphics _ (framesStep_call d r _ (by intro h; cases h)
        (by intro h; cases h))
  · apply framesStep_ite
    · exact framesStep_graphics _ (framesStep_call d r _ (by intro h; cases h)
        (by intro h; cases h))
    · exact framesStep_refl d r

theorem ProcessDashOffsetValue_framesStep (P : Platform) (d : Nat) (r : Renderer)
    (value : List Char) : framesStep d d r (r.ProcessDashOffsetValue P value) := by
  unfold Renderer.ProcessDashOffsetValue
  dsimp only
  apply framesStep_ite
  · apply framesStep_graphics
    apply framesStep_ite
    · exact framesStep_call d r _ (by intro h; cases h) (by intro h; cases h)
    · exact framesStep_refl d r
  · exact framesStep_refl d r

theorem concatAll_framesStep (d : Nat) (transforms : List CGAffineTransform) :
    ∀ r : Renderer, framesStep d d r (r.concatAll transforms) := by
  induction transforms with
  | nil => intro r; exact framesStep_refl d r
  | cons t ts ih =>
    intro r
    exact framesStep_trans (framesStep_call d r (CGCall.ConcatCTM t) (by intro h; cases h) (by intro h; cases h)) (ih _)

theorem processAttribute_framesStep (P : Platform) (d : Nat) (r : Renderer)
    (acc : CommonAttributes) (name value : List Char) :
    framesStep d d r (r.processAttribute P acc name value).1 := by
  have hs := ProcessStyle_framesStep P d r name value
  unfold Renderer.processAttribute
  dsimp only
  generalize r.ProcessStyle P name value = st at hs ⊢
  by_cases h : st.1 = true
  · rewrite [if_pos h]
    exact framesStep_fst _ hs
  rewrite [if_neg h]
  by_cases h0 : name = "transform".data
  · rewrite [if_pos h0]
    exact framesStep_fst _ (framesStep_trans hs (concatAll_framesStep d (transformList P value) st.2))
  rewrite [if_neg h0]
  by_cases h1 : name = "display".data
  · rewrite [if_pos h1]
    exact framesStep_fst _ (framesStep_trans hs (ProcessDisplayValue_framesStep d st.2 value))
  rewrite [if_neg h1]
  by_cases h2 : name = "visibility".data
  · rewrite [if_pos h2]
    exact framesStep_fst _ (framesStep_trans hs (ProcessVisibilityValue_framesStep d st.2 value))
  rewrite [if_neg h2]
  by_cases h3 : name = "opacity".data
  · rewrite [if_pos h3]
    exact framesStep_fst _ (framesStep_trans hs (ProcessOpacityValue_framesStep P d st.2 value))
  rewrite [if_neg h3]
  by_cases h4 : name = "fill-rule".data
  · rewrite [if_pos h4]
    exact framesStep_fst _ (framesStep_trans hs (ProcessFillRuleValue_framesStep d st.2 value))
  rewrite [if_neg h4]
  by_cases h5 : name = "stroke-dasharray".data
  · rewrite [if_pos h5]
    exact framesStep_fst _ (framesStep_trans hs (ProcessDashArrayValue_framesStep P d st.2 value))
  rewrite [if_neg h5]
  by_cases h6 : name = "stroke-dashoffset".data
  · rewrite [if_pos h6]
    exact framesStep_fst _ (framesStep_trans hs (ProcessDashOffsetValue_framesStep P d st.2 value))
  rewrite [if_neg h6]
  by_cases h7 : name = "style".data
  · rewrite [if_pos h7]
    exact framesStep_fst _ hs
  rewrite [if_neg h7]
  by_cases h8 : name = "class".data
  · rewrite [if_pos h8]
    exact framesStep_fst _ hs
  rewrite [if_neg h8]
  exact framesStep_fst _ hs

theorem attributeLoop_framesStep (P : Platform) (d : Nat)
    (attributes : List (List Char × Option (List Char))) :
    ∀ (r : Renderer) (acc : CommonAttributes),
      framesStep d d r (Renderer.attributeLoop P attributes r acc).1 := by
  induction attributes with
  | nil => intro r acc; exact framesStep_refl d r
  | cons a attrs ih =>
    intro r acc
    obtain ⟨name, v⟩ := a
    cases v with
    | none =>
      rw [Renderer.attributeLoop]
      exact ih r acc
    | some value =>
      rw [Renderer.attributeLoop]
      exact framesStep_trans (processAttribute_framesStep P d r acc name value) (ih _ _)

theorem processClassData_framesStep (P : Platform) (d : Nat)
    (ds : List (List Char × List Char)) :
    ∀ r : Renderer, framesStep d d r (r.processClassData P ds) := by
  induction ds with
  | nil => intro r; exact framesStep_refl d r
  | cons x ds ih =>
    intro r
    exact framesStep_trans (ProcessStyle_framesStep P d r x.1 x.2) (ih _)

theorem processClassAttribute_framesStep (P : Platform) (d : Nat) (r : Renderer)
    (class_attr_value : List Char) :
    framesStep d d r (r.processClassAttribute P class_attr_value) := by
  unfold Renderer.processClassAttribute
  cases r.style_sheet_ with
  | none => exact framesStep_refl d r
  | some sheet =>
    dsimp only
    cases FindValueOrNull sheet.entry class_attr_value with
    | none => exact framesStep_refl d r
    | some class_data => exact processClassData_framesStep P d class_data r

theorem processInlineStyles_framesStep (P : Platform) (d : Nat)
    (ds : List (List Char × List Char)) :
    ∀ (r : Renderer) (u : StringMap),
      framesStep d d r (Renderer.processInlineStyles P ds r u).1 := by
  induction ds with
  | nil => intro r u; exact framesStep_refl d r
  | cons x ds ih =>
    intro r u
    rw [Renderer.processInlineStyles]
    exact framesStep_trans (ProcessStyle_framesStep P d r x.1 x.2) (ih _ _)

theorem ProcessCommonAttributes_framesStep (P : Platform) (d : Nat) (r : Renderer)
    (attributes : List (List Char × Option (List Char))) (attribute_error : Bool) :
    framesStep d d r (r.ProcessCommonAttributes P attributes attribute_error).2.1 := by
  have hl := attributeLoop_framesStep P d attributes r ⟨[], [], []⟩
  unfold Renderer.ProcessCommonAttributes
  dsimp only
  generalize Renderer.attributeLoop P attributes r ⟨[], [], []⟩ = l at hl ⊢
  have hc := processClassAttribute_framesStep P d l.1 l.2.class_attr_value
  split_ifs
  · exact hl
  · exact framesStep_trans hl (framesStep_trans hc (processInlineStyles_framesStep P d _ _ _))
  · exact framesStep_trans hl hc

theorem ProcessCommonAttributes_fst (P : Platform) (r : Renderer)
    (attributes : List (List Char × Option (List Char))) (attribute_error : Bool) :
    (r.ProcessCommonAttributes P attributes attribute_error).1 = !attribute_error := by
  unfold Renderer.ProcessCommonAttributes
  dsimp only
  cases attribute_error
  · rw [if_neg Bool.false_ne_true]
    split_ifs <;> rfl
  · rw [if_pos rfl]
    rfl

theorem framesStep_pending {d d' : Nat} {a b : Renderer} (g : Option Gradient)
    (h : framesStep d d' a b) : framesStep d d' a { b with pending_gradient_ := g } := h

theorem framesStep_gradients {d d' : Nat} {a b : Renderer} (gs : List (List Char × Gradient))
    (g : Option Gradient) (h : framesStep d d' a b) :
    framesStep d d' a { b with gradients_ := gs, pending_gradient_ := g } := h

theorem framesStep_sheet {d d' : Nat} {a b : Renderer} (s : Option MSCStyleSheet)
    (h : framesStep d d' a b) : framesStep d d' a { b with style_sheet_ := s } := h

theorem DrawClippedGradient_framesStep (P : Platform) (d : Nat) (r : Renderer)
    (iri : List Char) : framesStep d d r (r.DrawClippedGradient P iri) := by
  unfold Renderer.DrawClippedGradient
  dsimp only
  cases FindValueOrNull r.gradients_ (List.drop 1 iri) with
  | none => exact framesStep_refl d r
  | some gradient =>
    dsimp only
    have h1 : framesStep d d r (r.CGC_CALL CGCall.Clip) :=
      framesStep_call d r _ (by intro h; cases h) (by intro h; cases h)
    have h2 : framesStep d d r
        (if gradient.units = GradientUnits.kUnitsObjectBoundingBox then
          (r.CGC_CALL CGCall.Clip).CGC_CALL (CGCall.ConcatCTM
            (CGAffineTransformToNormalizeRect (P.CGContextGetPathBoundingBox r.context_)))
        else r.CGC_CALL CGCall.Clip) :=
      framesStep_ite _ _ _ _
        (framesStep_then_call _ (by intro h; cases h) (by intro h; cases h) h1) h1
    generalize (if gradient.units = GradientUnits.kUnitsObjectBoundingBox then
          (r.CGC_CALL CGCall.Clip).CGC_CALL (CGCall.ConcatCTM
            (CGAffineTransformToNormalizeRect (P.CGContextGetPathBoundingBox r.context_)))
        else r.CGC_CALL CGCall.Clip) = r2 at h2 ⊢
    have h3 := framesStep_trans h2 (concatAll_framesStep d gradient.transforms r2)
    cases gradient.type with
    | kTypeLinear =>
      exact framesStep_then_call _ (by intro h; cases h) (by intro h; cases h) h3
    | kTypeRadial =>
      exact framesStep_then_call _ (by intro h; cases h) (by intro h; cases h) h3

/-- The fill branch of PaintElement. -/
theorem PaintElement_fill_framesStep (P : Platform) (d : Nat) (r : Renderer)
    (define_path : List CGCall)
    (hdp : ∀ c ∈ define_path, c ≠ CGCall.SaveGState ∧ c ≠ CGCall.RestoreGState) :
    framesStep d d r
      (Renderer.CGC_CALL
        (if ((r.CGC_CALL CGCall.SaveGState).definePath define_path).graphics_.fill.iri ≠ [] then
          ((r.CGC_CALL CGCall.SaveGState).definePath define_path).DrawClippedGradient P
            ((r.CGC_CALL CGCall.SaveGState).definePath define_path).graphics_.fill.iri
        else if ((r.CGC_CALL CGCall.SaveGState).definePath define_path).graphics_.fill_rule
            = FillRule.kFillRuleEvenOdd then
          ((r.CGC_CALL CGCall.SaveGState).definePath define_path).CGC_CALL CGCall.EOFillPath
        else ((r.CGC_CALL CGCall.SaveGState).definePath define_path).CGC_CALL CGCall.FillPath)
        CGCall.RestoreGState) := by
  have ha : framesStep d (d + 1) r ((r.CGC_CALL CGCall.SaveGState).definePath define_path) :=
    framesStep_trans (framesStep_save d r) (framesStep_definePath (d + 1) _ _ hdp)
  generalize (r.CGC_CALL CGCall.SaveGState).definePath define_path = a at ha ⊢
  refine framesStep_trans (framesStep_trans ha ?_) (framesStep_restore d _)
  apply framesStep_ite
  · exact DrawClippedGradient_framesStep P (d + 1) a _
  · apply framesStep_ite
    · exact framesStep_call (d + 1) a _ (by intro h; cases h) (by intro h; cases h)
    · exact framesStep_call (d + 1) a _ (by intro h; cases h) (by intro h; cases h)

/-- The stroke branch of PaintElement. -/
theorem PaintElement_stroke_framesStep (P : Platform) (d : Nat) (r : Renderer)
    (define_path : List CGCall)
    (hdp : ∀ c ∈ define_path, c ≠ CGCall.SaveGState ∧ c ≠ CGCall.RestoreGState) :
    framesStep d d r
      (Renderer.CGC_CALL
        (if ((r.CGC_CALL CGCall.SaveGState).definePath define_path).graphics_.stroke.iri ≠ []
          then
            (((r.CGC_CALL CGCall.SaveGState).definePath define_path).CGC_CALL
              CGCall.ReplacePathWithStrokedPath).DrawClippedGradient P
              ((r.CGC_CALL CGCall.SaveGState).definePath define_path).graphics_.stroke.iri
        else ((r.CGC_CALL CGCall.SaveGState).definePath define_path).CGC_CALL CGCall.StrokePath)
        CGCall.RestoreGState) := by
  have ha : framesStep d (d + 1) r ((r.CGC_CALL CGCall.SaveGState).definePath define_path) :=
    framesStep_trans (framesStep_save d r) (framesStep_definePath (d + 1) _ _ hdp)
  generalize (r.CGC_CALL CGCall.SaveGState).definePath define_path = a at ha ⊢
  refine framesStep_trans (framesStep_trans ha ?_) (framesStep_restore d _)
  apply framesStep_ite
  · exact framesStep_trans
      (framesStep_call (d + 1) a _ (by intro h; cases h) (by intro h; cases h))
      (DrawClippedGradient_framesStep P (d + 1) _ _)
  · exact framesStep_call (d + 1) a _ (by intro h; cases h) (by intro h; cases h)

theorem PaintElement_framesStep (P : Platform) (d : Nat) (r : Renderer)
    (define_path : List CGCall) (is_fillable : Bool)
    (hdp : ∀ c ∈ define_path, c ≠ CGCall.SaveGState ∧ c ≠ CGCall.RestoreGState) :
    framesStep d d r (r.PaintElement P define_path is_fillable) := by
  unfold Renderer.PaintElement
  dsimp only
  have h1 := framesStep_ite (is_fillable = true ∧ r.graphics_.fill.should_paint = true ∧
      r.graphics_.display = true ∧ r.graphics_.visibility = true) r _ r
    (PaintElement_fill_framesStep P d r define_path hdp) (framesStep_refl d r)
  generalize (if is_fillable = true ∧ r.graphics_.fill.should_paint = true ∧
      r.graphics_.display = true ∧ r.graphics_.visibility = true then _ else r) = r1 at h1 ⊢
  exact framesStep_trans h1 (framesStep_ite _ _ _ _
    (PaintElement_stroke_framesStep P d r1 define_path hdp) (framesStep_refl d r1))

theorem ProcessPathData_plain (P : Platform) (iter : PathDataIterator) :
    ∀ c ∈ ProcessPathData P iter, c ≠ CGCall.SaveGState ∧ c ≠ CGCall.RestoreGState := by
  intro c hc
  unfold ProcessPathData at hc
  rw [List.mem_singleton] at hc
  rw [hc]
  exact ⟨(by intro h; cases h), (by intro h; cases h)⟩

theorem plain_cons (c : CGCall) (l : List CGCall) (h1 : c ≠ CGCall.SaveGState)
    (h2 : c ≠ CGCall.RestoreGState)
    (h : ∀ x ∈ l, x ≠ CGCall.SaveGState ∧ x ≠ CGCall.RestoreGState) :
    ∀ x ∈ c :: l, x ≠ CGCall.SaveGState ∧ x ≠ CGCall.RestoreGState := by
  intro x hx
  rcases List.mem_cons.mp hx with e | hm
  · rw [e]
    exact ⟨h1, h2⟩
  · exact h x hm

theorem plain_nil : ∀ x ∈ ([] : List CGCall), x ≠ CGCall.SaveGState ∧ x ≠ CGCall.RestoreGState :=
  fun _ hx => absurd hx (List.not_mem_nil _)

theorem PaintPolyElement_framesStep (P : Platform) (d : Nat) (r : Renderer)
    (attributes : StringMap) (implicit_close : Bool) (u : PathDataIterator) :
    framesStep d d r (r.PaintPolyElement P attributes implicit_close u) := by
  unfold Renderer.PaintPolyElement
  cases FindValueOrNull attributes "points".data with
  | none => exact framesStep_refl d r
  | some points =>
    exact PaintElement_framesStep P d r _ true
      (plain_cons _ _ (by intro h; cases h) (by intro h; cases h) (ProcessPathData_plain P _))

theorem ProcessCircleElement_framesStep (P : Platform) (d : Nat) (r : Renderer)
    (attributes : StringMap) : framesStep d d r (r.ProcessCircleElement P attributes) := by
  unfold Renderer.ProcessCircleElement
  dsimp only
  apply framesStep_ite
  · exact framesStep_refl d r
  · exact PaintElement_framesStep P d r _ true
      (plain_cons _ _ (by intro h; cases h) (by intro h; cases h)
        (plain_cons _ _ (by intro h; cases h) (by intro h; cases h)
          (plain_cons _ _ (by intro h; cases h) (by intro h; cases h) plain_nil)))

theorem ProcessEllipseElement_framesStep (P : Platform) (d : Nat) (r : Renderer)
    (attributes : StringMap) : framesStep d d r (r.ProcessEllipseElement P attributes) := by
  unfold Renderer.ProcessEllipseElement
  dsimp only
  apply framesStep_ite
  · exact framesStep_refl d r
  · exact PaintElement_framesStep P d r _ true
      (plain_cons _ _ (by intro h; cases h) (by intro h; cases h)
        (plain_cons _ _ (by intro h; cases h) (by intro h; cases h)
          (plain_cons _ _ (by intro h; cases h) (by intro h; cases h) plain_nil)))

theorem ProcessLineElement_framesStep (P : Platform) (d : Nat) (r : Renderer)
    (attributes : StringMap) : framesStep d d r (r.ProcessLineElement P attributes) := by
  unfold Renderer.ProcessLineElement
  dsimp only
  exact PaintElement_framesStep P d r _ true
    (plain_cons _ _ (by intro h; cases h) (by intro h; cases h)
      (plain_cons _ _ (by intro h; cases h) (by intro h; cases h)
        (plain_cons _ _ (by intro h; cases h) (by intro h; cases h) plain_nil)))

theorem ProcessPathElement_framesStep (P : Platform) (d : Nat) (r : Renderer)
    (attributes : StringMap) (u : PathDataIterator) :
    framesStep d d r (r.ProcessPathElement P attributes u) := by
  unfold Renderer.ProcessPathElement
  cases FindValueOrNull attributes "d".data with
  | none => exact framesStep_refl d r
  | some d_value => exact PaintElement_framesStep P d r _ true (ProcessPathData_plain P _)

theorem ProcessRectElement_framesStep (P : Platform) (d : Nat) (r : Renderer)
    (attributes : StringMap) : framesStep d d r (r.ProcessRectElement P attributes) := by
  unfold Renderer.ProcessRectElement
  dsimp only
  apply framesStep_ite
  · exact framesStep_refl d r
  · apply framesStep_ite
    · exact framesStep_refl d r
    · exact PaintElement_framesStep P d r _ true
        (plain_cons _ _ (by intro h; cases h) (by intro h; cases h)
          (plain_cons _ _ (by intro h; cases h) (by intro h; cases h)
            (plain_cons _ _ (by intro h; cases h) (by intro h; cases h) plain_nil)))

theorem ProcessStopElement_framesStep (P : Platform) (d : Nat) (r : Renderer)
    (attributes : StringMap) : framesStep d d r (r.ProcessStopElement P attributes) := by
  unfold Renderer.ProcessStopElement
  cases r.pending_gradient_ with
  | none => exact framesStep_refl d r
  | some pending_gradient =>
    dsimp only
    apply framesStep_ite
    · exact framesStep_refl d r
    · generalize (if (LengthValueForKey P attributes "offset".data Length.default).2.unit
          = LengthUnit.kUnitNone then _ else _ : Option CGFloat) = parsed
      cases parsed with
      | none => exact framesStep_refl d r
      | some offset0 => exact framesStep_pending _ (framesStep_refl d r)

theorem BeginStyleElement_framesStep (d : Nat) (r : Renderer) (attributes : StringMap) :
    framesStep d d r (r.BeginStyleElement attributes) := by
  unfold Renderer.BeginStyleElement
  cases FindValueOrNull attributes "type".data with
  | none => exact framesStep_refl d r
  | some style_type => exact framesStep_updateBack d r _ fun _ => rfl

theorem EndStyleElement_framesStep (d : Nat) (r : Renderer) :
    framesStep d d r r.EndStyleElement := by
  unfold Renderer.EndStyleElement
  cases r.state_stack_ with
  | nil => exact framesStep_refl d r
  | cons top below =>
    dsimp only
    apply framesStep_ite
    · cases ParseStyleSheetData top.style_text_ with
      | none => exact framesStep_refl d r
      | some sheet => exact framesStep_sheet _ (framesStep_refl d r)
    · exact framesStep_refl d r

theorem EndGradientElement_framesStep (d : Nat) (r r' : Renderer)
    (h : r.EndGradientElement = some r') : framesStep d d r r' := by
  unfold Renderer.EndGradientElement at h
  cases hp : r.pending_gradient_ with
  | none =>
    rw [hp] at h
    cases h
  | some g =>
    rw [hp] at h
    rw [← Option.some.inj h]
    exact framesStep_gradients _ _ (framesStep_refl d r)

theorem ProcessSvgElement_framesStep (P : Platform) (d : Nat) (r : Renderer)
    (attributes : StringMap) : framesStep d d r (r.ProcessSvgElement P attributes) := by
  unfold Renderer.ProcessSvgElement
  cases svgDimension P attributes "width".data with
  | none => exact framesStep_refl d r
  | some width =>
    dsimp only
    cases svgDimension P attributes "height".data with
    | none => exact framesStep_refl d r
    | some height =>
      dsimp only
      have h1 : ∀ c, c ≠ CGCall.SaveGState → c ≠ CGCall.RestoreGState →
          framesStep d d r (r.CGC_CALL c) := fun c => framesStep_call d r c
      split
      · exact h1 _ (by intro h; cases h) (by intro h; cases h)
      · exact framesStep_then_call _ (by intro h; cases h) (by intro h; cases h)
          (h1 _ (by intro h; cases h) (by intro h; cases h))

theorem callBeginHandler_framesStep (P : Platform) (u : PathDataIterator) (d : Nat)
    (r : Renderer) (handler : BeginElementHandler) (attributes : StringMap) :
    framesStep d d r (r.callBeginHandler P u handler attributes) := by
  cases handler
  · exact ProcessCircleElement_framesStep P d r attributes
  · exact ProcessEllipseElement_framesStep P d r attributes
  · exact framesStep_refl d r
  · exact ProcessLineElement_framesStep P d r attributes
  · exact framesStep_pending _ (framesStep_refl d r)
  · exact ProcessPathElement_framesStep P d r attributes u
  · exact PaintPolyElement_framesStep P d r attributes true u
  · exact PaintPolyElement_framesStep P d r attributes false u
  · exact framesStep_pending _ (framesStep_refl d r)
  · exact ProcessRectElement_framesStep P d r attributes
  · exact ProcessStopElement_framesStep P d r attributes
  · exact BeginStyleElement_framesStep d r attributes
  · exact ProcessSvgElement_framesStep P d r attributes

theorem callEndHandler_framesStep (d : Nat) (r r' : Renderer) (handler : EndElementHandler)
    (h : r.callEndHandler handler = some r') : framesStep d d r r' := by
  cases handler
  · exact EndGradientElement_framesStep d r r' h
  · exact EndGradientElement_framesStep d r r' h
  · have h' : some r.EndStyleElement = some r' := h
    rw [← Option.some.inj h']
    exact EndStyleElement_framesStep d r

/-- The end handler of an element fails exactly when it is one of the two
handlers of a gradient and `pending_gradient_` is null. -/
theorem callEndHandler_eq_none_iff (r : Renderer) (handler : EndElementHandler) :
    r.callEndHandler handler = none ↔
      (handler = EndElementHandler.EndLinearGradientElement ∨
        handler = EndElementHandler.EndRadialGradientElement) ∧ r.pending_gradient_ = none := by
  cases handler <;> unfold Renderer.callEndHandler <;> dsimp only
  · unfold Renderer.EndGradientElement
    cases r.pending_gradient_ <;> simp
  · unfold Renderer.EndGradientElement
    cases r.pending_gradient_ <;> simp
  · simp

/-- The end of the loop body for a node that closes an element: the frame on
top gives back its graphics state and the context gets one RestoreGState. -/
theorem closeFrame_scope (d : Nat) (c : Renderer) (top : State) (below : List State)
    (hs : c.state_stack_ = top :: below) :
    (top.graphics :: below.map fun st => st.graphics) = c.stackGraphics ∧
    ∃ es : List CGCall,
      (Renderer.CGC_CALL (if top.defines_transparency_layer = true then
          c.CGC_CALL CGCall.EndTransparencyLayer else c) CGCall.RestoreGState).context_
        = c.context_ ++ es ∧ gstateFromTo (d + 1) d es := by
  constructor
  · unfold Renderer.stackGraphics
    rw [hs]
    rfl
  · have h : framesStep (d + 1) d c
        (Renderer.CGC_CALL (if top.defines_transparency_layer = true then
          c.CGC_CALL CGCall.EndTransparencyLayer else c) CGCall.RestoreGState) := by
      refine framesStep_trans ?_ (framesStep_restore d _)
      apply framesStep_ite
      · exact framesStep_call (d + 1) c _ (by intro h; cases h) (by intro h; cases h)
      · exact framesStep_refl (d + 1) c
    exact h.2

theorem updateBack_graphics_ (r : Renderer) (f : State → State) :
    (r.updateBack f).graphics_ = r.graphics_ := by
  unfold Renderer.updateBack
  cases r.state_stack_ <;> rfl

theorem stackGraphics_length (r : Renderer) : r.stackGraphics.length = r.state_stack_.length := by
  unfold Renderer.stackGraphics
  exact List.length_map _ _

theorem framesStep_length {d d' : Nat} {a b : Renderer} (h : framesStep d d' a b) :
    b.state_stack_.length = a.state_stack_.length := by
  rw [← stackGraphics_length, ← stackGraphics_length, h.1]

/-- The first statement of the loop body: a node of type ELEMENT pushes a frame
with the current graphics state and saves the graphics state of the context;
it fails only on an attribute error of the reader. -/
theorem processElementNode_scope (P : Platform) (u : PathDataIterator) (r : Renderer)
    (node : XmlNode) (d : Nat) :
    ((node.node_type = XmlNodeType.XML_READER_TYPE_ELEMENT → node.attribute_error = false) →
      (r.processElementNode P u node).1 = true) ∧
    (r.processElementNode P u node).2.stackGraphics
      = (if node.node_type = XmlNodeType.XML_READER_TYPE_ELEMENT then
          r.graphics_ :: r.stackGraphics else r.stackGraphics) ∧
    (∃ es : List CGCall, (r.processElementNode P u node).2.context_ = r.context_ ++ es ∧
      gstateFromTo d (if node.node_type = XmlNodeType.XML_READER_TYPE_ELEMENT then d + 1 else d)
        es) ∧
    (node.node_type ≠ XmlNodeType.XML_READER_TYPE_ELEMENT →
      r.processElementNode P u node = (true, r)) := by
  unfold Renderer.processElementNode
  lift_lets
  extract_lets ed frame r1 r2 cm
  by_cases hE : node.node_type = XmlNodeType.XML_READER_TYPE_ELEMENT
  · simp only [if_pos hE]
    have hcm : framesStep (d + 1) (d + 1) r2 cm.2.1 :=
      ProcessCommonAttributes_framesStep P (d + 1) r2 node.attributes node.attribute_error
    have hr2 : framesStep d (d + 1) r1 r2 := framesStep_save d r1
    have h12 : framesStep d (d + 1) r1 cm.2.1 := framesStep_trans hr2 hcm
    have hcm1 : cm.1 = !node.attribute_error :=
      ProcessCommonAttributes_fst P r2 node.attributes node.attribute_error
    by_cases hc : cm.1 = false
    · simp only [if_pos hc]
      refine ⟨fun ha => ?_, h12.1, h12.2, fun h => absurd hE h⟩
      rw [hcm1, ha hE] at hc
      cases hc
    · simp only [if_neg hc]
      cases ed.begin_handler with
      | none => exact ⟨fun _ => rfl, h12.1, h12.2, fun h => absurd hE h⟩
      | some handler =>
        have h13 := framesStep_trans h12 (callBeginHandler_framesStep P u (d + 1) cm.2.1 handler
          cm.2.2.1)
        exact ⟨fun _ => rfl, h13.1, h13.2, fun h => absurd hE h⟩
  · rw [if_neg hE, if_neg hE, if_neg hE]
    exact ⟨fun _ => rfl, rfl, ⟨[], (List.append_nil _).symm, gstateFromTo_nil d⟩, fun _ => rfl⟩

/-- The second statement of the loop body, when it returns: the end handler
leaves the frames and the saved graphics states. -/
theorem processEndElementNode_scope (r : Renderer) (node : XmlNode) (b : Renderer)
    (h : r.processEndElementNode node = some b) :
    (∀ k : Nat, framesStep k k r b) ∧
    (node.node_type ≠ XmlNodeType.XML_READER_TYPE_END_ELEMENT → b = r) := by
  unfold Renderer.processEndElementNode at h
  by_cases hE : node.node_type = XmlNodeType.XML_READER_TYPE_END_ELEMENT
  · rw [if_pos hE] at h
    refine ⟨fun k => ?_, fun hn => absurd hE hn⟩
    cases hs : r.state_stack_ with
    | nil =>
      rw [hs] at h
      cases h
    | cons st below =>
      rw [hs] at h
      dsimp only at h
      cases hh : st.element_definition.end_handler with
      | none =>
        rw [hh] at h
        rw [← Option.some.inj h]
        exact framesStep_refl k r
      | some handler =>
        rw [hh] at h
        exact callEndHandler_framesStep k r b handler h
  · rw [if_neg hE] at h
    rw [← Option.some.inj h]
    exact ⟨fun k => framesStep_refl k r, fun _ => rfl⟩

/-- The second statement of the loop body has undefined behaviour, on a stack
that is not empty, exactly when the node is an end tag, the frame on top is
that of a gradient element, and `pending_gradient_` is null. -/
theorem processEndElementNode_eq_none_iff (r : Renderer) (node : XmlNode) (st : State)
    (below : List State) (hs : r.state_stack_ = st :: below) :
    r.processEndElementNode node = none ↔
      node.node_type = XmlNodeType.XML_READER_TYPE_END_ELEMENT ∧
      (st.element_definition.end_handler = some EndElementHandler.EndLinearGradientElement ∨
        st.element_definition.end_handler = some EndElementHandler.EndRadialGradientElement) ∧
      r.pending_gradient_ = none := by
  unfold Renderer.processEndElementNode
  by_cases hE : node.node_type = XmlNodeType.XML_READER_TYPE_END_ELEMENT
  · rw [if_pos hE, hs]
    dsimp only
    cases hh : st.element_definition.end_handler with
    | none => simp
    | some handler =>
      dsimp only
      rw [callEndHandler_eq_none_iff]
      simp [hE]
  · rw [if_neg hE]
    simp [hE]

/-- The third statement of the loop body, when it returns: the text of a style
element goes to the frame on top, whose graphics state stays. -/
theorem processTextNode_scope (r : Renderer) (node : XmlNode) (c : Renderer)
    (h : r.processTextNode node = some c) :
    (∀ k : Nat, framesStep k k r c) ∧ c.graphics_ = r.graphics_ := by
  unfold Renderer.processTextNode at h
  by_cases hT : node.node_type = XmlNodeType.XML_READER_TYPE_TEXT
  · rw [if_pos hT] at h
    cases hs : r.state_stack_ with
    | nil =>
      rw [hs] at h
      cases h
    | cons st below =>
      rw [hs] at h
      dsimp only at h
      by_cases hn : st.element_definition.name = "style".data
      · rw [if_pos hn] at h
        rw [← Option.some.inj h]
        exact ⟨fun k => framesStep_updateBack k r _ fun _ => rfl, updateBack_graphics_ r _⟩
      · rw [if_neg hn] at h
        rw [← Option.some.inj h]
        exact ⟨fun k => framesStep_refl k r, rfl⟩
  · rw [if_neg hT] at h
    rw [← Option.some.inj h]
    exact ⟨fun k => framesStep_refl k r, rfl⟩

theorem processTextNode_ne_none (r : Renderer) (node : XmlNode) (hs : r.state_stack_ ≠ []) :
    r.processTextNode node ≠ none := by
  unfold Renderer.processTextNode
  obtain ⟨st, below, hst⟩ := List.exists_cons_of_ne_nil hs
  rw [hst]
  dsimp only
  split_ifs <;> simp

theorem closeElementNode_ne_none (r : Renderer) (node : XmlNode) (hs : r.state_stack_ ≠ []) :
    r.closeElementNode node ≠ none := by
  unfold Renderer.closeElementNode
  obtain ⟨st, below, hst⟩ := List.exists_cons_of_ne_nil hs
  rw [hst]
  dsimp only
  split_ifs <;> simp

theorem ne_nil_of_length_eq {a b : List State} (h : b.length = a.length) (ha : a ≠ []) :
    b ≠ [] := by
  intro hb
  rw [hb] at h
  exact ha (List.length_eq_zero.1 h.symm)

/-- The third and the fourth statement of the loop body return on a stack
that is not empty. -/
theorem afterEndHandler_ne_none (b : Renderer) (node : XmlNode) (hs : b.state_stack_ ≠ []) :
    ((b.processTextNode node).bind fun c =>
      (c.closeElementNode node).map fun e => (true, e)) ≠ none := by
  cases hc : b.processTextNode node with
  | none => exact absurd hc (processTextNode_ne_none b node hs)
  | some c =>
    have hcl := framesStep_length ((processTextNode_scope b node c hc).1 0)
    have hcs : c.state_stack_ ≠ [] := ne_nil_of_length_eq hcl hs
    rw [Option.some_bind]
    cases he : c.closeElementNode node with
    | none => exact absurd he (closeElementNode_ne_none c node hcs)
    | some e => simp

/-- The body of the event loop for one node has undefined behaviour, on a stack
that is not empty, exactly when the node is an end tag, the frame on top is
that of a gradient element, and `pending_gradient_` is null. -/
theorem processNode_eq_none_iff (P : Platform) (u : PathDataIterator) (r : Renderer)
    (node : XmlNode) (st : State) (below : List State) (hs : r.state_stack_ = st :: below) :
    r.processNode P u node = none ↔
      node.node_type = XmlNodeType.XML_READER_TYPE_END_ELEMENT ∧
      (st.element_definition.end_handler = some EndElementHandler.EndLinearGradientElement ∨
        st.element_definition.end_handler = some EndElementHandler.EndRadialGradientElement) ∧
      r.pending_gradient_ = none := by
  have hroot : r.state_stack_ ≠ [] := by
    rw [hs]
    exact List.cons_ne_nil _ _
  unfold Renderer.processNode
  dsimp only
  obtain ⟨_, haS, _, haR⟩ := processElementNode_scope P u r node 0
  generalize r.processElementNode P u node = a at haS haR ⊢
  by_cases ha1 : a.1 = false
  · rw [if_pos ha1]
    constructor
    · intro h
      cases h
    · intro h
      have ha := haR (by rw [h.1]; intro h'; cases h')
      rw [ha] at ha1
      cases ha1
  rw [if_neg ha1]
  by_cases hEnd : node.node_type = XmlNodeType.XML_READER_TYPE_END_ELEMENT
  · have ha := haR (by rw [hEnd]; intro h'; cases h')
    rw [ha]
    dsimp only
    rw [← processEndElementNode_eq_none_iff r node st below hs]
    cases hb : r.processEndElementNode node with
    | none => simp
    | some b =>
      rw [Option.some_bind]
      have hbl := framesStep_length ((processEndElementNode_scope r node b hb).1 0)
      have := afterEndHandler_ne_none b node (ne_nil_of_length_eq hbl hroot)
      simp [this]
  · have hb : a.2.processEndElementNode node = some a.2 := by
      unfold Renderer.processEndElementNode
      rw [if_neg hEnd]
    rw [hb, Option.some_bind]
    have has : a.2.state_stack_ ≠ [] := by
      intro h0
      have hl := stackGraphics_length a.2
      rw [haS, h0] at hl
      have hr := stackGraphics_length r
      split_ifs at hl
      · simp at hl
      · rw [hr, hs] at hl
        simp at hl
    have := afterEndHandler_ne_none a.2 node has
    simp [this, hEnd]

/-- The body of the event loop for one node, when it returns: the node succeeds
when the reader reports no error in the attributes of an element; the graphics
states below the open elements stay, and the calls on the context follow the
depth. -/
theorem processNode_scope (P : Platform) (u : PathDataIterator) (r : Renderer) (node : XmlNode)
    (d d' : Nat)
    (hattr : node.node_type = XmlNodeType.XML_READER_TYPE_ELEMENT → node.attribute_error = false)
    (hd : node.depthAfter d = some d')
    (res : Bool × Renderer) (hres : r.processNode P u node = some res) :
    res.1 = true ∧
    (res.2.graphics_ :: res.2.stackGraphics).drop d' = (r.graphics_ :: r.stackGraphics).drop d ∧
    res.2.state_stack_.length + d = r.state_stack_.length + d' ∧
    ∃ es : List CGCall, res.2.context_ = r.context_ ++ es ∧ gstateFromTo d d' es := by
  unfold XmlNode.depthAfter at hd
  dsimp only at hd
  unfold Renderer.processNode at hres
  dsimp only at hres
  obtain ⟨ha1, haS, ⟨esa, haC, haG⟩, haR0⟩ := processElementNode_scope P u r node d
  have ha1 := ha1 hattr
  generalize r.processElementNode P u node = a at hres ha1 haS haC haR0
  have haR : node.node_type ≠ XmlNodeType.XML_READER_TYPE_ELEMENT → a.2 = r := by
    intro h
    rw [haR0 h]
  rw [if_neg (by rw [ha1]; intro h; cases h)] at hres
  cases hb : a.2.processEndElementNode node with
  | none =>
    rw [hb, Option.none_bind] at hres
    cases hres
  | some b =>
  rw [hb, Option.some_bind] at hres
  cases hc : b.processTextNode node with
  | none =>
    rw [hc, Option.none_bind] at hres
    cases hres
  | some c =>
  rw [hc, Option.some_bind] at hres
  cases he : c.closeElementNode node with
  | none =>
    rw [he] at hres
    cases hres
  | some e =>
  rw [he] at hres
  have hre : res = (true, e) := (Option.some.inj hres).symm
  obtain ⟨hB, hBR⟩ := processEndElementNode_scope a.2 node b hb
  obtain ⟨hCf, hCg⟩ := processTextNode_scope b node c hc
  have hac := fun k => framesStep_trans (hB k) (hCf k)
  generalize hk : (if node.node_type = XmlNodeType.XML_READER_TYPE_ELEMENT then d + 1 else d) = k
    at hd haG
  have hcS : c.stackGraphics = a.2.stackGraphics := (hac k).1
  obtain ⟨esc, hcC, hcG⟩ := (hac k).2
  have hctx : c.context_ = r.context_ ++ (esa ++ esc) := by
    rw [hcC, haC, List.append_assoc]
  have hG : gstateFromTo d k (esa ++ esc) := gstateFromTo_append haG hcG
  have hlen : c.state_stack_.length = a.2.stackGraphics.length := by
    rw [← stackGraphics_length, hcS]
  have hrl := stackGraphics_length r
  unfold Renderer.closeElementNode at he
  by_cases hcl : node.node_type = XmlNodeType.XML_READER_TYPE_END_ELEMENT ∨
      node.isEmptyElement = true
  · rw [if_pos hcl] at he hd
    by_cases hk0 : k = 0
    · rw [if_pos hk0] at hd
      cases hd
    rw [if_neg hk0] at hd
    obtain ⟨j, hj⟩ := Nat.exists_eq_succ_of_ne_zero hk0
    have hd' : d' = j := by
      have := Option.some.inj hd
      omega
    cases hcs : c.state_stack_ with
    | nil =>
      rw [hcs] at he
      cases he
    | cons top below =>
      rw [hcs] at he
      dsimp only at he
      have hee := Option.some.inj he
      obtain ⟨hg, es2, hc2, hg2⟩ := closeFrame_scope j c top below hcs
      rw [hcs, List.length_cons, haS] at hlen
      rw [hcS, haS] at hg
      rw [hj] at hG
      rw [hre, ← hee, hd']
      refine ⟨rfl, ?_, ?_, (esa ++ esc) ++ es2, ?_, ?_⟩
      · show List.drop j (top.graphics :: below.map fun st => st.graphics) = _
        rw [hg]
        by_cases hE : node.node_type = XmlNodeType.XML_READER_TYPE_ELEMENT
        · rw [if_pos hE] at hk ⊢
          have : j = d := by omega
          rw [this]
        · rw [if_neg hE] at hk ⊢
          have : d = j + 1 := by omega
          rw [this, List.drop_succ_cons]
      · show below.length + d = r.state_stack_.length + j
        by_cases hE : node.node_type = XmlNodeType.XML_READER_TYPE_ELEMENT
        · rw [if_pos hE] at hk hlen
          rw [List.length_cons, hrl] at hlen
          omega
        · rw [if_neg hE] at hk hlen
          rw [hrl] at hlen
          omega
      · exact hc2.trans (by rw [hctx, List.append_assoc])
      · exact gstateFromTo_append hG hg2
  · rw [if_neg hcl] at he hd
    have hec : e = c := (Option.some.inj he).symm
    have hd' : d' = k := (Option.some.inj hd).symm
    rw [hre, hec, hd']
    refine ⟨rfl, ?_, ?_, esa ++ esc, hctx, hG⟩
    · show List.drop k (c.graphics_ :: c.stackGraphics) = _
      rw [hcS, haS]
      by_cases hE : node.node_type = XmlNodeType.XML_READER_TYPE_ELEMENT
      · rw [if_pos hE] at hk ⊢
        rw [← hk, List.drop_succ_cons]
      · rw [if_neg hE] at hk ⊢
        have hb' : b = a.2 := hBR fun h => hcl (Or.inl h)
        rw [hCg, hb', haR hE, hk]
    · show c.state_stack_.length + d = r.state_stack_.length + k
      rw [hlen, haS]
      by_cases hE : node.node_type = XmlNodeType.XML_READER_TYPE_ELEMENT
      · rw [if_pos hE] at hk ⊢
        rw [List.length_cons, hrl]
        omega
      · rw [if_neg hE] at hk ⊢
        rw [hrl]
        omega

theorem nesting_cons (d : Nat) (node : XmlNode) (nodes : List XmlNode) :
    nesting d (node :: nodes) = (node.depthAfter d).bind fun d1 => nesting d1 nodes := by
  rw [nesting]
  cases node.depthAfter d <;> rfl

theorem nesting_append : ∀ (a b : List XmlNode) (d : Nat),
    nesting d (a ++ b) = (nesting d a).bind fun d1 => nesting d1 b := by
  intro a
  induction a with
  | nil => intro b d; rfl
  | cons node a ih =>
    intro b d
    rw [List.cons_append, nesting_cons, nesting_cons]
    cases node.depthAfter d with
    | none => rfl
    | some d1 => exact ih b d1

theorem nesting_left (a b : List XmlNode) (d d' : Nat) (h : nesting d (a ++ b) = some d') :
    ∃ d1 : Nat, nesting d a = some d1 ∧ nesting d1 b = some d' := by
  rw [nesting_append] at h
  cases ha : nesting d a with
  | none =>
    rw [ha] at h
    cases h
  | some d1 =>
    rw [ha] at h
    exact ⟨d1, rfl, h⟩

theorem processNodes_cons (P : Platform) (u : PathDataIterator) (node : XmlNode)
    (nodes : List XmlNode) (r : Renderer) :
    Renderer.processNodes P u (node :: nodes) r
      = (r.processNode P u node).bind fun n =>
          if n.1 = false then some (false, n.2) else Renderer.processNodes P u nodes n.2 := by
  rw [Renderer.processNodes]
  cases r.processNode P u node <;> rfl

theorem processNodes_cons_true (P : Platform) (u : PathDataIterator) (node : XmlNode)
    (nodes : List XmlNode) (r r1 : Renderer) (h : r.processNode P u node = some (true, r1)) :
    Renderer.processNodes P u (node :: nodes) r = Renderer.processNodes P u nodes r1 := by
  rw [processNodes_cons, h, Option.some_bind]
  exact if_neg (by intro h'; cases h')

theorem pair_of_fst_true (res : Bool × Renderer) (h : res.1 = true) : res = (true, res.2) := by
  cases res with
  | mk b rf =>
    dsimp only at h
    rw [h]

/-- The event loop over a list of nodes that takes the depth of open elements
from `d` to `d'`, when it returns. -/
theorem processNodes_scope (P : Platform) (u : PathDataIterator) :
    ∀ (nodes : List XmlNode) (r : Renderer) (d d' : Nat),
    (∀ node ∈ nodes, node.node_type = XmlNodeType.XML_READER_TYPE_ELEMENT →
      node.attribute_error = false) →
    nesting d nodes = some d' →
    ∀ res : Bool × Renderer, Renderer.processNodes P u nodes r = some res →
    res.1 = true ∧
    (res.2.graphics_ :: res.2.stackGraphics).drop d' = (r.graphics_ :: r.stackGraphics).drop d ∧
    res.2.state_stack_.length + d = r.state_stack_.length + d' ∧
    ∃ es : List CGCall, res.2.context_ = r.context_ ++ es ∧ gstateFromTo d d' es := by
  intro nodes
  induction nodes with
  | nil =>
    intro r d d' _ hn res hres
    have hd : d' = d := (Option.some.inj hn).symm
    have hr : res = (true, r) := by
      rw [Renderer.processNodes] at hres
      exact (Option.some.inj hres).symm
    rw [hd, hr]
    exact ⟨rfl, rfl, rfl, [], (List.append_nil _).symm, gstateFromTo_nil d⟩
  | cons node nodes ih =>
    intro r d d' hattr hn res hres
    rw [nesting_cons] at hn
    cases h1 : node.depthAfter d with
    | none =>
      rw [h1] at hn
      cases hn
    | some d1 =>
      rw [h1] at hn
      cases hp : r.processNode P u node with
      | none =>
        rw [processNodes_cons, hp, Option.none_bind] at hres
        cases hres
      | some n =>
        obtain ⟨s1, s2, s3, es1, s4, s5⟩ := processNode_scope P u r node d d1
          (hattr node (List.mem_cons_self _ _)) h1 n hp
        rw [pair_of_fst_true n s1] at hp
        rw [processNodes_cons_true P u node nodes r n.2 hp] at hres
        obtain ⟨t1, t2, t3, es2, t4, t5⟩ := ih n.2 d1 d'
          (fun m hm => hattr m (List.mem_cons_of_mem _ hm)) hn res hres
        refine ⟨t1, t2.trans s2, by omega, es1 ++ es2, ?_, gstateFromTo_append s5 t5⟩
        rw [t4, s4, List.append_assoc]

theorem processNodes_append (P : Platform) (u : PathDataIterator) :
    ∀ (a b : List XmlNode) (r ra : Renderer), Renderer.processNodes P u a r = some (true, ra) →
    Renderer.processNodes P u (a ++ b) r = Renderer.processNodes P u b ra := by
  intro a
  induction a with
  | nil =>
    intro b r ra h
    rw [Renderer.processNodes] at h
    have := Option.some.inj h
    rw [List.nil_append, (Prod.mk.inj this).2]
  | cons node a ih =>
    intro b r ra h
    rw [List.cons_append, processNodes_cons]
    rw [processNodes_cons] at h
    cases hp : r.processNode P u node with
    | none =>
      rw [hp, Option.none_bind] at h
      cases h
    | some n =>
      rw [hp] at h
      rw [Option.some_bind] at h ⊢
      by_cases hn : n.1 = false
      · rw [if_pos hn] at h
        have := (Prod.mk.inj (Option.some.inj h)).1
        cases this
      · rw [if_neg hn] at h ⊢
        exact ih b n.2 ra h

theorem processNodes_left (P : Platform) (u : PathDataIterator) :
    ∀ (a b : List XmlNode) (r : Renderer), Renderer.processNodes P u a r = none →
    Renderer.processNodes P u (a ++ b) r = none := by
  intro a
  induction a with
  | nil =>
    intro b r h
    rw [Renderer.processNodes] at h
    cases h
  | cons node a ih =>
    intro b r h
    rw [List.cons_append, processNodes_cons]
    rw [processNodes_cons] at h
    cases hp : r.processNode P u node with
    | none => rfl
    | some n =>
      rw [hp] at h
      rw [Option.some_bind] at h ⊢
      by_cases hn : n.1 = false
      · rw [if_pos hn] at h
        cases h
      · rw [if_neg hn] at h ⊢
        exact ih b n.2 h

/-- The event loop has undefined behaviour only at a node at which the body of
the loop has: the nodes in front of it are processed with success. -/
theorem processNodes_none (P : Platform) (u : PathDataIterator) :
    ∀ (nodes : List XmlNode) (r : Renderer) (d d' : Nat),
    (∀ node ∈ nodes, node.node_type = XmlNodeType.XML_READER_TYPE_ELEMENT →
      node.attribute_error = false) →
    nesting d nodes = some d' → d < r.state_stack_.length →
    Renderer.processNodes P u nodes r = none →
    ∃ (pre : List XmlNode) (node : XmlNode) (post : List XmlNode) (rp : Renderer),
      nodes = pre ++ node :: post ∧ Renderer.processNodes P u pre r = some (true, rp) ∧
      rp.state_stack_ ≠ [] ∧ rp.processNode P u node = none := by
  intro nodes
  induction nodes with
  | nil =>
    intro r d d' _ _ _ h
    rw [Renderer.processNodes] at h
    cases h
  | cons node nodes ih =>
    intro r d d' hattr hn hstack h
    rw [nesting_cons] at hn
    cases h1 : node.depthAfter d with
    | none =>
      rw [h1] at hn
      cases hn
    | some d1 =>
      rw [h1] at hn
      cases hp : r.processNode P u node with
      | none =>
        refine ⟨[], node, nodes, r, rfl, rfl, ?_, hp⟩
        intro h0
        rw [h0] at hstack
        exact Nat.not_lt_zero _ hstack
      | some n =>
        obtain ⟨s1, _, s3, _⟩ := processNode_scope P u r node d d1
          (hattr node (List.mem_cons_self _ _)) h1 n hp
        rw [pair_of_fst_true n s1] at hp
        rw [processNodes_cons_true P u node nodes r n.2 hp] at h
        obtain ⟨pre, nd, post, rp, e1, e2, e3, e4⟩ := ih n.2 d1 d'
          (fun m hm => hattr m (List.mem_cons_of_mem _ hm)) hn (by omega) h
        refine ⟨node :: pre, nd, post, rp, ?_, ?_, e3, e4⟩
        · rw [e1, List.cons_append]
        · rw [processNodes_cons_true P u node pre r n.2 hp]
          exact e2

theorem depthAfter_shift (node : XmlNode) (d d' m : Nat) (h : node.depthAfter d = some d') :
    node.depthAfter (d + m) = some (d' + m) := by
  unfold XmlNode.depthAfter at h ⊢
  dsimp only at h ⊢
  split_ifs at h ⊢ <;>
    first
    | (cases h; done)
    | omega
    | (simp only [Option.some.injEq] at h ⊢; omega)

theorem nesting_shift : ∀ (nodes : List XmlNode) (d d' m : Nat), nesting d nodes = some d' →
    nesting (d + m) nodes = some (d' + m) := by
  intro nodes
  induction nodes with
  | nil =>
    intro d d' m h
    have := Option.some.inj h
    rw [nesting, this]
  | cons node nodes ih =>
    intro d d' m h
    rw [nesting_cons] at h ⊢
    cases h1 : node.depthAfter d with
    | none =>
      rw [h1] at h
      cases h
    | some d1 =>
      rw [h1] at h
      rw [depthAfter_shift node d d1 m h1]
      exact ih d1 d' m h

theorem nesting_empty_element (e : XmlNode)
    (h1 : e.node_type = XmlNodeType.XML_READER_TYPE_ELEMENT) (h2 : e.isEmptyElement = true) :
    nesting 0 [e] = some 0 := by
  rw [nesting_cons]
  unfold XmlNode.depthAfter
  dsimp only
  rw [if_pos h1, if_pos (Or.inr h2)]
  rfl

theorem nesting_element (start : XmlNode) (inner : List XmlNode) (close : XmlNode)
    (h1 : start.node_type = XmlNodeType.XML_READER_TYPE_ELEMENT)
    (h2 : start.isEmptyElement = false) (hin : nesting 0 inner = some 0)
    (h3 : close.node_type = XmlNodeType.XML_READER_TYPE_END_ELEMENT) :
    nesting 0 (start :: inner ++ [close]) = some 0 := by
  have hs : start.depthAfter 0 = some 1 := by
    simp [XmlNode.depthAfter, h1, h2]
  have hc : close.depthAfter 1 = some 0 := by
    simp [XmlNode.depthAfter, h3]
  rw [List.cons_append, nesting_cons, hs]
  show nesting 1 (inner ++ [close]) = some 0
  rw [nesting_append, nesting_shift inner 0 0 1 hin]
  show nesting 1 [close] = some 0
  rw [nesting_cons, hc]
  rfl

theorem gstateFromTo_balanced (es : List CGCall) (h : gstateFromTo 0 0 es) :
    (∀ k : Nat, restoreCount (es.take k) ≤ saveCount (es.take k)) ∧
    restoreCount es = saveCount es := by
  constructor
  · intro k
    have := h.1 k
    omega
  · have := h.2
    omega

/-- CreateCGImageFromMSCDocument on a fresh renderer and a well nested
document: a result that is not NULL comes with the stack back at the root
frame, the graphics state of the start and balanced calls. -/
theorem CreateCGImageFromMSCDocument_scope (P : Platform) (u : PathDataIterator)
    (doc : MSCDocument) (w h : CGFloat) (sheet : Option MSCStyleSheet) (calls : List CGCall)
    (r' : Renderer) (hnest : nesting 0 doc.nodes = some 0)
    (hattr : ∀ node ∈ doc.nodes, node.node_type = XmlNodeType.XML_READER_TYPE_ELEMENT →
      node.attribute_error = false)
    (hres : Renderer.CreateCGImageFromMSCDocument P u Renderer.init (some doc) w h sheet
      = some (some calls, r')) :
    r'.state_stack_.length = 1 ∧ r'.graphics_ = GraphicsState.init ∧ gstateFromTo 0 0 calls := by
  unfold Renderer.CreateCGImageFromMSCDocument at hres
  lift_lets at hres
  extract_lets r0 r1 r2 r3 at hres
  dsimp only at hres
  have h3 : r3.state_stack_ = Renderer.init.state_stack_ ∧ r3.graphics_ = GraphicsState.init ∧
      gstateFromTo 0 0 r3.context_ := by
    unfold r3 r2 r1
    cases sheet with
    | none =>
      refine ⟨rfl, rfl, gstateFromTo_plain 0 _ ?_⟩
      exact plain_cons _ _ (by intro h; cases h) (by intro h; cases h)
        (plain_cons _ _ (by intro h; cases h) (by intro h; cases h)
          (plain_cons _ _ (by intro h; cases h) (by intro h; cases h)
            (plain_cons _ _ (by intro h; cases h) (by intro h; cases h) plain_nil)))
    | some sh =>
      refine ⟨rfl, rfl, gstateFromTo_plain 0 _ ?_⟩
      exact plain_cons _ _ (by intro h; cases h) (by intro h; cases h)
        (plain_cons _ _ (by intro h; cases h) (by intro h; cases h)
          (plain_cons _ _ (by intro h; cases h) (by intro h; cases h)
            (plain_cons _ _ (by intro h; cases h) (by intro h; cases h) plain_nil)))
  have hl := processNodes_scope P u doc.nodes r3 0 0 hattr hnest
  clear_value r3
  by_cases hc : r0.canvas_size_width < 1 ∨ r0.canvas_size_height < 1
  · rw [if_pos hc] at hres
    have := (Prod.mk.inj (Option.some.inj hres)).1
    cases this
  rw [if_neg hc] at hres
  cases hp : Renderer.processNodes P u doc.nodes r3 with
  | none =>
    rw [hp] at hres
    cases hres
  | some l =>
    rw [hp] at hres
    dsimp only at hres
    obtain ⟨l1, l2, l3, es, l4, l5⟩ := hl l hp
    rw [if_neg (by rw [l1]; intro h; cases h)] at hres
    by_cases hre : doc.read_error = true
    · rw [if_pos hre] at hres
      have := (Prod.mk.inj (Option.some.inj hres)).1
      cases this
    rw [if_neg hre] at hres
    have hres' := Option.some.inj hres
    have e1 : calls = l.2.context_ := by
      have := congrArg Prod.fst hres'
      exact (Option.some.inj this).symm
    have e2 : r' = l.2 := (congrArg Prod.snd hres').symm
    rw [e1, e2]
    refine ⟨?_, ?_, ?_⟩
    · have : l.2.state_stack_.length = r3.state_stack_.length := by omega
      rw [this, h3.1]
      rfl
    · have := List.cons.inj l2
      rw [this.1, h3.2.1]
    · rw [l4]
      exact gstateFromTo_append h3.2.2 l5

/-- C40: the scopes of the graphics state in the event loop, for a well nested
list of nodes whose element nodes are read without an attribute error, on a
renderer whose stack holds a frame.  The loop either has undefined behaviour
or runs to the end with success; it has undefined behaviour exactly when it
reaches, after nodes processed with success, an end tag while the frame on top
is that of a linearGradient or radialGradient element and `pending_gradient_`
is null (the end handlers read `pending_gradient_->id` without a test).  As far
as the loop runs: behind every well nested block of the list (an empty
element, or an element from its start node to its end node, both of which are
well nested blocks) `graphics_` and the graphics states in the stack are what
they were in front of the block; the state stack never gets shorter than it
was at the start; and when the loop runs to the end the stack has its first
length, `graphics_` is that of the start, and the calls the loop makes on the
context have in every prefix at least as many SaveGState as RestoreGState and
as many in all.  On a fresh renderer a result of CreateCGImageFromMSCDocument
that is not NULL leaves a stack of depth 1, the graphics state of the start
and balanced calls. -/
theorem graphics_state_is_scoped (P : Platform) (u : PathDataIterator) (r : Renderer)
    (nodes : List XmlNode) (hnest : nesting 0 nodes = some 0)
    (hattr : ∀ node ∈ nodes, node.node_type = XmlNodeType.XML_READER_TYPE_ELEMENT →
      node.attribute_error = false)
    (hroot : r.state_stack_ ≠ []) :
    (Renderer.processNodes P u nodes r = none ∨
      ∃ rf : Renderer, Renderer.processNodes P u nodes r = some (true, rf)) ∧
    (Renderer.processNodes P u nodes r = none ↔
      ∃ (pre : List XmlNode) (node : XmlNode) (post : List XmlNode) (rp : Renderer)
        (st : State) (below : List State),
        nodes = pre ++ node :: post ∧ Renderer.processNodes P u pre r = some (true, rp) ∧
        node.node_type = XmlNodeType.XML_READER_TYPE_END_ELEMENT ∧
        rp.state_stack_ = st :: below ∧
        (st.element_definition.end_handler = some EndElementHandler.EndLinearGradientElement ∨
          st.element_definition.end_handler
            = some EndElementHandler.EndRadialGradientElement) ∧
        rp.pending_gradient_ = none) ∧
    (∀ (pre block post : List XmlNode) (rb : Bool × Renderer), nodes = pre ++ block ++ post →
      nesting 0 block = some 0 → Renderer.processNodes P u (pre ++ block) r = some rb →
      rb.1 = true ∧ ∃ rp : Renderer, Renderer.processNodes P u pre r = some (true, rp) ∧
        rb.2.graphics_ = rp.graphics_ ∧ rb.2.stackGraphics = rp.stackGraphics) ∧
    (∀ e : XmlNode, e.node_type = XmlNodeType.XML_READER_TYPE_ELEMENT →
      e.isEmptyElement = true → nesting 0 [e] = some 0) ∧
    (∀ (start : XmlNode) (inner : List XmlNode) (close : XmlNode),
      start.node_type = XmlNodeType.XML_READER_TYPE_ELEMENT → start.isEmptyElement = false →
      nesting 0 inner = some 0 → close.node_type = XmlNodeType.XML_READER_TYPE_END_ELEMENT →
      nesting 0 (start :: inner ++ [close]) = some 0) ∧
    (∀ (k : Nat) (rk : Bool × Renderer),
      Renderer.processNodes P u (nodes.take k) r = some rk →
      rk.1 = true ∧ r.state_stack_.length ≤ rk.2.state_stack_.length) ∧
    (∀ rf : Renderer, Renderer.processNodes P u nodes r = some (true, rf) →
      (∀ k : Nat, ∃ rk : Renderer,
        Renderer.processNodes P u (nodes.take k) r = some (true, rk)) ∧
      rf.state_stack_.length = r.state_stack_.length ∧
      rf.graphics_ = r.graphics_ ∧
      ∃ es : List CGCall, rf.context_ = r.context_ ++ es ∧
        (∀ k : Nat, restoreCount (es.take k) ≤ saveCount (es.take k)) ∧
        restoreCount es = saveCount es) ∧
    (∀ (read_error : Bool) (w h : CGFloat) (sheet : Option MSCStyleSheet) (calls : List CGCall)
      (r' : Renderer),
      Renderer.CreateCGImageFromMSCDocument P u Renderer.init (some ⟨nodes, read_error⟩) w h sheet
        = some (some calls, r') →
      r'.state_stack_.length = 1 ∧ r'.graphics_ = GraphicsState.init ∧
      (∀ k : Nat, restoreCount (calls.take k) ≤ saveCount (calls.take k)) ∧
      restoreCount calls = saveCount calls) := by
  have hlen : 0 < r.state_stack_.length := List.length_pos.2 hroot
  have hprefix : ∀ (a b : List XmlNode) (x : Bool × Renderer), nodes = a ++ b →
      Renderer.processNodes P u a r = some x → ∃ da : Nat, nesting 0 a = some da ∧
        x = (true, x.2) ∧ x.2.state_stack_.length = r.state_stack_.length + da ∧
        (∀ m ∈ a, m.node_type = XmlNodeType.XML_READER_TYPE_ELEMENT →
          m.attribute_error = false) := by
    intro a b x hsplit hx
    rw [hsplit] at hnest hattr
    obtain ⟨da, hda, _⟩ := nesting_left a b 0 0 hnest
    have ha : ∀ m ∈ a, m.node_type = XmlNodeType.XML_READER_TYPE_ELEMENT →
        m.attribute_error = false := fun m hm => hattr m (List.mem_append_left _ hm)
    obtain ⟨p1, _, p3, _⟩ := processNodes_scope P u a r 0 da ha hda x hx
    exact ⟨da, hda, pair_of_fst_true x p1, by omega, ha⟩
  refine ⟨?_, ⟨?_, ?_⟩, ?_, nesting_empty_element, nesting_element, ?_, ?_, ?_⟩
  · cases hp : Renderer.processNodes P u nodes r with
    | none => exact Or.inl rfl
    | some res =>
      obtain ⟨s1, _⟩ := processNodes_scope P u nodes r 0 0 hattr hnest res hp
      exact Or.inr ⟨res.2, congrArg some (pair_of_fst_true res s1)⟩
  · intro h
    obtain ⟨pre, node, post, rp, e1, e2, e3, e4⟩ :=
      processNodes_none P u nodes r 0 0 hattr hnest hlen h
    obtain ⟨st, below, hst⟩ := List.exists_cons_of_ne_nil e3
    obtain ⟨n1, n2, n3⟩ := (processNode_eq_none_iff P u rp node st below hst).1 e4
    exact ⟨pre, node, post, rp, st, below, e1, e2, n1, hst, n2, n3⟩
  · rintro ⟨pre, node, post, rp, st, below, e1, e2, n1, hst, n2, n3⟩
    have e4 := (processNode_eq_none_iff P u rp node st below hst).2 ⟨n1, n2, n3⟩
    rw [e1, processNodes_append P u pre (node :: post) r rp e2, processNodes_cons, e4]
    rfl
  · intro pre block post rb hsplit hblock hrb
    rw [List.append_assoc] at hsplit
    cases hpre : Renderer.processNodes P u pre r with
    | none =>
      rw [processNodes_left P u pre block r hpre] at hrb
      cases hrb
    | some x =>
      obtain ⟨da, _, hx, _, _⟩ := hprefix pre (block ++ post) x hsplit hpre
      rw [hx] at hpre
      rw [processNodes_append P u pre block r x.2 hpre] at hrb
      have hb := processNodes_scope P u block x.2 0 0
        (fun n hn => hattr n (by
          rw [hsplit]
          exact List.mem_append_right _ (List.mem_append_left _ hn))) hblock
        rb hrb
      exact ⟨hb.1, x.2, congrArg some hx, (List.cons.inj hb.2.1).1, (List.cons.inj hb.2.1).2⟩
  · intro k rk hrk
    obtain ⟨dk, _, hx, hl, _⟩ :=
      hprefix (nodes.take k) (nodes.drop k) rk (List.take_append_drop k nodes).symm hrk
    refine ⟨?_, by omega⟩
    rw [hx]
  · intro rf hrf
    obtain ⟨_, s2, s3, es, s4, s5⟩ :=
      processNodes_scope P u nodes r 0 0 hattr hnest (true, rf) hrf
    have s3' : rf.state_stack_.length = r.state_stack_.length := by
      have : rf.state_stack_.length + 0 = r.state_stack_.length + 0 := s3
      omega
    refine ⟨fun k => ?_, s3', (List.cons.inj s2).1, es, s4, gstateFromTo_balanced es s5⟩
    cases hk : Renderer.processNodes P u (nodes.take k) r with
    | none =>
      have := processNodes_left P u (nodes.take k) (nodes.drop k) r hk
      rw [List.take_append_drop, hrf] at this
      cases this
    | some x =>
      obtain ⟨_, _, hx, _, _⟩ :=
        hprefix (nodes.take k) (nodes.drop k) x (List.take_append_drop k nodes).symm hk
      exact ⟨x.2, congrArg some hx⟩
  · intro read_error w h sheet calls r' hres
    obtain ⟨c1, c2, c3⟩ := CreateCGImageFromMSCDocument_scope P u ⟨nodes, read_error⟩ w h sheet
      calls r' hnest hattr hres
    exact ⟨c1, c2, gstateFromTo_balanced calls c3⟩

/-- C40, the code at the failing input: the nodes of
`<linearGradient id="a"><linearGradient id="b"></linearGradient></linearGradient>`
are well nested.  The start tag of the inner element replaces the pending
gradient, its end tag stores it under "b" and leaves `pending_gradient_` null;
the end tag of the outer element then reads `pending_gradient_->id`, so the
loop and CreateCGImageFromMSCDocument have no defined result. -/
theorem nested_gradient_reads_null_pending_gradient :
    nesting 0 [XmlNode.element "linearGradient" [("id", "a")] false,
        XmlNode.element "linearGradient" [("id", "b")] false,
        XmlNode.endElement "linearGradient",
        XmlNode.endElement "linearGradient"] = some 0 ∧
    (Renderer.processNodes Platform.exact PathDataIterator.zero
      [XmlNode.element "linearGradient" [("id", "a")] false,
        XmlNode.element "linearGradient" [("id", "b")] false,
        XmlNode.endElement "linearGradient"] Renderer.init).map
        (fun x => (x.1, x.2.pending_gradient_.isNone, x.2.state_stack_.length,
          x.2.gradients_.map Prod.fst))
      = some (true, true, 2, ["b".data]) ∧
    Renderer.processNodes Platform.exact PathDataIterator.zero
      [XmlNode.element "linearGradient" [("id", "a")] false,
        XmlNode.element "linearGradient" [("id", "b")] false,
        XmlNode.endElement "linearGradient",
        XmlNode.endElement "linearGradient"] Renderer.init = none ∧
    Renderer.CreateCGImageFromMSCDocument Platform.exact PathDataIterator.zero Renderer.init
      (some ⟨[XmlNode.element "linearGradient" [("id", "a")] false,
        XmlNode.element "linearGradient" [("id", "b")] false,
        XmlNode.endElement "linearGradient",
        XmlNode.endElement "linearGradient"], false⟩) 10 10 none = none := by
  refine ⟨by decide, ?_, ?_, ?_⟩ <;> decide!

/-- C40 on `<g fill="#f00"><rect width="1" height="1"/></g>`: the start node of
g changes the fill colour, and behind the end node the graphics state and the
stack are those of the start; the three SaveGState of the two elements and of
the fill are restored.  On the nested gradients the loop stops at an end tag
with a gradient frame on top and a null `pending_gradient_`. -/
theorem graphics_state_is_scoped_witness :
    nesting 0 [XmlNode.element "g" [("fill", "#f00")] false,
        XmlNode.element "rect" [("width", "1"), ("height", "1")] true,
        XmlNode.endElement "g"] = some 0 ∧
    (Renderer.processNodes Platform.exact PathDataIterator.zero
      [XmlNode.element "g" [("fill", "#f00")] false] Renderer.init).map
        (fun x => x.2.graphics_.fill.color)
      = some (RgbColor.make 1 0 0) ∧
    (∃ rf : Renderer, Renderer.processNodes Platform.exact PathDataIterator.zero
      [XmlNode.element "g" [("fill", "#f00")] false,
        XmlNode.element "rect" [("width", "1"), ("height", "1")] true,
        XmlNode.endElement "g"] Renderer.init = some (true, rf) ∧
      rf.state_stack_.length = Renderer.init.state_stack_.length ∧
      rf.graphics_ = Renderer.init.graphics_ ∧
      ∃ es : List CGCall, rf.context_ = Renderer.init.context_ ++ es ∧
        (∀ k : Nat, restoreCount (es.take k) ≤ saveCount (es.take k)) ∧
        restoreCount es = saveCount es) ∧
    (Renderer.processNodes Platform.exact PathDataIterator.zero
      [XmlNode.element "g" [("fill", "#f00")] false,
        XmlNode.element "rect" [("width", "1"), ("height", "1")] true,
        XmlNode.endElement "g"] Renderer.init).map (fun x => x.2.context_)
      = some [CGCall.SaveGState, CGCall.SetRGBFillColor 1 0 0 1,
          CGCall.SaveGState,
          CGCall.SaveGState, CGCall.BeginPath,
          CGCall.AddPath [CGPathCall.AddRoundedRect ⟨0, 0, 1, 1⟩ 0 0], CGCall.ClosePath,
          CGCall.FillPath, CGCall.RestoreGState,
          CGCall.RestoreGState,
          CGCall.RestoreGState] ∧
    (∃ (pre : List XmlNode) (node : XmlNode) (post : List XmlNode) (rp : Renderer)
        (st : State) (below : List State),
      [XmlNode.element "linearGradient" [("id", "a")] false,
        XmlNode.element "linearGradient" [("id", "b")] false,
        XmlNode.endElement "linearGradient",
        XmlNode.endElement "linearGradient"] = pre ++ node :: post ∧
      Renderer.processNodes Platform.exact PathDataIterator.zero pre Renderer.init
        = some (true, rp) ∧
      node.node_type = XmlNodeType.XML_READER_TYPE_END_ELEMENT ∧
      rp.state_stack_ = st :: below ∧
      (st.element_definition.end_handler = some EndElementHandler.EndLinearGradientElement ∨
        st.element_definition.end_handler
          = some EndElementHandler.EndRadialGradientElement) ∧
      rp.pending_gradient_ = none) :=
  ⟨by decide, by decide!,
   Or.elim (graphics_state_is_scoped Platform.exact PathDataIterator.zero Renderer.init
      [XmlNode.element "g" [("fill", "#f00")] false,
        XmlNode.element "rect" [("width", "1"), ("height", "1")] true,
        XmlNode.endElement "g"] (by decide) (by decide) (by decide)).1
     (fun h => absurd h (by decide!))
     (fun h => Exists.elim h fun rf hrf => ⟨rf, hrf,
       ((graphics_state_is_scoped Platform.exact PathDataIterator.zero Renderer.init
          [XmlNode.element "g" [("fill", "#f00")] false,
        XmlNode.element "rect" [("width", "1"), ("height", "1")] true,
        XmlNode.endElement "g"] (by decide) (by decide) (by decide)).2.2.2.2.2.2.1 rf hrf).2⟩),
   by decide!,
   (graphics_state_is_scoped Platform.exact PathDataIterator.zero Renderer.init
      [XmlNode.element "linearGradient" [("id", "a")] false,
        XmlNode.element "linearGradient" [("id", "b")] false,
        XmlNode.endElement "linearGradient",
        XmlNode.endElement "linearGradient"] (by decide) (by decide) (by decide)).2.1.1 (by decide!)⟩

end MetroSVG
